import Mathlib

/-!
# A verification development for the V8 parser front end (deps/v8/src/parser.cc)

The file embeds the parts of `parser.cc` that the checked properties talk
about and proves those properties of the embedded definitions.

Conventions of the embedding
* C++ `int` is a Lean `Int` that is wrapped to 32 bits after every arithmetic
  step that can leave the range (`wrapInt32`); C++ `unsigned` is a `Nat`
  below `2 ^ 32`.
* A function that writes through `this` takes the object as an argument and
  returns the new object next to its result.
* A function that reports failure through `bool* ok` returns `none` for the
  result and keeps the state (messages included) as the second component.
* Recursion between grammar productions runs on an explicit recursion budget.
-/

set_option autoImplicit false

/-! ## Machine integers -/

/-- The value of `static_cast<int>(w)` for a 32-bit word `w`. -/
def toInt32 (w : Nat) : Int :=
  if w % 2 ^ 32 < 2 ^ 31 then ((w % 2 ^ 32 : Nat) : Int)
  else ((w % 2 ^ 32 : Nat) : Int) - 2 ^ 32

/-- The result of an `int` computation whose exact value is `i`, after
wrap-around to 32 bits. -/
def wrapInt32 (i : Int) : Int :=
  toInt32 (i % 2 ^ 32).toNat

/-! ## Preparse data (`ScriptDataImpl`, parser.cc lines 375-490 and 4976-5017) -/

namespace PreparseDataConstants

/-- Modelled from the spec: the constants of `preparse-data.h`, which is not
among the sources.  The spec fixes the order "magic number, format version,
table sizes" of the header; the numeric values are those of the header file
of this V8 version. -/
def kMagicNumber : Nat := 0xBadDead

/-- Modelled from the spec: format version constant of `preparse-data.h`. -/
def kCurrentVersion : Nat := 6

/-- Modelled from the spec: header word holding the magic number. -/
def kMagicOffset : Nat := 0

/-- Modelled from the spec: header word holding the format version. -/
def kVersionOffset : Nat := 1

/-- Modelled from the spec: header word telling whether an error record is
embedded. -/
def kHasErrorOffset : Nat := 2

/-- Modelled from the spec: header word holding the size of the function
table, in words. -/
def kFunctionsSizeOffset : Nat := 3

/-- Modelled from the spec: header word holding the symbol count. -/
def kSymbolCountOffset : Nat := 4

/-- Modelled from the spec: header word holding the total size. -/
def kSizeOffset : Nat := 5

/-- Modelled from the spec: number of header words. -/
def kHeaderSize : Nat := 6

/-- Modelled from the spec: position (after the header) of the start offset
of an embedded error record. -/
def kMessageStartPos : Int := 0

/-- Modelled from the spec: position of the end offset of the error record. -/
def kMessageEndPos : Int := 1

/-- Modelled from the spec: position of the argument count of the error
record. -/
def kMessageArgCountPos : Int := 2

/-- Modelled from the spec: position of the length-prefixed message text. -/
def kMessageTextPos : Int := 3

/-- Modelled from the spec: the reserved sentinel byte of the symbol table. -/
def kNumberTerminator : Nat := 0x80

end PreparseDataConstants

/-- A `FunctionEntry` is a view of `kSize` consecutive words of the store; the
default-constructed entry has an empty backing vector. -/
structure FunctionEntry where
  backing_ : List Nat
  deriving DecidableEq, Repr

namespace FunctionEntry

/-- Modelled from the spec: `FunctionEntry::kSize` of `parser.h` (not among
the sources); an entry is "start offset, end offset, literal count, property
count", four words. -/
def kSize : Nat := 4

/-- The default-constructed (invalid) entry `FunctionEntry()`. -/
def invalid : FunctionEntry := ⟨[]⟩

/-- Modelled from the spec: `is_valid()` of `parser.h`, true when the backing
vector is not empty. -/
def is_valid (e : FunctionEntry) : Bool := decide (0 < e.backing_.length)

/-- Modelled from the spec: `start_pos()`, the first word of the entry. -/
def start_pos (e : FunctionEntry) : Int := toInt32 (e.backing_.getD 0 0)

/-- Modelled from the spec: `end_pos()`, the second word of the entry. -/
def end_pos (e : FunctionEntry) : Int := toInt32 (e.backing_.getD 1 0)

/-- Modelled from the spec: `literal_count()`, the third word of the entry. -/
def literal_count (e : FunctionEntry) : Int := toInt32 (e.backing_.getD 2 0)

/-- Modelled from the spec: `property_count()`, the fourth word of the
entry. -/
def property_count (e : FunctionEntry) : Int := toInt32 (e.backing_.getD 3 0)

end FunctionEntry

/-- The fields of `ScriptDataImpl` that the embedded member functions use:
the word store, the read index into the function table, and the bytes from
`symbol_data_` up to `symbol_data_end_` (the part of the symbol table that has
not been read yet). -/
structure ScriptDataImpl where
  store_ : List Nat
  function_index_ : Nat
  symbol_data_ : List Nat := []
  deriving DecidableEq, Repr

namespace ScriptDataImpl

/-- The value of `store_.length()`, an `int`. -/
def length (d : ScriptDataImpl) : Int := (d.store_.length : Int)

/-- The word `store_[i]`.  Every read of the embedded functions is guarded by
a length test; a read outside the store yields `none`. -/
def word (d : ScriptDataImpl) (i : Int) : Option Nat :=
  if 0 ≤ i then d.store_.get? i.toNat else none

/-- Modelled from the spec: `magic()` of `parser.h`, the header word at
`kMagicOffset`. -/
def magic (d : ScriptDataImpl) : Nat :=
  d.store_.getD PreparseDataConstants.kMagicOffset 0

/-- Modelled from the spec: `version()` of `parser.h`. -/
def version (d : ScriptDataImpl) : Nat :=
  d.store_.getD PreparseDataConstants.kVersionOffset 0

/-- Modelled from the spec: `has_error()` of `parser.h`, the header word at
`kHasErrorOffset` read as a `bool`. -/
def has_error (d : ScriptDataImpl) : Bool :=
  d.store_.getD PreparseDataConstants.kHasErrorOffset 0 != 0

/-- The function `ScriptDataImpl::Read`: the word at `kHeaderSize + position`. -/
def Read (d : ScriptDataImpl) (position : Int) : Option Nat :=
  d.word (wrapInt32 ((PreparseDataConstants.kHeaderSize : Int) + position))

/-- The function `ScriptDataImpl::GetFunctionEntry` (lines 375-386). -/
def GetFunctionEntry (d : ScriptDataImpl) (start : Int) :
    FunctionEntry × ScriptDataImpl :=
  if wrapInt32 ((d.function_index_ : Int) + (FunctionEntry.kSize : Int)) ≤ d.length
      ∧ (d.store_.get? d.function_index_).map toInt32 = some start then
    let index := d.function_index_
    (⟨(d.store_.drop index).take FunctionEntry.kSize⟩,
     { d with function_index_ := d.function_index_ + FunctionEntry.kSize })
  else
    (FunctionEntry.invalid, d)

/-- The loop of `SanityCheck` over the message text and the argument strings
(lines 412-419): `i` is the `unsigned` loop counter, `pos` the `int` position.
The result is `none` when a read leaves the store, otherwise the position
after the last string, or `some none` when the loop returned false. -/
def SanityCheck_loop (d : ScriptDataImpl) (arg_count : Nat) :
    Nat → Nat → Int → Option (Option Int)
  | 0, _, _ => none
  | fuel + 1, i, pos =>
    if i ≤ arg_count then
      if d.length ≤ wrapInt32 ((PreparseDataConstants.kHeaderSize : Int) + pos) then
        some none
      else
        match d.Read pos with
        | none => none
        | some w =>
          let length := toInt32 w
          if length < 0 then some none
          else SanityCheck_loop d arg_count fuel ((i + 1) % 2 ^ 32)
                 (wrapInt32 (pos + wrapInt32 (1 + length)))
    else some pos

/-- The function `ScriptDataImpl::SanityCheck` (lines 394-439).  The result is
`none` only when the check itself reads outside the store. -/
def SanityCheck (d : ScriptDataImpl) : Option Bool :=
  if d.length < (PreparseDataConstants.kHeaderSize : Int) then some false
  else if d.magic ≠ PreparseDataConstants.kMagicNumber then some false
  else if d.version ≠ PreparseDataConstants.kCurrentVersion then some false
  else if d.has_error then
    if d.length ≤ wrapInt32 ((PreparseDataConstants.kHeaderSize : Int)
                    + PreparseDataConstants.kMessageTextPos) then some false
    else
      match d.Read PreparseDataConstants.kMessageStartPos,
            d.Read PreparseDataConstants.kMessageEndPos,
            d.Read PreparseDataConstants.kMessageArgCountPos with
      | some s, some e, some arg_count =>
        if s > e then some false
        else
          match SanityCheck_loop d arg_count (d.store_.length + 1) 0
                  PreparseDataConstants.kMessageTextPos with
          | none => none
          | some none => some false
          | some (some pos) =>
            if d.length < wrapInt32 ((PreparseDataConstants.kHeaderSize : Int) + pos)
            then some false else some true
      | _, _, _ => none
  else
    let functions_size : Int :=
      toInt32 (d.store_.getD PreparseDataConstants.kFunctionsSizeOffset 0)
    if functions_size < 0 then some false
    else if functions_size % (FunctionEntry.kSize : Int) ≠ 0 then some false
    else
      let symbol_count : Int :=
        toInt32 (d.store_.getD PreparseDataConstants.kSymbolCountOffset 0)
      if symbol_count < 0 then some false
      else
        let minimum_size : Int :=
          wrapInt32 ((PreparseDataConstants.kHeaderSize : Int) + functions_size)
        if d.length < minimum_size then some false
        else some true

/-- The loop of `ReadNumber` (lines 5009-5014): `input` is the byte read last
and `data` the bytes that follow it.  The result is `none` when the data ends
before a byte with a clear high bit. -/
def ReadNumber_loop : Int → Nat → List Nat → Option (Int × List Nat)
  | result, input, data =>
    if input / 128 % 2 ≠ 0 then
      match data with
      | [] => none
      | b :: rest => ReadNumber_loop (wrapInt32 (result * 128 + ((b % 128 : Nat) : Int))) b rest
    else some (result, data)

/-- The function `ScriptDataImpl::ReadNumber` (lines 4993-5017) on the unread
bytes of the symbol table: the number read and the bytes left, where the
result `-1` leaves the source pointer where it was. -/
def ReadNumber (data : List Nat) : Int × List Nat :=
  match data with
  | [] => (-1, data)
  | input :: rest =>
    if input = PreparseDataConstants.kNumberTerminator then (-1, data)
    else
      match ReadNumber_loop ((input % 128 : Nat) : Int) input rest with
      | none => (-1, data)
      | some (result, rest2) => (result, rest2)

/-- The function `ScriptDataImpl::GetSymbolIdentifier` (lines 389-391). -/
def GetSymbolIdentifier (d : ScriptDataImpl) : Int × ScriptDataImpl :=
  ((ReadNumber d.symbol_data_).1, { d with symbol_data_ := (ReadNumber d.symbol_data_).2 })

/-- The function `ScriptDataImpl::Initialize` (lines 4976-4990), restricted to
the read index of the function table. -/
def Initialize (d : ScriptDataImpl) : ScriptDataImpl :=
  if d.length ≥ (PreparseDataConstants.kHeaderSize : Int) then
    { d with function_index_ := PreparseDataConstants.kHeaderSize }
  else d

/-- The function `ScriptDataImpl::ReadAddress` (lines 488-490): the index of
the word of the store that the returned pointer points to. -/
def ReadAddress (position : Int) : Int :=
  wrapInt32 ((PreparseDataConstants.kHeaderSize : Int) + position)

/-- The loop of `ReadString` (lines 446-448) with `count` characters still to
copy and `i` the loop counter: the characters `start[i + 1]`, or `none` when
one of them lies outside the store. -/
def ReadString_loop (d : ScriptDataImpl) (start : Int) : Nat → Int → Option (List Nat)
  | 0, _ => some []
  | count + 1, i =>
    match d.word (start + i + 1) with
    | none => none
    | some w =>
      match ReadString_loop d start count (i + 1) with
      | none => none
      | some chars => some (w % 256 :: chars)

/-- The function `ScriptDataImpl::ReadString` (lines 443-452) on the pointer to
the word with index `start`: the characters copied and the length left in
`*chars`, or `none` when a word outside the store is read. -/
def ReadString (d : ScriptDataImpl) (start : Int) : Option (List Nat × Int) :=
  match d.word start with
  | none => none
  | some w =>
    match ReadString_loop d start (toInt32 w).toNat 0 with
    | none => none
    | some chars => some (chars, toInt32 w)

/-- The function `ScriptDataImpl::MessageLocation` (lines 454-458): the two
`int` positions, or `none` when a word outside the store is read. -/
def MessageLocation (d : ScriptDataImpl) : Option (Int × Int) :=
  match d.Read PreparseDataConstants.kMessageStartPos,
        d.Read PreparseDataConstants.kMessageEndPos with
  | some beg_pos, some end_pos => some (toInt32 beg_pos, toInt32 end_pos)
  | _, _ => none

/-- The function `ScriptDataImpl::BuildMessage` (lines 461-464). -/
def BuildMessage (d : ScriptDataImpl) : Option (List Nat) :=
  (d.ReadString (ReadAddress PreparseDataConstants.kMessageTextPos)).map (fun r => r.1)

/-- The loop of `BuildArgs` (lines 474-478) with `count` arguments still to
read and `pos` the `int` position. -/
def BuildArgs_loop (d : ScriptDataImpl) : Nat → Int → Option (List (List Nat))
  | 0, _ => some []
  | count + 1, pos =>
    match d.ReadString (ReadAddress pos) with
    | none => none
    | some (chars, length) =>
      match BuildArgs_loop d count (wrapInt32 (pos + wrapInt32 (length + 1))) with
      | none => none
      | some args => some (chars :: args)

/-- The function `ScriptDataImpl::BuildArgs` (lines 467-480): the argument
strings, or `none` when a word outside the store is read. -/
def BuildArgs (d : ScriptDataImpl) : Option (List (List Nat)) :=
  match d.Read PreparseDataConstants.kMessageArgCountPos,
        d.Read PreparseDataConstants.kMessageTextPos with
  | some arg_count, some text_length =>
    BuildArgs_loop d (toInt32 arg_count).toNat
      (toInt32 ((PreparseDataConstants.kMessageTextPos.toNat + 1 + text_length) % 2 ^ 32))
  | _, _ => none

/-- A store with an error record whose message text claims `0x7FFFFFFF`
characters: header with the error flag set, positions 0 and 0, no
arguments. -/
def overlongMessageStore : ScriptDataImpl :=
  { store_ := [0xBadDead, 6, 1, 0, 0, 0, 0, 0, 0, 0x7FFFFFFF], function_index_ := 0 }

/-- A store with the error record `(start 3, end 7, text "ab", argument "c")`. -/
def messageStore : ScriptDataImpl :=
  { store_ := [0xBadDead, 6, 1, 0, 0, 0, 3, 7, 1, 2, 97, 98, 1, 99], function_index_ := 0 }

/-- No word of the store and no length of the store reaches `2 ^ 30`, so that
no sum of a position and a length leaves the range of `int`. -/
def SmallWords (d : ScriptDataImpl) : Prop :=
  d.store_.length < 2 ^ 30 ∧ ∀ w ∈ d.store_, w < 2 ^ 30

/-- The number that the bytes `b0 .. bk` stand for in base 128, most
significant digit first: the sum of `(bi & 0x7f) * 128 ^ (k - i)`. -/
def base128 : List Nat → Nat
  | [] => 0
  | b :: rest => (b % 128) * 128 ^ rest.length + base128 rest

/-- The byte is a `byte` with the high bit set. -/
def HighBit (b : Nat) : Prop := 128 ≤ b ∧ b < 256

instance (b : Nat) : Decidable (HighBit b) := by
  unfold HighBit
  infer_instance

/-- The start offset recorded in the `k`-th four-word record after the header. -/
def entryStart (d : ScriptDataImpl) (k : Nat) : Int :=
  toInt32 (d.store_.getD (PreparseDataConstants.kHeaderSize + FunctionEntry.kSize * k) 0)

/-- The start offsets of the records that lie wholly inside the store are
strictly ascending. -/
def StartsAscending (d : ScriptDataImpl) : Prop :=
  ∀ a b : Nat, a < b →
    PreparseDataConstants.kHeaderSize + FunctionEntry.kSize * b + FunctionEntry.kSize
      ≤ d.store_.length →
    d.entryStart a < d.entryStart b

/-- A whole entry remains at the read index and its recorded start is `start`. -/
def EntryAt (d : ScriptDataImpl) (start : Int) : Prop :=
  d.function_index_ + FunctionEntry.kSize ≤ d.store_.length
    ∧ toInt32 (d.store_.getD d.function_index_ 0) = start

instance (d : ScriptDataImpl) (start : Int) : Decidable (d.EntryAt start) := by
  unfold EntryAt
  infer_instance

/-- The acceptance condition that the documentation of `SanityCheck` states
for a store without error record, with the sum taken in the integers. -/
def SanityCriterion (d : ScriptDataImpl) : Prop :=
  (PreparseDataConstants.kHeaderSize : Int) ≤ d.length
  ∧ d.magic = PreparseDataConstants.kMagicNumber
  ∧ d.version = PreparseDataConstants.kCurrentVersion
  ∧ 0 ≤ toInt32 (d.store_.getD PreparseDataConstants.kFunctionsSizeOffset 0)
  ∧ toInt32 (d.store_.getD PreparseDataConstants.kFunctionsSizeOffset 0)
      % (FunctionEntry.kSize : Int) = 0
  ∧ 0 ≤ toInt32 (d.store_.getD PreparseDataConstants.kSymbolCountOffset 0)
  ∧ (PreparseDataConstants.kHeaderSize : Int)
      + toInt32 (d.store_.getD PreparseDataConstants.kFunctionsSizeOffset 0) ≤ d.length

instance (d : ScriptDataImpl) : Decidable d.SanityCriterion := by
  unfold SanityCriterion
  infer_instance

end ScriptDataImpl

/-! ## Tokens (`Token::Value`) and the token source

`token.h` and the scanner are not among the sources; the parser only uses
them through `peek`, `Next`, `location` and the literal accessors. -/

/-- Modelled from the spec: the token kinds `Token::Value` of `token.h`. -/
inductive Token
  | EOS | LPAREN | RPAREN | LBRACK | RBRACK | LBRACE | RBRACE | COLON
  | SEMICOLON | PERIOD | CONDITIONAL | INC | DEC
  | INIT_VAR | INIT_CONST | ASSIGN | ASSIGN_BIT_OR | ASSIGN_BIT_XOR
  | ASSIGN_BIT_AND | ASSIGN_SHL | ASSIGN_SAR | ASSIGN_SHR | ASSIGN_ADD
  | ASSIGN_SUB | ASSIGN_MUL | ASSIGN_DIV | ASSIGN_MOD
  | COMMA | OR | AND | BIT_OR | BIT_XOR | BIT_AND | SHL | SAR | SHR
  | ADD | SUB | MUL | DIV | MOD
  | EQ | NE | EQ_STRICT | NE_STRICT | LT | GT | LTE | GTE | INSTANCEOF | IN
  | NOT | BIT_NOT | DELETE | TYPEOF | VOID
  | BREAK | CASE | CATCH | CONTINUE | DEBUGGER | DEFAULT | DO | ELSE
  | FINALLY | FOR | FUNCTION | IF | NEW | RETURN | SWITCH | THIS | THROW
  | TRY | VAR | WHILE | WITH | CONST | NATIVE
  | NULL_LITERAL | TRUE_LITERAL | FALSE_LITERAL | NUMBER | STRING
  | IDENTIFIER | FUTURE_RESERVED_WORD | ILLEGAL | WHITESPACE
  deriving DecidableEq, Repr

namespace Token

/-- Modelled from the spec: the numeric precedence table `Token::Precedence`
of `token.h`; tokens that are not binary operators have precedence 0. -/
def Precedence : Token → Nat
  | COMMA => 1
  | INIT_VAR | INIT_CONST | ASSIGN | ASSIGN_BIT_OR | ASSIGN_BIT_XOR
  | ASSIGN_BIT_AND | ASSIGN_SHL | ASSIGN_SAR | ASSIGN_SHR | ASSIGN_ADD
  | ASSIGN_SUB | ASSIGN_MUL | ASSIGN_DIV | ASSIGN_MOD => 2
  | CONDITIONAL => 3
  | OR => 4
  | AND => 5
  | BIT_OR => 6
  | BIT_XOR => 7
  | BIT_AND => 8
  | EQ | NE | EQ_STRICT | NE_STRICT => 9
  | LT | GT | LTE | GTE | INSTANCEOF | IN => 10
  | SHL | SAR | SHR => 11
  | ADD | SUB => 12
  | MUL | DIV | MOD => 13
  | _ => 0

/-- Modelled from the spec: `Token::IsAssignmentOp`. -/
def IsAssignmentOp : Token → Bool
  | INIT_VAR | INIT_CONST | ASSIGN | ASSIGN_BIT_OR | ASSIGN_BIT_XOR
  | ASSIGN_BIT_AND | ASSIGN_SHL | ASSIGN_SAR | ASSIGN_SHR | ASSIGN_ADD
  | ASSIGN_SUB | ASSIGN_MUL | ASSIGN_DIV | ASSIGN_MOD => true
  | _ => false

/-- Modelled from the spec: `Token::IsCompareOp`. -/
def IsCompareOp : Token → Bool
  | EQ | NE | EQ_STRICT | NE_STRICT | LT | GT | LTE | GTE | INSTANCEOF | IN => true
  | _ => false

/-- Modelled from the spec: `Token::IsUnaryOp`. -/
def IsUnaryOp : Token → Bool
  | NOT | BIT_NOT | DELETE | TYPEOF | VOID | ADD | SUB => true
  | _ => false

/-- Modelled from the spec: `Token::IsCountOp`. -/
def IsCountOp : Token → Bool
  | INC | DEC => true
  | _ => false

/-- Modelled from the spec: `Token::IsKeyword`, true for the tokens that are
spelled as a reserved word. -/
def IsKeyword : Token → Bool
  | INSTANCEOF | IN | DELETE | TYPEOF | VOID
  | BREAK | CASE | CATCH | CONTINUE | DEBUGGER | DEFAULT | DO | ELSE
  | FINALLY | FOR | FUNCTION | IF | NEW | RETURN | SWITCH | THIS | THROW
  | TRY | VAR | WHILE | WITH | CONST | NATIVE
  | NULL_LITERAL | TRUE_LITERAL | FALSE_LITERAL => true
  | _ => false

/-- Modelled from the spec: `Token::String` (named `StringOf` here), the spelling of a token as used
in the argument of the `unexpected_token` message. -/
def StringOf : Token → String
  | EOS => "EOS" | LPAREN => "(" | RPAREN => ")" | LBRACK => "[" | RBRACK => "]"
  | LBRACE => "\x7b" | RBRACE => "\x7d" | COLON => ":" | SEMICOLON => ";"
  | PERIOD => "." | CONDITIONAL => "?" | INC => "++" | DEC => "--"
  | INIT_VAR => "=init_var" | INIT_CONST => "=init_const" | ASSIGN => "="
  | ASSIGN_BIT_OR => "|=" | ASSIGN_BIT_XOR => "^=" | ASSIGN_BIT_AND => "&="
  | ASSIGN_SHL => "<<=" | ASSIGN_SAR => ">>=" | ASSIGN_SHR => ">>>="
  | ASSIGN_ADD => "+=" | ASSIGN_SUB => "-=" | ASSIGN_MUL => "*="
  | ASSIGN_DIV => "/=" | ASSIGN_MOD => "%=" | COMMA => "," | OR => "||"
  | AND => "&&" | BIT_OR => "|" | BIT_XOR => "^" | BIT_AND => "&"
  | SHL => "<<" | SAR => ">>" | SHR => ">>>" | ADD => "+" | SUB => "-"
  | MUL => "*" | DIV => "/" | MOD => "%" | EQ => "==" | NE => "!="
  | EQ_STRICT => "===" | NE_STRICT => "!==" | LT => "<" | GT => ">"
  | LTE => "<=" | GTE => ">=" | INSTANCEOF => "instanceof" | IN => "in"
  | NOT => "!" | BIT_NOT => "~" | DELETE => "delete" | TYPEOF => "typeof"
  | VOID => "void" | BREAK => "break" | CASE => "case" | CATCH => "catch"
  | CONTINUE => "continue" | DEBUGGER => "debugger" | DEFAULT => "default"
  | DO => "do" | ELSE => "else" | FINALLY => "finally" | FOR => "for"
  | FUNCTION => "function" | IF => "if" | NEW => "new" | RETURN => "return"
  | SWITCH => "switch" | THIS => "this" | THROW => "throw" | TRY => "try"
  | VAR => "var" | WHILE => "while" | WITH => "with" | CONST => "const"
  | NATIVE => "native" | NULL_LITERAL => "null" | TRUE_LITERAL => "true"
  | FALSE_LITERAL => "false" | NUMBER => "NUMBER" | STRING => "STRING"
  | IDENTIFIER => "IDENTIFIER" | FUTURE_RESERVED_WORD => "FUTURE_RESERVED_WORD"
  | ILLEGAL => "ILLEGAL" | WHITESPACE => "WHITESPACE"

end Token

/-! ## Numbers

A number literal holds a C++ `double`.  The embedding tracks a double only
while it is an integer: `exact v` is the double whose value is the integer
`v`, and `untracked` stands for every other double (fractions, infinities,
NaN, and results that had to be rounded).  IEEE arithmetic returns the
correctly rounded result, and every integer of magnitude at most `2 ^ 53` is
a double, so an operation on exact operands whose true result is such an
integer returns exactly that integer; every other result is left untracked. -/

/-- The value of a number literal (see the section comment). -/
inductive JSNumber
  | exact (v : Int)
  | untracked
  deriving DecidableEq, Repr

namespace JSNumber

/-- The largest magnitude up to which every integer is a double. -/
def kMaxExact : Int := 2 ^ 53

/-- The double that results from an operation with exact result `i`. -/
def ofInt (i : Int) : JSNumber :=
  if -kMaxExact ≤ i ∧ i ≤ kMaxExact then exact i else untracked

/-- The C++ expression `x_val + y_val`. -/
def add : JSNumber → JSNumber → JSNumber
  | exact a, exact b => ofInt (a + b)
  | _, _ => untracked

/-- The C++ expression `x_val - y_val`. -/
def sub : JSNumber → JSNumber → JSNumber
  | exact a, exact b => ofInt (a - b)
  | _, _ => untracked

/-- The C++ expression `x_val * y_val`. -/
def mul : JSNumber → JSNumber → JSNumber
  | exact a, exact b => ofInt (a * b)
  | _, _ => untracked

/-- The C++ expression `x_val / y_val`; tracked when the quotient is an
integer. -/
def div : JSNumber → JSNumber → JSNumber
  | exact a, exact b => if b ≠ 0 ∧ a % b = 0 then ofInt (a / b) else untracked
  | _, _ => untracked

/-- The C++ expression `-value`. -/
def neg : JSNumber → JSNumber
  | exact a => exact (-a)
  | untracked => untracked

/-- Modelled from the spec: `DoubleToInt32` of `conversions.h`, the 32-bit
signed truncation of a double; defined here on the tracked doubles. -/
def DoubleToInt32 : JSNumber → Option Int
  | exact a => some (toInt32 (a % 2 ^ 32).toNat)
  | untracked => none

/-- Modelled from the spec: `DoubleToUint32` of `conversions.h`, the 32-bit
unsigned truncation of a double; defined here on the tracked doubles. -/
def DoubleToUint32 : JSNumber → Option Nat
  | exact a => some (a % 2 ^ 32).toNat
  | untracked => none

/-- The double made from an `int` or `uint32_t` value, which is always exact. -/
def ofInt32 : Option Int → JSNumber
  | some i => exact i
  | none => untracked

end JSNumber

/-! ## Syntax trees

`ast.h` is not among the sources.  The node types below carry the arguments
that `parser.cc` passes to the constructors.  A node that other nodes or the
target stack point to carries an `id`, which stands for its address. -/

/-- The objects `Handle<Object>` that the parser puts into literal nodes. -/
inductive Value
  | number (n : JSNumber)
  | string (s : String)
  | null_value
  | true_value
  | false_value
  | undefined_value
  | the_hole_value
  | js_array (elements : List String)
  deriving DecidableEq, Repr

namespace Variable

/-- Modelled from the spec: `Variable::Mode` ("mutable binding vs.
single-assignment binding", plus the internal modes). -/
inductive Mode
  | VAR | CONST | DYNAMIC | DYNAMIC_GLOBAL | DYNAMIC_LOCAL | INTERNAL | TEMPORARY
  deriving DecidableEq, Repr

/-- Modelled from the spec: `Variable::Kind` ("normal vs. synthesized
this/receiver"). -/
inductive Kind
  | NORMAL | THIS | ARGUMENTS
  deriving DecidableEq, Repr

end Variable

/-- Modelled from the spec: a `Variable` ("name, mode, kind, owning scope");
`id` stands for the address of the object and `scope` for the owning scope. -/
structure Variable where
  id : Nat
  scope : Nat
  name : String
  mode : Variable.Mode
  is_valid_lhs : Bool
  kind : Variable.Kind
  deriving DecidableEq, Repr

/-- A `BreakTarget` of a breakable statement: the statement (by `id`) and
whether it is the continue target of a loop. -/
structure BreakTarget where
  node : Nat
  is_continue : Bool
  deriving DecidableEq, Repr

/-- Modelled from the spec: `ObjectLiteral::Property::Kind` of `ast.h`. -/
inductive ObjectLiteral.Property.Kind
  | CONSTANT | COMPUTED | MATERIALIZED_LITERAL | GETTER | SETTER | PROTOTYPE
  deriving DecidableEq, Repr

mutual

/-- Modelled from the spec: the expression nodes of `ast.h` that `parser.cc`
builds ("a closed set of tagged variants"). -/
inductive Expression
  | Literal (handle : Value)
  | VariableProxy (id : Nat) (name : String) (is_this : Bool) (inside_with : Bool)
      (var : Option Variable)
  | Property (obj : Expression) (key : Expression) (pos : Int)
  | Call (expression : Expression) (arguments : ExpressionList) (pos : Int)
  | CallNew (expression : Expression) (arguments : ExpressionList) (pos : Int)
  | CallRuntime (name : String) (arguments : ExpressionList)
  | UnaryOperation (op : Token) (expression : Expression)
  | CountOperation (is_pre : Bool) (op : Token) (expression : Expression) (pos : Int)
  | BinaryOperation (op : Token) (left : Expression) (right : Expression) (pos : Int)
  | CompareOperation (op : Token) (left : Expression) (right : Expression) (pos : Int)
  | CompareToNull (is_strict : Bool) (expression : Expression)
  | Conditional (condition : Expression) (then_expression : Expression)
      (else_expression : Expression) (then_position : Int) (else_position : Int)
  | Assignment (op : Token) (target : Expression) (value : Expression) (pos : Int)
  | Throw (exception : Expression) (pos : Int)
  | FunctionLiteral (name : String) (scope : Nat) (body : StatementList)
      (materialized_literal_count : Int) (expected_property_count : Int)
      (num_parameters : Int) (start_position : Int) (end_position : Int)
      (is_expression : Bool) (contains_loops : Bool) (strict_mode : Bool)
      (function_token_position : Int)
  | ArrayLiteral (values : ExpressionList) (literal_index : Int) (is_simple : Bool)
      (depth : Int)
  | ObjectLiteral (properties : ObjectPropertyList) (literal_index : Int) (is_simple : Bool)
      (fast_elements : Bool) (depth : Int)
  | RegExpLiteral (pattern : String) (flags : String) (literal_index : Int)
  | ThisFunction
  | CatchExtensionObject (key : Expression) (value : Expression)

/-- A `ZoneList<Expression*>`. -/
inductive ExpressionList
  | nil
  | cons (head : Expression) (tail : ExpressionList)

/-- Modelled from the spec: an `ObjectLiteral::Property` of `ast.h`: the handle
of its key literal, its value and its kind. -/
inductive ObjectProperty
  | mk (key : Value) (value : Expression) (kind : ObjectLiteral.Property.Kind)

/-- A `ZoneList<ObjectLiteral::Property*>`. -/
inductive ObjectPropertyList
  | nil
  | cons (head : ObjectProperty) (tail : ObjectPropertyList)

/-- Modelled from the spec: the statement nodes of `ast.h` that `parser.cc`
builds.  `labels` is the address of the label list of a breakable statement
(`none` for `NULL`). -/
inductive Statement
  | Block (id : Nat) (labels : Option Nat) (is_initializer_block : Bool)
      (statements : StatementList)
  | ExpressionStatement (expression : Expression)
  | EmptyStatement
  | IfStatement (condition : Expression) (then_statement : Statement)
      (else_statement : Statement)
  | DoWhileStatement (id : Nat) (labels : Option Nat) (cond : Expression)
      (body : Statement) (condition_position : Int)
  | WhileStatement (id : Nat) (labels : Option Nat) (cond : Expression)
      (body : Statement)
  | ForStatement (id : Nat) (labels : Option Nat) (init : StatementList)
      (cond : ExpressionList) (next : StatementList) (body : Statement)
  | ForInStatement (id : Nat) (labels : Option Nat) (each : Expression)
      (enumerable : Expression) (body : Statement)
  | ContinueStatement (target : Nat)
  | BreakStatement (target : Nat)
  | ReturnStatement (expression : Expression)
  | WithEnterStatement (expression : Expression) (is_catch_block : Bool)
  | WithExitStatement
  | SwitchStatement (id : Nat) (labels : Option Nat) (tag : Expression)
      (cases : CaseClauseList)
  | TryCatchStatement (try_block : Statement) (catch_var : Expression)
      (catch_block : Statement) (escaping_targets : List BreakTarget)
  | TryFinallyStatement (try_block : Statement) (finally_block : Statement)
      (escaping_targets : List BreakTarget)
  | DebuggerStatement

/-- A `ZoneList<Statement*>`. -/
inductive StatementList
  | nil
  | cons (head : Statement) (tail : StatementList)

/-- A `CaseClause`; an empty `label` list stands for the `NULL` label of the
default clause. -/
inductive CaseClause
  | mk (label : ExpressionList) (statements : StatementList) (pos : Int)

/-- A `ZoneList<CaseClause*>`. -/
inductive CaseClauseList
  | nil
  | cons (head : CaseClause) (tail : CaseClauseList)

end

namespace ExpressionList

/-- The method `ZoneList::Add`: append at the end. -/
def Add : ExpressionList → Expression → ExpressionList
  | nil, e => cons e nil
  | cons h t, e => cons h (Add t e)

/-- The method `ZoneList::length`. -/
def length : ExpressionList → Nat
  | nil => 0
  | cons _ t => length t + 1

/-- The list of the elements, in order. -/
def toList : ExpressionList → List Expression
  | nil => []
  | cons h t => h :: toList t

end ExpressionList

namespace ObjectPropertyList

/-- The method `ZoneList::Add`: append at the end. -/
def Add : ObjectPropertyList → ObjectProperty → ObjectPropertyList
  | nil, e => cons e nil
  | cons h t, e => cons h (Add t e)

/-- The list of the elements, in order. -/
def toList : ObjectPropertyList → List ObjectProperty
  | nil => []
  | cons h t => h :: toList t

end ObjectPropertyList

namespace StatementList

/-- The method `ZoneList::Add`: append at the end. -/
def Add : StatementList → Statement → StatementList
  | nil, s => cons s nil
  | cons h t, s => cons h (Add t s)

/-- The method `ZoneList::length`. -/
def length : StatementList → Nat
  | nil => 0
  | cons _ t => length t + 1

/-- The list of the elements, in order. -/
def toList : StatementList → List Statement
  | nil => []
  | cons h t => h :: toList t

end StatementList

namespace CaseClauseList

/-- The method `ZoneList::Add`: append at the end. -/
def Add : CaseClauseList → CaseClause → CaseClauseList
  | nil, s => cons s nil
  | cons h t, s => cons h (Add t s)

end CaseClauseList

namespace Expression

/-- Modelled from the spec: `AsLiteral() != NULL`. -/
def IsLiteral : Expression → Bool
  | Literal _ => true
  | _ => false

/-- Modelled from the spec: `AsLiteral()->handle()->IsNumber()` together with
`handle()->Number()`: the number held by a number literal. -/
def AsNumberLiteral : Expression → Option JSNumber
  | Literal (Value.number n) => some n
  | _ => none

/-- Modelled from the spec: `Literal::IsNull`. -/
def IsNullLiteral : Expression → Bool
  | Literal Value.null_value => true
  | _ => false

/-- Modelled from the spec: `Expression::IsValidLeftHandSide` of `ast.h`: a
property is a valid left-hand side, a variable proxy is one unless it is bound
to a variable that is not, and no other expression is. -/
def IsValidLeftHandSide : Expression → Bool
  | Property _ _ _ => true
  | VariableProxy _ _ _ _ none => true
  | VariableProxy _ _ _ _ (some v) => v.is_valid_lhs
  | _ => false

/-- Modelled from the spec: `AsMaterializedLiteral()` with `depth()`; the
materialized literals are the array, object and regular-expression literals,
and a regular-expression literal has the depth 1. -/
def MaterializedDepth : Expression → Option Int
  | ArrayLiteral _ _ _ depth => some depth
  | ObjectLiteral _ _ _ _ depth => some depth
  | RegExpLiteral _ _ _ => some 1
  | _ => none

/-- The function `CompileTimeValue::IsCompileTimeValue` (lines 3004-3008); a
regular-expression literal is not simple. -/
def IsCompileTimeValue : Expression → Bool
  | Literal _ => true
  | ArrayLiteral _ _ is_simple _ => is_simple
  | ObjectLiteral _ _ is_simple _ _ => is_simple
  | RegExpLiteral _ _ _ => false
  | _ => false

/-- Modelled from the spec: `AsVariableProxy() != NULL`. -/
def IsVariableProxy : Expression → Bool
  | VariableProxy _ _ _ _ _ => true
  | _ => false

/-- Modelled from the spec: `FunctionLiteral::name`; the empty name for a node
that is no function literal. -/
def functionName : Expression → String
  | FunctionLiteral name _ _ _ _ _ _ _ _ _ _ _ => name
  | _ => ""

end Expression

namespace ObjectProperty

/-- The key handle of a property. -/
def key : ObjectProperty → Value
  | mk key _ _ => key

/-- The value of a property. -/
def value : ObjectProperty → Expression
  | mk _ value _ => value

/-- The kind of a property. -/
def kind : ObjectProperty → ObjectLiteral.Property.Kind
  | mk _ _ kind => kind

/-- Modelled from the spec: the constructor `Property(Literal* key,
Expression* value)` of `ast.cc`: the property named `__proto__` is of kind
`PROTOTYPE`, one whose value is a materialized literal of kind
`MATERIALIZED_LITERAL`, one whose value is a literal of kind `CONSTANT`, and
every other of kind `COMPUTED`. -/
def data (key : Value) (value : Expression) : ObjectProperty :=
  mk key value
    (if key = Value.string "__proto__" then ObjectLiteral.Property.Kind.PROTOTYPE
     else if value.MaterializedDepth.isSome then
       ObjectLiteral.Property.Kind.MATERIALIZED_LITERAL
     else if value.IsLiteral then ObjectLiteral.Property.Kind.CONSTANT
     else ObjectLiteral.Property.Kind.COMPUTED)

/-- Modelled from the spec: the constructor `Property(bool is_getter,
FunctionLiteral* value)` of `ast.cc`: the key is the name of the function. -/
def accessor (is_getter : Bool) (value : Expression) : ObjectProperty :=
  mk (Value.string value.functionName) value
    (if is_getter then ObjectLiteral.Property.Kind.GETTER
     else ObjectLiteral.Property.Kind.SETTER)

end ObjectProperty

namespace Statement

/-- Modelled from the spec: `Statement::IsEmpty`, true for the empty
statement. -/
def IsEmpty : Statement → Bool
  | EmptyStatement => true
  | _ => false

end Statement

/-! ## The token source (external collaborator)

The scanner is outside the sources.  Its model is a list of scanned tokens;
the parser reaches it only through the queries below. -/

/-- A source range `Scanner::Location`. -/
structure Location where
  beg_pos : Int
  end_pos : Int
  deriving DecidableEq, Repr

/-- A scanned token: its kind, its source range, the text of an identifier,
keyword or string literal, the value of a number literal, whether a line
terminator precedes it, and whether it is written as an octal literal.
`number_text` is the text that `DoubleToCString` gives for the value of a
number literal.  For a token `/` or `/=`, `regexp_pattern` and `regexp_flags`
are what the scanner reads when the parser has it scan a regular-expression
literal from this token on (`regexp_pattern` is `none` when that literal is
not terminated); the range of such a token is then the range of the literal,
and the tokens behind it are the tokens behind the literal. -/
structure TokenDesc where
  token : Token
  location : Location
  literal : String := ""
  number : JSNumber := JSNumber.exact 0
  newline_before : Bool := false
  octal : Bool := false
  number_text : String := ""
  regexp_pattern : Option String := none
  regexp_flags : String := ""
  deriving DecidableEq, Repr

/-- Modelled from the spec: the token source with its queries `peek`, `next`,
`location`, the literal accessors and `has-line-terminator-before-next`.
`current_` is the token returned last, `source` the tokens not yet returned
(its head is the lookahead token), `octal_pos_` the position of the octal
literal scanned last (`-1` for none). -/
structure Scanner where
  current_ : TokenDesc
  source : List TokenDesc
  octal_pos_ : Int
  deriving DecidableEq, Repr

namespace Scanner

/-- The lookahead token; past the last token it is `EOS` at the end of the
text. -/
def next_ (s : Scanner) : TokenDesc :=
  match s.source with
  | t :: _ => t
  | [] => { token := Token.EOS,
            location := ⟨s.current_.location.end_pos, s.current_.location.end_pos⟩ }

/-- The position of the octal literal scanned last, after the lookahead token
`t` has been scanned. -/
def scanned_octal (octal_pos : Int) (t : Option TokenDesc) : Int :=
  match t with
  | some d => if d.octal then d.location.beg_pos else octal_pos
  | none => octal_pos

/-- Modelled from the spec: `Scanner::Initialize`, which scans the first
token. -/
def Initialize (source : List TokenDesc) : Scanner :=
  { current_ := { token := Token.ILLEGAL, location := ⟨0, 0⟩ },
    source := source,
    octal_pos_ := scanned_octal (-1) source.head? }

/-- Modelled from the spec: `Scanner::peek`. -/
def peek (s : Scanner) : Token := s.next_.token

/-- Modelled from the spec: `Scanner::Next`, which returns the lookahead token
and scans the one after it. -/
def Next (s : Scanner) : Token × Scanner :=
  (s.next_.token,
   { current_ := s.next_,
     source := s.source.tail,
     octal_pos_ := scanned_octal s.octal_pos_ s.source.tail.head? })

/-- Modelled from the spec: `Scanner::location`, the range of the current
token. -/
def location (s : Scanner) : Location := s.current_.location

/-- Modelled from the spec: `Scanner::peek_location`. -/
def peek_location (s : Scanner) : Location := s.next_.location

/-- Modelled from the spec: `Scanner::has_line_terminator_before_next`. -/
def has_line_terminator_before_next (s : Scanner) : Bool := s.next_.newline_before

/-- Modelled from the spec: `Scanner::ScanRegExpPattern` ("a regex-specific
raw-pattern scan mode"): whether the regular-expression literal that starts
at the lookahead token is terminated.  The pattern that is read includes the
`=` of a token `/=`. -/
def ScanRegExpPattern (s : Scanner) (_seen_equal : Bool) : Bool :=
  s.next_.regexp_pattern.isSome

/-- Modelled from the spec: the literal text after `ScanRegExpPattern`, the
pattern. -/
def regexp_pattern (s : Scanner) : String := s.next_.regexp_pattern.getD ""

/-- Modelled from the spec: the literal text after `ScanRegExpFlags`, the
flags. -/
def regexp_flags (s : Scanner) : String := s.next_.regexp_flags

/-- Modelled from the spec: `Scanner::SeekForward` ("seeks the token source
directly to one position"): the tokens that start before `pos` are skipped and
the token at `pos` becomes the lookahead token, with no line terminator
before it. -/
def SeekForward (s : Scanner) (pos : Int) : Scanner :=
  if pos = s.next_.location.beg_pos then s
  else
    match s.source.dropWhile (fun t => decide (t.location.beg_pos < pos)) with
    | [] => { s with source := [] }
    | t :: rest =>
      { s with source := { t with newline_before := false } :: rest,
               octal_pos_ := scanned_octal s.octal_pos_ (some t) }

end Scanner

/-! ## Scopes (`scopes.h`, not among the sources) -/

/-- A `Declaration` node: the proxy, the mode and, for a function
declaration, the function literal. -/
structure Declaration where
  proxy : Expression
  mode : Variable.Mode
  fun_ : Option Expression

/-- Modelled from the spec: the scope kinds `Scope::Type` ("global, function,
eval"). -/
inductive ScopeType
  | EVAL_SCOPE | FUNCTION_SCOPE | GLOBAL_SCOPE
  deriving DecidableEq, Repr

/-- Modelled from the spec: a `Scope` ("kind, parent link, ordered list of
declarations, set of locally declared variables (name to Variable, unique per
scope), flag for dynamic lookups, flag for calls eval").  `id` stands for the
address of the scope, `outer_scope_` for the parent link. -/
structure Scope where
  id : Nat
  outer_scope_ : Option Nat
  type_ : ScopeType
  scope_name_ : String := ""
  variables_ : List Variable := []
  temps_ : List Variable := []
  params_ : List Variable := []
  unresolved_ : List Nat := []
  decls_ : List Declaration := []
  receiver_ : Option Variable := none
  function_ : Option Variable := none
  illegal_redecl_ : Option Expression := none
  scope_inside_with_ : Bool := false
  scope_contains_with_ : Bool := false
  scope_calls_eval_ : Bool := false
  force_eager_compilation_ : Bool := false

namespace Scope

/-- Modelled from the spec: `is_function_scope`. -/
def is_function_scope (s : Scope) : Bool := s.type_ = ScopeType.FUNCTION_SCOPE

/-- Modelled from the spec: `is_global_scope`. -/
def is_global_scope (s : Scope) : Bool := s.type_ = ScopeType.GLOBAL_SCOPE

/-- Modelled from the spec: `is_eval_scope`. -/
def is_eval_scope (s : Scope) : Bool := s.type_ = ScopeType.EVAL_SCOPE

/-- Modelled from the spec: `Scope::LocalLookup`, the variable declared under
`name` in this scope ("name to Variable, unique per scope"). -/
def LocalLookup (s : Scope) (name : String) : Option Variable :=
  s.variables_.find? (fun v => v.name == name)

/-- Modelled from the spec: `Scope::IsDeclared`. -/
def IsDeclared (s : Scope) (name : String) : Bool :=
  (s.LocalLookup name).isSome

/-- Modelled from the spec: `Scope::DeclareLocal` on a name that
`LocalLookup` does not find: a new variable of kind `NORMAL` is entered (an
existing entry is returned unchanged). -/
def DeclareLocal (s : Scope) (name : String) (mode : Variable.Mode) (fresh : Nat) :
    Variable × Scope :=
  match s.LocalLookup name with
  | some v => (v, s)
  | none =>
    let v : Variable := { id := fresh, scope := s.id, name := name, mode := mode,
                          is_valid_lhs := true, kind := Variable.Kind.NORMAL }
    (v, { s with variables_ := s.variables_ ++ [v] })

/-- Modelled from the spec: `Scope::SetIllegalRedeclaration`; only the first
recorded expression is kept. -/
def SetIllegalRedeclaration (s : Scope) (expression : Expression) : Scope :=
  match s.illegal_redecl_ with
  | some _ => s
  | none => { s with illegal_redecl_ := some expression }

/-- Modelled from the spec: `Scope::HasIllegalRedeclaration`. -/
def HasIllegalRedeclaration (s : Scope) : Bool := s.illegal_redecl_.isSome

/-- Modelled from the spec: `Scope::AddDeclaration` ("recorded in source
order per scope"). -/
def AddDeclaration (s : Scope) (d : Declaration) : Scope :=
  { s with decls_ := s.decls_ ++ [d] }

/-- Modelled from the spec: `Scope::NewUnresolved`: a new unbound proxy that is
registered with the scope. -/
def NewUnresolved (s : Scope) (name : String) (inside_with : Bool) (fresh : Nat) :
    Expression × Scope :=
  (Expression.VariableProxy fresh name false inside_with none,
   { s with unresolved_ := s.unresolved_ ++ [fresh] })

/-- Modelled from the spec: `Scope::RemoveUnresolved`: the last registration of
the proxy is removed. -/
def RemoveUnresolved (s : Scope) (proxy : Nat) : Scope :=
  { s with unresolved_ := (s.unresolved_.reverse.erase proxy).reverse }

/-- Modelled from the spec: `Scope::NewTemporary`. -/
def NewTemporary (s : Scope) (name : String) (fresh : Nat) : Variable × Scope :=
  let v : Variable := { id := fresh, scope := s.id, name := name,
                        mode := Variable.Mode.TEMPORARY, is_valid_lhs := true,
                        kind := Variable.Kind.NORMAL }
  (v, { s with temps_ := s.temps_ ++ [v] })

/-- Modelled from the spec: `Scope::DeclareFunctionVar`. -/
def DeclareFunctionVar (s : Scope) (name : String) (fresh : Nat) : Variable × Scope :=
  let v : Variable := { id := fresh, scope := s.id, name := name,
                        mode := Variable.Mode.CONST, is_valid_lhs := true,
                        kind := Variable.Kind.NORMAL }
  (v, { s with function_ := some v })

/-- Modelled from the spec: `Scope::receiver`: a proxy for `this` that is
bound to the receiver variable. -/
def receiver (s : Scope) (fresh : Nat) : Expression :=
  Expression.VariableProxy fresh "this" true false s.receiver_

/-- Modelled from the spec: the constructor of `Scope` followed by
`Scope::Initialize`: the receiver `this` is declared in every scope and
`arguments` in every function scope.  `fresh` is the first of three unused
addresses. -/
def New (outer : Option Scope) (type : ScopeType) (inside_with : Bool) (fresh : Nat) :
    Scope :=
  let this_var : Variable :=
    { id := fresh + 1, scope := fresh, name := "this", mode := Variable.Mode.VAR,
      is_valid_lhs := false, kind := Variable.Kind.THIS }
  let arguments_var : Variable :=
    { id := fresh + 2, scope := fresh, name := "arguments", mode := Variable.Mode.VAR,
      is_valid_lhs := true, kind := Variable.Kind.ARGUMENTS }
  { id := fresh,
    outer_scope_ := outer.map (fun o => o.id),
    type_ := type,
    variables_ := if type = ScopeType.FUNCTION_SCOPE then [this_var, arguments_var]
                  else [this_var],
    receiver_ := some this_var,
    scope_inside_with_ :=
      match outer with
      | some o => o.scope_inside_with_ || inside_with
      | none => inside_with }

end Scope

/-! ## The per-function accumulator (`TemporaryScope`, lines 253-333) -/

/-- The counters and the strict flag of `TemporaryScope`.  The bookkeeping
pointers `variable_` and `parent_` are replaced by saving the enclosing
accumulator at construction and restoring it at destruction.  The field
`literal_indices_` is not a member of the class: it records the history of
the accumulator, the results of its calls of `NextMaterializedLiteralIndex`
in turn, and nothing reads it. -/
structure TemporaryScope where
  materialized_literal_count_ : Int := 0
  expected_property_count_ : Int := 0
  loop_count_ : Int := 0
  strict_mode_ : Bool := false
  literal_indices_ : List Int := []
  deriving DecidableEq, Repr

/-- Modelled from the spec: `JSFunction::kLiteralsPrefixSize` of `objects.h`,
the index of the first literal. -/
def kLiteralsPrefixSize : Int := 1

/-! ## The target stack (lines 500-540) -/

/-- The kinds of breakable statement and whether each is a loop. -/
inductive BreakableKind
  | Block | DoWhile | While | For | ForIn | Switch
  deriving DecidableEq, Repr

/-- A frame of the target stack: the node it points to.  A breakable statement
is given by its address, its label list and its kind; a target collector by
its address and the targets collected so far. -/
inductive Target
  | breakable (id : Nat) (labels : Option Nat) (kind : BreakableKind)
  | collector (id : Nat) (targets : List BreakTarget)
  deriving DecidableEq, Repr

namespace BreakableKind

/-- Modelled from the spec: `BreakableStatement::is_target_for_anonymous` of
`ast.h` ("flagged as a valid anonymous break target"): loops and switch
statements are, blocks are not. -/
def is_target_for_anonymous : BreakableKind → Bool
  | Block => false
  | _ => true

/-- Modelled from the spec: `AsIterationStatement() != NULL`. -/
def is_iteration : BreakableKind → Bool
  | DoWhile | While | For | ForIn => true
  | _ => false

end BreakableKind

/-- Modelled from the spec: `TargetCollector::AddTarget` of `ast.cc`: the
target is added unless it is already there. -/
def TargetCollector_AddTarget (targets : List BreakTarget) (target : BreakTarget) :
    List BreakTarget :=
  if target ∈ targets then targets else targets ++ [target]

/-! ## The parser object -/

/-- A diagnostic handed to `Top::Throw`: message id, arguments, source range. -/
structure ParserMessage where
  type : String
  args : List String
  location : Location
  deriving DecidableEq, Repr

/-- The parsing mode `Parser::Mode`. -/
inductive ParseMode
  | PARSE_LAZILY | PARSE_EAGERLY
  deriving DecidableEq, Repr

/-- The kind of function literal `FunctionLiteralType`. -/
inductive FunctionLiteralType
  | EXPRESSION | DECLARATION | NESTED
  deriving DecidableEq, Repr

/-- Modelled from the spec: what the parser reads of a `Runtime::Function` of
`runtime.h`: whether it is the function `IS_VAR` of the runtime
(`intrinsic_type == RUNTIME` and `function_id == kIS_VAR`), and `nargs`. -/
structure Runtime.Function where
  is_IS_VAR : Bool
  nargs : Int
  deriving DecidableEq, Repr

/-- The members of `Parser` together with the parts of its environment that
the productions read or write: the two flags, the diagnostics thrown so far,
the label lists and finished scopes of the zone, the next unused address, and
the table of `Runtime::FunctionForSymbol`.  `outer_scopes_` holds the scopes
that `top_scope_` is nested in (innermost first); `stack_overflow_thrown`
records that `Top::StackOverflow` has been called. -/
structure Parser where
  scanner_ : Scanner
  top_scope_ : Option Scope := none
  outer_scopes_ : List Scope := []
  with_nesting_level_ : Int := 0
  temp_scope_ : Option TemporaryScope := none
  target_stack_ : List Target := []
  mode_ : ParseMode := ParseMode.PARSE_EAGERLY
  allow_natives_syntax_ : Bool := false
  pre_data_ : Option ScriptDataImpl := none
  symbol_cache_ : List (Option String) := []
  stack_overflow_ : Bool := false
  parenthesized_function_ : Bool := false
  FLAG_strict_mode : Bool := true
  FLAG_lazy : Bool := true
  messages : List ParserMessage := []
  zone_labels : List (List String) := []
  zone_scopes : List Scope := []
  next_id : Nat := 0
  runtime_functions : List (String × Runtime.Function) := []
  stack_overflow_thrown : Bool := false

/-- A production of the parser: from the parser object before the call to the
result (`none` when the call cleared `*ok`) and the parser object after it. -/
def Production (α : Type) : Type := Parser → Option α × Parser

namespace Production

/-- A production that returns `a` and leaves the parser as it is. -/
def ret {α : Type} (a : α) : Production α := fun p => (some a, p)

/-- Sequencing with the `CHECK_OK` macro (lines 582-584): when the first call
cleared `*ok` the caller returns `NULL` at once. -/
def seq {α β : Type} (m : Production α) (f : α → Production β) : Production β :=
  fun p =>
    match m p with
    | (some a, p1) => f a p1
    | (none, p1) => (none, p1)

instance : Monad Production where
  pure := ret
  bind := seq

/-- The statement pair `*ok = false; return NULL;`. -/
def fail {α : Type} : Production α := fun p => (none, p)

/-- Reads a value off the parser object. -/
def read {α : Type} (f : Parser → α) : Production α := fun p => (some (f p), p)

/-- Updates the parser object. -/
def modify (f : Parser → Parser) : Production Unit := fun p => (some (), f p)

/-- Runs a step that returns a value and a new parser object and cannot fail. -/
def step {α : Type} (f : Parser → α × Parser) : Production α :=
  fun p => (some (f p).1, (f p).2)

end Production

namespace Parser

/-- The scope that `top_scope_` points to.  Every production runs with
`top_scope_` set; the default value is never reached then. -/
def top_scope (p : Parser) : Scope :=
  p.top_scope_.getD { id := 0, outer_scope_ := none, type_ := ScopeType.GLOBAL_SCOPE }

/-- The accumulator that `temp_scope_` points to.  Every production runs with
`temp_scope_` set; the default value is never reached then. -/
def temp_scope (p : Parser) : TemporaryScope :=
  p.temp_scope_.getD {}

/-- Replaces the scope that `top_scope_` points to. -/
def set_top_scope (p : Parser) (s : Scope) : Parser :=
  { p with top_scope_ := some s }

/-- Replaces the accumulator that `temp_scope_` points to. -/
def set_temp_scope (p : Parser) (t : TemporaryScope) : Parser :=
  { p with temp_scope_ := some t }

/-- The result of `new` for a node with an address: the next unused address. -/
def alloc (p : Parser) : Nat × Parser :=
  (p.next_id, { p with next_id := p.next_id + 1 })

/-- The accessor `temp_scope_->StrictMode()` (line 286). -/
def StrictMode (p : Parser) : Bool := p.temp_scope.strict_mode_

/-- The call `temp_scope_->EnableStrictMode()` (lines 287-289). -/
def EnableStrictMode (p : Parser) : Parser :=
  p.set_temp_scope { p.temp_scope with strict_mode_ := p.FLAG_strict_mode }

/-- The call `temp_scope_->AddLoop()` (line 283). -/
def AddLoop (p : Parser) : Parser :=
  p.set_temp_scope { p.temp_scope with loop_count_ := wrapInt32 (p.temp_scope.loop_count_ + 1) }

/-- The call `temp_scope_->AddProperty()` (line 280). -/
def AddProperty (p : Parser) : Parser :=
  p.set_temp_scope { p.temp_scope with
    expected_property_count_ := wrapInt32 (p.temp_scope.expected_property_count_ + 1) }

/-- The call `temp_scope_->NextMaterializedLiteralIndex()` (lines 258-263);
the result is also recorded in the history of the accumulator. -/
def NextMaterializedLiteralIndex (p : Parser) : Int × Parser :=
  (wrapInt32 (p.temp_scope.materialized_literal_count_ + kLiteralsPrefixSize),
   p.set_temp_scope { p.temp_scope with
     materialized_literal_count_ := wrapInt32 (p.temp_scope.materialized_literal_count_ + 1),
     literal_indices_ := p.temp_scope.literal_indices_
       ++ [wrapInt32 (p.temp_scope.materialized_literal_count_ + kLiteralsPrefixSize)] })

/-- Modelled from the spec: `Parser::inside_with` of `parser.h`. -/
def inside_with (p : Parser) : Bool := decide (p.with_nesting_level_ > 0)

/-- Modelled from the spec: `Parser::peek` of `parser.h`.  After a stack
overflow every token reads as `ILLEGAL`. -/
def peek (p : Parser) : Token :=
  if p.stack_overflow_ then Token.ILLEGAL else p.scanner_.peek

/-- Modelled from the spec: `Parser::Next` of `parser.h`: after a stack
overflow the token is `ILLEGAL`.  This function does not set
`stack_overflow_`; the stack guard is modelled at the recursive descent steps
(`Limited.productions`). -/
def Next (p : Parser) : Token × Parser :=
  if p.stack_overflow_ then (Token.ILLEGAL, p)
  else (p.scanner_.Next.1, { p with scanner_ := p.scanner_.Next.2 })

/-- The function `Parser::ReportMessageAt` (lines 800-827): the diagnostic is
thrown. -/
def ReportMessageAt (p : Parser) (source_location : Location) (type : String)
    (args : List String) : Parser :=
  { p with messages := p.messages ++ [⟨type, args, source_location⟩] }

/-- The function `Parser::ReportMessage` (lines 794-797). -/
def ReportMessage (p : Parser) (type : String) (args : List String) : Parser :=
  p.ReportMessageAt p.scanner_.location type args

/-- The function `Parser::ReportUnexpectedToken` (lines 2768-2796). -/
def ReportUnexpectedToken (p : Parser) (token : Token) : Parser :=
  if token = Token.ILLEGAL ∧ p.stack_overflow_ = true then p
  else
    match token with
    | Token.EOS => p.ReportMessage "unexpected_eos" []
    | Token.NUMBER => p.ReportMessage "unexpected_token_number" []
    | Token.STRING => p.ReportMessage "unexpected_token_string" []
    | Token.IDENTIFIER => p.ReportMessage "unexpected_token_identifier" []
    | Token.FUTURE_RESERVED_WORD =>
      p.ReportMessage (if p.StrictMode then "unexpected_strict_reserved"
                       else "unexpected_token_identifier") []
    | _ => p.ReportMessage "unexpected_token" [token.StringOf]

/-- The function `Parser::LookupCachedSymbol` (lines 353-372). -/
def LookupCachedSymbol (p : Parser) (symbol_id : Nat) : String × Parser :=
  let cache :=
    if p.symbol_cache_.length ≤ symbol_id then
      p.symbol_cache_ ++ List.replicate (symbol_id + 1 - p.symbol_cache_.length) none
    else p.symbol_cache_
  match cache.getD symbol_id none with
  | none =>
    (p.scanner_.current_.literal,
     { p with symbol_cache_ := cache.set symbol_id (some p.scanner_.current_.literal) })
  | some result => (result, { p with symbol_cache_ := cache })

/-- The function `Parser::LookupSymbol` (lines 336-350).  A symbol is the
interned string itself. -/
def LookupSymbol (p : Parser) (symbol_id : Int) : String × Parser :=
  if symbol_id < 0 ∨ (p.symbol_cache_.length : Int) ≤ symbol_id then
    (p.scanner_.current_.literal, p)
  else p.LookupCachedSymbol symbol_id.toNat

/-- The function `Parser::GetSymbol` (lines 785-791). -/
def GetSymbol (p : Parser) : String × Parser :=
  match p.pre_data_ with
  | none => p.LookupSymbol (-1)
  | some d =>
    { p with pre_data_ := some d.GetSymbolIdentifier.2 }.LookupSymbol d.GetSymbolIdentifier.1

/-- The function `ContainsLabel` (lines 1697-1705) on a label list given by
its address. -/
def ContainsLabel (p : Parser) (labels : Option Nat) (label : String) : Bool :=
  match labels with
  | none => false
  | some r => decide (label ∈ p.zone_labels.getD r [])

/-- The function `Parser::TargetStackContainsLabel` (lines 3849-3856). -/
def TargetStackContainsLabel (p : Parser) (label : String) : Bool :=
  p.target_stack_.any (fun t =>
    match t with
    | Target.breakable _ labels _ => p.ContainsLabel labels label
    | Target.collector _ _ => false)

/-- The function `Parser::RegisterTargetUse` (lines 3891-3899) on the frames
from the top of the stack down to the frame before `stop`; `n` is the number
of those frames. -/
def RegisterTargetUse (stack : List Target) (target : BreakTarget) (n : Nat) :
    List Target :=
  (stack.take n).map (fun t =>
    match t with
    | Target.collector id targets =>
      Target.collector id (TargetCollector_AddTarget targets target)
    | Target.breakable id labels kind => Target.breakable id labels kind)
  ++ stack.drop n

/-- The loop of `LookupBreakTarget` (lines 3861-3869): the matching frame (its
statement) and the number of frames from the top down to it, or `none`. -/
def LookupBreakTarget_loop (p : Parser) (label : Option String) :
    List Target → Nat → Option (Nat × Nat)
  | [], _ => none
  | Target.collector _ _ :: previous, n => LookupBreakTarget_loop p label previous (n + 1)
  | Target.breakable id labels kind :: previous, n =>
    if (label.isNone && kind.is_target_for_anonymous)
        || (match label with
            | some l => p.ContainsLabel labels l
            | none => false) then
      some (id, n + 1)
    else LookupBreakTarget_loop p label previous (n + 1)

/-- The function `Parser::LookupBreakTarget` (lines 3859-3871); it never
touches `*ok`. -/
def LookupBreakTarget (p : Parser) (label : Option String) : Option Nat × Parser :=
  match LookupBreakTarget_loop p label p.target_stack_ 0 with
  | some (id, n) =>
    (some id, { p with target_stack_ := RegisterTargetUse p.target_stack_ ⟨id, false⟩ n })
  | none => (none, p)

/-- The loop of `LookupContinueTarget` (lines 3877-3886). -/
def LookupContinueTarget_loop (p : Parser) (label : Option String) :
    List Target → Nat → Option (Nat × Nat)
  | [], _ => none
  | Target.collector _ _ :: previous, n => LookupContinueTarget_loop p label previous (n + 1)
  | Target.breakable id labels kind :: previous, n =>
    if kind.is_iteration then
      if label.isNone
          || (match label with
              | some l => p.ContainsLabel labels l
              | none => false) then
        some (id, n + 1)
      else LookupContinueTarget_loop p label previous (n + 1)
    else LookupContinueTarget_loop p label previous (n + 1)

/-- The function `Parser::LookupContinueTarget` (lines 3874-3888). -/
def LookupContinueTarget (p : Parser) (label : Option String) : Option Nat × Parser :=
  match LookupContinueTarget_loop p label p.target_stack_ 0 with
  | some (id, n) =>
    (some id, { p with target_stack_ := RegisterTargetUse p.target_stack_ ⟨id, true⟩ n })
  | none => (none, p)

/-- The function `Parser::NewNumberLiteral` (lines 3902-3904). -/
def NewNumberLiteral (number : JSNumber) : Expression :=
  Expression.Literal (Value.number number)

/-- The function `Parser::NewThrowError` (lines 3932-3950). -/
def NewThrowError (p : Parser) (constructor type : String) (arguments : List String) :
    Expression :=
  Expression.Throw
    (Expression.CallRuntime constructor
      (ExpressionList.cons (Expression.Literal (Value.string type))
        (ExpressionList.cons (Expression.Literal (Value.js_array arguments))
          ExpressionList.nil)))
    p.scanner_.location.beg_pos

/-- The function `Parser::NewThrowReferenceError` (lines 3907-3910). -/
def NewThrowReferenceError (p : Parser) (type : String) : Expression :=
  p.NewThrowError "MakeReferenceError" type []

/-- The function `Parser::NewThrowSyntaxError` (lines 3913-3918) with a null
first argument. -/
def NewThrowSyntaxError (p : Parser) (type : String) : Expression :=
  p.NewThrowError "MakeSyntaxError" type []

/-- The function `Parser::NewThrowTypeError` (lines 3921-3929). -/
def NewThrowTypeError (p : Parser) (type first second : String) : Expression :=
  p.NewThrowError "MakeTypeError" type [first, second]

end Parser

/-- The function `IsEvalOrArguments` (lines 1496-1499). -/
def IsEvalOrArguments (string : String) : Bool :=
  string == "eval" || string == "arguments"

/-- The function `Parser::Declare` (lines 1286-1381). -/
def Declare (name : String) (mode : Variable.Mode) (fun_ : Option Expression)
    (resolve : Bool) : Production Expression := fun p =>
  -- lines 1302-1326: the function-scope case
  let r1 : Option Variable × Parser :=
    if p.top_scope.is_function_scope then
      match p.top_scope.LocalLookup name with
      | none =>
        (some (p.top_scope.DeclareLocal name mode p.next_id).1,
         { p.set_top_scope (p.top_scope.DeclareLocal name mode p.next_id).2 with
           next_id := p.next_id + 1 })
      | some var =>
        if mode = Variable.Mode.CONST ∨ var.mode = Variable.Mode.CONST then
          let type := if var.mode = Variable.Mode.VAR then "var" else "const"
          let expression := p.NewThrowTypeError "redeclaration" type name
          (some var, p.set_top_scope (p.top_scope.SetIllegalRedeclaration expression))
        else (some var, p)
    else (none, p)
  let var := r1.1
  let p1 := r1.2
  -- line 1344: the proxy
  let proxy_id := p1.next_id
  let inside_with := p1.inside_with
  let scope2 := (p1.top_scope.NewUnresolved name inside_with proxy_id).2
  -- lines 1348-1352: global const variables
  let r2 : Option Variable × Nat :=
    if mode = Variable.Mode.CONST ∧ p1.top_scope.is_global_scope = true then
      (some { id := proxy_id + 1, scope := p1.top_scope.id, name := name,
              mode := Variable.Mode.CONST, is_valid_lhs := true,
              kind := Variable.Kind.NORMAL }, proxy_id + 2)
    else (var, proxy_id + 1)
  -- line 1378: bind the proxy
  let bound : Option Variable := if resolve then r2.1 else none
  let proxy := Expression.VariableProxy proxy_id name false inside_with bound
  -- line 1345: the declaration node holds the same proxy object
  (some proxy,
   { p1.set_top_scope (scope2.AddDeclaration ⟨proxy, mode, fun_⟩) with next_id := r2.2 })

/-- A parser object whose current scope is a fresh function scope, as it is at
the start of a function body. -/
def functionScopeParser : Parser :=
  { scanner_ := Scanner.Initialize [],
    top_scope_ := some (Scope.New none ScopeType.FUNCTION_SCOPE false 0),
    temp_scope_ := some {},
    next_id := 3 }

/-! ## The JSON sub-parser (`JsonParser`, lines 3955-4124) -/

mutual

/-- The values that `JsonParser` produces. -/
inductive JsonValue
  | string (s : String)
  | number (n : JSNumber)
  | false_value
  | true_value
  | null_value
  | object (o : JsonObject)
  | array (elements : JsonList)

/-- A `JSObject` made by `ParseJsonObject`: its own elements (by index), its
own properties (by name) and its prototype. -/
inductive JsonObject
  | mk (elements : JsonElements) (properties : JsonProperties) (prototype : JsonPrototype)

/-- The prototype of an object: the initial prototype of the object function,
or a value installed by `SetPrototype`. -/
inductive JsonPrototype
  | initial
  | value (v : JsonValue)

/-- The own elements of an object, in the order of their creation. -/
inductive JsonElements
  | nil
  | cons (index : Nat) (value : JsonValue) (tail : JsonElements)

/-- The own properties of an object, in the order of their creation. -/
inductive JsonProperties
  | nil
  | cons (key : String) (value : JsonValue) (tail : JsonProperties)

/-- The elements of an array. -/
inductive JsonList
  | nil
  | cons (head : JsonValue) (tail : JsonList)

end

namespace JsonElements

/-- Sets the element at `index`, replacing an element that is already there. -/
def set : JsonElements → Nat → JsonValue → JsonElements
  | nil, index, value => cons index value nil
  | cons i v tail, index, value =>
    if i = index then cons i value tail else cons i v (set tail index value)

/-- The value of the element at `index`. -/
def get : JsonElements → Nat → Option JsonValue
  | nil, _ => none
  | cons i v tail, index => if i = index then some v else get tail index

end JsonElements

namespace JsonProperties

/-- Sets the property `key`, replacing a property that is already there. -/
def set : JsonProperties → String → JsonValue → JsonProperties
  | nil, key, value => cons key value nil
  | cons k v tail, key, value =>
    if k = key then cons k value tail else cons k v (set tail key value)

/-- The value of the property `key`. -/
def get : JsonProperties → String → Option JsonValue
  | nil, _ => none
  | cons k v tail, key => if k = key then some v else get tail key

/-- The names of the properties. -/
def keys : JsonProperties → List String
  | nil => []
  | cons k _ tail => k :: keys tail

end JsonProperties

namespace JsonList

/-- The method `ZoneList::Add`: append at the end. -/
def Add : JsonList → JsonValue → JsonList
  | nil, v => cons v nil
  | cons h t, v => cons h (Add t v)

end JsonList

namespace JsonObject

/-- The object made by `Factory::NewJSObject(object_constructor)`. -/
def empty : JsonObject := mk JsonElements.nil JsonProperties.nil JsonPrototype.initial

/-- The own elements. -/
def elements : JsonObject → JsonElements
  | mk e _ _ => e

/-- The own properties. -/
def properties : JsonObject → JsonProperties
  | mk _ p _ => p

/-- The prototype. -/
def prototype : JsonObject → JsonPrototype
  | mk _ _ q => q

/-- Whether the object has an own property called `key`. -/
def HasOwnProperty (o : JsonObject) (key : String) : Bool :=
  decide (key ∈ o.properties.keys)

/-- Modelled from the spec: `SetOwnElement` of `handles.cc`: the value becomes
the own element at `index`. -/
def SetOwnElement : JsonObject → Nat → JsonValue → JsonObject
  | mk e p q, index, value => mk (e.set index value) p q

/-- Modelled from the spec: `SetLocalPropertyIgnoreAttributes` of
`handles.cc`: the value becomes the own property `key`. -/
def SetLocalPropertyIgnoreAttributes : JsonObject → String → JsonValue → JsonObject
  | mk e p q, key, value => mk e (p.set key value) q

/-- Modelled from the spec: `SetPrototype` of `handles.cc` ("the parsed value
is applied as the prototype of the result object", "if possible" in the
comment at line 4077): an object, an array or null becomes the prototype and
any other value leaves the object as it is. -/
def SetPrototype : JsonObject → JsonValue → JsonObject
  | mk e p _, JsonValue.object o => mk e p (JsonPrototype.value (JsonValue.object o))
  | mk e p _, JsonValue.array a => mk e p (JsonPrototype.value (JsonValue.array a))
  | mk e p _, JsonValue.null_value => mk e p (JsonPrototype.value JsonValue.null_value)
  | o, _ => o

end JsonObject

/-- Modelled from the spec: `String::AsArrayIndex` of `objects.cc`: a string
of at most ten decimal digits without a leading zero (the string `0` apart)
whose value is below `2 ^ 32 - 1` is an array index. -/
def AsArrayIndex (key : String) : Option Nat :=
  let cs := key.toList
  if cs ≠ [] ∧ cs.length ≤ 10 ∧ cs.all Char.isDigit = true
      ∧ (cs.head? ≠ some '0' ∨ cs.length = 1) then
    let v := cs.foldl (fun acc c => acc * 10 + (c.toNat - '0'.toNat)) 0
    if v < 2 ^ 32 - 1 then some v else none
  else none

/-- The members of `JsonParser`, the answer of the environment to
`StackLimitCheck().HasOverflowed()` (which the parser never changes), and
what the parser hands to `Top`: the thrown syntax errors and the stack
overflow. -/
structure JsonParser where
  scanner_ : Scanner
  stack_overflow_ : Bool := false
  stack_limit_hit : Bool := false
  thrown : List ParserMessage := []
  stack_overflow_thrown : Bool := false

/-- A production of the JSON parser; the result `none` is the null handle. -/
def JsonProduction (α : Type) : Type := JsonParser → Option α × JsonParser

namespace JsonParser

/-- The call `scanner_.Next()`. -/
def Next (p : JsonParser) : Token × JsonParser :=
  (p.scanner_.Next.1, { p with scanner_ := p.scanner_.Next.2 })

/-- The function `JsonParser::GetString` (lines 4012-4022). -/
def GetString (p : JsonParser) : String := p.scanner_.current_.literal

/-- The three-way store of a member in `ParseJsonObject` (lines 4071-4081). -/
def StoreMember (json_object : JsonObject) (key : String) (value : JsonValue) : JsonObject :=
  match AsArrayIndex key with
  | some index => json_object.SetOwnElement index value
  | none =>
    if key = "__proto__" then json_object.SetPrototype value
    else json_object.SetLocalPropertyIgnoreAttributes key value

end JsonParser

/-- The productions of the JSON parser that are reached recursively, at a
given recursion budget. -/
structure JsonProductions where
  ParseJsonValue : JsonProduction JsonValue
  ParseJsonObject_loop : JsonObject → JsonProduction JsonValue
  ParseJsonArray_loop : JsonList → JsonProduction JsonList

namespace JsonParser

/-- The `do`-`while` loop of `ParseJsonObject` (lines 4061-4085), from the
start of one iteration. -/
def ParseJsonObject_loop (self : JsonProductions) (json_object : JsonObject) :
    JsonProduction JsonValue := fun p =>
  if (Next p).1 ≠ Token.STRING then (none, (Next p).2)
  else
    let key := GetString (Next p).2
    let p2 := (Next (Next p).2)
    if p2.1 ≠ Token.COLON then (none, p2.2)
    else
      match self.ParseJsonValue p2.2 with
      | (none, p3) => (none, p3)
      | (some value, p3) =>
        let json_object2 := StoreMember json_object key value
        if (Next p3).1 = Token.COMMA then
          self.ParseJsonObject_loop json_object2 (Next p3).2
        else if (Next p3).2.scanner_.current_.token ≠ Token.RBRACE then (none, (Next p3).2)
        else (some (JsonValue.object json_object2), (Next p3).2)

/-- The function `JsonParser::ParseJsonObject` (lines 4050-4088). -/
def ParseJsonObject (self : JsonProductions) : JsonProduction JsonValue := fun p =>
  if p.scanner_.peek = Token.RBRACE then
    (some (JsonValue.object JsonObject.empty), (Next p).2)
  else if p.stack_limit_hit then
    (none, { p with stack_overflow_ := true })
  else ParseJsonObject_loop self JsonObject.empty p

/-- The `do`-`while` loop of `ParseJsonArray` (lines 4104-4112), from the
start of one iteration. -/
def ParseJsonArray_loop (self : JsonProductions) (elements : JsonList) :
    JsonProduction JsonList := fun p =>
  match self.ParseJsonValue p with
  | (none, p1) => (none, p1)
  | (some element, p1) =>
    let elements2 := elements.Add element
    if (Next p1).1 = Token.COMMA then self.ParseJsonArray_loop elements2 (Next p1).2
    else if (Next p1).1 ≠ Token.RBRACK then (none, (Next p1).2)
    else (some elements2, (Next p1).2)

/-- The function `JsonParser::ParseJsonArray` (lines 4092-4124). -/
def ParseJsonArray (self : JsonProductions) : JsonProduction JsonValue := fun p =>
  if p.scanner_.peek = Token.RBRACK then
    (some (JsonValue.array JsonList.nil), (Next p).2)
  else if p.stack_limit_hit then
    (none, { p with stack_overflow_ := true })
  else
    match ParseJsonArray_loop self JsonList.nil p with
    | (none, p1) => (none, p1)
    | (some elements, p1) => (some (JsonValue.array elements), p1)

/-- The function `JsonParser::ParseJsonValue` (lines 4026-4046). -/
def ParseJsonValue (self : JsonProductions) : JsonProduction JsonValue := fun p =>
  let p1 := (Next p).2
  match (Next p).1 with
  | Token.STRING => (some (JsonValue.string (GetString p1)), p1)
  | Token.NUMBER => (some (JsonValue.number p1.scanner_.current_.number), p1)
  | Token.FALSE_LITERAL => (some JsonValue.false_value, p1)
  | Token.TRUE_LITERAL => (some JsonValue.true_value, p1)
  | Token.NULL_LITERAL => (some JsonValue.null_value, p1)
  | Token.LBRACE => ParseJsonObject self p1
  | Token.LBRACK => ParseJsonArray self p1
  | _ => (none, p1)

/-- The productions at recursion budget `fuel`; with no budget left every
production returns the null handle. -/
def productions : Nat → JsonProductions
  | 0 =>
    { ParseJsonValue := fun p => (none, p),
      ParseJsonObject_loop := fun _ p => (none, p),
      ParseJsonArray_loop := fun _ p => (none, p) }
  | fuel + 1 =>
    { ParseJsonValue := ParseJsonValue (productions fuel),
      ParseJsonObject_loop := ParseJsonObject_loop (productions fuel),
      ParseJsonArray_loop := ParseJsonArray_loop (productions fuel) }

/-- The message that `ParseJson` throws for the unexpected token (lines
3966-3990). -/
def unexpected_message (token : Token) : String × List String :=
  match token with
  | Token.EOS => ("unexpected_eos", [])
  | Token.NUMBER => ("unexpected_token_number", [])
  | Token.STRING => ("unexpected_token_string", [])
  | Token.IDENTIFIER => ("unexpected_token_identifier", [])
  | Token.FUTURE_RESERVED_WORD => ("unexpected_token_identifier", [])
  | _ => ("unexpected_token", [token.StringOf])

/-- The function `JsonParser::ParseJson` (lines 3955-4009) on the scanned
tokens of the source. -/
def ParseJson (fuel : Nat) (stack_limit_hit : Bool) (source : List TokenDesc) :
    Option JsonValue × JsonParser :=
  let p0 : JsonParser :=
    { scanner_ := Scanner.Initialize source, stack_overflow_ := false,
      stack_limit_hit := stack_limit_hit }
  let r := ParseJsonValue (productions fuel) p0
  let failed : Bool × JsonParser :=
    match r.1 with
    | none => (true, r.2)
    | some _ => (decide ((Next r.2).1 ≠ Token.EOS), (Next r.2).2)
  if failed.1 then
    if failed.2.stack_overflow_ then
      (r.1, { failed.2 with stack_overflow_thrown := true })
    else
      (none, { failed.2 with thrown := failed.2.thrown ++
        [⟨(unexpected_message failed.2.scanner_.current_.token).1,
          (unexpected_message failed.2.scanner_.current_.token).2,
          failed.2.scanner_.location⟩] })
  else (r.1, failed.2)

end JsonParser

/-- The scanned tokens of the text `{"a":1,"__proto__":{"b":2}}`. -/
def jsonProtoExample : List TokenDesc :=
  [ { token := Token.LBRACE, location := ⟨0, 1⟩ },
    { token := Token.STRING, location := ⟨1, 4⟩, literal := "a" },
    { token := Token.COLON, location := ⟨4, 5⟩ },
    { token := Token.NUMBER, location := ⟨5, 6⟩, number := JSNumber.exact 1 },
    { token := Token.COMMA, location := ⟨6, 7⟩ },
    { token := Token.STRING, location := ⟨7, 18⟩, literal := "__proto__" },
    { token := Token.COLON, location := ⟨18, 19⟩ },
    { token := Token.LBRACE, location := ⟨19, 20⟩ },
    { token := Token.STRING, location := ⟨20, 23⟩, literal := "b" },
    { token := Token.COLON, location := ⟨23, 24⟩ },
    { token := Token.NUMBER, location := ⟨24, 25⟩, number := JSNumber.exact 2 },
    { token := Token.RBRACE, location := ⟨25, 26⟩ },
    { token := Token.RBRACE, location := ⟨26, 27⟩ } ]

/-- The object that the text `{"a":1,"__proto__":{"b":2}}` denotes: own
property `a = 1`, prototype `{b:2}`. -/
def jsonProtoExpected : JsonValue :=
  JsonValue.object
    (JsonObject.mk JsonElements.nil
      (JsonProperties.cons "a" (JsonValue.number (JSNumber.exact 1)) JsonProperties.nil)
      (JsonPrototype.value (JsonValue.object
        (JsonObject.mk JsonElements.nil
          (JsonProperties.cons "b" (JsonValue.number (JSNumber.exact 2)) JsonProperties.nil)
          JsonPrototype.initial))))

/-- No own property is called `__proto__` or has an array index as its name. -/
def JsonObject.PlainKeys (o : JsonObject) : Prop :=
  ∀ k ∈ o.properties.keys, k ≠ "__proto__" ∧ AsArrayIndex k = none

/-! ## The checker of object-literal properties -/

/-- Modelled from the spec: what `CheckProperty` reads of an
`ObjectLiteral::Property`, the handle of its key literal and its kind. -/
structure ObjectLiteral.Property where
  key : Value
  kind : ObjectLiteral.Property.Kind
  deriving DecidableEq, Repr

/-- Modelled from the spec: the functions of `objects.cc` and `conversions.cc`
that `CheckProperty` calls on a key: `String::AsArrayIndex`,
`Object::ToArrayIndex` (for a number) and `DoubleToCString`. -/
structure KeyConversions where
  AsArrayIndex : String → Option Nat
  ToArrayIndex : JSNumber → Option Nat
  DoubleToCString : JSNumber → String

/-- Modelled from the spec: a `HashMap` of `hashmap.h` whose match function
compares the keys by their contents (`IsEqualString`, `IsEqualNumber`), as the
list of its entries; the value `NULL` is 0. -/
@[reducible] def HashMap (κ : Type) : Type := List (κ × Nat)

namespace HashMap

/-- The value of the entry of a key, `NULL` when there is none. -/
def value {κ : Type} [DecidableEq κ] : HashMap κ → κ → Nat
  | [], _ => 0
  | (k, v) :: rest, key => if k = key then v else value rest key

/-- Modelled from the spec: `HashMap::Lookup(key, hash, true)`, which adds an
entry with the value `NULL` when the key has none; the value of the entry
and the map. -/
def Lookup {κ : Type} [DecidableEq κ] (map : HashMap κ) (key : κ) : Nat × HashMap κ :=
  if map.any (fun e => decide (e.1 = key)) then (value map key, map)
  else (0, map ++ [(key, 0)])

/-- The assignment `entry->value = v` for the entry of a key. -/
def setValue {κ : Type} [DecidableEq κ] : HashMap κ → κ → Nat → HashMap κ
  | [], _, _ => []
  | (k, v) :: rest, key, w =>
    if k = key then (k, w) :: rest else (k, v) :: setValue rest key w

end HashMap

/-- The fields of `ObjectLiteralPropertyChecker` (lines 3072-3108); the parser
is passed to `CheckProperty`. -/
structure ObjectLiteralPropertyChecker where
  props : HashMap String := []
  elems : HashMap Nat := []
  strict_ : Bool

namespace ObjectLiteralPropertyChecker

/-- The enumerator `kGetAccessor`. -/
def kGetAccessor : Nat := 0x01

/-- The enumerator `kSetAccessor`. -/
def kSetAccessor : Nat := 0x02

/-- The enumerator `kAccessor`. -/
def kAccessor : Nat := kGetAccessor ||| kSetAccessor

/-- The enumerator `kData`. -/
def kData : Nat := 0x04

/-- The function `GetPropertyKind` (lines 3096-3105). -/
def GetPropertyKind (property : ObjectLiteral.Property) : Nat :=
  match property.kind with
  | ObjectLiteral.Property.Kind.GETTER => kGetAccessor
  | ObjectLiteral.Property.Kind.SETTER => kSetAccessor
  | _ => kData

/-- The map and the key that `CheckProperty` looks a property up with. -/
inductive MapKey
  | in_elems (index : Nat)
  | in_props (name : String)
  deriving DecidableEq, Repr

/-- The choice of `map` and `key` in `CheckProperty` (lines 3124-3147); `none`
when the handle is neither a symbol nor a number (the `ASSERT` of line 3138). -/
def mapKey (conv : KeyConversions) (property : ObjectLiteral.Property) : Option MapKey :=
  match property.key with
  | Value.string name =>
    match conv.AsArrayIndex name with
    | some hash => some (MapKey.in_elems hash)
    | none => some (MapKey.in_props name)
  | Value.number num =>
    match conv.ToArrayIndex num with
    | some hash => some (MapKey.in_elems hash)
    | none => some (MapKey.in_props (conv.DoubleToCString num))
  | _ => none

/-- The lookup `map->Lookup(key, hash, true)` of line 3150: the value of the
entry and the checker with the entry. -/
def Lookup (checker : ObjectLiteralPropertyChecker) :
    MapKey → Nat × ObjectLiteralPropertyChecker
  | MapKey.in_elems index =>
    ((checker.elems.Lookup index).1, { checker with elems := (checker.elems.Lookup index).2 })
  | MapKey.in_props name =>
    ((checker.props.Lookup name).1, { checker with props := (checker.props.Lookup name).2 })

/-- The assignment `entry->value = v` of line 3181. -/
def setValue (checker : ObjectLiteralPropertyChecker) :
    MapKey → Nat → ObjectLiteralPropertyChecker
  | MapKey.in_elems index, v => { checker with elems := checker.elems.setValue index v }
  | MapKey.in_props name, v => { checker with props := checker.props.setValue name v }

/-- The function `ObjectLiteralPropertyChecker::CheckProperty` (lines
3111-3183): the value of `*ok`, the checker and the parser after the call. -/
def CheckProperty (conv : KeyConversions) (checker : ObjectLiteralPropertyChecker)
    (property : ObjectLiteral.Property) (loc : Location) (parser : Parser) :
    Option (Bool × ObjectLiteralPropertyChecker × Parser) :=
  match mapKey conv property with
  | none => none
  | some key =>
    let prev := (checker.Lookup key).1
    let checker1 := (checker.Lookup key).2
    let curr := GetPropertyKind property
    if checker.strict_ = true ∧ (curr &&& prev &&& kData) ≠ 0 then
      some (false, checker1, parser.ReportMessageAt loc "strict_duplicate_property" [])
    else if ((curr &&& kData) ≠ 0 ∧ (prev &&& kAccessor) ≠ 0)
        ∨ ((prev &&& kData) ≠ 0 ∧ (curr &&& kAccessor) ≠ 0) then
      some (false, checker1, parser.ReportMessageAt loc "accessor_data_property" [])
    else if (curr &&& prev &&& kAccessor) ≠ 0 then
      some (false, checker1, parser.ReportMessageAt loc "accessor_get_set" [])
    else
      some (true, checker1.setValue key (prev ||| curr), parser)

/-- The calls of `CheckProperty` that `ParseObjectLiteral` makes for the
properties of a literal in turn (lines 3321 and 3373, each with `CHECK_OK`):
the first property that is not accepted ends the run. -/
def CheckProperty_each (conv : KeyConversions) :
    ObjectLiteralPropertyChecker → List (ObjectLiteral.Property × Location) → Parser →
      Option (Bool × ObjectLiteralPropertyChecker × Parser)
  | checker, [], parser => some (true, checker, parser)
  | checker, (property, loc) :: rest, parser =>
    match CheckProperty conv checker property loc parser with
    | none => none
    | some (false, checker1, parser1) => some (false, checker1, parser1)
    | some (true, checker1, parser1) => CheckProperty_each conv checker1 rest parser1

/-! ### The rule in the words of the specification -/

/-- The three kinds of property that the rule tells apart. -/
inductive PropertyClass
  | getter | setter | data
  deriving DecidableEq, Repr

/-- The kind of a property: a getter, a setter, or a data property. -/
def propertyClass (property : ObjectLiteral.Property) : PropertyClass :=
  match property.kind with
  | ObjectLiteral.Property.Kind.GETTER => PropertyClass.getter
  | ObjectLiteral.Property.Kind.SETTER => PropertyClass.setter
  | _ => PropertyClass.data

/-- The rule: the message for a property of kind `c` when the kinds `before`
have been seen for its key, `none` when the property is accepted.  A data
property after a getter or setter, and a getter or setter after a data
property, is an `accessor_data_property`; a second getter or a second setter
is an `accessor_get_set`; a second data property is a
`strict_duplicate_property` in strict mode. -/
def ruleMessage (strict : Bool) (before : List PropertyClass) : PropertyClass → Option String
  | PropertyClass.data =>
    if PropertyClass.getter ∈ before ∨ PropertyClass.setter ∈ before then
      some "accessor_data_property"
    else if PropertyClass.data ∈ before ∧ strict = true then some "strict_duplicate_property"
    else none
  | PropertyClass.getter =>
    if PropertyClass.data ∈ before then some "accessor_data_property"
    else if PropertyClass.getter ∈ before then some "accessor_get_set"
    else none
  | PropertyClass.setter =>
    if PropertyClass.data ∈ before then some "accessor_data_property"
    else if PropertyClass.setter ∈ before then some "accessor_get_set"
    else none

/-- The kinds seen for a key among the properties `seen`. -/
def kindsSeen (conv : KeyConversions) (seen : List ObjectLiteral.Property) (key : MapKey) :
    List PropertyClass :=
  (seen.filter (fun q => decide (mapKey conv q = some key))).map propertyClass

/-- The first property of a sequence that the rule rejects, with its location
and the message, when `seen` are the properties before the sequence; `none`
when the rule accepts every property. -/
def firstRejected (conv : KeyConversions) (strict : Bool) :
    List ObjectLiteral.Property → List (ObjectLiteral.Property × Location) →
      Option (ObjectLiteral.Property × Location × String)
  | _, [] => none
  | seen, (property, loc) :: rest =>
    match (mapKey conv property).bind
        (fun key => ruleMessage strict (kindsSeen conv seen key) (propertyClass property)) with
    | some message => some (property, loc, message)
    | none => firstRejected conv strict (seen ++ [property]) rest

/-- The property `name: value`, a data property with a string key. -/
def dataProperty (name : String) : ObjectLiteral.Property :=
  { key := Value.string name, kind := ObjectLiteral.Property.Kind.COMPUTED }

/-- The property `get name() ...`. -/
def getterProperty (name : String) : ObjectLiteral.Property :=
  { key := Value.string name, kind := ObjectLiteral.Property.Kind.GETTER }

/-- The property `set name(v) ...`. -/
def setterProperty (name : String) : ObjectLiteral.Property :=
  { key := Value.string name, kind := ObjectLiteral.Property.Kind.SETTER }

/-- Conversions for which no key is an array index, for the examples. -/
def plainNames : KeyConversions :=
  { AsArrayIndex := fun _ => none, ToArrayIndex := fun _ => none,
    DoubleToCString := fun _ => "" }

/-- The value that the maps of the checker hold for a key. -/
def valueOf (checker : ObjectLiteralPropertyChecker) : MapKey → Nat
  | MapKey.in_elems index => checker.elems.value index
  | MapKey.in_props name => checker.props.value name

/-- The maps of the checker hold, for every key, the kinds of the properties
seen for it: bit 1 for a getter, bit 2 for a setter, bit 4 for a data
property; and no key has both a data property and an accessor. -/
structure Tracks (conv : KeyConversions) (checker : ObjectLiteralPropertyChecker)
    (seen : List ObjectLiteral.Property) : Prop where
  small : ∀ key, checker.valueOf key < 8
  getter : ∀ key, (checker.valueOf key &&& 1 ≠ 0) ↔ PropertyClass.getter ∈ kindsSeen conv seen key
  setter : ∀ key, (checker.valueOf key &&& 2 ≠ 0) ↔ PropertyClass.setter ∈ kindsSeen conv seen key
  data : ∀ key, (checker.valueOf key &&& 4 ≠ 0) ↔ PropertyClass.data ∈ kindsSeen conv seen key
  apart : ∀ key, PropertyClass.data ∈ kindsSeen conv seen key →
    PropertyClass.getter ∉ kindsSeen conv seen key ∧ PropertyClass.setter ∉ kindsSeen conv seen key

end ObjectLiteralPropertyChecker

/-! ## Productions of the parser: helpers (lines 3699-3826) -/

/-- Modelled from the spec: `RelocInfo::kNoPosition`. -/
def kNoPosition : Int := -1

/-- The call `peek()` as a production. -/
def peek : Production Token := Production.read Parser.peek

/-- The call `Next()` as a production. -/
def Next : Production Token := Production.step Parser.Next

/-- The position `scanner().location().beg_pos`. -/
def location_beg_pos : Production Int :=
  Production.read (fun p => p.scanner_.location.beg_pos)

/-- The position `scanner().peek_location().beg_pos`. -/
def peek_location_beg_pos : Production Int :=
  Production.read (fun p => p.scanner_.peek_location.beg_pos)

/-- The statements `ReportMessage(type, args); *ok = false; return NULL;`. -/
def ReportMessageAndFail {α : Type} (type : String) (args : List String) : Production α :=
  fun p => (none, p.ReportMessage type args)

/-- The statements `ReportUnexpectedToken(token); *ok = false; return NULL;`. -/
def ReportUnexpectedTokenAndFail {α : Type} (token : Token) : Production α :=
  fun p => (none, p.ReportUnexpectedToken token)

/-- Every result of the production satisfies `P`. -/
def Production.Returns {α : Type} (m : Production α) (P : α → Prop) : Prop :=
  ∀ (p q : Parser) (a : α), m p = (some a, q) → P a

/-- The function `Parser::peek_any_identifier` (lines 3699-3703). -/
def peek_any_identifier : Production Bool := do
  let next ← peek
  pure (next = Token.IDENTIFIER || next = Token.FUTURE_RESERVED_WORD)

/-- The function `Parser::Consume` (lines 3706-3711). -/
def Consume (_token : Token) : Production Unit := do
  let _ ← Next
  pure ()

/-- The function `Parser::Expect` (lines 3714-3719). -/
def Expect (token : Token) : Production Unit := do
  let next ← Next
  if next = token then pure ()
  else ReportUnexpectedTokenAndFail next

/-- The function `Parser::Check` (lines 3722-3729). -/
def Check (token : Token) : Production Bool := do
  let next ← peek
  if next = token then do
    Consume next
    pure true
  else pure false

/-- The function `Parser::ExpectSemicolon` (lines 3732-3746). -/
def ExpectSemicolon : Production Unit := do
  let tok ← peek
  if tok = Token.SEMICOLON then do
    let _ ← Next
    pure ()
  else do
    let newline ← Production.read (fun p => p.scanner_.has_line_terminator_before_next)
    if newline || tok = Token.RBRACE || tok = Token.EOS then pure ()
    else Expect Token.SEMICOLON

/-- The function `Parser::ParseIdentifierOrReservedWord` (lines 3770-3783):
the name and the value left in `*is_reserved`. -/
def ParseIdentifierOrReservedWord : Production (String × Bool) := do
  let strict ← Production.read Parser.StrictMode
  if strict then do
    Expect Token.IDENTIFIER
    let name ← Production.step Parser.GetSymbol
    pure (name, false)
  else do
    let is_identifier ← Check Token.IDENTIFIER
    if is_identifier then do
      let name ← Production.step Parser.GetSymbol
      pure (name, false)
    else do
      Expect Token.FUTURE_RESERVED_WORD
      let name ← Production.step Parser.GetSymbol
      pure (name, true)

/-- The function `Parser::ParseIdentifier` (lines 3764-3767). -/
def ParseIdentifier : Production String := do
  let r ← ParseIdentifierOrReservedWord
  pure r.1

/-- The function `Parser::ParseIdentifierName` (lines 3786-3796). -/
def ParseIdentifierName : Production String := do
  let next ← Next
  if next ≠ Token.IDENTIFIER ∧ next ≠ Token.FUTURE_RESERVED_WORD
      ∧ next.IsKeyword = false then
    ReportUnexpectedTokenAndFail next
  else Production.step Parser.GetSymbol

/-- The function `Parser::CheckStrictModeLValue` (lines 3801-3813). -/
def CheckStrictModeLValue (expression : Expression) (error : String) : Production Unit :=
  match expression with
  | Expression.VariableProxy _ name is_this _ _ =>
    if !is_this && IsEvalOrArguments name then ReportMessageAndFail error []
    else pure ()
  | _ => pure ()

/-- The function `Parser::CheckOctalLiteral` (lines 3818-3826). -/
def CheckOctalLiteral (beg_pos end_pos : Int) : Production Unit := fun p =>
  let octal := p.scanner_.octal_pos_
  if beg_pos ≤ octal ∧ octal ≤ end_pos then
    (none, { p.ReportMessageAt ⟨octal, wrapInt32 (octal + 1)⟩ "strict_octal_literal" [] with
             scanner_ := { p.scanner_ with octal_pos_ := -1 } })
  else (some (), p)

/-- Modelled from the spec: `Scope::Lookup` of `scopes.cc`: the first scope of
the chain, from the current scope outwards, that declares the name. -/
def Parser.Lookup (p : Parser) (name : String) : Option Variable :=
  (p.top_scope :: p.outer_scopes_).findSome? (fun s => s.LocalLookup name)

/-- Runs `body` with a new frame on the target stack (the constructor and the
destructor of `Target`, lines 505-523).  The destructor runs on every exit. -/
def withTarget {α : Type} (t : Target) (body : Production α) : Production α := fun p =>
  let r := body { p with target_stack_ := t :: p.target_stack_ }
  (r.1, { r.2 with target_stack_ := r.2.target_stack_.tail })

/-- Runs `body` with a new `TargetCollector` on the target stack and returns
the targets that the collector holds when its frame is removed. -/
def withCollector {α : Type} (id : Nat) (targets : List BreakTarget)
    (body : Production α) : Production (α × List BreakTarget) := fun p =>
  let r := body { p with target_stack_ := Target.collector id targets :: p.target_stack_ }
  let collected : List BreakTarget :=
    match r.2.target_stack_.head? with
    | some (Target.collector _ ts) => ts
    | _ => targets
  (r.1.map (fun a => (a, collected)),
   { r.2 with target_stack_ := r.2.target_stack_.tail })

/-- Runs `body` on an empty target stack and puts the old stack back (the
constructor and the destructor of `TargetScope`, lines 526-540). -/
def withTargetScope {α : Type} (body : Production α) : Production α := fun p =>
  let r := body { p with target_stack_ := [] }
  (r.1, { r.2 with target_stack_ := p.target_stack_ })

/-! ## Productions of the parser: expressions (lines 2266-2995, 3437-3452)

The productions that are reached through a cycle of the grammar, and the
continuations of the loops, are taken from the table `self`, which holds them
at the recursion budget of the caller minus one. -/

/-- The position stack of `ParseNewExpression` (lines 53-87); `none` is the
`NULL` stack of `ParseMemberExpression`. -/
abbrev PositionStack := Option (List Int)

/-- The productions that are reached recursively, at a given recursion
budget. -/
structure Productions where
  ParseStatement : Option Nat → Production Statement
  ParseSourceElements_loop : Token → Bool → StatementList → Production StatementList
  ParseBlock_loop : StatementList → Production StatementList
  ParseCaseClause_loop : StatementList → Production StatementList
  ParseSwitchStatement_loop : Bool → CaseClauseList → Production CaseClauseList
  ParseVariableDeclarations_loop :
    Bool → Variable.Mode → Bool → StatementList → Int →
      Production (StatementList × Expression × Int)
  ParseFunctionLiteral_params : Int → Location → Location → Location →
    Production (Int × Location × Location × Location)
  ParseFunctionLiteral : Option String → Bool → Int → FunctionLiteralType →
    Production Expression
  ParseExpression : Bool → Production Expression
  ParseExpression_loop : Bool → Expression → Production Expression
  ParseAssignmentExpression : Bool → Production Expression
  ParseBinaryExpression : Int → Bool → Production Expression
  ParseBinaryExpression_for : Int → Int → Bool → Expression → Production Expression
  ParseBinaryExpression_while : Int → Bool → Expression → Production Expression
  ParseUnaryExpression : Production Expression
  ParseNewPrefix : List Int → Production (Expression × List Int)
  ParseLeftHandSideExpression_loop : Expression → Production Expression
  ParseMemberWithNewPrefixesExpression_loop :
    PositionStack → Expression → Production (Expression × PositionStack)
  ParseArguments_loop : ExpressionList → Production ExpressionList
  ParseArrayLiteral_loop : ExpressionList → Production ExpressionList
  ParseObjectLiteral_loop :
    ObjectLiteralPropertyChecker → ObjectPropertyList → Production ObjectPropertyList

/-- The loop of `ParseArguments` (lines 3444-3449), from the loop test. -/
def ParseArguments_loop (self : Productions) (result : ExpressionList) (done : Bool) :
    Production ExpressionList :=
  if done then pure result
  else do
    let argument ← self.ParseAssignmentExpression true
    let result := result.Add argument
    let tok ← peek
    if tok = Token.RPAREN then pure result
    else do
      Expect Token.COMMA
      self.ParseArguments_loop result

/-- The function `Parser::ParseArguments` (lines 3437-3452). -/
def ParseArguments (self : Productions) : Production ExpressionList := do
  Expect Token.LPAREN
  let tok ← peek
  let result ← ParseArguments_loop self ExpressionList.nil (tok = Token.RPAREN)
  Expect Token.RPAREN
  pure result

/-- The loop of `ParseArrayLiteral` (lines 2949-2960), from the loop test. -/
def ParseArrayLiteral_loop (self : Productions) (values : ExpressionList) :
    Production ExpressionList := do
  let tok ← peek
  if tok = Token.RBRACK then pure values
  else do
    let elem ←
      if tok = Token.COMMA then pure (Expression.Literal Value.the_hole_value)
      else self.ParseAssignmentExpression true
    let values := values.Add elem
    let tok2 ← peek
    if tok2 ≠ Token.RBRACK then do
      Expect Token.COMMA
      self.ParseArrayLiteral_loop values
    else self.ParseArrayLiteral_loop values

/-- The function `Parser::GetBoilerplateValue` (lines 3056-3064), as far as
`ParseArrayLiteral` uses it: whether the value is undefined. -/
def BoilerplateValueIsUndefined (expression : Expression) : Bool :=
  match expression with
  | Expression.Literal handle => decide (handle = Value.undefined_value)
  | _ => !expression.IsCompileTimeValue

/-- The loop that fills in the literals of an array (lines 2971-2985): whether
the literal is simple, and its depth. -/
def ArrayLiteral_fill : List Expression → Bool → Int → Bool × Int
  | [], is_simple, depth => (is_simple, depth)
  | value :: rest, is_simple, depth =>
    let depth2 :=
      match value.MaterializedDepth with
      | some d => if wrapInt32 (d + 1) > depth then wrapInt32 (d + 1) else depth
      | none => depth
    ArrayLiteral_fill rest (if BoilerplateValueIsUndefined value then false else is_simple)
      depth2

/-- The function `Parser::ParseArrayLiteral` (lines 2943-2995). -/
def ParseArrayLiteral (self : Productions) : Production Expression := do
  Expect Token.LBRACK
  let values ← ParseArrayLiteral_loop self ExpressionList.nil
  Expect Token.RBRACK
  let literal_index ← Production.step Parser.NextMaterializedLiteralIndex
  let r := ArrayLiteral_fill values.toList true 1
  pure (Expression.ArrayLiteral values literal_index r.1 r.2)

/-- The function `Parser::IsBoilerplateProperty` (lines 2998-3001) on a
property that is not `NULL`. -/
def IsBoilerplateProperty (property : ObjectProperty) : Bool :=
  decide (property.kind ≠ ObjectLiteral.Property.Kind.PROTOTYPE)

/-- Modelled from the spec: `Object::IsSmi` for the handle that
`Factory::NewNumber` makes of a double: the small integers of 31 bits. -/
def JSNumber.IsSmi : JSNumber → Bool
  | JSNumber.exact v => decide (-(2 ^ 30) ≤ v ∧ v < 2 ^ 30)
  | JSNumber.untracked => false

/-- The values that the loop of `BuildObjectLiteralConstantProperties`
accumulates. -/
structure ObjectLiteralAcc where
  is_simple : Bool := true
  depth : Int := 1
  max_element_index : Nat := 0
  elements : Nat := 0
  deriving DecidableEq, Repr

/-- The body of the loop of `BuildObjectLiteralConstantProperties` (lines
3198-3235) for one property; the counters are `uint32_t` values. -/
def ObjectLiteral_step (acc : ObjectLiteralAcc) (property : ObjectProperty) :
    ObjectLiteralAcc :=
  if !IsBoilerplateProperty property then { acc with is_simple := false }
  else
    let depth :=
      match property.value.MaterializedDepth with
      | some d => if d ≥ acc.depth then wrapInt32 (d + 1) else acc.depth
      | none => acc.depth
    let is_simple := acc.is_simple && !BoilerplateValueIsUndefined property.value
    let string_index : Option Nat :=
      match property.key with
      | Value.string name => AsArrayIndex name
      | _ => none
    match string_index with
    | some element_index =>
      if element_index > acc.max_element_index then
        { is_simple := is_simple, depth := depth, max_element_index := element_index,
          elements := (acc.elements + 1) % 2 ^ 32 }
      else { acc with is_simple := is_simple, depth := depth }
    | none =>
      match property.key with
      | Value.number (JSNumber.exact key_value) =>
        if (JSNumber.exact key_value).IsSmi then
          { is_simple := is_simple, depth := depth,
            max_element_index :=
              if key_value > 0 ∧ key_value.toNat > acc.max_element_index then key_value.toNat
              else acc.max_element_index,
            elements := (acc.elements + 1) % 2 ^ 32 }
        else { acc with is_simple := is_simple, depth := depth }
      | _ => { acc with is_simple := is_simple, depth := depth }

/-- The function `Parser::BuildObjectLiteralConstantProperties` (lines
3185-3240): the values left in `*is_simple`, `*fast_elements` and `*depth`. -/
def BuildObjectLiteralConstantProperties (properties : List ObjectProperty) :
    Bool × Bool × Int :=
  let acc := properties.foldl ObjectLiteral_step {}
  (acc.is_simple,
   decide (acc.max_element_index ≤ 32)
     || decide ((2 * acc.elements) % 2 ^ 32 ≥ acc.max_element_index),
   acc.depth)

/-- Modelled from the spec: `Object::ToArrayIndex` of `objects.h` for a number:
a double whose value is an unsigned 32-bit integer is an array index. -/
def ToArrayIndex : JSNumber → Option Nat
  | JSNumber.exact v => if 0 ≤ v ∧ v < 2 ^ 32 then some v.toNat else none
  | JSNumber.untracked => none

/-- The key of a property that `ParseObjectLiteral` builds is a symbol or a
number. -/
def Value.IsPropertyKey (key : Value) : Prop :=
  (∃ name, key = Value.string name) ∨ (∃ number, key = Value.number number)

/-- What `CheckProperty` reads of a property: the handle of its key and its
kind. -/
def ObjectProperty.checked (property : ObjectProperty) : ObjectLiteral.Property :=
  { key := property.key, kind := property.kind }

/-- The call `checker.CheckProperty(property, loc, CHECK_OK)` (lines 3321 and
3373): the checker after the call.  `number_text` is the text that
`DoubleToCString` gives for a number key.  The key of a property is a symbol
or a number (the `ASSERT` of line 3138), so the last case does not arise. -/
def CheckProperty (checker : ObjectLiteralPropertyChecker) (property : ObjectProperty)
    (loc : Location) (number_text : String) : Production ObjectLiteralPropertyChecker :=
  fun p =>
    match ObjectLiteralPropertyChecker.CheckProperty
        { AsArrayIndex := AsArrayIndex, ToArrayIndex := ToArrayIndex,
          DoubleToCString := fun _ => number_text } checker property.checked loc p with
    | some (true, checker1, p1) => (some checker1, p1)
    | some (false, _, p1) => (none, p1)
    | none => (none, p)

/-- The function `Parser::ParseIdentifierOrGetOrSet` (lines 3831-3842): the
name and the values left in `*is_get` and `*is_set`. -/
def ParseIdentifierOrGetOrSet : Production (String × Bool × Bool) := do
  let result ← ParseIdentifier
  let literal ← Production.read (fun p => p.scanner_.current_.literal)
  pure (result, decide (literal = "get"),
    !decide (literal = "get") && decide (literal = "set"))

/-- The function `Parser::ParseObjectLiteralGetSet` (lines 3250-3283). -/
def ParseObjectLiteralGetSet (self : Productions) (is_getter : Bool) :
    Production ObjectProperty := do
  let next ← Next
  let is_keyword := next.IsKeyword
  if next = Token.IDENTIFIER ∨ next = Token.NUMBER ∨ next = Token.FUTURE_RESERVED_WORD
      ∨ next = Token.STRING ∨ is_keyword = true then do
    let name ←
      if is_keyword then pure next.StringOf
      else Production.step Parser.GetSymbol
    let value ← self.ParseFunctionLiteral (some name) false kNoPosition
      FunctionLiteralType.DECLARATION
    pure (ObjectProperty.accessor is_getter value)
  else ReportUnexpectedTokenAndFail next

/-- The statements that the loop of `ParseObjectLiteral` runs for a property
that has been read (lines 3320-3331 and 3372-3391), and the rest of the
loop. -/
def ParseObjectLiteral_add (self : Productions) (checker : ObjectLiteralPropertyChecker)
    (properties : ObjectPropertyList) (property : ObjectProperty) (loc : Location)
    (number_text : String) : Production ObjectPropertyList := do
  let checker ← CheckProperty checker property loc number_text
  let properties := properties.Add property
  let tok ← peek
  if tok ≠ Token.RBRACE then do
    Expect Token.COMMA
    self.ParseObjectLiteral_loop checker properties
  else self.ParseObjectLiteral_loop checker properties

/-- The statements of the loop of `ParseObjectLiteral` for a getter or setter
(lines 3316-3332), and the rest of the loop. -/
def ParseObjectLiteral_accessor (self : Productions) (checker : ObjectLiteralPropertyChecker)
    (properties : ObjectPropertyList) (is_getter : Bool) : Production ObjectPropertyList := do
  let loc ← Production.read (fun p => p.scanner_.peek_location)
  let property ← ParseObjectLiteralGetSet self is_getter
  ParseObjectLiteral_add self checker properties property loc ""

/-- The statements of the loop of `ParseObjectLiteral` behind the `switch`
(lines 3363-3391), for the key `key`, and the rest of the loop. -/
def ParseObjectLiteral_value (self : Productions) (checker : ObjectLiteralPropertyChecker)
    (properties : ObjectPropertyList) (loc : Location) (key : Value)
    (number_text : String) : Production ObjectPropertyList := do
  Expect Token.COLON
  let value ← self.ParseAssignmentExpression true
  ParseObjectLiteral_add self checker properties (ObjectProperty.data key value) loc
    number_text

/-- The loop of `ParseObjectLiteral` (lines 3297-3392), from the loop test. -/
def ParseObjectLiteral_loop (self : Productions) (checker : ObjectLiteralPropertyChecker)
    (properties : ObjectPropertyList) : Production ObjectPropertyList := do
  let next ← peek
  if next = Token.RBRACE then pure properties
  else do
    let loc ← Production.read (fun p => p.scanner_.peek_location)
    match next with
    | Token.FUTURE_RESERVED_WORD | Token.IDENTIFIER => do
      let id ← ParseIdentifierOrGetOrSet
      let tok ← peek
      if (id.2.1 || id.2.2) ∧ tok ≠ Token.COLON then
        ParseObjectLiteral_accessor self checker properties id.2.1
      else ParseObjectLiteral_value self checker properties loc (Value.string id.1) ""
    | Token.STRING => do
      Consume Token.STRING
      let string ← Production.step Parser.GetSymbol
      match AsArrayIndex string with
      | some index =>
        ParseObjectLiteral_value self checker properties loc
          (Value.number (JSNumber.exact index)) ""
      | none => ParseObjectLiteral_value self checker properties loc (Value.string string) ""
    | Token.NUMBER => do
      Consume Token.NUMBER
      let value ← Production.read (fun p => p.scanner_.current_.number)
      let number_text ← Production.read (fun p => p.scanner_.current_.number_text)
      ParseObjectLiteral_value self checker properties loc (Value.number value) number_text
    | _ =>
      if next.IsKeyword then do
        Consume next
        let string ← Production.step Parser.GetSymbol
        ParseObjectLiteral_value self checker properties loc (Value.string string) ""
      else do
        let next2 ← Next
        ReportUnexpectedTokenAndFail next2

/-- The function `Parser::ParseObjectLiteral` (lines 3286-3415). -/
def ParseObjectLiteral (self : Productions) : Production Expression := do
  let strict ← Production.read Parser.StrictMode
  Expect Token.LBRACE
  let properties ← ParseObjectLiteral_loop self { strict_ := strict } ObjectPropertyList.nil
  Expect Token.RBRACE
  let literal_index ← Production.step Parser.NextMaterializedLiteralIndex
  let r := BuildObjectLiteralConstantProperties properties.toList
  pure (Expression.ObjectLiteral properties literal_index r.1 r.2.1 r.2.2)

/-- The function `Parser::ParseRegExpLiteral` (lines 3418-3434). -/
def ParseRegExpLiteral (seen_equal : Bool) : Production Expression := do
  let terminated ← Production.read (fun p => p.scanner_.ScanRegExpPattern seen_equal)
  if !terminated then do
    let _ ← Next
    ReportMessageAndFail "unterminated_regexp" []
  else do
    let literal_index ← Production.step Parser.NextMaterializedLiteralIndex
    let js_pattern ← Production.read (fun p => p.scanner_.regexp_pattern)
    let js_flags ← Production.read (fun p => p.scanner_.regexp_flags)
    let _ ← Next
    pure (Expression.RegExpLiteral js_pattern js_flags literal_index)

/-- Modelled from the spec: `Runtime::FunctionForSymbol` of `runtime.cc`, the
entry of the name in the table of the runtime functions. -/
def Parser.FunctionForSymbol (p : Parser) (name : String) : Option Runtime.Function :=
  (p.runtime_functions.find? (fun e => e.1 == name)).map (fun e => e.2)

/-- The function `Parser::ParseV8Intrinsic` (lines 3653-3695) of a parser
without extension hook (`extension_ == NULL`). -/
def ParseV8Intrinsic (self : Productions) : Production Expression := do
  Expect Token.MOD
  let name ← ParseIdentifier
  let args ← ParseArguments self
  let function ← Production.read (fun p => p.FunctionForSymbol name)
  match function with
  | some f =>
    if f.is_IS_VAR then
      match args with
      | ExpressionList.cons arg ExpressionList.nil =>
        if arg.IsVariableProxy then pure arg
        else ReportMessageAndFail "unable_to_parse" []
      | _ => ReportMessageAndFail "unable_to_parse" []
    else if f.nargs ≠ -1 ∧ f.nargs ≠ (args.length : Int) then
      ReportMessageAndFail "illegal_access" []
    else pure (Expression.CallRuntime name args)
  | none => pure (Expression.CallRuntime name args)

/-- The function `Parser::ParsePrimaryExpression` (lines 2808-2913) of a
parser without extension hook (`extension_ == NULL`). -/
def ParsePrimaryExpression (self : Productions) : Production Expression := do
  let tok ← peek
  match tok with
  | Token.THIS => do
    Consume Token.THIS
    let id ← Production.step Parser.alloc
    Production.read (fun p => p.top_scope.receiver id)
  | Token.NULL_LITERAL => do
    Consume Token.NULL_LITERAL
    pure (Expression.Literal Value.null_value)
  | Token.TRUE_LITERAL => do
    Consume Token.TRUE_LITERAL
    pure (Expression.Literal Value.true_value)
  | Token.FALSE_LITERAL => do
    Consume Token.FALSE_LITERAL
    pure (Expression.Literal Value.false_value)
  | Token.IDENTIFIER | Token.FUTURE_RESERVED_WORD => do
    let name ← ParseIdentifier
    Production.step (fun p =>
      ((p.top_scope.NewUnresolved name p.inside_with p.next_id).1,
       { p.set_top_scope (p.top_scope.NewUnresolved name p.inside_with p.next_id).2 with
         next_id := p.next_id + 1 }))
  | Token.NUMBER => do
    Consume Token.NUMBER
    let value ← Production.read (fun p => p.scanner_.current_.number)
    pure (Parser.NewNumberLiteral value)
  | Token.STRING => do
    Consume Token.STRING
    let symbol ← Production.step Parser.GetSymbol
    pure (Expression.Literal (Value.string symbol))
  | Token.ASSIGN_DIV => ParseRegExpLiteral true
  | Token.DIV => ParseRegExpLiteral false
  | Token.LBRACK => ParseArrayLiteral self
  | Token.LBRACE => ParseObjectLiteral self
  | Token.LPAREN => do
    Consume Token.LPAREN
    let tok2 ← peek
    Production.modify (fun p => { p with parenthesized_function_ := (tok2 = Token.FUNCTION) })
    let result ← self.ParseExpression true
    Expect Token.RPAREN
    pure result
  | Token.MOD => do
    let natives ← Production.read (fun p => p.allow_natives_syntax_)
    if natives then ParseV8Intrinsic self
    else do
      let tok2 ← Next
      ReportUnexpectedTokenAndFail tok2
  | _ => do
    let tok2 ← Next
    ReportUnexpectedTokenAndFail tok2

/-- The loop of `ParseMemberWithNewPrefixesExpression` (lines 2722-2751). -/
def ParseMemberWithNewPrefixesExpression_loop (self : Productions) (stack : PositionStack)
    (result : Expression) : Production (Expression × PositionStack) := do
  let tok ← peek
  match tok with
  | Token.LBRACK => do
    Consume Token.LBRACK
    let pos ← location_beg_pos
    let index ← self.ParseExpression true
    Expect Token.RBRACK
    self.ParseMemberWithNewPrefixesExpression_loop stack (Expression.Property result index pos)
  | Token.PERIOD => do
    Consume Token.PERIOD
    let pos ← location_beg_pos
    let name ← ParseIdentifierName
    self.ParseMemberWithNewPrefixesExpression_loop stack
      (Expression.Property result (Expression.Literal (Value.string name)) pos)
  | Token.LPAREN =>
    match stack with
    | none => pure (result, stack)
    | some [] => pure (result, stack)
    | some (last :: rest) => do
      let args ← ParseArguments self
      self.ParseMemberWithNewPrefixesExpression_loop (some rest)
        (Expression.CallNew result args last)
  | _ => pure (result, stack)

/-- The function `Parser::ParseMemberWithNewPrefixesExpression` (lines
2700-2752). -/
def ParseMemberWithNewPrefixesExpression (self : Productions) (stack : PositionStack) :
    Production (Expression × PositionStack) := do
  let tok ← peek
  let result ←
    if tok = Token.FUNCTION then do
      Expect Token.FUNCTION
      let function_token_position ← location_beg_pos
      let any_identifier ← peek_any_identifier
      if any_identifier then do
        let r ← ParseIdentifierOrReservedWord
        self.ParseFunctionLiteral (some r.1) r.2 function_token_position
          FunctionLiteralType.NESTED
      else
        self.ParseFunctionLiteral none false function_token_position
          FunctionLiteralType.NESTED
    else ParsePrimaryExpression self
  ParseMemberWithNewPrefixesExpression_loop self stack result

/-- The function `Parser::ParseNewPrefix` (lines 2659-2686); the position
stack is passed in and handed back. -/
def ParseNewPrefix (self : Productions) (stack : List Int) :
    Production (Expression × List Int) := do
  Expect Token.NEW
  let pos ← location_beg_pos
  let stack := pos :: stack
  let tok ← peek
  let r ←
    if tok = Token.NEW then self.ParseNewPrefix stack
    else do
      let r ← ParseMemberWithNewPrefixesExpression self (some stack)
      pure (r.1, r.2.getD [])
  match r.2 with
  | [] => pure r
  | last :: rest => pure (Expression.CallNew r.1 ExpressionList.nil last, rest)

/-- The function `Parser::ParseNewExpression` (lines 2689-2692). -/
def ParseNewExpression (self : Productions) : Production Expression := do
  let r ← ParseNewPrefix self []
  pure r.1

/-- The function `Parser::ParseMemberExpression` (lines 2695-2697). -/
def ParseMemberExpression (self : Productions) : Production Expression := do
  let r ← ParseMemberWithNewPrefixesExpression self none
  pure r.1

/-- The loop of `ParseLeftHandSideExpression` (lines 2604-2655). -/
def ParseLeftHandSideExpression_loop (self : Productions) (result : Expression) :
    Production Expression := do
  let tok ← peek
  match tok with
  | Token.LBRACK => do
    Consume Token.LBRACK
    let pos ← location_beg_pos
    let index ← self.ParseExpression true
    Expect Token.RBRACK
    self.ParseLeftHandSideExpression_loop (Expression.Property result index pos)
  | Token.LPAREN => do
    let pos ← location_beg_pos
    let args ← ParseArguments self
    match result with
    | Expression.VariableProxy _ name is_this _ _ =>
      if !is_this && name == "eval" then
        Production.modify (fun p =>
          match p.Lookup name with
          | none => p.set_top_scope { p.top_scope with scope_calls_eval_ := true }
          | some _ => p)
      else pure ()
    | _ => pure ()
    self.ParseLeftHandSideExpression_loop (Expression.Call result args pos)
  | Token.PERIOD => do
    Consume Token.PERIOD
    let pos ← location_beg_pos
    let name ← ParseIdentifierName
    self.ParseLeftHandSideExpression_loop
      (Expression.Property result (Expression.Literal (Value.string name)) pos)
  | _ => pure result

/-- The function `Parser::ParseLeftHandSideExpression` (lines 2593-2656). -/
def ParseLeftHandSideExpression (self : Productions) : Production Expression := do
  let tok ← peek
  let result ←
    if tok = Token.NEW then ParseNewExpression self
    else ParseMemberExpression self
  ParseLeftHandSideExpression_loop self result

/-- The function `Parser::ParsePostfixExpression` (lines 2563-2590). -/
def ParsePostfixExpression (self : Productions) : Production Expression := do
  let expression ← ParseLeftHandSideExpression self
  let newline ← Production.read (fun p => p.scanner_.has_line_terminator_before_next)
  let tok ← peek
  if !newline && tok.IsCountOp then do
    let expression ←
      if !expression.IsValidLeftHandSide then
        Production.read (fun p => p.NewThrowReferenceError "invalid_lhs_in_postfix_op")
      else pure expression
    let strict ← Production.read Parser.StrictMode
    if strict then CheckStrictModeLValue expression "strict_lhs_prefix" else pure ()
    let next ← Next
    let position ← location_beg_pos
    pure (Expression.CountOperation false next expression position)
  else pure expression

/-- The function `Parser::ParseUnaryExpression` (lines 2491-2560). -/
def ParseUnaryExpression (self : Productions) : Production Expression := do
  let op ← peek
  if op.IsUnaryOp then do
    let op ← Next
    let expression ← self.ParseUnaryExpression
    let folded : Option Expression :=
      match expression.AsNumberLiteral with
      | some value =>
        match op with
        | Token.ADD => some expression
        | Token.SUB => some (Parser.NewNumberLiteral value.neg)
        | Token.BIT_NOT =>
          some (Parser.NewNumberLiteral
            (JSNumber.ofInt32 (value.DoubleToInt32.map (fun i => -i - 1))))
        | _ => none
      | none => none
    match folded with
    | some e => pure e
    | none => do
      let strict ← Production.read Parser.StrictMode
      let delete_of_identifier : Bool :=
        match expression with
        | Expression.VariableProxy _ _ is_this _ _ => !is_this
        | _ => false
      if op = Token.DELETE ∧ strict = true ∧ delete_of_identifier = true then
        ReportMessageAndFail "strict_delete" []
      else pure (Expression.UnaryOperation op expression)
  else if op.IsCountOp then do
    let op ← Next
    let expression ← self.ParseUnaryExpression
    let expression ←
      if !expression.IsValidLeftHandSide then
        Production.read (fun p => p.NewThrowReferenceError "invalid_lhs_in_prefix_op")
      else pure expression
    let strict ← Production.read Parser.StrictMode
    if strict then CheckStrictModeLValue expression "strict_lhs_prefix" else pure ()
    let position ← location_beg_pos
    pure (Expression.CountOperation true op expression position)
  else ParsePostfixExpression self

/-- The function `Precedence` (lines 2374-2379). -/
def Precedence (tok : Token) (accept_IN : Bool) : Int :=
  if tok = Token.IN ∧ accept_IN = false then 0
  else (tok.Precedence : Int)

/-- The function `Parser::NewCompareNode` (lines 2470-2488). -/
def NewCompareNode (op : Token) (x y : Expression) (position : Int) : Expression :=
  if op = Token.EQ ∨ op = Token.EQ_STRICT then
    let is_strict : Bool := op = Token.EQ_STRICT
    if x.IsNullLiteral then Expression.CompareToNull is_strict y
    else if y.IsNullLiteral then Expression.CompareToNull is_strict x
    else Expression.CompareOperation op x y position
  else Expression.CompareOperation op x y position

/-- The constant folding of `ParseBinaryExpression` (lines 2393-2441): the
folded literal, or `none` when the operands are not both number literals or
the operator is not folded. -/
def FoldBinary (op : Token) (x y : Expression) : Option Expression :=
  match x.AsNumberLiteral, y.AsNumberLiteral with
  | some x_val, some y_val =>
    match op with
    | Token.ADD => some (Parser.NewNumberLiteral (x_val.add y_val))
    | Token.SUB => some (Parser.NewNumberLiteral (x_val.sub y_val))
    | Token.MUL => some (Parser.NewNumberLiteral (x_val.mul y_val))
    | Token.DIV => some (Parser.NewNumberLiteral (x_val.div y_val))
    | Token.BIT_OR =>
      some (Parser.NewNumberLiteral (JSNumber.ofInt32
        (match x_val.DoubleToInt32, y_val.DoubleToInt32 with
         | some a, some b => some (Int.lor a b)
         | _, _ => none)))
    | Token.BIT_AND =>
      some (Parser.NewNumberLiteral (JSNumber.ofInt32
        (match x_val.DoubleToInt32, y_val.DoubleToInt32 with
         | some a, some b => some (Int.land a b)
         | _, _ => none)))
    | Token.BIT_XOR =>
      some (Parser.NewNumberLiteral (JSNumber.ofInt32
        (match x_val.DoubleToInt32, y_val.DoubleToInt32 with
         | some a, some b => some (Int.xor a b)
         | _, _ => none)))
    | Token.SHL =>
      some (Parser.NewNumberLiteral (JSNumber.ofInt32
        (match x_val.DoubleToInt32, y_val.DoubleToInt32 with
         | some a, some b => some (wrapInt32 (a * 2 ^ (b % 32).toNat))
         | _, _ => none)))
    | Token.SHR =>
      some (Parser.NewNumberLiteral (JSNumber.ofInt32
        (match x_val.DoubleToUint32, y_val.DoubleToInt32 with
         | some a, some b => some ((a / 2 ^ (b % 32).toNat : Nat) : Int)
         | _, _ => none)))
    | Token.SAR =>
      some (Parser.NewNumberLiteral (JSNumber.ofInt32
        (match x_val.DoubleToInt32, y_val.DoubleToInt32 with
         | some a, some b => some (a / 2 ^ (b % 32).toNat)
         | _, _ => none)))
    | _ => none
  | _, _ => none

/-- The node that `ParseBinaryExpression` builds from `x op y` (lines
2393-2463). -/
def BuildBinary (op : Token) (x y : Expression) (position : Int) : Expression :=
  match FoldBinary op x y with
  | some literal => literal
  | none =>
    if op.IsCompareOp then
      let cmp : Token :=
        match op with
        | Token.NE => Token.EQ
        | Token.NE_STRICT => Token.EQ_STRICT
        | _ => op
      if cmp ≠ op then
        Expression.UnaryOperation Token.NOT (NewCompareNode cmp x y position)
      else NewCompareNode cmp x y position
    else Expression.BinaryOperation op x y position

/-- The inner `while` loop of `ParseBinaryExpression` (lines 2388-2464), from
the loop test. -/
def ParseBinaryExpression_while (self : Productions) (prec1 : Int) (accept_IN : Bool)
    (x : Expression) : Production Expression := do
  let tok ← peek
  if Precedence tok accept_IN = prec1 then do
    let op ← Next
    let position ← location_beg_pos
    let y ← self.ParseBinaryExpression (prec1 + 1) accept_IN
    self.ParseBinaryExpression_while prec1 accept_IN (BuildBinary op x y position)
  else pure x

/-- The `for` loop of `ParseBinaryExpression` (lines 2386-2465), from the loop
test. -/
def ParseBinaryExpression_for (self : Productions) (prec prec1 : Int) (accept_IN : Bool)
    (x : Expression) : Production Expression :=
  if prec1 ≥ prec then do
    let x ← ParseBinaryExpression_while self prec1 accept_IN x
    self.ParseBinaryExpression_for prec (prec1 - 1) accept_IN x
  else pure x

/-- The function `Parser::ParseBinaryExpression` (lines 2383-2467). -/
def ParseBinaryExpression (self : Productions) (prec : Int) (accept_IN : Bool) :
    Production Expression := do
  let x ← ParseUnaryExpression self
  let tok ← peek
  ParseBinaryExpression_for self prec (Precedence tok accept_IN) accept_IN x

/-- The function `Parser::ParseConditionalExpression` (lines 2352-2371). -/
def ParseConditionalExpression (self : Productions) (accept_IN : Bool) :
    Production Expression := do
  let expression ← ParseBinaryExpression self 4 accept_IN
  let tok ← peek
  if tok ≠ Token.CONDITIONAL then pure expression
  else do
    Consume Token.CONDITIONAL
    let left_position ← peek_location_beg_pos
    let left ← self.ParseAssignmentExpression true
    Expect Token.COLON
    let right_position ← peek_location_beg_pos
    let right ← self.ParseAssignmentExpression accept_IN
    pure (Expression.Conditional expression left right left_position right_position)

/-- The function `Parser::ParseAssignmentExpression` (lines 2283-2348). -/
def ParseAssignmentExpression (self : Productions) (accept_IN : Bool) :
    Production Expression := do
  let expression ← ParseConditionalExpression self accept_IN
  let tok ← peek
  if !tok.IsAssignmentOp then pure expression
  else do
    let expression ←
      if !expression.IsValidLeftHandSide then
        Production.read (fun p => p.NewThrowReferenceError "invalid_lhs_in_assignment")
      else pure expression
    let strict ← Production.read Parser.StrictMode
    if strict then CheckStrictModeLValue expression "strict_lhs_assignment" else pure ()
    let op ← Next
    let pos ← location_beg_pos
    let right ← self.ParseAssignmentExpression accept_IN
    let assigns_this_property : Bool :=
      match expression with
      | Expression.Property (Expression.VariableProxy _ _ is_this _ _) _ _ => is_this
      | _ => false
    if op = Token.ASSIGN ∧ assigns_this_property = true then
      Production.modify Parser.AddProperty
    else pure ()
    pure (Expression.Assignment op expression right pos)

/-- The loop of `ParseExpression` (lines 2272-2277), from the loop test. -/
def ParseExpression_loop (self : Productions) (accept_IN : Bool) (result : Expression) :
    Production Expression := do
  let tok ← peek
  if tok = Token.COMMA then do
    Expect Token.COMMA
    let position ← location_beg_pos
    let right ← ParseAssignmentExpression self accept_IN
    self.ParseExpression_loop accept_IN
      (Expression.BinaryOperation Token.COMMA result right position)
  else pure result

/-- The function `Parser::ParseExpression` (lines 2266-2279). -/
def ParseExpression (self : Productions) (accept_IN : Bool) : Production Expression := do
  let result ← ParseAssignmentExpression self accept_IN
  ParseExpression_loop self accept_IN result

/-! ## Productions of the parser: statements (lines 1086-2262) -/

/-- The empty statement returned by `EmptyStatement()`. -/
def EmptyStatement : Statement := Statement.EmptyStatement

/-- The list `labels` after `labels->Add(label)`, where a `NULL` list is
allocated first (lines 1735-1736): the address of the list and the new zone. -/
def AddLabel (p : Parser) (labels : Option Nat) (label : String) : Nat × Parser :=
  match labels with
  | none => (p.zone_labels.length, { p with zone_labels := p.zone_labels ++ [[label]] })
  | some r => (r, { p with zone_labels := p.zone_labels.set r (p.zone_labels.getD r [] ++ [label]) })

/-- The two initial statements that `ParseVariableDeclarations` adds for one
declared name (lines 1635-1682): the runtime call for a global declaration and
the assignment of a pending value. -/
def VariableDeclaration_statements (p : Parser) (name : String) (is_const : Bool)
    (last_var : Expression) (value : Option Expression) (position : Int)
    (block : StatementList) : StatementList :=
  let r : StatementList × Option Expression :=
    if p.top_scope.is_global_scope then
      let zapped : Bool := is_const || (value.isSome && !p.inside_with)
      let arguments : ExpressionList :=
        match zapped, value with
        | true, some v =>
          ExpressionList.cons (Expression.Literal (Value.string name))
            (ExpressionList.cons v ExpressionList.nil)
        | _, _ => ExpressionList.cons (Expression.Literal (Value.string name)) ExpressionList.nil
      let init_call : Expression :=
        if is_const then Expression.CallRuntime "InitializeConstGlobal" arguments
        else Expression.CallRuntime "InitializeVarGlobal" arguments
      (block.Add (Statement.ExpressionStatement init_call), if zapped then none else value)
    else (block, value)
  match r.2 with
  | some v =>
    r.1.Add (Statement.ExpressionStatement
      (Expression.Assignment (if is_const then Token.INIT_CONST else Token.INIT_VAR)
        last_var v position))
  | none => r.1

/-- The body of the `do`-`while` loop of `ParseVariableDeclarations` (lines
1540-1685): the statements of the block, the variable declared last and the
number of variables declared. -/
def ParseVariableDeclarations_loop (self : Productions) (accept_IN : Bool)
    (mode : Variable.Mode) (is_const : Bool) (block : StatementList) (nvars : Int) :
    Production (StatementList × Expression × Int) := do
  if nvars > 0 then Consume Token.COMMA else pure ()
  let name ← ParseIdentifier
  let strict ← Production.read Parser.StrictMode
  if strict && IsEvalOrArguments name then
    ReportMessageAndFail "strict_var_name" []
  else do
    let last_var ← Declare name mode none is_const
    let nvars := wrapInt32 (nvars + 1)
    let tok ← peek
    let init : Option Expression × Int ←
      if tok = Token.ASSIGN then do
        Expect Token.ASSIGN
        let position ← location_beg_pos
        let value ← self.ParseAssignmentExpression accept_IN
        pure (some value, position)
      else pure (none, -1)
    let value : Option Expression :=
      match init.1 with
      | none => if is_const then some (Expression.Literal Value.undefined_value) else none
      | some v => some v
    let block ← Production.read (fun p =>
      VariableDeclaration_statements p name is_const last_var value init.2 block)
    let tok2 ← peek
    if tok2 = Token.COMMA then
      self.ParseVariableDeclarations_loop accept_IN mode is_const block nvars
    else pure (block, last_var, nvars)

/-- The function `Parser::ParseVariableDeclarations` (lines 1506-1694): the
initializer block and the value left in `*var` (`none` when it is untouched). -/
def ParseVariableDeclarations (self : Productions) (accept_IN : Bool) :
    Production (Statement × Option Expression) := do
  let tok ← peek
  let is_const : Bool := tok = Token.CONST
  let mode : Variable.Mode := if is_const then Variable.Mode.CONST else Variable.Mode.VAR
  Consume tok
  let id ← Production.step Parser.alloc
  let r ← ParseVariableDeclarations_loop self accept_IN mode is_const StatementList.nil 0
  let block := Statement.Block id none true r.1
  if !is_const && r.2.2 = 1 then pure (block, some r.2.1)
  else pure (block, none)

/-- The function `Parser::ParseVariableStatement` (lines 1486-1494). -/
def ParseVariableStatement (self : Productions) : Production Statement := do
  let r ← ParseVariableDeclarations self true
  ExpectSemicolon
  pure r.1

/-- The loop of `ParseBlock` (lines 1477-1480), from the loop test. -/
def ParseBlock_loop (self : Productions) (statements : StatementList) :
    Production StatementList := do
  let tok ← peek
  if tok ≠ Token.RBRACE then do
    let stat ← self.ParseStatement none
    self.ParseBlock_loop (if !stat.IsEmpty then statements.Add stat else statements)
  else pure statements

/-- The function `Parser::ParseBlock` (lines 1466-1483). -/
def ParseBlock (self : Productions) (labels : Option Nat) : Production Statement := do
  let id ← Production.step Parser.alloc
  withTarget (Target.breakable id labels BreakableKind.Block) do
    Expect Token.LBRACE
    let statements ← ParseBlock_loop self StatementList.nil
    Expect Token.RBRACE
    pure (Statement.Block id labels false statements)

/-- The function `Parser::ParseExpressionOrLabelledStatement` (lines
1708-1748). -/
def ParseExpressionOrLabelledStatement (self : Productions) (labels : Option Nat) :
    Production Statement := do
  let starts_with_idenfifier ← peek_any_identifier
  let expr ← ParseExpression self true
  let tok ← peek
  let label : Option (Nat × String) :=
    match expr with
    | Expression.VariableProxy id name is_this _ _ =>
      if tok = Token.COLON ∧ starts_with_idenfifier = true ∧ is_this = false then some (id, name)
      else none
    | _ => none
  match label with
  | some (var, label) => do
    let redeclared ← Production.read (fun p =>
      p.ContainsLabel labels label || p.TargetStackContainsLabel label)
    if redeclared then ReportMessageAndFail "redeclaration" ["Label", label]
    else do
      let labels ← Production.step (fun p => AddLabel p labels label)
      Production.modify (fun p => p.set_top_scope (p.top_scope.RemoveUnresolved var))
      Expect Token.COLON
      self.ParseStatement (some labels)
  | none => do
    ExpectSemicolon
    pure (Statement.ExpressionStatement expr)

/-- The function `Parser::ParseIfStatement` (lines 1751-1768). -/
def ParseIfStatement (self : Productions) (labels : Option Nat) : Production Statement := do
  Expect Token.IF
  Expect Token.LPAREN
  let condition ← ParseExpression self true
  Expect Token.RPAREN
  let then_statement ← self.ParseStatement labels
  let tok ← peek
  if tok = Token.ELSE then do
    let _ ← Next
    let else_statement ← self.ParseStatement labels
    pure (Statement.IfStatement condition then_statement else_statement)
  else pure (Statement.IfStatement condition then_statement EmptyStatement)

/-- The optional label of a `break` or `continue` statement (lines 1776-1781
and 1806-1811); `none` is the null handle. -/
def ParseJumpLabel : Production (Option String) := do
  let tok ← peek
  let newline ← Production.read (fun p => p.scanner_.has_line_terminator_before_next)
  if !newline ∧ tok ≠ Token.SEMICOLON ∧ tok ≠ Token.RBRACE ∧ tok ≠ Token.EOS then do
    let label ← ParseIdentifier
    pure (some label)
  else pure none

/-- The report of an illegal `break` or `continue` (lines 1784-1795 and
1819-1830). -/
def ReportIllegalJump {α : Type} (message : String) (label : Option String) : Production α :=
  fun p =>
    match label with
    | none => (none, p.ReportMessageAt p.scanner_.location message [])
    | some l => (none, p.ReportMessageAt p.scanner_.location "unknown_label" [l])

/-- The function `Parser::ParseContinueStatement` (lines 1771-1798). -/
def ParseContinueStatement : Production Statement := do
  Expect Token.CONTINUE
  let label ← ParseJumpLabel
  let target ← Production.step (fun p => p.LookupContinueTarget label)
  match target with
  | none => ReportIllegalJump "illegal_continue" label
  | some t => do
    ExpectSemicolon
    pure (Statement.ContinueStatement t)

/-- The function `Parser::ParseBreakStatement` (lines 1801-1833). -/
def ParseBreakStatement (labels : Option Nat) : Production Statement := do
  Expect Token.BREAK
  let label ← ParseJumpLabel
  let targets_itself ← Production.read (fun p =>
    match label with
    | some l => p.ContainsLabel labels l
    | none => false)
  if targets_itself then pure EmptyStatement
  else do
    let target ← Production.step (fun p => p.LookupBreakTarget label)
    match target with
    | none => ReportIllegalJump "illegal_break" label
    | some t => do
      ExpectSemicolon
      pure (Statement.BreakStatement t)

/-- The function `Parser::ParseReturnStatement` (lines 1836-1868). -/
def ParseReturnStatement (self : Productions) : Production Statement := do
  Expect Token.RETURN
  let in_function ← Production.read (fun p => p.top_scope.is_function_scope)
  if !in_function then do
    let throw_error ← Production.read (fun p => p.NewThrowSyntaxError "illegal_return")
    pure (Statement.ExpressionStatement throw_error)
  else do
    let tok ← peek
    let newline ← Production.read (fun p => p.scanner_.has_line_terminator_before_next)
    if newline || tok = Token.SEMICOLON || tok = Token.RBRACE || tok = Token.EOS then do
      ExpectSemicolon
      pure (Statement.ReturnStatement (Expression.Literal Value.undefined_value))
    else do
      let expr ← ParseExpression self true
      ExpectSemicolon
      pure (Statement.ReturnStatement expr)

/-- The function `Parser::WithHelper` (lines 1871-1907). -/
def WithHelper (self : Productions) (obj : Expression) (labels : Option Nat)
    (is_catch_block : Bool) : Production Statement := do
  let collector ← Production.step Parser.alloc
  let r ← withCollector collector [] do
    Production.modify (fun p =>
      { p.set_top_scope { p.top_scope with scope_contains_with_ := true } with
        with_nesting_level_ := wrapInt32 (p.with_nesting_level_ + 1) })
    let stat ← self.ParseStatement labels
    Production.modify (fun p =>
      { p with with_nesting_level_ := wrapInt32 (p.with_nesting_level_ - 1) })
    pure stat
  let result ← Production.step Parser.alloc
  let body ← Production.step Parser.alloc
  let exit ← Production.step Parser.alloc
  pure (Statement.Block result none false
    (StatementList.cons (Statement.WithEnterStatement obj is_catch_block)
      (StatementList.cons
        (Statement.TryFinallyStatement
          (Statement.Block body none false (StatementList.cons r.1 StatementList.nil))
          (Statement.Block exit none false
            (StatementList.cons Statement.WithExitStatement StatementList.nil))
          r.2)
        StatementList.nil)))

/-- The function `Parser::ParseWithStatement` (lines 1910-1927). -/
def ParseWithStatement (self : Productions) (labels : Option Nat) : Production Statement := do
  Expect Token.WITH
  let strict ← Production.read Parser.StrictMode
  if strict then ReportMessageAndFail "strict_mode_with" []
  else do
    Expect Token.LPAREN
    let expr ← ParseExpression self true
    Expect Token.RPAREN
    WithHelper self expr labels false

/-- The loop of `ParseCaseClause` (lines 1952-1957), from the loop test. -/
def ParseCaseClause_loop (self : Productions) (statements : StatementList) :
    Production StatementList := do
  let tok ← peek
  if tok ≠ Token.CASE ∧ tok ≠ Token.DEFAULT ∧ tok ≠ Token.RBRACE then do
    let stat ← self.ParseStatement none
    self.ParseCaseClause_loop (statements.Add stat)
  else pure statements

/-- The function `Parser::ParseCaseClause` (lines 1930-1960): the clause and
the value left in `*default_seen_ptr`. -/
def ParseCaseClause (self : Productions) (default_seen : Bool) :
    Production (CaseClause × Bool) := do
  let tok ← peek
  let r : ExpressionList × Bool ←
    if tok = Token.CASE then do
      Expect Token.CASE
      let label ← ParseExpression self true
      pure (ExpressionList.cons label ExpressionList.nil, default_seen)
    else do
      Expect Token.DEFAULT
      if default_seen then ReportMessageAndFail "multiple_defaults_in_switch" []
      else pure (ExpressionList.nil, true)
  Expect Token.COLON
  let pos ← location_beg_pos
  let statements ← ParseCaseClause_loop self StatementList.nil
  pure (CaseClause.mk r.1 statements pos, r.2)

/-- The loop of `ParseSwitchStatement` (lines 1979-1982), from the loop test. -/
def ParseSwitchStatement_loop (self : Productions) (default_seen : Bool)
    (cases : CaseClauseList) : Production CaseClauseList := do
  let tok ← peek
  if tok ≠ Token.RBRACE then do
    let r ← ParseCaseClause self default_seen
    self.ParseSwitchStatement_loop r.2 (cases.Add r.1)
  else pure cases

/-- The function `Parser::ParseSwitchStatement` (lines 1963-1987). -/
def ParseSwitchStatement (self : Productions) (labels : Option Nat) :
    Production Statement := do
  let id ← Production.step Parser.alloc
  withTarget (Target.breakable id labels BreakableKind.Switch) do
    Expect Token.SWITCH
    Expect Token.LPAREN
    let tag ← ParseExpression self true
    Expect Token.RPAREN
    Expect Token.LBRACE
    let cases ← ParseSwitchStatement_loop self false CaseClauseList.nil
    Expect Token.RBRACE
    pure (Statement.SwitchStatement id labels tag cases)

/-- The function `Parser::ParseThrowStatement` (lines 1990-2005). -/
def ParseThrowStatement (self : Productions) : Production Statement := do
  Expect Token.THROW
  let pos ← location_beg_pos
  let newline ← Production.read (fun p => p.scanner_.has_line_terminator_before_next)
  if newline then ReportMessageAndFail "newline_after_throw" []
  else do
    let exception ← ParseExpression self true
    ExpectSemicolon
    pure (Statement.ExpressionStatement (Expression.Throw exception pos))

/-- The function `Parser::ParseTryStatement` (lines 2008-2119). -/
def ParseTryStatement (self : Productions) : Production Statement := do
  Expect Token.TRY
  let collector ← Production.step Parser.alloc
  let try_r ← withCollector collector [] (ParseBlock self none)
  let tok ← peek
  if tok ≠ Token.CATCH ∧ tok ≠ Token.FINALLY then
    ReportMessageAndFail "no_catch_or_finally" []
  else do
    let catch_collector ← Production.step Parser.alloc
    let has_catch : Bool := tok = Token.CATCH
    -- lines 2048-2078: the catch clause; the result is the catch block with
    -- its variable, and the targets held by `catch_collector`
    let catch_r : Option (Statement × Variable) × List BreakTarget ←
      if has_catch then do
        Consume Token.CATCH
        Expect Token.LPAREN
        let name ← ParseIdentifier
        let strict ← Production.read Parser.StrictMode
        if strict && IsEvalOrArguments name then
          ReportMessageAndFail "strict_catch_variable" []
        else do
          Expect Token.RPAREN
          let tok2 ← peek
          if tok2 = Token.LBRACE then do
            let catch_var ← Production.step (fun p =>
              ((p.top_scope.NewTemporary ".catch-var" p.next_id).1,
               { p.set_top_scope (p.top_scope.NewTemporary ".catch-var" p.next_id).2 with
                 next_id := p.next_id + 1 }))
            let use_id ← Production.step Parser.alloc
            let obj := Expression.CatchExtensionObject
              (Expression.Literal (Value.string name))
              (Expression.VariableProxy use_id catch_var.name false false (some catch_var))
            let r ← withCollector catch_collector [] (WithHelper self obj none true)
            pure (some (r.1, catch_var), r.2)
          else do
            Expect Token.LBRACE
            pure (none, [])
      else pure (none, [])
    let tok3 ← peek
    let finally_block : Option Statement ←
      if tok3 = Token.FINALLY || !has_catch then do
        Consume Token.FINALLY
        let b ← ParseBlock self none
        pure (some b)
      else pure none
    match catch_r.1, finally_block with
    | some (catch_block, catch_var), some finally_b => do
      let defn_id ← Production.step Parser.alloc
      let inner := Statement.TryCatchStatement try_r.1
        (Expression.VariableProxy defn_id catch_var.name false false (some catch_var))
        catch_block try_r.2
      let block_id ← Production.step Parser.alloc
      pure (Statement.TryFinallyStatement
        (Statement.Block block_id none false (StatementList.cons inner StatementList.nil))
        finally_b
        (try_r.2.foldl TargetCollector_AddTarget catch_r.2))
    | some (catch_block, catch_var), none => do
      let defn_id ← Production.step Parser.alloc
      pure (Statement.TryCatchStatement try_r.1
        (Expression.VariableProxy defn_id catch_var.name false false (some catch_var))
        catch_block try_r.2)
    | none, some finally_b =>
      pure (Statement.TryFinallyStatement try_r.1 finally_b
        (try_r.2.foldl TargetCollector_AddTarget catch_r.2))
    | none, none => Production.fail

/-- The function `Parser::ParseDoWhileStatement` (lines 2122-2153). -/
def ParseDoWhileStatement (self : Productions) (labels : Option Nat) :
    Production Statement := do
  Production.modify Parser.AddLoop
  let id ← Production.step Parser.alloc
  withTarget (Target.breakable id labels BreakableKind.DoWhile) do
    Expect Token.DO
    let body ← self.ParseStatement none
    Expect Token.WHILE
    Expect Token.LPAREN
    let position ← location_beg_pos
    let cond ← ParseExpression self true
    Expect Token.RPAREN
    let tok ← peek
    if tok = Token.SEMICOLON then Consume Token.SEMICOLON else pure ()
    pure (Statement.DoWhileStatement id labels cond body position)

/-- The function `Parser::ParseWhileStatement` (lines 2156-2173). -/
def ParseWhileStatement (self : Productions) (labels : Option Nat) :
    Production Statement := do
  Production.modify Parser.AddLoop
  let id ← Production.step Parser.alloc
  withTarget (Target.breakable id labels BreakableKind.While) do
    Expect Token.WHILE
    Expect Token.LPAREN
    let cond ← ParseExpression self true
    Expect Token.RPAREN
    let body ← self.ParseStatement none
    pure (Statement.WhileStatement id labels cond body)

/-- The standard `for` loop of `ParseForStatement` (lines 2238-2261), after
the initializer. -/
def ParseForStatement_standard (self : Productions) (labels : Option Nat)
    (init : StatementList) : Production Statement := do
  let id ← Production.step Parser.alloc
  withTarget (Target.breakable id labels BreakableKind.For) do
    Expect Token.SEMICOLON
    let tok ← peek
    let cond : ExpressionList ←
      if tok ≠ Token.SEMICOLON then do
        let c ← ParseExpression self true
        pure (ExpressionList.cons c ExpressionList.nil)
      else pure ExpressionList.nil
    Expect Token.SEMICOLON
    let tok2 ← peek
    let next : StatementList ←
      if tok2 ≠ Token.RPAREN then do
        let exp ← ParseExpression self true
        pure (StatementList.cons (Statement.ExpressionStatement exp) StatementList.nil)
      else pure StatementList.nil
    Expect Token.RPAREN
    let body ← self.ParseStatement none
    pure (Statement.ForStatement id labels init cond next body)

/-- The `for`-`in` loop of `ParseForStatement` (lines 2191-2199 and
2220-2230), from the keyword `in`. -/
def ParseForStatement_in (self : Productions) (labels : Option Nat) (each : Expression) :
    Production Statement := do
  let id ← Production.step Parser.alloc
  withTarget (Target.breakable id labels BreakableKind.ForIn) do
    Expect Token.IN
    let enumerable ← ParseExpression self true
    Expect Token.RPAREN
    let body ← self.ParseStatement none
    pure (Statement.ForInStatement id labels each enumerable body)

/-- The function `Parser::ParseForStatement` (lines 2176-2262). -/
def ParseForStatement (self : Productions) (labels : Option Nat) : Production Statement := do
  Production.modify Parser.AddLoop
  Expect Token.FOR
  Expect Token.LPAREN
  let tok ← peek
  if tok ≠ Token.SEMICOLON then
    if tok = Token.VAR ∨ tok = Token.CONST then do
      let r ← ParseVariableDeclarations self false
      let tok2 ← peek
      match r.2 with
      | some each =>
        if tok2 = Token.IN then do
          let loop ← ParseForStatement_in self labels each
          let result ← Production.step Parser.alloc
          pure (Statement.Block result none false
            (StatementList.cons r.1 (StatementList.cons loop StatementList.nil)))
        else ParseForStatement_standard self labels (StatementList.cons r.1 StatementList.nil)
      | none => ParseForStatement_standard self labels (StatementList.cons r.1 StatementList.nil)
    else do
      let expression ← ParseExpression self false
      let tok2 ← peek
      if tok2 = Token.IN then do
        let expression ←
          if !expression.IsValidLeftHandSide then
            Production.read (fun p => p.NewThrowReferenceError "invalid_lhs_in_for_in")
          else pure expression
        ParseForStatement_in self labels expression
      else
        ParseForStatement_standard self labels
          (StatementList.cons (Statement.ExpressionStatement expression) StatementList.nil)
  else ParseForStatement_standard self labels StatementList.nil

/-- The function `Parser::ParseDebuggerStatement` (lines 2755-2765). -/
def ParseDebuggerStatement : Production Statement := do
  Expect Token.DEBUGGER
  ExpectSemicolon
  pure Statement.DebuggerStatement

/-- The function `Parser::ParseFunctionDeclaration` (lines 1446-1463). -/
def ParseFunctionDeclaration (self : Productions) : Production Statement := do
  Expect Token.FUNCTION
  let function_token_position ← location_beg_pos
  let r ← ParseIdentifierOrReservedWord
  let fun_ ← self.ParseFunctionLiteral (some r.1) r.2 function_token_position
    FunctionLiteralType.DECLARATION
  let _ ← Declare r.1 Variable.Mode.VAR (some fun_) true
  pure EmptyStatement

/-- The function `Parser::ParseNativeDeclaration` (lines 1388-1443) of a
parser without extension hook (`extension_ == NULL`). -/
def ParseNativeDeclaration : Production Statement :=
  ReportUnexpectedTokenAndFail Token.NATIVE

/-- The function `Parser::ParseStatement` (lines 1169-1283). -/
def ParseStatement (self : Productions) (labels : Option Nat) : Production Statement := do
  let tok ← peek
  match tok with
  | Token.LBRACE => ParseBlock self labels
  | Token.CONST => ParseVariableStatement self
  | Token.VAR => ParseVariableStatement self
  | Token.SEMICOLON => do
    let _ ← Next
    pure EmptyStatement
  | Token.IF => ParseIfStatement self labels
  | Token.DO => ParseDoWhileStatement self labels
  | Token.WHILE => ParseWhileStatement self labels
  | Token.FOR => ParseForStatement self labels
  | Token.CONTINUE => ParseContinueStatement
  | Token.BREAK => ParseBreakStatement labels
  | Token.RETURN => ParseReturnStatement self
  | Token.WITH => ParseWithStatement self labels
  | Token.SWITCH => ParseSwitchStatement self labels
  | Token.THROW => ParseThrowStatement self
  | Token.TRY => do
    let result ← Production.step Parser.alloc
    withTarget (Target.breakable result labels BreakableKind.Block) do
      let statement ← ParseTryStatement self
      pure (Statement.Block result labels false
        (StatementList.cons statement StatementList.nil))
  | Token.FUNCTION => ParseFunctionDeclaration self
  | Token.NATIVE => ParseNativeDeclaration
  | Token.DEBUGGER => ParseDebuggerStatement
  | _ => ParseExpressionOrLabelledStatement self labels

/-- The string `Heap::use_strict()`. -/
def use_strict : String := "use strict"

/-- Whether the statement is the directive that switches on strict mode (lines
1121-1130): an expression statement made of a string literal that equals
`use strict` and whose token is two characters longer than that string. -/
def IsUseStrictDirective (stat : Statement) (token_loc : Location) : Bool :=
  match stat with
  | Statement.ExpressionStatement (Expression.Literal (Value.string directive)) =>
    directive == use_strict
      && decide (wrapInt32 (token_loc.end_pos - token_loc.beg_pos)
                  = wrapInt32 ((use_strict.length : Int) + 2))
  | _ => false

/-- Whether the statement is an expression statement made of a string literal
(lines 1121-1123). -/
def IsStringLiteralStatement (stat : Statement) : Bool :=
  match stat with
  | Statement.ExpressionStatement (Expression.Literal (Value.string _)) => true
  | _ => false

/-- The loop of `ParseSourceElements` (lines 1103-1152), from the loop test.
The two finders that annotate the statements are not part of the embedding. -/
def ParseSourceElements_loop (self : Productions) (end_token : Token)
    (directive_prologue : Bool) (processor : StatementList) : Production StatementList := do
  let tok ← peek
  if tok ≠ end_token then do
    let directive_prologue : Bool := directive_prologue && tok = Token.STRING
    let token_loc ← Production.read (fun p => p.scanner_.peek_location)
    let stat ← self.ParseStatement none
    if stat.IsEmpty then
      self.ParseSourceElements_loop end_token false processor
    else if directive_prologue then
      if IsStringLiteralStatement stat then do
        let strict ← Production.read Parser.StrictMode
        if !strict && IsUseStrictDirective stat token_loc then do
          Production.modify Parser.EnableStrictMode
          self.ParseSourceElements_loop end_token false (processor.Add stat)
        else self.ParseSourceElements_loop end_token true (processor.Add stat)
      else self.ParseSourceElements_loop end_token false (processor.Add stat)
    else self.ParseSourceElements_loop end_token false (processor.Add stat)
  else pure processor

/-- The function `Parser::ParseSourceElements` (lines 1086-1166): the
statements added to `processor`. -/
def ParseSourceElements (self : Productions) (processor : StatementList)
    (end_token : Token) : Production StatementList :=
  withTargetScope (ParseSourceElements_loop self end_token true processor)

/-! ## Productions of the parser: function literals and programs
(lines 645-782 and 3455-3650) -/

namespace Location

/-- Modelled from the spec: `Scanner::NoLocation` of `scanner-base.h`. -/
def NoLocation : Location := ⟨-1, -1⟩

/-- Modelled from the spec: `Scanner::Location::IsValid`. -/
def IsValid (l : Location) : Bool := decide (l.beg_pos ≥ 0 ∧ l.end_pos ≥ l.beg_pos)

end Location

/-- Modelled from the spec: `Parser::kMaxNumFunctionParameters` of
`parser.h`. -/
def kMaxNumFunctionParameters : Int := 32766

/-- Runs `body` with `scope` as the current scope and puts the old scope and
the old with-nesting level back (the constructor and the destructor of
`LexicalScope`, lines 548-572).  The scope that is left is kept in the zone. -/
def withLexicalScope {α : Type} (scope : Scope) (body : Production α) : Production α :=
  fun p =>
    let r := body { p with
      top_scope_ := some scope,
      outer_scopes_ :=
        match p.top_scope_ with
        | some s => s :: p.outer_scopes_
        | none => p.outer_scopes_,
      with_nesting_level_ := 0 }
    (r.1, { r.2 with
      top_scope_ := p.top_scope_,
      outer_scopes_ := p.outer_scopes_,
      with_nesting_level_ := p.with_nesting_level_,
      zone_scopes := r.2.zone_scopes ++ [r.2.top_scope] })

/-- Runs `body` with a new accumulator that inherits the strict flag, and puts
the old accumulator back (the constructor and the destructor of
`TemporaryScope`, lines 317-333). -/
def withTemporaryScope {α : Type} (body : Production α) : Production α := fun p =>
  let r := body { p with
    temp_scope_ := some
      { strict_mode_ :=
          match p.temp_scope_ with
          | some parent => parent.strict_mode_
          | none => false } }
  (r.1, { r.2 with temp_scope_ := p.temp_scope_ })

/-- Modelled from the spec: `Scope::HasTrivialOuterContext` of `scopes.cc`:
the scope is not inside a `with` and no enclosing scope is an eval scope or
inside a `with`. -/
def Parser.HasTrivialOuterContext (p : Parser) : Bool :=
  match p.outer_scopes_ with
  | [] => true
  | outer =>
    !p.top_scope.scope_inside_with_
      && outer.all (fun s => !s.is_eval_scope && !s.scope_inside_with_)

/-- The function `Parser::ReportInvalidPreparseData` (lines 2799-2805),
followed by the return of `CHECK_OK`. -/
def ReportInvalidPreparseData {α : Type} (name : String) : Production α :=
  ReportMessageAndFail "invalid_preparser_data" [name]

/-- The loop over the formal parameters in `ParseFunctionLiteral` (lines
3493-3520), from the start of one iteration: the number of parameters and the
three locations kept for the strict-mode reports. -/
def ParseFunctionLiteral_params (self : Productions) (num_parameters : Int)
    (name_loc dupe_loc reserved_loc : Location) :
    Production (Int × Location × Location × Location) := do
  let r ← ParseIdentifierOrReservedWord
  let loc ← Production.read (fun p => p.scanner_.location)
  let declared ← Production.read (fun p => p.top_scope.IsDeclared r.1)
  let name_loc := if !name_loc.IsValid && IsEvalOrArguments r.1 then loc else name_loc
  let dupe_loc := if !dupe_loc.IsValid && declared then loc else dupe_loc
  let reserved_loc := if !reserved_loc.IsValid && r.2 then loc else reserved_loc
  Production.modify (fun p =>
    { p.set_top_scope
        { (p.top_scope.DeclareLocal r.1 Variable.Mode.VAR p.next_id).2 with
          params_ := (p.top_scope.DeclareLocal r.1 Variable.Mode.VAR p.next_id).2.params_
            ++ [(p.top_scope.DeclareLocal r.1 Variable.Mode.VAR p.next_id).1] } with
      next_id := p.next_id + 1 })
  let num_parameters := wrapInt32 (num_parameters + 1)
  if num_parameters > kMaxNumFunctionParameters then
    fun p => (none, p.ReportMessageAt p.scanner_.location "too_many_parameters" [])
  else do
    let tok ← peek
    if tok = Token.RPAREN then pure (num_parameters, name_loc, dupe_loc, reserved_loc)
    else do
      Expect Token.COMMA
      self.ParseFunctionLiteral_params num_parameters name_loc dupe_loc reserved_loc

/-- The strict-mode validation of `ParseFunctionLiteral` (lines 3588-3629). -/
def ValidateStrictFunction (name : String) (name_is_reserved : Bool)
    (function_token_position start_pos end_pos : Int)
    (name_loc dupe_loc reserved_loc : Location) : Production Unit := fun p =>
  let position : Int :=
    if function_token_position ≠ kNoPosition then function_token_position
    else if start_pos > 0 then wrapInt32 (start_pos - 1) else start_pos
  if p.StrictMode then
    if IsEvalOrArguments name then
      (none, p.ReportMessageAt ⟨position, start_pos⟩ "strict_function_name" [])
    else if name_loc.IsValid then
      (none, p.ReportMessageAt name_loc "strict_param_name" [])
    else if dupe_loc.IsValid then
      (none, p.ReportMessageAt dupe_loc "strict_param_dupe" [])
    else if name_is_reserved then
      (none, p.ReportMessageAt ⟨position, start_pos⟩ "strict_reserved_word" [])
    else if reserved_loc.IsValid then
      (none, p.ReportMessageAt reserved_loc "strict_reserved_word" [])
    else CheckOctalLiteral start_pos end_pos p
  else (some (), p)

/-- The body of a function whose preparse data are used (lines 3557-3574): the
literal count, the property count and the end position taken from the cache
entry. -/
def ParseFunctionLiteral_lazy (name : String) (function_block_pos : Int)
    (data : ScriptDataImpl) : Production (Int × Int × Int) := do
  Production.modify (fun p =>
    { p with pre_data_ := some (data.GetFunctionEntry function_block_pos).2 })
  let entry := (data.GetFunctionEntry function_block_pos).1
  if !entry.is_valid then ReportInvalidPreparseData name
  else
    let end_pos := entry.end_pos
    if end_pos ≤ function_block_pos then ReportInvalidPreparseData name
    else do
      Production.modify (fun p =>
        { p with scanner_ := p.scanner_.SeekForward (wrapInt32 (end_pos - 1)) })
      Expect Token.RBRACE
      pure (entry.literal_count, entry.property_count, end_pos)

/-- The body of a function that is parsed eagerly (lines 3576-3585): the
statements, the literal count, the property count and the end position. -/
def ParseFunctionLiteral_eager (self : Productions) (body : StatementList) :
    Production (StatementList × Int × Int × Int) := do
  let body ← ParseSourceElements self body Token.RBRACE
  let materialized_literal_count ← Production.read (fun p =>
    p.temp_scope.materialized_literal_count_)
  let expected_property_count ← Production.read (fun p =>
    p.temp_scope.expected_property_count_)
  Expect Token.RBRACE
  let end_pos ← Production.read (fun p => p.scanner_.location.end_pos)
  pure (body, materialized_literal_count, expected_property_count, end_pos)

/-- The function `Parser::ParseFunctionLiteral` (lines 3455-3650); `var_name`
is `none` for the null handle. -/
def ParseFunctionLiteral (self : Productions) (var_name : Option String)
    (name_is_reserved : Bool) (function_token_position : Int) (type : FunctionLiteralType) :
    Production Expression := do
  let is_named : Bool := var_name.isSome
  let name : String := var_name.getD ""
  let function_name : String :=
    if is_named ∧ (type = FunctionLiteralType.EXPRESSION ∨ type = FunctionLiteralType.NESTED)
    then name else ""
  let scope ← Production.step (fun p =>
    (Scope.New p.top_scope_ ScopeType.FUNCTION_SCOPE p.inside_with p.next_id,
     { p with next_id := p.next_id + 3 }))
  withLexicalScope scope (withTemporaryScope (do
    Production.modify (fun p => p.set_top_scope { p.top_scope with scope_name_ := name })
    Expect Token.LPAREN
    let start_pos ← location_beg_pos
    let tok ← peek
    let params ←
      if tok = Token.RPAREN then
        pure (0, Location.NoLocation, Location.NoLocation, Location.NoLocation)
      else
        ParseFunctionLiteral_params self 0 Location.NoLocation Location.NoLocation
          Location.NoLocation
    Expect Token.RPAREN
    Expect Token.LBRACE
    let body : StatementList ←
      if function_name.length > 0 then
        Production.step (fun p =>
          let fvar := p.top_scope.DeclareFunctionVar function_name p.next_id
          let fproxy := Expression.VariableProxy (p.next_id + 1) function_name false
            p.inside_with (some fvar.1)
          (StatementList.cons
            (Statement.ExpressionStatement
              (Expression.Assignment Token.INIT_CONST fproxy Expression.ThisFunction
                kNoPosition))
            StatementList.nil,
           { p.set_top_scope { fvar.2 with unresolved_ := fvar.2.unresolved_ ++ [p.next_id + 1] }
             with next_id := p.next_id + 2 }))
      else pure StatementList.nil
    let is_lazily_compiled ← Production.read (fun p =>
      decide (p.mode_ = ParseMode.PARSE_LAZILY)
        && (match p.outer_scopes_.head? with
            | some outer => outer.is_global_scope
            | none => false)
        && p.HasTrivialOuterContext
        && !p.parenthesized_function_)
    Production.modify (fun p => { p with parenthesized_function_ := false })
    let function_block_pos ← location_beg_pos
    let pre_data ← Production.read (fun p => p.pre_data_)
    let r : StatementList × Int × Int × Int ←
      match is_lazily_compiled, pre_data with
      | true, some data => do
        let counts ← ParseFunctionLiteral_lazy name function_block_pos data
        pure (body, counts)
      | _, _ => ParseFunctionLiteral_eager self body
    ValidateStrictFunction name name_is_reserved function_token_position start_pos r.2.2.2
      params.2.1 params.2.2.1 params.2.2.2
    let temp_scope ← Production.read Parser.temp_scope
    pure (Expression.FunctionLiteral name scope.id r.1 r.2.1 r.2.2.1 params.1 start_pos
      r.2.2.2 (decide (function_name.length > 0)) (decide (temp_scope.loop_count_ > 0))
      temp_scope.strict_mode_ function_token_position)))

/-- The productions at recursion budget `fuel`; with no budget left every
production fails without a message. -/
def productions : Nat → Productions
  | 0 =>
    { ParseStatement := fun _ => Production.fail,
      ParseSourceElements_loop := fun _ _ _ => Production.fail,
      ParseBlock_loop := fun _ => Production.fail,
      ParseCaseClause_loop := fun _ => Production.fail,
      ParseSwitchStatement_loop := fun _ _ => Production.fail,
      ParseVariableDeclarations_loop := fun _ _ _ _ _ => Production.fail,
      ParseFunctionLiteral_params := fun _ _ _ _ => Production.fail,
      ParseFunctionLiteral := fun _ _ _ _ => Production.fail,
      ParseExpression := fun _ => Production.fail,
      ParseExpression_loop := fun _ _ => Production.fail,
      ParseAssignmentExpression := fun _ => Production.fail,
      ParseBinaryExpression := fun _ _ => Production.fail,
      ParseBinaryExpression_for := fun _ _ _ _ => Production.fail,
      ParseBinaryExpression_while := fun _ _ _ => Production.fail,
      ParseUnaryExpression := Production.fail,
      ParseNewPrefix := fun _ => Production.fail,
      ParseLeftHandSideExpression_loop := fun _ => Production.fail,
      ParseMemberWithNewPrefixesExpression_loop := fun _ _ => Production.fail,
      ParseArguments_loop := fun _ => Production.fail,
      ParseArrayLiteral_loop := fun _ => Production.fail,
      ParseObjectLiteral_loop := fun _ _ => Production.fail }
  | fuel + 1 =>
    { ParseStatement := ParseStatement (productions fuel),
      ParseSourceElements_loop := ParseSourceElements_loop (productions fuel),
      ParseBlock_loop := ParseBlock_loop (productions fuel),
      ParseCaseClause_loop := ParseCaseClause_loop (productions fuel),
      ParseSwitchStatement_loop := ParseSwitchStatement_loop (productions fuel),
      ParseVariableDeclarations_loop := ParseVariableDeclarations_loop (productions fuel),
      ParseFunctionLiteral_params := ParseFunctionLiteral_params (productions fuel),
      ParseFunctionLiteral := ParseFunctionLiteral (productions fuel),
      ParseExpression := ParseExpression (productions fuel),
      ParseExpression_loop := ParseExpression_loop (productions fuel),
      ParseAssignmentExpression := ParseAssignmentExpression (productions fuel),
      ParseBinaryExpression := ParseBinaryExpression (productions fuel),
      ParseBinaryExpression_for := ParseBinaryExpression_for (productions fuel),
      ParseBinaryExpression_while := ParseBinaryExpression_while (productions fuel),
      ParseUnaryExpression := ParseUnaryExpression (productions fuel),
      ParseNewPrefix := ParseNewPrefix (productions fuel),
      ParseLeftHandSideExpression_loop := ParseLeftHandSideExpression_loop (productions fuel),
      ParseMemberWithNewPrefixesExpression_loop :=
        ParseMemberWithNewPrefixesExpression_loop (productions fuel),
      ParseArguments_loop := fun result => ParseArguments_loop (productions fuel) result false,
      ParseArrayLiteral_loop := ParseArrayLiteral_loop (productions fuel),
      ParseObjectLiteral_loop := ParseObjectLiteral_loop (productions fuel) }

/-- The function `Parser::DoParseProgram` (lines 645-704) on a parser whose
scanner has been initialised: the function literal of the program, or `none`
together with the reported diagnostic.  `source_length` is the length of the
source text. -/
def DoParseProgram (fuel : Nat) (p : Parser) (source_length : Int)
    (in_global_context : Bool) (strict_mode : Bool) : Option Expression × Parser :=
  let p1 : Parser :=
    { p with
      pre_data_ := p.pre_data_.map ScriptDataImpl.Initialize,
      mode_ :=
        if p.allow_natives_syntax_ then ParseMode.PARSE_EAGERLY
        else if p.FLAG_lazy then ParseMode.PARSE_LAZILY else ParseMode.PARSE_EAGERLY }
  let type : ScopeType :=
    if in_global_context then ScopeType.GLOBAL_SCOPE else ScopeType.EVAL_SCOPE
  let scope := Scope.New p1.top_scope_ type p1.inside_with p1.next_id
  (withLexicalScope scope (withTemporaryScope (do
    if strict_mode then Production.modify Parser.EnableStrictMode else pure ()
    let beg_loc ← location_beg_pos
    let body ← ParseSourceElements (productions fuel) StatementList.nil Token.EOS
    let strict ← Production.read Parser.StrictMode
    let end_pos ← Production.read (fun q => q.scanner_.location.end_pos)
    if strict then CheckOctalLiteral beg_loc end_pos else pure ()
    let temp_scope ← Production.read Parser.temp_scope
    pure (Expression.FunctionLiteral "" scope.id body
      temp_scope.materialized_literal_count_ temp_scope.expected_property_count_
      0 0 source_length false (decide (temp_scope.loop_count_ > 0))
      temp_scope.strict_mode_ kNoPosition))))
    { p1 with next_id := p1.next_id + 3 }

/-- The function `Parser::ParseProgram` (lines 618-642) on the scanned tokens
of the source, for a parser without preparse data. -/
def ParseProgram (fuel : Nat) (source : List TokenDesc) (source_length : Int)
    (in_global_context : Bool) (strict_mode : Bool) : Option Expression × Parser :=
  DoParseProgram fuel { scanner_ := Scanner.Initialize source } source_length
    in_global_context strict_mode

/-! ## Example token sequences -/

/-- A scanned token without literal at the given source range. -/
def tk (token : Token) (beg_pos end_pos : Int) : TokenDesc :=
  { token := token, location := ⟨beg_pos, end_pos⟩ }

/-- A scanned identifier. -/
def tkIdentifier (name : String) (beg_pos end_pos : Int) : TokenDesc :=
  { token := Token.IDENTIFIER, location := ⟨beg_pos, end_pos⟩, literal := name }

/-- A scanned string literal; the range includes the quotes. -/
def tkString (value : String) (beg_pos end_pos : Int) : TokenDesc :=
  { token := Token.STRING, location := ⟨beg_pos, end_pos⟩, literal := value }

/-- A scanned number literal with an integer value. -/
def tkNumber (value : Int) (beg_pos end_pos : Int) : TokenDesc :=
  { token := Token.NUMBER, location := ⟨beg_pos, end_pos⟩, number := JSNumber.exact value }

/-- The scanned tokens of the text `2 + 3 * 4`. -/
def source_2_plus_3_times_4 : List TokenDesc :=
  [tkNumber 2 0 1, tk Token.ADD 2 3, tkNumber 3 4 5, tk Token.MUL 6 7, tkNumber 4 8 9]

/-- The scanned tokens of the text `"use strict"; var eval;`. -/
def source_use_strict_var_eval : List TokenDesc :=
  [tkString "use strict" 0 12, tk Token.SEMICOLON 12 13, tk Token.VAR 14 17,
   tkIdentifier "eval" 18 22, tk Token.SEMICOLON 22 23]

/-- The scanned tokens of the text `var eval;`. -/
def source_var_eval : List TokenDesc :=
  [tk Token.VAR 0 3, tkIdentifier "eval" 4 8, tk Token.SEMICOLON 8 9]

/-- The scanned tokens of the text `for(;;){ break; }`. -/
def source_for_break : List TokenDesc :=
  [tk Token.FOR 0 3, tk Token.LPAREN 3 4, tk Token.SEMICOLON 4 5, tk Token.SEMICOLON 5 6,
   tk Token.RPAREN 6 7, tk Token.LBRACE 7 8, tk Token.BREAK 9 14, tk Token.SEMICOLON 14 15,
   tk Token.RBRACE 16 17]

/-- The scanned tokens of the text
`outer: for(;;){ for(;;){ break outer; } }`. -/
def source_break_outer : List TokenDesc :=
  [tkIdentifier "outer" 0 5, tk Token.COLON 5 6,
   tk Token.FOR 7 10, tk Token.LPAREN 10 11, tk Token.SEMICOLON 11 12,
   tk Token.SEMICOLON 12 13, tk Token.RPAREN 13 14, tk Token.LBRACE 14 15,
   tk Token.FOR 16 19, tk Token.LPAREN 19 20, tk Token.SEMICOLON 20 21,
   tk Token.SEMICOLON 21 22, tk Token.RPAREN 22 23, tk Token.LBRACE 23 24,
   tk Token.BREAK 25 30, tkIdentifier "outer" 31 36, tk Token.SEMICOLON 36 37,
   tk Token.RBRACE 38 39, tk Token.RBRACE 40 41]

/-- The scanned tokens of the text `break nosuch;`. -/
def source_break_nosuch : List TokenDesc :=
  [tk Token.BREAK 0 5, tkIdentifier "nosuch" 6 12, tk Token.SEMICOLON 12 13]

/-! ## Chains of number literals

The token sequences `n * n * ... * n` and `P + P - ... + P` and their
arithmetic value under the usual precedence (products first, sums and
differences from left to right). -/

/-- A product of number literals: the first factor and then pairs of an
operator token and a number token. -/
structure LiteralProduct where
  first : TokenDesc
  factors : List (TokenDesc × TokenDesc)

/-- The tokens of a list of pairs (operator, number), in source order. -/
def pairTokens : List (TokenDesc × TokenDesc) → List TokenDesc
  | [] => []
  | x :: xs => x.1 :: x.2 :: pairTokens xs

/-- The integer that a number token holds (0 when it holds no integer). -/
def TokenDesc.intValue (d : TokenDesc) : Int :=
  match d.number with
  | JSNumber.exact v => v
  | JSNumber.untracked => 0

/-- The token is a number literal that holds an integer which is exactly
representable as a double. -/
def TokenDesc.IsIntegerLiteral (d : TokenDesc) : Prop :=
  d.token = Token.NUMBER ∧ d.number = JSNumber.exact d.intValue
    ∧ -JSNumber.kMaxExact ≤ d.intValue ∧ d.intValue ≤ JSNumber.kMaxExact

namespace LiteralProduct

/-- The tokens of the product, in source order. -/
def tokens (t : LiteralProduct) : List TokenDesc := t.first :: pairTokens t.factors

/-- Every operand is a number token that holds an integer and every operator
is `*`. -/
def WellFormed (t : LiteralProduct) : Prop :=
  t.first.IsIntegerLiteral
  ∧ ∀ x ∈ t.factors, x.1.token = Token.MUL ∧ x.2.IsIntegerLiteral

/-- The arithmetic value of the product. -/
def value (t : LiteralProduct) : Int :=
  t.factors.foldl (fun acc x => acc * x.2.intValue) t.first.intValue

/-- Every partial product of the list, starting from `acc`, has magnitude at
most `2 ^ 53`. -/
def InRange : Int → List (TokenDesc × TokenDesc) → Prop
  | _, [] => True
  | acc, x :: xs =>
    (-JSNumber.kMaxExact ≤ acc * x.2.intValue ∧ acc * x.2.intValue ≤ JSNumber.kMaxExact)
      ∧ InRange (acc * x.2.intValue) xs

/-- Every partial product is exactly representable. -/
def Exact (t : LiteralProduct) : Prop := InRange t.first.intValue t.factors

end LiteralProduct

/-- A sum of products of number literals: the first product and then pairs of
an operator token (`+` or `-`) and a product. -/
structure LiteralSum where
  first : LiteralProduct
  terms : List (TokenDesc × LiteralProduct)

/-- The tokens of a list of pairs (operator, product), in source order. -/
def termTokens : List (TokenDesc × LiteralProduct) → List TokenDesc
  | [] => []
  | x :: xs => x.1 :: (x.2.tokens ++ termTokens xs)

namespace LiteralSum

/-- The tokens of the sum, in source order. -/
def tokens (e : LiteralSum) : List TokenDesc := e.first.tokens ++ termTokens e.terms

/-- Every term is a well-formed product and every operator between the terms
is `+` or `-`. -/
def WellFormed (e : LiteralSum) : Prop :=
  e.first.WellFormed
  ∧ ∀ x ∈ e.terms, (x.1.token = Token.ADD ∨ x.1.token = Token.SUB) ∧ x.2.WellFormed

/-- The sum or difference of `acc` and a term. -/
def step (acc : Int) (x : TokenDesc × LiteralProduct) : Int :=
  if x.1.token = Token.ADD then acc + x.2.value else acc - x.2.value

/-- The arithmetic value of the sum under the usual precedence. -/
def value (e : LiteralSum) : Int := e.terms.foldl step e.first.value

/-- Every product and every partial sum of the list, starting from `acc`, is
exactly representable. -/
def InRange : Int → List (TokenDesc × LiteralProduct) → Prop
  | _, [] => True
  | acc, x :: xs =>
    x.2.Exact
      ∧ (-JSNumber.kMaxExact ≤ step acc x ∧ step acc x ≤ JSNumber.kMaxExact)
      ∧ InRange (step acc x) xs

/-- Every intermediate result of the sum is exactly representable. -/
def Exact (e : LiteralSum) : Prop := e.first.Exact ∧ InRange e.first.value e.terms

end LiteralSum

/-- The state of the parser after `k` calls of `Next`. -/
def Parser.skip (p : Parser) : Nat → Parser
  | 0 => p
  | k + 1 => Parser.skip p.Next.2 k

/-- The sum `2 + 3 * 4` with the tokens of `source_2_plus_3_times_4`. -/
def sum_2_plus_3_times_4 : LiteralSum :=
  { first := { first := tkNumber 2 0 1, factors := [] },
    terms := [(tk Token.ADD 2 3,
               { first := tkNumber 3 4 5, factors := [(tk Token.MUL 6 7, tkNumber 4 8 9)] })] }

/-- The token kind of the head of a token list, `EOS` past the end. -/
def headToken (l : List TokenDesc) : Token :=
  match l with
  | t :: _ => t.token
  | [] => Token.EOS

/-- Whether a line terminator precedes the head of a token list. -/
def headNewline (l : List TokenDesc) : Bool :=
  match l with
  | t :: _ => t.newline_before
  | [] => false

/-- The token after the head can neither extend a member expression nor be a
postfix operator. -/
def NotPostfix (l : List TokenDesc) : Prop :=
  headToken l ≠ Token.LBRACK ∧ headToken l ≠ Token.LPAREN ∧ headToken l ≠ Token.PERIOD
    ∧ (headNewline l = true ∨ (headToken l).IsCountOp = false)

/-- The product of `acc` and the numbers of a factor list, as the parser folds
it. -/
def foldedProduct (acc : JSNumber) (l : List (TokenDesc × TokenDesc)) : JSNumber :=
  l.foldl (fun a x => a.mul x.2.number) acc

/-- The sum or difference of `a` and a term, as the parser folds it. -/
def foldedTerm (a : JSNumber) (x : TokenDesc × LiteralProduct) : JSNumber :=
  if x.1.token = Token.ADD then a.add (foldedProduct x.2.first.number x.2.factors)
  else a.sub (foldedProduct x.2.first.number x.2.factors)

/-- The sum of `acc` and a list of terms, as the parser folds it. -/
def foldedSum (acc : JSNumber) (l : List (TokenDesc × LiteralProduct)) : JSNumber :=
  l.foldl foldedTerm acc

/-- A parser object in strict mode at the start of the given tokens, with the
global scope current. -/
def strictParser (source : List TokenDesc) : Parser :=
  { scanner_ := Scanner.Initialize source,
    top_scope_ := some (Scope.New none ScopeType.GLOBAL_SCOPE false 0),
    temp_scope_ := some { strict_mode_ := true },
    next_id := 3 }

/-- A parser object in non-strict mode at the start of the given tokens, with
the global scope current. -/
def sloppyParser (source : List TokenDesc) : Parser :=
  { scanner_ := Scanner.Initialize source,
    top_scope_ := some (Scope.New none ScopeType.GLOBAL_SCOPE false 0),
    temp_scope_ := some {},
    next_id := 3 }

/-- The scanned tokens of the text `"a"; "use strict";`. -/
def source_a_use_strict : List TokenDesc :=
  [tkString "a" 0 3, tk Token.SEMICOLON 3 4, tkString "use strict" 5 17,
   tk Token.SEMICOLON 17 18]

/-- The scanned tokens of the text `var x; "use strict";`. -/
def source_var_x_use_strict : List TokenDesc :=
  [tk Token.VAR 0 3, tkIdentifier "x" 4 5, tk Token.SEMICOLON 5 6,
   tkString "use strict" 7 19, tk Token.SEMICOLON 19 20]

/-! ## The target of a `break`, in the words of the specification -/

/-- Whether a frame of the target stack is one that a `break` with the given
label (`none` for an unlabeled `break`) may target: a breakable statement that
is flagged as an anonymous break target, or whose label set contains the
label. -/
def Target.MatchesBreak (p : Parser) (label : Option String) : Target → Bool
  | Target.breakable _ labels kind =>
    match label with
    | none => kind.is_target_for_anonymous
    | some l => p.ContainsLabel labels l
  | Target.collector _ _ => false

/-- The address of the node that a frame points to. -/
def Target.node : Target → Nat
  | Target.breakable id _ _ => id
  | Target.collector id _ => id

/-- The first frame from the top of the target stack that matches the
`break`. -/
def Parser.nearestBreakTarget (p : Parser) (label : Option String) : Option Nat :=
  (p.target_stack_.find? (Target.MatchesBreak p label)).map Target.node

/-! ## Example preparse data -/

/-- The scanned tokens of the text `function f(){ } function g(){ }`. -/
def source_two_functions : List TokenDesc :=
  [tk Token.FUNCTION 0 8, tkIdentifier "f" 9 10, tk Token.LPAREN 10 11, tk Token.RPAREN 11 12,
   tk Token.LBRACE 12 13, tk Token.RBRACE 14 15,
   tk Token.FUNCTION 16 24, tkIdentifier "g" 25 26, tk Token.LPAREN 26 27,
   tk Token.RPAREN 27 28, tk Token.LBRACE 28 29, tk Token.RBRACE 30 31]

/-- Preparse data with one function entry: a body that starts at offset 12 and
ends at offset `end_pos`, with no literals and no properties. -/
def preparseData (end_pos : Nat) : ScriptDataImpl :=
  { store_ := [PreparseDataConstants.kMagicNumber, PreparseDataConstants.kCurrentVersion,
               0, 4, 0, 0, 12, end_pos, 0, 0],
    function_index_ := 0 }

/-- A parser object for the tokens with the given preparse data. -/
def lazyParser (source : List TokenDesc) (data : ScriptDataImpl) : Parser :=
  { scanner_ := Scanner.Initialize source, pre_data_ := some data }

/-- A parser object in lazy mode behind the name of the first function of
`source_two_functions`, with the global scope current and with the given
preparse data. -/
def functionLiteralParser (data : Option ScriptDataImpl) : Parser :=
  { scanner_ := { Scanner.Initialize (source_two_functions.drop 2) with
                  current_ := tkIdentifier "f" 9 10 },
    top_scope_ := some (Scope.New none ScopeType.GLOBAL_SCOPE false 0),
    temp_scope_ := some {},
    mode_ := ParseMode.PARSE_LAZILY,
    pre_data_ := data.map ScriptDataImpl.Initialize,
    next_id := 3 }

/-- A parser object in lazy mode behind the opening brace of the body of the
first function of `source_two_functions`, inside the scope of that function. -/
def functionBodyParser (data : Option ScriptDataImpl) : Parser :=
  { scanner_ := { Scanner.Initialize (source_two_functions.drop 5) with
                  current_ := tk Token.LBRACE 12 13 },
    top_scope_ := some (Scope.New none ScopeType.FUNCTION_SCOPE false 3),
    outer_scopes_ := [Scope.New none ScopeType.GLOBAL_SCOPE false 0],
    temp_scope_ := some {},
    mode_ := ParseMode.PARSE_LAZILY,
    pre_data_ := data.map ScriptDataImpl.Initialize,
    next_id := 6 }

/-! ## Declarations: the list of a scope -/

/-- Modelled from the spec: `VariableProxy::var` of `ast.h`, the variable that
a proxy is bound to (`none` for an unbound proxy and for every other node). -/
def Expression.var : Expression → Option Variable
  | Expression.VariableProxy _ _ _ _ v => v
  | _ => none

/-- Modelled from the spec: `VariableProxy::name` of `ast.h` (the empty string
for every other node). -/
def Expression.proxyName : Expression → String
  | Expression.VariableProxy _ name _ _ _ => name
  | _ => ""

/-- The name and the mode that a `Declaration` declares. -/
def Declaration.nameAndMode (d : Declaration) : String × Variable.Mode :=
  (d.proxy.proxyName, d.mode)

/-- The calls `Declare(name, mode, fun, resolve)` for the entries of a list,
one after another, as the statements of a source text make them. -/
def DeclareAll : List (String × Variable.Mode × Option Expression × Bool) → Parser → Parser
  | [], p => p
  | d :: rest, p => DeclareAll rest (Declare d.1 d.2.1 d.2.2.1 d.2.2.2 p).2

/-- A parser object whose current scope is a fresh global scope. -/
def globalScopeParser : Parser :=
  { scanner_ := Scanner.Initialize [],
    top_scope_ := some (Scope.New none ScopeType.GLOBAL_SCOPE false 0),
    temp_scope_ := some {},
    next_id := 3 }

/-- A parser object whose current scope is a fresh eval scope. -/
def evalScopeParser : Parser :=
  { scanner_ := Scanner.Initialize [],
    top_scope_ := some (Scope.New none ScopeType.EVAL_SCOPE false 0),
    temp_scope_ := some {},
    next_id := 3 }

/-! ## Bitwise operators on number literals, in the words of the specification -/

/-- The conversion `ToInt32` of the language on an integer: the value modulo
`2 ^ 32`, taken in the range from `-2 ^ 31` to `2 ^ 31 - 1`. -/
def ToInt32 (x : Int) : Int :=
  if x % 2 ^ 32 < 2 ^ 31 then x % 2 ^ 32 else x % 2 ^ 32 - 2 ^ 32

/-- The conversion `ToUint32` of the language on an integer: the value modulo
`2 ^ 32`. -/
def ToUint32 (x : Int) : Nat := (x % 2 ^ 32).toNat

/-- The shift count of a shift operator: `ToInt32` of the right operand,
masked to five bits. -/
def ShiftCount (y : Int) : Nat := (Int.land (ToInt32 y) 31).toNat

/-- The number literal with the integer value `v`. -/
def integerLiteral (v : Int) : Expression := Parser.NewNumberLiteral (JSNumber.exact v)

/-- The scanned tokens of the text `1 << 33`. -/
def source_1_shl_33 : List TokenDesc :=
  [tkNumber 1 0 1, tk Token.SHL 2 4, tkNumber 33 5 7]

/-- The scanned tokens of the text `-1 >>> 0`. -/
def source_minus_1_shr_0 : List TokenDesc :=
  [tk Token.SUB 0 1, tkNumber 1 1 2, tk Token.SHR 3 6, tkNumber 0 7 8]

/-! ## Comparisons -/

/-- The unbound proxy for the identifier `name` with the address `id`, outside
a `with` statement. -/
def identifierProxy (id : Nat) (name : String) : Expression :=
  Expression.VariableProxy id name false false none

/-- The literal `null`. -/
def nullLiteral : Expression := Expression.Literal Value.null_value

/-- The scanned tokens of the text `a == null`. -/
def source_a_eq_null : List TokenDesc :=
  [tkIdentifier "a" 0 1, tk Token.EQ 2 4, tk Token.NULL_LITERAL 5 9]

/-- The scanned tokens of the text `null === a`. -/
def source_null_eq_strict_a : List TokenDesc :=
  [tk Token.NULL_LITERAL 0 4, tk Token.EQ_STRICT 5 8, tkIdentifier "a" 9 10]

/-- The scanned tokens of the text `a != null`. -/
def source_a_ne_null : List TokenDesc :=
  [tkIdentifier "a" 0 1, tk Token.NE 2 4, tk Token.NULL_LITERAL 5 9]

/-- The scanned tokens of the text `a !== b`. -/
def source_a_ne_strict_b : List TokenDesc :=
  [tkIdentifier "a" 0 1, tk Token.NE_STRICT 2 5, tkIdentifier "b" 6 7]

/-- The scanned tokens of the text `a < null`. -/
def source_a_lt_null : List TokenDesc :=
  [tkIdentifier "a" 0 1, tk Token.LT 2 3, tk Token.NULL_LITERAL 4 8]

/-! ## Identifier operands -/

/-- The parser object after `ParsePrimaryExpression` has read an identifier:
the token is consumed and the new proxy is registered as unresolved with the
current scope. -/
def Parser.afterIdentifier (p : Parser) : Parser :=
  { p.Next.2.set_top_scope
      (p.Next.2.top_scope.NewUnresolved p.Next.2.scanner_.current_.literal
        p.Next.2.inside_with p.Next.2.next_id).2 with
    next_id := p.Next.2.next_id + 1 }

/-- The token after the head can not extend a member expression. -/
def NotMember (l : List TokenDesc) : Prop :=
  headToken l ≠ Token.LBRACK ∧ headToken l ≠ Token.LPAREN ∧ headToken l ≠ Token.PERIOD

/-! ## Targets of assignments -/

/-- The expression is the plain identifier `eval` or `arguments`: a proxy
other than `this` with that name. -/
def Expression.IsPlainEvalOrArguments : Expression → Bool
  | Expression.VariableProxy _ name is_this _ _ => !is_this && IsEvalOrArguments name
  | _ => false

/-- The target that `ParseAssignmentExpression`, `ParseUnaryExpression`,
`ParsePostfixExpression` and `ParseForStatement` go on with: the expression
itself when it is a valid left-hand side, otherwise the node that throws a
reference error of the given type. -/
def Parser.targetOrThrow (p : Parser) (expression : Expression) (type : String) : Expression :=
  if expression.IsValidLeftHandSide = true then expression
  else p.NewThrowReferenceError type

/-- Whether an assignment to the target is one to a property of `this`. -/
def Expression.IsThisProperty : Expression → Bool
  | Expression.Property (Expression.VariableProxy _ _ is_this _ _) _ _ => is_this
  | _ => false

/-- The scanned tokens of the text `1 = 2`. -/
def source_1_assign_2 : List TokenDesc :=
  [tkNumber 1 0 1, tk Token.ASSIGN 2 3, tkNumber 2 4 5]

/-- The scanned tokens of the text `++1`. -/
def source_inc_1 : List TokenDesc :=
  [tk Token.INC 0 2, tkNumber 1 2 3]

/-- The scanned tokens of the text `1++`. -/
def source_1_inc : List TokenDesc :=
  [tkNumber 1 0 1, tk Token.INC 1 3]

/-- The scanned tokens of the text `for (1 in x);`. -/
def source_for_1_in_x : List TokenDesc :=
  [tk Token.FOR 0 3, tk Token.LPAREN 4 5, tkNumber 1 5 6, tk Token.IN 7 9,
   tkIdentifier "x" 10 11, tk Token.RPAREN 11 12, tk Token.SEMICOLON 12 13]

/-- The scanned tokens of the text `return;`. -/
def source_return : List TokenDesc :=
  [tk Token.RETURN 0 6, tk Token.SEMICOLON 6 7]

/-- The node that throws the error `type` made with `constructor`, at the
position `pos`. -/
def throwNode (constructor type : String) (pos : Int) : Expression :=
  Expression.Throw
    (Expression.CallRuntime constructor
      (ExpressionList.cons (Expression.Literal (Value.string type))
        (ExpressionList.cons (Expression.Literal (Value.js_array [])) ExpressionList.nil)))
    pos

/-- The scanned tokens of the text `eval = 1`. -/
def source_eval_assign_1 : List TokenDesc :=
  [tkIdentifier "eval" 0 4, tk Token.ASSIGN 5 6, tkNumber 1 7 8]

/-- The scanned tokens of the text `arguments += 1`. -/
def source_arguments_add_1 : List TokenDesc :=
  [tkIdentifier "arguments" 0 9, tk Token.ASSIGN_ADD 10 12, tkNumber 1 13 14]

/-- The scanned tokens of the text `eval.x = 1`. -/
def source_eval_x_assign_1 : List TokenDesc :=
  [tkIdentifier "eval" 0 4, tk Token.PERIOD 4 5, tkIdentifier "x" 5 6, tk Token.ASSIGN 7 8,
   tkNumber 1 9 10]

/-- The scanned tokens of the text `x = 1`. -/
def source_x_assign_1 : List TokenDesc :=
  [tkIdentifier "x" 0 1, tk Token.ASSIGN 2 3, tkNumber 1 4 5]

/-- The scanned tokens of the text `this = 1`. -/
def source_this_assign_1 : List TokenDesc :=
  [tk Token.THIS 0 4, tk Token.ASSIGN 5 6, tkNumber 1 7 8]

/-- The scanned tokens of the text `arguments++`. -/
def source_arguments_inc : List TokenDesc :=
  [tkIdentifier "arguments" 0 9, tk Token.INC 9 11]

/-- The scanned tokens of the text `--eval`. -/
def source_dec_eval : List TokenDesc :=
  [tk Token.DEC 0 2, tkIdentifier "eval" 2 6]

/-! ## New-expressions, in the words of the specification -/

/-- What `ParseMemberWithNewPrefixesExpression` and `ParseNewPrefix` put
around the expression parsed so far: an index `[key]`, a member `.name`, or
the `CallNew` of a `new` keyword with its argument list (`new_position` is
the position of the keyword). -/
inductive MemberSuffix
  | index (key : Expression) (pos : Int)
  | member (name : String) (pos : Int)
  | call_new (arguments : ExpressionList) (new_position : Int)

namespace MemberSuffix

/-- The node that the suffix makes of the expression before it. -/
def apply (e : Expression) : MemberSuffix → Expression
  | index key pos => Expression.Property e key pos
  | member name pos => Expression.Property e (Expression.Literal (Value.string name)) pos
  | call_new arguments new_position => Expression.CallNew e arguments new_position

/-- The position of the `new` keyword of a `CallNew` suffix. -/
def newPosition : MemberSuffix → Option Int
  | call_new _ new_position => some new_position
  | _ => none

end MemberSuffix

/-- The expression with the suffixes around it, the first suffix innermost. -/
def applySuffixes (e : Expression) (suffixes : List MemberSuffix) : Expression :=
  suffixes.foldl MemberSuffix.apply e

/-- The positions of the `new` keywords of the `CallNew` nodes among the
suffixes, the innermost node first. -/
def newPositions (suffixes : List MemberSuffix) : List Int :=
  suffixes.filterMap MemberSuffix.newPosition

/-- The first statement of `ParseMemberWithNewPrefixesExpression` (lines
2707-2719): the primary expression or function literal that the member
suffixes follow. -/
def ParseMemberPrimary (self : Productions) : Production Expression := do
  let tok ← peek
  if tok = Token.FUNCTION then do
    Expect Token.FUNCTION
    let function_token_position ← location_beg_pos
    let any_identifier ← peek_any_identifier
    if any_identifier then do
      let r ← ParseIdentifierOrReservedWord
      self.ParseFunctionLiteral (some r.1) r.2 function_token_position
        FunctionLiteralType.NESTED
    else
      self.ParseFunctionLiteral none false function_token_position
        FunctionLiteralType.NESTED
  else ParsePrimaryExpression self

/-- The scanned tokens of the text `new a.b.c`. -/
def source_new_a_b_c : List TokenDesc :=
  [tk Token.NEW 0 3, tkIdentifier "a" 4 5, tk Token.PERIOD 5 6, tkIdentifier "b" 6 7,
   tk Token.PERIOD 7 8, tkIdentifier "c" 8 9]

/-- The scanned tokens of the text `new a.b.c()`. -/
def source_new_a_b_c_call : List TokenDesc :=
  [tk Token.NEW 0 3, tkIdentifier "a" 4 5, tk Token.PERIOD 5 6, tkIdentifier "b" 6 7,
   tk Token.PERIOD 7 8, tkIdentifier "c" 8 9, tk Token.LPAREN 9 10, tk Token.RPAREN 10 11]

/-- The scanned tokens of the text `new new a(x)`. -/
def source_new_new_a_x : List TokenDesc :=
  [tk Token.NEW 0 3, tk Token.NEW 4 7, tkIdentifier "a" 8 9, tk Token.LPAREN 9 10,
   tkIdentifier "x" 10 11, tk Token.RPAREN 11 12]

/-- The expression `a.b.c` of the two texts above. -/
def expression_a_b_c : Expression :=
  Expression.Property
    (Expression.Property (identifierProxy 3 "a") (Expression.Literal (Value.string "b")) 5)
    (Expression.Literal (Value.string "c")) 7

/-- What the loop of `ParseMemberWithNewPrefixesExpression` returns: the
expression it started with under some suffixes, and the position stack
without the positions that the `CallNew` suffixes have taken from its top. -/
def MemberLoopSpec (stack : List Int) (result e : Expression) (st : PositionStack) : Prop :=
  ∃ suffixes rest, e = applySuffixes result suffixes ∧ st = some rest
    ∧ newPositions suffixes ++ rest = stack

/-- The parser after it has consumed `k` tokens. -/
def Parser.advance (p : Parser) : Nat → Parser
  | 0 => p
  | k + 1 => Parser.advance p.Next.2 k

/-- The positions `scanner().location().beg_pos` read after each of the next
`k` tokens has been consumed, in the order of the text. -/
def Parser.positions (p : Parser) : Nat → List Int
  | 0 => []
  | k + 1 => p.Next.2.scanner_.location.beg_pos :: Parser.positions p.Next.2 k

/-- The parser reads exactly `k` consecutive `new` keywords: the next `k`
tokens are `NEW` and the one after them is not. -/
def Parser.NewKeywords (p : Parser) : Nat → Prop
  | 0 => p.peek ≠ Token.NEW
  | k + 1 => p.peek = Token.NEW ∧ Parser.NewKeywords p.Next.2 k

/-- The suffixes that `ParseNewPrefix` adds for the `new` keywords left
unmatched: a `CallNew` with an empty argument list for each. -/
def unmatchedSuffixes (unmatched : List Int) : List MemberSuffix :=
  unmatched.map (MemberSuffix.call_new ExpressionList.nil)

/-- The scanned tokens of the text `new a(x)(y)`. -/
def source_new_a_x_y : List TokenDesc :=
  [tk Token.NEW 0 3, tkIdentifier "a" 4 5, tk Token.LPAREN 5 6, tkIdentifier "x" 6 7,
   tk Token.RPAREN 7 8, tk Token.LPAREN 8 9, tkIdentifier "y" 9 10, tk Token.RPAREN 10 11]

/-- What `ParseNewPrefix` returns for `n + 1` `new` keywords on top of the
position stack `stack`: the member expression `primary` with the suffixes
`member` of its loop, then a `CallNew` without arguments for each of the
first `n + 1` positions that the loop has left on the stack. -/
def NewPrefixSpec (stack : List Int) (p : Parser) (e : Expression) (st : List Int)
    (q : Parser) : Prop :=
  ∃ (n f : Nat) (primary : Expression) (p1 : Parser) (member : List MemberSuffix)
      (rest : List Int),
    Parser.NewKeywords p (n + 1)
    ∧ ParseMemberPrimary (productions f) (Parser.advance p (n + 1)) = (some primary, p1)
    ∧ ParseMemberWithNewPrefixesExpression_loop (productions f)
        (some ((Parser.positions p (n + 1)).reverse ++ stack)) primary p1
        = (some (applySuffixes primary member, some rest), q)
    ∧ newPositions member ++ rest = (Parser.positions p (n + 1)).reverse ++ stack
    ∧ e = applySuffixes primary (member ++ unmatchedSuffixes (rest.take (n + 1)))
    ∧ st = rest.drop (n + 1)

/-! ## Operator sequences and their precedence trees -/

/-- An operator of a binary expression with its position and the operand to
its right. -/
structure BinaryItem where
  op : Token
  pos : Int
  x : Expression

/-- A tree of binary operators over operands. -/
inductive OpTree
  | leaf (x : Expression)
  | node (op : Token) (pos : Int) (l r : OpTree)

namespace OpTree

/-- The leftmost operand of a tree. -/
def first : OpTree → Expression
  | leaf x => x
  | node _ _ l _ => l.first

/-- The operators of a tree from left to right, each with the operand that
follows it in the text. -/
def items : OpTree → List BinaryItem
  | leaf _ => []
  | node op pos l r => l.items ++ ⟨op, pos, r.first⟩ :: r.items

/-- The expression that `ParseBinaryExpression` builds for a tree: every node
is built as in lines 2393-2463. -/
def toExpression : OpTree → Expression
  | leaf x => x
  | node op pos l r => BuildBinary op l.toExpression r.toExpression pos

/-- No operand of the tree is a number literal. -/
def NonLiteral : OpTree → Prop
  | leaf x => x.AsNumberLiteral = none
  | node _ _ l r => l.NonLiteral ∧ r.NonLiteral

/-- The tree follows the precedence table: under every node the operators of
the left operand have at least the precedence of the node (equal precedence
associates to the left) and the operators of the right operand have a higher
one (higher precedence binds tighter). -/
def Climbs (accept_IN : Bool) : OpTree → Prop
  | leaf _ => True
  | node op _ l r =>
    (∀ it ∈ l.items, Precedence op accept_IN ≤ Precedence it.op accept_IN)
    ∧ (∀ it ∈ r.items, Precedence op accept_IN < Precedence it.op accept_IN)
    ∧ l.Climbs accept_IN ∧ r.Climbs accept_IN

end OpTree

/-- The node that `ParseBinaryExpression` builds when nothing is folded (lines
2443-2462). -/
def BuildUnfolded (op : Token) (x y : Expression) (position : Int) : Expression :=
  if op.IsCompareOp then
    let cmp : Token :=
      match op with
      | Token.NE => Token.EQ
      | Token.NE_STRICT => Token.EQ_STRICT
      | _ => op
    if cmp ≠ op then
      Expression.UnaryOperation Token.NOT (NewCompareNode cmp x y position)
    else NewCompareNode cmp x y position
  else Expression.BinaryOperation op x y position

/-- The expression of a tree without folding. -/
def OpTree.unfolded : OpTree → Expression
  | OpTree.leaf x => x
  | OpTree.node op pos l r => BuildUnfolded op l.unfolded r.unfolded pos

/-- From the state `s`, `ParseUnaryExpression` reads the operand `x` and
leaves the state `t`, at every recursion budget from `F0` on. -/
def OperandAt (F0 : Nat) (s : Parser) (x : Expression) (t : Parser) : Prop :=
  ∀ f, F0 ≤ f → ParseUnaryExpression (productions f) s = (some x, t)

/-- From the state `t` the text goes on with the operators and operands
`items` and reaches the state `e`: each operator is the next token, its
position is read after it has been consumed, and its operand is read by
`ParseUnaryExpression`. -/
def OperatorChain (F0 : Nat) : Parser → List BinaryItem → Parser → Prop
  | t, [], e => t = e
  | t, it :: rest, e =>
    t.peek = it.op ∧ t.Next.2.scanner_.location.beg_pos = it.pos
    ∧ ∃ t2, OperandAt F0 t.Next.2 it.x t2 ∧ OperatorChain F0 t2 rest e

/-- Every operator of the list has at least the precedence `q`. -/
def AllAtLeast (accept_IN : Bool) (q : Int) (items : List BinaryItem) : Prop :=
  ∀ it ∈ items, q ≤ Precedence it.op accept_IN

/-- The first operator of the list, if there is one, has at most the
precedence `l`. -/
def HeadAtMost (accept_IN : Bool) (l : Int) (items : List BinaryItem) : Prop :=
  ∀ it ∈ items.head?, Precedence it.op accept_IN ≤ l

/-- The scanned tokens of the text `a - b - c`. -/
def source_a_sub_b_sub_c : List TokenDesc :=
  [tkIdentifier "a" 0 1, tk Token.SUB 2 3, tkIdentifier "b" 4 5, tk Token.SUB 6 7,
   tkIdentifier "c" 8 9]

/-- The scanned tokens of the text `a + b * c`. -/
def source_a_add_b_mul_c : List TokenDesc :=
  [tkIdentifier "a" 0 1, tk Token.ADD 2 3, tkIdentifier "b" 4 5, tk Token.MUL 6 7,
   tkIdentifier "c" 8 9]

/-- The scanned tokens of the text `a * b + c`. -/
def source_a_mul_b_add_c : List TokenDesc :=
  [tkIdentifier "a" 0 1, tk Token.MUL 2 3, tkIdentifier "b" 4 5, tk Token.ADD 6 7,
   tkIdentifier "c" 8 9]

/-- What `ParseBinaryExpression` does on an operand followed by `n` operators
of at least the requested precedence `q`, when the token after them has a
lower one: it returns the expression of a tree over them that follows the
precedence table, with all of them consumed. -/
def BinarySpec (F0 : Nat) (accept_IN : Bool) (n : Nat) : Prop :=
  ∀ items : List BinaryItem, items.length = n →
    ∀ (q : Int) (s : Parser) (x0 : Expression) (t0 m : Parser), 4 ≤ q →
      OperandAt F0 s x0 t0 → OperatorChain F0 t0 items m →
      AllAtLeast accept_IN q items → Precedence m.peek accept_IN < q →
      ∃ tree : OpTree, tree.first = x0 ∧ tree.items = items ∧ tree.Climbs accept_IN
        ∧ ∀ f, F0 + 11 * items.length + 10 ≤ f →
            ParseBinaryExpression (productions f) q accept_IN s
              = (some tree.toExpression, m)

/-- What the inner loop of `ParseBinaryExpression` does at the level `l` on
`n` operators of at least this precedence, the first of them of this
precedence, after the tree `acc`. -/
def WhileSpec (F0 : Nat) (accept_IN : Bool) (n : Nat) : Prop :=
  ∀ items : List BinaryItem, items.length = n →
    ∀ (l : Int) (acc : OpTree) (t m : Parser), 4 ≤ l →
      OperatorChain F0 t items m →
      AllAtLeast accept_IN l items → HeadAtMost accept_IN l items →
      Precedence m.peek accept_IN < l →
      acc.Climbs accept_IN → AllAtLeast accept_IN l acc.items →
      ∃ tree : OpTree, tree.first = acc.first ∧ tree.items = acc.items ++ items
        ∧ tree.Climbs accept_IN
        ∧ ∀ f, F0 + 11 * items.length ≤ f →
            ParseBinaryExpression_while (productions f) l accept_IN acc.toExpression t
              = (some tree.toExpression, m)

/-! ## Frame properties of the productions -/

/-- The production leaves the strict flag of the current function as it is,
whether it succeeds or fails. -/
structure Production.KeepsStrictMode {α : Type} (m : Production α) : Prop where
  keeps : ∀ p : Parser, (m p).2.StrictMode = p.StrictMode

/-- Every production of the table except the loop of `ParseSourceElements`
leaves the strict flag of the current function as it is. -/
structure Productions.KeepStrictMode (table : Productions) : Prop where
  ParseStatement : ∀ a, (table.ParseStatement a).KeepsStrictMode
  ParseBlock_loop : ∀ a, (table.ParseBlock_loop a).KeepsStrictMode
  ParseCaseClause_loop : ∀ a, (table.ParseCaseClause_loop a).KeepsStrictMode
  ParseSwitchStatement_loop : ∀ a b, (table.ParseSwitchStatement_loop a b).KeepsStrictMode
  ParseVariableDeclarations_loop :
    ∀ a b c d e, (table.ParseVariableDeclarations_loop a b c d e).KeepsStrictMode
  ParseFunctionLiteral_params :
    ∀ a b c d, (table.ParseFunctionLiteral_params a b c d).KeepsStrictMode
  ParseFunctionLiteral : ∀ a b c d, (table.ParseFunctionLiteral a b c d).KeepsStrictMode
  ParseExpression : ∀ a, (table.ParseExpression a).KeepsStrictMode
  ParseExpression_loop : ∀ a b, (table.ParseExpression_loop a b).KeepsStrictMode
  ParseAssignmentExpression : ∀ a, (table.ParseAssignmentExpression a).KeepsStrictMode
  ParseBinaryExpression : ∀ a b, (table.ParseBinaryExpression a b).KeepsStrictMode
  ParseBinaryExpression_for : ∀ a b c d, (table.ParseBinaryExpression_for a b c d).KeepsStrictMode
  ParseBinaryExpression_while : ∀ a b c, (table.ParseBinaryExpression_while a b c).KeepsStrictMode
  ParseUnaryExpression : table.ParseUnaryExpression.KeepsStrictMode
  ParseNewPrefix : ∀ a, (table.ParseNewPrefix a).KeepsStrictMode
  ParseLeftHandSideExpression_loop :
    ∀ a, (table.ParseLeftHandSideExpression_loop a).KeepsStrictMode
  ParseMemberWithNewPrefixesExpression_loop :
    ∀ a b, (table.ParseMemberWithNewPrefixesExpression_loop a b).KeepsStrictMode
  ParseArguments_loop : ∀ a, (table.ParseArguments_loop a).KeepsStrictMode
  ParseArrayLiteral_loop : ∀ a, (table.ParseArrayLiteral_loop a).KeepsStrictMode
  ParseObjectLiteral_loop : ∀ a b, (table.ParseObjectLiteral_loop a b).KeepsStrictMode

/-! ## Regular expressions: trees and the builder (lines 88-246)

The node classes of `ast.h` and `jsregexp.h` are not part of the sources at
hand; the embedding keeps, of each node, the fields that the parser sets, and
of `CharacterRange::AddClassEscape` only the name of the class. -/

/-- Modelled from the spec: `RegExpAssertion::Type` ("assertion
(anchors/boundaries)"). -/
inductive RegExpAssertionType
  | START_OF_LINE | START_OF_INPUT | END_OF_LINE | END_OF_INPUT | BOUNDARY | NON_BOUNDARY
  deriving DecidableEq, Repr

/-- Modelled from the spec: `RegExpQuantifier::Type`
("greedy/non-greedy/possessive"). -/
inductive RegExpQuantifierType
  | GREEDY | NON_GREEDY | POSSESSIVE
  deriving DecidableEq, Repr

/-- Modelled from the spec: an element of the range list of a character class,
either a range of code units or the ranges that
`CharacterRange::AddClassEscape` adds for a class escape, kept by the letter of
the escape (`.` for the class of the dot). -/
inductive CharacterRange
  | Range (from_ to_ : Nat)
  | ClassEscape (type : Nat)
  deriving DecidableEq, Repr

namespace CharacterRange

/-- Modelled from the spec: `CharacterRange::Singleton`. -/
def Singleton (c : Nat) : CharacterRange := Range c c

/-- Modelled from the spec: `CharacterRange::Everything`. -/
def Everything : CharacterRange := Range 0 0xFFFF

/-- Modelled from the spec: `CharacterRange::from`. -/
def from_of : CharacterRange → Nat
  | Range a _ => a
  | ClassEscape _ => 0

/-- Modelled from the spec: `CharacterRange::to`. -/
def to_of : CharacterRange → Nat
  | Range _ b => b
  | ClassEscape _ => 0

end CharacterRange

mutual
/-- Modelled from the spec: the regular expression tree ("node kinds — atom,
character-class, disjunction, quantifier, assertion, capture, back-reference,
lookahead"), with the alternative, the text and the empty node of `ast.h`.  A
back-reference holds the capture it points to. -/
inductive RegExpTree
  | Disjunction (alternatives : RegExpTreeList)
  | Alternative (nodes : RegExpTreeList)
  | Assertion (type : RegExpAssertionType)
  | CharacterClass (ranges : List CharacterRange) (is_negated : Bool)
  | Atom (data : List Nat)
  | Text (elements : RegExpTreeList)
  | Quantifier (min max : Int) (type : RegExpQuantifierType) (body : RegExpTree)
  | Capture (body : RegExpTree) (index : Int)
  | Lookahead (body : RegExpTree) (is_positive : Bool) (capture_count capture_from : Int)
  | BackReference (capture : RegExpTree)
  | Empty
/-- A list of regular expression trees. -/
inductive RegExpTreeList
  | nil
  | cons (head : RegExpTree) (tail : RegExpTreeList)
end

namespace RegExpTreeList

/-- The zone list with the same elements. -/
def ofList : List RegExpTree → RegExpTreeList
  | [] => nil
  | t :: ts => cons t (ofList ts)

/-- The elements in order. -/
def toList : RegExpTreeList → List RegExpTree
  | nil => []
  | cons t ts => t :: toList ts

/-- The list followed by the elements of a second list. -/
def append : RegExpTreeList → RegExpTreeList → RegExpTreeList
  | nil, l => l
  | cons t ts, l => cons t (append ts l)

end RegExpTreeList

namespace RegExpTree

/-- Modelled from the spec: `RegExpTree::kInfinity`, the largest `int`. -/
def kInfinity : Int := 2 ^ 31 - 1

/-- Modelled from the spec: `IsEmpty`. -/
def IsEmpty : RegExpTree → Bool
  | Empty => true
  | _ => false

/-- Modelled from the spec: `IsAtom`. -/
def IsAtom : RegExpTree → Bool
  | Atom _ => true
  | _ => false

/-- Modelled from the spec: `IsTextElement`, true of atoms, character classes
and texts. -/
def IsTextElement : RegExpTree → Bool
  | Atom _ => true
  | CharacterClass _ _ => true
  | Text _ => true
  | _ => false

/-- Modelled from the spec: `AppendToText`, the elements that a text element
adds to a text. -/
def AppendToText : RegExpTree → RegExpTreeList → RegExpTreeList
  | Text elements, text => text.append elements
  | t, text => text.append (RegExpTreeList.cons t RegExpTreeList.nil)

mutual
/-- Modelled from the spec: `max_match` of `ast.h` and `ast.cc`, the largest
number of code units that the node can match, `kInfinity` when unbounded. -/
def max_match : RegExpTree → Int
  | Disjunction alternatives => max_match_max alternatives
  | Alternative nodes => max_match_sum nodes
  | Assertion _ => 0
  | CharacterClass _ _ => 1
  | Atom data => data.length
  | Text elements => max_match_sum elements
  | Quantifier _ max _ body =>
    if max > 0 ∧ max_match body > kInfinity / max then kInfinity
    else max * max_match body
  | Capture body _ => max_match body
  | Lookahead _ _ _ _ => 0
  | BackReference capture => max_match capture
  | Empty => 0
/-- The largest `max_match` of the list. -/
def max_match_max : RegExpTreeList → Int
  | RegExpTreeList.nil => 0
  | RegExpTreeList.cons t ts => max (max_match t) (max_match_max ts)
/-- The sum of the `max_match` of the list, at most `kInfinity`. -/
def max_match_sum : RegExpTreeList → Int
  | RegExpTreeList.nil => 0
  | RegExpTreeList.cons t ts => min kInfinity (max_match t + max_match_sum ts)
end

end RegExpTree

/-- The fields of `RegExpBuilder`, with `characters_` `none` for `NULL`. -/
structure RegExpBuilder where
  pending_empty_ : Bool := false
  characters_ : Option (List Nat) := none
  terms_ : List RegExpTree := []
  text_ : List RegExpTree := []
  alternatives_ : List RegExpTree := []

namespace RegExpBuilder

/-- The function `RegExpBuilder::FlushCharacters` (lines 99-107). -/
def FlushCharacters (b : RegExpBuilder) : RegExpBuilder :=
  match b.characters_ with
  | some characters =>
    { b with pending_empty_ := false, characters_ := none,
             text_ := b.text_ ++ [RegExpTree.Atom characters] }
  | none => { b with pending_empty_ := false }

/-- The function `RegExpBuilder::FlushText` (lines 110-124). -/
def FlushText (b : RegExpBuilder) : RegExpBuilder :=
  let b := b.FlushCharacters
  match b.text_ with
  | [] => b
  | [t] => { b with terms_ := b.terms_ ++ [t], text_ := [] }
  | ts =>
    { b with
      terms_ := b.terms_ ++
        [RegExpTree.Text (ts.foldl (fun text t => t.AppendToText text) RegExpTreeList.nil)],
      text_ := [] }

/-- The function `RegExpBuilder::AddCharacter` (lines 127-134); the argument is
a 16-bit code unit. -/
def AddCharacter (b : RegExpBuilder) (c : Nat) : RegExpBuilder :=
  { b with pending_empty_ := false,
           characters_ := some (b.characters_.getD [] ++ [c % 2 ^ 16]) }

/-- The function `RegExpBuilder::AddEmpty` (lines 137-139). -/
def AddEmpty (b : RegExpBuilder) : RegExpBuilder := { b with pending_empty_ := true }

/-- The function `RegExpBuilder::AddAtom` (lines 142-155). -/
def AddAtom (b : RegExpBuilder) (term : RegExpTree) : RegExpBuilder :=
  if term.IsEmpty then b.AddEmpty
  else if term.IsTextElement then
    let b := b.FlushCharacters
    { b with text_ := b.text_ ++ [term] }
  else
    let b := b.FlushText
    { b with terms_ := b.terms_ ++ [term] }

/-- The function `RegExpBuilder::AddAssertion` (lines 158-162). -/
def AddAssertion (b : RegExpBuilder) (assert : RegExpTree) : RegExpBuilder :=
  let b := b.FlushText
  { b with terms_ := b.terms_ ++ [assert] }

/-- The function `RegExpBuilder::FlushTerms` (lines 170-184). -/
def FlushTerms (b : RegExpBuilder) : RegExpBuilder :=
  let b := b.FlushText
  let alternative : RegExpTree :=
    match b.terms_ with
    | [] => RegExpTree.Empty
    | [t] => t
    | ts => RegExpTree.Alternative (RegExpTreeList.ofList ts)
  { b with alternatives_ := b.alternatives_ ++ [alternative], terms_ := [] }

/-- The function `RegExpBuilder::NewAlternative` (lines 165-167). -/
def NewAlternative (b : RegExpBuilder) : RegExpBuilder := b.FlushTerms

/-- The function `RegExpBuilder::ToRegExp` (lines 187-197): the tree and the
builder after the flush. -/
def ToRegExp (b : RegExpBuilder) : RegExpTree × RegExpBuilder :=
  let b := b.FlushTerms
  match b.alternatives_ with
  | [] => (RegExpTree.Empty, b)
  | [t] => (t, b)
  | ts => (RegExpTree.Disjunction (RegExpTreeList.ofList ts), b)

/-- The function `RegExpBuilder::AddQuantifierToAtom` (lines 200-246). -/
def AddQuantifierToAtom (b : RegExpBuilder) (min max : Int) (type : RegExpQuantifierType) :
    RegExpBuilder :=
  if b.pending_empty_ then { b with pending_empty_ := false }
  else
    match b.characters_ with
    | some char_vector =>
      let num_chars := char_vector.length
      let b1 : RegExpBuilder :=
        if num_chars > 1 then
          { b with text_ := b.text_ ++ [RegExpTree.Atom (char_vector.take (num_chars - 1))] }
        else b
      let atom := RegExpTree.Atom (char_vector.drop (num_chars - 1))
      let b2 := ({ b1 with characters_ := none } : RegExpBuilder).FlushText
      { b2 with terms_ := b2.terms_ ++ [RegExpTree.Quantifier min max type atom] }
    | none =>
      match b.text_.getLast? with
      | some atom =>
        let b2 := ({ b with text_ := b.text_.dropLast } : RegExpBuilder).FlushText
        { b2 with terms_ := b2.terms_ ++ [RegExpTree.Quantifier min max type atom] }
      | none =>
        match b.terms_.getLast? with
        | some atom =>
          let b2 : RegExpBuilder := { b with terms_ := b.terms_.dropLast }
          if atom.max_match = 0 then
            if min = 0 then b2
            else { b2 with terms_ := b2.terms_ ++ [atom] }
          else { b2 with terms_ := b2.terms_ ++ [RegExpTree.Quantifier min max type atom] }
        | none => b

end RegExpBuilder

/-! ## Regular expressions: the parser (lines 4130-4943 and 5066-5085) -/

/-! The code units that the embedding names. -/

namespace Ch

/-- The code unit of `(`. -/
def lparen : Nat := 40
/-- The code unit of `)`. -/
def rparen : Nat := 41
/-- The code unit of `*`. -/
def star : Nat := 42
/-- The code unit of `+`. -/
def plus : Nat := 43
/-- The code unit of `,`. -/
def comma : Nat := 44
/-- The code unit of `-`. -/
def minus : Nat := 45
/-- The code unit of `.`. -/
def dot : Nat := 46
/-- The code unit of `:`. -/
def colon : Nat := 58
/-- The code unit of `=`. -/
def equals : Nat := 61
/-- The code unit of `!`. -/
def bang : Nat := 33
/-- The code unit of `?`. -/
def question : Nat := 63
/-- The code unit of `$`. -/
def dollar : Nat := 36
/-- The code unit of `[`. -/
def lbrack : Nat := 91
/-- The code unit of the backslash. -/
def backslash : Nat := 92
/-- The code unit of `]`. -/
def rbrack : Nat := 93
/-- The code unit of `^`. -/
def caret : Nat := 94
/-- The code unit of `_`. -/
def underscore : Nat := 95
/-- The code unit of the opening brace. -/
def lbrace : Nat := 123
/-- The code unit of `|`. -/
def bar : Nat := 124
/-- The code unit of the closing brace. -/
def rbrace : Nat := 125

end Ch

/-- Modelled from the spec: `IsDecimalDigit` of `char-predicates-inl.h`. -/
def IsDecimalDigit (c : Nat) : Bool := decide ('0'.toNat ≤ c ∧ c ≤ '9'.toNat)

/-- Modelled from the spec: `HexValue` of `char-predicates-inl.h`, the value of
a hexadecimal digit, or -1. -/
def HexValue (c : Nat) : Int :=
  if '0'.toNat ≤ c ∧ c ≤ '9'.toNat then (c : Int) - '0'.toNat
  else if 'a'.toNat ≤ c ∧ c ≤ 'f'.toNat then (c : Int) - 'a'.toNat + 10
  else if 'A'.toNat ≤ c ∧ c ≤ 'F'.toNat then (c : Int) - 'A'.toNat + 10
  else -1

/-- The kinds of group of `RegExpParser::SubexpressionType`. -/
inductive SubexpressionType
  | INITIAL | CAPTURE | POSITIVE_LOOKAHEAD | NEGATIVE_LOOKAHEAD | GROUPING
  deriving DecidableEq, Repr

/-- A `RegExpParserState` without its link: the builder of the group, the kind
of the group and the capture index recorded when the group was opened.  The
chain of `previous_state_` links is the list that holds the states. -/
structure RegExpParserState where
  builder_ : RegExpBuilder := {}
  group_type_ : SubexpressionType
  disjunction_capture_index_ : Int

/-- The fields of `RegExpParser`.  `in_` is the flat string, `error_` the
message stored through the error handle (`none` for the null handle),
`captures_` the capture list with `none` for `NULL`, both for the list and for
its elements. -/
structure RegExpParser where
  in_ : List Nat
  multiline_ : Bool
  error_ : Option String := none
  captures_ : Option (List (Option RegExpTree)) := none
  current_ : Nat := 2 ^ 21
  next_pos_ : Int := 0
  capture_count_ : Int := 0
  has_more_ : Bool := true
  simple_ : Bool := false
  contains_anchor_ : Bool := false
  is_scanned_for_captures_ : Bool := false
  failed_ : Bool := false
  FLAG_regexp_possessive_quantifier : Bool := false

namespace RegExpParser

/-- The constant `RegExpParser::kEndMarker`. -/
def kEndMarker : Nat := 2 ^ 21

/-- The constant `RegExpParser::kMaxCaptures`. -/
def kMaxCaptures : Int := 2 ^ 16

/-- Modelled from the spec: `FlatStringReader::Get`, the code unit at an
index. -/
def Get (p : RegExpParser) (index : Int) : Nat := p.in_.getD index.toNat 0

/-- The accessor `has_next` of `parser.h`. -/
def has_next (p : RegExpParser) : Bool := decide (p.next_pos_ < p.in_.length)

/-- The accessor `position` of `parser.h`. -/
def position (p : RegExpParser) : Int := p.next_pos_ - 1

/-- The accessor `captures_started` of `parser.h`. -/
def captures_started (p : RegExpParser) : Int :=
  match p.captures_ with
  | none => 0
  | some captures => captures.length

/-- The function `RegExpParser::Next` (lines 4149-4155). -/
def Next (p : RegExpParser) : Nat :=
  if p.has_next then p.Get p.next_pos_ else kEndMarker

/-- The function `RegExpParser::Advance` (lines 4158-4173); the stack limit and
the zone limit are not reached in the embedding. -/
def Advance (p : RegExpParser) : RegExpParser :=
  if p.next_pos_ < p.in_.length then
    { p with current_ := p.Get p.next_pos_, next_pos_ := p.next_pos_ + 1 }
  else
    { p with current_ := kEndMarker, has_more_ := false }

/-- The function `RegExpParser::Reset` (lines 4176-4179). -/
def Reset (p : RegExpParser) (pos : Int) : RegExpParser :=
  Advance { p with next_pos_ := pos }

/-- The function `RegExpParser::Advance(int dist)` (lines 4182-4185). -/
def AdvanceBy (p : RegExpParser) (dist : Int) : RegExpParser :=
  Advance { p with next_pos_ := p.next_pos_ + dist - 1 }

/-- The function `RegExpParser::ReportError` (lines 4192-4199). -/
def ReportError (p : RegExpParser) (message : String) : RegExpParser :=
  { p with failed_ := true, error_ := some message, current_ := kEndMarker,
           next_pos_ := p.in_.length }

/-- The constructor (lines 4130-4146). -/
def New (input : List Nat) (multiline : Bool) : RegExpParser :=
  Advance { in_ := input, multiline_ := multiline }

end RegExpParser

/-- A member function of the parser: the result and the parser after the call,
or `none` when the recursion budget of the embedding is used up. -/
def RegExpM (α : Type) : Type := RegExpParser → Option (α × RegExpParser)

namespace RegExpM

/-- Returns a value and leaves the parser as it is. -/
def ret {α : Type} (a : α) : RegExpM α := fun p => some (a, p)

/-- Runs `m` and then `f` on its result. -/
def seq {α β : Type} (m : RegExpM α) (f : α → RegExpM β) : RegExpM β :=
  fun p =>
    match m p with
    | some (a, p1) => f a p1
    | none => none

instance : Monad RegExpM where
  pure := ret
  bind := seq

/-- The recursion budget is used up. -/
def out_of_fuel {α : Type} : RegExpM α := fun _ => none

/-- Reads the parser. -/
def read {α : Type} (f : RegExpParser → α) : RegExpM α := fun p => some (f p, p)

/-- Changes the parser. -/
def modify (f : RegExpParser → RegExpParser) : RegExpM Unit := fun p => some ((), f p)

end RegExpM

namespace RegExpParser

/-- The call `current()`. -/
def current : RegExpM Nat := RegExpM.read (fun p => p.current_)

/-- The inner loop of `ScanForCaptures` over a character class (lines
4607-4614). -/
def ScanForCaptures_class : Nat → RegExpM Unit
  | 0 => RegExpM.out_of_fuel
  | fuel + 1 => do
    let c ← current
    if c ≠ kEndMarker then do
      RegExpM.modify Advance
      if c = Ch.backslash then do
        RegExpM.modify Advance
        ScanForCaptures_class fuel
      else if c = Ch.rbrack then pure ()
      else ScanForCaptures_class fuel
    else pure ()

/-- The outer loop of `ScanForCaptures` (lines 4600-4621): the count. -/
def ScanForCaptures_loop : Nat → Int → RegExpM Int
  | 0, _ => RegExpM.out_of_fuel
  | fuel + 1, capture_count => do
    let n ← current
    if n ≠ kEndMarker then do
      RegExpM.modify Advance
      if n = Ch.backslash then do
        RegExpM.modify Advance
        ScanForCaptures_loop fuel capture_count
      else if n = Ch.lbrack then do
        ScanForCaptures_class fuel
        ScanForCaptures_loop fuel capture_count
      else if n = Ch.lparen then do
        let c ← current
        ScanForCaptures_loop fuel
          (if c ≠ Ch.question then wrapInt32 (capture_count + 1) else capture_count)
      else ScanForCaptures_loop fuel capture_count
    else pure capture_count

/-- The function `RegExpParser::ScanForCaptures` (lines 4594-4624). -/
def ScanForCaptures (fuel : Nat) : RegExpM Unit := do
  let started ← RegExpM.read captures_started
  let capture_count ← ScanForCaptures_loop fuel started
  RegExpM.modify (fun p =>
    { p with capture_count_ := capture_count, is_scanned_for_captures_ := true })

/-- The loop over the digits in `ParseBackReferenceIndex` (lines 4636-4648):
the value, or `none` after the reset of a value that is too large. -/
def ParseBackReferenceIndex_loop (start : Int) : Nat → Int → RegExpM (Option Int)
  | 0, _ => RegExpM.out_of_fuel
  | fuel + 1, value => do
    let c ← current
    if IsDecimalDigit c then
      let value := 10 * value + ((c : Int) - '0'.toNat)
      if value > kMaxCaptures then do
        RegExpM.modify (fun p => p.Reset start)
        pure none
      else do
        RegExpM.modify Advance
        ParseBackReferenceIndex_loop start fuel value
    else pure (some value)

/-- The function `RegExpParser::ParseBackReferenceIndex` (lines 4627-4661): the
value stored in `*index_out`, or `none` when the function returns false. -/
def ParseBackReferenceIndex (fuel : Nat) : RegExpM (Option Int) := do
  let start ← RegExpM.read position
  let first ← RegExpM.read Next
  RegExpM.modify (fun p => p.AdvanceBy 2)
  let r ← ParseBackReferenceIndex_loop start fuel ((first : Int) - '0'.toNat)
  match r with
  | none => pure none
  | some value => do
    let started ← RegExpM.read captures_started
    if value > started then do
      let scanned ← RegExpM.read (fun p => p.is_scanned_for_captures_)
      if !scanned then do
        let saved_position ← RegExpM.read position
        ScanForCaptures fuel
        RegExpM.modify (fun p => p.Reset saved_position)
      else pure ()
      let capture_count ← RegExpM.read (fun p => p.capture_count_)
      if value > capture_count then do
        RegExpM.modify (fun p => p.Reset start)
        pure none
      else pure (some value)
    else pure (some value)

/-- The loop `do Advance(); while (IsDecimalDigit(current()))` of
`ParseIntervalQuantifier` (lines 4685-4687 and 4706-4708). -/
def SkipDecimalDigits : Nat → RegExpM Unit
  | 0 => RegExpM.out_of_fuel
  | fuel + 1 => do
    RegExpM.modify Advance
    let c ← current
    if IsDecimalDigit c then SkipDecimalDigits fuel else pure ()

/-- A loop over decimal digits in `ParseIntervalQuantifier` (lines 4681-4693
and 4703-4714): the number read, `kInfinity` on overflow. -/
def ParseDecimalDigits : Nat → Int → RegExpM Int
  | 0, _ => RegExpM.out_of_fuel
  | fuel + 1, value => do
    let c ← current
    if IsDecimalDigit c then
      let next : Int := (c : Int) - '0'.toNat
      if value > (RegExpTree.kInfinity - next) / 10 then do
        SkipDecimalDigits fuel
        pure RegExpTree.kInfinity
      else do
        RegExpM.modify Advance
        ParseDecimalDigits fuel (10 * value + next)
    else pure value

/-- The function `RegExpParser::ParseIntervalQuantifier` (lines 4671-4728): the
values stored in `*min_out` and `*max_out`, or `none` when the function
returns false. -/
def ParseIntervalQuantifier (fuel : Nat) : RegExpM (Option (Int × Int)) := do
  let start ← RegExpM.read position
  RegExpM.modify Advance
  let c ← current
  if !IsDecimalDigit c then do
    RegExpM.modify (fun p => p.Reset start)
    pure none
  else do
    let min ← ParseDecimalDigits fuel 0
    let c ← current
    if c = Ch.rbrace then do
      RegExpM.modify Advance
      pure (some (min, min))
    else if c = Ch.comma then do
      RegExpM.modify Advance
      let c ← current
      if c = Ch.rbrace then do
        RegExpM.modify Advance
        pure (some (min, RegExpTree.kInfinity))
      else do
        let max ← ParseDecimalDigits fuel 0
        let c ← current
        if c ≠ Ch.rbrace then do
          RegExpM.modify (fun p => p.Reset start)
          pure none
        else do
          RegExpM.modify Advance
          pure (some (min, max))
    else do
      RegExpM.modify (fun p => p.Reset start)
      pure none

/-- Whether the code unit is an octal digit. -/
def IsOctalDigit (c : Nat) : Bool := decide ('0'.toNat ≤ c ∧ c ≤ '7'.toNat)

/-- The function `RegExpParser::ParseOctalLiteral` (lines 4731-4746). -/
def ParseOctalLiteral : RegExpM Int := do
  let c ← current
  let value : Int := (c : Int) - '0'.toNat
  RegExpM.modify Advance
  let c ← current
  if IsOctalDigit c then do
    let value := value * 8 + (c : Int) - '0'.toNat
    RegExpM.modify Advance
    let c ← current
    if value < 32 ∧ IsOctalDigit c then do
      let value := value * 8 + (c : Int) - '0'.toNat
      RegExpM.modify Advance
      pure value
    else pure value
  else pure value

/-- The loop of `ParseHexEscape` (lines 4752-4763), with `remaining` digits to
read: the value, or `none` after the reset at a character that is no digit. -/
def ParseHexEscape_loop (start : Int) : Nat → Int → RegExpM (Option Int)
  | 0, val => pure (some val)
  | remaining + 1, val => do
    let c ← current
    let d := HexValue c
    if d < 0 then do
      RegExpM.modify (fun p => p.Reset start)
      pure none
    else do
      RegExpM.modify Advance
      ParseHexEscape_loop start remaining (val * 16 + d)

/-- The function `RegExpParser::ParseHexEscape` (lines 4749-4767) for a
positive `length`: the value stored in `*value`, or `none` when the function
returns false. -/
def ParseHexEscape (length : Nat) : RegExpM (Option Int) := do
  let start ← RegExpM.read position
  ParseHexEscape_loop start length 0

end RegExpParser

namespace RegExpParser

/-- The statement `ReportError(message)` as a member call. -/
def Fail (message : String) : RegExpM Unit := RegExpM.modify (fun p => p.ReportError message)

/-- The code unit without the bit that tells a lower case letter from an upper
case one (`c & ~('a' ^ 'A')`). -/
def ClearCaseBit (c : Nat) : Nat := if c.testBit 5 then c - 32 else c

/-- The 16-bit code unit that a `uc32` value is converted to. -/
def ToUC16 (c : Int) : Nat := (c % 2 ^ 16).toNat

/-- The function `RegExpParser::ParseClassCharacterEscape` (lines
4771-4849). -/
def ParseClassCharacterEscape : RegExpM Int := do
  RegExpM.modify Advance
  let c ← current
  if c = 'b'.toNat then do
    RegExpM.modify Advance
    pure 8
  else if c = 'f'.toNat then do
    RegExpM.modify Advance
    pure 12
  else if c = 'n'.toNat then do
    RegExpM.modify Advance
    pure 10
  else if c = 'r'.toNat then do
    RegExpM.modify Advance
    pure 13
  else if c = 't'.toNat then do
    RegExpM.modify Advance
    pure 9
  else if c = 'v'.toNat then do
    RegExpM.modify Advance
    pure 11
  else if c = 'c'.toNat then do
    let controlLetter ← RegExpM.read Next
    let letter := ClearCaseBit controlLetter
    if ('0'.toNat ≤ controlLetter ∧ controlLetter ≤ '9'.toNat)
        ∨ controlLetter = Ch.underscore
        ∨ ('A'.toNat ≤ letter ∧ letter ≤ 'Z'.toNat) then do
      RegExpM.modify (fun p => p.AdvanceBy 2)
      pure ((controlLetter % 32 : Nat) : Int)
    else pure (Ch.backslash : Int)
  else if IsOctalDigit c then ParseOctalLiteral
  else if c = 'x'.toNat then do
    RegExpM.modify Advance
    let value ← ParseHexEscape 2
    match value with
    | some v => pure v
    | none => pure ('x'.toNat : Int)
  else if c = 'u'.toNat then do
    RegExpM.modify Advance
    let value ← ParseHexEscape 4
    match value with
    | some v => pure v
    | none => pure ('u'.toNat : Int)
  else do
    RegExpM.modify Advance
    pure (c : Int)

/-- Whether the code unit is the letter of a class escape (`d D s S w W`). -/
def IsClassEscapeLetter (c : Nat) : Bool :=
  c = 'd'.toNat || c = 'D'.toNat || c = 's'.toNat || c = 'S'.toNat
    || c = 'w'.toNat || c = 'W'.toNat

/-- The function `RegExpParser::ParseClassAtom` (lines 4852-4871): the range
and the value stored in `*char_class` (0 for none). -/
def ParseClassAtom : RegExpM (CharacterRange × Nat) := do
  let first ← current
  if first = Ch.backslash then do
    let next ← RegExpM.read Next
    if IsClassEscapeLetter next then do
      RegExpM.modify (fun p => p.AdvanceBy 2)
      pure (CharacterRange.Singleton 0, next)
    else if next = kEndMarker then do
      Fail "\x5c at end of pattern"
      pure (CharacterRange.Singleton 0, 0)
    else do
      let c ← ParseClassCharacterEscape
      let failed ← RegExpM.read (fun p => p.failed_)
      if failed then pure (CharacterRange.Singleton 0, 0)
      else pure (CharacterRange.Singleton (ToUC16 c), 0)
  else do
    RegExpM.modify Advance
    pure (CharacterRange.Singleton first, 0)

/-- The function `AddRangeOrEscape` (lines 4879-4887). -/
def AddRangeOrEscape (ranges : List CharacterRange) (char_class : Nat)
    (range : CharacterRange) : List CharacterRange :=
  if char_class ≠ 0 then ranges ++ [CharacterRange.ClassEscape char_class]
  else ranges ++ [range]

/-- The loop of `ParseCharacterClass` (lines 4903-4933), from the loop test:
the ranges at the exit of the loop, or `none` when the function has returned
`NULL` from inside the loop. -/
def ParseCharacterClass_loop : Nat → List CharacterRange →
    RegExpM (Option (List CharacterRange))
  | 0, _ => RegExpM.out_of_fuel
  | fuel + 1, ranges => do
    let has_more ← RegExpM.read (fun p => p.has_more_)
    let c ← current
    if has_more ∧ c ≠ Ch.rbrack then do
      let first ← ParseClassAtom
      let failed ← RegExpM.read (fun p => p.failed_)
      if failed then pure none
      else do
        let c ← current
        if c = Ch.minus then do
          RegExpM.modify Advance
          let c ← current
          if c = kEndMarker then pure (some ranges)
          else if c = Ch.rbrack then
            pure (some (AddRangeOrEscape ranges first.2 first.1
              ++ [CharacterRange.Singleton Ch.minus]))
          else do
            let next ← ParseClassAtom
            let failed ← RegExpM.read (fun p => p.failed_)
            if failed then pure none
            else if first.2 ≠ 0 ∨ next.2 ≠ 0 then
              ParseCharacterClass_loop fuel
                (AddRangeOrEscape
                  (AddRangeOrEscape ranges first.2 first.1
                    ++ [CharacterRange.Singleton Ch.minus])
                  next.2 next.1)
            else if first.1.from_of > next.1.to_of then do
              Fail "Range out of order in character class"
              pure none
            else
              ParseCharacterClass_loop fuel
                (ranges ++ [CharacterRange.Range first.1.from_of next.1.to_of])
        else ParseCharacterClass_loop fuel (AddRangeOrEscape ranges first.2 first.1)
    else pure (some ranges)

/-- The function `RegExpParser::ParseCharacterClass` (lines 4891-4943); `none`
is `NULL`. -/
def ParseCharacterClass (fuel : Nat) : RegExpM (Option RegExpTree) := do
  RegExpM.modify Advance
  let c ← current
  let is_negated : Bool := c = Ch.caret
  if is_negated then RegExpM.modify Advance else pure ()
  let r ← ParseCharacterClass_loop fuel []
  match r with
  | none => pure none
  | some ranges => do
    let has_more ← RegExpM.read (fun p => p.has_more_)
    if !has_more then do
      Fail "Unterminated character class"
      pure none
    else do
      RegExpM.modify Advance
      if ranges.length = 0 then
        pure (some (RegExpTree.CharacterClass [CharacterRange.Everything] (!is_negated)))
      else pure (some (RegExpTree.CharacterClass ranges is_negated))

/-- How one pass through the first `switch` of the loop of `ParseDisjunction`
ends: with a `return`, with `continue` or with `break`; the latter two with
the current state and the states below it. -/
inductive LoopOutcome
  | return_ (result : Option RegExpTree)
  | continue_ (state : RegExpParserState) (previous : List RegExpParserState)
  | break_ (state : RegExpParserState) (previous : List RegExpParserState)

/-- The case of the backslash in `ParseDisjunction` (lines 4358-4479), with
`builder` the current builder: `none` for a `return` of `NULL`, otherwise the
builder and whether the case ends with `break` (true) or `continue`
(false). -/
def ParseDisjunction_escape (fuel : Nat) (builder : RegExpBuilder) :
    RegExpM (Option (RegExpBuilder × Bool)) := do
  let next ← RegExpM.read Next
  if next = kEndMarker then do
    Fail "\x5c at end of pattern"
    pure none
  else if next = 'b'.toNat then do
    RegExpM.modify (fun p => p.AdvanceBy 2)
    pure (some (builder.AddAssertion (RegExpTree.Assertion RegExpAssertionType.BOUNDARY), false))
  else if next = 'B'.toNat then do
    RegExpM.modify (fun p => p.AdvanceBy 2)
    pure (some (builder.AddAssertion (RegExpTree.Assertion RegExpAssertionType.NON_BOUNDARY),
      false))
  else if IsClassEscapeLetter next then do
    RegExpM.modify (fun p => p.AdvanceBy 2)
    pure (some (builder.AddAtom
      (RegExpTree.CharacterClass [CharacterRange.ClassEscape next] false), true))
  else if '1'.toNat ≤ next ∧ next ≤ '9'.toNat then do
    let index ← ParseBackReferenceIndex fuel
    match index with
    | some index => do
      let captures ← RegExpM.read (fun p => p.captures_)
      let capture : Option RegExpTree :=
        match captures with
        | some list =>
          if index ≤ list.length then (list.getD (index - 1).toNat none) else none
        | none => none
      match capture with
      | none => pure (some (builder.AddEmpty, true))
      | some c => pure (some (builder.AddAtom (RegExpTree.BackReference c), true))
    | none => do
      let first_digit ← RegExpM.read Next
      if first_digit = '8'.toNat ∨ first_digit = '9'.toNat then do
        RegExpM.modify (fun p => p.AdvanceBy 2)
        pure (some (builder.AddCharacter first_digit, true))
      else do
        RegExpM.modify Advance
        let octal ← ParseOctalLiteral
        pure (some (builder.AddCharacter (ToUC16 octal), true))
  else if next = '0'.toNat then do
    RegExpM.modify Advance
    let octal ← ParseOctalLiteral
    pure (some (builder.AddCharacter (ToUC16 octal), true))
  else if next = 'f'.toNat then do
    RegExpM.modify (fun p => p.AdvanceBy 2)
    pure (some (builder.AddCharacter 12, true))
  else if next = 'n'.toNat then do
    RegExpM.modify (fun p => p.AdvanceBy 2)
    pure (some (builder.AddCharacter 10, true))
  else if next = 'r'.toNat then do
    RegExpM.modify (fun p => p.AdvanceBy 2)
    pure (some (builder.AddCharacter 13, true))
  else if next = 't'.toNat then do
    RegExpM.modify (fun p => p.AdvanceBy 2)
    pure (some (builder.AddCharacter 9, true))
  else if next = 'v'.toNat then do
    RegExpM.modify (fun p => p.AdvanceBy 2)
    pure (some (builder.AddCharacter 11, true))
  else if next = 'c'.toNat then do
    RegExpM.modify Advance
    let controlLetter ← RegExpM.read Next
    let letter := ClearCaseBit controlLetter
    if letter < 'A'.toNat ∨ 'Z'.toNat < letter then
      pure (some (builder.AddCharacter Ch.backslash, true))
    else do
      RegExpM.modify (fun p => p.AdvanceBy 2)
      pure (some (builder.AddCharacter (controlLetter % 32), true))
  else if next = 'x'.toNat then do
    RegExpM.modify (fun p => p.AdvanceBy 2)
    let value ← ParseHexEscape 2
    match value with
    | some v => pure (some (builder.AddCharacter (ToUC16 v), true))
    | none => pure (some (builder.AddCharacter 'x'.toNat, true))
  else if next = 'u'.toNat then do
    RegExpM.modify (fun p => p.AdvanceBy 2)
    let value ← ParseHexEscape 4
    match value with
    | some v => pure (some (builder.AddCharacter (ToUC16 v), true))
    | none => pure (some (builder.AddCharacter 'u'.toNat, true))
  else do
    RegExpM.modify (fun p => p.AdvanceBy 2)
    pure (some (builder.AddCharacter next, true))

/-- The case of `)` in `ParseDisjunction` (lines 4242-4279), after the test of
`IsSubexpression`: `below` is the state that becomes current again. -/
def ParseDisjunction_close (state below : RegExpParserState)
    (previous : List RegExpParserState) : RegExpM LoopOutcome := do
  RegExpM.modify Advance
  let body := state.builder_.ToRegExp.1
  let end_capture_index ← RegExpM.read captures_started
  let capture_index := state.disjunction_capture_index_
  let type := state.group_type_
  if type = SubexpressionType.CAPTURE then do
    let capture := RegExpTree.Capture body capture_index
    RegExpM.modify (fun p =>
      { p with captures_ := p.captures_.map (fun list =>
          list.set (capture_index - 1).toNat (some capture)) })
    pure (LoopOutcome.break_ { below with builder_ := below.builder_.AddAtom capture } previous)
  else if type ≠ SubexpressionType.GROUPING then
    let is_positive : Bool := type = SubexpressionType.POSITIVE_LOOKAHEAD
    let lookahead := RegExpTree.Lookahead body is_positive
      (wrapInt32 (end_capture_index - capture_index)) capture_index
    pure (LoopOutcome.break_ { below with builder_ := below.builder_.AddAtom lookahead }
      previous)
  else
    pure (LoopOutcome.break_ { below with builder_ := below.builder_.AddAtom body } previous)

/-- The case of `(` in `ParseDisjunction` (lines 4318-4352). -/
def ParseDisjunction_open (state : RegExpParserState) (previous : List RegExpParserState) :
    RegExpM LoopOutcome := do
  RegExpM.modify Advance
  let c ← current
  if c = Ch.question then do
    let next ← RegExpM.read Next
    let type : Option SubexpressionType :=
      if next = Ch.colon then some SubexpressionType.GROUPING
      else if next = Ch.equals then some SubexpressionType.POSITIVE_LOOKAHEAD
      else if next = Ch.bang then some SubexpressionType.NEGATIVE_LOOKAHEAD
      else none
    match type with
    | none => do
      Fail "Invalid group"
      pure (LoopOutcome.return_ none)
    | some type => do
      RegExpM.modify (fun p => p.AdvanceBy 2)
      let started ← RegExpM.read captures_started
      pure (LoopOutcome.continue_
        { group_type_ := type, disjunction_capture_index_ := started } (state :: previous))
  else do
    RegExpM.modify (fun p => { p with captures_ := some (p.captures_.getD []) })
    let started ← RegExpM.read captures_started
    if started ≥ kMaxCaptures then do
      Fail "Too many captures"
      pure (LoopOutcome.return_ none)
    else do
      RegExpM.modify (fun p => { p with captures_ := p.captures_.map (fun list => list ++ [none]) })
      let started ← RegExpM.read captures_started
      pure (LoopOutcome.continue_
        { group_type_ := SubexpressionType.CAPTURE, disjunction_capture_index_ := started }
        (state :: previous))

/-- The case of `[` in `ParseDisjunction` (lines 4353-4357). -/
def ParseDisjunction_class (fuel : Nat) (state : RegExpParserState)
    (previous : List RegExpParserState) : RegExpM LoopOutcome := do
  let atom ← ParseCharacterClass fuel
  let failed ← RegExpM.read (fun p => p.failed_)
  match failed, atom with
  | false, some atom =>
    pure (LoopOutcome.break_ { state with builder_ := state.builder_.AddAtom atom } previous)
  | _, _ => pure (LoopOutcome.return_ none)

/-- The case of the backslash in `ParseDisjunction` (lines 4358-4479), with the
state that holds the builder. -/
def ParseDisjunction_backslash (fuel : Nat) (state : RegExpParserState)
    (previous : List RegExpParserState) : RegExpM LoopOutcome := do
  let r ← ParseDisjunction_escape fuel state.builder_
  match r with
  | none => pure (LoopOutcome.return_ none)
  | some (builder, true) => pure (LoopOutcome.break_ { state with builder_ := builder } previous)
  | some (builder, false) =>
    pure (LoopOutcome.continue_ { state with builder_ := builder } previous)

/-- One pass through the first `switch` of the loop of `ParseDisjunction`
(lines 4233-4493). -/
def ParseDisjunction_step (fuel : Nat) (state : RegExpParserState)
    (previous : List RegExpParserState) : RegExpM LoopOutcome := do
  let builder := state.builder_
  let c ← current
  if c = kEndMarker then
    match previous with
    | _ :: _ => do
      Fail "Unterminated group"
      pure (LoopOutcome.return_ none)
    | [] => pure (LoopOutcome.return_ (some builder.ToRegExp.1))
  else if c = Ch.rparen then
    match previous with
    | [] => do
      Fail "Unmatched \x27)\x27"
      pure (LoopOutcome.return_ none)
    | below :: rest => ParseDisjunction_close state below rest
  else if c = Ch.bar then do
    RegExpM.modify Advance
    pure (LoopOutcome.continue_ { state with builder_ := builder.NewAlternative } previous)
  else if c = Ch.star ∨ c = Ch.plus ∨ c = Ch.question then do
    Fail "Nothing to repeat"
    pure (LoopOutcome.return_ none)
  else if c = Ch.caret then do
    RegExpM.modify Advance
    let multiline ← RegExpM.read (fun p => p.multiline_)
    if multiline then
      pure (LoopOutcome.continue_
        { state with builder_ :=
            builder.AddAssertion (RegExpTree.Assertion RegExpAssertionType.START_OF_LINE) }
        previous)
    else do
      RegExpM.modify (fun p => { p with contains_anchor_ := true })
      pure (LoopOutcome.continue_
        { state with builder_ :=
            builder.AddAssertion (RegExpTree.Assertion RegExpAssertionType.START_OF_INPUT) }
        previous)
  else if c = Ch.dollar then do
    RegExpM.modify Advance
    let multiline ← RegExpM.read (fun p => p.multiline_)
    let type :=
      if multiline then RegExpAssertionType.END_OF_LINE else RegExpAssertionType.END_OF_INPUT
    pure (LoopOutcome.continue_
      { state with builder_ := builder.AddAssertion (RegExpTree.Assertion type) } previous)
  else if c = Ch.dot then do
    RegExpM.modify Advance
    pure (LoopOutcome.break_
      { state with builder_ :=
          builder.AddAtom (RegExpTree.CharacterClass [CharacterRange.ClassEscape Ch.dot] false) }
      previous)
  else if c = Ch.lparen then ParseDisjunction_open state previous
  else if c = Ch.lbrack then ParseDisjunction_class fuel state previous
  else if c = Ch.backslash then ParseDisjunction_backslash fuel state previous
  else if c = Ch.lbrace then do
    let quantifier ← ParseIntervalQuantifier fuel
    match quantifier with
    | some _ => do
      Fail "Nothing to repeat"
      pure (LoopOutcome.return_ none)
    | none => do
      let c ← current
      RegExpM.modify Advance
      pure (LoopOutcome.break_ { state with builder_ := builder.AddCharacter c } previous)
  else do
    RegExpM.modify Advance
    pure (LoopOutcome.break_ { state with builder_ := builder.AddCharacter c } previous)

/-- The second `switch` of the loop of `ParseDisjunction` and the statements
behind it (lines 4495-4545): `none` for a `return` of `NULL`, otherwise the
builder with which the loop goes on. -/
def ParseDisjunction_quantifier (fuel : Nat) (builder : RegExpBuilder) :
    RegExpM (Option RegExpBuilder) := do
  let c ← current
  let bounds : Option (Option (Int × Int)) ←
    if c = Ch.star then do
      RegExpM.modify Advance
      pure (some (some (0, RegExpTree.kInfinity)))
    else if c = Ch.plus then do
      RegExpM.modify Advance
      pure (some (some (1, RegExpTree.kInfinity)))
    else if c = Ch.question then do
      RegExpM.modify Advance
      pure (some (some (0, 1)))
    else if c = Ch.lbrace then do
      let quantifier ← ParseIntervalQuantifier fuel
      match quantifier with
      | some (min, max) =>
        if max < min then do
          Fail "numbers out of order in \x7b\x7d quantifier."
          pure none
        else pure (some (some (min, max)))
      | none => pure (some none)
    else pure (some none)
  match bounds with
  | none => pure none
  | some none => pure (some builder)
  | some (some (min, max)) => do
    let c ← current
    let possessive ← RegExpM.read (fun p => p.FLAG_regexp_possessive_quantifier)
    if c = Ch.question then do
      RegExpM.modify Advance
      pure (some (builder.AddQuantifierToAtom min max RegExpQuantifierType.NON_GREEDY))
    else if possessive ∧ c = Ch.plus then do
      RegExpM.modify Advance
      pure (some (builder.AddQuantifierToAtom min max RegExpQuantifierType.POSSESSIVE))
    else pure (some (builder.AddQuantifierToAtom min max RegExpQuantifierType.GREEDY))

/-- The loop of `ParseDisjunction` (lines 4232-4545), from its start. -/
def ParseDisjunction_loop : Nat → RegExpParserState → List RegExpParserState →
    RegExpM (Option RegExpTree)
  | 0, _, _ => RegExpM.out_of_fuel
  | fuel + 1, state, previous => do
    let outcome ← ParseDisjunction_step fuel state previous
    match outcome with
    | LoopOutcome.return_ result => pure result
    | LoopOutcome.continue_ state previous => ParseDisjunction_loop fuel state previous
    | LoopOutcome.break_ state previous => do
      let builder ← ParseDisjunction_quantifier fuel state.builder_
      match builder with
      | none => pure none
      | some builder => ParseDisjunction_loop fuel { state with builder_ := builder } previous

/-- The function `RegExpParser::ParseDisjunction` (lines 4226-4546). -/
def ParseDisjunction (fuel : Nat) : RegExpM (Option RegExpTree) :=
  ParseDisjunction_loop fuel
    { group_type_ := SubexpressionType.INITIAL, disjunction_capture_index_ := 0 } []

/-- The function `RegExpParser::ParsePattern` (lines 4204-4213). -/
def ParsePattern (fuel : Nat) : RegExpM (Option RegExpTree) := do
  let result ← ParseDisjunction fuel
  let failed ← RegExpM.read (fun p => p.failed_)
  match failed, result with
  | false, some tree => do
    let length ← RegExpM.read (fun p => p.in_.length)
    match tree with
    | RegExpTree.Atom data =>
      if data.length = length then RegExpM.modify (fun p => { p with simple_ := true })
      else pure ()
    | _ => pure ()
    pure (some tree)
  | _, _ => pure none

end RegExpParser

/-- The fields of `RegExpCompileData` that `ParseRegExp` sets. -/
structure RegExpCompileData where
  tree : Option RegExpTree := none
  simple : Bool := true
  contains_anchor : Bool := false
  error : Option String := none
  capture_count : Int := 0

/-- The function `RegExpParser::ParseRegExp` (lines 5066-5085): the value
returned, the compile data, and the parser object at the end; `none` when the
recursion budget of the embedding is used up. -/
def ParseRegExp (fuel : Nat) (input : List Nat) (multiline : Bool) :
    Option (Bool × RegExpCompileData × RegExpParser) :=
  match RegExpParser.ParsePattern fuel (RegExpParser.New input multiline) with
  | none => none
  | some (tree, parser) =>
    if parser.failed_ then
      some (false, { error := parser.error_ }, parser)
    else
      let capture_count := parser.captures_started
      some (true,
        { tree := tree,
          simple := (match tree with
                     | some t => t.IsAtom
                     | none => false) && parser.simple_ && capture_count = 0,
          contains_anchor := parser.contains_anchor_,
          capture_count := capture_count },
        parser)

/-! ## Regular expressions: the capture list -/

/-- The capture list, empty while `captures_` is `NULL`. -/
def RegExpParser.captures (p : RegExpParser) : List (Option RegExpTree) := p.captures_.getD []

/-- The code units of a pattern. -/
def pattern (s : String) : List Nat := s.toList.map Char.toNat

/-- Whether a frame of the target stack is one that a `continue` with the
given label (`none` for an unlabeled `continue`) may target: an iteration
statement, and for a labeled `continue` one whose label set contains the
label. -/
def Target.MatchesContinue (p : Parser) (label : Option String) : Target → Bool
  | Target.breakable _ labels kind =>
    kind.is_iteration &&
      (match label with
       | none => true
       | some l => p.ContainsLabel labels l)
  | Target.collector _ _ => false

/-- The first frame from the top of the target stack that matches the
`continue`. -/
def Parser.nearestContinueTarget (p : Parser) (label : Option String) : Option Nat :=
  (p.target_stack_.find? (Target.MatchesContinue p label)).map Target.node

/-- Whether a frame of the target stack points to an iteration statement. -/
def Target.IsIteration : Target → Bool
  | Target.breakable _ _ kind => kind.is_iteration
  | Target.collector _ _ => false

/-- The scanned tokens of the text `for(;;){ continue; }` (20 characters). -/
def source_for_continue : List TokenDesc :=
  [tk Token.FOR 0 3, tk Token.LPAREN 3 4, tk Token.SEMICOLON 4 5, tk Token.SEMICOLON 5 6,
   tk Token.RPAREN 6 7, tk Token.LBRACE 7 8, tk Token.CONTINUE 9 17, tk Token.SEMICOLON 17 18,
   tk Token.RBRACE 19 20]

/-- The scanned tokens of the text `outer: for(;;){ switch(x){ case 1: continue outer; } }` (54 characters). -/
def source_continue_outer : List TokenDesc :=
  [tkIdentifier "outer" 0 5, tk Token.COLON 5 6, tk Token.FOR 7 10, tk Token.LPAREN 10 11,
   tk Token.SEMICOLON 11 12, tk Token.SEMICOLON 12 13, tk Token.RPAREN 13 14,
   tk Token.LBRACE 14 15, tk Token.SWITCH 16 22, tk Token.LPAREN 22 23, tkIdentifier "x" 23 24,
   tk Token.RPAREN 24 25, tk Token.LBRACE 25 26, tk Token.CASE 27 31, tkNumber 1 32 33,
   tk Token.COLON 33 34, tk Token.CONTINUE 35 43, tkIdentifier "outer" 44 49,
   tk Token.SEMICOLON 49 50, tk Token.RBRACE 51 52, tk Token.RBRACE 53 54]

/-- The scanned tokens of the text `L: { continue L; }` (18 characters). -/
def source_continue_label_block : List TokenDesc :=
  [tkIdentifier "L" 0 1, tk Token.COLON 1 2, tk Token.LBRACE 3 4, tk Token.CONTINUE 5 13,
   tkIdentifier "L" 14 15, tk Token.SEMICOLON 15 16, tk Token.RBRACE 17 18]

/-- The scanned tokens of the text `continue;` (9 characters). -/
def source_continue : List TokenDesc :=
  [tk Token.CONTINUE 0 8, tk Token.SEMICOLON 8 9]

/-- The scanned tokens of the text `for(;;){ switch(x){ case 1: continue; } }` (41 characters). -/
def source_switch_continue : List TokenDesc :=
  [tk Token.FOR 0 3, tk Token.LPAREN 3 4, tk Token.SEMICOLON 4 5, tk Token.SEMICOLON 5 6,
   tk Token.RPAREN 6 7, tk Token.LBRACE 7 8, tk Token.SWITCH 9 15, tk Token.LPAREN 15 16,
   tkIdentifier "x" 16 17, tk Token.RPAREN 17 18, tk Token.LBRACE 18 19, tk Token.CASE 20 24,
   tkNumber 1 25 26, tk Token.COLON 26 27, tk Token.CONTINUE 28 36, tk Token.SEMICOLON 36 37,
   tk Token.RBRACE 38 39, tk Token.RBRACE 40 41]

/-! ## Jump targets that escape a `try` -/

/-- The frame after `RegisterTargetUse` has passed it: a collector holds the
target, a breakable statement is as before. -/
def Target.withTarget (target : BreakTarget) : Target → Target
  | Target.collector id targets =>
    Target.collector id (TargetCollector_AddTarget targets target)
  | Target.breakable id labels kind => Target.breakable id labels kind

/-- The targets that a collector frame holds; a breakable statement holds
none. -/
def Target.targets : Target → List BreakTarget
  | Target.collector _ targets => targets
  | Target.breakable _ _ _ => []

/-- Whether the frame is a collector. -/
def Target.IsCollector : Target → Bool
  | Target.collector _ _ => true
  | Target.breakable _ _ _ => false

/-- The scanned tokens of the text `for(;;){ try { break; } finally { } }` (37 characters). -/
def source_for_try_break : List TokenDesc :=
  [tk Token.FOR 0 3, tk Token.LPAREN 3 4, tk Token.SEMICOLON 4 5, tk Token.SEMICOLON 5 6,
   tk Token.RPAREN 6 7, tk Token.LBRACE 7 8, tk Token.TRY 9 12, tk Token.LBRACE 13 14,
   tk Token.BREAK 15 20, tk Token.SEMICOLON 20 21, tk Token.RBRACE 22 23, tk Token.FINALLY 24 31,
   tk Token.LBRACE 32 33, tk Token.RBRACE 34 35, tk Token.RBRACE 36 37]

/-- The scanned tokens of the text `try { for(;;){ break; } } finally { }` (37 characters). -/
def source_try_for_break : List TokenDesc :=
  [tk Token.TRY 0 3, tk Token.LBRACE 4 5, tk Token.FOR 6 9, tk Token.LPAREN 9 10,
   tk Token.SEMICOLON 10 11, tk Token.SEMICOLON 11 12, tk Token.RPAREN 12 13,
   tk Token.LBRACE 13 14, tk Token.BREAK 15 20, tk Token.SEMICOLON 20 21, tk Token.RBRACE 22 23,
   tk Token.RBRACE 24 25, tk Token.FINALLY 26 33, tk Token.LBRACE 34 35, tk Token.RBRACE 36 37]

/-- The scanned tokens of the text `for(;;){ try { continue; } finally { } }` (40 characters). -/
def source_for_try_continue : List TokenDesc :=
  [tk Token.FOR 0 3, tk Token.LPAREN 3 4, tk Token.SEMICOLON 4 5, tk Token.SEMICOLON 5 6,
   tk Token.RPAREN 6 7, tk Token.LBRACE 7 8, tk Token.TRY 9 12, tk Token.LBRACE 13 14,
   tk Token.CONTINUE 15 23, tk Token.SEMICOLON 23 24, tk Token.RBRACE 25 26,
   tk Token.FINALLY 27 34, tk Token.LBRACE 35 36, tk Token.RBRACE 37 38, tk Token.RBRACE 39 40]

/-! ## The terms that the regular expression builder adds -/

/-- The terms that `RegExpBuilder::FlushText` adds for the pending text
elements (lines 112-122): none for no element, the element itself for one, and
one text node for more. -/
def RegExpBuilder.flushed (text : List RegExpTree) : List RegExpTree :=
  match text with
  | [] => []
  | [t] => [t]
  | ts => [RegExpTree.Text (ts.foldl (fun text t => t.AppendToText text) RegExpTreeList.nil)]

/-- The code units of the pattern `(?=a)*b`. -/
def pattern_lookahead_star : List Nat := pattern "(?=a)*b"

/-- The code units of the pattern `(?=a)+b`. -/
def pattern_lookahead_plus : List Nat := pattern "(?=a)+b"

/-- The code units of the pattern `abc*`. -/
def pattern_abc_star : List Nat := pattern "abc*"

/-- The code units of the pattern `(?:)*b`. -/
def pattern_empty_group_star : List Nat := pattern "(?:)*b"

/-! ## Character classes -/

/-- Whether the class that starts at the current `[` is written with a `^`
(lines 4896-4901). -/
def RegExpParser.classIsNegated (p : RegExpParser) : Bool :=
  decide (p.Advance.current_ = Ch.caret)

/-- The parser at the first class atom of the class that starts at the
current `[`: behind the bracket and the `^`, if there is one (lines
4896-4901). -/
def RegExpParser.afterClassOpen (p : RegExpParser) : RegExpParser :=
  if p.Advance.current_ = Ch.caret then p.Advance.Advance else p.Advance

/-- The code units of the pattern `[]`. -/
def pattern_class_empty : List Nat := pattern "[]"

/-- The code units of the pattern `[^]`. -/
def pattern_class_negated_empty : List Nat := pattern "[^]"

/-- The code units of the pattern `[^a-c]`. -/
def pattern_class_negated_range : List Nat := pattern "[^a-c]"

/-! ## Back references and the scan for captures -/

/-- The reader stands behind `pre` with `post` still to read: the pattern is
`pre ++ post`, the current character is the first of `post` (the end marker
when `post` is empty) and the read position is one behind it, but never past
the end of the pattern. -/
def RegExpParser.Reads (p : RegExpParser) (pre post : List Nat) : Prop :=
  p.in_ = pre ++ post ∧ p.current_ = post.headD RegExpParser.kEndMarker
    ∧ p.next_pos_ = min ((pre.length : Int) + 1) p.in_.length

/-- Where a reader that skips escapes and character classes stands. -/
inductive ScanMode
  | normal | escaped | in_class | in_class_escaped
  deriving DecidableEq, Repr

/-- The number of capturing groups that open in a text: the left parentheses
that are not followed by `?`, not counting escaped characters and the
characters of a character class. -/
def capturesAhead : ScanMode → List Nat → Nat
  | _, [] => 0
  | ScanMode.normal, c :: rest =>
    if c = Ch.backslash then capturesAhead ScanMode.escaped rest
    else if c = Ch.lbrack then capturesAhead ScanMode.in_class rest
    else if c = Ch.lparen then
      (if rest.head? = some Ch.question then 0 else 1) + capturesAhead ScanMode.normal rest
    else capturesAhead ScanMode.normal rest
  | ScanMode.escaped, _ :: rest => capturesAhead ScanMode.normal rest
  | ScanMode.in_class, c :: rest =>
    if c = Ch.backslash then capturesAhead ScanMode.in_class_escaped rest
    else if c = Ch.rbrack then capturesAhead ScanMode.normal rest
    else capturesAhead ScanMode.in_class rest
  | ScanMode.in_class_escaped, _ :: rest => capturesAhead ScanMode.in_class rest

/-- The value of a run of decimal digits. -/
def decimalValue (digits : List Nat) : Nat :=
  digits.foldl (fun value c => 10 * value + (c - '0'.toNat)) 0

/-- The total number of capturing groups that `ParseBackReferenceIndex`
compares an index with, for a reader with `rest` behind the digits: the groups
opened so far plus those that open in `rest`; once the pattern has been
scanned, the count stored by the scan (or the number of groups opened so far,
if that is larger). -/
def RegExpParser.totalCaptures (p : RegExpParser) (rest : List Nat) : Int :=
  if p.is_scanned_for_captures_ then max p.captures_started p.capture_count_
  else p.captures_started + capturesAhead ScanMode.normal rest

/-- The code units of the pattern `\2[a]`. -/
def pattern_octal_class : List Nat := pattern "\x5c2[a]"

/-- The code units of the pattern `\1(a)[b]`. -/
def pattern_forward_reference_class : List Nat := pattern "\x5c1(a)[b]"

/-- The code units of the pattern `\2a`. -/
def pattern_octal_a : List Nat := pattern "\x5c2a"

/-- The code units of the pattern `\8`. -/
def pattern_escaped_8 : List Nat := pattern "\x5c8"

/-- The code units of the pattern `\1(a)`. -/
def pattern_forward_reference : List Nat := pattern "\x5c1(a)"

/-- The code units of the pattern `(a)\1`. -/
def pattern_back_reference : List Nat := pattern "(a)\x5c1"

/-- The code units of the pattern `(a)\12`. -/
def pattern_octal_12 : List Nat := pattern "(a)\x5c12"

/-- The second parser has the pattern, the captures and the result of the scan
of the first. -/
def RegExpParser.SameCounts (p q : RegExpParser) : Prop :=
  q.in_ = p.in_ ∧ q.captures_ = p.captures_ ∧ q.capture_count_ = p.capture_count_
    ∧ q.is_scanned_for_captures_ = p.is_scanned_for_captures_

/-- The capture that the index of a back reference names in the decimal escape
of `ParseDisjunction` (lines 4392-4395): `none` for `NULL`, which is the result
when there is no list, when the index is beyond the list and when the group is
still open. -/
def RegExpParser.capturedGroup (p : RegExpParser) (index : Int) : Option RegExpTree :=
  match p.captures_ with
  | some list => if index ≤ list.length then list.getD (index - 1).toNat none else none
  | none => none

/-! ## The parts of `ParseTryStatement` -/

/-- The first part of `ParseTryStatement` (lines 2020-2028): the keyword and
the try block, parsed below a target collector; the result is the block with
the targets that the collector holds at the end. -/
def ParseTryStatement_try (self : Productions) : Production (Statement × List BreakTarget) := do
  Expect Token.TRY
  let collector ← Production.step Parser.alloc
  withCollector collector [] (ParseBlock self none)

/-- The catch clause of `ParseTryStatement` (lines 2045-2078), `has_catch`
telling whether the token after the try block is `catch`: the catch block with
its variable (`none` for `catch_block == NULL`) and the targets held by
`catch_collector`. -/
def ParseTryStatement_catch (self : Productions) (has_catch : Bool) :
    Production (Option (Statement × Variable) × List BreakTarget) := do
  let catch_collector ← Production.step Parser.alloc
  if has_catch then do
    Consume Token.CATCH
    Expect Token.LPAREN
    let name ← ParseIdentifier
    let strict ← Production.read Parser.StrictMode
    if strict && IsEvalOrArguments name then
      ReportMessageAndFail "strict_catch_variable" []
    else do
      Expect Token.RPAREN
      let tok2 ← peek
      if tok2 = Token.LBRACE then do
        let catch_var ← Production.step (fun p =>
          ((p.top_scope.NewTemporary ".catch-var" p.next_id).1,
           { p.set_top_scope (p.top_scope.NewTemporary ".catch-var" p.next_id).2 with
             next_id := p.next_id + 1 }))
        let use_id ← Production.step Parser.alloc
        let obj := Expression.CatchExtensionObject
          (Expression.Literal (Value.string name))
          (Expression.VariableProxy use_id catch_var.name false false (some catch_var))
        let r ← withCollector catch_collector [] (WithHelper self obj none true)
        pure (some (r.1, catch_var), r.2)
      else do
        Expect Token.LBRACE
        pure (none, [])
  else pure (none, [])

/-- The finally clause of `ParseTryStatement` (lines 2080-2085): the finally
block, `none` for `finally_block == NULL`. -/
def ParseTryStatement_finally (self : Productions) (has_catch : Bool) :
    Production (Option Statement) := do
  let tok3 ← peek
  if tok3 = Token.FINALLY || !has_catch then do
    Consume Token.FINALLY
    let b ← ParseBlock self none
    pure (some b)
  else pure none

/-- The end of `ParseTryStatement` (lines 2087-2118): the statement built from
the try block with its targets, the catch clause and the finally block. -/
def ParseTryStatement_result (try_r : Statement × List BreakTarget)
    (catch_r : Option (Statement × Variable) × List BreakTarget)
    (finally_block : Option Statement) : Production Statement :=
  match catch_r.1, finally_block with
  | some (catch_block, catch_var), some finally_b => do
    let defn_id ← Production.step Parser.alloc
    let inner := Statement.TryCatchStatement try_r.1
      (Expression.VariableProxy defn_id catch_var.name false false (some catch_var))
      catch_block try_r.2
    let block_id ← Production.step Parser.alloc
    pure (Statement.TryFinallyStatement
      (Statement.Block block_id none false (StatementList.cons inner StatementList.nil))
      finally_b
      (try_r.2.foldl TargetCollector_AddTarget catch_r.2))
  | some (catch_block, catch_var), none => do
    let defn_id ← Production.step Parser.alloc
    pure (Statement.TryCatchStatement try_r.1
      (Expression.VariableProxy defn_id catch_var.name false false (some catch_var))
      catch_block try_r.2)
  | none, some finally_b =>
    pure (Statement.TryFinallyStatement try_r.1 finally_b
      (try_r.2.foldl TargetCollector_AddTarget catch_r.2))
  | none, none => Production.fail

/-- The scanned tokens of the text `try {} catch (e) {} finally {}` (30 characters). -/
def source_try_catch_finally : List TokenDesc :=
  [tk Token.TRY 0 3, tk Token.LBRACE 4 5, tk Token.RBRACE 5 6, tk Token.CATCH 7 12,
   tk Token.LPAREN 13 14, tkIdentifier "e" 14 15, tk Token.RPAREN 15 16, tk Token.LBRACE 17 18,
   tk Token.RBRACE 18 19, tk Token.FINALLY 20 27, tk Token.LBRACE 28 29, tk Token.RBRACE 29 30]

/-- The scanned tokens of the text `try {} catch (e) {}` (19 characters). -/
def source_try_catch : List TokenDesc :=
  [tk Token.TRY 0 3, tk Token.LBRACE 4 5, tk Token.RBRACE 5 6, tk Token.CATCH 7 12,
   tk Token.LPAREN 13 14, tkIdentifier "e" 14 15, tk Token.RPAREN 15 16, tk Token.LBRACE 17 18,
   tk Token.RBRACE 18 19]

/-- The scanned tokens of the text `try {} finally {}` (17 characters). -/
def source_try_finally : List TokenDesc :=
  [tk Token.TRY 0 3, tk Token.LBRACE 4 5, tk Token.RBRACE 5 6, tk Token.FINALLY 7 14,
   tk Token.LBRACE 15 16, tk Token.RBRACE 16 17]

/-- The scanned tokens of the text `try {} b;` (9 characters). -/
def source_try_alone : List TokenDesc :=
  [tk Token.TRY 0 3, tk Token.LBRACE 4 5, tk Token.RBRACE 5 6, tkIdentifier "b" 7 8,
   tk Token.SEMICOLON 8 9]

/-! ## Frame properties: the flag `FLAG_strict_mode` -/

/-- The production leaves the flag `FLAG_strict_mode`, a constant of the
program that the embedding keeps in the parser, as it is, whether it succeeds
or fails. -/
structure Production.KeepsFlag {α : Type} (m : Production α) : Prop where
  keeps : ∀ p : Parser, (m p).2.FLAG_strict_mode = p.FLAG_strict_mode

/-- Every production of the table leaves the flag `FLAG_strict_mode` as it
is. -/
structure Productions.KeepFlag (table : Productions) : Prop where
  ParseStatement : ∀ a, (table.ParseStatement a).KeepsFlag
  ParseSourceElements_loop : ∀ a b c, (table.ParseSourceElements_loop a b c).KeepsFlag
  ParseBlock_loop : ∀ a, (table.ParseBlock_loop a).KeepsFlag
  ParseCaseClause_loop : ∀ a, (table.ParseCaseClause_loop a).KeepsFlag
  ParseSwitchStatement_loop : ∀ a b, (table.ParseSwitchStatement_loop a b).KeepsFlag
  ParseVariableDeclarations_loop :
    ∀ a b c d e, (table.ParseVariableDeclarations_loop a b c d e).KeepsFlag
  ParseFunctionLiteral_params :
    ∀ a b c d, (table.ParseFunctionLiteral_params a b c d).KeepsFlag
  ParseFunctionLiteral : ∀ a b c d, (table.ParseFunctionLiteral a b c d).KeepsFlag
  ParseExpression : ∀ a, (table.ParseExpression a).KeepsFlag
  ParseExpression_loop : ∀ a b, (table.ParseExpression_loop a b).KeepsFlag
  ParseAssignmentExpression : ∀ a, (table.ParseAssignmentExpression a).KeepsFlag
  ParseBinaryExpression : ∀ a b, (table.ParseBinaryExpression a b).KeepsFlag
  ParseBinaryExpression_for : ∀ a b c d, (table.ParseBinaryExpression_for a b c d).KeepsFlag
  ParseBinaryExpression_while : ∀ a b c, (table.ParseBinaryExpression_while a b c).KeepsFlag
  ParseUnaryExpression : table.ParseUnaryExpression.KeepsFlag
  ParseNewPrefix : ∀ a, (table.ParseNewPrefix a).KeepsFlag
  ParseLeftHandSideExpression_loop :
    ∀ a, (table.ParseLeftHandSideExpression_loop a).KeepsFlag
  ParseMemberWithNewPrefixesExpression_loop :
    ∀ a b, (table.ParseMemberWithNewPrefixesExpression_loop a b).KeepsFlag
  ParseArguments_loop : ∀ a, (table.ParseArguments_loop a).KeepsFlag
  ParseArrayLiteral_loop : ∀ a, (table.ParseArrayLiteral_loop a).KeepsFlag
  ParseObjectLiteral_loop : ∀ a b, (table.ParseObjectLiteral_loop a b).KeepsFlag

/-! ## The directive prologue -/

/-- `InDirectivePrologue end_token n p stat loc`: read from `p` with the
productions at recursion budget `n`, the statement list starts with a run of
statements that begin with a string token and are expression statements made
of a string literal, and `stat`, whose first token has the range `loc`, is one
of the run. -/
inductive InDirectivePrologue (end_token : Token) :
    Nat → Parser → Statement → Location → Prop
  | first (n : Nat) (p q : Parser) (stat : Statement) :
      p.peek ≠ end_token → p.peek = Token.STRING →
      (productions n).ParseStatement none p = (some stat, q) →
      IsStringLiteralStatement stat = true →
      InDirectivePrologue end_token n p stat p.scanner_.peek_location
  | later (n : Nat) (p q : Parser) (s stat : Statement) (loc : Location) :
      p.peek ≠ end_token → p.peek = Token.STRING →
      (productions (n + 1)).ParseStatement none p = (some s, q) →
      IsStringLiteralStatement s = true →
      InDirectivePrologue end_token n q stat loc →
      InDirectivePrologue end_token (n + 1) p stat loc

/-- The scanned tokens of the text `"use\x20strict"; var eval;`: the value of
the literal is `use strict`, its token is 15 characters long. -/
def source_use_strict_escaped : List TokenDesc :=
  [tkString "use strict" 0 15, tk Token.SEMICOLON 15 16, tk Token.VAR 17 20,
   tkIdentifier "eval" 21 25, tk Token.SEMICOLON 25 26]

/-- The scanned tokens of the text `"use \` followed by a line break and
`strict"; var eval;`: the value of the literal is `use strict`, its token is
14 characters long. -/
def source_use_strict_continued : List TokenDesc :=
  [tkString "use strict" 0 14, tk Token.SEMICOLON 14 15, tk Token.VAR 16 19,
   tkIdentifier "eval" 20 24, tk Token.SEMICOLON 24 25]

/-- The scanned tokens of the text `; "use strict"; var eval;`. -/
def source_empty_use_strict : List TokenDesc :=
  [tk Token.SEMICOLON 0 1, tkString "use strict" 2 14, tk Token.SEMICOLON 14 15,
   tk Token.VAR 16 19, tkIdentifier "eval" 20 24, tk Token.SEMICOLON 24 25]

/-- The scanned tokens of the text `("a"); "use strict"; var eval;`: the first
statement is a string literal in parentheses and starts with `(`. -/
def source_parenthesized_use_strict : List TokenDesc :=
  [tk Token.LPAREN 0 1, tkString "a" 1 4, tk Token.RPAREN 4 5, tk Token.SEMICOLON 5 6,
   tkString "use strict" 7 19, tk Token.SEMICOLON 19 20, tk Token.VAR 21 24,
   tkIdentifier "eval" 25 29, tk Token.SEMICOLON 29 30]

/-! ## Strict mode and function literals -/

/-- The strict flag of a function literal (`FunctionLiteral::strict_mode`);
false for every other expression. -/
def Expression.IsStrictFunction : Expression → Bool
  | Expression.FunctionLiteral _ _ _ _ _ _ _ _ _ _ strict_mode _ => strict_mode
  | _ => false

/-- From a strict state the production ends in a strict state, whether it
succeeds or fails, and a result that it returns satisfies `good`. -/
structure Production.StaysStrict {α : Type} (m : Production α) (good : α → Prop) : Prop where
  keeps : ∀ p : Parser, p.StrictMode = true → (m p).2.StrictMode = true
  result : ∀ (p : Parser) (a : α), p.StrictMode = true → (m p).1 = some a → good a

/-- The scanned tokens of the text `function f(){"use strict";} var eval;` (37 characters). -/
def source_function_use_strict_var_eval : List TokenDesc :=
  [tk Token.FUNCTION 0 8, tkIdentifier "f" 9 10, tk Token.LPAREN 10 11, tk Token.RPAREN 11 12,
   tk Token.LBRACE 12 13, tkString "use strict" 13 25, tk Token.SEMICOLON 25 26,
   tk Token.RBRACE 26 27, tk Token.VAR 28 31, tkIdentifier "eval" 32 36, tk Token.SEMICOLON 36 37]

/-- The scanned tokens of the text `"use strict"; function f(){ var eval; }` (39 characters). -/
def source_use_strict_function_var_eval : List TokenDesc :=
  [tkString "use strict" 0 12, tk Token.SEMICOLON 12 13, tk Token.FUNCTION 14 22,
   tkIdentifier "f" 23 24, tk Token.LPAREN 24 25, tk Token.RPAREN 25 26, tk Token.LBRACE 26 27,
   tk Token.VAR 28 31, tkIdentifier "eval" 32 36, tk Token.SEMICOLON 36 37, tk Token.RBRACE 38 39]

/-- The scanned tokens of the text `"use strict"; function f(eval){}` (32 characters). -/
def source_use_strict_function_param_eval : List TokenDesc :=
  [tkString "use strict" 0 12, tk Token.SEMICOLON 12 13, tk Token.FUNCTION 14 22,
   tkIdentifier "f" 23 24, tk Token.LPAREN 24 25, tkIdentifier "eval" 25 29,
   tk Token.RPAREN 29 30, tk Token.LBRACE 30 31, tk Token.RBRACE 31 32]

/-- The scanned tokens of the text `function f(eval){}` (18 characters). -/
def source_function_param_eval : List TokenDesc :=
  [tk Token.FUNCTION 0 8, tkIdentifier "f" 9 10, tk Token.LPAREN 10 11,
   tkIdentifier "eval" 11 15, tk Token.RPAREN 15 16, tk Token.LBRACE 16 17, tk Token.RBRACE 17 18]

/-- The scanned tokens of the text `"use strict"; (function(){});` (29 characters). -/
def source_use_strict_function_expression : List TokenDesc :=
  [tkString "use strict" 0 12, tk Token.SEMICOLON 12 13, tk Token.LPAREN 14 15,
   tk Token.FUNCTION 15 23, tk Token.LPAREN 23 24, tk Token.RPAREN 24 25, tk Token.LBRACE 25 26,
   tk Token.RBRACE 26 27, tk Token.RPAREN 27 28, tk Token.SEMICOLON 28 29]

/-- The scanned tokens of the text `(function(){});` (15 characters). -/
def source_function_expression : List TokenDesc :=
  [tk Token.LPAREN 0 1, tk Token.FUNCTION 1 9, tk Token.LPAREN 9 10, tk Token.RPAREN 10 11,
   tk Token.LBRACE 11 12, tk Token.RBRACE 12 13, tk Token.RPAREN 13 14, tk Token.SEMICOLON 14 15]

/-- The scanned tokens of the text `(function(){"use strict";}); var eval;` (38 characters). -/
def source_function_expression_use_strict : List TokenDesc :=
  [tk Token.LPAREN 0 1, tk Token.FUNCTION 1 9, tk Token.LPAREN 9 10, tk Token.RPAREN 10 11,
   tk Token.LBRACE 11 12, tkString "use strict" 12 24, tk Token.SEMICOLON 24 25,
   tk Token.RBRACE 25 26, tk Token.RPAREN 26 27, tk Token.SEMICOLON 27 28, tk Token.VAR 29 32,
   tkIdentifier "eval" 33 37, tk Token.SEMICOLON 37 38]

/-! ## The parts of `ParseFunctionLiteral` -/

/-- The header and the body of a function in `ParseFunctionLiteral` (lines
3484-3586), run inside the scopes of the function: the start position, the
result of the parameter loop (the number of parameters and the three locations
kept for the strict-mode reports) and the body with its counts and its end
position. -/
def ParseFunctionLiteral_header_and_body (self : Productions) (name function_name : String) :
    Production (Int × (Int × Location × Location × Location)
      × (StatementList × Int × Int × Int)) := do
  Production.modify (fun p => p.set_top_scope { p.top_scope with scope_name_ := name })
  Expect Token.LPAREN
  let start_pos ← location_beg_pos
  let tok ← peek
  let params ←
    if tok = Token.RPAREN then
      pure (0, Location.NoLocation, Location.NoLocation, Location.NoLocation)
    else
      ParseFunctionLiteral_params self 0 Location.NoLocation Location.NoLocation
        Location.NoLocation
  Expect Token.RPAREN
  Expect Token.LBRACE
  let body : StatementList ←
    if function_name.length > 0 then
      Production.step (fun p =>
        let fvar := p.top_scope.DeclareFunctionVar function_name p.next_id
        let fproxy := Expression.VariableProxy (p.next_id + 1) function_name false
          p.inside_with (some fvar.1)
        (StatementList.cons
          (Statement.ExpressionStatement
            (Expression.Assignment Token.INIT_CONST fproxy Expression.ThisFunction
              kNoPosition))
          StatementList.nil,
         { p.set_top_scope { fvar.2 with unresolved_ := fvar.2.unresolved_ ++ [p.next_id + 1] }
           with next_id := p.next_id + 2 }))
    else pure StatementList.nil
  let is_lazily_compiled ← Production.read (fun p =>
    decide (p.mode_ = ParseMode.PARSE_LAZILY)
      && (match p.outer_scopes_.head? with
          | some outer => outer.is_global_scope
          | none => false)
      && p.HasTrivialOuterContext
      && !p.parenthesized_function_)
  Production.modify (fun p => { p with parenthesized_function_ := false })
  let function_block_pos ← location_beg_pos
  let pre_data ← Production.read (fun p => p.pre_data_)
  let r : StatementList × Int × Int × Int ←
    match is_lazily_compiled, pre_data with
    | true, some data => do
      let counts ← ParseFunctionLiteral_lazy name function_block_pos data
      pure (body, counts)
    | _, _ => ParseFunctionLiteral_eager self body
  pure (start_pos, params, r)

/-- The end of `ParseFunctionLiteral` (lines 3588-3649), run on the state that
the body leaves: the strict-mode validation and the literal. -/
def ParseFunctionLiteral_validate (name function_name : String) (name_is_reserved : Bool)
    (function_token_position : Int) (scope : Scope)
    (x : Int × (Int × Location × Location × Location) × (StatementList × Int × Int × Int)) :
    Production Expression := do
  ValidateStrictFunction name name_is_reserved function_token_position x.1 x.2.2.2.2.2
    x.2.1.2.1 x.2.1.2.2.1 x.2.1.2.2.2
  let temp_scope ← Production.read Parser.temp_scope
  pure (Expression.FunctionLiteral name scope.id x.2.2.1 x.2.2.2.1 x.2.2.2.2.1 x.2.1.1 x.1
    x.2.2.2.2.2 (decide (function_name.length > 0)) (decide (temp_scope.loop_count_ > 0))
    temp_scope.strict_mode_ function_token_position)

/-! ## Functions with strict-mode violations in the header -/

/-- The scanned tokens of the text `function eval(){"use strict";}` (30 characters). -/
def source_strict_function_eval : List TokenDesc :=
  [tk Token.FUNCTION 0 8, tkIdentifier "eval" 9 13, tk Token.LPAREN 13 14, tk Token.RPAREN 14 15,
   tk Token.LBRACE 15 16, tkString "use strict" 16 28, tk Token.SEMICOLON 28 29,
   tk Token.RBRACE 29 30]

/-- The scanned tokens of the text `function f(eval){"use strict";}` (31 characters). -/
def source_strict_param_eval : List TokenDesc :=
  [tk Token.FUNCTION 0 8, tkIdentifier "f" 9 10, tk Token.LPAREN 10 11,
   tkIdentifier "eval" 11 15, tk Token.RPAREN 15 16, tk Token.LBRACE 16 17,
   tkString "use strict" 17 29, tk Token.SEMICOLON 29 30, tk Token.RBRACE 30 31]

/-- The scanned tokens of the text `function f(a,a){"use strict";}` (30 characters). -/
def source_strict_param_dupe : List TokenDesc :=
  [tk Token.FUNCTION 0 8, tkIdentifier "f" 9 10, tk Token.LPAREN 10 11, tkIdentifier "a" 11 12,
   tk Token.COMMA 12 13, tkIdentifier "a" 13 14, tk Token.RPAREN 14 15, tk Token.LBRACE 15 16,
   tkString "use strict" 16 28, tk Token.SEMICOLON 28 29, tk Token.RBRACE 29 30]

/-- The scanned tokens of the text `function static(){"use strict";}` (32 characters). -/
def source_strict_function_reserved : List TokenDesc :=
  [tk Token.FUNCTION 0 8,
   { token := Token.FUTURE_RESERVED_WORD, location := ⟨9, 15⟩, literal := "static" },
   tk Token.LPAREN 15 16, tk Token.RPAREN 16 17, tk Token.LBRACE 17 18,
   tkString "use strict" 18 30, tk Token.SEMICOLON 30 31, tk Token.RBRACE 31 32]

/-- The scanned tokens of the text `function f(static){"use strict";}` (33 characters). -/
def source_strict_param_reserved : List TokenDesc :=
  [tk Token.FUNCTION 0 8, tkIdentifier "f" 9 10, tk Token.LPAREN 10 11,
   { token := Token.FUTURE_RESERVED_WORD, location := ⟨11, 17⟩, literal := "static" },
   tk Token.RPAREN 17 18, tk Token.LBRACE 18 19, tkString "use strict" 19 31,
   tk Token.SEMICOLON 31 32, tk Token.RBRACE 32 33]

/-- The scanned tokens of the text `function eval(eval,eval,static){"use strict";}` (46 characters). -/
def source_strict_all_violations : List TokenDesc :=
  [tk Token.FUNCTION 0 8, tkIdentifier "eval" 9 13, tk Token.LPAREN 13 14,
   tkIdentifier "eval" 14 18, tk Token.COMMA 18 19, tkIdentifier "eval" 19 23,
   tk Token.COMMA 23 24,
   { token := Token.FUTURE_RESERVED_WORD, location := ⟨24, 30⟩, literal := "static" },
   tk Token.RPAREN 30 31, tk Token.LBRACE 31 32, tkString "use strict" 32 44,
   tk Token.SEMICOLON 44 45, tk Token.RBRACE 45 46]

/-- The scanned tokens of the text `function static(eval,eval,static){"use strict";}` (48 characters). -/
def source_strict_reserved_eval_dupe : List TokenDesc :=
  [tk Token.FUNCTION 0 8,
   { token := Token.FUTURE_RESERVED_WORD, location := ⟨9, 15⟩, literal := "static" },
   tk Token.LPAREN 15 16, tkIdentifier "eval" 16 20, tk Token.COMMA 20 21,
   tkIdentifier "eval" 21 25, tk Token.COMMA 25 26,
   { token := Token.FUTURE_RESERVED_WORD, location := ⟨26, 32⟩, literal := "static" },
   tk Token.RPAREN 32 33, tk Token.LBRACE 33 34, tkString "use strict" 34 46,
   tk Token.SEMICOLON 46 47, tk Token.RBRACE 47 48]

/-- The scanned tokens of the text `function static(a,a,static){"use strict";}` (42 characters). -/
def source_strict_reserved_dupe : List TokenDesc :=
  [tk Token.FUNCTION 0 8,
   { token := Token.FUTURE_RESERVED_WORD, location := ⟨9, 15⟩, literal := "static" },
   tk Token.LPAREN 15 16, tkIdentifier "a" 16 17, tk Token.COMMA 17 18, tkIdentifier "a" 18 19,
   tk Token.COMMA 19 20,
   { token := Token.FUTURE_RESERVED_WORD, location := ⟨20, 26⟩, literal := "static" },
   tk Token.RPAREN 26 27, tk Token.LBRACE 27 28, tkString "use strict" 28 40,
   tk Token.SEMICOLON 40 41, tk Token.RBRACE 41 42]

/-- The scanned tokens of the text `function static(static){"use strict";}` (38 characters). -/
def source_strict_reserved_both : List TokenDesc :=
  [tk Token.FUNCTION 0 8,
   { token := Token.FUTURE_RESERVED_WORD, location := ⟨9, 15⟩, literal := "static" },
   tk Token.LPAREN 15 16,
   { token := Token.FUTURE_RESERVED_WORD, location := ⟨16, 22⟩, literal := "static" },
   tk Token.RPAREN 22 23, tk Token.LBRACE 23 24, tkString "use strict" 24 36,
   tk Token.SEMICOLON 36 37, tk Token.RBRACE 37 38]

/-- The scanned tokens of the text `function eval(){}` (17 characters). -/
def source_sloppy_function_eval : List TokenDesc :=
  [tk Token.FUNCTION 0 8, tkIdentifier "eval" 9 13, tk Token.LPAREN 13 14, tk Token.RPAREN 14 15,
   tk Token.LBRACE 15 16, tk Token.RBRACE 16 17]

/-- The scanned tokens of the text `function f(a,a){}` (17 characters). -/
def source_sloppy_param_dupe : List TokenDesc :=
  [tk Token.FUNCTION 0 8, tkIdentifier "f" 9 10, tk Token.LPAREN 10 11, tkIdentifier "a" 11 12,
   tk Token.COMMA 12 13, tkIdentifier "a" 13 14, tk Token.RPAREN 14 15, tk Token.LBRACE 15 16,
   tk Token.RBRACE 16 17]

/-- The scanned tokens of the text `function static(){}` (19 characters). -/
def source_sloppy_function_reserved : List TokenDesc :=
  [tk Token.FUNCTION 0 8,
   { token := Token.FUTURE_RESERVED_WORD, location := ⟨9, 15⟩, literal := "static" },
   tk Token.LPAREN 15 16, tk Token.RPAREN 16 17, tk Token.LBRACE 17 18, tk Token.RBRACE 18 19]

/-- The scanned tokens of the text `function f(static){}` (20 characters). -/
def source_sloppy_param_reserved : List TokenDesc :=
  [tk Token.FUNCTION 0 8, tkIdentifier "f" 9 10, tk Token.LPAREN 10 11,
   { token := Token.FUTURE_RESERVED_WORD, location := ⟨11, 17⟩, literal := "static" },
   tk Token.RPAREN 17 18, tk Token.LBRACE 18 19, tk Token.RBRACE 19 20]

/-- The scanned tokens of the text `function eval(eval,eval,static){}` (33 characters). -/
def source_sloppy_all_violations : List TokenDesc :=
  [tk Token.FUNCTION 0 8, tkIdentifier "eval" 9 13, tk Token.LPAREN 13 14,
   tkIdentifier "eval" 14 18, tk Token.COMMA 18 19, tkIdentifier "eval" 19 23,
   tk Token.COMMA 23 24,
   { token := Token.FUTURE_RESERVED_WORD, location := ⟨24, 30⟩, literal := "static" },
   tk Token.RPAREN 30 31, tk Token.LBRACE 31 32, tk Token.RBRACE 32 33]

/-- The location that `ParseFunctionLiteral` reports for the name of the
function (lines 3591-3594 and 3611-3614): from the `function` token, or from
the character before the parameter list, to the start of the parameter
list. -/
def strictNameLocation (function_token_position start_pos : Int) : Location :=
  ⟨if function_token_position ≠ kNoPosition then function_token_position
    else if start_pos > 0 then wrapInt32 (start_pos - 1) else start_pos, start_pos⟩

/-- The scanned tokens of `(eval){"use strict";}`, the text behind the name in
`function f(eval){"use strict";}`. -/
def source_header_param_eval : List TokenDesc :=
  [tk Token.LPAREN 10 11, tkIdentifier "eval" 11 15, tk Token.RPAREN 15 16,
   tk Token.LBRACE 16 17, tkString "use strict" 17 29, tk Token.SEMICOLON 29 30,
   tk Token.RBRACE 30 31]

/-! ## A store whose symbol table is read as a function entry -/

/-- A store with the header, a function table of one entry (start 10, end 20)
and, behind the table, four words of the symbol table, of which the first is
20. -/
def symbolWordsStore : ScriptDataImpl :=
  { store_ := [0xBadDead, 6, 0, 4, 1, 14, 10, 20, 0, 0, 20, 30, 2, 3], function_index_ := 0 }

/-- The number of words of the function table that the header declares
(`store_[kFunctionsSizeOffset]`, line 428). -/
def ScriptDataImpl.functions_size (d : ScriptDataImpl) : Int :=
  toInt32 (d.store_.getD PreparseDataConstants.kFunctionsSizeOffset 0)

/-! ## Jumps out of a nested function -/

/-- The scanned tokens of the text `for(;;){ function f(){ break; } }` (33 characters). -/
def source_for_function_break : List TokenDesc :=
  [tk Token.FOR 0 3, tk Token.LPAREN 3 4, tk Token.SEMICOLON 4 5, tk Token.SEMICOLON 5 6,
   tk Token.RPAREN 6 7, tk Token.LBRACE 7 8, tk Token.FUNCTION 9 17, tkIdentifier "f" 18 19,
   tk Token.LPAREN 19 20, tk Token.RPAREN 20 21, tk Token.LBRACE 21 22, tk Token.BREAK 23 28,
   tk Token.SEMICOLON 28 29, tk Token.RBRACE 30 31, tk Token.RBRACE 32 33]

/-- The scanned tokens of the text `L: for(;;){ function f(){ break L; } }` (38 characters). -/
def source_label_for_function_break : List TokenDesc :=
  [tkIdentifier "L" 0 1, tk Token.COLON 1 2, tk Token.FOR 3 6, tk Token.LPAREN 6 7,
   tk Token.SEMICOLON 7 8, tk Token.SEMICOLON 8 9, tk Token.RPAREN 9 10, tk Token.LBRACE 10 11,
   tk Token.FUNCTION 12 20, tkIdentifier "f" 21 22, tk Token.LPAREN 22 23, tk Token.RPAREN 23 24,
   tk Token.LBRACE 24 25, tk Token.BREAK 26 31, tkIdentifier "L" 32 33, tk Token.SEMICOLON 33 34,
   tk Token.RBRACE 35 36, tk Token.RBRACE 37 38]

/-- The scanned tokens of the text `for(;;){ function f(){ continue; } }` (36 characters). -/
def source_for_function_continue : List TokenDesc :=
  [tk Token.FOR 0 3, tk Token.LPAREN 3 4, tk Token.SEMICOLON 4 5, tk Token.SEMICOLON 5 6,
   tk Token.RPAREN 6 7, tk Token.LBRACE 7 8, tk Token.FUNCTION 9 17, tkIdentifier "f" 18 19,
   tk Token.LPAREN 19 20, tk Token.RPAREN 20 21, tk Token.LBRACE 21 22, tk Token.CONTINUE 23 31,
   tk Token.SEMICOLON 31 32, tk Token.RBRACE 33 34, tk Token.RBRACE 35 36]

/-- The scanned tokens of the text `for(;;){ function f(){ for(;;){ break; } } }` (44 characters). -/
def source_for_function_for_break : List TokenDesc :=
  [tk Token.FOR 0 3, tk Token.LPAREN 3 4, tk Token.SEMICOLON 4 5, tk Token.SEMICOLON 5 6,
   tk Token.RPAREN 6 7, tk Token.LBRACE 7 8, tk Token.FUNCTION 9 17, tkIdentifier "f" 18 19,
   tk Token.LPAREN 19 20, tk Token.RPAREN 20 21, tk Token.LBRACE 21 22, tk Token.FOR 23 26,
   tk Token.LPAREN 26 27, tk Token.SEMICOLON 27 28, tk Token.SEMICOLON 28 29,
   tk Token.RPAREN 29 30, tk Token.LBRACE 30 31, tk Token.BREAK 32 37, tk Token.SEMICOLON 37 38,
   tk Token.RBRACE 39 40, tk Token.RBRACE 41 42, tk Token.RBRACE 43 44]

/-! ## The interval quantifier, in the words of the specification -/

/-- The value of a run of decimal digits, truncated to `kInfinity`. -/
def clampedValue (digits : List Nat) : Int :=
  min (decimalValue digits : Int) RegExpTree.kInfinity

/-- `IntervalForm text min max consumed rest`: the text behind a `{` starts
with one of the forms `n}`, `n,}` and `n,m}`, `n` and `m` being non-empty runs
of decimal digits; `consumed` is the form, `rest` the text behind it, and
`min` and `max` are the bounds it denotes. -/
inductive IntervalForm : List Nat → Int → Int → List Nat → List Nat → Prop
  | exactly (n rest : List Nat) :
      n ≠ [] → (∀ c ∈ n, IsDecimalDigit c = true) →
      IntervalForm (n ++ Ch.rbrace :: rest) (clampedValue n) (clampedValue n)
        (n ++ [Ch.rbrace]) rest
  | at_least (n rest : List Nat) :
      n ≠ [] → (∀ c ∈ n, IsDecimalDigit c = true) →
      IntervalForm (n ++ Ch.comma :: Ch.rbrace :: rest)
        (clampedValue n) RegExpTree.kInfinity
        (n ++ [Ch.comma, Ch.rbrace]) rest
  | between (n m rest : List Nat) :
      n ≠ [] → (∀ c ∈ n, IsDecimalDigit c = true) →
      m ≠ [] → (∀ c ∈ m, IsDecimalDigit c = true) →
      IntervalForm (n ++ Ch.comma :: (m ++ Ch.rbrace :: rest))
        (clampedValue n) (clampedValue m)
        (n ++ Ch.comma :: (m ++ [Ch.rbrace])) rest

/-- The pattern `a{2,3}`. -/
def pattern_interval_between : List Nat := pattern "a\x7b2,3\x7d"

/-- The pattern `a{2147483648}`, whose bound is one more than `kInfinity`. -/
def pattern_interval_overflow : List Nat := pattern "a\x7b2147483648\x7d"

/-- The pattern `a{4294967297,}`, whose bound is `2 ^ 32 + 1`. -/
def pattern_interval_wrap : List Nat := pattern "a\x7b4294967297,\x7d"

/-- The pattern `a{,3}`. -/
def pattern_interval_no_min : List Nat := pattern "a\x7b,3\x7d"

/-- The pattern `a{2,x}`. -/
def pattern_interval_no_max : List Nat := pattern "a\x7b2,x\x7d"

/-- The pattern `a{}`. -/
def pattern_interval_empty : List Nat := pattern "a\x7b\x7d"

/-! ## The regular-expression parser with the limits of `Advance`

`RegExpParser::Advance` (lines 4158-4173) asks `StackLimitCheck::HasOverflowed`
and `Zone::excess_allocation` before it reads a character, and calls
`ReportError` itself when a limit is reached.  The definitions of this section
are those of the parser above, run over a parser object that also holds the
answers the two limits will give. -/

/-- The answer of the two limits to one call of `Advance` that has a character
left to read. -/
inductive LimitCheck
  | ok | stack_overflow | excess_allocation
  deriving DecidableEq, Repr

/-- Modelled from the spec: `Top::kStackOverflowMessage`, whose text is in
`top.cc`. -/
def Top.kStackOverflowMessage : String := "Uncaught RangeError: Maximum call stack size exceeded"

namespace Limited

/-- The fields of `RegExpParser` as above, and two more that are not fields of
the class: `checks_`, the answers that the limits give to the calls of
`Advance` still to come (`ok` when the list is used up), and `reports_`, the
messages of the calls of `ReportError` so far, in the order of the calls. -/
structure RegExpParser where
  in_ : List Nat
  multiline_ : Bool
  error_ : Option String := none
  captures_ : Option (List (Option RegExpTree)) := none
  current_ : Nat := 2 ^ 21
  next_pos_ : Int := 0
  capture_count_ : Int := 0
  has_more_ : Bool := true
  simple_ : Bool := false
  contains_anchor_ : Bool := false
  is_scanned_for_captures_ : Bool := false
  failed_ : Bool := false
  FLAG_regexp_possessive_quantifier : Bool := false
  checks_ : List LimitCheck := []
  reports_ : List String := []

namespace RegExpParser

/-- The constant `RegExpParser::kEndMarker`. -/
def kEndMarker : Nat := 2 ^ 21

/-- The constant `RegExpParser::kMaxCaptures`. -/
def kMaxCaptures : Int := 2 ^ 16

/-- Modelled from the spec: `FlatStringReader::Get`, the code unit at an
index. -/
def Get (p : RegExpParser) (index : Int) : Nat := p.in_.getD index.toNat 0

/-- The accessor `has_next` of `parser.h`. -/
def has_next (p : RegExpParser) : Bool := decide (p.next_pos_ < p.in_.length)

/-- The accessor `position` of `parser.h`. -/
def position (p : RegExpParser) : Int := p.next_pos_ - 1

/-- The accessor `captures_started` of `parser.h`. -/
def captures_started (p : RegExpParser) : Int :=
  match p.captures_ with
  | none => 0
  | some captures => captures.length

/-- The function `RegExpParser::Next` (lines 4149-4155). -/
def Next (p : RegExpParser) : Nat :=
  if p.has_next then p.Get p.next_pos_ else kEndMarker

/-- The function `RegExpParser::ReportError` (lines 4192-4199); the message is
also added to `reports_`. -/
def ReportError (p : RegExpParser) (message : String) : RegExpParser :=
  { p with failed_ := true, error_ := some message, current_ := kEndMarker,
           next_pos_ := p.in_.length, reports_ := p.reports_ ++ [message] }

/-- The function `RegExpParser::Advance` (lines 4158-4173), with the two
limits: the answer is the head of `checks_`. -/
def Advance (p : RegExpParser) : RegExpParser :=
  if p.next_pos_ < p.in_.length then
    match p.checks_.headD LimitCheck.ok with
    | LimitCheck.stack_overflow =>
      ReportError { p with checks_ := p.checks_.tail } Top.kStackOverflowMessage
    | LimitCheck.excess_allocation =>
      ReportError { p with checks_ := p.checks_.tail } "Regular expression too large"
    | LimitCheck.ok =>
      { p with checks_ := p.checks_.tail, current_ := p.Get p.next_pos_,
               next_pos_ := p.next_pos_ + 1 }
  else
    { p with current_ := kEndMarker, has_more_ := false }

/-- The function `RegExpParser::Reset` (lines 4176-4179). -/
def Reset (p : RegExpParser) (pos : Int) : RegExpParser :=
  Advance { p with next_pos_ := pos }

/-- The function `RegExpParser::Advance(int dist)` (lines 4182-4185). -/
def AdvanceBy (p : RegExpParser) (dist : Int) : RegExpParser :=
  Advance { p with next_pos_ := p.next_pos_ + dist - 1 }

/-- The constructor (lines 4130-4146), for a run in which the limits answer
`checks`. -/
def New (input : List Nat) (multiline : Bool) (checks : List LimitCheck) : RegExpParser :=
  Advance { in_ := input, multiline_ := multiline, checks_ := checks }

end RegExpParser

/-- A member function of the parser: the result and the parser after the call,
or `none` when the recursion budget of the embedding is used up. -/
def RegExpM (α : Type) : Type := RegExpParser → Option (α × RegExpParser)

namespace RegExpM

/-- Returns a value and leaves the parser as it is. -/
def ret {α : Type} (a : α) : RegExpM α := fun p => some (a, p)

/-- Runs `m` and then `f` on its result. -/
def seq {α β : Type} (m : RegExpM α) (f : α → RegExpM β) : RegExpM β :=
  fun p =>
    match m p with
    | some (a, p1) => f a p1
    | none => none

instance : Monad RegExpM where
  pure := ret
  bind := seq

/-- The recursion budget is used up. -/
def out_of_fuel {α : Type} : RegExpM α := fun _ => none

/-- Reads the parser. -/
def read {α : Type} (f : RegExpParser → α) : RegExpM α := fun p => some (f p, p)

/-- Changes the parser. -/
def modify (f : RegExpParser → RegExpParser) : RegExpM Unit := fun p => some ((), f p)

end RegExpM

namespace RegExpParser

/-- The call `current()`. -/
def current : RegExpM Nat := RegExpM.read (fun p => p.current_)

/-- The inner loop of `ScanForCaptures` over a character class (lines
4607-4614). -/
def ScanForCaptures_class : Nat → RegExpM Unit
  | 0 => RegExpM.out_of_fuel
  | fuel + 1 => do
    let c ← current
    if c ≠ kEndMarker then do
      RegExpM.modify Advance
      if c = Ch.backslash then do
        RegExpM.modify Advance
        ScanForCaptures_class fuel
      else if c = Ch.rbrack then pure ()
      else ScanForCaptures_class fuel
    else pure ()

/-- The outer loop of `ScanForCaptures` (lines 4600-4621): the count. -/
def ScanForCaptures_loop : Nat → Int → RegExpM Int
  | 0, _ => RegExpM.out_of_fuel
  | fuel + 1, capture_count => do
    let n ← current
    if n ≠ kEndMarker then do
      RegExpM.modify Advance
      if n = Ch.backslash then do
        RegExpM.modify Advance
        ScanForCaptures_loop fuel capture_count
      else if n = Ch.lbrack then do
        ScanForCaptures_class fuel
        ScanForCaptures_loop fuel capture_count
      else if n = Ch.lparen then do
        let c ← current
        ScanForCaptures_loop fuel
          (if c ≠ Ch.question then wrapInt32 (capture_count + 1) else capture_count)
      else ScanForCaptures_loop fuel capture_count
    else pure capture_count

/-- The function `RegExpParser::ScanForCaptures` (lines 4594-4624). -/
def ScanForCaptures (fuel : Nat) : RegExpM Unit := do
  let started ← RegExpM.read captures_started
  let capture_count ← ScanForCaptures_loop fuel started
  RegExpM.modify (fun p =>
    { p with capture_count_ := capture_count, is_scanned_for_captures_ := true })

/-- The loop over the digits in `ParseBackReferenceIndex` (lines 4636-4648):
the value, or `none` after the reset of a value that is too large. -/
def ParseBackReferenceIndex_loop (start : Int) : Nat → Int → RegExpM (Option Int)
  | 0, _ => RegExpM.out_of_fuel
  | fuel + 1, value => do
    let c ← current
    if IsDecimalDigit c then
      let value := 10 * value + ((c : Int) - '0'.toNat)
      if value > kMaxCaptures then do
        RegExpM.modify (fun p => p.Reset start)
        pure none
      else do
        RegExpM.modify Advance
        ParseBackReferenceIndex_loop start fuel value
    else pure (some value)

/-- The function `RegExpParser::ParseBackReferenceIndex` (lines 4627-4661): the
value stored in `*index_out`, or `none` when the function returns false. -/
def ParseBackReferenceIndex (fuel : Nat) : RegExpM (Option Int) := do
  let start ← RegExpM.read position
  let first ← RegExpM.read Next
  RegExpM.modify (fun p => p.AdvanceBy 2)
  let r ← ParseBackReferenceIndex_loop start fuel ((first : Int) - '0'.toNat)
  match r with
  | none => pure none
  | some value => do
    let started ← RegExpM.read captures_started
    if value > started then do
      let scanned ← RegExpM.read (fun p => p.is_scanned_for_captures_)
      if !scanned then do
        let saved_position ← RegExpM.read position
        ScanForCaptures fuel
        RegExpM.modify (fun p => p.Reset saved_position)
      else pure ()
      let capture_count ← RegExpM.read (fun p => p.capture_count_)
      if value > capture_count then do
        RegExpM.modify (fun p => p.Reset start)
        pure none
      else pure (some value)
    else pure (some value)

/-- The loop `do Advance(); while (IsDecimalDigit(current()))` of
`ParseIntervalQuantifier` (lines 4685-4687 and 4706-4708). -/
def SkipDecimalDigits : Nat → RegExpM Unit
  | 0 => RegExpM.out_of_fuel
  | fuel + 1 => do
    RegExpM.modify Advance
    let c ← current
    if IsDecimalDigit c then SkipDecimalDigits fuel else pure ()

/-- A loop over decimal digits in `ParseIntervalQuantifier` (lines 4681-4693
and 4703-4714): the number read, `kInfinity` on overflow. -/
def ParseDecimalDigits : Nat → Int → RegExpM Int
  | 0, _ => RegExpM.out_of_fuel
  | fuel + 1, value => do
    let c ← current
    if IsDecimalDigit c then
      let next : Int := (c : Int) - '0'.toNat
      if value > (RegExpTree.kInfinity - next) / 10 then do
        SkipDecimalDigits fuel
        pure RegExpTree.kInfinity
      else do
        RegExpM.modify Advance
        ParseDecimalDigits fuel (10 * value + next)
    else pure value

/-- The function `RegExpParser::ParseIntervalQuantifier` (lines 4671-4728): the
values stored in `*min_out` and `*max_out`, or `none` when the function
returns false. -/
def ParseIntervalQuantifier (fuel : Nat) : RegExpM (Option (Int × Int)) := do
  let start ← RegExpM.read position
  RegExpM.modify Advance
  let c ← current
  if !IsDecimalDigit c then do
    RegExpM.modify (fun p => p.Reset start)
    pure none
  else do
    let min ← ParseDecimalDigits fuel 0
    let c ← current
    if c = Ch.rbrace then do
      RegExpM.modify Advance
      pure (some (min, min))
    else if c = Ch.comma then do
      RegExpM.modify Advance
      let c ← current
      if c = Ch.rbrace then do
        RegExpM.modify Advance
        pure (some (min, RegExpTree.kInfinity))
      else do
        let max ← ParseDecimalDigits fuel 0
        let c ← current
        if c ≠ Ch.rbrace then do
          RegExpM.modify (fun p => p.Reset start)
          pure none
        else do
          RegExpM.modify Advance
          pure (some (min, max))
    else do
      RegExpM.modify (fun p => p.Reset start)
      pure none

/-- Whether the code unit is an octal digit. -/
def IsOctalDigit (c : Nat) : Bool := decide ('0'.toNat ≤ c ∧ c ≤ '7'.toNat)

/-- The function `RegExpParser::ParseOctalLiteral` (lines 4731-4746). -/
def ParseOctalLiteral : RegExpM Int := do
  let c ← current
  let value : Int := (c : Int) - '0'.toNat
  RegExpM.modify Advance
  let c ← current
  if IsOctalDigit c then do
    let value := value * 8 + (c : Int) - '0'.toNat
    RegExpM.modify Advance
    let c ← current
    if value < 32 ∧ IsOctalDigit c then do
      let value := value * 8 + (c : Int) - '0'.toNat
      RegExpM.modify Advance
      pure value
    else pure value
  else pure value

/-- The loop of `ParseHexEscape` (lines 4752-4763), with `remaining` digits to
read: the value, or `none` after the reset at a character that is no digit. -/
def ParseHexEscape_loop (start : Int) : Nat → Int → RegExpM (Option Int)
  | 0, val => pure (some val)
  | remaining + 1, val => do
    let c ← current
    let d := HexValue c
    if d < 0 then do
      RegExpM.modify (fun p => p.Reset start)
      pure none
    else do
      RegExpM.modify Advance
      ParseHexEscape_loop start remaining (val * 16 + d)

/-- The function `RegExpParser::ParseHexEscape` (lines 4749-4767) for a
positive `length`: the value stored in `*value`, or `none` when the function
returns false. -/
def ParseHexEscape (length : Nat) : RegExpM (Option Int) := do
  let start ← RegExpM.read position
  ParseHexEscape_loop start length 0

end RegExpParser

namespace RegExpParser

/-- The statement `ReportError(message)` as a member call. -/
def Fail (message : String) : RegExpM Unit := RegExpM.modify (fun p => p.ReportError message)

/-- The code unit without the bit that tells a lower case letter from an upper
case one (`c & ~('a' ^ 'A')`). -/
def ClearCaseBit (c : Nat) : Nat := if c.testBit 5 then c - 32 else c

/-- The 16-bit code unit that a `uc32` value is converted to. -/
def ToUC16 (c : Int) : Nat := (c % 2 ^ 16).toNat

/-- The function `RegExpParser::ParseClassCharacterEscape` (lines
4771-4849). -/
def ParseClassCharacterEscape : RegExpM Int := do
  RegExpM.modify Advance
  let c ← current
  if c = 'b'.toNat then do
    RegExpM.modify Advance
    pure 8
  else if c = 'f'.toNat then do
    RegExpM.modify Advance
    pure 12
  else if c = 'n'.toNat then do
    RegExpM.modify Advance
    pure 10
  else if c = 'r'.toNat then do
    RegExpM.modify Advance
    pure 13
  else if c = 't'.toNat then do
    RegExpM.modify Advance
    pure 9
  else if c = 'v'.toNat then do
    RegExpM.modify Advance
    pure 11
  else if c = 'c'.toNat then do
    let controlLetter ← RegExpM.read Next
    let letter := ClearCaseBit controlLetter
    if ('0'.toNat ≤ controlLetter ∧ controlLetter ≤ '9'.toNat)
        ∨ controlLetter = Ch.underscore
        ∨ ('A'.toNat ≤ letter ∧ letter ≤ 'Z'.toNat) then do
      RegExpM.modify (fun p => p.AdvanceBy 2)
      pure ((controlLetter % 32 : Nat) : Int)
    else pure (Ch.backslash : Int)
  else if IsOctalDigit c then ParseOctalLiteral
  else if c = 'x'.toNat then do
    RegExpM.modify Advance
    let value ← ParseHexEscape 2
    match value with
    | some v => pure v
    | none => pure ('x'.toNat : Int)
  else if c = 'u'.toNat then do
    RegExpM.modify Advance
    let value ← ParseHexEscape 4
    match value with
    | some v => pure v
    | none => pure ('u'.toNat : Int)
  else do
    RegExpM.modify Advance
    pure (c : Int)

/-- Whether the code unit is the letter of a class escape (`d D s S w W`). -/
def IsClassEscapeLetter (c : Nat) : Bool :=
  c = 'd'.toNat || c = 'D'.toNat || c = 's'.toNat || c = 'S'.toNat
    || c = 'w'.toNat || c = 'W'.toNat

/-- The function `RegExpParser::ParseClassAtom` (lines 4852-4871): the range
and the value stored in `*char_class` (0 for none). -/
def ParseClassAtom : RegExpM (CharacterRange × Nat) := do
  let first ← current
  if first = Ch.backslash then do
    let next ← RegExpM.read Next
    if IsClassEscapeLetter next then do
      RegExpM.modify (fun p => p.AdvanceBy 2)
      pure (CharacterRange.Singleton 0, next)
    else if next = kEndMarker then do
      Fail "\x5c at end of pattern"
      pure (CharacterRange.Singleton 0, 0)
    else do
      let c ← ParseClassCharacterEscape
      let failed ← RegExpM.read (fun p => p.failed_)
      if failed then pure (CharacterRange.Singleton 0, 0)
      else pure (CharacterRange.Singleton (ToUC16 c), 0)
  else do
    RegExpM.modify Advance
    pure (CharacterRange.Singleton first, 0)

/-- The function `AddRangeOrEscape` (lines 4879-4887). -/
def AddRangeOrEscape (ranges : List CharacterRange) (char_class : Nat)
    (range : CharacterRange) : List CharacterRange :=
  if char_class ≠ 0 then ranges ++ [CharacterRange.ClassEscape char_class]
  else ranges ++ [range]

/-- The loop of `ParseCharacterClass` (lines 4903-4933), from the loop test:
the ranges at the exit of the loop, or `none` when the function has returned
`NULL` from inside the loop. -/
def ParseCharacterClass_loop : Nat → List CharacterRange →
    RegExpM (Option (List CharacterRange))
  | 0, _ => RegExpM.out_of_fuel
  | fuel + 1, ranges => do
    let has_more ← RegExpM.read (fun p => p.has_more_)
    let c ← current
    if has_more ∧ c ≠ Ch.rbrack then do
      let first ← ParseClassAtom
      let failed ← RegExpM.read (fun p => p.failed_)
      if failed then pure none
      else do
        let c ← current
        if c = Ch.minus then do
          RegExpM.modify Advance
          let c ← current
          if c = kEndMarker then pure (some ranges)
          else if c = Ch.rbrack then
            pure (some (AddRangeOrEscape ranges first.2 first.1
              ++ [CharacterRange.Singleton Ch.minus]))
          else do
            let next ← ParseClassAtom
            let failed ← RegExpM.read (fun p => p.failed_)
            if failed then pure none
            else if first.2 ≠ 0 ∨ next.2 ≠ 0 then
              ParseCharacterClass_loop fuel
                (AddRangeOrEscape
                  (AddRangeOrEscape ranges first.2 first.1
                    ++ [CharacterRange.Singleton Ch.minus])
                  next.2 next.1)
            else if first.1.from_of > next.1.to_of then do
              Fail "Range out of order in character class"
              pure none
            else
              ParseCharacterClass_loop fuel
                (ranges ++ [CharacterRange.Range first.1.from_of next.1.to_of])
        else ParseCharacterClass_loop fuel (AddRangeOrEscape ranges first.2 first.1)
    else pure (some ranges)

/-- The function `RegExpParser::ParseCharacterClass` (lines 4891-4943); `none`
is `NULL`. -/
def ParseCharacterClass (fuel : Nat) : RegExpM (Option RegExpTree) := do
  RegExpM.modify Advance
  let c ← current
  let is_negated : Bool := c = Ch.caret
  if is_negated then RegExpM.modify Advance else pure ()
  let r ← ParseCharacterClass_loop fuel []
  match r with
  | none => pure none
  | some ranges => do
    let has_more ← RegExpM.read (fun p => p.has_more_)
    if !has_more then do
      Fail "Unterminated character class"
      pure none
    else do
      RegExpM.modify Advance
      if ranges.length = 0 then
        pure (some (RegExpTree.CharacterClass [CharacterRange.Everything] (!is_negated)))
      else pure (some (RegExpTree.CharacterClass ranges is_negated))

/-- How one pass through the first `switch` of the loop of `ParseDisjunction`
ends: with a `return`, with `continue` or with `break`; the latter two with
the current state and the states below it. -/
inductive LoopOutcome
  | return_ (result : Option RegExpTree)
  | continue_ (state : RegExpParserState) (previous : List RegExpParserState)
  | break_ (state : RegExpParserState) (previous : List RegExpParserState)

/-- The case of the backslash in `ParseDisjunction` (lines 4358-4479), with
`builder` the current builder: `none` for a `return` of `NULL`, otherwise the
builder and whether the case ends with `break` (true) or `continue`
(false). -/
def ParseDisjunction_escape (fuel : Nat) (builder : RegExpBuilder) :
    RegExpM (Option (RegExpBuilder × Bool)) := do
  let next ← RegExpM.read Next
  if next = kEndMarker then do
    Fail "\x5c at end of pattern"
    pure none
  else if next = 'b'.toNat then do
    RegExpM.modify (fun p => p.AdvanceBy 2)
    pure (some (builder.AddAssertion (RegExpTree.Assertion RegExpAssertionType.BOUNDARY), false))
  else if next = 'B'.toNat then do
    RegExpM.modify (fun p => p.AdvanceBy 2)
    pure (some (builder.AddAssertion (RegExpTree.Assertion RegExpAssertionType.NON_BOUNDARY),
      false))
  else if IsClassEscapeLetter next then do
    RegExpM.modify (fun p => p.AdvanceBy 2)
    pure (some (builder.AddAtom
      (RegExpTree.CharacterClass [CharacterRange.ClassEscape next] false), true))
  else if '1'.toNat ≤ next ∧ next ≤ '9'.toNat then do
    let index ← ParseBackReferenceIndex fuel
    match index with
    | some index => do
      let captures ← RegExpM.read (fun p => p.captures_)
      let capture : Option RegExpTree :=
        match captures with
        | some list =>
          if index ≤ list.length then (list.getD (index - 1).toNat none) else none
        | none => none
      match capture with
      | none => pure (some (builder.AddEmpty, true))
      | some c => pure (some (builder.AddAtom (RegExpTree.BackReference c), true))
    | none => do
      let first_digit ← RegExpM.read Next
      if first_digit = '8'.toNat ∨ first_digit = '9'.toNat then do
        RegExpM.modify (fun p => p.AdvanceBy 2)
        pure (some (builder.AddCharacter first_digit, true))
      else do
        RegExpM.modify Advance
        let octal ← ParseOctalLiteral
        pure (some (builder.AddCharacter (ToUC16 octal), true))
  else if next = '0'.toNat then do
    RegExpM.modify Advance
    let octal ← ParseOctalLiteral
    pure (some (builder.AddCharacter (ToUC16 octal), true))
  else if next = 'f'.toNat then do
    RegExpM.modify (fun p => p.AdvanceBy 2)
    pure (some (builder.AddCharacter 12, true))
  else if next = 'n'.toNat then do
    RegExpM.modify (fun p => p.AdvanceBy 2)
    pure (some (builder.AddCharacter 10, true))
  else if next = 'r'.toNat then do
    RegExpM.modify (fun p => p.AdvanceBy 2)
    pure (some (builder.AddCharacter 13, true))
  else if next = 't'.toNat then do
    RegExpM.modify (fun p => p.AdvanceBy 2)
    pure (some (builder.AddCharacter 9, true))
  else if next = 'v'.toNat then do
    RegExpM.modify (fun p => p.AdvanceBy 2)
    pure (some (builder.AddCharacter 11, true))
  else if next = 'c'.toNat then do
    RegExpM.modify Advance
    let controlLetter ← RegExpM.read Next
    let letter := ClearCaseBit controlLetter
    if letter < 'A'.toNat ∨ 'Z'.toNat < letter then
      pure (some (builder.AddCharacter Ch.backslash, true))
    else do
      RegExpM.modify (fun p => p.AdvanceBy 2)
      pure (some (builder.AddCharacter (controlLetter % 32), true))
  else if next = 'x'.toNat then do
    RegExpM.modify (fun p => p.AdvanceBy 2)
    let value ← ParseHexEscape 2
    match value with
    | some v => pure (some (builder.AddCharacter (ToUC16 v), true))
    | none => pure (some (builder.AddCharacter 'x'.toNat, true))
  else if next = 'u'.toNat then do
    RegExpM.modify (fun p => p.AdvanceBy 2)
    let value ← ParseHexEscape 4
    match value with
    | some v => pure (some (builder.AddCharacter (ToUC16 v), true))
    | none => pure (some (builder.AddCharacter 'u'.toNat, true))
  else do
    RegExpM.modify (fun p => p.AdvanceBy 2)
    pure (some (builder.AddCharacter next, true))

/-- The case of `)` in `ParseDisjunction` (lines 4242-4279), after the test of
`IsSubexpression`: `below` is the state that becomes current again. -/
def ParseDisjunction_close (state below : RegExpParserState)
    (previous : List RegExpParserState) : RegExpM LoopOutcome := do
  RegExpM.modify Advance
  let body := state.builder_.ToRegExp.1
  let end_capture_index ← RegExpM.read captures_started
  let capture_index := state.disjunction_capture_index_
  let type := state.group_type_
  if type = SubexpressionType.CAPTURE then do
    let capture := RegExpTree.Capture body capture_index
    RegExpM.modify (fun p =>
      { p with captures_ := p.captures_.map (fun list =>
          list.set (capture_index - 1).toNat (some capture)) })
    pure (LoopOutcome.break_ { below with builder_ := below.builder_.AddAtom capture } previous)
  else if type ≠ SubexpressionType.GROUPING then
    let is_positive : Bool := type = SubexpressionType.POSITIVE_LOOKAHEAD
    let lookahead := RegExpTree.Lookahead body is_positive
      (wrapInt32 (end_capture_index - capture_index)) capture_index
    pure (LoopOutcome.break_ { below with builder_ := below.builder_.AddAtom lookahead }
      previous)
  else
    pure (LoopOutcome.break_ { below with builder_ := below.builder_.AddAtom body } previous)

/-- The case of `(` in `ParseDisjunction` (lines 4318-4352). -/
def ParseDisjunction_open (state : RegExpParserState) (previous : List RegExpParserState) :
    RegExpM LoopOutcome := do
  RegExpM.modify Advance
  let c ← current
  if c = Ch.question then do
    let next ← RegExpM.read Next
    let type : Option SubexpressionType :=
      if next = Ch.colon then some SubexpressionType.GROUPING
      else if next = Ch.equals then some SubexpressionType.POSITIVE_LOOKAHEAD
      else if next = Ch.bang then some SubexpressionType.NEGATIVE_LOOKAHEAD
      else none
    match type with
    | none => do
      Fail "Invalid group"
      pure (LoopOutcome.return_ none)
    | some type => do
      RegExpM.modify (fun p => p.AdvanceBy 2)
      let started ← RegExpM.read captures_started
      pure (LoopOutcome.continue_
        { group_type_ := type, disjunction_capture_index_ := started } (state :: previous))
  else do
    RegExpM.modify (fun p => { p with captures_ := some (p.captures_.getD []) })
    let started ← RegExpM.read captures_started
    if started ≥ kMaxCaptures then do
      Fail "Too many captures"
      pure (LoopOutcome.return_ none)
    else do
      RegExpM.modify (fun p => { p with captures_ := p.captures_.map (fun list => list ++ [none]) })
      let started ← RegExpM.read captures_started
      pure (LoopOutcome.continue_
        { group_type_ := SubexpressionType.CAPTURE, disjunction_capture_index_ := started }
        (state :: previous))

/-- The case of `[` in `ParseDisjunction` (lines 4353-4357). -/
def ParseDisjunction_class (fuel : Nat) (state : RegExpParserState)
    (previous : List RegExpParserState) : RegExpM LoopOutcome := do
  let atom ← ParseCharacterClass fuel
  let failed ← RegExpM.read (fun p => p.failed_)
  match failed, atom with
  | false, some atom =>
    pure (LoopOutcome.break_ { state with builder_ := state.builder_.AddAtom atom } previous)
  | _, _ => pure (LoopOutcome.return_ none)

/-- The case of the backslash in `ParseDisjunction` (lines 4358-4479), with the
state that holds the builder. -/
def ParseDisjunction_backslash (fuel : Nat) (state : RegExpParserState)
    (previous : List RegExpParserState) : RegExpM LoopOutcome := do
  let r ← ParseDisjunction_escape fuel state.builder_
  match r with
  | none => pure (LoopOutcome.return_ none)
  | some (builder, true) => pure (LoopOutcome.break_ { state with builder_ := builder } previous)
  | some (builder, false) =>
    pure (LoopOutcome.continue_ { state with builder_ := builder } previous)

/-- One pass through the first `switch` of the loop of `ParseDisjunction`
(lines 4233-4493). -/
def ParseDisjunction_step (fuel : Nat) (state : RegExpParserState)
    (previous : List RegExpParserState) : RegExpM LoopOutcome := do
  let builder := state.builder_
  let c ← current
  if c = kEndMarker then
    match previous with
    | _ :: _ => do
      Fail "Unterminated group"
      pure (LoopOutcome.return_ none)
    | [] => pure (LoopOutcome.return_ (some builder.ToRegExp.1))
  else if c = Ch.rparen then
    match previous with
    | [] => do
      Fail "Unmatched \x27)\x27"
      pure (LoopOutcome.return_ none)
    | below :: rest => ParseDisjunction_close state below rest
  else if c = Ch.bar then do
    RegExpM.modify Advance
    pure (LoopOutcome.continue_ { state with builder_ := builder.NewAlternative } previous)
  else if c = Ch.star ∨ c = Ch.plus ∨ c = Ch.question then do
    Fail "Nothing to repeat"
    pure (LoopOutcome.return_ none)
  else if c = Ch.caret then do
    RegExpM.modify Advance
    let multiline ← RegExpM.read (fun p => p.multiline_)
    if multiline then
      pure (LoopOutcome.continue_
        { state with builder_ :=
            builder.AddAssertion (RegExpTree.Assertion RegExpAssertionType.START_OF_LINE) }
        previous)
    else do
      RegExpM.modify (fun p => { p with contains_anchor_ := true })
      pure (LoopOutcome.continue_
        { state with builder_ :=
            builder.AddAssertion (RegExpTree.Assertion RegExpAssertionType.START_OF_INPUT) }
        previous)
  else if c = Ch.dollar then do
    RegExpM.modify Advance
    let multiline ← RegExpM.read (fun p => p.multiline_)
    let type :=
      if multiline then RegExpAssertionType.END_OF_LINE else RegExpAssertionType.END_OF_INPUT
    pure (LoopOutcome.continue_
      { state with builder_ := builder.AddAssertion (RegExpTree.Assertion type) } previous)
  else if c = Ch.dot then do
    RegExpM.modify Advance
    pure (LoopOutcome.break_
      { state with builder_ :=
          builder.AddAtom (RegExpTree.CharacterClass [CharacterRange.ClassEscape Ch.dot] false) }
      previous)
  else if c = Ch.lparen then ParseDisjunction_open state previous
  else if c = Ch.lbrack then ParseDisjunction_class fuel state previous
  else if c = Ch.backslash then ParseDisjunction_backslash fuel state previous
  else if c = Ch.lbrace then do
    let quantifier ← ParseIntervalQuantifier fuel
    match quantifier with
    | some _ => do
      Fail "Nothing to repeat"
      pure (LoopOutcome.return_ none)
    | none => do
      let c ← current
      RegExpM.modify Advance
      pure (LoopOutcome.break_ { state with builder_ := builder.AddCharacter c } previous)
  else do
    RegExpM.modify Advance
    pure (LoopOutcome.break_ { state with builder_ := builder.AddCharacter c } previous)

/-- The second `switch` of the loop of `ParseDisjunction` and the statements
behind it (lines 4495-4545): `none` for a `return` of `NULL`, otherwise the
builder with which the loop goes on. -/
def ParseDisjunction_quantifier (fuel : Nat) (builder : RegExpBuilder) :
    RegExpM (Option RegExpBuilder) := do
  let c ← current
  let bounds : Option (Option (Int × Int)) ←
    if c = Ch.star then do
      RegExpM.modify Advance
      pure (some (some (0, RegExpTree.kInfinity)))
    else if c = Ch.plus then do
      RegExpM.modify Advance
      pure (some (some (1, RegExpTree.kInfinity)))
    else if c = Ch.question then do
      RegExpM.modify Advance
      pure (some (some (0, 1)))
    else if c = Ch.lbrace then do
      let quantifier ← ParseIntervalQuantifier fuel
      match quantifier with
      | some (min, max) =>
        if max < min then do
          Fail "numbers out of order in \x7b\x7d quantifier."
          pure none
        else pure (some (some (min, max)))
      | none => pure (some none)
    else pure (some none)
  match bounds with
  | none => pure none
  | some none => pure (some builder)
  | some (some (min, max)) => do
    let c ← current
    let possessive ← RegExpM.read (fun p => p.FLAG_regexp_possessive_quantifier)
    if c = Ch.question then do
      RegExpM.modify Advance
      pure (some (builder.AddQuantifierToAtom min max RegExpQuantifierType.NON_GREEDY))
    else if possessive ∧ c = Ch.plus then do
      RegExpM.modify Advance
      pure (some (builder.AddQuantifierToAtom min max RegExpQuantifierType.POSSESSIVE))
    else pure (some (builder.AddQuantifierToAtom min max RegExpQuantifierType.GREEDY))

/-- The loop of `ParseDisjunction` (lines 4232-4545), from its start. -/
def ParseDisjunction_loop : Nat → RegExpParserState → List RegExpParserState →
    RegExpM (Option RegExpTree)
  | 0, _, _ => RegExpM.out_of_fuel
  | fuel + 1, state, previous => do
    let outcome ← ParseDisjunction_step fuel state previous
    match outcome with
    | LoopOutcome.return_ result => pure result
    | LoopOutcome.continue_ state previous => ParseDisjunction_loop fuel state previous
    | LoopOutcome.break_ state previous => do
      let builder ← ParseDisjunction_quantifier fuel state.builder_
      match builder with
      | none => pure none
      | some builder => ParseDisjunction_loop fuel { state with builder_ := builder } previous

/-- The function `RegExpParser::ParseDisjunction` (lines 4226-4546). -/
def ParseDisjunction (fuel : Nat) : RegExpM (Option RegExpTree) :=
  ParseDisjunction_loop fuel
    { group_type_ := SubexpressionType.INITIAL, disjunction_capture_index_ := 0 } []

/-- The function `RegExpParser::ParsePattern` (lines 4204-4213). -/
def ParsePattern (fuel : Nat) : RegExpM (Option RegExpTree) := do
  let result ← ParseDisjunction fuel
  let failed ← RegExpM.read (fun p => p.failed_)
  match failed, result with
  | false, some tree => do
    let length ← RegExpM.read (fun p => p.in_.length)
    match tree with
    | RegExpTree.Atom data =>
      if data.length = length then RegExpM.modify (fun p => { p with simple_ := true })
      else pure ()
    | _ => pure ()
    pure (some tree)
  | _, _ => pure none

end RegExpParser

/-- The function `RegExpParser::ParseRegExp` (lines 5066-5085): the value
returned, the compile data, and the parser object at the end; `none` when the
recursion budget of the embedding is used up. -/
def ParseRegExp (fuel : Nat) (input : List Nat) (multiline : Bool)
    (checks : List LimitCheck) : Option (Bool × RegExpCompileData × RegExpParser) :=
  match RegExpParser.ParsePattern fuel (RegExpParser.New input multiline checks) with
  | none => none
  | some (tree, parser) =>
    if parser.failed_ then
      some (false, { error := parser.error_ }, parser)
    else
      let capture_count := parser.captures_started
      some (true,
        { tree := tree,
          simple := (match tree with
                     | some t => t.IsAtom
                     | none => false) && parser.simple_ && capture_count = 0,
          contains_anchor := parser.contains_anchor_,
          capture_count := capture_count },
        parser)

end Limited

/-- The pattern `(ab)`. -/
def pattern_group_ab : List Nat := pattern "(ab)"

/-- The pattern `a{1}b`. -/
def pattern_interval_then_b : List Nat := pattern "a\x7b1\x7db"

/-! ## The two finders of `ParseSourceElements` (lines 829-1083)

The loop of `ParseSourceElements` passes every statement that it adds to
`processor` to `InitializationBlockFinder::Update` (in a global scope) and to
`ThisNamedPropertyAssigmentFinder::Update` (in a function scope).  The finders
are embedded here on the statements they are fed. -/

/-- An `Assignment*` held by a finder: the assignment node of the statement
with the number `node` among the statements fed (the number stands for the
address of the node), with the operator, the target and the value. -/
structure AssignmentRef where
  node : Nat
  op : Token
  target : Expression
  value : Expression

namespace ParserFinder

/-- The function `ParserFinder::AsAssignment` (lines 835-840), for the
statement with the number `node`; `none` is `NULL`. -/
def AsAssignment (node : Nat) : Option Statement → Option AssignmentRef
  | some (Statement.ExpressionStatement (Expression.Assignment op target value _)) =>
    some { node := node, op := op, target := target, value := value }
  | _ => none

end ParserFinder

/-- The fields of `InitializationBlockFinder` (lines 936-938), and the marks
set so far: the numbers of the statements on whose assignment
`mark_block_start` and `mark_block_end` has been called, in the order of the
calls. -/
structure InitializationBlockFinder where
  first_in_block_ : Option AssignmentRef := none
  last_in_block_ : Option AssignmentRef := none
  block_size_ : Int := 0
  block_start_marks : List Nat := []
  block_end_marks : List Nat := []

namespace InitializationBlockFinder

/-- The constant `kMinInitializationBlock`. -/
def kMinInitializationBlock : Int := 3

/-- The function `SameObject` (lines 875-895). -/
def SameObject : Expression → Expression → Bool
  | Expression.VariableProxy _ name1 _ _ _, Expression.VariableProxy _ name2 _ _ _ =>
    name1 == name2
  | Expression.Property obj1 key1 _, Expression.Property obj2 key2 _ =>
    match key1, key2 with
    | Expression.Literal (Value.string name1), Expression.Literal (Value.string name2) =>
      if name1 ≠ name2 then false else SameObject obj1 obj2
    | _, _ => false
  | _, _ => false

/-- The function `PropertyOfSameObject` (lines 899-904). -/
def PropertyOfSameObject : Expression → Expression → Bool
  | Expression.Property obj1 _ _, Expression.Property obj2 _ _ => SameObject obj1 obj2
  | _, _ => false

/-- The function `InBlock` (line 934). -/
def InBlock (f : InitializationBlockFinder) : Bool := f.first_in_block_.isSome

/-- The function `BlockContinues` (lines 906-911). -/
def BlockContinues (f : InitializationBlockFinder) (assignment : Option AssignmentRef) : Bool :=
  match assignment, f.first_in_block_ with
  | some a, some first =>
    if a.op ≠ Token.ASSIGN then false else PropertyOfSameObject first.target a.target
  | _, _ => false

/-- The function `StartBlock` (lines 913-917). -/
def StartBlock (f : InitializationBlockFinder) (assignment : AssignmentRef) :
    InitializationBlockFinder :=
  { f with first_in_block_ := some assignment, last_in_block_ := some assignment,
           block_size_ := 1 }

/-- The function `UpdateBlock` (lines 919-922). -/
def UpdateBlock (f : InitializationBlockFinder) (assignment : AssignmentRef) :
    InitializationBlockFinder :=
  { f with last_in_block_ := some assignment, block_size_ := f.block_size_ + 1 }

/-- The function `EndBlock` (lines 924-931). -/
def EndBlock (f : InitializationBlockFinder) : InitializationBlockFinder :=
  let marked : InitializationBlockFinder :=
    if f.block_size_ ≥ kMinInitializationBlock then
      { f with
        block_start_marks := f.block_start_marks ++ (f.first_in_block_.map (fun a => a.node)).toList,
        block_end_marks := f.block_end_marks ++ (f.last_in_block_.map (fun a => a.node)).toList }
    else f
  { marked with last_in_block_ := none, first_in_block_ := none, block_size_ := 0 }

/-- The function `InitializationBlockFinder::Update` (lines 855-868), for the
statement with the number `node`. -/
def Update (f : InitializationBlockFinder) (node : Nat) (stat : Option Statement) :
    InitializationBlockFinder :=
  let assignment := ParserFinder.AsAssignment node stat
  let f1 : InitializationBlockFinder :=
    if f.InBlock then
      match assignment with
      | some a => if f.BlockContinues assignment then f.UpdateBlock a else f.EndBlock
      | none => f.EndBlock
    else f
  match assignment with
  | some a => if !f1.InBlock && a.op = Token.ASSIGN then f1.StartBlock a else f1
  | none => f1

/-- The destructor (lines 851-853). -/
def destroy (f : InitializationBlockFinder) : InitializationBlockFinder :=
  if f.InBlock then f.EndBlock else f

/-- The calls of `Update` for the statements of a list in turn, the first of
them having the number `node`. -/
def feed : InitializationBlockFinder → Nat → List (Option Statement) → InitializationBlockFinder
  | f, _, [] => f
  | f, node, stat :: rest => feed (f.Update node stat) (node + 1) rest

/-- The marks that a new finder has set when it has been fed the statements
and destroyed: the numbers of the statements marked as block start, and of
those marked as block end. -/
def marks (statements : List (Option Statement)) : List Nat × List Nat :=
  let f := (feed {} 0 statements).destroy
  (f.block_start_marks, f.block_end_marks)

/-! ### Initialization blocks in the words of the specification -/

/-- The statement is a plain `=` assignment expression statement. -/
def isPlainAssignment : Option Statement → Bool
  | some (Statement.ExpressionStatement (Expression.Assignment op _ _ _)) => op = Token.ASSIGN
  | _ => false

/-- Both statements are plain `=` assignments, and their targets are
properties of the same object. -/
def continuesRun : Option Statement → Option Statement → Bool
  | some (Statement.ExpressionStatement (Expression.Assignment op1 target1 _ _)),
    some (Statement.ExpressionStatement (Expression.Assignment op2 target2 _ _)) =>
    op1 = Token.ASSIGN && op2 = Token.ASSIGN && PropertyOfSameObject target1 target2
  | _, _ => false

/-- The runs of a list of statements whose first statement has the number
`node`, each as the numbers of its first and its last statement: a run starts
at a plain assignment and goes on as long as the statements continue it; the
statement that breaks a run is the next to be looked at. -/
def runs : Nat → List (Option Statement) → List (Nat × Nat)
  | _, [] => []
  | node, stat :: rest =>
    if isPlainAssignment stat then
      (node, node + (rest.takeWhile (continuesRun stat)).length)
        :: runs (node + (rest.takeWhile (continuesRun stat)).length + 1)
            (rest.drop (rest.takeWhile (continuesRun stat)).length)
    else runs (node + 1) rest
termination_by _ statements => statements.length
decreasing_by
  all_goals simp_wf
  all_goals omega

/-- The runs of at least three statements. -/
def blocks (statements : List (Option Statement)) : List (Nat × Nat) :=
  (runs 0 statements).filter (fun r => decide (3 ≤ r.2 + 1 - r.1))

/-- The marks of a list of runs: the first and the last statement of every run
of at least three statements. -/
def marksOf (rs : List (Nat × Nat)) : List Nat × List Nat :=
  ((rs.filter (fun r => decide (3 ≤ r.2 + 1 - r.1))).map (fun r => r.1),
   (rs.filter (fun r => decide (3 ≤ r.2 + 1 - r.1))).map (fun r => r.2))

/-- The marks of a finder. -/
def marksSet (f : InitializationBlockFinder) : List Nat × List Nat :=
  (f.block_start_marks, f.block_end_marks)

/-- The finder is in the block that the statement `first` with the number `i`
has started and that goes up to the statement with the number `j`. -/
structure InBlockOf (f : InitializationBlockFinder) (first : Option Statement) (i j : Nat) :
    Prop where
  plain : isPlainAssignment first = true
  first_eq : ∃ a, ParserFinder.AsAssignment i first = some a ∧ f.first_in_block_ = some a
  last_eq : ∃ b, f.last_in_block_ = some b ∧ b.node = j
  size_eq : f.block_size_ = (j : Int) + 1 - i
  le : i ≤ j

/-- The marks of two lists of runs, one after the other. -/
def appendMarks (m1 m2 : List Nat × List Nat) : List Nat × List Nat :=
  (m1.1 ++ m2.1, m1.2 ++ m2.2)

end InitializationBlockFinder

/-- The fields of `ThisNamedPropertyAssigmentFinder` (lines 1079-1082); `none`
is `NULL`. -/
structure ThisNamedPropertyAssigmentFinder where
  only_simple_this_property_assignments_ : Bool := true
  names_ : Option (List String) := none
  assigned_arguments_ : Option (List Int) := none
  assigned_constants_ : Option (List Value) := none

namespace ThisNamedPropertyAssigmentFinder

/-- The function `IsThisPropertyAssignment` (lines 1001-1010). -/
def IsThisPropertyAssignment : Option AssignmentRef → Bool
  | some a =>
    match a.target with
    | Expression.Property (Expression.VariableProxy _ _ is_this _ _) _ _ =>
      a.op = Token.ASSIGN && is_this
    | _ => false
  | none => false

/-- The function `EnsureAllocation` (lines 1069-1077). -/
def EnsureAllocation (f : ThisNamedPropertyAssigmentFinder) : ThisNamedPropertyAssigmentFinder :=
  match f.names_ with
  | none => { f with names_ := some [], assigned_arguments_ := some [],
                     assigned_constants_ := some [] }
  | some _ => f

/-- The method `ZoneList::Add` on a list that may be `NULL`. -/
def addTo {α : Type} (list : Option (List α)) (a : α) : Option (List α) :=
  list.map (fun l => l ++ [a])

/-- The function `AssignmentFromParameter` (lines 1050-1055). -/
def AssignmentFromParameter (f : ThisNamedPropertyAssigmentFinder) (name : String) (index : Int) :
    ThisNamedPropertyAssigmentFinder :=
  let f1 := f.EnsureAllocation
  { f1 with names_ := addTo f1.names_ name,
            assigned_arguments_ := addTo f1.assigned_arguments_ index,
            assigned_constants_ := addTo f1.assigned_constants_ Value.undefined_value }

/-- The function `AssignmentFromConstant` (lines 1057-1062). -/
def AssignmentFromConstant (f : ThisNamedPropertyAssigmentFinder) (name : String)
    (value : Value) : ThisNamedPropertyAssigmentFinder :=
  let f1 := f.EnsureAllocation
  { f1 with names_ := addTo f1.names_ name,
            assigned_arguments_ := addTo f1.assigned_arguments_ (-1),
            assigned_constants_ := addTo f1.assigned_constants_ value }

/-- The function `AssignmentFromSomethingElse` (lines 1064-1067). -/
def AssignmentFromSomethingElse (f : ThisNamedPropertyAssigmentFinder) :
    ThisNamedPropertyAssigmentFinder :=
  { f with only_simple_this_property_assignments_ := false }

/-- The loop over the parameters of lines 1037-1043, from the parameter with
the number `i`: the number of the first parameter with the name. -/
def findParameter (name : String) : List Variable → Int → Option Int
  | [], _ => none
  | parameter :: rest, i => if parameter.name = name then some i else findParameter name rest (i + 1)

/-- Modelled from the spec: `Heap::Proto_symbol`, the symbol `__proto__`. -/
def Proto_symbol : String := "__proto__"

/-- The function `HandleThisPropertyAssignment` (lines 1012-1048);
`AsArrayIndex` is `String::AsArrayIndex` of `objects.cc`. -/
def HandleThisPropertyAssignment (AsArrayIndex : String → Option Nat)
    (f : ThisNamedPropertyAssigmentFinder) (scope : Scope) (assignment : AssignmentRef) :
    ThisNamedPropertyAssigmentFinder :=
  match assignment.target with
  | Expression.Property _ (Expression.Literal (Value.string key)) _ =>
    if key ≠ Proto_symbol ∧ (AsArrayIndex key).isNone = true then
      match assignment.value with
      | Expression.Literal handle => f.AssignmentFromConstant key handle
      | Expression.VariableProxy _ name _ _ _ =>
        match findParameter name scope.params_ 0 with
        | some i => f.AssignmentFromParameter key i
        | none => f.AssignmentFromSomethingElse
      | _ => f.AssignmentFromSomethingElse
    else f.AssignmentFromSomethingElse
  | _ => f.AssignmentFromSomethingElse

/-- The function `ThisNamedPropertyAssigmentFinder::Update` (lines 957-972),
for the statement with the number `node`. -/
def Update (AsArrayIndex : String → Option Nat) (f : ThisNamedPropertyAssigmentFinder)
    (scope : Scope) (node : Nat) (stat : Option Statement) : ThisNamedPropertyAssigmentFinder :=
  if !f.only_simple_this_property_assignments_ then f
  else
    match ParserFinder.AsAssignment node stat with
    | some assignment =>
      if IsThisPropertyAssignment (some assignment) then
        HandleThisPropertyAssignment AsArrayIndex f scope assignment
      else { f with only_simple_this_property_assignments_ := false }
    | none => { f with only_simple_this_property_assignments_ := false }

/-- The calls of `Update` for the statements of a list in turn, the first of
them having the number `node`. -/
def feed (AsArrayIndex : String → Option Nat) (scope : Scope) :
    ThisNamedPropertyAssigmentFinder → Nat → List (Option Statement) →
      ThisNamedPropertyAssigmentFinder
  | f, _, [] => f
  | f, node, stat :: rest =>
    feed AsArrayIndex scope (Update AsArrayIndex f scope node stat) (node + 1) rest

end ThisNamedPropertyAssigmentFinder

/-! ### Statements for the examples -/

/-- The statement `obj.name = 1;`. -/
def assignProperty (obj name : String) : Option Statement :=
  some (Statement.ExpressionStatement
    (Expression.Assignment Token.ASSIGN
      (Expression.Property (Expression.VariableProxy 0 obj false false none)
        (Expression.Literal (Value.string name)) 0)
      (Expression.Literal (Value.number (JSNumber.exact 1))) 0))

/-- The statement `obj.name += 1;`. -/
def addToProperty (obj name : String) : Option Statement :=
  some (Statement.ExpressionStatement
    (Expression.Assignment Token.ASSIGN_ADD
      (Expression.Property (Expression.VariableProxy 0 obj false false none)
        (Expression.Literal (Value.string name)) 0)
      (Expression.Literal (Value.number (JSNumber.exact 1))) 0))

/-- The statement `name = 1;`. -/
def assignVariable (name : String) : Option Statement :=
  some (Statement.ExpressionStatement
    (Expression.Assignment Token.ASSIGN (Expression.VariableProxy 0 name false false none)
      (Expression.Literal (Value.number (JSNumber.exact 1))) 0))

/-- The items of a list written one after the other with a `,` between two
neighbours: `(item (, item)*)?`. -/
def commaSeparated : List (List Token) → List Token
  | [] => []
  | [item] => item
  | item :: next :: rest => item ++ Token.COMMA :: commaSeparated (next :: rest)

/-- The member `string : value` of an object. -/
def jsonMember (value : List Token) : List Token :=
  Token.STRING :: Token.COLON :: value

/-- The grammar `value ::= string | number | true | false | null |
{ (string : value (, string : value)*)? } | [ (value (, value)*)? ]` on
sequences of tokens. -/
inductive JsonGrammar : List Token → Prop
  | string : JsonGrammar [Token.STRING]
  | number : JsonGrammar [Token.NUMBER]
  | true_literal : JsonGrammar [Token.TRUE_LITERAL]
  | false_literal : JsonGrammar [Token.FALSE_LITERAL]
  | null_literal : JsonGrammar [Token.NULL_LITERAL]
  | object (values : List (List Token)) (h : ∀ value ∈ values, JsonGrammar value) :
    JsonGrammar (Token.LBRACE :: commaSeparated (values.map jsonMember) ++ [Token.RBRACE])
  | array (values : List (List Token)) (h : ∀ value ∈ values, JsonGrammar value) :
    JsonGrammar (Token.LBRACK :: commaSeparated values ++ [Token.RBRACK])

/-- The tokens of a source up to the end of input: the scanner returns `EOS`
at the end of the text. -/
def tokensToEnd (source : List TokenDesc) : List Token :=
  (source.map (fun t => t.token)).takeWhile (fun t => decide (t ≠ Token.EOS))

/-- The tokens that the scanner of the JSON parser has not returned yet. -/
def JsonParser.rest (p : JsonParser) : List Token :=
  p.scanner_.source.map (fun t => t.token)

/-- The productions accept only texts of the grammar: a production that
returns a value has consumed a value of the grammar, and a loop that returns
has consumed the remaining members or elements and the closing bracket. -/
structure JsonProductions.Sound (table : JsonProductions) : Prop where
  value : ∀ p v q, table.ParseJsonValue p = (some v, q) →
    ∃ ts, JsonGrammar ts ∧ p.rest = ts ++ q.rest
  object_loop : ∀ json_object p v q, table.ParseJsonObject_loop json_object p = (some v, q) →
    ∃ value values, (∀ x ∈ value :: values, JsonGrammar x) ∧
      p.rest = commaSeparated ((value :: values).map jsonMember) ++ Token.RBRACE :: q.rest
  array_loop : ∀ elements p v q, table.ParseJsonArray_loop elements p = (some v, q) →
    ∃ value values, (∀ x ∈ value :: values, JsonGrammar x) ∧
      p.rest = commaSeparated (value :: values) ++ Token.RBRACK :: q.rest

/-- The parser `q` holds what the parser `p` holds of the answer of the
environment, of the flag `stack_overflow_` and of what is handed to `Top`. -/
def JsonParser.Untouched (p q : JsonParser) : Prop :=
  q.stack_limit_hit = p.stack_limit_hit ∧ q.stack_overflow_ = p.stack_overflow_
    ∧ q.thrown = p.thrown ∧ q.stack_overflow_thrown = p.stack_overflow_thrown

/-- The productions leave alone what the parser hands to `Top`, and set
`stack_overflow_` only when the stack limit is hit. -/
structure JsonProductions.Quiet (table : JsonProductions) : Prop where
  value : ∀ p : JsonParser, p.stack_limit_hit = false → p.Untouched (table.ParseJsonValue p).2
  object_loop : ∀ (json_object : JsonObject) (p : JsonParser), p.stack_limit_hit = false →
    p.Untouched (table.ParseJsonObject_loop json_object p).2
  array_loop : ∀ (elements : JsonList) (p : JsonParser), p.stack_limit_hit = false →
    p.Untouched (table.ParseJsonArray_loop elements p).2

/-- A token description of a kind, for the examples. -/
def tokenOf (token : Token) : TokenDesc := { token := token, location := ⟨0, 0⟩ }

/-- The tokens of the text `[1,]`. -/
def json_comma_before_rbrack : List TokenDesc :=
  [Token.LBRACK, Token.NUMBER, Token.COMMA, Token.RBRACK].map tokenOf

/-- The tokens of the text `{"a":1,}`. -/
def json_comma_before_rbrace : List TokenDesc :=
  [Token.LBRACE, Token.STRING, Token.COLON, Token.NUMBER, Token.COMMA, Token.RBRACE].map tokenOf

/-- The tokens of the text `{1:2}`. -/
def json_number_key : List TokenDesc :=
  [Token.LBRACE, Token.NUMBER, Token.COLON, Token.NUMBER, Token.RBRACE].map tokenOf

/-- The tokens of the text `undefined` as the JavaScript scanner returns it;
the JSON scanner returns `ILLEGAL` for an identifier that is none of the
three literals. -/
def json_identifier : List TokenDesc := [Token.IDENTIFIER].map tokenOf

/-- The tokens of an identifier as the JSON scanner returns it. -/
def json_illegal : List TokenDesc := [Token.ILLEGAL].map tokenOf

/-- The tokens of the text `1 2`. -/
def json_token_after_value : List TokenDesc := [Token.NUMBER, Token.NUMBER].map tokenOf

/-- The tokens of the text `{"a":[1,true,null],"b":{}}`. -/
def json_nested : List TokenDesc :=
  [Token.LBRACE, Token.STRING, Token.COLON, Token.LBRACK, Token.NUMBER, Token.COMMA,
   Token.TRUE_LITERAL, Token.COMMA, Token.NULL_LITERAL, Token.RBRACK, Token.COMMA,
   Token.STRING, Token.COLON, Token.LBRACE, Token.RBRACE, Token.RBRACE].map tokenOf

/-- The parser accepts the tokens `ts` as a value: with a recursion budget of
their number, `ParseJsonValue` returns a value and has read exactly them. -/
def JsonParser.Accepts (ts : List Token) : Prop :=
  ∀ (fuel : Nat) (p : JsonParser) (rest : List Token), ts.length ≤ fuel →
    p.rest = ts ++ rest → p.stack_limit_hit = false →
    ∃ v q, (JsonParser.productions fuel).ParseJsonValue p = (some v, q) ∧ q.rest = rest

/-! ## The indices of the materialized literals -/

/-- The history and the count of the accumulator of the function that is
being parsed: the indices that `NextMaterializedLiteralIndex` has returned for
it, and `materialized_literal_count_`. -/
def Parser.literals (p : Parser) : List Int × Int :=
  (p.temp_scope.literal_indices_, p.temp_scope.materialized_literal_count_)

/-- The indices handed out are `kLiteralsPrefixSize`, `kLiteralsPrefixSize + 1`,
... in turn, and the count is their number, both as `int` values. -/
def Numbered (l : List Int × Int) : Prop :=
  l.1 = (List.range l.1.length).map (fun i : Nat => wrapInt32 ((i : Int) + kLiteralsPrefixSize))
    ∧ l.2 = wrapInt32 (l.1.length : Int)

/-- From the parser `p` to the parser `q` the accumulator only hands out
further indices, and they continue the numbering. -/
def Parser.Numbers (p q : Parser) : Prop :=
  p.literals.1 <+: q.literals.1 ∧ (Numbered p.literals → Numbered q.literals)

/-- The production only hands out further indices of the accumulator it is
called with, and they continue the numbering. -/
structure Production.Numbers {α : Type} (m : Production α) : Prop where
  numbers : ∀ p : Parser, Parser.Numbers p (m p).2

/-- Every production of the table only hands out further indices, which
continue the numbering. -/
structure Productions.Number (table : Productions) : Prop where
  ParseStatement : ∀ a, (table.ParseStatement a).Numbers
  ParseSourceElements_loop : ∀ a b c, (table.ParseSourceElements_loop a b c).Numbers
  ParseBlock_loop : ∀ a, (table.ParseBlock_loop a).Numbers
  ParseCaseClause_loop : ∀ a, (table.ParseCaseClause_loop a).Numbers
  ParseSwitchStatement_loop : ∀ a b, (table.ParseSwitchStatement_loop a b).Numbers
  ParseVariableDeclarations_loop :
    ∀ a b c d e, (table.ParseVariableDeclarations_loop a b c d e).Numbers
  ParseFunctionLiteral_params :
    ∀ a b c d, (table.ParseFunctionLiteral_params a b c d).Numbers
  ParseFunctionLiteral : ∀ a b c d, (table.ParseFunctionLiteral a b c d).Numbers
  ParseExpression : ∀ a, (table.ParseExpression a).Numbers
  ParseExpression_loop : ∀ a b, (table.ParseExpression_loop a b).Numbers
  ParseAssignmentExpression : ∀ a, (table.ParseAssignmentExpression a).Numbers
  ParseBinaryExpression : ∀ a b, (table.ParseBinaryExpression a b).Numbers
  ParseBinaryExpression_for : ∀ a b c d, (table.ParseBinaryExpression_for a b c d).Numbers
  ParseBinaryExpression_while : ∀ a b c, (table.ParseBinaryExpression_while a b c).Numbers
  ParseUnaryExpression : table.ParseUnaryExpression.Numbers
  ParseNewPrefix : ∀ a, (table.ParseNewPrefix a).Numbers
  ParseLeftHandSideExpression_loop :
    ∀ a, (table.ParseLeftHandSideExpression_loop a).Numbers
  ParseMemberWithNewPrefixesExpression_loop :
    ∀ a b, (table.ParseMemberWithNewPrefixesExpression_loop a b).Numbers
  ParseArguments_loop : ∀ a, (table.ParseArguments_loop a).Numbers
  ParseArrayLiteral_loop : ∀ a, (table.ParseArrayLiteral_loop a).Numbers
  ParseObjectLiteral_loop : ∀ a b, (table.ParseObjectLiteral_loop a b).Numbers

mutual

/-- The indices of the array, object and regular-expression literals of an
expression that are not inside a nested function literal, each literal after
the literals among its elements or property values. -/
def Expression.literalIndices : Expression → List Int
  | Expression.Literal _ => []
  | Expression.VariableProxy _ _ _ _ _ => []
  | Expression.Property obj key _ => obj.literalIndices ++ key.literalIndices
  | Expression.Call expression arguments _ =>
    expression.literalIndices ++ arguments.literalIndices
  | Expression.CallNew expression arguments _ =>
    expression.literalIndices ++ arguments.literalIndices
  | Expression.CallRuntime _ arguments => arguments.literalIndices
  | Expression.UnaryOperation _ expression => expression.literalIndices
  | Expression.CountOperation _ _ expression _ => expression.literalIndices
  | Expression.BinaryOperation _ left right _ => left.literalIndices ++ right.literalIndices
  | Expression.CompareOperation _ left right _ => left.literalIndices ++ right.literalIndices
  | Expression.CompareToNull _ expression => expression.literalIndices
  | Expression.Conditional c t e _ _ => c.literalIndices ++ t.literalIndices ++ e.literalIndices
  | Expression.Assignment _ target value _ => target.literalIndices ++ value.literalIndices
  | Expression.Throw exception _ => exception.literalIndices
  | Expression.FunctionLiteral _ _ _ _ _ _ _ _ _ _ _ _ => []
  | Expression.ArrayLiteral values literal_index _ _ => values.literalIndices ++ [literal_index]
  | Expression.ObjectLiteral properties literal_index _ _ _ =>
    properties.literalIndices ++ [literal_index]
  | Expression.RegExpLiteral _ _ literal_index => [literal_index]
  | Expression.ThisFunction => []
  | Expression.CatchExtensionObject key value => key.literalIndices ++ value.literalIndices

/-- The indices of the literals of the expressions of a list, in turn. -/
def ExpressionList.literalIndices : ExpressionList → List Int
  | ExpressionList.nil => []
  | ExpressionList.cons head tail => head.literalIndices ++ tail.literalIndices

/-- The indices of the literals of the value of a property. -/
def ObjectProperty.literalIndices : ObjectProperty → List Int
  | ObjectProperty.mk _ value _ => value.literalIndices

/-- The indices of the literals of the values of the properties of a list, in
turn. -/
def ObjectPropertyList.literalIndices : ObjectPropertyList → List Int
  | ObjectPropertyList.nil => []
  | ObjectPropertyList.cons head tail => head.literalIndices ++ tail.literalIndices

/-- The indices of the literals of a statement that are not inside a nested
function literal, in the order of the text. -/
def Statement.literalIndices : Statement → List Int
  | Statement.Block _ _ _ statements => statements.literalIndices
  | Statement.ExpressionStatement expression => expression.literalIndices
  | Statement.EmptyStatement => []
  | Statement.IfStatement c t e => c.literalIndices ++ t.literalIndices ++ e.literalIndices
  | Statement.DoWhileStatement _ _ cond body _ => body.literalIndices ++ cond.literalIndices
  | Statement.WhileStatement _ _ cond body => cond.literalIndices ++ body.literalIndices
  | Statement.ForStatement _ _ init cond next body =>
    init.literalIndices ++ cond.literalIndices ++ next.literalIndices ++ body.literalIndices
  | Statement.ForInStatement _ _ each enumerable body =>
    each.literalIndices ++ enumerable.literalIndices ++ body.literalIndices
  | Statement.ContinueStatement _ => []
  | Statement.BreakStatement _ => []
  | Statement.ReturnStatement expression => expression.literalIndices
  | Statement.WithEnterStatement expression _ => expression.literalIndices
  | Statement.WithExitStatement => []
  | Statement.SwitchStatement _ _ tag cases => tag.literalIndices ++ cases.literalIndices
  | Statement.TryCatchStatement try_block catch_var catch_block _ =>
    try_block.literalIndices ++ catch_var.literalIndices ++ catch_block.literalIndices
  | Statement.TryFinallyStatement try_block finally_block _ =>
    try_block.literalIndices ++ finally_block.literalIndices
  | Statement.DebuggerStatement => []

/-- The indices of the literals of the statements of a list, in turn. -/
def StatementList.literalIndices : StatementList → List Int
  | StatementList.nil => []
  | StatementList.cons head tail => head.literalIndices ++ tail.literalIndices

/-- The indices of the literals of a case clause. -/
def CaseClause.literalIndices : CaseClause → List Int
  | CaseClause.mk label statements _ => label.literalIndices ++ statements.literalIndices

/-- The indices of the literals of the clauses of a list, in turn. -/
def CaseClauseList.literalIndices : CaseClauseList → List Int
  | CaseClauseList.nil => []
  | CaseClauseList.cons head tail => head.literalIndices ++ tail.literalIndices

end

/-- The body and the literal count of a function literal. -/
def Expression.functionLiterals : Expression → Option (List Int × Int)
  | Expression.FunctionLiteral _ _ body count _ _ _ _ _ _ _ _ => some (body.literalIndices, count)
  | _ => none

/-- The function literals that a statement list holds as the value of an
assignment statement `name = function ...`. -/
def StatementList.assignedFunctions : StatementList → List (List Int × Int)
  | StatementList.nil => []
  | StatementList.cons (Statement.ExpressionStatement (Expression.Assignment _ _ value _)) tail =>
    match value.functionLiterals with
    | some r => r :: tail.assignedFunctions
    | none => tail.assignedFunctions
  | StatementList.cons _ tail => tail.assignedFunctions

/-- The function literals assigned in the body of a function literal. -/
def Expression.assignedFunctions : Expression → List (List Int × Int)
  | Expression.FunctionLiteral _ _ body _ _ _ _ _ _ _ _ _ => body.assignedFunctions
  | _ => []

/-- The scanned tokens of the text `[[1],[2]]; f = function(){ [3,[4]]; }; [5];`
(44 characters). -/
def source_nested_literals : List TokenDesc :=
  [tk Token.LBRACK 0 1, tk Token.LBRACK 1 2, tkNumber 1 2 3, tk Token.RBRACK 3 4,
   tk Token.COMMA 4 5, tk Token.LBRACK 5 6, tkNumber 2 6 7, tk Token.RBRACK 7 8,
   tk Token.RBRACK 8 9, tk Token.SEMICOLON 9 10, tkIdentifier "f" 11 12, tk Token.ASSIGN 13 14,
   tk Token.FUNCTION 15 23, tk Token.LPAREN 23 24, tk Token.RPAREN 24 25, tk Token.LBRACE 25 26,
   tk Token.LBRACK 27 28, tkNumber 3 28 29, tk Token.COMMA 29 30, tk Token.LBRACK 30 31,
   tkNumber 4 31 32, tk Token.RBRACK 32 33, tk Token.RBRACK 33 34, tk Token.SEMICOLON 34 35,
   tk Token.RBRACE 36 37, tk Token.SEMICOLON 37 38, tk Token.LBRACK 39 40, tkNumber 5 40 41,
   tk Token.RBRACK 41 42, tk Token.SEMICOLON 42 43]

/-- The scanned tokens of the text `[1]++; [2];` (11 characters), in which the
first literal is no valid operand and the tree holds a throw in its place. -/
def source_dropped_literal : List TokenDesc :=
  [tk Token.LBRACK 0 1, tkNumber 1 1 2, tk Token.RBRACK 2 3, tk Token.INC 3 5,
   tk Token.SEMICOLON 5 6, tk Token.LBRACK 7 8, tkNumber 2 8 9, tk Token.RBRACK 9 10,
   tk Token.SEMICOLON 10 11]

/-- A token `/` at which a regular-expression literal with the given pattern
and flags starts. -/
def tkRegExp (pattern flags : String) (beg_pos end_pos : Int) : TokenDesc :=
  { token := Token.DIV, location := ⟨beg_pos, end_pos⟩, regexp_pattern := some pattern,
    regexp_flags := flags }

/-- The scanned tokens of the text
`[{a: /x/}]; f = function(){ return {b: [/y/]}; }; /z/;` (54 characters),
with the three kinds of literal in a script and in a function. -/
def source_three_kinds : List TokenDesc :=
  [tk Token.LBRACK 0 1, tk Token.LBRACE 1 2, tkIdentifier "a" 2 3, tk Token.COLON 3 4,
   tkRegExp "x" "" 5 8, tk Token.RBRACE 8 9, tk Token.RBRACK 9 10, tk Token.SEMICOLON 10 11,
   tkIdentifier "f" 12 13, tk Token.ASSIGN 14 15, tk Token.FUNCTION 16 24,
   tk Token.LPAREN 24 25, tk Token.RPAREN 25 26, tk Token.LBRACE 26 27,
   tk Token.RETURN 28 34, tk Token.LBRACE 35 36, tkIdentifier "b" 36 37, tk Token.COLON 37 38,
   tk Token.LBRACK 39 40, tkRegExp "y" "" 40 43, tk Token.RBRACK 43 44, tk Token.RBRACE 44 45,
   tk Token.SEMICOLON 45 46, tk Token.RBRACE 47 48, tk Token.SEMICOLON 48 49,
   tkRegExp "z" "" 50 53, tk Token.SEMICOLON 53 54]

/-! ## The members of a JSON object and where they are stored -/

/-- The members that the loop of `ParseJsonObject` (lines 4061-4085) reads
from `p` up to the closing brace, at the recursion budget `fuel`: the key of
each member and the value that `ParseJsonValue` returns for it, in turn. -/
inductive JsonParser.ReadsMembers :
    Nat → JsonParser → List (String × JsonValue) → JsonParser → Prop
  | last (fuel : Nat) (p p3 : JsonParser) (value : JsonValue) :
      (JsonParser.Next p).1 = Token.STRING →
      (JsonParser.Next (JsonParser.Next p).2).1 = Token.COLON →
      (JsonParser.productions fuel).ParseJsonValue (JsonParser.Next (JsonParser.Next p).2).2
        = (some value, p3) →
      (JsonParser.Next p3).1 ≠ Token.COMMA →
      (JsonParser.Next p3).2.scanner_.current_.token = Token.RBRACE →
      JsonParser.ReadsMembers fuel p [(JsonParser.GetString (JsonParser.Next p).2, value)]
        (JsonParser.Next p3).2
  | more (fuel : Nat) (p p3 q : JsonParser) (value : JsonValue)
      (rest : List (String × JsonValue)) :
      (JsonParser.Next p).1 = Token.STRING →
      (JsonParser.Next (JsonParser.Next p).2).1 = Token.COLON →
      (JsonParser.productions (fuel + 1)).ParseJsonValue
        (JsonParser.Next (JsonParser.Next p).2).2 = (some value, p3) →
      (JsonParser.Next p3).1 = Token.COMMA →
      JsonParser.ReadsMembers fuel (JsonParser.Next p3).2 rest q →
      JsonParser.ReadsMembers (fuel + 1) p
        ((JsonParser.GetString (JsonParser.Next p).2, value) :: rest) q

/-- The rule of the specification for one member: a key that is an array
index gives an own element, the key `__proto__` sets the prototype, and every
other key gives an own property. -/
def JsonObject.withMember (o : JsonObject) (key : String) (value : JsonValue) : JsonObject :=
  if (AsArrayIndex key).isSome then o.SetOwnElement ((AsArrayIndex key).getD 0) value
  else if key = "__proto__" then o.SetPrototype value
  else o.SetLocalPropertyIgnoreAttributes key value

/-- The object after the members have been stored in turn by the rule. -/
def JsonObject.withMembers (o : JsonObject) (members : List (String × JsonValue)) :
    JsonObject :=
  members.foldl (fun acc m => acc.withMember m.1 m.2) o

/-- The value of the last member that satisfies `test`. -/
def lastMember (test : String → JsonValue → Bool) :
    List (String × JsonValue) → Option JsonValue
  | [] => none
  | m :: rest =>
    match lastMember test rest with
    | some v => some v
    | none => if test m.1 m.2 then some m.2 else none

/-- Modelled from the spec: the values that `SetPrototype` accepts ("if
possible"): an object, an array or null. -/
def JsonValue.canBePrototype : JsonValue → Bool
  | JsonValue.object _ => true
  | JsonValue.array _ => true
  | JsonValue.null_value => true
  | _ => false

/-- The scanned tokens of the text `{"7":1,"a":2,"__proto__":null,"a":3}`. -/
def jsonIndexExample : List TokenDesc :=
  [ { token := Token.LBRACE, location := ⟨0, 1⟩ },
    { token := Token.STRING, location := ⟨1, 4⟩, literal := "7" },
    { token := Token.COLON, location := ⟨4, 5⟩ },
    { token := Token.NUMBER, location := ⟨5, 6⟩, number := JSNumber.exact 1 },
    { token := Token.COMMA, location := ⟨6, 7⟩ },
    { token := Token.STRING, location := ⟨7, 10⟩, literal := "a" },
    { token := Token.COLON, location := ⟨10, 11⟩ },
    { token := Token.NUMBER, location := ⟨11, 12⟩, number := JSNumber.exact 2 },
    { token := Token.COMMA, location := ⟨12, 13⟩ },
    { token := Token.STRING, location := ⟨13, 24⟩, literal := "__proto__" },
    { token := Token.COLON, location := ⟨24, 25⟩ },
    { token := Token.NULL_LITERAL, location := ⟨25, 29⟩ },
    { token := Token.COMMA, location := ⟨29, 30⟩ },
    { token := Token.STRING, location := ⟨30, 33⟩, literal := "a" },
    { token := Token.COLON, location := ⟨33, 34⟩ },
    { token := Token.NUMBER, location := ⟨34, 35⟩, number := JSNumber.exact 3 },
    { token := Token.RBRACE, location := ⟨35, 36⟩ } ]

/-- The object that the text `{"7":1,"a":2,"__proto__":null,"a":3}` denotes:
own element 7 = 1, own property `a = 3`, prototype null. -/
def jsonIndexExpected : JsonValue :=
  JsonValue.object
    (JsonObject.mk
      (JsonElements.cons 7 (JsonValue.number (JSNumber.exact 1)) JsonElements.nil)
      (JsonProperties.cons "a" (JsonValue.number (JSNumber.exact 3)) JsonProperties.nil)
      (JsonPrototype.value JsonValue.null_value))

/-! ## The two paths of `ParseFunctionLiteral` -/

/-- The parser object with which the block of `ParseFunctionLiteral` starts
(lines 3476-3481): the new function scope is the current scope and the
accumulator is new. -/
def Parser.enterFunction (p : Parser) : Parser :=
  { p with
    next_id := p.next_id + 3,
    top_scope_ := some (Scope.New p.top_scope_ ScopeType.FUNCTION_SCOPE p.inside_with p.next_id),
    outer_scopes_ :=
      match p.top_scope_ with
      | some s => s :: p.outer_scopes_
      | none => p.outer_scopes_,
    with_nesting_level_ := 0,
    temp_scope_ := some
      { strict_mode_ :=
          match p.temp_scope_ with
          | some parent => parent.strict_mode_
          | none => false } }

/-- The statements of `ParseFunctionLiteral` from the scope name to the
declaration of the function variable (lines 3482-3541): the start position,
the parameters with the locations kept for the strict-mode reports, and the
statement list of the body as it is before the body is read. -/
def ParseFunctionLiteral_header (self : Productions) (name function_name : String) :
    Production (Int × (Int × Location × Location × Location) × StatementList) := do
  Production.modify (fun p => p.set_top_scope { p.top_scope with scope_name_ := name })
  Expect Token.LPAREN
  let start_pos ← location_beg_pos
  let tok ← peek
  let params ←
    if tok = Token.RPAREN then
      pure (0, Location.NoLocation, Location.NoLocation, Location.NoLocation)
    else
      ParseFunctionLiteral_params self 0 Location.NoLocation Location.NoLocation
        Location.NoLocation
  Expect Token.RPAREN
  Expect Token.LBRACE
  let body : StatementList ←
    if function_name.length > 0 then
      Production.step (fun p =>
        let fvar := p.top_scope.DeclareFunctionVar function_name p.next_id
        let fproxy := Expression.VariableProxy (p.next_id + 1) function_name false
          p.inside_with (some fvar.1)
        (StatementList.cons
          (Statement.ExpressionStatement
            (Expression.Assignment Token.INIT_CONST fproxy Expression.ThisFunction
              kNoPosition))
          StatementList.nil,
         { p.set_top_scope { fvar.2 with unresolved_ := fvar.2.unresolved_ ++ [p.next_id + 1] }
           with next_id := p.next_id + 2 }))
    else pure StatementList.nil
  pure (start_pos, params, body)

/-- The value of `is_lazily_compiled` (lines 3545-3548). -/
def Parser.is_lazily_compiled (p : Parser) : Bool :=
  decide (p.mode_ = ParseMode.PARSE_LAZILY)
    && (match p.outer_scopes_.head? with
        | some outer => outer.is_global_scope
        | none => false)
    && p.HasTrivialOuterContext
    && !p.parenthesized_function_

/-- The name and the function name that `ParseFunctionLiteral` computes from
its arguments (lines 3462-3473). -/
def functionNames (var_name : Option String) (type : FunctionLiteralType) : String × String :=
  (var_name.getD "",
   if var_name.isSome ∧ (type = FunctionLiteralType.EXPRESSION ∨ type = FunctionLiteralType.NESTED)
   then var_name.getD "" else "")

/-- The parser object of `ParseFunctionLiteral` behind the opening brace of
the body, where the path is chosen. -/
def Parser.atFunctionBody (self : Productions) (var_name : Option String)
    (type : FunctionLiteralType) (p : Parser) : Parser :=
  (ParseFunctionLiteral_header self (functionNames var_name type).1
    (functionNames var_name type).2 p.enterFunction).2

/-- The literal count, the property count and the end position of a function
literal. -/
def Expression.functionCounts : Expression → Option (Int × Int × Int)
  | Expression.FunctionLiteral _ _ _ literals properties _ _ end_position _ _ _ _ =>
    some (literals, properties, end_position)
  | _ => none

/-- The statements of `ParseFunctionLiteral` behind the header (lines
3543-3640): the choice of the path, the body, the strict-mode validation and
the function literal. -/
def ParseFunctionLiteral_finish (self : Productions) (name function_name : String)
    (scope_id : Nat) (name_is_reserved : Bool) (function_token_position : Int)
    (hd : Int × (Int × Location × Location × Location) × StatementList) :
    Production Expression := do
  let is_lazily_compiled ← Production.read Parser.is_lazily_compiled
  Production.modify (fun p => { p with parenthesized_function_ := false })
  let function_block_pos ← location_beg_pos
  let pre_data ← Production.read (fun p => p.pre_data_)
  let r : StatementList × Int × Int × Int ←
    match is_lazily_compiled, pre_data with
    | true, some data => do
      let counts ← ParseFunctionLiteral_lazy name function_block_pos data
      pure (hd.2.2, counts)
    | _, _ => ParseFunctionLiteral_eager self hd.2.2
  ValidateStrictFunction name name_is_reserved function_token_position hd.1 r.2.2.2
    hd.2.1.2.1 hd.2.1.2.2.1 hd.2.1.2.2.2
  let temp_scope ← Production.read Parser.temp_scope
  pure (Expression.FunctionLiteral name scope_id r.1 r.2.1 r.2.2.1 hd.2.1.1 hd.1
    r.2.2.2 (decide (function_name.length > 0)) (decide (temp_scope.loop_count_ > 0))
    temp_scope.strict_mode_ function_token_position)

/-! ## Diagnostics: what a production may report -/

/-- What the caller gets to see of a failure: the diagnostics thrown so far,
the flag `stack_overflow_`, and whether `Top::StackOverflow` has been
called. -/
def Parser.reported (p : Parser) : List ParserMessage × Bool × Bool :=
  (p.messages, p.stack_overflow_, p.stack_overflow_thrown)

/-- What a call may report, from the parser object `p` before the call (on
which the stack has not overflowed) to the parser object `q` after it: a call
that leaves `*ok` set has reported nothing and the stack has not overflowed; a
call that clears `*ok` has either reported exactly one diagnostic, the stack
not having overflowed, or it has reported nothing and the stack has
overflowed.  No call calls `Top::StackOverflow`. -/
def Parser.Diagnosed (p : Parser) : Bool → Parser → Prop
  | true, q => q.reported = (p.messages, false, p.stack_overflow_thrown)
  | false, q =>
    (∃ x, q.reported = (p.messages ++ [x], false, p.stack_overflow_thrown))
      ∨ q.reported = (p.messages, true, p.stack_overflow_thrown)

/-- The production reports nothing when it succeeds, and when it fails it
reports one diagnostic or the stack has overflowed (see `Parser.Diagnosed`). -/
structure Production.Reports {α : Type} (m : Production α) : Prop where
  reports : ∀ p : Parser, p.stack_overflow_ = false →
    Parser.Diagnosed p (m p).1.isSome (m p).2

/-- Every production of the table reports nothing when it succeeds, and when
it fails it reports one diagnostic or the stack has overflowed. -/
structure Productions.Report (table : Productions) : Prop where
  ParseStatement : ∀ a, (table.ParseStatement a).Reports
  ParseSourceElements_loop : ∀ a b c, (table.ParseSourceElements_loop a b c).Reports
  ParseBlock_loop : ∀ a, (table.ParseBlock_loop a).Reports
  ParseCaseClause_loop : ∀ a, (table.ParseCaseClause_loop a).Reports
  ParseSwitchStatement_loop : ∀ a b, (table.ParseSwitchStatement_loop a b).Reports
  ParseVariableDeclarations_loop :
    ∀ a b c d e, (table.ParseVariableDeclarations_loop a b c d e).Reports
  ParseFunctionLiteral_params :
    ∀ a b c d, (table.ParseFunctionLiteral_params a b c d).Reports
  ParseFunctionLiteral : ∀ a b c d, (table.ParseFunctionLiteral a b c d).Reports
  ParseExpression : ∀ a, (table.ParseExpression a).Reports
  ParseExpression_loop : ∀ a b, (table.ParseExpression_loop a b).Reports
  ParseAssignmentExpression : ∀ a, (table.ParseAssignmentExpression a).Reports
  ParseBinaryExpression : ∀ a b, (table.ParseBinaryExpression a b).Reports
  ParseBinaryExpression_for : ∀ a b c d, (table.ParseBinaryExpression_for a b c d).Reports
  ParseBinaryExpression_while : ∀ a b c, (table.ParseBinaryExpression_while a b c).Reports
  ParseUnaryExpression : table.ParseUnaryExpression.Reports
  ParseNewPrefix : ∀ a, (table.ParseNewPrefix a).Reports
  ParseLeftHandSideExpression_loop :
    ∀ a, (table.ParseLeftHandSideExpression_loop a).Reports
  ParseMemberWithNewPrefixesExpression_loop :
    ∀ a b, (table.ParseMemberWithNewPrefixesExpression_loop a b).Reports
  ParseArguments_loop : ∀ a, (table.ParseArguments_loop a).Reports
  ParseArrayLiteral_loop : ∀ a, (table.ParseArrayLiteral_loop a).Reports
  ParseObjectLiteral_loop : ∀ a b, (table.ParseObjectLiteral_loop a b).Reports

/-! ## The parser with its stack guard

The code that sets `stack_overflow_` is not among the sources.  The
specification places the guard at the recursive descent steps: "Every
recursive descent step checks a stack-depth/resource guard; exceeding it
aborts the parse immediately, unwinding all the way to the top-level driver,
which records a fatal stack-overflow condition distinct from ordinary syntax
errors."  The recursive descent steps of the embedding are the calls of the
productions of the table, so the table below takes the depth of the stack
that the guard allows: the number of nested calls of productions of the
table. -/

namespace Limited

/-- Modelled from the spec: a recursive descent step at which the stack guard
is exceeded: `stack_overflow_` is set and the step returns `NULL`. -/
def StackOverflow {α : Type} : Production α :=
  fun p => (none, { p with stack_overflow_ := true })

/-- The productions when the stack guard allows `depth` nested recursive
descent steps; with no depth left the guard is exceeded. -/
def productions : Nat → Productions
  | 0 =>
    { ParseStatement := fun _ => StackOverflow,
      ParseSourceElements_loop := fun _ _ _ => StackOverflow,
      ParseBlock_loop := fun _ => StackOverflow,
      ParseCaseClause_loop := fun _ => StackOverflow,
      ParseSwitchStatement_loop := fun _ _ => StackOverflow,
      ParseVariableDeclarations_loop := fun _ _ _ _ _ => StackOverflow,
      ParseFunctionLiteral_params := fun _ _ _ _ => StackOverflow,
      ParseFunctionLiteral := fun _ _ _ _ => StackOverflow,
      ParseExpression := fun _ => StackOverflow,
      ParseExpression_loop := fun _ _ => StackOverflow,
      ParseAssignmentExpression := fun _ => StackOverflow,
      ParseBinaryExpression := fun _ _ => StackOverflow,
      ParseBinaryExpression_for := fun _ _ _ _ => StackOverflow,
      ParseBinaryExpression_while := fun _ _ _ => StackOverflow,
      ParseUnaryExpression := StackOverflow,
      ParseNewPrefix := fun _ => StackOverflow,
      ParseLeftHandSideExpression_loop := fun _ => StackOverflow,
      ParseMemberWithNewPrefixesExpression_loop := fun _ _ => StackOverflow,
      ParseArguments_loop := fun _ => StackOverflow,
      ParseArrayLiteral_loop := fun _ => StackOverflow,
      ParseObjectLiteral_loop := fun _ _ => StackOverflow }
  | depth + 1 =>
    { ParseStatement := ParseStatement (productions depth),
      ParseSourceElements_loop := ParseSourceElements_loop (productions depth),
      ParseBlock_loop := ParseBlock_loop (productions depth),
      ParseCaseClause_loop := ParseCaseClause_loop (productions depth),
      ParseSwitchStatement_loop := ParseSwitchStatement_loop (productions depth),
      ParseVariableDeclarations_loop := ParseVariableDeclarations_loop (productions depth),
      ParseFunctionLiteral_params := ParseFunctionLiteral_params (productions depth),
      ParseFunctionLiteral := ParseFunctionLiteral (productions depth),
      ParseExpression := ParseExpression (productions depth),
      ParseExpression_loop := ParseExpression_loop (productions depth),
      ParseAssignmentExpression := ParseAssignmentExpression (productions depth),
      ParseBinaryExpression := ParseBinaryExpression (productions depth),
      ParseBinaryExpression_for := ParseBinaryExpression_for (productions depth),
      ParseBinaryExpression_while := ParseBinaryExpression_while (productions depth),
      ParseUnaryExpression := ParseUnaryExpression (productions depth),
      ParseNewPrefix := ParseNewPrefix (productions depth),
      ParseLeftHandSideExpression_loop := ParseLeftHandSideExpression_loop (productions depth),
      ParseMemberWithNewPrefixesExpression_loop :=
        ParseMemberWithNewPrefixesExpression_loop (productions depth),
      ParseArguments_loop := fun result => ParseArguments_loop (productions depth) result false,
      ParseArrayLiteral_loop := ParseArrayLiteral_loop (productions depth),
      ParseObjectLiteral_loop := ParseObjectLiteral_loop (productions depth) }

/-- The statement `else if (stack_overflow_) Top::StackOverflow();` of
`DoParseProgram` (lines 692-693) behind the body: when the body has failed and
the stack has overflowed, `Top::StackOverflow` is called. -/
def orStackOverflow {α : Type} (body : Production α) : Production α := fun p =>
  match body p with
  | (some a, q) => (some a, q)
  | (none, q) =>
    (none, if q.stack_overflow_ then { q with stack_overflow_thrown := true } else q)

/-- The function `Parser::DoParseProgram` (lines 645-704) with the stack guard,
on a parser whose scanner has been initialised. -/
def DoParseProgram (depth : Nat) (p : Parser) (source_length : Int)
    (in_global_context : Bool) (strict_mode : Bool) : Option Expression × Parser :=
  let p1 : Parser :=
    { p with
      pre_data_ := p.pre_data_.map ScriptDataImpl.Initialize,
      mode_ :=
        if p.allow_natives_syntax_ then ParseMode.PARSE_EAGERLY
        else if p.FLAG_lazy then ParseMode.PARSE_LAZILY else ParseMode.PARSE_EAGERLY }
  let type : ScopeType :=
    if in_global_context then ScopeType.GLOBAL_SCOPE else ScopeType.EVAL_SCOPE
  let scope := Scope.New p1.top_scope_ type p1.inside_with p1.next_id
  (withLexicalScope scope (withTemporaryScope (orStackOverflow (do
    if strict_mode then Production.modify Parser.EnableStrictMode else pure ()
    let beg_loc ← location_beg_pos
    let body ← ParseSourceElements (productions depth) StatementList.nil Token.EOS
    let strict ← Production.read Parser.StrictMode
    let end_pos ← Production.read (fun q => q.scanner_.location.end_pos)
    if strict then CheckOctalLiteral beg_loc end_pos else pure ()
    let temp_scope ← Production.read Parser.temp_scope
    pure (Expression.FunctionLiteral "" scope.id body
      temp_scope.materialized_literal_count_ temp_scope.expected_property_count_
      0 0 source_length false (decide (temp_scope.loop_count_ > 0))
      temp_scope.strict_mode_ kNoPosition)))))
    { p1 with next_id := p1.next_id + 3 }

/-- The function `Parser::ParseProgram` (lines 618-642) with the stack guard, on
the scanned tokens of the source, for a parser without preparse data. -/
def ParseProgram (depth : Nat) (source : List TokenDesc) (source_length : Int)
    (in_global_context : Bool) (strict_mode : Bool) : Option Expression × Parser :=
  DoParseProgram depth { scanner_ := Scanner.Initialize source } source_length
    in_global_context strict_mode

end Limited

/-- The scanned tokens of the text `(((1)));` (8 characters), which takes four
nested recursive descent steps. -/
def source_nested_parentheses : List TokenDesc :=
  [tk Token.LPAREN 0 1, tk Token.LPAREN 1 2, tk Token.LPAREN 2 3, tkNumber 1 3 4,
   tk Token.RPAREN 4 5, tk Token.RPAREN 5 6, tk Token.RPAREN 6 7, tk Token.SEMICOLON 7 8]

/-! ## Theorems: preparse data -/

theorem toInt32_of_lt (w : Nat) (h : w < 2 ^ 31) : toInt32 w = (w : Int) := by
  unfold toInt32
  have h1 : w % 2 ^ 32 = w := Nat.mod_eq_of_lt (by omega)
  rw [h1, if_pos h]

theorem wrapInt32_of_range (i : Int) (h1 : -(2 ^ 31) ≤ i) (h2 : i < 2 ^ 31) :
    wrapInt32 i = i := by
  unfold wrapInt32 toInt32
  have h3 : (0 : Int) ≤ i % 2 ^ 32 := Int.emod_nonneg _ (by norm_num)
  have h4 : i % 2 ^ 32 < 2 ^ 32 := Int.emod_lt_of_pos _ (by norm_num)
  have h5 : ((i % 2 ^ 32).toNat : Int) = i % 2 ^ 32 := Int.toNat_of_nonneg h3
  have h6 : (i % 2 ^ 32).toNat % 2 ^ 32 = (i % 2 ^ 32).toNat := by
    apply Nat.mod_eq_of_lt
    omega
  rw [h6]
  split_ifs with h7
  · omega
  · omega

example : ScriptDataImpl.SanityCheck ⟨[0xBadDead, 6, 0, 0x7FFFFFFC, 0, 0], 0, []⟩ = some true := by rfl

theorem GetFunctionEntry_eq_of_entryAt (d : ScriptDataImpl) (start : Int)
    (hlen : d.store_.length + FunctionEntry.kSize < 2 ^ 31)
    (h : d.EntryAt start) :
    d.GetFunctionEntry start =
      (⟨(d.store_.drop d.function_index_).take FunctionEntry.kSize⟩,
       { d with function_index_ := d.function_index_ + FunctionEntry.kSize }) := by
  obtain ⟨h1, h2⟩ := h
  have hk : FunctionEntry.kSize = 4 := rfl
  have hw : wrapInt32 ((d.function_index_ : Int) + (FunctionEntry.kSize : Int))
      = (d.function_index_ : Int) + (FunctionEntry.kSize : Int) := by
    apply wrapInt32_of_range <;> (simp only [hk] at *; omega)
  have hlt : d.function_index_ < d.store_.length := by rw [hk] at h1; omega
  have hget : d.store_.get? d.function_index_ = some (d.store_.getD d.function_index_ 0) := by
    rw [List.getD_eq_getElem?_getD, List.get?_eq_getElem?, List.getElem?_eq_getElem hlt]
    rfl
  unfold ScriptDataImpl.GetFunctionEntry
  rw [if_pos]
  refine ⟨?_, ?_⟩
  · rw [hw]; unfold ScriptDataImpl.length; exact_mod_cast h1
  · rw [hget, Option.map_some', h2]

theorem GetFunctionEntry_eq_of_not_entryAt (d : ScriptDataImpl) (start : Int)
    (hidx : d.function_index_ ≤ d.store_.length)
    (hlen : d.store_.length + FunctionEntry.kSize < 2 ^ 31)
    (h : ¬ d.EntryAt start) :
    d.GetFunctionEntry start = (FunctionEntry.invalid, d) := by
  have hk : FunctionEntry.kSize = 4 := rfl
  have hw : wrapInt32 ((d.function_index_ : Int) + (FunctionEntry.kSize : Int))
      = (d.function_index_ : Int) + (FunctionEntry.kSize : Int) := by
    apply wrapInt32_of_range <;> (simp only [hk] at *; omega)
  unfold ScriptDataImpl.GetFunctionEntry
  rw [if_neg]
  rintro ⟨h1, h2⟩
  apply h
  rw [hw] at h1
  unfold ScriptDataImpl.length at h1
  have h1n : d.function_index_ + FunctionEntry.kSize ≤ d.store_.length := by exact_mod_cast h1
  refine ⟨h1n, ?_⟩
  have hlt : d.function_index_ < d.store_.length := by rw [hk] at h1n; omega
  rw [List.get?_eq_getElem?, List.getElem?_eq_getElem hlt, Option.map_some'] at h2
  rw [List.getD_eq_getElem?_getD, List.getElem?_eq_getElem hlt]
  simpa using h2

/-- C9. `GetFunctionEntry(start)` returns a valid entry and advances the read
index by one entry size exactly when a whole entry remains at the read index
and its recorded start equals `start`; otherwise it returns the invalid entry
and leaves the object unchanged.  For strictly ascending start offsets, a query
for the same or an earlier start after a hit returns the invalid entry. -/
theorem GetFunctionEntry_sequential (d : ScriptDataImpl) (start : Int)
    (hidx : d.function_index_ ≤ d.store_.length)
    (hlen : d.store_.length + FunctionEntry.kSize < 2 ^ 31) :
    ((d.GetFunctionEntry start).1.is_valid = true ↔ d.EntryAt start)
    ∧ (d.EntryAt start →
        (d.GetFunctionEntry start).2.function_index_
            = d.function_index_ + FunctionEntry.kSize
        ∧ (d.GetFunctionEntry start).2.store_ = d.store_
        ∧ (d.GetFunctionEntry start).1.backing_
            = (d.store_.drop d.function_index_).take FunctionEntry.kSize
        ∧ (d.GetFunctionEntry start).1.start_pos = start)
    ∧ (¬ d.EntryAt start → d.GetFunctionEntry start = (FunctionEntry.invalid, d))
    ∧ (∀ (k : Nat) (start2 : Int), d.StartsAscending →
        d.function_index_ = PreparseDataConstants.kHeaderSize + FunctionEntry.kSize * k →
        d.EntryAt start → start2 ≤ start →
        (d.GetFunctionEntry start).2.GetFunctionEntry start2
          = (FunctionEntry.invalid, (d.GetFunctionEntry start).2)) := by
  have hk : FunctionEntry.kSize = 4 := rfl
  have hh : PreparseDataConstants.kHeaderSize = 6 := rfl
  refine ⟨?_, ?_, ?_, ?_⟩
  · constructor
    · intro hv
      by_contra hne
      rw [GetFunctionEntry_eq_of_not_entryAt d start hidx hlen hne] at hv
      simp [FunctionEntry.is_valid, FunctionEntry.invalid] at hv
    · intro h
      rw [GetFunctionEntry_eq_of_entryAt d start hlen h]
      have h1 := h.1
      simp only [FunctionEntry.is_valid, List.length_take, List.length_drop, decide_eq_true_eq]
      rw [hk] at h1 ⊢
      omega
  · intro h
    rw [GetFunctionEntry_eq_of_entryAt d start hlen h]
    refine ⟨rfl, rfl, rfl, ?_⟩
    have h1 := h.1
    have hlt : d.function_index_ < d.store_.length := by rw [hk] at h1; omega
    have h2 := h.2
    simp only [FunctionEntry.start_pos]
    rw [← h2]
    congr 1
    rw [List.getD_eq_getElem?_getD, List.getD_eq_getElem?_getD, List.getElem?_take,
      if_pos (by rw [hk]; omega), List.getElem?_drop]
    simp
  · intro h
    exact GetFunctionEntry_eq_of_not_entryAt d start hidx hlen h
  · intro k start2 hasc hal h hle
    rw [GetFunctionEntry_eq_of_entryAt d start hlen h]
    apply GetFunctionEntry_eq_of_not_entryAt
    · have h1 := h.1
      exact h1
    · exact hlen
    · rintro ⟨h3, h4⟩
      simp only at h3 h4
      have hlt := hasc k (k + 1) (Nat.lt_succ_self k) (by rw [hal] at h3; rw [hk, hh] at h3 ⊢; omega)
      have e1 : d.entryStart k = start := by
        unfold ScriptDataImpl.entryStart
        rw [← hal]
        exact h.2
      have e2 : d.entryStart (k + 1) = start2 := by
        unfold ScriptDataImpl.entryStart
        rw [← h4, hal]
        congr 2
      omega

/-- C9, instance: a store with two entries whose starts are 10 and 20; after
the hit on 10, asking again for 10 fails. -/
theorem GetFunctionEntry_sequential_witness :
    ((ScriptDataImpl.GetFunctionEntry
        ⟨[0xBadDead, 6, 0, 8, 0, 14, 10, 15, 0, 0, 20, 30, 1, 2], 6, []⟩ 10).1.is_valid = true
      ↔ ScriptDataImpl.EntryAt
          ⟨[0xBadDead, 6, 0, 8, 0, 14, 10, 15, 0, 0, 20, 30, 1, 2], 6, []⟩ 10)
    ∧ ((ScriptDataImpl.GetFunctionEntry
        ⟨[0xBadDead, 6, 0, 8, 0, 14, 10, 15, 0, 0, 20, 30, 1, 2], 6, []⟩ 10).2.GetFunctionEntry 10).1
        = FunctionEntry.invalid :=
  have h := GetFunctionEntry_sequential
    ⟨[0xBadDead, 6, 0, 8, 0, 14, 10, 15, 0, 0, 20, 30, 1, 2], 6, []⟩ 10
    (by decide) (by decide)
  ⟨h.1, by
    have h4 := h.2.2.2 0 10
      (by
        intro a b hab hb
        have hb1 : b ≤ 1 := by
          simp only [PreparseDataConstants.kHeaderSize, FunctionEntry.kSize, List.length] at hb
          omega
        have hb2 : b = 1 := by omega
        have ha : a = 0 := by omega
        subst hb2 ha
        decide)
      (by decide) (by decide) (le_refl _)
    rw [h4]⟩

/-- C10, failing input. A six-word store with the right magic and version, no
error record and a declared function table of `0x7FFFFFFC` words passes
`SanityCheck`, because `kHeaderSize + functions_size` wraps to a negative
`int`; the documented criterion rejects it (the store is far too short). -/
theorem SanityCheck_accepts_oversized_table :
    ScriptDataImpl.has_error ⟨[0xBadDead, 6, 0, 0x7FFFFFFC, 0, 0], 0, []⟩ = false
    ∧ ScriptDataImpl.SanityCheck ⟨[0xBadDead, 6, 0, 0x7FFFFFFC, 0, 0], 0, []⟩ = some true
    ∧ ¬ ScriptDataImpl.SanityCriterion ⟨[0xBadDead, 6, 0, 0x7FFFFFFC, 0, 0], 0, []⟩ := by
  refine ⟨by decide, by decide, by decide⟩

/-- Without overflow of `kHeaderSize + functions_size` the check of a store
without error record agrees with the documented criterion. -/
theorem SanityCheck_iff_of_no_overflow (d : ScriptDataImpl)
    (herr : d.has_error = false)
    (hfs : toInt32 (d.store_.getD PreparseDataConstants.kFunctionsSizeOffset 0)
        < 2 ^ 31 - (PreparseDataConstants.kHeaderSize : Int)) :
    (d.SanityCheck = some true ↔ d.SanityCriterion)
    ∧ (d.SanityCheck = some true ∨ d.SanityCheck = some false) := by
  have hh : (PreparseDataConstants.kHeaderSize : Int) = 6 := rfl
  have hw : wrapInt32 ((PreparseDataConstants.kHeaderSize : Int)
      + toInt32 (d.store_.getD PreparseDataConstants.kFunctionsSizeOffset 0))
      = (PreparseDataConstants.kHeaderSize : Int)
        + toInt32 (d.store_.getD PreparseDataConstants.kFunctionsSizeOffset 0) := by
    by_cases h4 : toInt32 (d.store_.getD PreparseDataConstants.kFunctionsSizeOffset 0) < 0
    · apply wrapInt32_of_range
      · have : -(2 ^ 31 : Int) ≤ toInt32 (d.store_.getD PreparseDataConstants.kFunctionsSizeOffset 0) := by
          unfold toInt32
          split_ifs <;> omega
        omega
      · omega
    · apply wrapInt32_of_range <;> omega
  simp only [ScriptDataImpl.SanityCheck, ScriptDataImpl.SanityCriterion, herr, hw]
  split_ifs with h1 h2 h3 h4 h5 h6 h7 <;>
    simp only [Bool.false_eq_true, false_iff, not_and, Option.some.injEq, true_iff, or_true,
      true_or, and_true, reduceCtorEq, ne_eq, not_false_eq_true] at * <;>
    omega

/-! ## Theorems: the error record of the preparse data -/

namespace ScriptDataImpl

theorem word_of_lt (d : ScriptDataImpl) (i : Int) (h0 : 0 ≤ i) (h1 : i < d.length) :
    d.word i = some (d.store_.getD i.toNat 0) := by
  unfold word length at *
  have hlt : i.toNat < d.store_.length := by omega
  rw [if_pos h0, List.get?_eq_getElem?, List.getElem?_eq_getElem hlt,
    List.getD_eq_getElem?_getD, List.getElem?_eq_getElem hlt]
  rfl

theorem getD_lt_of_smallWords (d : ScriptDataImpl) (hs : d.SmallWords) (n : Nat) :
    d.store_.getD n 0 < 2 ^ 30 := by
  rw [List.getD_eq_getElem?_getD]
  by_cases hn : n < d.store_.length
  · rw [List.getElem?_eq_getElem hn]
    exact hs.2 _ (List.getElem_mem _)
  · rw [List.getElem?_eq_none (by omega)]
    norm_num

theorem Read_of_lt (d : ScriptDataImpl) (pos : Int) (h0 : 0 ≤ pos) (h1 : pos ≤ 2 ^ 31 - 7)
    (h2 : 6 + pos < d.length) :
    d.Read pos = some (d.store_.getD (6 + pos).toNat 0) := by
  unfold Read
  have hh : (PreparseDataConstants.kHeaderSize : Int) = 6 := rfl
  rw [hh, wrapInt32_of_range _ (by omega) (by omega)]
  exact d.word_of_lt _ (by omega) h2

/-- One pass through the loop of `SanityCheck` that does not return false
reads the length word at `pos` and goes on behind the string. -/
theorem SanityCheck_loop_step (d : ScriptDataImpl) (arg_count fuel i : Nat) (pos posf : Int)
    (hs : d.SmallWords) (h0 : 0 ≤ pos) (h1 : pos ≤ 2 ^ 31 - 7) (hi : i ≤ arg_count)
    (h : d.SanityCheck_loop arg_count (fuel + 1) i pos = some (some posf)) :
    6 + pos < d.length
    ∧ d.SanityCheck_loop arg_count fuel ((i + 1) % 2 ^ 32)
        (pos + 1 + (d.store_.getD (6 + pos).toNat 0 : Nat)) = some (some posf) := by
  have hh : (PreparseDataConstants.kHeaderSize : Int) = 6 := rfl
  have hw : wrapInt32 ((PreparseDataConstants.kHeaderSize : Int) + pos) = 6 + pos := by
    rw [hh, wrapInt32_of_range _ (by omega) (by omega)]
  unfold SanityCheck_loop at h
  rw [if_pos hi, hw] at h
  split_ifs at h with hlen
  · cases h
  · have hlen2 : 6 + pos < d.length := not_le.mp hlen
    refine ⟨hlen2, ?_⟩
    rw [d.Read_of_lt pos h0 h1 hlen2] at h
    have hsmall := d.getD_lt_of_smallWords hs (6 + pos).toNat
    have hlenb : d.length < 2 ^ 30 := by
      have := hs.1
      unfold length
      exact_mod_cast this
    simp only at h
    rw [toInt32_of_lt _ (by omega)] at h
    split_ifs at h with hneg
    · omega
    · rw [wrapInt32_of_range (1 + _) (by omega) (by omega),
        wrapInt32_of_range _ (by omega) (by omega)] at h
      rw [← h]
      congr 1
      ring

/-- The position only grows in the loop of `SanityCheck`, and stays in the
range of `int`. -/
theorem SanityCheck_loop_mono (d : ScriptDataImpl) (arg_count : Nat) (hs : d.SmallWords) :
    ∀ (fuel i : Nat) (pos posf : Int), 0 ≤ pos → pos ≤ 2 ^ 31 - 7 →
      d.SanityCheck_loop arg_count fuel i pos = some (some posf) →
      pos ≤ posf ∧ posf ≤ 2 ^ 31 - 7 := by
  intro fuel
  induction fuel with
  | zero => intro i pos posf _ _ h; cases h
  | succ fuel ih =>
    intro i pos posf h0 h1 h
    by_cases hi : i ≤ arg_count
    · obtain ⟨hlen, hnext⟩ := d.SanityCheck_loop_step arg_count fuel i pos posf hs h0 h1 hi h
      have hsmall := d.getD_lt_of_smallWords hs (6 + pos).toNat
      have hlenb : d.length < 2 ^ 30 := by
        have := hs.1
        unfold length
        exact_mod_cast this
      have := ih _ _ _ (by omega) (by omega) hnext
      omega
    · unfold SanityCheck_loop at h
      rw [if_neg hi] at h
      cases h
      exact ⟨le_refl _, h1⟩

theorem ReadString_loop_isSome (d : ScriptDataImpl) (start : Int) (h0 : 0 ≤ start) :
    ∀ (count : Nat) (i : Int), 0 ≤ i → start + i + count < d.length →
      ∃ chars, d.ReadString_loop start count i = some chars := by
  intro count
  induction count with
  | zero => intro i _ _; exact ⟨[], rfl⟩
  | succ count ih =>
    intro i hi hlen
    obtain ⟨chars, hc⟩ := ih (i + 1) (by omega) (by push_cast at hlen ⊢; omega)
    unfold ReadString_loop
    rw [d.word_of_lt _ (by omega) (by push_cast at hlen; omega), hc]
    exact ⟨_, rfl⟩

/-- A string whose length word and characters lie inside the store is read
without leaving the store. -/
theorem ReadString_of_fits (d : ScriptDataImpl) (hs : d.SmallWords) (pos : Int) (h0 : 0 ≤ pos)
    (h1 : pos ≤ 2 ^ 31 - 7)
    (hfit : 6 + pos + 1 + (d.store_.getD (6 + pos).toNat 0 : Nat) ≤ d.length) :
    ∃ chars, d.ReadString (ReadAddress pos)
      = some (chars, ((d.store_.getD (6 + pos).toNat 0 : Nat) : Int)) := by
  have hh : (PreparseDataConstants.kHeaderSize : Int) = 6 := rfl
  have ha : ReadAddress pos = 6 + pos := by
    unfold ReadAddress
    rw [hh, wrapInt32_of_range _ (by omega) (by omega)]
  have hsmall := d.getD_lt_of_smallWords hs (6 + pos).toNat
  unfold ReadString
  rw [ha, d.word_of_lt _ (by omega) (by omega)]
  simp only
  rw [toInt32_of_lt _ (by omega)]
  obtain ⟨chars, hc⟩ := d.ReadString_loop_isSome (6 + pos) (by omega)
    (d.store_.getD (6 + pos).toNat 0) 0 (le_refl _) (by omega)
  rw [Int.toNat_ofNat, hc]
  exact ⟨chars, rfl⟩

/-- The strings that the loop of `SanityCheck` has accepted are read by the
loop of `BuildArgs` without leaving the store. -/
theorem BuildArgs_loop_isSome (d : ScriptDataImpl) (arg_count : Nat) (hs : d.SmallWords)
    (hac : arg_count < 2 ^ 30) :
    ∀ (count fuel i : Nat) (pos posf : Int), 0 ≤ pos → pos ≤ 2 ^ 31 - 7 →
      i + count = arg_count + 1 →
      d.SanityCheck_loop arg_count fuel i pos = some (some posf) → 6 + posf ≤ d.length →
      ∃ args, d.BuildArgs_loop count pos = some args := by
  intro count
  induction count with
  | zero => intro fuel i pos posf _ _ _ _ _; exact ⟨[], rfl⟩
  | succ count ih =>
    intro fuel i pos posf h0 h1 hik h hfin
    have hi : i ≤ arg_count := by omega
    cases fuel with
    | zero => cases h
    | succ fuel =>
      obtain ⟨hlen, hnext⟩ := d.SanityCheck_loop_step arg_count fuel i pos posf hs h0 h1 hi h
      have hsmall := d.getD_lt_of_smallWords hs (6 + pos).toNat
      have hlenb : d.length < 2 ^ 30 := by
        have := hs.1
        unfold length
        exact_mod_cast this
      have hmono := (d.SanityCheck_loop_mono arg_count hs _ _ _ _ (by omega) (by omega) hnext).1
      obtain ⟨chars, hc⟩ := d.ReadString_of_fits hs pos h0 h1 (by omega)
      have hmod : (i + 1) % 2 ^ 32 = i + 1 := Nat.mod_eq_of_lt (by omega)
      rw [hmod] at hnext
      obtain ⟨args, ha⟩ := ih fuel (i + 1) _ posf (by omega) (by omega) (by omega) hnext hfin
      unfold BuildArgs_loop
      rw [hc]
      simp only
      rw [wrapInt32_of_range (_ + 1) (by omega) (by omega),
        wrapInt32_of_range _ (by omega) (by omega)]
      have hpos : pos + ((d.store_.getD (6 + pos).toNat 0 : Nat) + 1)
          = pos + 1 + (d.store_.getD (6 + pos).toNat 0 : Nat) := by ring
      rw [hpos, ha]
      exact ⟨_, rfl⟩

/-- When no sum can leave the range of `int`, a store with an error record
that passes `SanityCheck` is read by `MessageLocation`, `BuildMessage` and
`BuildArgs` without leaving the store, and the start position is not greater
than the end position. -/
theorem SanityCheck_reads_in_bounds_of_smallWords (d : ScriptDataImpl) (hs : d.SmallWords)
    (herr : d.has_error = true) (h : d.SanityCheck = some true) :
    (∃ beg_pos end_pos, d.MessageLocation = some (beg_pos, end_pos) ∧ beg_pos ≤ end_pos)
    ∧ (∃ text, d.BuildMessage = some text)
    ∧ (∃ args, d.BuildArgs = some args) := by
  have hh : (PreparseDataConstants.kHeaderSize : Int) = 6 := rfl
  have hlenb : d.length < 2 ^ 30 := by
    have := hs.1
    unfold length
    exact_mod_cast this
  have hk0 : PreparseDataConstants.kMessageStartPos = 0 := rfl
  have hk1 : PreparseDataConstants.kMessageEndPos = 1 := rfl
  have hk2 : PreparseDataConstants.kMessageArgCountPos = 2 := rfl
  have hk3 : PreparseDataConstants.kMessageTextPos = 3 := rfl
  have h9 : wrapInt32 ((PreparseDataConstants.kHeaderSize : Int)
      + PreparseDataConstants.kMessageTextPos) = 9 := by decide
  unfold SanityCheck at h
  rw [herr, h9] at h
  simp only [if_true] at h
  by_cases h1 : d.length < (PreparseDataConstants.kHeaderSize : Int)
  · rw [if_pos h1] at h; cases h
  rw [if_neg h1] at h
  by_cases h2 : d.magic ≠ PreparseDataConstants.kMagicNumber
  · rw [if_pos h2] at h; cases h
  rw [if_neg h2] at h
  by_cases h3 : d.version ≠ PreparseDataConstants.kCurrentVersion
  · rw [if_pos h3] at h; cases h
  rw [if_neg h3] at h
  by_cases h4 : d.length ≤ 9
  · rw [if_pos h4] at h; cases h
  rw [if_neg h4] at h
  have h4b : 9 < d.length := not_le.mp h4
  have hr0 := d.Read_of_lt 0 (le_refl _) (by norm_num) (by omega)
  have hr1 := d.Read_of_lt 1 (by norm_num) (by norm_num) (by omega)
  have hr2 := d.Read_of_lt 2 (by norm_num) (by norm_num) (by omega)
  have hr3 := d.Read_of_lt 3 (by norm_num) (by norm_num) (by omega)
  rw [hk0, hk1, hk2, hk3, hr0, hr1, hr2] at h
  simp only at h
  by_cases hse : d.store_.getD (6 + (0 : Int)).toNat 0 > d.store_.getD (6 + (1 : Int)).toNat 0
  · rw [if_pos hse] at h; cases h
  rw [if_neg hse] at h
  generalize hloop : d.SanityCheck_loop (d.store_.getD (6 + (2 : Int)).toNat 0)
    (d.store_.length + 1) 0 3 = r at h
  match r, h with
  | some (some posf), h =>
    simp only at h
    have hs0 := d.getD_lt_of_smallWords hs (6 + (0 : Int)).toNat
    have hs1 := d.getD_lt_of_smallWords hs (6 + (1 : Int)).toNat
    have hs2 := d.getD_lt_of_smallWords hs (6 + (2 : Int)).toNat
    have hs3 := d.getD_lt_of_smallWords hs (6 + (3 : Int)).toNat
    obtain ⟨hlen, hnext⟩ := d.SanityCheck_loop_step _ _ 0 3 posf hs (by norm_num) (by norm_num)
      (Nat.zero_le _) hloop
    obtain ⟨hmono, hposf⟩ :=
      d.SanityCheck_loop_mono _ hs _ _ _ _ (by omega) (by omega) hnext
    rw [hh, wrapInt32_of_range _ (by omega) (by omega)] at h
    by_cases hfin : d.length < 6 + posf
    · rw [if_pos hfin] at h; cases h
    refine ⟨?_, ?_, ?_⟩
    · refine ⟨toInt32 (d.store_.getD (6 + (0 : Int)).toNat 0),
        toInt32 (d.store_.getD (6 + (1 : Int)).toNat 0), ?_, ?_⟩
      · unfold MessageLocation
        rw [hk0, hk1, hr0, hr1]
      · rw [toInt32_of_lt _ (by omega), toInt32_of_lt _ (by omega)]
        exact_mod_cast not_lt.mp hse
    · obtain ⟨chars, hc⟩ := d.ReadString_of_fits hs 3 (by norm_num) (by norm_num) (by omega)
      unfold BuildMessage
      rw [hk3, hc]
      exact ⟨_, rfl⟩
    · unfold BuildArgs
      rw [hk2, hk3, hr2, hr3]
      simp only
      rw [toInt32_of_lt _ (by omega)]
      have hp : toInt32 (((3 : Int).toNat + 1 + d.store_.getD (6 + (3 : Int)).toNat 0) % 2 ^ 32)
          = 3 + 1 + (d.store_.getD (6 + (3 : Int)).toNat 0 : Nat) := by
        have h3n : (3 : Int).toNat = 3 := rfl
        rw [h3n, Nat.mod_eq_of_lt (by omega), toInt32_of_lt _ (by omega)]
        push_cast
        ring
      rw [hp, Int.toNat_ofNat]
      have hmod : (0 + 1) % 2 ^ 32 = 1 := by norm_num
      rw [hmod] at hnext
      exact d.BuildArgs_loop_isSome _ hs hs2 _ _ 1 _ posf (by omega) (by omega) (by omega) hnext
        (by omega)

end ScriptDataImpl

/-- The store with the error record `(3, 7, "ab", ["c"])` passes `SanityCheck`
and is read back word for word. -/
theorem SanityCheck_messageStore :
    ScriptDataImpl.messageStore.SanityCheck = some true
    ∧ ScriptDataImpl.messageStore.MessageLocation = some (3, 7)
    ∧ ScriptDataImpl.messageStore.BuildMessage = some [97, 98]
    ∧ ScriptDataImpl.messageStore.BuildArgs = some [[99]] := by
  decide

/-- C11 (failing input): a store of ten words whose error record gives the
message text the length `0x7FFFFFFF` passes `SanityCheck`, because
`pos += 1 + length` leaves the range of `int` and the wrapped position is
negative; `BuildMessage` then reads the word with index 10, which lies outside
the store. -/
theorem SanityCheck_accepts_overlong_message :
    ScriptDataImpl.overlongMessageStore.store_.length = 10
    ∧ ScriptDataImpl.overlongMessageStore.has_error = true
    ∧ ScriptDataImpl.overlongMessageStore.Read PreparseDataConstants.kMessageTextPos
        = some 0x7FFFFFFF
    ∧ ScriptDataImpl.overlongMessageStore.SanityCheck_loop 0 11 0
        PreparseDataConstants.kMessageTextPos = some (some (-2147483645))
    ∧ ScriptDataImpl.overlongMessageStore.SanityCheck = some true
    ∧ ScriptDataImpl.overlongMessageStore.word 10 = none
    ∧ ScriptDataImpl.overlongMessageStore.BuildMessage = none := by
  refine ⟨rfl, rfl, rfl, rfl, rfl, rfl, rfl⟩

/-! ## Theorems: base-128 numbers of the symbol table -/

theorem wrapInt32_congr (a b : Int) (h : a % 2 ^ 32 = b % 2 ^ 32) : wrapInt32 a = wrapInt32 b := by
  unfold wrapInt32
  rw [h]

theorem wrapInt32_emod (a : Int) : wrapInt32 a % 2 ^ 32 = a % 2 ^ 32 := by
  unfold wrapInt32 toInt32
  have h3 : (0 : Int) ≤ a % 2 ^ 32 := Int.emod_nonneg _ (by norm_num)
  have h4 : a % 2 ^ 32 < 2 ^ 32 := Int.emod_lt_of_pos _ (by norm_num)
  have h5 : ((a % 2 ^ 32).toNat : Int) = a % 2 ^ 32 := Int.toNat_of_nonneg h3
  have h6 : (a % 2 ^ 32).toNat % 2 ^ 32 = (a % 2 ^ 32).toNat := by
    apply Nat.mod_eq_of_lt
    omega
  rw [h6, h5]
  split_ifs with h7
  · exact Int.emod_emod_of_dvd _ (dvd_refl _)
  · rw [Int.sub_emod, Int.emod_self, sub_zero, Int.emod_emod_of_dvd _ (dvd_refl _),
      Int.emod_emod_of_dvd _ (dvd_refl _)]

namespace ScriptDataImpl

/-- The digits of `bytes` appended to the number `acc`. -/
theorem foldl_base128 (bytes : List Nat) (acc : Int) :
    bytes.foldl (fun (r : Int) b => r * 128 + ((b % 128 : Nat) : Int)) acc
      = acc * 128 ^ bytes.length + (base128 bytes : Int) := by
  induction bytes generalizing acc with
  | nil => simp [base128]
  | cons b rest ih =>
    rw [List.foldl_cons, ih]
    simp only [base128, List.length_cons, pow_succ]
    push_cast
    ring

theorem wrapInt32_foldl (bytes : List Nat) (acc : Int) :
    wrapInt32 (bytes.foldl (fun (r : Int) b => r * 128 + ((b % 128 : Nat) : Int))
        (wrapInt32 acc))
      = wrapInt32 (bytes.foldl (fun (r : Int) b => r * 128 + ((b % 128 : Nat) : Int)) acc) := by
  apply wrapInt32_congr
  rw [foldl_base128, foldl_base128, Int.add_emod, Int.mul_emod, wrapInt32_emod,
    ← Int.mul_emod, ← Int.add_emod]

theorem ReadNumber_loop_eq (result : Int) (input : Nat) (data : List Nat) :
    ReadNumber_loop result input data =
      if input / 128 % 2 ≠ 0 then
        match data with
        | [] => none
        | b :: rest =>
          ReadNumber_loop (wrapInt32 (result * 128 + ((b % 128 : Nat) : Int))) b rest
      else some (result, data) := by
  rw [ReadNumber_loop.eq_def]

theorem HighBit.test {b : Nat} (h : HighBit b) : b / 128 % 2 ≠ 0 := by
  unfold HighBit at h
  omega

/-- The loop of `ReadNumber` on bytes with the high bit set that are followed
by a byte with the high bit clear. -/
theorem ReadNumber_loop_digits :
    ∀ (more : List Nat) (last : Nat) (rest : List Nat) (result : Int) (input : Nat),
      (∀ b ∈ more, HighBit b) → last < 128 → HighBit input →
      ReadNumber_loop result input (more ++ last :: rest)
        = some (wrapInt32 ((more ++ [last]).foldl
            (fun (r : Int) b => r * 128 + ((b % 128 : Nat) : Int)) result), rest) := by
  intro more
  induction more with
  | nil =>
    intro last rest result input _ hlast hin
    rw [ReadNumber_loop_eq, if_pos hin.test]
    simp only [List.nil_append]
    rw [ReadNumber_loop_eq, if_neg (by omega)]
    rfl
  | cons b more ih =>
    intro last rest result input hmore hlast hin
    rw [ReadNumber_loop_eq, if_pos hin.test]
    simp only [List.cons_append]
    rw [ih last rest _ b (fun c hc => hmore c (List.mem_cons_of_mem _ hc)) hlast
      (hmore b (List.mem_cons_self _ _))]
    rw [List.foldl_cons, wrapInt32_foldl]

/-- The loop of `ReadNumber` on bytes that all have the high bit set runs into
the end of the data. -/
theorem ReadNumber_loop_none :
    ∀ (data : List Nat) (result : Int) (input : Nat),
      (∀ b ∈ data, HighBit b) → HighBit input → ReadNumber_loop result input data = none := by
  intro data
  induction data with
  | nil =>
    intro result input _ hin
    rw [ReadNumber_loop_eq, if_pos hin.test]
  | cons b data ih =>
    intro result input hdata hin
    rw [ReadNumber_loop_eq, if_pos hin.test]
    exact ih _ b (fun c hc => hdata c (List.mem_cons_of_mem _ hc))
      (hdata b (List.mem_cons_self _ _))

/-- The value that `ReadNumber` returns for a well-formed number: the base-128
value of the bytes, reduced to a signed 32-bit number. -/
theorem ReadNumber_wrapped (more : List Nat) (last : Nat) (rest : List Nat)
    (hmore : ∀ b ∈ more, HighBit b) (hlast : last < 128)
    (hfirst : (more ++ [last]).head? ≠ some PreparseDataConstants.kNumberTerminator) :
    ReadNumber (more ++ last :: rest)
      = (wrapInt32 (base128 (more ++ [last])), rest) := by
  cases more with
  | nil =>
    simp only [List.nil_append, ReadNumber]
    have hne : last ≠ PreparseDataConstants.kNumberTerminator := by
      intro h
      rw [h] at hlast
      revert hlast
      decide
    rw [if_neg hne, ReadNumber_loop_eq, if_neg (by omega)]
    simp only [base128, List.length_nil, pow_zero, mul_one, add_zero]
    have h1 : last % 128 < 2 ^ 31 := by omega
    rw [wrapInt32_of_range _ (by omega) (by omega)]
  | cons b more =>
    have hb := hmore b (List.mem_cons_self _ _)
    have hne : b ≠ PreparseDataConstants.kNumberTerminator := by
      intro h
      apply hfirst
      rw [h]
      rfl
    simp only [List.cons_append, ReadNumber]
    rw [if_neg hne, ReadNumber_loop_digits more last rest _ b
      (fun c hc => hmore c (List.mem_cons_of_mem _ hc)) hlast hb]
    simp only
    congr 1
    apply wrapInt32_congr
    rw [foldl_base128]
    have : (base128 (b :: (more ++ [last])) : Int)
        = ((b % 128 : Nat) : Int) * 128 ^ (more ++ [last]).length
          + (base128 (more ++ [last]) : Int) := by
      simp only [base128]
      push_cast
      rfl
    rw [this]

end ScriptDataImpl

/-- C12 (amended): for bytes `b0 .. bk` with the high bit set on all but the
last and a first byte other than the terminator `0x80`, `ReadNumber` consumes
the `k + 1` bytes and returns the base-128 value of their low seven bits, most
significant digit first, reduced to a signed 32-bit number; this is the value
itself whenever it is below `2 ^ 31`.  It returns `-1` and leaves the source
pointer where it was at the end of the data, at the terminator, and when the
data ends before a byte with the high bit clear. -/
theorem ReadNumber_base128 (more : List Nat) (last : Nat) (rest : List Nat)
    (hmore : ∀ b ∈ more, ScriptDataImpl.HighBit b) (hlast : last < 128)
    (hfirst : (more ++ [last]).head? ≠ some PreparseDataConstants.kNumberTerminator) :
    ScriptDataImpl.ReadNumber (more ++ last :: rest)
        = (wrapInt32 (ScriptDataImpl.base128 (more ++ [last])), rest)
    ∧ (ScriptDataImpl.base128 (more ++ [last]) < 2 ^ 31 →
        ScriptDataImpl.ReadNumber (more ++ last :: rest)
          = ((ScriptDataImpl.base128 (more ++ [last]) : Int), rest))
    ∧ ScriptDataImpl.ReadNumber [] = (-1, [])
    ∧ ScriptDataImpl.ReadNumber (PreparseDataConstants.kNumberTerminator :: rest)
        = (-1, PreparseDataConstants.kNumberTerminator :: rest)
    ∧ (∀ data : List Nat, (∀ b ∈ data, ScriptDataImpl.HighBit b) →
        ScriptDataImpl.ReadNumber data = (-1, data)) := by
  refine ⟨ScriptDataImpl.ReadNumber_wrapped more last rest hmore hlast hfirst, ?_, rfl, ?_, ?_⟩
  · intro hlt
    rw [ScriptDataImpl.ReadNumber_wrapped more last rest hmore hlast hfirst,
      wrapInt32_of_range _ (by omega) (by exact_mod_cast hlt)]
  · simp [ScriptDataImpl.ReadNumber]
  · intro data hdata
    cases data with
    | nil => rfl
    | cons b data =>
      simp only [ScriptDataImpl.ReadNumber]
      split_ifs with h
      · rfl
      · rw [ScriptDataImpl.ReadNumber_loop_none data _ b
          (fun c hc => hdata c (List.mem_cons_of_mem _ hc)) (hdata b (List.mem_cons_self _ _))]

theorem ReadNumber_base128_witness :
    ScriptDataImpl.ReadNumber [0x81, 0x82, 0x03, 0x80]
        = (wrapInt32 (ScriptDataImpl.base128 [0x81, 0x82, 0x03]), [0x80])
    ∧ ScriptDataImpl.ReadNumber [0x81, 0x82, 0x03, 0x80] = (16643, [0x80]) :=
  ⟨(ReadNumber_base128 [0x81, 0x82] 0x03 [0x80] (by decide) (by decide) (by decide)).1,
   (ReadNumber_base128 [0x81, 0x82] 0x03 [0x80] (by decide) (by decide) (by decide)).2.1
     (by decide)⟩

/-- C12 (counterexample): the five bytes `88 80 80 80 00` have the high bit set
on all but the last and stand for `8 * 128 ^ 4 = 2 ^ 31`, but `ReadNumber`
returns `-2 ^ 31`. -/
theorem ReadNumber_wraps_at_five_bytes :
    ScriptDataImpl.base128 [0x88, 0x80, 0x80, 0x80, 0x00] = 2147483648
    ∧ ScriptDataImpl.ReadNumber [0x88, 0x80, 0x80, 0x80, 0x00] = (-2147483648, []) := by
  decide

/-! ## Theorems: declarations -/

theorem Declare_illegal_redecl (p : Parser) (name : String)
    (mode : Variable.Mode) (fun_ : Option Expression) (resolve : Bool)
    (hf : p.top_scope.is_function_scope = true) :
    (Declare name mode fun_ resolve p).2.top_scope.illegal_redecl_ =
      match p.top_scope.LocalLookup name with
      | none => p.top_scope.illegal_redecl_
      | some var =>
        if mode = Variable.Mode.CONST ∨ var.mode = Variable.Mode.CONST then
          (p.top_scope.SetIllegalRedeclaration
            (p.NewThrowTypeError "redeclaration"
              (if var.mode = Variable.Mode.VAR then "var" else "const") name)).illegal_redecl_
        else p.top_scope.illegal_redecl_ := by
  unfold Declare
  simp only [hf, if_true]
  cases hl : p.top_scope.LocalLookup name with
  | none =>
    simp only [Scope.DeclareLocal, hl]
    rfl
  | some var =>
    simp only
    by_cases hc : mode = Variable.Mode.CONST ∨ var.mode = Variable.Mode.CONST
    · simp only [if_pos hc]
      rfl
    · simp only [if_neg hc]
      rfl

theorem Declare_messages (p : Parser) (name : String)
    (mode : Variable.Mode) (fun_ : Option Expression) (resolve : Bool) :
    (Declare name mode fun_ resolve p).2.messages = p.messages := by
  unfold Declare
  by_cases hf : p.top_scope.is_function_scope = true
  · simp only [hf, if_true]
    cases hl : p.top_scope.LocalLookup name with
    | none => rfl
    | some var =>
      simp only
      by_cases hc : mode = Variable.Mode.CONST ∨ var.mode = Variable.Mode.CONST
      · simp only [if_pos hc]
        rfl
      · simp only [if_neg hc]
        rfl
  · simp only [hf]
    rfl

/-- C2. In a function scope without a recorded redeclaration, `Declare` records
an illegal redeclaration exactly when the name is already declared locally and
the existing or the new mode is `CONST`; it never clears `*ok` and reports no
message.  On a fresh function scope: `const x` twice, `var x` then `const x`
and `const x` then `var x` record the error, `var x` twice does not. -/
theorem Declare_illegal_redeclaration (p : Parser) (name : String)
    (mode : Variable.Mode) (fun_ : Option Expression) (resolve : Bool)
    (hf : p.top_scope.is_function_scope = true)
    (hn : p.top_scope.HasIllegalRedeclaration = false) :
    ((Declare name mode fun_ resolve p).2.top_scope.HasIllegalRedeclaration = true
      ↔ ∃ var, p.top_scope.LocalLookup name = some var
          ∧ (mode = Variable.Mode.CONST ∨ var.mode = Variable.Mode.CONST))
    ∧ (Declare name mode fun_ resolve p).1.isSome = true
    ∧ (Declare name mode fun_ resolve p).2.messages = p.messages
    ∧ (∀ m1 m2 : Variable.Mode,
        ((Declare "x" m2 none true
            (Declare "x" m1 none true functionScopeParser).2).2.top_scope.HasIllegalRedeclaration
          = true
        ↔ (m1 = Variable.Mode.CONST ∨ m2 = Variable.Mode.CONST))) := by
  refine ⟨?_, rfl, Declare_messages p name mode fun_ resolve, ?_⟩
  · have hn2 : p.top_scope.illegal_redecl_ = none := by
      unfold Scope.HasIllegalRedeclaration at hn
      cases h : p.top_scope.illegal_redecl_ with
      | none => rfl
      | some e => rw [h] at hn; cases hn
    unfold Scope.HasIllegalRedeclaration
    rw [Declare_illegal_redecl p name mode fun_ resolve hf]
    cases hl : p.top_scope.LocalLookup name with
    | none => simp [hn2]
    | some var =>
      by_cases hc : mode = Variable.Mode.CONST ∨ var.mode = Variable.Mode.CONST
      · simp only [if_pos hc, Scope.SetIllegalRedeclaration, hn2]
        simp [hc]
      · simp only [if_neg hc, hn2]
        simp [hc]
  · intro m1 m2
    cases m1 <;> cases m2 <;> decide

/-- C2, instance: after `var x`, declaring `const x` records the error. -/
theorem Declare_illegal_redeclaration_witness :
    (Declare "x" Variable.Mode.CONST none true
        (Declare "x" Variable.Mode.VAR none true functionScopeParser).2).2.top_scope.HasIllegalRedeclaration
      = true :=
  (Declare_illegal_redeclaration
      (Declare "x" Variable.Mode.VAR none true functionScopeParser).2
      "x" Variable.Mode.CONST none true (by decide) (by decide)).1.mpr
    ⟨⟨3, 0, "x", Variable.Mode.VAR, true, Variable.Kind.NORMAL⟩, by decide⟩

/-! ## Theorems: the declaration list and the binding of the proxy -/

theorem Scope.SetIllegalRedeclaration_decls (s : Scope) (e : Expression) :
    (s.SetIllegalRedeclaration e).decls_ = s.decls_ := by
  unfold Scope.SetIllegalRedeclaration
  cases s.illegal_redecl_ <;> rfl

theorem Declare_decls (p : Parser) (name : String) (mode : Variable.Mode)
    (fun_ : Option Expression) (resolve : Bool) :
    ∃ proxy, (Declare name mode fun_ resolve p).1 = some proxy
      ∧ (Declare name mode fun_ resolve p).2.top_scope.decls_
          = p.top_scope.decls_ ++ [⟨proxy, mode, fun_⟩]
      ∧ proxy.proxyName = name := by
  refine ⟨_, rfl, ?_, rfl⟩
  unfold Declare
  by_cases hf : p.top_scope.is_function_scope = true
  · simp only [hf, if_true]
    cases hl : p.top_scope.LocalLookup name with
    | none =>
      simp only [Scope.DeclareLocal, hl]
      rfl
    | some var =>
      simp only
      by_cases hc : mode = Variable.Mode.CONST ∨ var.mode = Variable.Mode.CONST
      · simp only [if_pos hc]
        show (p.top_scope.SetIllegalRedeclaration _).decls_ ++ [_] = _
        rw [Scope.SetIllegalRedeclaration_decls]
      · simp only [if_neg hc]
        rfl
  · simp only [hf]
    rfl

theorem DeclareAll_decls :
    ∀ (ds : List (String × Variable.Mode × Option Expression × Bool)) (p : Parser),
      (DeclareAll ds p).top_scope.decls_.map Declaration.nameAndMode
        = p.top_scope.decls_.map Declaration.nameAndMode ++ ds.map (fun d => (d.1, d.2.1)) := by
  intro ds
  induction ds with
  | nil => intro p; simp [DeclareAll]
  | cons d ds ih =>
    intro p
    obtain ⟨proxy, _, hd, hn⟩ := Declare_decls p d.1 d.2.1 d.2.2.1 d.2.2.2
    simp only [DeclareAll]
    rw [ih, hd]
    simp [Declaration.nameAndMode, hn]

/-- C19: every call to `Declare` returns a proxy and appends one `Declaration`
that holds this proxy, the mode and the function literal to the declaration
list of the current scope; it does so for every parser object and every
argument.  After a sequence of calls the list therefore holds one entry per
call, in the order of the calls, with a repeated name entered again: `var x`
twice in a function scope gives two entries for `x`. -/
theorem Declare_appends_declaration (p : Parser) (name : String) (mode : Variable.Mode)
    (fun_ : Option Expression) (resolve : Bool) :
    (∃ proxy, (Declare name mode fun_ resolve p).1 = some proxy
      ∧ (Declare name mode fun_ resolve p).2.top_scope.decls_
          = p.top_scope.decls_ ++ [⟨proxy, mode, fun_⟩]
      ∧ proxy.proxyName = name)
    ∧ (∀ ds : List (String × Variable.Mode × Option Expression × Bool),
        (DeclareAll ds p).top_scope.decls_.map Declaration.nameAndMode
          = p.top_scope.decls_.map Declaration.nameAndMode ++ ds.map (fun d => (d.1, d.2.1)))
    ∧ (DeclareAll [("x", Variable.Mode.VAR, none, false), ("x", Variable.Mode.VAR, none, false)]
          functionScopeParser).top_scope.decls_.map Declaration.nameAndMode
        = [("x", Variable.Mode.VAR), ("x", Variable.Mode.VAR)] :=
  ⟨Declare_decls p name mode fun_ resolve, fun ds => DeclareAll_decls ds p, by decide⟩

theorem Declare_var (p : Parser) (name : String) (mode : Variable.Mode)
    (fun_ : Option Expression) (resolve : Bool) :
    (Declare name mode fun_ resolve p).1.map Expression.var = some
       (if resolve = true then
          if mode = Variable.Mode.CONST ∧ p.top_scope.is_global_scope = true then
            some { id := p.next_id + 1, scope := p.top_scope.id, name := name,
                   mode := Variable.Mode.CONST, is_valid_lhs := true,
                   kind := Variable.Kind.NORMAL }
          else if p.top_scope.is_function_scope = true then
            match p.top_scope.LocalLookup name with
            | some var => some var
            | none => some { id := p.next_id, scope := p.top_scope.id, name := name,
                             mode := mode, is_valid_lhs := true,
                             kind := Variable.Kind.NORMAL }
          else none
        else none) := by
  unfold Declare
  simp only [Option.map_some', Option.some.injEq, Expression.var]
  have hfg : p.top_scope.is_function_scope = true → p.top_scope.is_global_scope = false := by
    unfold Scope.is_function_scope Scope.is_global_scope
    cases p.top_scope.type_ <;> decide
  cases resolve
  · rfl
  · by_cases hf : p.top_scope.is_function_scope = true
    · have hg := hfg hf
      simp only [hf, if_true]
      cases hl : p.top_scope.LocalLookup name with
      | none =>
        simp only [Scope.DeclareLocal, hl]
        show (if mode = Variable.Mode.CONST ∧ p.top_scope.is_global_scope = true
          then _ else _ : Option Variable × Nat).1 = _
        rw [hg]
        simp
      | some var =>
        simp only
        by_cases hc : mode = Variable.Mode.CONST ∨ var.mode = Variable.Mode.CONST
        · simp only [if_pos hc]
          show (if mode = Variable.Mode.CONST
              ∧ (p.top_scope.SetIllegalRedeclaration _).is_global_scope = true
            then _ else _ : Option Variable × Nat).1 = _
          have : (p.top_scope.SetIllegalRedeclaration
              (p.NewThrowTypeError "redeclaration"
                (if var.mode = Variable.Mode.VAR then "var" else "const")
                name)).is_global_scope = false := by
            rw [← hg]
            unfold Scope.SetIllegalRedeclaration Scope.is_global_scope
            cases p.top_scope.illegal_redecl_ <;> rfl
          rw [this, hg]
          simp
        · simp only [if_neg hc]
          show (if mode = Variable.Mode.CONST ∧ p.top_scope.is_global_scope = true
            then _ else _ : Option Variable × Nat).1 = _
          rw [hg]
          simp
    · simp only [hf]
      show (if mode = Variable.Mode.CONST ∧ p.top_scope.is_global_scope = true
        then _ else _ : Option Variable × Nat).1 = _
      by_cases hcg : mode = Variable.Mode.CONST ∧ p.top_scope.is_global_scope = true
      · rw [if_pos hcg, if_pos hcg]
        simp
      · rw [if_neg hcg, if_neg hcg]
        simp

/-- C20: with the proxy that `Declare` returns, `var()` is a variable exactly
when `resolve` is set and the current scope is a function scope or the mode
is `CONST` and the current scope is the global scope.  For a `CONST`
declaration in the global scope with `resolve` set, the variable is the one
that the call creates (at the next unused address, with mode `CONST`), and
the set of variables of the scope stays as it is.  A declaration with
`resolve` unset, and a `VAR` declaration in a global or eval scope, return an
unbound proxy. -/
theorem Declare_binds_proxy (p : Parser) (name : String) (mode : Variable.Mode)
    (fun_ : Option Expression) (resolve : Bool) :
    (∃ proxy, (Declare name mode fun_ resolve p).1 = some proxy
      ∧ (proxy.var.isSome = true ↔
          resolve = true ∧ (p.top_scope.is_function_scope = true
            ∨ (mode = Variable.Mode.CONST ∧ p.top_scope.is_global_scope = true)))
      ∧ (resolve = true → mode = Variable.Mode.CONST → p.top_scope.is_global_scope = true →
          proxy.var = some { id := p.next_id + 1, scope := p.top_scope.id, name := name,
                             mode := Variable.Mode.CONST, is_valid_lhs := true,
                             kind := Variable.Kind.NORMAL }
          ∧ (Declare name mode fun_ resolve p).2.top_scope.variables_
              = p.top_scope.variables_
          ∧ p.next_id + 1 < (Declare name mode fun_ resolve p).2.next_id)
      ∧ (resolve = false → proxy.var = none)
      ∧ (mode = Variable.Mode.VAR → p.top_scope.is_function_scope = false →
          proxy.var = none))
    ∧ ((Declare "x" Variable.Mode.CONST none true globalScopeParser).1.map Expression.var
        = some (some ⟨4, 0, "x", Variable.Mode.CONST, true, Variable.Kind.NORMAL⟩))
    ∧ ((Declare "x" Variable.Mode.VAR none true globalScopeParser).1.map Expression.var
        = some none)
    ∧ ((Declare "x" Variable.Mode.CONST none true evalScopeParser).1.map Expression.var
        = some none)
    ∧ ((Declare "x" Variable.Mode.VAR none true functionScopeParser).1.map Expression.var
        = some (some ⟨3, 0, "x", Variable.Mode.VAR, true, Variable.Kind.NORMAL⟩))
    ∧ ((Declare "x" Variable.Mode.VAR none false functionScopeParser).1.map Expression.var
        = some none) := by
  refine ⟨?_, by decide, by decide, by decide, by decide, by decide⟩
  have hv := Declare_var p name mode fun_ resolve
  have hfg : p.top_scope.is_function_scope = true → p.top_scope.is_global_scope = false := by
    unfold Scope.is_function_scope Scope.is_global_scope
    cases p.top_scope.type_ <;> decide
  cases hd : (Declare name mode fun_ resolve p).1 with
  | none => rw [hd] at hv; cases hv
  | some proxy =>
    rw [hd, Option.map_some', Option.some.injEq] at hv
    refine ⟨proxy, rfl, ?_, ?_, ?_, ?_⟩
    · rw [hv]
      cases resolve
      · simp
      · simp only [if_true, true_and]
        by_cases hcg : mode = Variable.Mode.CONST ∧ p.top_scope.is_global_scope = true
        · simp [hcg]
        · rw [if_neg hcg]
          by_cases hf : p.top_scope.is_function_scope = true
          · rw [if_pos hf]
            cases p.top_scope.LocalLookup name <;> simp [hf]
          · rw [if_neg hf]
            simp [hf, hcg]
    · intro hr hm hg
      refine ⟨?_, ?_, ?_⟩
      · rw [hv, if_pos hr, if_pos ⟨hm, hg⟩]
      · have hf : ¬ p.top_scope.is_function_scope = true := by
          intro hf
          rw [hfg hf] at hg
          cases hg
        unfold Declare
        simp only [hf]
        rfl
      · have hf : ¬ p.top_scope.is_function_scope = true := by
          intro hf
          rw [hfg hf] at hg
          cases hg
        unfold Declare
        simp only [hf]
        show p.next_id + 1 < (if mode = Variable.Mode.CONST ∧ p.top_scope.is_global_scope = true
          then _ else _ : Option Variable × Nat).2
        rw [if_pos ⟨hm, hg⟩]
        exact Nat.lt_succ_self _
    · intro hr
      rw [hv, hr]
      rfl
    · intro hm hf
      rw [hv, hm]
      cases resolve
      · rfl
      · simp [hf]

/-! ## Theorems: JSON -/

theorem JsonProperties.mem_keys_set (key : String) (value : JsonValue) (k : String) :
    ∀ ps : JsonProperties, k ∈ (ps.set key value).keys → k ∈ ps.keys ∨ k = key
  | JsonProperties.nil, h => by
    simp only [JsonProperties.set, JsonProperties.keys, List.mem_singleton] at h
    exact Or.inr h
  | JsonProperties.cons k0 v0 tail, h => by
    simp only [JsonProperties.set] at h
    split_ifs at h with h0
    · simp only [JsonProperties.keys, List.mem_cons] at h ⊢
      exact Or.inl h
    · simp only [JsonProperties.keys, List.mem_cons] at h ⊢
      rcases h with h | h
      · exact Or.inl (Or.inl h)
      · rcases JsonProperties.mem_keys_set key value k tail h with h1 | h1
        · exact Or.inl (Or.inr h1)
        · exact Or.inr h1

theorem AsArrayIndex_proto : AsArrayIndex "__proto__" = none := by decide

theorem JsonObject.properties_SetPrototype (o : JsonObject) (v : JsonValue) :
    (o.SetPrototype v).properties = o.properties := by
  cases o with
  | mk e p q => cases v <;> rfl

theorem JsonParser.StoreMember_plainKeys (o : JsonObject) (key : String) (value : JsonValue)
    (h : o.PlainKeys) : (JsonParser.StoreMember o key value).PlainKeys := by
  unfold JsonParser.StoreMember
  cases hi : AsArrayIndex key with
  | some index =>
    cases o with
    | mk e p q => exact h
  | none =>
    simp only
    split_ifs with hp
    · intro k hk
      rw [JsonObject.properties_SetPrototype] at hk
      exact h k hk
    · cases o with
      | mk e p q =>
        intro k hk
        simp only [JsonObject.SetLocalPropertyIgnoreAttributes, JsonObject.properties] at hk
        rcases JsonProperties.mem_keys_set key value k p hk with h1 | h1
        · exact h k h1
        · subst h1
          exact ⟨hp, hi⟩

theorem JsonParser.ParseJsonObject_loop_plainKeys (fuel : Nat) :
    ∀ (obj : JsonObject) (p p2 : JsonParser) (v : JsonValue), obj.PlainKeys →
      (JsonParser.productions fuel).ParseJsonObject_loop obj p = (some v, p2) →
      ∃ o, v = JsonValue.object o ∧ o.PlainKeys := by
  induction fuel with
  | zero =>
    intro obj p p2 v _ h
    simp [JsonParser.productions] at h
  | succ n ih =>
    intro obj p p2 v hinv h
    simp only [JsonParser.productions, JsonParser.ParseJsonObject_loop] at h
    split_ifs at h with h1 h2
    · cases h
    · cases h
    · revert h
      cases hv : (JsonParser.productions n).ParseJsonValue (p.Next.2.Next).2 with
      | mk r p3 =>
        cases r with
        | none => intro h; cases h
        | some value =>
          simp only
          intro h
          split_ifs at h with h3 h4
          · exact ih _ _ _ _ (JsonParser.StoreMember_plainKeys _ _ _ hinv) h
          · cases h
          · simp only [Prod.mk.injEq, Option.some.injEq] at h
            exact ⟨_, h.1.symm, JsonParser.StoreMember_plainKeys _ _ _ hinv⟩

theorem JsonParser.StoreMember_eq_withMember (o : JsonObject) (key : String)
    (value : JsonValue) : JsonParser.StoreMember o key value = o.withMember key value := by
  unfold JsonParser.StoreMember JsonObject.withMember
  cases AsArrayIndex key <;> rfl

theorem JsonObject.withMembers_cons (o : JsonObject) (m : String × JsonValue)
    (ms : List (String × JsonValue)) :
    o.withMembers (m :: ms) = (o.withMember m.1 m.2).withMembers ms := rfl

theorem JsonElements.get_after_set (i j : Nat) (v : JsonValue) :
    ∀ e : JsonElements, (e.set i v).get j = if i = j then some v else e.get j
  | JsonElements.nil => by
    simp only [JsonElements.set, JsonElements.get]
  | JsonElements.cons k w tail => by
    simp only [JsonElements.set]
    by_cases hk : k = i
    · subst hk
      simp only [if_true, JsonElements.get]
      split_ifs <;> rfl
    · simp only [if_neg hk, JsonElements.get, JsonElements.get_after_set i j v tail]
      by_cases hkj : k = j
      · subst hkj
        simp [hk, Ne.symm hk]
      · simp [hkj]

theorem JsonProperties.get_after_put (i j : String) (v : JsonValue) :
    ∀ e : JsonProperties, (e.set i v).get j = if i = j then some v else e.get j
  | JsonProperties.nil => by
    simp only [JsonProperties.set, JsonProperties.get]
  | JsonProperties.cons k w tail => by
    simp only [JsonProperties.set]
    by_cases hk : k = i
    · subst hk
      simp only [if_true, JsonProperties.get]
      split_ifs <;> rfl
    · simp only [if_neg hk, JsonProperties.get, JsonProperties.get_after_put i j v tail]
      by_cases hkj : k = j
      · subst hkj
        simp [hk, Ne.symm hk]
      · simp [hkj]

theorem JsonObject.withMember_elements (o : JsonObject) (key : String) (value : JsonValue)
    (i : Nat) :
    (o.withMember key value).elements.get i
      = if AsArrayIndex key = some i then some value else o.elements.get i := by
  unfold JsonObject.withMember
  cases o with
  | mk e p q =>
    cases hi : AsArrayIndex key with
    | some j =>
      simp only [Option.isSome_some, if_true, Option.getD_some, JsonObject.SetOwnElement,
        JsonObject.elements, JsonElements.get_after_set, Option.some.injEq]
    | none =>
      simp only [Option.isSome_none, Bool.false_eq_true, if_false]
      by_cases hp : key = "__proto__"
      · rw [if_pos hp, if_neg (by simp)]
        cases value <;> rfl
      · rw [if_neg hp, if_neg (by simp)]
        rfl

theorem JsonObject.withMember_properties (o : JsonObject) (key : String) (value : JsonValue)
    (name : String) :
    (o.withMember key value).properties.get name
      = if key = name ∧ AsArrayIndex key = none ∧ key ≠ "__proto__" then some value
        else o.properties.get name := by
  unfold JsonObject.withMember
  cases o with
  | mk e p q =>
    cases hi : AsArrayIndex key with
    | some j =>
      simp [JsonObject.SetOwnElement, JsonObject.properties]
    | none =>
      simp only [Option.isSome_none, Bool.false_eq_true, if_false]
      by_cases hp : key = "__proto__"
      · simp only [hp, if_true, JsonObject.properties_SetPrototype]
        simp
      · simp only [if_neg hp, JsonObject.SetLocalPropertyIgnoreAttributes,
          JsonObject.properties, JsonProperties.get_after_put]
        simp [hp]

theorem JsonObject.withMember_prototype (o : JsonObject) (key : String) (value : JsonValue) :
    (o.withMember key value).prototype
      = if key = "__proto__" ∧ value.canBePrototype = true then JsonPrototype.value value
        else o.prototype := by
  unfold JsonObject.withMember
  cases o with
  | mk e p q =>
    cases hi : AsArrayIndex key with
    | some j =>
      have hk : key ≠ "__proto__" := by
        intro hk
        rw [hk, AsArrayIndex_proto] at hi
        cases hi
      simp [JsonObject.SetOwnElement, JsonObject.prototype, hk]
    | none =>
      simp only [Option.isSome_none, Bool.false_eq_true, if_false]
      by_cases hp : key = "__proto__"
      · simp only [hp, if_true, true_and]
        cases value <;> rfl
      · rw [if_neg hp, if_neg (by simp [hp])]
        rfl

theorem JsonObject.withMembers_elements (ms : List (String × JsonValue)) :
    ∀ (o : JsonObject) (i : Nat),
      (o.withMembers ms).elements.get i
        = match lastMember (fun k _ => decide (AsArrayIndex k = some i)) ms with
          | some v => some v
          | none => o.elements.get i := by
  induction ms with
  | nil => intro o i; rfl
  | cons m rest ih =>
    intro o i
    rw [JsonObject.withMembers_cons, ih, JsonObject.withMember_elements]
    simp only [lastMember]
    cases lastMember (fun k _ => decide (AsArrayIndex k = some i)) rest with
    | some v => rfl
    | none =>
      simp only
      by_cases h : AsArrayIndex m.1 = some i
      · simp [h]
      · simp [h]

theorem JsonObject.withMembers_properties (ms : List (String × JsonValue)) :
    ∀ (o : JsonObject) (name : String),
      (o.withMembers ms).properties.get name
        = match lastMember (fun k _ => decide (k = name ∧ AsArrayIndex k = none
              ∧ k ≠ "__proto__")) ms with
          | some v => some v
          | none => o.properties.get name := by
  induction ms with
  | nil => intro o i; rfl
  | cons m rest ih =>
    intro o name
    rw [JsonObject.withMembers_cons, ih, JsonObject.withMember_properties]
    simp only [lastMember]
    cases lastMember (fun k _ => decide (k = name ∧ AsArrayIndex k = none
        ∧ k ≠ "__proto__")) rest with
    | some v => rfl
    | none =>
      simp only
      by_cases h : m.1 = name ∧ AsArrayIndex m.1 = none ∧ m.1 ≠ "__proto__"
      · rw [if_pos h, if_pos (by simpa using h)]
      · rw [if_neg h, if_neg (by simpa using h)]

theorem JsonObject.withMembers_prototype (ms : List (String × JsonValue)) :
    ∀ (o : JsonObject),
      (o.withMembers ms).prototype
        = match lastMember (fun k v => decide (k = "__proto__") && v.canBePrototype) ms with
          | some v => JsonPrototype.value v
          | none => o.prototype := by
  induction ms with
  | nil => intro o; rfl
  | cons m rest ih =>
    intro o
    rw [JsonObject.withMembers_cons, ih, JsonObject.withMember_prototype]
    simp only [lastMember]
    cases lastMember (fun k v => decide (k = "__proto__") && v.canBePrototype) rest with
    | some v => rfl
    | none =>
      simp only
      by_cases h : m.1 = "__proto__" ∧ m.2.canBePrototype = true
      · simp [h]
      · simp only [if_neg h]
        have : (decide (m.1 = "__proto__") && m.2.canBePrototype) = false := by
          simpa using h
        simp [this]

theorem JsonParser.ParseJsonObject_loop_reads (fuel : Nat) :
    ∀ (obj : JsonObject) (p q : JsonParser) (v : JsonValue),
      JsonParser.ParseJsonObject_loop (JsonParser.productions fuel) obj p = (some v, q) →
      ∃ members, JsonParser.ReadsMembers fuel p members q ∧ members ≠ []
        ∧ v = JsonValue.object (obj.withMembers members) := by
  induction fuel with
  | zero =>
    intro obj p q v h
    simp only [JsonParser.productions, JsonParser.ParseJsonObject_loop] at h
    split_ifs at h <;> cases h
  | succ n ih =>
    intro obj p q v h
    simp only [JsonParser.ParseJsonObject_loop] at h
    split_ifs at h with h1 h2
    · cases h
    · cases h
    · revert h
      cases hv : (JsonParser.productions (n + 1)).ParseJsonValue (p.Next.2.Next).2 with
      | mk r p3 =>
        cases r with
        | none => intro h; cases h
        | some value =>
          simp only
          intro h
          split_ifs at h with h3 h4
          · obtain ⟨rest, hr, -, hv2⟩ := ih _ _ _ _ h
            refine ⟨_, JsonParser.ReadsMembers.more n p p3 q value rest (not_not.1 h1)
              (not_not.1 h2) hv h3 hr, List.cons_ne_nil _ _, ?_⟩
            rw [hv2, JsonObject.withMembers_cons, JsonParser.StoreMember_eq_withMember]
          · cases h
          · simp only [Prod.mk.injEq, Option.some.injEq] at h
            obtain ⟨h5, h6⟩ := h
            subst h6
            refine ⟨_, JsonParser.ReadsMembers.last (n + 1) p p3 value (not_not.1 h1)
              (not_not.1 h2) hv h3 (not_not.1 h4), List.cons_ne_nil _ _, ?_⟩
            rw [← h5, JsonParser.StoreMember_eq_withMember]
            rfl

theorem JsonParser.ReadsMembers.stores {fuel : Nat} {p q : JsonParser}
    {members : List (String × JsonValue)} (h : JsonParser.ReadsMembers fuel p members q) :
    ∀ obj : JsonObject,
      JsonParser.ParseJsonObject_loop (JsonParser.productions fuel) obj p
        = (some (JsonValue.object (obj.withMembers members)), q) := by
  induction h with
  | last fuel p p3 value h1 h2 hv h3 h4 =>
    intro obj
    simp only [JsonParser.ParseJsonObject_loop, h1, h2, hv, h3, h4, ne_eq, not_true_eq_false,
      if_false, JsonParser.StoreMember_eq_withMember]
    rfl
  | more fuel p p3 q value rest h1 h2 hv h3 _ ih =>
    intro obj
    have hnext := ih (obj.withMember (JsonParser.GetString (JsonParser.Next p).2) value)
    simp only [JsonParser.ParseJsonObject_loop, h1, h2, hv, h3, ne_eq, not_true_eq_false,
      if_false, if_true, JsonParser.StoreMember_eq_withMember]
    exact hnext

theorem JsonObject.plainKeys_withMembers (members : List (String × JsonValue)) :
    (JsonObject.empty.withMembers members).HasOwnProperty "__proto__" = false
      ∧ ∀ k ∈ (JsonObject.empty.withMembers members).properties.keys, AsArrayIndex k = none := by
  have key : ∀ (ms : List (String × JsonValue)) (o : JsonObject), o.PlainKeys →
      (o.withMembers ms).PlainKeys := by
    intro ms
    induction ms with
    | nil => intro o h; exact h
    | cons m rest ih =>
      intro o h
      rw [JsonObject.withMembers_cons, ← JsonParser.StoreMember_eq_withMember]
      exact ih _ (JsonParser.StoreMember_plainKeys _ _ _ h)
  have hinv := key members JsonObject.empty (by
    intro k hk
    simp [JsonObject.empty, JsonObject.properties, JsonProperties.keys] at hk)
  refine ⟨?_, fun k hk => (hinv k hk).2⟩
  simp only [JsonObject.HasOwnProperty, decide_eq_false_iff_not]
  intro hmem
  exact (hinv _ hmem).1 rfl

/-- C7: whenever `ParseJsonObject` returns, it returns an object that is
made from the empty object by storing the members read from the text in turn
(`ReadsMembers`: the key of each member is the string before the colon, its
value the result of `ParseJsonValue`), each by the rule: a key that is an
array index gives an own element (`SetOwnElement`), the key `__proto__` is
applied with `SetPrototype`, every other key gives an own property.  So the
own element at an index is the value of the last member whose key is that
index, the own property of a name is the value of the last member with that
key when the key is neither an array index nor `__proto__` and there is none
otherwise (no own property is called `__proto__`), and the prototype is the
value of the last member `__proto__` that can be a prototype, the initial one
when there is none.  Conversely the loop returns this object for the members
it reads.  The text `\x7b"a":1,"__proto__":\x7b"b":2\x7d\x7d` gives an
object with own property `a = 1` and prototype `\x7bb:2\x7d`, and
`\x7b"7":1,"a":2,"__proto__":null,"a":3\x7d` one with own element 7, own
property `a = 3` and prototype null. -/
theorem ParseJsonObject_proto_not_own (fuel : Nat) (p p2 : JsonParser) (v : JsonValue)
    (h : JsonParser.ParseJsonObject (JsonParser.productions fuel) p = (some v, p2)) :
    (∃ (members : List (String × JsonValue)) (o : JsonObject),
        ((members = [] ∧ p.scanner_.peek = Token.RBRACE)
          ∨ JsonParser.ReadsMembers fuel p members p2)
        ∧ v = JsonValue.object o ∧ o = JsonObject.empty.withMembers members
        ∧ o.HasOwnProperty "__proto__" = false
        ∧ (∀ k ∈ o.properties.keys, AsArrayIndex k = none)
        ∧ (∀ i : Nat, o.elements.get i
            = lastMember (fun k _ => decide (AsArrayIndex k = some i)) members)
        ∧ (∀ name : String, o.properties.get name
            = lastMember (fun k _ => decide (k = name ∧ AsArrayIndex k = none
                ∧ k ≠ "__proto__")) members)
        ∧ o.prototype
            = match lastMember (fun k value => decide (k = "__proto__")
                && value.canBePrototype) members with
              | some value => JsonPrototype.value value
              | none => JsonPrototype.initial)
    ∧ (∀ (members : List (String × JsonValue)) (q : JsonParser) (obj : JsonObject),
        JsonParser.ReadsMembers fuel p members q →
          JsonParser.ParseJsonObject_loop (JsonParser.productions fuel) obj p
            = (some (JsonValue.object (obj.withMembers members)), q))
    ∧ (∀ (obj : JsonObject) (key : String) (value : JsonValue),
        (∀ i, AsArrayIndex key = some i →
          obj.withMember key value = obj.SetOwnElement i value)
        ∧ (key = "__proto__" → obj.withMember key value = obj.SetPrototype value)
        ∧ (AsArrayIndex key = none → key ≠ "__proto__" →
          obj.withMember key value = obj.SetLocalPropertyIgnoreAttributes key value))
    ∧ (JsonParser.ParseJson 10 false jsonProtoExample).1 = some jsonProtoExpected
    ∧ (JsonParser.ParseJson 10 false jsonIndexExample).1 = some jsonIndexExpected := by
  refine ⟨?_, fun members q obj hr => hr.stores obj, ?_, rfl, rfl⟩
  · have key : ∃ members : List (String × JsonValue),
        ((members = [] ∧ p.scanner_.peek = Token.RBRACE)
          ∨ JsonParser.ReadsMembers fuel p members p2)
        ∧ v = JsonValue.object (JsonObject.empty.withMembers members) := by
      unfold JsonParser.ParseJsonObject at h
      split_ifs at h with h1 h2
      · simp only [Prod.mk.injEq, Option.some.injEq] at h
        exact ⟨[], Or.inl ⟨rfl, h1⟩, h.1.symm⟩
      · cases h
      · obtain ⟨members, hr, -, hv⟩ := JsonParser.ParseJsonObject_loop_reads fuel _ _ _ _ h
        exact ⟨members, Or.inr hr, hv⟩
    obtain ⟨members, hread, hv⟩ := key
    have hplain := JsonObject.plainKeys_withMembers members
    refine ⟨members, _, hread, hv, rfl, hplain.1, hplain.2, ?_, ?_, ?_⟩
    · intro i
      rw [JsonObject.withMembers_elements]
      cases lastMember (fun k _ => decide (AsArrayIndex k = some i)) members <;> rfl
    · intro name
      rw [JsonObject.withMembers_properties]
      cases lastMember (fun k _ => decide (k = name ∧ AsArrayIndex k = none
        ∧ k ≠ "__proto__")) members <;> rfl
    · rw [JsonObject.withMembers_prototype]
      rfl
  · intro obj key value
    refine ⟨?_, ?_, ?_⟩
    · intro i hi
      simp only [JsonObject.withMember, hi, Option.isSome_some, if_true, Option.getD_some]
    · intro hk
      subst hk
      simp only [JsonObject.withMember, AsArrayIndex_proto, Option.isSome_none,
        Bool.false_eq_true, if_false, if_true]
    · intro hi hk
      simp only [JsonObject.withMember, hi, Option.isSome_none, Bool.false_eq_true, if_false,
        if_neg hk]

/-- C7, instance: the object parsed from the text
`\x7b"7":1,"a":2,"__proto__":null,"a":3\x7d` after its opening brace. -/
theorem ParseJsonObject_proto_not_own_witness :
    ∃ (members : List (String × JsonValue)) (o : JsonObject),
      ((members = []
          ∧ (JsonParser.Next { scanner_ := Scanner.Initialize jsonIndexExample }).2.scanner_.peek
            = Token.RBRACE)
        ∨ JsonParser.ReadsMembers 10
            (JsonParser.Next { scanner_ := Scanner.Initialize jsonIndexExample }).2 members
            (JsonParser.ParseJsonObject (JsonParser.productions 10)
              (JsonParser.Next { scanner_ := Scanner.Initialize jsonIndexExample }).2).2)
      ∧ jsonIndexExpected = JsonValue.object o ∧ o = JsonObject.empty.withMembers members
      ∧ o.HasOwnProperty "__proto__" = false
      ∧ (∀ k ∈ o.properties.keys, AsArrayIndex k = none)
      ∧ (∀ i : Nat, o.elements.get i
          = lastMember (fun k _ => decide (AsArrayIndex k = some i)) members)
      ∧ (∀ name : String, o.properties.get name
          = lastMember (fun k _ => decide (k = name ∧ AsArrayIndex k = none
              ∧ k ≠ "__proto__")) members)
      ∧ o.prototype
          = match lastMember (fun k value => decide (k = "__proto__")
              && value.canBePrototype) members with
            | some value => JsonPrototype.value value
            | none => JsonPrototype.initial :=
  (ParseJsonObject_proto_not_own 10
    (JsonParser.Next { scanner_ := Scanner.Initialize jsonIndexExample }).2
    (JsonParser.ParseJsonObject (JsonParser.productions 10)
      (JsonParser.Next { scanner_ := Scanner.Initialize jsonIndexExample }).2).2
    jsonIndexExpected rfl).1

/-! ## Theorems: expressions -/

@[simp] theorem Production.bind_eq {α β : Type} (m : Production α) (f : α → Production β) :
    (m >>= f) = Production.seq m f := rfl

@[simp] theorem Production.pure_eq {α : Type} (a : α) :
    (pure a : Production α) = Production.ret a := rfl

@[simp] theorem Production.seq_apply {α β : Type} (m : Production α) (f : α → Production β)
    (p : Parser) :
    Production.seq m f p =
      match m p with
      | (some a, p1) => f a p1
      | (none, p1) => (none, p1) := rfl

@[simp] theorem Production.read_apply {α : Type} (g : Parser → α) (p : Parser) :
    Production.read g p = (some (g p), p) := rfl

@[simp] theorem Production.step_apply {α : Type} (g : Parser → α × Parser) (p : Parser) :
    Production.step g p = (some (g p).1, (g p).2) := rfl

@[simp] theorem Production.modify_apply (g : Parser → Parser) (p : Parser) :
    Production.modify g p = (some (), g p) := rfl

@[simp] theorem Production.ret_apply {α : Type} (a : α) (p : Parser) :
    Production.ret a p = (some a, p) := rfl

@[simp] theorem Production.fail_apply {α : Type} (p : Parser) :
    (Production.fail : Production α) p = (none, p) := rfl

theorem Parser.peek_eq (p : Parser) (h : p.stack_overflow_ = false) :
    p.peek = headToken p.scanner_.source := by
  unfold Parser.peek Scanner.peek Scanner.next_ headToken
  rw [h]
  cases p.scanner_.source <;> rfl

theorem Parser.Next_fst (p : Parser) (h : p.stack_overflow_ = false) :
    p.Next.1 = headToken p.scanner_.source := by
  unfold Parser.Next Scanner.Next Scanner.next_ headToken
  rw [h]
  cases p.scanner_.source <;> rfl

theorem Parser.Next_snd_source (p : Parser) (h : p.stack_overflow_ = false) :
    p.Next.2.scanner_.source = p.scanner_.source.tail := by
  unfold Parser.Next Scanner.Next
  rw [h]
  rfl

theorem Parser.Next_snd_stack_overflow (p : Parser) :
    p.Next.2.stack_overflow_ = p.stack_overflow_ := by
  unfold Parser.Next
  split_ifs <;> rfl

theorem ParsePrimaryExpression_number (self : Productions) (p : Parser)
    (hpk : p.peek = Token.NUMBER) :
    ParsePrimaryExpression self p
      = (some (Expression.Literal (Value.number p.Next.2.scanner_.current_.number)),
         p.Next.2) := by
  simp [ParsePrimaryExpression, peek, hpk, Consume, Next, Parser.NewNumberLiteral]

theorem ParseMemberExpression_number (self : Productions) (p : Parser)
    (hpk : p.peek = Token.NUMBER)
    (h1 : p.Next.2.peek ≠ Token.LBRACK) (h2 : p.Next.2.peek ≠ Token.PERIOD) :
    ParseMemberExpression self p
      = (some (Expression.Literal (Value.number p.Next.2.scanner_.current_.number)),
         p.Next.2) := by
  have hprim := ParsePrimaryExpression_number self p hpk
  simp only [ParseMemberExpression, ParseMemberWithNewPrefixesExpression,
    ParseMemberWithNewPrefixesExpression_loop, peek, Production.bind_eq, Production.pure_eq,
    Production.seq_apply, Production.read_apply, hpk, hprim]
  simp only [reduceCtorEq, if_false, hprim]
  cases hk : p.Next.2.peek <;> simp_all

theorem ParseUnaryExpression_number (self : Productions) (p : Parser) (d : TokenDesc)
    (rest : List TokenDesc) (hso : p.stack_overflow_ = false)
    (hsrc : p.scanner_.source = d :: rest) (hd : d.token = Token.NUMBER)
    (hnext : NotPostfix rest) :
    ParseUnaryExpression self p
      = (some (Expression.Literal (Value.number d.number)), p.Next.2) := by
  obtain ⟨h1, h2, h3, h4⟩ := hnext
  have hpk : p.peek = Token.NUMBER := by rw [Parser.peek_eq p hso, hsrc]; exact hd
  have hso2 : p.Next.2.stack_overflow_ = false := by rw [Parser.Next_snd_stack_overflow, hso]
  have hsrc2 : p.Next.2.scanner_.source = rest := by rw [Parser.Next_snd_source p hso, hsrc]; rfl
  have hpk2 : p.Next.2.peek = headToken rest := by rw [Parser.peek_eq _ hso2, hsrc2]
  have hnum : p.Next.2.scanner_.current_.number = d.number := by
    unfold Parser.Next Scanner.Next Scanner.next_
    rw [hso, hsrc]
    rfl
  have hnl : p.Next.2.scanner_.has_line_terminator_before_next = headNewline rest := by
    unfold Scanner.has_line_terminator_before_next Scanner.next_
    rw [hsrc2]
    cases rest <;> rfl
  have hmem := ParseMemberExpression_number self p hpk (by rw [hpk2]; exact h1)
    (by rw [hpk2]; exact h3)
  rw [hnum] at hmem
  have hlhs : ParseLeftHandSideExpression self p
      = (some (Expression.Literal (Value.number d.number)), p.Next.2) := by
    simp only [ParseLeftHandSideExpression, ParseLeftHandSideExpression_loop, peek,
      Production.bind_eq, Production.pure_eq, Production.seq_apply, Production.read_apply,
      hpk, reduceCtorEq, if_false, hmem, hpk2]
    revert h1 h2 h3
    cases headToken rest <;> simp
  have hpost : ParsePostfixExpression self p
      = (some (Expression.Literal (Value.number d.number)), p.Next.2) := by
    simp only [ParsePostfixExpression, peek, Production.bind_eq, Production.pure_eq,
      Production.seq_apply, Production.read_apply, hlhs, hnl, hpk2]
    rcases h4 with h4 | h4
    · simp [h4]
    · simp [h4]
  simp only [ParseUnaryExpression, peek, Production.bind_eq, Production.seq_apply,
    Production.read_apply, hpk, Token.IsUnaryOp, Token.IsCountOp]
  simpa using hpost

theorem Precedence_le (t : Token) (accept_IN : Bool) : Precedence t accept_IN ≤ 13 := by
  unfold Precedence
  split_ifs
  · decide
  · cases t <;> decide

theorem Parser.Next_snd_current (p : Parser) (d : TokenDesc) (rest : List TokenDesc)
    (hso : p.stack_overflow_ = false) (hsrc : p.scanner_.source = d :: rest) :
    p.Next.2.scanner_.current_ = d := by
  unfold Parser.Next Scanner.Next Scanner.next_
  rw [hso, hsrc]
  rfl

theorem NotPostfix_of_token (d : TokenDesc) (l : List TokenDesc)
    (h : d.token = Token.MUL ∨ d.token = Token.ADD ∨ d.token = Token.SUB) :
    NotPostfix (d :: l) := by
  unfold NotPostfix headToken headNewline
  rcases h with h | h | h <;> simp [h, Token.IsCountOp]

theorem ParseBinaryExpression_operand (n : Nat) (prec : Int) (accept_IN : Bool) (p : Parser)
    (d : TokenDesc) (rest : List TokenDesc) (hprec : 14 ≤ prec)
    (hso : p.stack_overflow_ = false)
    (hsrc : p.scanner_.source = d :: rest) (hd : d.token = Token.NUMBER)
    (hnext : NotPostfix rest) :
    ParseBinaryExpression (productions n) prec accept_IN p
      = (some (Expression.Literal (Value.number d.number)), p.Next.2) := by
  have hu := ParseUnaryExpression_number (productions n) p d rest hso hsrc hd hnext
  have hle := Precedence_le p.Next.2.peek accept_IN
  simp only [ParseBinaryExpression, peek, Production.bind_eq, Production.seq_apply,
    Production.read_apply, hu, ParseBinaryExpression_for]
  rw [if_neg (by omega)]
  rfl

theorem Parser.skip_succ (p : Parser) (k : Nat) : p.skip (k + 1) = p.Next.2.skip k := rfl

theorem Parser.skip_add (k j : Nat) : ∀ p : Parser, p.skip (k + j) = (p.skip k).skip j := by
  induction k with
  | zero => intro p; simp [Parser.skip]
  | succ k ih =>
    intro p
    rw [Nat.add_right_comm, Parser.skip_succ, ih]
    rfl

theorem ParseBinaryExpression_while_eq (self : Productions) (prec1 : Int) (accept_IN : Bool)
    (x : Expression) (p : Parser) :
    ParseBinaryExpression_while self prec1 accept_IN x p =
      if Precedence p.peek accept_IN = prec1 then
        Production.seq (self.ParseBinaryExpression (prec1 + 1) accept_IN)
          (fun y => self.ParseBinaryExpression_while prec1 accept_IN
            (BuildBinary p.Next.1 x y p.Next.2.scanner_.location.beg_pos)) p.Next.2
      else (some x, p) := by
  by_cases h : Precedence p.peek accept_IN = prec1
  · rw [if_pos h]
    simp only [ParseBinaryExpression_while, peek, Production.bind_eq]
    rw [Production.seq_apply, Production.read_apply]
    simp only [if_pos h]
    rfl
  · rw [if_neg h]
    simp only [ParseBinaryExpression_while, peek, Production.bind_eq]
    rw [Production.seq_apply, Production.read_apply]
    simp only [if_neg h]
    rfl

theorem ParseBinaryExpression_for_eq (self : Productions) (prec prec1 : Int) (accept_IN : Bool)
    (x : Expression) (p : Parser) :
    ParseBinaryExpression_for self prec prec1 accept_IN x p =
      if prec1 ≥ prec then
        Production.seq (ParseBinaryExpression_while self prec1 accept_IN x)
          (fun x2 => self.ParseBinaryExpression_for prec (prec1 - 1) accept_IN x2) p
      else (some x, p) := by
  unfold ParseBinaryExpression_for
  split_ifs <;> rfl

theorem ParseBinaryExpression_eq (self : Productions) (prec : Int) (accept_IN : Bool)
    (p : Parser) :
    ParseBinaryExpression self prec accept_IN p =
      Production.seq (ParseUnaryExpression self)
        (fun x => fun p2 =>
          ParseBinaryExpression_for self prec (Precedence p2.peek accept_IN) accept_IN x p2) p := by
  rfl

theorem ParseBinaryExpression_while_product (accept_IN : Bool) :
    ∀ (l : List (TokenDesc × TokenDesc)) (n : Nat) (acc : JSNumber) (p : Parser)
      (rest : List TokenDesc),
      (∀ x ∈ l, x.1.token = Token.MUL ∧ x.2.token = Token.NUMBER) →
      p.stack_overflow_ = false →
      p.scanner_.source = pairTokens l ++ rest →
      Precedence (headToken rest) accept_IN ≠ 13 →
      NotPostfix rest →
      l.length + 1 ≤ n →
      ParseBinaryExpression_while (productions n) 13 accept_IN
          (Expression.Literal (Value.number acc)) p
        = (some (Expression.Literal (Value.number (foldedProduct acc l))),
           p.skip (2 * l.length)) := by
  intro l
  induction l with
  | nil =>
    intro n acc p rest _ hso hsrc hend _ _
    have hpk : p.peek = headToken rest := by rw [Parser.peek_eq p hso, hsrc]; rfl
    rw [ParseBinaryExpression_while_eq, hpk, if_neg hend]
    rfl
  | cons x l ih =>
    intro n acc p rest hwf hso hsrc hend hpost hn
    obtain ⟨hx1, hx2⟩ := hwf x (List.mem_cons_self _ _)
    have hwf2 : ∀ y ∈ l, y.1.token = Token.MUL ∧ y.2.token = Token.NUMBER :=
      fun y hy => hwf y (List.mem_cons_of_mem _ hy)
    have hsrc1 : p.scanner_.source = x.1 :: (x.2 :: (pairTokens l ++ rest)) := by
      rw [hsrc]; rfl
    have hpk : p.peek = Token.MUL := by rw [Parser.peek_eq p hso, hsrc1]; exact hx1
    have hnx : p.Next.1 = Token.MUL := by rw [Parser.Next_fst p hso, hsrc1]; exact hx1
    have hso2 : p.Next.2.stack_overflow_ = false := by
      rw [Parser.Next_snd_stack_overflow, hso]
    have hsrc2 : p.Next.2.scanner_.source = x.2 :: (pairTokens l ++ rest) := by
      rw [Parser.Next_snd_source p hso, hsrc1]; rfl
    have hpost2 : NotPostfix (pairTokens l ++ rest) := by
      cases l with
      | nil => exact hpost
      | cons y l2 =>
        exact NotPostfix_of_token _ _ (Or.inl (hwf2 y (List.mem_cons_self _ _)).1)
    obtain ⟨m, rfl⟩ : ∃ m, n = m + 1 := ⟨n - 1, by omega⟩
    have hop := ParseBinaryExpression_operand m (13 + 1) accept_IN p.Next.2 x.2
      (pairTokens l ++ rest) (by norm_num) hso2 hsrc2 hx2 hpost2
    have hso3 : p.Next.2.Next.2.stack_overflow_ = false := by
      rw [Parser.Next_snd_stack_overflow, hso2]
    have hsrc3 : p.Next.2.Next.2.scanner_.source = pairTokens l ++ rest := by
      rw [Parser.Next_snd_source _ hso2, hsrc2]; rfl
    have hih := ih m (acc.mul x.2.number) p.Next.2.Next.2 rest hwf2 hso3 hsrc3 hend hpost
      (by simp at hn; omega)
    have hprec : Precedence Token.MUL accept_IN = 13 := by
      unfold Precedence; simp; rfl
    have htab : (productions (m + 1)).ParseBinaryExpression
        = ParseBinaryExpression (productions m) := rfl
    have htab2 : (productions (m + 1)).ParseBinaryExpression_while
        = ParseBinaryExpression_while (productions m) := rfl
    rw [ParseBinaryExpression_while_eq, hpk, hprec, if_pos rfl, htab, Production.seq_apply, hop,
      hnx]
    simp only [htab2]
    have hb : BuildBinary Token.MUL (Expression.Literal (Value.number acc))
        (Expression.Literal (Value.number x.2.number)) p.Next.2.scanner_.location.beg_pos
        = Expression.Literal (Value.number (acc.mul x.2.number)) := rfl
    rw [hb, hih]
    have e1 : 2 * (x :: l).length = 2 * l.length + 1 + 1 := by simp; ring
    rw [e1, Parser.skip_succ, Parser.skip_succ]
    rfl

theorem pairTokens_length (l : List (TokenDesc × TokenDesc)) :
    (pairTokens l).length = 2 * l.length := by
  induction l with
  | nil => rfl
  | cons x l ih => simp only [pairTokens, List.length_cons, ih]; ring

theorem Parser.skip_spec (k : Nat) :
    ∀ p : Parser, p.stack_overflow_ = false →
      (p.skip k).stack_overflow_ = false
        ∧ (p.skip k).scanner_.source = p.scanner_.source.drop k := by
  induction k with
  | zero => intro p h; exact ⟨h, rfl⟩
  | succ k ih =>
    intro p h
    have h2 : p.Next.2.stack_overflow_ = false := by rw [Parser.Next_snd_stack_overflow, h]
    obtain ⟨a, b⟩ := ih p.Next.2 h2
    refine ⟨a, ?_⟩
    rw [Parser.skip_succ, b, Parser.Next_snd_source p h]
    cases p.scanner_.source <;> simp

theorem Parser.skip_source (p : Parser) (l rest : List TokenDesc)
    (hso : p.stack_overflow_ = false) (hsrc : p.scanner_.source = l ++ rest) :
    (p.skip l.length).stack_overflow_ = false ∧ (p.skip l.length).scanner_.source = rest := by
  obtain ⟨a, b⟩ := Parser.skip_spec l.length p hso
  refine ⟨a, ?_⟩
  rw [b, hsrc, List.drop_left]

theorem Precedence_MUL (accept_IN : Bool) : Precedence Token.MUL accept_IN = 13 := by
  unfold Precedence; simp; rfl

theorem Precedence_additive (t : Token) (accept_IN : Bool)
    (h : t = Token.ADD ∨ t = Token.SUB) : Precedence t accept_IN = 12 := by
  rcases h with h | h <;> subst h <;> unfold Precedence <;> simp <;> rfl

theorem Precedence_nonneg (t : Token) (accept_IN : Bool) : 0 ≤ Precedence t accept_IN := by
  unfold Precedence
  split_ifs
  · decide
  · cases t <;> decide

/-- The outer loop of `ParseBinaryExpression` does nothing once the next token
binds weaker than `prec`. -/
theorem ParseBinaryExpression_for_tail (accept_IN : Bool) (prec : Int) (x : Expression)
    (p : Parser) (hpk : Precedence p.peek accept_IN < prec) :
    ∀ (k n : Nat) (prec1 : Int), prec1 < prec + k → k ≤ n →
      ParseBinaryExpression_for (productions n) prec prec1 accept_IN x p = (some x, p) := by
  intro k
  induction k with
  | zero =>
    intro n prec1 h _
    rw [ParseBinaryExpression_for_eq, if_neg (by simp at h; omega)]
  | succ k ih =>
    intro n prec1 h hn
    obtain ⟨m, rfl⟩ : ∃ m, n = m + 1 := ⟨n - 1, by omega⟩
    rw [ParseBinaryExpression_for_eq]
    by_cases hp : prec1 ≥ prec
    · rw [if_pos hp, Production.seq_apply, ParseBinaryExpression_while_eq,
        if_neg (by omega)]
      exact ih m (prec1 - 1) (by push_cast at h; omega) (by omega)
    · rw [if_neg hp]

theorem LiteralProduct.tokens_length (t : LiteralProduct) :
    t.tokens.length = 2 * t.factors.length + 1 := by
  simp only [LiteralProduct.tokens, List.length_cons, pairTokens_length]

theorem LiteralProduct.factors_tokens (t : LiteralProduct) (h : t.WellFormed) :
    ∀ x ∈ t.factors, x.1.token = Token.MUL ∧ x.2.token = Token.NUMBER :=
  fun x hx => ⟨(h.2 x hx).1, (h.2 x hx).2.1⟩

theorem NotPostfix_pairTokens (l : List (TokenDesc × TokenDesc)) (rest : List TokenDesc)
    (hwf : ∀ x ∈ l, x.1.token = Token.MUL ∧ x.2.token = Token.NUMBER)
    (hpost : NotPostfix rest) : NotPostfix (pairTokens l ++ rest) := by
  cases l with
  | nil => exact hpost
  | cons y l2 => exact NotPostfix_of_token _ _ (Or.inl (hwf y (List.mem_cons_self _ _)).1)

/-- At precedence 13 the parser folds a product of number literals into one
literal. -/
theorem ParseBinaryExpression_product (accept_IN : Bool) (t : LiteralProduct) (n : Nat)
    (p : Parser) (rest : List TokenDesc)
    (hwf : t.WellFormed) (hso : p.stack_overflow_ = false)
    (hsrc : p.scanner_.source = t.tokens ++ rest)
    (hend : Precedence (headToken rest) accept_IN ≠ 13) (hpost : NotPostfix rest)
    (hn : t.factors.length + 2 ≤ n) :
    ParseBinaryExpression (productions n) 13 accept_IN p
      = (some (Expression.Literal (Value.number (foldedProduct t.first.number t.factors))),
         p.skip t.tokens.length) := by
  have hft := t.factors_tokens hwf
  have hsrc1 : p.scanner_.source = t.first :: (pairTokens t.factors ++ rest) := by
    rw [hsrc]; rfl
  have hu := ParseUnaryExpression_number (productions n) p t.first _ hso hsrc1 hwf.1.1
    (NotPostfix_pairTokens _ _ hft hpost)
  have hso2 : p.Next.2.stack_overflow_ = false := by
    rw [Parser.Next_snd_stack_overflow, hso]
  have hsrc2 : p.Next.2.scanner_.source = pairTokens t.factors ++ rest := by
    rw [Parser.Next_snd_source p hso, hsrc1]; rfl
  obtain ⟨m, rfl⟩ : ∃ m, n = m + 1 := ⟨n - 1, by omega⟩
  rw [ParseBinaryExpression_eq, Production.seq_apply, hu]
  simp only []
  rw [ParseBinaryExpression_for_eq, t.tokens_length, Parser.skip_succ]
  cases hf : t.factors with
  | nil =>
    rw [hf] at hsrc2
    have hpk : p.Next.2.peek = headToken rest := by
      rw [Parser.peek_eq _ hso2, hsrc2]; rfl
    have hle := Precedence_le (headToken rest) accept_IN
    rw [hpk, if_neg (by omega)]
    rfl
  | cons x l =>
    rw [hf] at hsrc2 hft hn
    have hpk : p.Next.2.peek = Token.MUL := by
      rw [Parser.peek_eq _ hso2, hsrc2]; exact (hft x (List.mem_cons_self _ _)).1
    rw [hpk, Precedence_MUL, if_pos (le_refl _), Production.seq_apply,
      ParseBinaryExpression_while_product accept_IN (x :: l) (m + 1) t.first.number p.Next.2
        rest hft hso2 hsrc2 hend hpost (by omega)]
    simp only []
    have htab : (productions (m + 1)).ParseBinaryExpression_for
        = ParseBinaryExpression_for (productions m) := rfl
    rw [htab, ParseBinaryExpression_for_eq, if_neg (by norm_num)]

theorem termTokens_length_cons (x : TokenDesc × LiteralProduct)
    (l : List (TokenDesc × LiteralProduct)) :
    (termTokens (x :: l)).length = 2 * x.2.factors.length + 2 + (termTokens l).length := by
  simp only [termTokens, List.length_cons, List.length_append, x.2.tokens_length]
  ring

theorem headToken_termTokens (l : List (TokenDesc × LiteralProduct)) (rest : List TokenDesc)
    (accept_IN : Bool)
    (hwf : ∀ x ∈ l, (x.1.token = Token.ADD ∨ x.1.token = Token.SUB) ∧ x.2.WellFormed)
    (hend : Precedence (headToken rest) accept_IN ≠ 13) :
    Precedence (headToken (termTokens l ++ rest)) accept_IN ≠ 13 := by
  cases l with
  | nil => exact hend
  | cons y l2 =>
    have h := Precedence_additive y.1.token accept_IN (hwf y (List.mem_cons_self _ _)).1
    show Precedence y.1.token accept_IN ≠ 13
    rw [h]; norm_num

theorem NotPostfix_termTokens (l : List (TokenDesc × LiteralProduct)) (rest : List TokenDesc)
    (hwf : ∀ x ∈ l, (x.1.token = Token.ADD ∨ x.1.token = Token.SUB) ∧ x.2.WellFormed)
    (hpost : NotPostfix rest) : NotPostfix (termTokens l ++ rest) := by
  cases l with
  | nil => exact hpost
  | cons y l2 =>
    exact NotPostfix_of_token _ _ (Or.inr (hwf y (List.mem_cons_self _ _)).1)

theorem BuildBinary_additive (op : Token) (a b : JSNumber) (position : Int)
    (h : op = Token.ADD ∨ op = Token.SUB) :
    BuildBinary op (Expression.Literal (Value.number a)) (Expression.Literal (Value.number b))
        position
      = Expression.Literal (Value.number (if op = Token.ADD then a.add b else a.sub b)) := by
  rcases h with h | h <;> subst h <;> rfl

/-- At precedence 12 the inner loop folds a list of terms into the literal on
its left. -/
theorem ParseBinaryExpression_while_sum (accept_IN : Bool) :
    ∀ (l : List (TokenDesc × LiteralProduct)) (n : Nat) (acc : JSNumber) (p : Parser)
      (rest : List TokenDesc),
      (∀ x ∈ l, (x.1.token = Token.ADD ∨ x.1.token = Token.SUB) ∧ x.2.WellFormed) →
      p.stack_overflow_ = false →
      p.scanner_.source = termTokens l ++ rest →
      Precedence (headToken rest) accept_IN < 12 →
      NotPostfix rest →
      (termTokens l).length + 2 ≤ n →
      ParseBinaryExpression_while (productions n) 12 accept_IN
          (Expression.Literal (Value.number acc)) p
        = (some (Expression.Literal (Value.number (foldedSum acc l))),
           p.skip (termTokens l).length) := by
  intro l
  induction l with
  | nil =>
    intro n acc p rest _ hso hsrc hend _ _
    have hpk : p.peek = headToken rest := by rw [Parser.peek_eq p hso, hsrc]; rfl
    rw [ParseBinaryExpression_while_eq, hpk, if_neg (by omega)]
    rfl
  | cons x l ih =>
    intro n acc p rest hwf hso hsrc hend hpost hn
    obtain ⟨hx1, hx2⟩ := hwf x (List.mem_cons_self _ _)
    have hwf2 : ∀ y ∈ l, (y.1.token = Token.ADD ∨ y.1.token = Token.SUB) ∧ y.2.WellFormed :=
      fun y hy => hwf y (List.mem_cons_of_mem _ hy)
    have hsrc1 : p.scanner_.source = x.1 :: (x.2.tokens ++ (termTokens l ++ rest)) := by
      rw [hsrc]; simp [termTokens]
    have hpk : p.peek = x.1.token := by rw [Parser.peek_eq p hso, hsrc1]; rfl
    have hnx : p.Next.1 = x.1.token := by rw [Parser.Next_fst p hso, hsrc1]; rfl
    have hso2 : p.Next.2.stack_overflow_ = false := by
      rw [Parser.Next_snd_stack_overflow, hso]
    have hsrc2 : p.Next.2.scanner_.source = x.2.tokens ++ (termTokens l ++ rest) := by
      rw [Parser.Next_snd_source p hso, hsrc1]; rfl
    rw [termTokens_length_cons] at hn
    obtain ⟨m, rfl⟩ : ∃ m, n = m + 1 := ⟨n - 1, by omega⟩
    have hprod := ParseBinaryExpression_product accept_IN x.2 m p.Next.2 (termTokens l ++ rest)
      hx2 hso2 hsrc2 (headToken_termTokens l rest accept_IN hwf2 (by omega))
      (NotPostfix_termTokens l rest hwf2 hpost) (by omega)
    obtain ⟨hso3, hsrc3⟩ := Parser.skip_source p.Next.2 x.2.tokens _ hso2 hsrc2
    have hih := ih m (foldedTerm acc x) (p.Next.2.skip x.2.tokens.length) rest hwf2 hso3 hsrc3
      hend hpost (by omega)
    have htab : (productions (m + 1)).ParseBinaryExpression
        = ParseBinaryExpression (productions m) := rfl
    have htab2 : (productions (m + 1)).ParseBinaryExpression_while
        = ParseBinaryExpression_while (productions m) := rfl
    rw [ParseBinaryExpression_while_eq, hpk, Precedence_additive _ _ hx1, if_pos rfl, htab,
      Production.seq_apply]
    have h13 : (12 : Int) + 1 = 13 := by norm_num
    rw [h13, hprod]
    simp only [htab2]
    rw [hnx, BuildBinary_additive _ _ _ _ hx1]
    have hft : (if x.1.token = Token.ADD then
          acc.add (foldedProduct x.2.first.number x.2.factors)
        else acc.sub (foldedProduct x.2.first.number x.2.factors)) = foldedTerm acc x := by
      unfold foldedTerm; split_ifs <;> rfl
    rw [hft, hih]
    have e1 : (termTokens (x :: l)).length
        = 1 + (x.2.tokens.length + (termTokens l).length) := by
      simp only [termTokens, List.length_cons, List.length_append]; ring
    rw [e1, Parser.skip_add, Parser.skip_add]
    rfl

/-- From precedence 12 downwards the outer loop folds the terms and then
stops at the first token that binds weaker than `prec`. -/
theorem ParseBinaryExpression_for_sum (accept_IN : Bool) (prec : Int)
    (l : List (TokenDesc × LiteralProduct)) (n : Nat) (acc : JSNumber) (p : Parser)
    (rest : List TokenDesc) (hprec : prec ≤ 12)
    (hwf : ∀ x ∈ l, (x.1.token = Token.ADD ∨ x.1.token = Token.SUB) ∧ x.2.WellFormed)
    (hso : p.stack_overflow_ = false)
    (hsrc : p.scanner_.source = termTokens l ++ rest)
    (hend : Precedence (headToken rest) accept_IN < prec)
    (hpost : NotPostfix rest)
    (hn : (termTokens l).length + 14 ≤ n) :
    ParseBinaryExpression_for (productions n) prec 12 accept_IN
        (Expression.Literal (Value.number acc)) p
      = (some (Expression.Literal (Value.number (foldedSum acc l))),
         p.skip (termTokens l).length) := by
  obtain ⟨m, rfl⟩ : ∃ m, n = m + 1 := ⟨n - 1, by omega⟩
  obtain ⟨hso2, hsrc2⟩ := Parser.skip_source p (termTokens l) rest hso hsrc
  have hpk : (p.skip (termTokens l).length).peek = headToken rest := by
    rw [Parser.peek_eq _ hso2, hsrc2]
  have hnn := Precedence_nonneg (headToken rest) accept_IN
  have htab : (productions (m + 1)).ParseBinaryExpression_for
      = ParseBinaryExpression_for (productions m) := rfl
  rw [ParseBinaryExpression_for_eq, if_pos hprec, Production.seq_apply,
    ParseBinaryExpression_while_sum accept_IN l (m + 1) acc p rest hwf hso hsrc (by omega)
      hpost (by omega)]
  simp only [htab]
  exact ParseBinaryExpression_for_tail accept_IN prec _ _ (by rw [hpk]; exact hend) 12 m
    (12 - 1) (by push_cast; omega) (by omega)

/-- From precedence 13 downwards the outer loop folds the remaining factors of
the first product, then the terms, and then stops. -/
theorem ParseBinaryExpression_for_product_sum (accept_IN : Bool) (prec : Int)
    (f : List (TokenDesc × TokenDesc)) (l : List (TokenDesc × LiteralProduct)) (n : Nat)
    (acc : JSNumber) (p : Parser) (rest : List TokenDesc) (hprec : prec ≤ 12)
    (hf : ∀ x ∈ f, x.1.token = Token.MUL ∧ x.2.token = Token.NUMBER)
    (hwf : ∀ x ∈ l, (x.1.token = Token.ADD ∨ x.1.token = Token.SUB) ∧ x.2.WellFormed)
    (hso : p.stack_overflow_ = false)
    (hsrc : p.scanner_.source = pairTokens f ++ (termTokens l ++ rest))
    (hend : Precedence (headToken rest) accept_IN < prec)
    (hpost : NotPostfix rest)
    (hn : 2 * f.length + (termTokens l).length + 15 ≤ n) :
    ParseBinaryExpression_for (productions n) prec 13 accept_IN
        (Expression.Literal (Value.number acc)) p
      = (some (Expression.Literal (Value.number (foldedSum (foldedProduct acc f) l))),
         p.skip (2 * f.length + (termTokens l).length)) := by
  obtain ⟨m, rfl⟩ : ∃ m, n = m + 1 := ⟨n - 1, by omega⟩
  have hsk := Parser.skip_source p (pairTokens f) _ hso hsrc
  rw [pairTokens_length] at hsk
  obtain ⟨hso2, hsrc2⟩ := hsk
  have htab : (productions (m + 1)).ParseBinaryExpression_for
      = ParseBinaryExpression_for (productions m) := rfl
  have h12 : (13 : Int) - 1 = 12 := by norm_num
  rw [ParseBinaryExpression_for_eq, if_pos (by omega), Production.seq_apply,
    ParseBinaryExpression_while_product accept_IN f (m + 1) acc p (termTokens l ++ rest) hf hso
      hsrc (headToken_termTokens l rest accept_IN hwf (by omega))
      (NotPostfix_termTokens l rest hwf hpost) (by omega)]
  simp only [htab, h12]
  rw [ParseBinaryExpression_for_sum accept_IN prec l m (foldedProduct acc f) _ rest hprec hwf
    hso2 hsrc2 hend hpost (by omega), Parser.skip_add]

theorem foldedProduct_exact :
    ∀ (l : List (TokenDesc × TokenDesc)) (acc : Int),
      (∀ x ∈ l, x.2.number = JSNumber.exact x.2.intValue) →
      LiteralProduct.InRange acc l →
      foldedProduct (JSNumber.exact acc) l
        = JSNumber.exact (l.foldl (fun a x => a * x.2.intValue) acc) := by
  intro l
  induction l with
  | nil => intro acc _ _; rfl
  | cons x l ih =>
    intro acc hnum hr
    have hx := hnum x (List.mem_cons_self _ _)
    have hstep : (JSNumber.exact acc).mul x.2.number = JSNumber.exact (acc * x.2.intValue) := by
      rw [hx]
      show JSNumber.ofInt (acc * x.2.intValue) = _
      unfold JSNumber.ofInt
      rw [if_pos hr.1]
    show foldedProduct ((JSNumber.exact acc).mul x.2.number) l = _
    rw [hstep, ih (acc * x.2.intValue) (fun y hy => hnum y (List.mem_cons_of_mem _ hy)) hr.2]
    rfl

theorem LiteralProduct.foldedProduct_eq_value (t : LiteralProduct) (hwf : t.WellFormed)
    (hex : t.Exact) : foldedProduct t.first.number t.factors = JSNumber.exact t.value := by
  rw [hwf.1.2.1]
  exact foldedProduct_exact t.factors t.first.intValue (fun x hx => (hwf.2 x hx).2.2.1) hex

theorem foldedSum_exact :
    ∀ (l : List (TokenDesc × LiteralProduct)) (acc : Int),
      (∀ x ∈ l, x.2.WellFormed) →
      LiteralSum.InRange acc l →
      foldedSum (JSNumber.exact acc) l = JSNumber.exact (l.foldl LiteralSum.step acc) := by
  intro l
  induction l with
  | nil => intro acc _ _; rfl
  | cons x l ih =>
    intro acc hwf hr
    have hx := x.2.foldedProduct_eq_value (hwf x (List.mem_cons_self _ _)) hr.1
    have hstep : foldedTerm (JSNumber.exact acc) x = JSNumber.exact (LiteralSum.step acc x) := by
      unfold foldedTerm
      rw [hx]
      have h2 := hr.2.1
      unfold LiteralSum.step at h2 ⊢
      by_cases hop : x.1.token = Token.ADD
      · rw [if_pos hop] at h2 ⊢
        rw [if_pos hop]
        show JSNumber.ofInt (acc + x.2.value) = _
        unfold JSNumber.ofInt
        rw [if_pos h2]
      · rw [if_neg hop] at h2 ⊢
        rw [if_neg hop]
        show JSNumber.ofInt (acc - x.2.value) = _
        unfold JSNumber.ofInt
        rw [if_pos h2]
    show foldedSum (foldedTerm (JSNumber.exact acc) x) l = _
    rw [hstep, ih _ (fun y hy => hwf y (List.mem_cons_of_mem _ hy)) hr.2.2]
    rfl

theorem LiteralSum.foldedSum_eq_value (e : LiteralSum) (hwf : e.WellFormed) (hex : e.Exact) :
    foldedSum (foldedProduct e.first.first.number e.first.factors) e.terms
      = JSNumber.exact e.value := by
  rw [e.first.foldedProduct_eq_value hwf.1 hex.1]
  exact foldedSum_exact e.terms e.first.value (fun x hx => (hwf.2 x hx).2) hex.2

/-- C1: for every sum of products of integer number literals (operators `+`,
`-` and `*`, every intermediate result exactly representable) that is followed
by a token binding weaker than `prec`, `ParseBinaryExpression` returns, given
enough fuel, one number `Literal` whose value is the arithmetic value of the
chain under the usual precedence, with exactly the tokens of the chain
consumed; the result is a literal and not a `BinaryOperation` node. -/
theorem ParseBinaryExpression_folds_literals (e : LiteralSum) (prec : Int) (accept_IN : Bool)
    (fuel : Nat) (p : Parser) (rest : List TokenDesc)
    (hwf : e.WellFormed) (hex : e.Exact) (hprec : prec ≤ 12)
    (hso : p.stack_overflow_ = false)
    (hsrc : p.scanner_.source = e.tokens ++ rest)
    (hend : Precedence (headToken rest) accept_IN < prec)
    (hpost : NotPostfix rest)
    (hfuel : e.tokens.length + 16 ≤ fuel) :
    ParseBinaryExpression (productions fuel) prec accept_IN p
      = (some (Expression.Literal (Value.number (JSNumber.exact e.value))),
         p.skip e.tokens.length) := by
  have hft := e.first.factors_tokens hwf.1
  have hlen : e.tokens.length = 1 + (2 * e.first.factors.length + (termTokens e.terms).length) := by
    simp only [LiteralSum.tokens, List.length_append, e.first.tokens_length]; ring
  have hsrc1 : p.scanner_.source
      = e.first.first :: (pairTokens e.first.factors ++ (termTokens e.terms ++ rest)) := by
    rw [hsrc]; simp [LiteralSum.tokens, LiteralProduct.tokens]
  have hnn := Precedence_nonneg (headToken rest) accept_IN
  have hpost2 : NotPostfix (pairTokens e.first.factors ++ (termTokens e.terms ++ rest)) :=
    NotPostfix_pairTokens _ _ hft (NotPostfix_termTokens _ _ hwf.2 hpost)
  have hu := ParseUnaryExpression_number (productions fuel) p e.first.first _ hso hsrc1
    hwf.1.1.1 hpost2
  have hso2 : p.Next.2.stack_overflow_ = false := by
    rw [Parser.Next_snd_stack_overflow, hso]
  have hsrc2 : p.Next.2.scanner_.source
      = pairTokens e.first.factors ++ (termTokens e.terms ++ rest) := by
    rw [Parser.Next_snd_source p hso, hsrc1]; rfl
  rw [hlen] at hfuel
  rw [ParseBinaryExpression_eq, Production.seq_apply, hu, ← e.foldedSum_eq_value hwf hex, hlen,
    Parser.skip_add]
  simp only []
  have hskip1 : p.skip 1 = p.Next.2 := rfl
  rw [hskip1]
  have hpk := Parser.peek_eq p.Next.2 hso2
  rw [hsrc2] at hpk
  cases hf : e.first.factors with
  | cons x f =>
    rw [hf] at hsrc2 hft hpk hfuel
    have hmul : p.Next.2.peek = Token.MUL := by
      rw [hpk]; exact (hft x (List.mem_cons_self _ _)).1
    rw [hmul, Precedence_MUL]
    exact ParseBinaryExpression_for_product_sum accept_IN prec (x :: f) e.terms fuel _ _ rest
      hprec hft hwf.2 hso2 hsrc2 hend hpost (by omega)
  | nil =>
    rw [hf] at hsrc2 hpk hfuel
    have hsrc3 : p.Next.2.scanner_.source = termTokens e.terms ++ rest := hsrc2
    cases ht : e.terms with
    | cons y l =>
      have hy : y.1.token = Token.ADD ∨ y.1.token = Token.SUB :=
        (hwf.2 y (by rw [ht]; exact List.mem_cons_self _ _)).1
      have hadd : p.Next.2.peek = y.1.token := by rw [hpk, ht]; rfl
      rw [hadd, Precedence_additive _ _ hy, ← ht]
      have h := ParseBinaryExpression_for_sum accept_IN prec e.terms fuel e.first.first.number
        p.Next.2 rest hprec hwf.2 hso2 hsrc3 hend hpost (by simp at hfuel; omega)
      simpa [foldedProduct] using h
    | nil =>
      rw [ht] at hpk
      have hrest : p.Next.2.peek = headToken rest := hpk
      rw [hrest, ParseBinaryExpression_for_eq, if_neg (by omega)]
      rfl

theorem ParseBinaryExpression_folds_literals_witness :
    ParseBinaryExpression (productions 21) 4 true
        { scanner_ := Scanner.Initialize source_2_plus_3_times_4 }
      = (some (Expression.Literal (Value.number (JSNumber.exact 14))),
         Parser.skip { scanner_ := Scanner.Initialize source_2_plus_3_times_4 } 5) :=
  ParseBinaryExpression_folds_literals sum_2_plus_3_times_4 4 true 21
    { scanner_ := Scanner.Initialize source_2_plus_3_times_4 } []
    (by simp [LiteralSum.WellFormed, LiteralProduct.WellFormed, TokenDesc.IsIntegerLiteral,
          sum_2_plus_3_times_4, tkNumber, tk, TokenDesc.intValue, JSNumber.kMaxExact])
    (by simp [LiteralSum.Exact, LiteralSum.InRange, LiteralProduct.Exact,
          LiteralProduct.InRange, LiteralSum.step, LiteralProduct.value,
          sum_2_plus_3_times_4, tkNumber, tk, TokenDesc.intValue, JSNumber.kMaxExact])
    (by decide) rfl rfl (by decide) (by simp [NotPostfix, headToken, Token.IsCountOp])
    (by decide)

/-- The program `2 + 3 * 4` parses to one expression statement whose expression
is the literal 14. -/
theorem ParseProgram_2_plus_3_times_4 :
    (ParseProgram 40 source_2_plus_3_times_4 9 true false).1
      = some (Expression.FunctionLiteral "" 0
          (StatementList.cons
            (Statement.ExpressionStatement
              (Expression.Literal (Value.number (JSNumber.exact 14))))
            StatementList.nil)
          0 0 0 0 9 false false false (-1)) := by
  rfl

/-! ## Theorems: statements -/

theorem Parser.Next_snd_pre_data (p : Parser) : p.Next.2.pre_data_ = p.pre_data_ := by
  unfold Parser.Next
  split_ifs <;> rfl

theorem Parser.Next_snd_temp_scope (p : Parser) : p.Next.2.temp_scope_ = p.temp_scope_ := by
  unfold Parser.Next
  split_ifs <;> rfl

theorem Parser.Next_snd_StrictMode (p : Parser) : p.Next.2.StrictMode = p.StrictMode := by
  unfold Parser.StrictMode Parser.temp_scope
  rw [Parser.Next_snd_temp_scope]

theorem Parser.Next_snd_messages (p : Parser) : p.Next.2.messages = p.messages := by
  unfold Parser.Next
  split_ifs <;> rfl

theorem Parser.GetSymbol_of_no_pre_data (p : Parser) (h : p.pre_data_ = none) :
    p.GetSymbol = (p.scanner_.current_.literal, p) := by
  unfold Parser.GetSymbol Parser.LookupSymbol
  rw [h]
  simp

/-- On an identifier token `ParseIdentifier` returns its name and consumes it,
in strict and in non-strict mode. -/
theorem ParseIdentifier_identifier (p : Parser) (d : TokenDesc) (rest : List TokenDesc)
    (hso : p.stack_overflow_ = false) (hpre : p.pre_data_ = none)
    (hsrc : p.scanner_.source = d :: rest) (hd : d.token = Token.IDENTIFIER) :
    ParseIdentifier p = (some d.literal, p.Next.2) := by
  have hpk : p.peek = Token.IDENTIFIER := by rw [Parser.peek_eq p hso, hsrc]; exact hd
  have hnx : p.Next.1 = Token.IDENTIFIER := by rw [Parser.Next_fst p hso, hsrc]; exact hd
  have hcur := Parser.Next_snd_current p d rest hso hsrc
  have hsym := Parser.GetSymbol_of_no_pre_data p.Next.2 (by rw [Parser.Next_snd_pre_data, hpre])
  rw [hcur] at hsym
  cases hs : p.StrictMode <;>
    simp [ParseIdentifier, ParseIdentifierOrReservedWord, Expect, Check, Consume, Next, peek,
      hs, hpk, hnx, hsym]

theorem ParseVariableDeclarations_loop_strict (self : Productions) (accept_IN : Bool)
    (mode : Variable.Mode) (is_const : Bool) (block : StatementList) (nvars : Int)
    (p : Parser) (c d : TokenDesc) (rest : List TokenDesc)
    (hso : p.stack_overflow_ = false) (hpre : p.pre_data_ = none)
    (hsrc : p.scanner_.source = (if nvars > 0 then [c] else []) ++ d :: rest)
    (hd : d.token = Token.IDENTIFIER)
    (hstrict : p.StrictMode = true) (hname : IsEvalOrArguments d.literal = true) :
    (ParseVariableDeclarations_loop self accept_IN mode is_const block nvars p).1 = none
    ∧ (ParseVariableDeclarations_loop self accept_IN mode is_const block nvars p).2.messages
        = p.messages ++ [⟨"strict_var_name", [], d.location⟩] := by
  by_cases hn : nvars > 0
  · rw [if_pos hn] at hsrc
    have hso2 : p.Next.2.stack_overflow_ = false := by
      rw [Parser.Next_snd_stack_overflow, hso]
    have hsrc2 : p.Next.2.scanner_.source = d :: rest := by
      rw [Parser.Next_snd_source p hso, hsrc]; rfl
    have hid := ParseIdentifier_identifier p.Next.2 d rest hso2
      (by rw [Parser.Next_snd_pre_data, hpre]) hsrc2 hd
    have hcur := Parser.Next_snd_current p.Next.2 d rest hso2 hsrc2
    have hs : p.Next.2.Next.2.StrictMode = true := by
      rw [Parser.Next_snd_StrictMode, Parser.Next_snd_StrictMode, hstrict]
    simp [ParseVariableDeclarations_loop, hn, Consume, Next, hid, hs, hname,
      ReportMessageAndFail, Parser.ReportMessage, Parser.ReportMessageAt, Scanner.location,
      hcur, Parser.Next_snd_messages]
  · rw [if_neg hn] at hsrc
    have hid := ParseIdentifier_identifier p d rest hso hpre hsrc hd
    have hcur := Parser.Next_snd_current p d rest hso hsrc
    have hs : p.Next.2.StrictMode = true := by
      rw [Parser.Next_snd_StrictMode, hstrict]
    simp [ParseVariableDeclarations_loop, hn, hid, hs, hname,
      ReportMessageAndFail, Parser.ReportMessage, Parser.ReportMessageAt, Scanner.location,
      hcur, Parser.Next_snd_messages]

theorem Declare_isSome (p : Parser) (name : String) (mode : Variable.Mode)
    (fun_ : Option Expression) (resolve : Bool) :
    ∃ proxy, (Declare name mode fun_ resolve p).1 = some proxy := ⟨_, rfl⟩

theorem Declare_scanner (p : Parser) (name : String) (mode : Variable.Mode)
    (fun_ : Option Expression) (resolve : Bool) :
    (Declare name mode fun_ resolve p).2.scanner_ = p.scanner_
      ∧ (Declare name mode fun_ resolve p).2.stack_overflow_ = p.stack_overflow_ := by
  unfold Declare
  by_cases hf : p.top_scope.is_function_scope = true
  · simp only [hf, if_true]
    cases hl : p.top_scope.LocalLookup name with
    | none => exact ⟨rfl, rfl⟩
    | some var =>
      simp only
      by_cases hc : mode = Variable.Mode.CONST ∨ var.mode = Variable.Mode.CONST
      · simp only [if_pos hc]
        exact ⟨rfl, rfl⟩
      · simp only [if_neg hc]
        exact ⟨rfl, rfl⟩
  · simp only [hf]
    exact ⟨rfl, rfl⟩

theorem Declare_after_name (q : Parser) (name : String) (mode : Variable.Mode)
    (is_const : Bool) (rest : List TokenDesc)
    (hso : q.stack_overflow_ = false) (hsrc : q.scanner_.source = rest) :
    ∃ proxy q2, Declare name mode none is_const q = (some proxy, q2)
      ∧ q2.peek = headToken rest ∧ q2.messages = q.messages := by
  obtain ⟨hsc, hov⟩ := Declare_scanner q name mode none is_const
  refine ⟨_, (Declare name mode none is_const q).2, rfl, ?_, Declare_messages q name mode none is_const⟩
  rw [Parser.peek_eq _ (by rw [hov, hso]), hsc, hsrc]

theorem ParseVariableDeclarations_loop_sloppy (self : Productions) (accept_IN : Bool)
    (mode : Variable.Mode) (is_const : Bool) (block : StatementList) (nvars : Int)
    (p : Parser) (c d : TokenDesc) (rest : List TokenDesc)
    (hso : p.stack_overflow_ = false) (hpre : p.pre_data_ = none)
    (hsrc : p.scanner_.source = (if nvars > 0 then [c] else []) ++ d :: rest)
    (hd : d.token = Token.IDENTIFIER)
    (hstrict : p.StrictMode = false)
    (h1 : headToken rest ≠ Token.ASSIGN) (h2 : headToken rest ≠ Token.COMMA) :
    (ParseVariableDeclarations_loop self accept_IN mode is_const block nvars p).1.isSome = true
    ∧ (ParseVariableDeclarations_loop self accept_IN mode is_const block nvars p).2.messages
        = p.messages := by
  by_cases hn : nvars > 0
  · rw [if_pos hn] at hsrc
    have hso2 : p.Next.2.stack_overflow_ = false := by
      rw [Parser.Next_snd_stack_overflow, hso]
    have hsrc2 : p.Next.2.scanner_.source = d :: rest := by
      rw [Parser.Next_snd_source p hso, hsrc]; rfl
    have hid := ParseIdentifier_identifier p.Next.2 d rest hso2
      (by rw [Parser.Next_snd_pre_data, hpre]) hsrc2 hd
    have hs : p.Next.2.Next.2.StrictMode = false := by
      rw [Parser.Next_snd_StrictMode, Parser.Next_snd_StrictMode, hstrict]
    obtain ⟨proxy, q2, hD, hpk, hmsg⟩ := Declare_after_name p.Next.2.Next.2 d.literal mode
      is_const rest (by rw [Parser.Next_snd_stack_overflow, hso2])
      (by rw [Parser.Next_snd_source _ hso2, hsrc2]; rfl)
    simp [ParseVariableDeclarations_loop, hn, Consume, Next, hid, hs, hD, peek, hpk, h1, h2,
      hmsg, Parser.Next_snd_messages]
  · rw [if_neg hn] at hsrc
    have hid := ParseIdentifier_identifier p d rest hso hpre hsrc hd
    have hs : p.Next.2.StrictMode = false := by
      rw [Parser.Next_snd_StrictMode, hstrict]
    obtain ⟨proxy, q2, hD, hpk, hmsg⟩ := Declare_after_name p.Next.2 d.literal mode
      is_const rest (by rw [Parser.Next_snd_stack_overflow, hso])
      (by rw [Parser.Next_snd_source _ hso, hsrc]; rfl)
    simp [ParseVariableDeclarations_loop, hn, hid, hs, hD, peek, hpk, h1, h2,
      hmsg, Parser.Next_snd_messages]

/-- C3: in the loop of `ParseVariableDeclarations`, for every declaration (the
first one or one behind a comma) whose name is an identifier token: in strict
mode a name `eval` or `arguments` makes the declaration fail with the message
`strict_var_name` at the name, and in non-strict mode a declaration without
initializer succeeds whatever the name is, with no message.  The program
`"use strict"; var eval;` fails with `strict_var_name` and the program
`var eval;` succeeds. -/
theorem ParseVariableDeclarations_strict_var_name (self : Productions) (accept_IN : Bool)
    (mode : Variable.Mode) (is_const : Bool) (block : StatementList) (nvars : Int)
    (p : Parser) (c d : TokenDesc) (rest : List TokenDesc)
    (hso : p.stack_overflow_ = false) (hpre : p.pre_data_ = none)
    (hsrc : p.scanner_.source = (if nvars > 0 then [c] else []) ++ d :: rest)
    (hd : d.token = Token.IDENTIFIER) :
    (p.StrictMode = true → IsEvalOrArguments d.literal = true →
      (ParseVariableDeclarations_loop self accept_IN mode is_const block nvars p).1 = none
      ∧ (ParseVariableDeclarations_loop self accept_IN mode is_const block nvars p).2.messages
          = p.messages ++ [⟨"strict_var_name", [], d.location⟩])
    ∧ (p.StrictMode = false → headToken rest ≠ Token.ASSIGN → headToken rest ≠ Token.COMMA →
        (ParseVariableDeclarations_loop self accept_IN mode is_const block nvars p).1.isSome
          = true
        ∧ (ParseVariableDeclarations_loop self accept_IN mode is_const block nvars p).2.messages
            = p.messages)
    ∧ ((ParseProgram 40 source_use_strict_var_eval 23 true false).1 = none
        ∧ (ParseProgram 40 source_use_strict_var_eval 23 true false).2.messages
            = [⟨"strict_var_name", [], ⟨18, 22⟩⟩])
    ∧ ((ParseProgram 40 source_var_eval 9 true false).1.isSome = true
        ∧ (ParseProgram 40 source_var_eval 9 true false).2.messages = []) :=
  ⟨fun hs hn => ParseVariableDeclarations_loop_strict self accept_IN mode is_const block nvars
      p c d rest hso hpre hsrc hd hs hn,
   fun hs h1 h2 => ParseVariableDeclarations_loop_sloppy self accept_IN mode is_const block
      nvars p c d rest hso hpre hsrc hd hs h1 h2,
   ⟨rfl, rfl⟩, ⟨rfl, rfl⟩⟩

theorem ParseVariableDeclarations_strict_var_name_witness :
    (ParseVariableDeclarations_loop (productions 5) true Variable.Mode.VAR false
        StatementList.nil 0
        (strictParser [tkIdentifier "arguments" 4 13, tk Token.SEMICOLON 13 14])).1 = none
    ∧ (ParseVariableDeclarations_loop (productions 5) true Variable.Mode.VAR false
        StatementList.nil 0
        (strictParser [tkIdentifier "arguments" 4 13, tk Token.SEMICOLON 13 14])).2.messages
        = [⟨"strict_var_name", [], ⟨4, 13⟩⟩] :=
  (ParseVariableDeclarations_strict_var_name (productions 5) true Variable.Mode.VAR false
    StatementList.nil 0
    (strictParser [tkIdentifier "arguments" 4 13, tk Token.SEMICOLON 13 14])
    (tk Token.COMMA 0 0) (tkIdentifier "arguments" 4 13) [tk Token.SEMICOLON 13 14]
    rfl rfl rfl rfl).1 rfl rfl

/-! ## Theorems: identifier operands -/

theorem Parser.Next_snd_next_id (p : Parser) : p.Next.2.next_id = p.next_id := by
  unfold Parser.Next
  split_ifs <;> rfl

theorem Parser.Next_snd_inside_with (p : Parser) : p.Next.2.inside_with = p.inside_with := by
  unfold Parser.Next
  split_ifs <;> rfl

theorem Parser.Next_snd_top_scope (p : Parser) : p.Next.2.top_scope = p.top_scope := by
  unfold Parser.Next
  split_ifs <;> rfl

theorem Parser.afterIdentifier_stack_overflow (p : Parser) :
    p.afterIdentifier.stack_overflow_ = p.stack_overflow_ :=
  Parser.Next_snd_stack_overflow p

theorem Parser.afterIdentifier_pre_data (p : Parser) :
    p.afterIdentifier.pre_data_ = p.pre_data_ :=
  Parser.Next_snd_pre_data p

theorem Parser.afterIdentifier_messages (p : Parser) :
    p.afterIdentifier.messages = p.messages :=
  Parser.Next_snd_messages p

theorem Parser.afterIdentifier_StrictMode (p : Parser) :
    p.afterIdentifier.StrictMode = p.StrictMode :=
  Parser.Next_snd_StrictMode p

theorem Parser.afterIdentifier_scanner (p : Parser) :
    p.afterIdentifier.scanner_ = p.Next.2.scanner_ := rfl

theorem Parser.afterIdentifier_source (p : Parser) (h : p.stack_overflow_ = false) :
    p.afterIdentifier.scanner_.source = p.scanner_.source.tail :=
  Parser.Next_snd_source p h

theorem Parser.afterIdentifier_next_id (p : Parser) :
    p.afterIdentifier.next_id = p.next_id + 1 := by
  show p.Next.2.next_id + 1 = _
  rw [Parser.Next_snd_next_id]

theorem Parser.afterIdentifier_peek (p : Parser) (d : TokenDesc) (rest : List TokenDesc)
    (hso : p.stack_overflow_ = false) (hsrc : p.scanner_.source = d :: rest) :
    p.afterIdentifier.peek = headToken rest := by
  rw [Parser.peek_eq _ (by rw [Parser.afterIdentifier_stack_overflow, hso]),
    Parser.afterIdentifier_source p hso, hsrc]
  rfl

theorem Parser.afterIdentifier_newline (p : Parser) (d : TokenDesc) (rest : List TokenDesc)
    (hso : p.stack_overflow_ = false) (hsrc : p.scanner_.source = d :: rest) :
    p.afterIdentifier.scanner_.has_line_terminator_before_next = headNewline rest := by
  unfold Scanner.has_line_terminator_before_next Scanner.next_
  rw [Parser.afterIdentifier_source p hso, hsrc]
  cases rest <;> rfl

theorem Parser.afterIdentifier_location (p : Parser) (d : TokenDesc) (rest : List TokenDesc)
    (hso : p.stack_overflow_ = false) (hsrc : p.scanner_.source = d :: rest) :
    p.afterIdentifier.scanner_.location = d.location := by
  rw [Parser.afterIdentifier_scanner]
  unfold Scanner.location
  rw [Parser.Next_snd_current p d rest hso hsrc]

/-- On an identifier token `ParsePrimaryExpression` returns a new unbound
proxy with the name of the token. -/
theorem ParsePrimaryExpression_identifier (self : Productions) (p : Parser) (d : TokenDesc)
    (rest : List TokenDesc) (hso : p.stack_overflow_ = false) (hpre : p.pre_data_ = none)
    (hsrc : p.scanner_.source = d :: rest) (hd : d.token = Token.IDENTIFIER) :
    ParsePrimaryExpression self p
      = (some (Expression.VariableProxy p.next_id d.literal false p.inside_with none),
         p.afterIdentifier) := by
  have hpk : p.peek = Token.IDENTIFIER := by rw [Parser.peek_eq p hso, hsrc]; exact hd
  have hid := ParseIdentifier_identifier p d rest hso hpre hsrc hd
  have hcur := Parser.Next_snd_current p d rest hso hsrc
  simp only [ParsePrimaryExpression, peek, Production.bind_eq, Production.seq_apply,
    Production.read_apply, hpk, hid, Production.step_apply, Scope.NewUnresolved,
    Parser.afterIdentifier, hcur, Parser.Next_snd_next_id, Parser.Next_snd_inside_with]

theorem ParseMemberExpression_identifier (self : Productions) (p : Parser) (d : TokenDesc)
    (rest : List TokenDesc) (hso : p.stack_overflow_ = false) (hpre : p.pre_data_ = none)
    (hsrc : p.scanner_.source = d :: rest) (hd : d.token = Token.IDENTIFIER)
    (h1 : headToken rest ≠ Token.LBRACK) (h2 : headToken rest ≠ Token.PERIOD) :
    ParseMemberExpression self p
      = (some (Expression.VariableProxy p.next_id d.literal false p.inside_with none),
         p.afterIdentifier) := by
  have hpk : p.peek = Token.IDENTIFIER := by rw [Parser.peek_eq p hso, hsrc]; exact hd
  have hprim := ParsePrimaryExpression_identifier self p d rest hso hpre hsrc hd
  have hpk2 := Parser.afterIdentifier_peek p d rest hso hsrc
  simp only [ParseMemberExpression, ParseMemberWithNewPrefixesExpression,
    ParseMemberWithNewPrefixesExpression_loop, peek, Production.bind_eq, Production.pure_eq,
    Production.seq_apply, Production.read_apply, hpk, reduceCtorEq, if_false, hprim, hpk2]
  revert h1 h2
  cases headToken rest <;> simp

theorem ParseLeftHandSideExpression_identifier (self : Productions) (p : Parser)
    (d : TokenDesc) (rest : List TokenDesc) (hso : p.stack_overflow_ = false)
    (hpre : p.pre_data_ = none) (hsrc : p.scanner_.source = d :: rest)
    (hd : d.token = Token.IDENTIFIER) (hnext : NotMember rest) :
    ParseLeftHandSideExpression self p
      = (some (Expression.VariableProxy p.next_id d.literal false p.inside_with none),
         p.afterIdentifier) := by
  obtain ⟨h1, h2, h3⟩ := hnext
  have hpk : p.peek = Token.IDENTIFIER := by rw [Parser.peek_eq p hso, hsrc]; exact hd
  have hmem := ParseMemberExpression_identifier self p d rest hso hpre hsrc hd h1 h3
  have hpk2 := Parser.afterIdentifier_peek p d rest hso hsrc
  simp only [ParseLeftHandSideExpression, ParseLeftHandSideExpression_loop, peek,
    Production.bind_eq, Production.pure_eq, Production.seq_apply, Production.read_apply,
    hpk, reduceCtorEq, if_false, hmem, hpk2]
  revert h1 h2 h3
  cases headToken rest <;> simp

theorem ParsePostfixExpression_identifier (self : Productions) (p : Parser)
    (d : TokenDesc) (rest : List TokenDesc) (hso : p.stack_overflow_ = false)
    (hpre : p.pre_data_ = none) (hsrc : p.scanner_.source = d :: rest)
    (hd : d.token = Token.IDENTIFIER) (hnext : NotPostfix rest) :
    ParsePostfixExpression self p
      = (some (Expression.VariableProxy p.next_id d.literal false p.inside_with none),
         p.afterIdentifier) := by
  obtain ⟨h1, h2, h3, h4⟩ := hnext
  have hlhs := ParseLeftHandSideExpression_identifier self p d rest hso hpre hsrc hd
    ⟨h1, h2, h3⟩
  have hpk2 := Parser.afterIdentifier_peek p d rest hso hsrc
  have hnl := Parser.afterIdentifier_newline p d rest hso hsrc
  simp only [ParsePostfixExpression, peek, Production.bind_eq, Production.pure_eq,
    Production.seq_apply, Production.read_apply, hlhs, hnl, hpk2]
  rcases h4 with h4 | h4
  · simp [h4]
  · simp [h4]

/-- On an identifier token that is followed neither by a member access, a
call nor a postfix operator, `ParseUnaryExpression` returns a new unbound
proxy with the name of the token. -/
theorem ParseUnaryExpression_identifier (self : Productions) (p : Parser)
    (d : TokenDesc) (rest : List TokenDesc) (hso : p.stack_overflow_ = false)
    (hpre : p.pre_data_ = none) (hsrc : p.scanner_.source = d :: rest)
    (hd : d.token = Token.IDENTIFIER) (hnext : NotPostfix rest) :
    ParseUnaryExpression self p
      = (some (Expression.VariableProxy p.next_id d.literal false p.inside_with none),
         p.afterIdentifier) := by
  have hpk : p.peek = Token.IDENTIFIER := by rw [Parser.peek_eq p hso, hsrc]; exact hd
  have hpost := ParsePostfixExpression_identifier self p d rest hso hpre hsrc hd hnext
  simp only [ParseUnaryExpression, peek, Production.bind_eq, Production.seq_apply,
    Production.read_apply, hpk, Token.IsUnaryOp, Token.IsCountOp]
  simpa using hpost

theorem ParseBinaryExpression_for_of_lt (self : Productions) (prec prec1 : Int)
    (accept_IN : Bool) (x : Expression) (p : Parser) (h : prec1 < prec) :
    ParseBinaryExpression_for self prec prec1 accept_IN x p = (some x, p) := by
  rw [ParseBinaryExpression_for_eq, if_neg (by omega)]

/-- An identifier that is followed by a token of lower precedence than `prec`
is the whole binary expression. -/
theorem ParseBinaryExpression_identifier (self : Productions) (prec : Int) (accept_IN : Bool)
    (p : Parser) (d : TokenDesc) (rest : List TokenDesc) (hso : p.stack_overflow_ = false)
    (hpre : p.pre_data_ = none) (hsrc : p.scanner_.source = d :: rest)
    (hd : d.token = Token.IDENTIFIER) (hnext : NotPostfix rest)
    (hprec : Precedence (headToken rest) accept_IN < prec) :
    ParseBinaryExpression self prec accept_IN p
      = (some (Expression.VariableProxy p.next_id d.literal false p.inside_with none),
         p.afterIdentifier) := by
  have hu := ParseUnaryExpression_identifier self p d rest hso hpre hsrc hd hnext
  have hpk2 := Parser.afterIdentifier_peek p d rest hso hsrc
  rw [ParseBinaryExpression_eq, Production.seq_apply, hu]
  simp only
  rw [hpk2, ParseBinaryExpression_for_of_lt _ _ _ _ _ _ hprec]

theorem ParseConditionalExpression_identifier (self : Productions) (accept_IN : Bool)
    (p : Parser) (d : TokenDesc) (rest : List TokenDesc) (hso : p.stack_overflow_ = false)
    (hpre : p.pre_data_ = none) (hsrc : p.scanner_.source = d :: rest)
    (hd : d.token = Token.IDENTIFIER) (hnext : NotPostfix rest)
    (hprec : Precedence (headToken rest) accept_IN < 4)
    (hne : headToken rest ≠ Token.CONDITIONAL) :
    ParseConditionalExpression self accept_IN p
      = (some (Expression.VariableProxy p.next_id d.literal false p.inside_with none),
         p.afterIdentifier) := by
  have hb := ParseBinaryExpression_identifier self 4 accept_IN p d rest hso hpre hsrc hd
    hnext hprec
  have hpk2 := Parser.afterIdentifier_peek p d rest hso hsrc
  simp only [ParseConditionalExpression, peek, Production.bind_eq, Production.pure_eq,
    Production.seq_apply, Production.read_apply, hb, hpk2]
  simp [hne]

/-! ## Theorems: bitwise folding and comparisons with `null` -/

theorem toInt32_toNat_emod (x : Int) : toInt32 (x % 2 ^ 32).toNat = ToInt32 x := by
  unfold toInt32 ToInt32
  have h3 : (0 : Int) ≤ x % 2 ^ 32 := Int.emod_nonneg _ (by norm_num)
  have h4 : x % 2 ^ 32 < 2 ^ 32 := Int.emod_lt_of_pos _ (by norm_num)
  have h5 : ((x % 2 ^ 32).toNat : Int) = x % 2 ^ 32 := Int.toNat_of_nonneg h3
  have h6 : (x % 2 ^ 32).toNat % 2 ^ 32 = (x % 2 ^ 32).toNat := by
    apply Nat.mod_eq_of_lt
    omega
  rw [h6, h5]
  by_cases h : x % 2 ^ 32 < 2 ^ 31
  · rw [if_pos h, if_pos (by omega)]
  · rw [if_neg h, if_neg (by omega)]

theorem wrapInt32_eq_ToInt32 (x : Int) : wrapInt32 x = ToInt32 x :=
  toInt32_toNat_emod x

theorem Nat.ldiff_31_of_lt (m : Nat) (h : m < 32) : Nat.ldiff 31 m = 31 - m := by
  apply Nat.eq_of_testBit_eq
  intro i
  rw [Nat.testBit_ldiff]
  by_cases hi : i < 5
  · interval_cases m <;> interval_cases i <;> rfl
  · have h31 : (31 : Nat) = 2 ^ 5 - 1 := by norm_num
    have h1 : Nat.testBit 31 i = false := by
      rw [h31, Nat.testBit_two_pow_sub_one]
      simp [hi]
    have hpow : 2 ^ 5 ≤ 2 ^ i := Nat.pow_le_pow_right (by norm_num) (by omega)
    have h2 : Nat.testBit (31 - m) i = false :=
      Nat.testBit_eq_false_of_lt (by omega)
    rw [h1, h2]
    rfl

theorem Nat.ldiff_31 (n : Nat) : Nat.ldiff 31 n = 31 - n % 32 := by
  have h1 : Nat.ldiff 31 n = Nat.ldiff 31 (n % 32) := by
    apply Nat.eq_of_testBit_eq
    intro i
    rw [Nat.testBit_ldiff, Nat.testBit_ldiff]
    have h31 : (31 : Nat) = 2 ^ 5 - 1 := by norm_num
    have h32 : (32 : Nat) = 2 ^ 5 := by norm_num
    rw [h31, h32, Nat.testBit_two_pow_sub_one, Nat.testBit_mod_two_pow]
    by_cases hi : i < 5 <;> simp [hi]
  rw [h1]
  exact Nat.ldiff_31_of_lt _ (Nat.mod_lt _ (by norm_num))

/-- Masking to five bits is the remainder modulo 32. -/
theorem Int.land_31 (b : Int) : Int.land b 31 = b % 32 := by
  cases b with
  | ofNat n =>
    show ((n &&& 31 : Nat) : Int) = (n : Int) % 32
    have h31 : (31 : Nat) = 2 ^ 5 - 1 := by norm_num
    rw [h31, Nat.and_pow_two_sub_one_eq_mod]
    norm_num
  | negSucc n =>
    show ((Nat.ldiff 31 n : Nat) : Int) = Int.negSucc n % 32
    rw [Nat.ldiff_31]
    have hlt : n % 32 < 32 := Nat.mod_lt _ (by norm_num)
    rw [Int.negSucc_eq]
    omega

theorem ShiftCount_eq (y : Int) : ShiftCount y = (ToInt32 y % 32).toNat := by
  unfold ShiftCount
  rw [Int.land_31]

theorem ShiftCount_lt (y : Int) : ShiftCount y < 32 := by
  rw [ShiftCount_eq]
  have h3 : (0 : Int) ≤ ToInt32 y % 32 := Int.emod_nonneg _ (by norm_num)
  have h4 : ToInt32 y % 32 < 32 := Int.emod_lt_of_pos _ (by norm_num)
  omega

/-- C14: for number literals with integer values `x` and `y`, the node that
`ParseBinaryExpression` builds for a bitwise or shift operator is the number
literal of the 32-bit result: `|`, `&` and `^` work on `ToInt32` of both
operands; `<<` multiplies `ToInt32 x` by two to the shift count and wraps the
product to a signed 32-bit value; `>>` is the arithmetic right shift of
`ToInt32 x`; `>>>` shifts `ToUint32 x` to the right and yields an unsigned
value.  The shift count is `ToInt32 y` masked with 31.  The texts `1 << 33`
and `-1 >>> 0` parse to the literals 2 and 4294967295. -/
theorem BuildBinary_bitwise_fold (x y : Int) (position : Int) :
    BuildBinary Token.BIT_OR (integerLiteral x) (integerLiteral y) position
        = integerLiteral (Int.lor (ToInt32 x) (ToInt32 y))
    ∧ BuildBinary Token.BIT_AND (integerLiteral x) (integerLiteral y) position
        = integerLiteral (Int.land (ToInt32 x) (ToInt32 y))
    ∧ BuildBinary Token.BIT_XOR (integerLiteral x) (integerLiteral y) position
        = integerLiteral (Int.xor (ToInt32 x) (ToInt32 y))
    ∧ BuildBinary Token.SHL (integerLiteral x) (integerLiteral y) position
        = integerLiteral (ToInt32 (ToInt32 x * 2 ^ ShiftCount y))
    ∧ BuildBinary Token.SAR (integerLiteral x) (integerLiteral y) position
        = integerLiteral (ToInt32 x >>> ShiftCount y)
    ∧ BuildBinary Token.SHR (integerLiteral x) (integerLiteral y) position
        = integerLiteral ((ToUint32 x >>> ShiftCount y : Nat) : Int)
    ∧ ShiftCount y < 32
    ∧ (ParseExpression (productions 40) true (sloppyParser source_1_shl_33)).1
        = some (integerLiteral 2)
    ∧ (ParseExpression (productions 40) true (sloppyParser source_minus_1_shr_0)).1
        = some (integerLiteral 4294967295) := by
  refine ⟨?_, ?_, ?_, ?_, ?_, ?_, ShiftCount_lt y, rfl, rfl⟩
  · simp only [BuildBinary, FoldBinary, integerLiteral, Parser.NewNumberLiteral,
      Expression.AsNumberLiteral, JSNumber.DoubleToInt32, JSNumber.ofInt32, toInt32_toNat_emod]
  · simp only [BuildBinary, FoldBinary, integerLiteral, Parser.NewNumberLiteral,
      Expression.AsNumberLiteral, JSNumber.DoubleToInt32, JSNumber.ofInt32, toInt32_toNat_emod]
  · simp only [BuildBinary, FoldBinary, integerLiteral, Parser.NewNumberLiteral,
      Expression.AsNumberLiteral, JSNumber.DoubleToInt32, JSNumber.ofInt32, toInt32_toNat_emod]
  · simp only [BuildBinary, FoldBinary, integerLiteral, Parser.NewNumberLiteral,
      Expression.AsNumberLiteral, JSNumber.DoubleToInt32, JSNumber.ofInt32, toInt32_toNat_emod,
      wrapInt32_eq_ToInt32, ShiftCount_eq]
  · simp only [BuildBinary, FoldBinary, integerLiteral, Parser.NewNumberLiteral,
      Expression.AsNumberLiteral, JSNumber.DoubleToInt32, JSNumber.ofInt32, toInt32_toNat_emod,
      ShiftCount_eq, Int.shiftRight_eq_div_pow]
    norm_cast
  · simp only [BuildBinary, FoldBinary, integerLiteral, Parser.NewNumberLiteral,
      Expression.AsNumberLiteral, JSNumber.DoubleToInt32, JSNumber.DoubleToUint32,
      JSNumber.ofInt32, toInt32_toNat_emod, ShiftCount_eq, Nat.shiftRight_eq_div_pow, ToUint32]

theorem FoldBinary_compare (op : Token) (x y : Expression) (h : op.IsCompareOp = true) :
    FoldBinary op x y = none := by
  unfold FoldBinary
  cases x.AsNumberLiteral <;> cases y.AsNumberLiteral <;> cases op <;>
    first | rfl | cases h

/-- C15: for all operands `x` and `y`, the node that `ParseBinaryExpression`
builds for `x == y` or `x === y` is a `CompareToNull` over the other operand
when `x` or `y` is the literal `null` (strict exactly for `===`), and a
`CompareOperation` otherwise; for `!=` and `!==` it is a `NOT` around the node
of `==` and `===`; the relational operators, `instanceof` and `in` always give
a `CompareOperation`.  The texts `a == null`, `null === a`, `a != null`,
`a !== b` and `a < null` are parsed. -/
theorem BuildBinary_compare_null (x y : Expression) (position : Int) :
    (x.IsNullLiteral = true →
      BuildBinary Token.EQ x y position = Expression.CompareToNull false y
      ∧ BuildBinary Token.EQ_STRICT x y position = Expression.CompareToNull true y
      ∧ BuildBinary Token.NE x y position
          = Expression.UnaryOperation Token.NOT (Expression.CompareToNull false y)
      ∧ BuildBinary Token.NE_STRICT x y position
          = Expression.UnaryOperation Token.NOT (Expression.CompareToNull true y))
    ∧ (x.IsNullLiteral = false → y.IsNullLiteral = true →
      BuildBinary Token.EQ x y position = Expression.CompareToNull false x
      ∧ BuildBinary Token.EQ_STRICT x y position = Expression.CompareToNull true x
      ∧ BuildBinary Token.NE x y position
          = Expression.UnaryOperation Token.NOT (Expression.CompareToNull false x)
      ∧ BuildBinary Token.NE_STRICT x y position
          = Expression.UnaryOperation Token.NOT (Expression.CompareToNull true x))
    ∧ (x.IsNullLiteral = false → y.IsNullLiteral = false →
      BuildBinary Token.EQ x y position = Expression.CompareOperation Token.EQ x y position
      ∧ BuildBinary Token.EQ_STRICT x y position
          = Expression.CompareOperation Token.EQ_STRICT x y position
      ∧ BuildBinary Token.NE x y position
          = Expression.UnaryOperation Token.NOT
              (Expression.CompareOperation Token.EQ x y position)
      ∧ BuildBinary Token.NE_STRICT x y position
          = Expression.UnaryOperation Token.NOT
              (Expression.CompareOperation Token.EQ_STRICT x y position))
    ∧ (∀ op ∈ [Token.LT, Token.GT, Token.LTE, Token.GTE, Token.INSTANCEOF, Token.IN],
        BuildBinary op x y position = Expression.CompareOperation op x y position)
    ∧ (ParseExpression (productions 40) true (sloppyParser source_a_eq_null)).1
        = some (Expression.CompareToNull false (identifierProxy 3 "a"))
    ∧ (ParseExpression (productions 40) true (sloppyParser source_null_eq_strict_a)).1
        = some (Expression.CompareToNull true (identifierProxy 3 "a"))
    ∧ (ParseExpression (productions 40) true (sloppyParser source_a_ne_null)).1
        = some (Expression.UnaryOperation Token.NOT
            (Expression.CompareToNull false (identifierProxy 3 "a")))
    ∧ (ParseExpression (productions 40) true (sloppyParser source_a_ne_strict_b)).1
        = some (Expression.UnaryOperation Token.NOT
            (Expression.CompareOperation Token.EQ_STRICT (identifierProxy 3 "a")
              (identifierProxy 4 "b") 2))
    ∧ (ParseExpression (productions 40) true (sloppyParser source_a_lt_null)).1
        = some (Expression.CompareOperation Token.LT (identifierProxy 3 "a") nullLiteral 2) := by
  refine ⟨?_, ?_, ?_, ?_, rfl, rfl, rfl, rfl, rfl⟩
  · intro hx
    simp [BuildBinary, FoldBinary_compare, Token.IsCompareOp, NewCompareNode, hx]
  · intro hx hy
    simp [BuildBinary, FoldBinary_compare, Token.IsCompareOp, NewCompareNode, hx, hy]
  · intro hx hy
    simp [BuildBinary, FoldBinary_compare, Token.IsCompareOp, NewCompareNode, hx, hy]
  · intro op hop
    simp only [List.mem_cons, List.mem_singleton, List.mem_nil_iff, or_false] at hop
    rcases hop with h | h | h | h | h | h <;> subst h <;>
      simp [BuildBinary, FoldBinary_compare, Token.IsCompareOp, NewCompareNode]

/-! ## Theorems: invalid left-hand sides and strict-mode targets -/

theorem Expression.IsPlainEvalOrArguments_iff (e : Expression) :
    e.IsPlainEvalOrArguments = true ↔
      ∃ id name inside_with var,
        e = Expression.VariableProxy id name false inside_with var
          ∧ (name = "eval" ∨ name = "arguments") := by
  cases e with
  | VariableProxy id name is_this inside_with var =>
    cases is_this
    · simp only [Expression.IsPlainEvalOrArguments, IsEvalOrArguments, Bool.not_false,
        Bool.true_and, Bool.or_eq_true, beq_iff_eq, Expression.VariableProxy.injEq, true_and]
      constructor
      · intro h
        exact ⟨id, name, inside_with, var, ⟨rfl, rfl, rfl, rfl⟩, h⟩
      · rintro ⟨_, _, _, _, ⟨_, rfl, _, _⟩, h⟩
        exact h
    · simp [Expression.IsPlainEvalOrArguments]
  | _ => simp [Expression.IsPlainEvalOrArguments]

/-- `CheckStrictModeLValue` fails exactly for the plain identifiers `eval`
and `arguments`; otherwise it leaves the parser as it is. -/
theorem CheckStrictModeLValue_eq (expression : Expression) (error : String) (q : Parser) :
    CheckStrictModeLValue expression error q =
      if expression.IsPlainEvalOrArguments = true then (none, q.ReportMessage error [])
      else (some (), q) := by
  cases expression with
  | VariableProxy id name is_this inside_with var =>
    cases is_this <;> cases hn : IsEvalOrArguments name <;>
      simp [CheckStrictModeLValue, hn, ReportMessageAndFail,
        Expression.IsPlainEvalOrArguments]
  | _ => simp [CheckStrictModeLValue, Expression.IsPlainEvalOrArguments]

theorem Parser.targetOrThrow_not_plain (p : Parser) (x : Expression) (type : String)
    (hx : x.IsValidLeftHandSide = false) :
    (p.targetOrThrow x type).IsPlainEvalOrArguments = false := by
  unfold Parser.targetOrThrow
  rw [hx]
  rfl

theorem Parser.targetOrThrow_of_invalid (p : Parser) (x : Expression) (type : String)
    (hx : x.IsValidLeftHandSide = false) :
    p.targetOrThrow x type = p.NewThrowReferenceError type := by
  unfold Parser.targetOrThrow
  rw [hx]
  rfl

theorem Parser.targetOrThrow_of_valid (p : Parser) (x : Expression) (type : String)
    (hx : x.IsValidLeftHandSide = true) :
    p.targetOrThrow x type = x := by
  unfold Parser.targetOrThrow
  rw [if_pos hx]

/-- The assignment branch of `ParseAssignmentExpression` in terms of its
parts: the strict-mode check of the target, then the right-hand side. -/
theorem ParseAssignmentExpression_assign (self : Productions) (accept_IN : Bool)
    (p p1 : Parser) (x : Expression)
    (hc : ParseConditionalExpression self accept_IN p = (some x, p1))
    (hop : p1.peek.IsAssignmentOp = true) :
    ParseAssignmentExpression self accept_IN p =
      if p1.StrictMode = true
          ∧ (p1.targetOrThrow x "invalid_lhs_in_assignment").IsPlainEvalOrArguments = true then
        (none, p1.ReportMessage "strict_lhs_assignment" [])
      else
        match self.ParseAssignmentExpression accept_IN p1.Next.2 with
        | (none, q) => (none, q)
        | (some right, q) =>
          (some (Expression.Assignment p1.Next.1
              (p1.targetOrThrow x "invalid_lhs_in_assignment") right
              p1.Next.2.scanner_.location.beg_pos),
           if p1.Next.1 = Token.ASSIGN
               ∧ (p1.targetOrThrow x "invalid_lhs_in_assignment").IsThisProperty = true
           then q.AddProperty else q) := by
  unfold ParseAssignmentExpression
  cases hv : x.IsValidLeftHandSide
  · rw [Parser.targetOrThrow_of_invalid p1 x _ hv]
    simp only [Production.bind_eq, Production.pure_eq, Production.seq_apply, hc, peek,
      Production.read_apply, hop, Bool.not_true, Bool.false_eq_true, if_false, hv,
      Bool.not_false, if_true]
    cases hs : p1.StrictMode
    · simp only [Bool.false_eq_true, if_false, false_and, Production.ret_apply, Next,
        Production.step_apply, location_beg_pos, Production.read_apply, Production.seq_apply]
      cases hr : self.ParseAssignmentExpression accept_IN p1.Next.2 with
      | mk r q =>
        cases r with
        | none => rfl
        | some right =>
          simp only
          split_ifs with h1 h2 <;> first | rfl | exact absurd h1 ‹_› | exact absurd ‹_› h1
    · simp only [if_true, true_and, CheckStrictModeLValue_eq, Production.seq_apply]
      have hpl : (p1.NewThrowReferenceError "invalid_lhs_in_assignment").IsPlainEvalOrArguments
          = false := rfl
      simp only [hpl, Bool.false_eq_true, if_false, Next, Production.step_apply,
        location_beg_pos, Production.read_apply, Production.seq_apply]
      cases hr : self.ParseAssignmentExpression accept_IN p1.Next.2 with
      | mk r q =>
        cases r with
        | none => rfl
        | some right =>
          simp only
          split_ifs with h1 h2 <;> first | rfl | exact absurd h1 ‹_› | exact absurd ‹_› h1
  · rw [Parser.targetOrThrow_of_valid p1 x _ hv]
    simp only [Production.bind_eq, Production.pure_eq, Production.seq_apply, hc, peek,
      Production.read_apply, hop, Bool.not_true, Bool.false_eq_true, if_false, hv,
      Production.ret_apply]
    cases hs : p1.StrictMode
    · simp only [Bool.false_eq_true, if_false, false_and, Production.ret_apply, Next,
        Production.step_apply, location_beg_pos, Production.read_apply, Production.seq_apply]
      cases hr : self.ParseAssignmentExpression accept_IN p1.Next.2 with
      | mk r q =>
        cases r with
        | none => rfl
        | some right =>
          simp only
          split_ifs with h1 h2 <;> first | rfl | exact absurd h1 ‹_› | exact absurd ‹_› h1
    · simp only [if_true, true_and, CheckStrictModeLValue_eq, Production.seq_apply]
      by_cases hpl : x.IsPlainEvalOrArguments = true
      · simp only [if_pos hpl]
      · simp only [if_neg hpl, Next, Production.step_apply, location_beg_pos,
          Production.read_apply, Production.seq_apply]
        cases hr : self.ParseAssignmentExpression accept_IN p1.Next.2 with
        | mk r q =>
          cases r with
          | none => rfl
          | some right =>
            simp only
            split_ifs with h1 h2 <;> first | rfl | exact absurd h1 ‹_› | exact absurd ‹_› h1

theorem Token.IsUnaryOp_of_IsCountOp (t : Token) (h : t.IsCountOp = true) :
    t.IsUnaryOp = false := by
  cases t <;> first | rfl | cases h

/-- The prefix branch of `ParseUnaryExpression` in terms of its parts. -/
theorem ParseUnaryExpression_count (self : Productions) (p p1 : Parser) (x : Expression)
    (hop : p.peek.IsCountOp = true)
    (hu : self.ParseUnaryExpression p.Next.2 = (some x, p1)) :
    ParseUnaryExpression self p =
      if p1.StrictMode = true
          ∧ (p1.targetOrThrow x "invalid_lhs_in_prefix_op").IsPlainEvalOrArguments = true then
        (none, p1.ReportMessage "strict_lhs_prefix" [])
      else
        (some (Expression.CountOperation true p.Next.1
            (p1.targetOrThrow x "invalid_lhs_in_prefix_op") p1.scanner_.location.beg_pos),
         p1) := by
  have hun := Token.IsUnaryOp_of_IsCountOp _ hop
  unfold ParseUnaryExpression
  cases hv : x.IsValidLeftHandSide
  · rw [Parser.targetOrThrow_of_invalid p1 x _ hv]
    have hpl : (p1.NewThrowReferenceError "invalid_lhs_in_prefix_op").IsPlainEvalOrArguments
        = false := rfl
    simp only [Production.bind_eq, Production.pure_eq, Production.seq_apply, peek,
      Production.read_apply, hop, hun, Bool.false_eq_true, if_false, if_true, Next,
      Production.step_apply, hu, hv, Bool.not_false, hpl, and_false, location_beg_pos]
    cases hs : p1.StrictMode <;>
      simp [CheckStrictModeLValue_eq, hpl]
  · rw [Parser.targetOrThrow_of_valid p1 x _ hv]
    simp only [Production.bind_eq, Production.pure_eq, Production.seq_apply, peek,
      Production.read_apply, hop, hun, Bool.false_eq_true, if_false, if_true, Next,
      Production.step_apply, hu, hv, Bool.not_true, location_beg_pos, Production.ret_apply]
    cases hs : p1.StrictMode
    · simp
    · cases hpl : x.IsPlainEvalOrArguments <;>
        simp [CheckStrictModeLValue_eq, hpl]

/-- The postfix branch of `ParsePostfixExpression` in terms of its parts. -/
theorem ParsePostfixExpression_count (self : Productions) (p p1 : Parser) (x : Expression)
    (hl : ParseLeftHandSideExpression self p = (some x, p1))
    (hnl : p1.scanner_.has_line_terminator_before_next = false)
    (hop : p1.peek.IsCountOp = true) :
    ParsePostfixExpression self p =
      if p1.StrictMode = true
          ∧ (p1.targetOrThrow x "invalid_lhs_in_postfix_op").IsPlainEvalOrArguments = true then
        (none, p1.ReportMessage "strict_lhs_prefix" [])
      else
        (some (Expression.CountOperation false p1.Next.1
            (p1.targetOrThrow x "invalid_lhs_in_postfix_op")
            p1.Next.2.scanner_.location.beg_pos),
         p1.Next.2) := by
  unfold ParsePostfixExpression
  cases hv : x.IsValidLeftHandSide
  · rw [Parser.targetOrThrow_of_invalid p1 x _ hv]
    have hpl : (p1.NewThrowReferenceError "invalid_lhs_in_postfix_op").IsPlainEvalOrArguments
        = false := rfl
    simp only [Production.bind_eq, Production.pure_eq, Production.seq_apply, peek,
      Production.read_apply, hop, hl, hnl, Bool.not_false, Bool.and_self, if_true, Next,
      Production.step_apply, hv, hpl, and_false, location_beg_pos, Bool.false_eq_true,
      if_false]
    cases hs : p1.StrictMode <;>
      simp [CheckStrictModeLValue_eq, hpl]
  · rw [Parser.targetOrThrow_of_valid p1 x _ hv]
    simp only [Production.bind_eq, Production.pure_eq, Production.seq_apply, peek,
      Production.read_apply, hop, hl, hnl, Bool.not_false, Bool.and_self, if_true, Next,
      Production.step_apply, hv, Bool.not_true, location_beg_pos, Production.ret_apply,
      Bool.false_eq_true, if_false]
    cases hs : p1.StrictMode
    · simp
    · cases hpl : x.IsPlainEvalOrArguments <;>
        simp [CheckStrictModeLValue_eq, hpl]

/-- A `return` outside a function scope becomes an expression statement that
throws a syntax error; nothing but the keyword is consumed. -/
theorem ParseReturnStatement_illegal_return (self : Productions) (p : Parser)
    (hr : p.Next.1 = Token.RETURN) (hf : p.top_scope.is_function_scope = false) :
    ParseReturnStatement self p
      = (some (Statement.ExpressionStatement (p.Next.2.NewThrowSyntaxError "illegal_return")),
         p.Next.2) := by
  have hf2 : p.Next.2.top_scope.is_function_scope = false := by
    rw [Parser.Next_snd_top_scope, hf]
  simp only [ParseReturnStatement, Expect, Next, Production.bind_eq, Production.pure_eq,
    Production.seq_apply, Production.step_apply, hr, if_true, Production.ret_apply,
    Production.read_apply, hf2, Bool.not_false]

/-- The `for`-`in` loop over an expression that is not a valid left-hand
side goes on with the node that throws a reference error. -/
theorem ParseForStatement_invalid_lhs (self : Productions) (labels : Option Nat)
    (p p1 : Parser) (x : Expression)
    (h1 : p.AddLoop.Next.1 = Token.FOR) (h2 : p.AddLoop.Next.2.Next.1 = Token.LPAREN)
    (h3 : p.AddLoop.Next.2.Next.2.peek ≠ Token.SEMICOLON)
    (h4 : p.AddLoop.Next.2.Next.2.peek ≠ Token.VAR)
    (h5 : p.AddLoop.Next.2.Next.2.peek ≠ Token.CONST)
    (he : ParseExpression self false p.AddLoop.Next.2.Next.2 = (some x, p1))
    (hin : p1.peek = Token.IN) (hx : x.IsValidLeftHandSide = false) :
    ParseForStatement self labels p
      = ParseForStatement_in self labels
          (p1.NewThrowReferenceError "invalid_lhs_in_for_in") p1 := by
  simp only [ParseForStatement, Expect, Next, Production.bind_eq, Production.pure_eq,
    Production.seq_apply, Production.step_apply, Production.modify_apply, h1, h2, if_true,
    Production.ret_apply, Production.read_apply, peek, ne_eq, h3, h4, h5, not_false_eq_true,
    or_self, if_false, he, hin, hx, Bool.not_false]

theorem Production.seq_fst_some {α β : Type} {m : Production α} {f : α → Production β}
    {p : Parser} {b : β} (h : (Production.seq m f p).1 = some b) :
    ∃ a p1, m p = (some a, p1) ∧ (f a p1).1 = some b := by
  rw [Production.seq_apply] at h
  cases hm : m p with
  | mk r p1 =>
    rw [hm] at h
    cases r with
    | none => cases h
    | some a => exact ⟨a, p1, rfl, h⟩

theorem withTarget_fst {α : Type} (t : Target) (body : Production α) (p : Parser) :
    (withTarget t body p).1 = (body { p with target_stack_ := t :: p.target_stack_ }).1 := rfl

/-- The statement that the `for`-`in` loop returns holds the target it was
given. -/
theorem ParseForStatement_in_each (self : Productions) (labels : Option Nat)
    (each : Expression) (p q : Parser) (s : Statement)
    (h : ParseForStatement_in self labels each p = (some s, q)) :
    ∃ enumerable body, s = Statement.ForInStatement p.next_id labels each enumerable body := by
  have h0 : (ParseForStatement_in self labels each p).1 = some s := by rw [h]
  unfold ParseForStatement_in at h0
  simp only [Production.bind_eq, Production.pure_eq] at h0
  obtain ⟨id, p1, h1, h2⟩ := Production.seq_fst_some h0
  have hid : id = p.next_id := by
    simp only [Production.step_apply, Parser.alloc, Prod.mk.injEq, Option.some.injEq] at h1
    exact h1.1.symm
  subst hid
  rw [withTarget_fst] at h2
  obtain ⟨_, p2, _, h3⟩ := Production.seq_fst_some h2
  obtain ⟨enumerable, p3, _, h4⟩ := Production.seq_fst_some h3
  obtain ⟨_, p4, _, h5⟩ := Production.seq_fst_some h4
  obtain ⟨body, p5, _, h6⟩ := Production.seq_fst_some h5
  simp only [Production.ret_apply, Option.some.injEq] at h6
  exact ⟨enumerable, body, h6.symm⟩

/-- C17: an expression `x` that is not a valid left-hand side does not make
the production fail where it is the target of an assignment, of a prefix or
postfix `++`/`--`, or of a `for`-`in`: whenever the productions for the other
parts succeed, the production succeeds with the node that throws the
reference error (`invalid_lhs_in_assignment`, `invalid_lhs_in_prefix_op`,
`invalid_lhs_in_postfix_op`, `invalid_lhs_in_for_in`) in the place of `x`, in
strict and in non-strict mode.  A `return` outside a function scope succeeds
with an expression statement that throws the syntax error `illegal_return`,
and reports no message.  The texts `1 = 2`, `++1`, `1++`, `for (1 in x);` and
`return;` are parsed without a message. -/
theorem invalid_lhs_becomes_throw (self : Productions) (x : Expression)
    (hx : x.IsValidLeftHandSide = false) :
    (∀ (accept_IN : Bool) (p p1 q : Parser) (right : Expression),
      ParseConditionalExpression self accept_IN p = (some x, p1) →
      p1.peek.IsAssignmentOp = true →
      self.ParseAssignmentExpression accept_IN p1.Next.2 = (some right, q) →
      ParseAssignmentExpression self accept_IN p
        = (some (Expression.Assignment p1.Next.1
              (p1.NewThrowReferenceError "invalid_lhs_in_assignment") right
              p1.Next.2.scanner_.location.beg_pos), q))
    ∧ (∀ (p p1 : Parser), p.peek.IsCountOp = true →
      self.ParseUnaryExpression p.Next.2 = (some x, p1) →
      ParseUnaryExpression self p
        = (some (Expression.CountOperation true p.Next.1
              (p1.NewThrowReferenceError "invalid_lhs_in_prefix_op")
              p1.scanner_.location.beg_pos), p1))
    ∧ (∀ (p p1 : Parser), ParseLeftHandSideExpression self p = (some x, p1) →
      p1.scanner_.has_line_terminator_before_next = false → p1.peek.IsCountOp = true →
      ParsePostfixExpression self p
        = (some (Expression.CountOperation false p1.Next.1
              (p1.NewThrowReferenceError "invalid_lhs_in_postfix_op")
              p1.Next.2.scanner_.location.beg_pos), p1.Next.2))
    ∧ (∀ (labels : Option Nat) (p p1 : Parser),
      p.AddLoop.Next.1 = Token.FOR → p.AddLoop.Next.2.Next.1 = Token.LPAREN →
      p.AddLoop.Next.2.Next.2.peek ≠ Token.SEMICOLON →
      p.AddLoop.Next.2.Next.2.peek ≠ Token.VAR →
      p.AddLoop.Next.2.Next.2.peek ≠ Token.CONST →
      ParseExpression self false p.AddLoop.Next.2.Next.2 = (some x, p1) →
      p1.peek = Token.IN →
      ParseForStatement self labels p
          = ParseForStatement_in self labels
              (p1.NewThrowReferenceError "invalid_lhs_in_for_in") p1
        ∧ ∀ (s : Statement) (q : Parser), ParseForStatement self labels p = (some s, q) →
            ∃ enumerable body, s = Statement.ForInStatement p1.next_id labels
              (p1.NewThrowReferenceError "invalid_lhs_in_for_in") enumerable body)
    ∧ (∀ (p : Parser), p.Next.1 = Token.RETURN → p.top_scope.is_function_scope = false →
      ParseReturnStatement self p
          = (some (Statement.ExpressionStatement
              (p.Next.2.NewThrowSyntaxError "illegal_return")), p.Next.2)
        ∧ p.Next.2.messages = p.messages)
    ∧ ((ParseExpression (productions 40) true (sloppyParser source_1_assign_2)).1
          = some (Expression.Assignment Token.ASSIGN
              (throwNode "MakeReferenceError" "invalid_lhs_in_assignment" 0)
              (integerLiteral 2) 2)
        ∧ (ParseExpression (productions 40) true (sloppyParser source_1_assign_2)).2.messages
          = [])
    ∧ ((ParseExpression (productions 40) true (sloppyParser source_inc_1)).1
          = some (Expression.CountOperation true Token.INC
              (throwNode "MakeReferenceError" "invalid_lhs_in_prefix_op" 2) 2)
        ∧ (ParseExpression (productions 40) true (sloppyParser source_inc_1)).2.messages = [])
    ∧ ((ParseExpression (productions 40) true (sloppyParser source_1_inc)).1
          = some (Expression.CountOperation false Token.INC
              (throwNode "MakeReferenceError" "invalid_lhs_in_postfix_op" 0) 1)
        ∧ (ParseExpression (productions 40) true (sloppyParser source_1_inc)).2.messages = [])
    ∧ ((ParseStatement (productions 40) none (sloppyParser source_for_1_in_x)).1
          = some (Statement.ForInStatement 3 none
              (throwNode "MakeReferenceError" "invalid_lhs_in_for_in" 5)
              (identifierProxy 4 "x") Statement.EmptyStatement)
        ∧ (ParseStatement (productions 40) none (sloppyParser source_for_1_in_x)).2.messages
          = [])
    ∧ ((ParseProgram 40 source_return 7 true false).1
          = some (Expression.FunctionLiteral "" 0
              (StatementList.cons
                (Statement.ExpressionStatement
                  (throwNode "MakeSyntaxError" "illegal_return" 0))
                StatementList.nil)
              0 0 0 0 7 false false false (-1))
        ∧ (ParseProgram 40 source_return 7 true false).2.messages = []) := by
  refine ⟨?_, ?_, ?_, ?_, ?_, ⟨rfl, rfl⟩, ⟨rfl, rfl⟩, ⟨rfl, rfl⟩, ⟨rfl, rfl⟩, ⟨rfl, rfl⟩⟩
  · intro accept_IN p p1 q right hc hop hr
    rw [ParseAssignmentExpression_assign self accept_IN p p1 x hc hop,
      Parser.targetOrThrow_of_invalid p1 x _ hx, hr]
    have hpl : (p1.NewThrowReferenceError "invalid_lhs_in_assignment").IsPlainEvalOrArguments
        = false := rfl
    have htp : (p1.NewThrowReferenceError "invalid_lhs_in_assignment").IsThisProperty
        = false := rfl
    simp [hpl, htp]
  · intro p p1 hop hu
    rw [ParseUnaryExpression_count self p p1 x hop hu,
      Parser.targetOrThrow_of_invalid p1 x _ hx]
    have hpl : (p1.NewThrowReferenceError "invalid_lhs_in_prefix_op").IsPlainEvalOrArguments
        = false := rfl
    simp [hpl]
  · intro p p1 hl hnl hop
    rw [ParsePostfixExpression_count self p p1 x hl hnl hop,
      Parser.targetOrThrow_of_invalid p1 x _ hx]
    have hpl : (p1.NewThrowReferenceError "invalid_lhs_in_postfix_op").IsPlainEvalOrArguments
        = false := rfl
    simp [hpl]
  · intro labels p p1 h1 h2 h3 h4 h5 he hin
    have heq := ParseForStatement_invalid_lhs self labels p p1 x h1 h2 h3 h4 h5 he hin hx
    refine ⟨heq, ?_⟩
    intro s q hs
    rw [heq] at hs
    exact ParseForStatement_in_each self labels _ p1 q s hs
  · intro p hr hf
    exact ⟨ParseReturnStatement_illegal_return self p hr hf, Parser.Next_snd_messages p⟩

theorem invalid_lhs_becomes_throw_witness :
    ParseAssignmentExpression (productions 39) true (sloppyParser source_1_assign_2)
      = (some (Expression.Assignment Token.ASSIGN
            (throwNode "MakeReferenceError" "invalid_lhs_in_assignment" 0)
            (integerLiteral 2) 2),
         (sloppyParser source_1_assign_2).Next.2.Next.2.Next.2) :=
  (invalid_lhs_becomes_throw (productions 39) (integerLiteral 1) rfl).1 true
    (sloppyParser source_1_assign_2) (sloppyParser source_1_assign_2).Next.2
    (sloppyParser source_1_assign_2).Next.2.Next.2.Next.2 (integerLiteral 2) rfl rfl rfl

theorem IsAssignmentOp_facts (t : Token) (accept_IN : Bool)
    (h : t.IsAssignmentOp = true) :
    t ≠ Token.LBRACK ∧ t ≠ Token.LPAREN ∧ t ≠ Token.PERIOD ∧ t.IsCountOp = false
      ∧ Precedence t accept_IN < 4 ∧ t ≠ Token.CONDITIONAL := by
  cases t <;> first | (cases accept_IN <;> decide) | cases h

theorem IsCountOp_facts (t : Token) (h : t.IsCountOp = true) :
    t ≠ Token.LBRACK ∧ t ≠ Token.LPAREN ∧ t ≠ Token.PERIOD := by
  cases t <;> first | decide | cases h

theorem Parser.ReportMessage_messages (p : Parser) (type : String) (args : List String) :
    (p.ReportMessage type args).messages = p.messages ++ [⟨type, args, p.scanner_.location⟩] :=
  rfl

/-- In strict mode an assignment to the identifier `eval` or `arguments`
fails with `strict_lhs_assignment`. -/
theorem ParseAssignmentExpression_strict_lhs (self : Productions) (accept_IN : Bool)
    (p : Parser) (d o : TokenDesc) (rest : List TokenDesc)
    (hso : p.stack_overflow_ = false) (hpre : p.pre_data_ = none)
    (hstrict : p.StrictMode = true) (hd : d.token = Token.IDENTIFIER)
    (hname : IsEvalOrArguments d.literal = true)
    (hsrc : p.scanner_.source = d :: o :: rest) (ho : o.token.IsAssignmentOp = true) :
    ParseAssignmentExpression self accept_IN p
      = (none, p.afterIdentifier.ReportMessage "strict_lhs_assignment" []) := by
  obtain ⟨f1, f2, f3, f4, f5, f6⟩ := IsAssignmentOp_facts o.token accept_IN ho
  have hc := ParseConditionalExpression_identifier self accept_IN p d (o :: rest) hso hpre hsrc
    hd ⟨f1, f2, f3, Or.inr f4⟩ f5 f6
  have hpk := Parser.afterIdentifier_peek p d (o :: rest) hso hsrc
  have hv : (Expression.VariableProxy p.next_id d.literal false p.inside_with
      none).IsValidLeftHandSide = true := rfl
  rw [ParseAssignmentExpression_assign self accept_IN p _ _ hc (by rw [hpk]; exact ho),
    Parser.targetOrThrow_of_valid _ _ _ hv, Parser.afterIdentifier_StrictMode, hstrict]
  simp [Expression.IsPlainEvalOrArguments, hname]

/-- In strict mode a prefix `++` or `--` on the identifier `eval` or
`arguments` fails with `strict_lhs_prefix`. -/
theorem ParseUnaryExpression_strict_lhs (n : Nat) (p : Parser) (c d : TokenDesc)
    (rest : List TokenDesc)
    (hso : p.stack_overflow_ = false) (hpre : p.pre_data_ = none)
    (hstrict : p.StrictMode = true) (hd : d.token = Token.IDENTIFIER)
    (hname : IsEvalOrArguments d.literal = true)
    (hsrc : p.scanner_.source = c :: d :: rest) (hc : c.token.IsCountOp = true)
    (hnext : NotPostfix rest) :
    ParseUnaryExpression (productions (n + 1)) p
      = (none, p.Next.2.afterIdentifier.ReportMessage "strict_lhs_prefix" []) := by
  have hso2 : p.Next.2.stack_overflow_ = false := by rw [Parser.Next_snd_stack_overflow, hso]
  have hsrc2 : p.Next.2.scanner_.source = d :: rest := by
    rw [Parser.Next_snd_source p hso, hsrc]; rfl
  have hu := ParseUnaryExpression_identifier (productions n) p.Next.2 d rest hso2
    (by rw [Parser.Next_snd_pre_data, hpre]) hsrc2 hd hnext
  have hpk : p.peek = c.token := by rw [Parser.peek_eq p hso, hsrc]; rfl
  have hv : (Expression.VariableProxy p.Next.2.next_id d.literal false p.Next.2.inside_with
      none).IsValidLeftHandSide = true := rfl
  rw [ParseUnaryExpression_count (productions (n + 1)) p _ _ (by rw [hpk]; exact hc) hu,
    Parser.targetOrThrow_of_valid _ _ _ hv, Parser.afterIdentifier_StrictMode,
    Parser.Next_snd_StrictMode, hstrict]
  simp [Expression.IsPlainEvalOrArguments, hname]

/-- In strict mode a postfix `++` or `--` on the identifier `eval` or
`arguments` fails with `strict_lhs_prefix`. -/
theorem ParsePostfixExpression_strict_lhs (self : Productions) (p : Parser) (d c : TokenDesc)
    (rest : List TokenDesc)
    (hso : p.stack_overflow_ = false) (hpre : p.pre_data_ = none)
    (hstrict : p.StrictMode = true) (hd : d.token = Token.IDENTIFIER)
    (hname : IsEvalOrArguments d.literal = true)
    (hsrc : p.scanner_.source = d :: c :: rest) (hc : c.token.IsCountOp = true)
    (hnl : c.newline_before = false) :
    ParsePostfixExpression self p
      = (none, p.afterIdentifier.ReportMessage "strict_lhs_prefix" []) := by
  obtain ⟨f1, f2, f3⟩ := IsCountOp_facts c.token hc
  have hl := ParseLeftHandSideExpression_identifier self p d (c :: rest) hso hpre hsrc hd
    ⟨f1, f2, f3⟩
  have hpk := Parser.afterIdentifier_peek p d (c :: rest) hso hsrc
  have hnl2 := Parser.afterIdentifier_newline p d (c :: rest) hso hsrc
  have hv : (Expression.VariableProxy p.next_id d.literal false p.inside_with
      none).IsValidLeftHandSide = true := rfl
  rw [ParsePostfixExpression_count self p _ _ hl (by rw [hnl2]; exact hnl)
      (by rw [hpk]; exact hc),
    Parser.targetOrThrow_of_valid _ _ _ hv, Parser.afterIdentifier_StrictMode, hstrict]
  simp [Expression.IsPlainEvalOrArguments, hname]

/-- C18: in strict mode, with the identifier `eval` or `arguments` as the
target, an assignment with any assignment operator fails with
`strict_lhs_assignment`, and a prefix and a postfix `++`/`--` fail with
`strict_lhs_prefix`, reported at the identifier.  The check fails for no
other target: for every expression that is not the plain identifier `eval` or
`arguments` (another identifier, `this`, a property access such as `eval.x`)
and in non-strict mode, the three productions go on and return their node
when their parts succeed.  The texts `eval = 1`, `arguments += 1`,
`arguments++` and `--eval` fail in strict mode and are parsed in non-strict
mode; `eval.x = 1`, `x = 1` and `this = 1` are parsed in strict mode. -/
theorem strict_mode_lvalue_eval_or_arguments (p : Parser) (d : TokenDesc)
    (hso : p.stack_overflow_ = false) (hpre : p.pre_data_ = none)
    (hstrict : p.StrictMode = true) (hd : d.token = Token.IDENTIFIER)
    (hname : IsEvalOrArguments d.literal = true) :
    (∀ (self : Productions) (accept_IN : Bool) (o : TokenDesc) (rest : List TokenDesc),
      p.scanner_.source = d :: o :: rest → o.token.IsAssignmentOp = true →
      (ParseAssignmentExpression self accept_IN p).1 = none
      ∧ (ParseAssignmentExpression self accept_IN p).2.messages
          = p.messages ++ [⟨"strict_lhs_assignment", [], d.location⟩])
    ∧ (∀ (n : Nat) (c : TokenDesc) (rest : List TokenDesc),
      p.scanner_.source = c :: d :: rest → c.token.IsCountOp = true → NotPostfix rest →
      (ParseUnaryExpression (productions (n + 1)) p).1 = none
      ∧ (ParseUnaryExpression (productions (n + 1)) p).2.messages
          = p.messages ++ [⟨"strict_lhs_prefix", [], d.location⟩])
    ∧ (∀ (self : Productions) (c : TokenDesc) (rest : List TokenDesc),
      p.scanner_.source = d :: c :: rest → c.token.IsCountOp = true →
      c.newline_before = false →
      (ParsePostfixExpression self p).1 = none
      ∧ (ParsePostfixExpression self p).2.messages
          = p.messages ++ [⟨"strict_lhs_prefix", [], d.location⟩])
    ∧ (∀ (e : Expression) (error : String) (q : Parser),
        ((CheckStrictModeLValue e error q).1 = none ↔
          ∃ id name inside_with var,
            e = Expression.VariableProxy id name false inside_with var
              ∧ (name = "eval" ∨ name = "arguments"))
        ∧ (e.IsPlainEvalOrArguments = false → CheckStrictModeLValue e error q = (some (), q)))
    ∧ (∀ (self : Productions) (accept_IN : Bool) (q q1 q2 : Parser) (x right : Expression),
      ParseConditionalExpression self accept_IN q = (some x, q1) →
      q1.peek.IsAssignmentOp = true → x.IsValidLeftHandSide = true →
      (q1.StrictMode = false ∨ x.IsPlainEvalOrArguments = false) →
      self.ParseAssignmentExpression accept_IN q1.Next.2 = (some right, q2) →
      (ParseAssignmentExpression self accept_IN q).1
        = some (Expression.Assignment q1.Next.1 x right q1.Next.2.scanner_.location.beg_pos))
    ∧ (∀ (self : Productions) (q q1 : Parser) (x : Expression),
      q.peek.IsCountOp = true → self.ParseUnaryExpression q.Next.2 = (some x, q1) →
      x.IsValidLeftHandSide = true →
      (q1.StrictMode = false ∨ x.IsPlainEvalOrArguments = false) →
      ParseUnaryExpression self q
        = (some (Expression.CountOperation true q.Next.1 x q1.scanner_.location.beg_pos), q1))
    ∧ (∀ (self : Productions) (q q1 : Parser) (x : Expression),
      ParseLeftHandSideExpression self q = (some x, q1) →
      q1.scanner_.has_line_terminator_before_next = false → q1.peek.IsCountOp = true →
      x.IsValidLeftHandSide = true →
      (q1.StrictMode = false ∨ x.IsPlainEvalOrArguments = false) →
      ParsePostfixExpression self q
        = (some (Expression.CountOperation false q1.Next.1 x
              q1.Next.2.scanner_.location.beg_pos), q1.Next.2))
    ∧ ((ParseExpression (productions 40) true (strictParser source_eval_assign_1)).1 = none
        ∧ (ParseExpression (productions 40) true (strictParser source_eval_assign_1)).2.messages
            = [⟨"strict_lhs_assignment", [], ⟨0, 4⟩⟩]
        ∧ (ParseExpression (productions 40) true
              (strictParser source_arguments_add_1)).2.messages
            = [⟨"strict_lhs_assignment", [], ⟨0, 9⟩⟩]
        ∧ (ParseExpression (productions 40) true (strictParser source_arguments_inc)).2.messages
            = [⟨"strict_lhs_prefix", [], ⟨0, 9⟩⟩]
        ∧ (ParseExpression (productions 40) true (strictParser source_dec_eval)).2.messages
            = [⟨"strict_lhs_prefix", [], ⟨2, 6⟩⟩])
    ∧ ((ParseExpression (productions 40) true (strictParser source_eval_x_assign_1)).1
          = some (Expression.Assignment Token.ASSIGN
              (Expression.Property (identifierProxy 3 "eval")
                (Expression.Literal (Value.string "x")) 4)
              (integerLiteral 1) 7)
        ∧ (ParseExpression (productions 40) true (strictParser source_x_assign_1)).1
          = some (Expression.Assignment Token.ASSIGN (identifierProxy 3 "x")
              (integerLiteral 1) 2)
        ∧ (ParseExpression (productions 40) true (strictParser source_this_assign_1)).1
          = some (Expression.Assignment Token.ASSIGN
              (throwNode "MakeReferenceError" "invalid_lhs_in_assignment" 0)
              (integerLiteral 1) 5))
    ∧ ((ParseExpression (productions 40) true (sloppyParser source_eval_assign_1)).1
          = some (Expression.Assignment Token.ASSIGN (identifierProxy 3 "eval")
              (integerLiteral 1) 5)
        ∧ (ParseExpression (productions 40) true (sloppyParser source_arguments_inc)).1
          = some (Expression.CountOperation false Token.INC (identifierProxy 3 "arguments") 9)
        ∧ (ParseExpression (productions 40) true (sloppyParser source_dec_eval)).1
          = some (Expression.CountOperation true Token.DEC (identifierProxy 3 "eval") 2)) := by
  refine ⟨?_, ?_, ?_, ?_, ?_, ?_, ?_, ⟨rfl, rfl, rfl, rfl, rfl⟩, ⟨rfl, rfl, rfl⟩,
    ⟨rfl, rfl, rfl⟩⟩
  · intro self accept_IN o rest hsrc ho
    rw [ParseAssignmentExpression_strict_lhs self accept_IN p d o rest hso hpre hstrict hd
      hname hsrc ho]
    refine ⟨rfl, ?_⟩
    rw [Parser.ReportMessage_messages, Parser.afterIdentifier_messages,
      Parser.afterIdentifier_location p d (o :: rest) hso hsrc]
  · intro n c rest hsrc hc hnext
    rw [ParseUnaryExpression_strict_lhs n p c d rest hso hpre hstrict hd hname hsrc hc hnext]
    refine ⟨rfl, ?_⟩
    have hso2 : p.Next.2.stack_overflow_ = false := by
      rw [Parser.Next_snd_stack_overflow, hso]
    have hsrc2 : p.Next.2.scanner_.source = d :: rest := by
      rw [Parser.Next_snd_source p hso, hsrc]; rfl
    rw [Parser.ReportMessage_messages, Parser.afterIdentifier_messages,
      Parser.Next_snd_messages, Parser.afterIdentifier_location p.Next.2 d rest hso2 hsrc2]
  · intro self c rest hsrc hc hnl
    rw [ParsePostfixExpression_strict_lhs self p d c rest hso hpre hstrict hd hname hsrc hc hnl]
    refine ⟨rfl, ?_⟩
    rw [Parser.ReportMessage_messages, Parser.afterIdentifier_messages,
      Parser.afterIdentifier_location p d (c :: rest) hso hsrc]
  · intro e error q
    refine ⟨?_, ?_⟩
    · rw [← Expression.IsPlainEvalOrArguments_iff, CheckStrictModeLValue_eq]
      cases e.IsPlainEvalOrArguments <;> simp
    · intro h
      rw [CheckStrictModeLValue_eq, h]
      rfl
  · intro self accept_IN q q1 q2 x right hc hop hv hor hr
    rw [ParseAssignmentExpression_assign self accept_IN q q1 x hc hop,
      Parser.targetOrThrow_of_valid q1 x _ hv, hr]
    have hn : ¬ (q1.StrictMode = true ∧ x.IsPlainEvalOrArguments = true) := by
      rintro ⟨h1, h2⟩
      rcases hor with h | h
      · rw [h] at h1; cases h1
      · rw [h] at h2; cases h2
    rw [if_neg hn]
  · intro self q q1 x hop hu hv hor
    rw [ParseUnaryExpression_count self q q1 x hop hu, Parser.targetOrThrow_of_valid q1 x _ hv]
    have hn : ¬ (q1.StrictMode = true ∧ x.IsPlainEvalOrArguments = true) := by
      rintro ⟨h1, h2⟩
      rcases hor with h | h
      · rw [h] at h1; cases h1
      · rw [h] at h2; cases h2
    rw [if_neg hn]
  · intro self q q1 x hl hnl hop hv hor
    rw [ParsePostfixExpression_count self q q1 x hl hnl hop,
      Parser.targetOrThrow_of_valid q1 x _ hv]
    have hn : ¬ (q1.StrictMode = true ∧ x.IsPlainEvalOrArguments = true) := by
      rintro ⟨h1, h2⟩
      rcases hor with h | h
      · rw [h] at h1; cases h1
      · rw [h] at h2; cases h2
    rw [if_neg hn]

theorem strict_mode_lvalue_eval_or_arguments_witness :
    (ParseAssignmentExpression (productions 39) true (strictParser source_eval_assign_1)).1
        = none
    ∧ (ParseAssignmentExpression (productions 39) true
          (strictParser source_eval_assign_1)).2.messages
        = (strictParser source_eval_assign_1).messages
            ++ [⟨"strict_lhs_assignment", [], (tkIdentifier "eval" 0 4).location⟩] :=
  (strict_mode_lvalue_eval_or_arguments (strictParser source_eval_assign_1)
    (tkIdentifier "eval" 0 4) rfl rfl rfl rfl (by decide)).1 (productions 39) true
    (tk Token.ASSIGN 5 6) [tkNumber 1 7 8] rfl rfl

/-! ## Theorems: new-expressions -/

theorem Production.seq_eq_some {α β : Type} {m : Production α} {f : α → Production β}
    {p q : Parser} {b : β} (h : Production.seq m f p = (some b, q)) :
    ∃ a p1, m p = (some a, p1) ∧ f a p1 = (some b, q) := by
  rw [Production.seq_apply] at h
  cases hm : m p with
  | mk r p1 =>
    rw [hm] at h
    cases r with
    | none => cases h
    | some a => exact ⟨a, p1, rfl, h⟩

theorem applySuffixes_cons (e : Expression) (s : MemberSuffix) (l : List MemberSuffix) :
    applySuffixes e (s :: l) = applySuffixes (s.apply e) l := rfl

theorem applySuffixes_append (e : Expression) (l1 l2 : List MemberSuffix) :
    applySuffixes e (l1 ++ l2) = applySuffixes (applySuffixes e l1) l2 := by
  unfold applySuffixes
  rw [List.foldl_append]

theorem newPositions_append (l1 l2 : List MemberSuffix) :
    newPositions (l1 ++ l2) = newPositions l1 ++ newPositions l2 := by
  unfold newPositions
  rw [List.filterMap_append]

theorem MemberLoopSpec_refl (stack : List Int) (result : Expression) :
    MemberLoopSpec stack result result (some stack) :=
  ⟨[], stack, rfl, rfl, rfl⟩

theorem MemberLoopSpec_cons {stack stack2 : List Int} {result e : Expression}
    {st : PositionStack} (s : MemberSuffix)
    (hstack : newPositions [s] ++ stack2 = stack)
    (h : MemberLoopSpec stack2 (s.apply result) e st) :
    MemberLoopSpec stack result e st := by
  obtain ⟨suffixes, rest, he, hst, hpos⟩ := h
  refine ⟨s :: suffixes, rest, ?_, hst, ?_⟩
  · rw [applySuffixes_cons]
    exact he
  · rw [← hstack, ← hpos]
    show newPositions ([s] ++ suffixes) ++ rest = _
    rw [newPositions_append, List.append_assoc]

/-- One pass through the loop of `ParseMemberWithNewPrefixesExpression` keeps
the specification of the loop. -/
theorem ParseMemberWithNewPrefixesExpression_loop_step (self : Productions)
    (hself : ∀ (stack : List Int) (result e : Expression) (st : PositionStack)
      (p q : Parser),
      self.ParseMemberWithNewPrefixesExpression_loop (some stack) result p = (some (e, st), q) →
      MemberLoopSpec stack result e st)
    (stack : List Int) (result e : Expression) (st : PositionStack) (p q : Parser)
    (h : ParseMemberWithNewPrefixesExpression_loop self (some stack) result p
      = (some (e, st), q)) :
    MemberLoopSpec stack result e st := by
  unfold ParseMemberWithNewPrefixesExpression_loop at h
  simp only [Production.bind_eq, Production.pure_eq, peek] at h
  rw [Production.seq_apply, Production.read_apply] at h
  simp only at h
  generalize p.peek = tok at h
  cases tok
  case LBRACK =>
    obtain ⟨_, p1, _, h⟩ := Production.seq_eq_some h
    obtain ⟨pos, p2, _, h⟩ := Production.seq_eq_some h
    obtain ⟨index, p3, _, h⟩ := Production.seq_eq_some h
    obtain ⟨_, p4, _, h⟩ := Production.seq_eq_some h
    exact MemberLoopSpec_cons (MemberSuffix.index index pos) rfl (hself _ _ _ _ _ _ h)
  case PERIOD =>
    obtain ⟨_, p1, _, h⟩ := Production.seq_eq_some h
    obtain ⟨pos, p2, _, h⟩ := Production.seq_eq_some h
    obtain ⟨name, p3, _, h⟩ := Production.seq_eq_some h
    exact MemberLoopSpec_cons (MemberSuffix.member name pos) rfl (hself _ _ _ _ _ _ h)
  case LPAREN =>
    cases stack with
    | nil =>
      simp only [Production.ret_apply, Prod.mk.injEq, Option.some.injEq] at h
      obtain ⟨⟨rfl, rfl⟩, _⟩ := h
      exact MemberLoopSpec_refl _ _
    | cons last rest =>
      simp only at h
      obtain ⟨args, p1, _, h⟩ := Production.seq_eq_some h
      exact MemberLoopSpec_cons (MemberSuffix.call_new args last) rfl (hself _ _ _ _ _ _ h)
  all_goals
    simp only [Production.ret_apply, Prod.mk.injEq, Option.some.injEq] at h
    obtain ⟨⟨rfl, rfl⟩, _⟩ := h
    exact MemberLoopSpec_refl _ _

/-- The loop of `ParseMemberWithNewPrefixesExpression` at every recursion
budget. -/
theorem ParseMemberWithNewPrefixesExpression_loop_spec :
    ∀ (fuel : Nat) (stack : List Int) (result e : Expression) (st : PositionStack)
      (p q : Parser),
      ParseMemberWithNewPrefixesExpression_loop (productions fuel) (some stack) result p
        = (some (e, st), q) →
      MemberLoopSpec stack result e st := by
  intro fuel
  induction fuel with
  | zero =>
    apply ParseMemberWithNewPrefixesExpression_loop_step
    intro stack result e st p q h
    cases h
  | succ fuel ih =>
    apply ParseMemberWithNewPrefixesExpression_loop_step
    exact ih

theorem Production.seq_assoc {α β γ : Type} (m : Production α) (f : α → Production β)
    (g : β → Production γ) :
    (m.seq f).seq g = m.seq (fun a => (f a).seq g) := by
  funext p
  simp only [Production.seq_apply]
  rcases m p with ⟨o, p1⟩
  cases o <;> rfl

theorem Production.ite_seq {α β : Type} (c : Prop) [Decidable c] (a b : Production α)
    (g : α → Production β) :
    (if c then a else b).seq g = if c then a.seq g else b.seq g := by
  split_ifs <;> rfl

theorem ParseMemberWithNewPrefixesExpression_eq (self : Productions) (stack : PositionStack) :
    ParseMemberWithNewPrefixesExpression self stack
      = Production.seq (ParseMemberPrimary self)
          (ParseMemberWithNewPrefixesExpression_loop self stack) := by
  unfold ParseMemberWithNewPrefixesExpression ParseMemberPrimary
  simp only [Production.bind_eq, Production.pure_eq, Production.seq_assoc, Production.ite_seq]

theorem Parser.Next_fst_peek (p : Parser) : p.Next.1 = p.peek := by
  unfold Parser.Next Parser.peek
  split_ifs <;> rfl

theorem take_drop_step {α : Type} :
    ∀ (n : Nat) (l : List α) (last : α) (rest : List α), l.drop n = last :: rest →
      l.take (n + 1) = l.take n ++ [last] ∧ l.drop (n + 1) = rest := by
  intro n
  induction n with
  | zero =>
    intro l last rest h
    cases l with
    | nil => cases h
    | cons a l =>
      simp only [List.drop_zero, List.cons.injEq] at h
      obtain ⟨rfl, rfl⟩ := h
      simp
  | succ n ih =>
    intro l last rest h
    cases l with
    | nil => cases h
    | cons a l =>
      simp only [List.drop_succ_cons] at h
      obtain ⟨h1, h2⟩ := ih l last rest h
      refine ⟨?_, ?_⟩
      · rw [List.take_succ_cons, h1]
        rfl
      · rw [List.drop_succ_cons, h2]

theorem take_drop_done {α : Type} (n : Nat) (l : List α) (h : l.drop n = []) :
    l.take (n + 1) = l.take n ∧ l.drop (n + 1) = [] := by
  have hl : l.length ≤ n := List.drop_eq_nil_iff.mp h
  refine ⟨?_, ?_⟩
  · rw [List.take_of_length_le (by omega), List.take_of_length_le hl]
  · exact List.drop_eq_nil_iff.mpr (by omega)

theorem unmatchedSuffixes_append (a b : List Int) :
    unmatchedSuffixes (a ++ b) = unmatchedSuffixes a ++ unmatchedSuffixes b := by
  unfold unmatchedSuffixes
  exact List.map_append _ _ _

theorem newPositions_unmatchedSuffixes (l : List Int) :
    newPositions (unmatchedSuffixes l) = l := by
  induction l with
  | nil => rfl
  | cons a l ih =>
    show a :: newPositions (unmatchedSuffixes l) = a :: l
    rw [ih]

/-- One level of `ParseNewPrefix`, given the specification of the level
below. -/
theorem ParseNewPrefix_step (fuel : Nat)
    (hself : ∀ (stack : List Int) (p : Parser) (e : Expression) (st : List Int) (q : Parser),
      (productions fuel).ParseNewPrefix stack p = (some (e, st), q) →
      NewPrefixSpec stack p e st q)
    (stack : List Int) (p : Parser) (e : Expression) (st : List Int) (q : Parser)
    (h : ParseNewPrefix (productions fuel) stack p = (some (e, st), q)) :
    NewPrefixSpec stack p e st q := by
  unfold ParseNewPrefix at h
  simp only [Production.bind_eq, Production.pure_eq] at h
  obtain ⟨_, p1, hexp, h⟩ := Production.seq_eq_some h
  have hnew : p.peek = Token.NEW ∧ p1 = p.Next.2 := by
    unfold Expect Next at hexp
    simp only [Production.bind_eq, Production.pure_eq, Production.seq_apply,
      Production.step_apply] at hexp
    split_ifs at hexp with hn
    · rw [Parser.Next_fst_peek] at hn
      simp only [Production.ret_apply, Prod.mk.injEq] at hexp
      exact ⟨hn, hexp.2.symm⟩
    · cases hexp
  obtain ⟨hpeek, rfl⟩ := hnew
  simp only [location_beg_pos, peek] at h
  rw [Production.seq_apply, Production.read_apply] at h
  simp only at h
  rw [Production.seq_apply, Production.read_apply] at h
  simp only at h
  by_cases hn : p.Next.2.peek = Token.NEW
  · -- another `new` keyword
    rw [if_pos hn] at h
    obtain ⟨⟨e2, st2⟩, p2, hr, h⟩ := Production.seq_eq_some h
    simp only at h
    obtain ⟨n, f, primary, p3, member, rest, hkw, hprim, hloop, hpos, he, hst⟩ :=
      hself _ _ _ _ _ hr
    have hstack : (Parser.positions p (n + 1 + 1)).reverse ++ stack
        = (Parser.positions p.Next.2 (n + 1)).reverse
          ++ p.Next.2.scanner_.location.beg_pos :: stack := by
      show (p.Next.2.scanner_.location.beg_pos :: Parser.positions p.Next.2 (n + 1)).reverse
        ++ stack = _
      rw [List.reverse_cons, List.append_assoc]
      rfl
    cases hd : rest.drop (n + 1) with
    | nil =>
      obtain ⟨ht, hd2⟩ := take_drop_done (n + 1) rest hd
      rw [hst, hd] at h
      simp only [Production.ret_apply, Prod.mk.injEq, Option.some.injEq] at h
      obtain ⟨⟨rfl, rfl⟩, rfl⟩ := h
      refine ⟨n + 1, f, primary, p3, member, rest, ⟨hpeek, hkw⟩, hprim, ?_, ?_, ?_, ?_⟩
      · rw [hstack]
        exact hloop
      · rw [hstack]
        exact hpos
      · rw [ht]
        exact he
      · exact hd2.symm
    | cons last rest2 =>
      obtain ⟨ht, hd2⟩ := take_drop_step (n + 1) rest last rest2 hd
      rw [hst, hd] at h
      simp only [Production.ret_apply, Prod.mk.injEq, Option.some.injEq] at h
      obtain ⟨⟨rfl, rfl⟩, rfl⟩ := h
      refine ⟨n + 1, f, primary, p3, member, rest, ⟨hpeek, hkw⟩, hprim, ?_, ?_, ?_, ?_⟩
      · rw [hstack]
        exact hloop
      · rw [hstack]
        exact hpos
      · rw [ht, unmatchedSuffixes_append, ← List.append_assoc, applySuffixes_append, ← he]
        rfl
      · exact hd2.symm
  · -- the member expression
    rw [if_neg hn, ParseMemberWithNewPrefixesExpression_eq] at h
    obtain ⟨r2, p3, hr2, h⟩ := Production.seq_eq_some h
    obtain ⟨primary, p4, hprim, hloop⟩ := Production.seq_eq_some hr2
    rw [Production.seq_apply, Production.ret_apply] at h
    simp only at h
    obtain ⟨member, rest, he, hst, hpos⟩ :=
      ParseMemberWithNewPrefixesExpression_loop_spec fuel _ _ _ _ _ _ hloop
    obtain ⟨e2, st2⟩ := r2
    simp only at he hst h
    subst he hst
    simp only [Option.getD_some] at h
    cases rest with
    | nil =>
      simp only [Production.ret_apply, Prod.mk.injEq, Option.some.injEq] at h
      obtain ⟨⟨rfl, rfl⟩, rfl⟩ := h
      refine ⟨0, fuel, primary, p4, member, [], ⟨hpeek, hn⟩, hprim, hloop, hpos, ?_, rfl⟩
      simp [unmatchedSuffixes]
    | cons last rest2 =>
      simp only [Production.ret_apply, Prod.mk.injEq, Option.some.injEq] at h
      obtain ⟨⟨rfl, rfl⟩, rfl⟩ := h
      refine ⟨0, fuel, primary, p4, member, last :: rest2, ⟨hpeek, hn⟩, hprim, hloop, hpos,
        ?_, rfl⟩
      rw [applySuffixes_append]
      rfl

/-- What `ParseNewPrefix` returns, at every recursion budget. -/
theorem ParseNewPrefix_spec :
    ∀ (fuel : Nat) (stack : List Int) (p : Parser) (e : Expression) (st : List Int)
      (q : Parser),
      ParseNewPrefix (productions fuel) stack p = (some (e, st), q) →
      NewPrefixSpec stack p e st q := by
  intro fuel
  induction fuel with
  | zero =>
    apply ParseNewPrefix_step
    intro stack p e st q h
    cases h
  | succ fuel ih =>
    apply ParseNewPrefix_step
    exact ih

theorem Parser.positions_length (k : Nat) : ∀ p : Parser, (Parser.positions p k).length = k := by
  induction k with
  | zero => intro p; rfl
  | succ k ih =>
    intro p
    show (Parser.positions p.Next.2 k).length + 1 = k + 1
    rw [ih]

/-- C16: a successful `ParseNewExpression` has read `n + 1` consecutive `new`
keywords and then a member expression `primary`; its result is `primary`
under the suffixes `member` of the member loop followed by a `CallNew` with an
empty argument list for every position `unmatched` that the loop has left on
the stack.  The `CallNew` nodes so built carry, from the innermost outwards,
the positions of the `new` keywords from the last to the first, so there are
exactly `n + 1` of them and each argument list is bound to the innermost
unmatched `new`; the position stack is empty in the end.  `new a.b.c` and
`new a.b.c()` both give one `CallNew` over `a.b.c`, `new new a(x)` gives
`CallNew(CallNew(a, [x]), [])`, and in `new a(x)(y)` the second argument list
is left unread. -/
theorem ParseNewExpression_position_stack (fuel : Nat) (p q : Parser) (e : Expression)
    (h : ParseNewExpression (productions fuel) p = (some e, q)) :
    (∃ (n f : Nat) (primary : Expression) (p1 : Parser) (member : List MemberSuffix)
        (unmatched : List Int),
      Parser.NewKeywords p (n + 1)
      ∧ ParseMemberPrimary (productions f) (Parser.advance p (n + 1)) = (some primary, p1)
      ∧ ParseMemberWithNewPrefixesExpression_loop (productions f)
          (some (Parser.positions p (n + 1)).reverse) primary p1
          = (some (applySuffixes primary member, some unmatched), q)
      ∧ e = applySuffixes primary (member ++ unmatchedSuffixes unmatched)
      ∧ newPositions (member ++ unmatchedSuffixes unmatched)
          = (Parser.positions p (n + 1)).reverse
      ∧ (newPositions (member ++ unmatchedSuffixes unmatched)).length = n + 1
      ∧ ParseNewPrefix (productions fuel) [] p = (some (e, []), q))
    ∧ (ParseNewPrefix (productions 40) [] (sloppyParser source_new_a_b_c)).1
        = some (Expression.CallNew expression_a_b_c ExpressionList.nil 0, [])
    ∧ (ParseNewPrefix (productions 40) [] (sloppyParser source_new_a_b_c_call)).1
        = some (Expression.CallNew expression_a_b_c ExpressionList.nil 0, [])
    ∧ (ParseNewPrefix (productions 40) [] (sloppyParser source_new_new_a_x)).1
        = some (Expression.CallNew
            (Expression.CallNew (identifierProxy 3 "a")
              (ExpressionList.cons (identifierProxy 4 "x") ExpressionList.nil) 4)
            ExpressionList.nil 0, [])
    ∧ (ParseNewExpression (productions 40) (sloppyParser source_new_a_x_y)).1
        = some (Expression.CallNew (identifierProxy 3 "a")
            (ExpressionList.cons (identifierProxy 4 "x") ExpressionList.nil) 0)
    ∧ (ParseNewExpression (productions 40) (sloppyParser source_new_a_x_y)).2.peek
        = Token.LPAREN := by
  refine ⟨?_, rfl, rfl, rfl, rfl, rfl⟩
  unfold ParseNewExpression at h
  simp only [Production.bind_eq, Production.pure_eq] at h
  obtain ⟨⟨e2, st2⟩, p2, hr, h⟩ := Production.seq_eq_some h
  simp only [Production.ret_apply, Prod.mk.injEq, Option.some.injEq] at h
  obtain ⟨rfl, rfl⟩ := h
  obtain ⟨n, f, primary, p1, member, rest, hkw, hprim, hloop, hpos, he, hst⟩ :=
    ParseNewPrefix_spec fuel _ _ _ _ _ hr
  rw [List.append_nil] at hpos hloop
  have hlen : (newPositions member).length + rest.length = n + 1 := by
    have := congrArg List.length hpos
    rw [List.length_append, List.length_reverse, Parser.positions_length] at this
    exact this
  have htake : rest.take (n + 1) = rest := List.take_of_length_le (by omega)
  have hdrop : rest.drop (n + 1) = [] := List.drop_eq_nil_iff.mpr (by omega)
  rw [htake] at he
  rw [hdrop] at hst
  subst hst
  have hall : newPositions (member ++ unmatchedSuffixes rest)
      = (Parser.positions p (n + 1)).reverse := by
    rw [newPositions_append, newPositions_unmatchedSuffixes]
    exact hpos
  refine ⟨n, f, primary, p1, member, rest, hkw, hprim, hloop, he, hall, ?_, hr⟩
  rw [hall, List.length_reverse, Parser.positions_length]

theorem ParseNewExpression_position_stack_witness :
    ∃ (n f : Nat) (primary : Expression) (p1 : Parser) (member : List MemberSuffix)
        (unmatched : List Int),
      Parser.NewKeywords (sloppyParser source_new_new_a_x) (n + 1)
      ∧ ParseMemberPrimary (productions f)
          (Parser.advance (sloppyParser source_new_new_a_x) (n + 1)) = (some primary, p1)
      ∧ Expression.CallNew
            (Expression.CallNew (identifierProxy 3 "a")
              (ExpressionList.cons (identifierProxy 4 "x") ExpressionList.nil) 4)
            ExpressionList.nil 0
          = applySuffixes primary (member ++ unmatchedSuffixes unmatched)
      ∧ newPositions (member ++ unmatchedSuffixes unmatched)
          = (Parser.positions (sloppyParser source_new_new_a_x) (n + 1)).reverse :=
  have h := (ParseNewExpression_position_stack 40 (sloppyParser source_new_new_a_x)
    (ParseNewExpression (productions 40) (sloppyParser source_new_new_a_x)).2
    (Expression.CallNew
      (Expression.CallNew (identifierProxy 3 "a")
        (ExpressionList.cons (identifierProxy 4 "x") ExpressionList.nil) 4)
      ExpressionList.nil 0) rfl).1
  match h with
  | ⟨n, f, primary, p1, member, unmatched, h1, h2, _, h4, h5, _⟩ =>
    ⟨n, f, primary, p1, member, unmatched, h1, h2, h4, h5⟩

/-! ## The precedence tree of `ParseBinaryExpression` -/

theorem OperatorChain_append (F0 : Nat) :
    ∀ (a b : List BinaryItem) (t e : Parser), OperatorChain F0 t (a ++ b) e →
      ∃ m, OperatorChain F0 t a m ∧ OperatorChain F0 m b e := by
  intro a
  induction a with
  | nil =>
    intro b t e h
    exact ⟨t, rfl, h⟩
  | cons it a ih =>
    intro b t e h
    obtain ⟨h1, h2, t2, h3, h4⟩ := h
    obtain ⟨m, h5, h6⟩ := ih b t2 e h4
    exact ⟨m, ⟨h1, h2, t2, h3, h5⟩, h6⟩

/-- A list of operators splits into its longest prefix of operators with at
least the precedence `l` and a rest that does not begin with such an
operator. -/
theorem split_at_precedence (accept_IN : Bool) (l : Int) :
    ∀ items : List BinaryItem, ∃ pre post, items = pre ++ post
      ∧ AllAtLeast accept_IN l pre ∧ HeadAtMost accept_IN (l - 1) post := by
  intro items
  induction items with
  | nil =>
    refine ⟨[], [], rfl, ?_, ?_⟩
    · intro it h
      cases h
    · intro it h
      cases h
  | cons a items ih =>
    by_cases ha : l ≤ Precedence a.op accept_IN
    · obtain ⟨pre, post, h1, h2, h3⟩ := ih
      refine ⟨a :: pre, post, ?_, ?_, h3⟩
      · rw [h1]
        rfl
      · intro it h
        rcases List.mem_cons.mp h with rfl | h
        · exact ha
        · exact h2 it h
    · refine ⟨[], a :: items, rfl, ?_, ?_⟩
      · intro it h
        cases h
      · intro it h
        simp only [List.head?_cons, Option.mem_def, Option.some.injEq] at h
        subst h
        omega

/-- The token after a chain has a precedence below `l` when the token after
the whole text has one and the rest of the chain does not begin with an
operator of precedence `l` or more. -/
theorem OperatorChain_stop (F0 : Nat) (accept_IN : Bool) (l : Int) (post : List BinaryItem)
    (mid m : Parser) (hchain : OperatorChain F0 mid post m)
    (hhead : HeadAtMost accept_IN (l - 1) post) (hstop : Precedence m.peek accept_IN < l) :
    Precedence mid.peek accept_IN < l := by
  cases post with
  | nil =>
    cases hchain
    exact hstop
  | cons it post =>
    obtain ⟨h1, _⟩ := hchain
    have := hhead it rfl
    rw [h1]
    omega

theorem OperatorChain_head (F0 : Nat) (accept_IN : Bool) (l : Int) (items : List BinaryItem)
    (t m : Parser) (hchain : OperatorChain F0 t items m)
    (hne : items ≠ []) (hpeek : Precedence t.peek accept_IN ≤ l) :
    HeadAtMost accept_IN l items := by
  cases items with
  | nil => exact absurd rfl hne
  | cons it items =>
    obtain ⟨h1, _⟩ := hchain
    intro it2 h
    simp only [List.head?_cons, Option.mem_def, Option.some.injEq] at h
    subst h
    rw [← h1]
    exact hpeek

theorem AllAtLeast_append (accept_IN : Bool) (l : Int) (a b : List BinaryItem)
    (ha : AllAtLeast accept_IN l a) (hb : AllAtLeast accept_IN l b) :
    AllAtLeast accept_IN l (a ++ b) := by
  intro it h
  rcases List.mem_append.mp h with h | h
  · exact ha it h
  · exact hb it h

theorem AllAtLeast_mono (accept_IN : Bool) (l l2 : Int) (a : List BinaryItem)
    (ha : AllAtLeast accept_IN l a) (h : l2 ≤ l) : AllAtLeast accept_IN l2 a := by
  intro it hit
  have := ha it hit
  omega

/-- The inner loop on `n` operators, from `ParseBinaryExpression` and the
inner loop on fewer operators. -/
theorem WhileSpec_step (F0 : Nat) (accept_IN : Bool) (n : Nat)
    (hB : ∀ k, k < n → BinarySpec F0 accept_IN k)
    (hW : ∀ k, k < n → WhileSpec F0 accept_IN k) :
    WhileSpec F0 accept_IN n := by
  intro items hlen l acc t m hl hchain hall hhead hstop hclimb hacc
  cases items with
  | nil =>
    cases hchain
    refine ⟨acc, rfl, (List.append_nil _).symm, hclimb, ?_⟩
    intro f _
    rw [ParseBinaryExpression_while_eq, if_neg (by omega)]
  | cons it tl =>
    obtain ⟨hop, hpos, t2, hoperand, hchain2⟩ := hchain
    have hit : Precedence it.op accept_IN = l := by
      have h1 := hall it (List.mem_cons_self _ _)
      have h2 := hhead it rfl
      omega
    have htl : AllAtLeast accept_IN l tl := fun x hx => hall x (List.mem_cons_of_mem _ hx)
    obtain ⟨pre, post, hsplit, hpre, hpost⟩ := split_at_precedence accept_IN (l + 1) tl
    subst hsplit
    have hlen2 : pre.length + post.length + 1 = n := by
      rw [← hlen, List.length_cons, List.length_append]
    obtain ⟨mid, hc1, hc2⟩ := OperatorChain_append F0 pre post t2 m hchain2
    have hmid : Precedence mid.peek accept_IN < l + 1 :=
      OperatorChain_stop F0 accept_IN (l + 1) post mid m hc2 hpost (by omega)
    obtain ⟨ty, hy1, hy2, hy3, hy4⟩ :=
      hB pre.length (by omega) pre rfl (l + 1) t.Next.2 it.x t2 mid (by omega) hoperand hc1
        hpre hmid
    have hpost2 : AllAtLeast accept_IN l post :=
      fun x hx => htl x (List.mem_append_right _ hx)
    have hpost3 : HeadAtMost accept_IN l post := by
      intro x hx
      have := hpost x hx
      omega
    have hitems : (OpTree.node it.op it.pos acc ty).items = acc.items ++ it :: pre := by
      show acc.items ++ ⟨it.op, it.pos, ty.first⟩ :: ty.items = _
      rw [hy1, hy2]
    have hclimb2 : (OpTree.node it.op it.pos acc ty).Climbs accept_IN := by
      refine ⟨?_, ?_, hclimb, hy3⟩
      · intro x hx
        have := hacc x hx
        omega
      · intro x hx
        rw [hy2] at hx
        have := hpre x hx
        omega
    have hacc2 : AllAtLeast accept_IN l (OpTree.node it.op it.pos acc ty).items := by
      rw [hitems]
      refine AllAtLeast_append accept_IN l _ _ hacc ?_
      intro x hx
      rcases List.mem_cons.mp hx with rfl | hx
      · omega
      · have := hpre x hx
        omega
    have hstop2 : Precedence m.peek accept_IN < l := hstop
    obtain ⟨tree, hr1, hr2, hr3, hr4⟩ :=
      hW post.length (by omega) post rfl l (OpTree.node it.op it.pos acc ty) mid m hl hc2
        hpost2 hpost3 hstop2 hclimb2 hacc2
    refine ⟨tree, hr1, ?_, hr3, ?_⟩
    · rw [hr2, hitems, List.append_assoc]
      rfl
    · intro f hf
      obtain ⟨f2, rfl⟩ : ∃ f2, f = f2 + 1 := ⟨f - 1, by
        simp only [List.length_cons] at hf
        omega⟩
      simp only [List.length_cons, List.length_append] at hf
      rw [ParseBinaryExpression_while_eq, if_pos (by rw [hop]; exact hit)]
      show Production.seq (ParseBinaryExpression (productions f2) (l + 1) accept_IN)
        (fun y => ParseBinaryExpression_while (productions f2) l accept_IN
          (BuildBinary t.Next.1 acc.toExpression y t.Next.2.scanner_.location.beg_pos))
        t.Next.2 = _
      rw [Production.seq_apply, hy4 f2 (by omega)]
      simp only
      rw [Parser.Next_fst_peek, hop, hpos]
      exact hr4 f2 (by omega)

/-- The `for` loop of `ParseBinaryExpression` from the level `l` down to the
requested precedence `q`, given the inner loop on at most `N` operators. -/
theorem ParseBinaryExpression_for_spec (F0 : Nat) (accept_IN : Bool) (N : Nat)
    (hW : ∀ k, k ≤ N → WhileSpec F0 accept_IN k) :
    ∀ (d : Nat) (items : List BinaryItem), items.length ≤ N →
      ∀ (q l : Int) (acc : OpTree) (t m : Parser), 4 ≤ q → l + 1 = q + d →
        OperatorChain F0 t items m →
        AllAtLeast accept_IN q items → HeadAtMost accept_IN l items →
        Precedence m.peek accept_IN < q →
        acc.Climbs accept_IN → AllAtLeast accept_IN (l + 1) acc.items →
        ∃ tree : OpTree, tree.first = acc.first ∧ tree.items = acc.items ++ items
          ∧ tree.Climbs accept_IN
          ∧ ∀ f, F0 + 11 * items.length + d ≤ f →
              ParseBinaryExpression_for (productions f) q l accept_IN acc.toExpression t
                = (some tree.toExpression, m) := by
  intro d
  induction d with
  | zero =>
    intro items _ q l acc t m hq hl hchain hall hhead hstop hclimb hacc
    cases items with
    | nil =>
      cases hchain
      refine ⟨acc, rfl, (List.append_nil _).symm, hclimb, ?_⟩
      intro f _
      exact ParseBinaryExpression_for_of_lt _ _ _ _ _ _ (by omega)
    | cons it tl =>
      have h1 := hall it (List.mem_cons_self _ _)
      have h2 := hhead it rfl
      omega
  | succ d ih =>
    intro items hlen q l acc t m hq hl hchain hall hhead hstop hclimb hacc
    obtain ⟨pre, post, hsplit, hpre, hpost⟩ := split_at_precedence accept_IN l items
    subst hsplit
    rw [List.length_append] at hlen
    obtain ⟨mid, hc1, hc2⟩ := OperatorChain_append F0 pre post t m hchain
    have hmid : Precedence mid.peek accept_IN < l :=
      OperatorChain_stop F0 accept_IN l post mid m hc2 hpost (by omega)
    have hhead1 : HeadAtMost accept_IN l pre := by
      intro x hx
      apply hhead x
      cases pre with
      | nil => cases hx
      | cons a pre => exact hx
    obtain ⟨t1, ha1, ha2, ha3, ha4⟩ :=
      hW pre.length (by omega) pre rfl l acc t mid (by omega) hc1 hpre hhead1 hmid hclimb
        (AllAtLeast_mono accept_IN (l + 1) l _ hacc (by omega))
    have hacc2 : AllAtLeast accept_IN (l - 1 + 1) t1.items := by
      rw [ha2]
      refine AllAtLeast_append accept_IN _ _ _ ?_ ?_
      · exact AllAtLeast_mono accept_IN (l + 1) _ _ hacc (by omega)
      · exact AllAtLeast_mono accept_IN l _ _ hpre (by omega)
    obtain ⟨tree, hr1, hr2, hr3, hr4⟩ :=
      ih post (by omega) q (l - 1) t1 mid m hq (by push_cast at hl; omega) hc2
        (fun x hx => hall x (List.mem_append_right _ hx)) hpost hstop ha3 hacc2
    refine ⟨tree, hr1.trans ha1, ?_, hr3, ?_⟩
    · rw [hr2, ha2, List.append_assoc]
    · intro f hf
      obtain ⟨f2, rfl⟩ : ∃ f2, f = f2 + 1 := ⟨f - 1, by omega⟩
      rw [List.length_append] at hf
      rw [ParseBinaryExpression_for_eq, if_pos (by push_cast at hl; omega),
        Production.seq_apply, ha4 (f2 + 1) (by omega)]
      exact hr4 f2 (by omega)

/-- The function `ParseBinaryExpression` on `n` operators, given the inner loop on at
most `n` operators. -/
theorem BinarySpec_step (F0 : Nat) (accept_IN : Bool) (n : Nat)
    (hW : ∀ k, k ≤ n → WhileSpec F0 accept_IN k) :
    BinarySpec F0 accept_IN n := by
  intro items hlen q s x0 t0 m hq hoperand hchain hall hstop
  by_cases hlt : Precedence t0.peek accept_IN < q
  · cases items with
    | nil =>
      cases hchain
      refine ⟨OpTree.leaf x0, rfl, rfl, trivial, ?_⟩
      intro f hf
      rw [ParseBinaryExpression_eq, Production.seq_apply, hoperand f (by omega)]
      exact ParseBinaryExpression_for_of_lt _ _ _ _ _ _ hlt
    | cons it tl =>
      have h1 := hall it (List.mem_cons_self _ _)
      rw [← hchain.1] at h1
      omega
  · have hle := Precedence_le t0.peek accept_IN
    obtain ⟨d, hd⟩ : ∃ d : Nat, Precedence t0.peek accept_IN + 1 = q + d :=
      ⟨(Precedence t0.peek accept_IN + 1 - q).toNat, by omega⟩
    have hhead : HeadAtMost accept_IN (Precedence t0.peek accept_IN) items := by
      cases items with
      | nil =>
        intro x hx
        cases hx
      | cons it tl =>
        exact OperatorChain_head F0 accept_IN _ _ t0 m hchain (List.cons_ne_nil _ _)
          (le_refl _)
    obtain ⟨tree, hr1, hr2, hr3, hr4⟩ :=
      ParseBinaryExpression_for_spec F0 accept_IN n hW d items (by omega) q
        (Precedence t0.peek accept_IN) (OpTree.leaf x0) t0 m hq hd hchain hall hhead hstop
        trivial (fun x hx => by cases hx)
    refine ⟨tree, hr1, hr2, hr3, ?_⟩
    intro f hf
    rw [ParseBinaryExpression_eq, Production.seq_apply, hoperand f (by omega)]
    exact hr4 f (by omega)

/-- The specifications of `ParseBinaryExpression` and of its inner loop hold
for every number of operators. -/
theorem BinarySpec_all (F0 : Nat) (accept_IN : Bool) :
    ∀ n, WhileSpec F0 accept_IN n ∧ BinarySpec F0 accept_IN n := by
  intro n
  induction n using Nat.strong_induction_on with
  | _ n ih =>
    have hW : WhileSpec F0 accept_IN n :=
      WhileSpec_step F0 accept_IN n (fun k hk => (ih k hk).2) (fun k hk => (ih k hk).1)
    refine ⟨hW, BinarySpec_step F0 accept_IN n ?_⟩
    intro k hk
    rcases Nat.lt_or_eq_of_le hk with h | h
    · exact (ih k h).1
    · rw [h]
      exact hW

theorem OpTree.NonLiteral_of_operands :
    ∀ t : OpTree, t.first.AsNumberLiteral = none →
      (∀ it ∈ t.items, it.x.AsNumberLiteral = none) → t.NonLiteral := by
  intro t
  induction t with
  | leaf x =>
    intro h _
    exact h
  | node op pos l r ihl ihr =>
    intro h hall
    refine ⟨ihl h ?_, ihr ?_ ?_⟩
    · intro it hit
      exact hall it (List.mem_append_left _ hit)
    · exact hall ⟨op, pos, r.first⟩ (List.mem_append_right _ (List.mem_cons_self _ _))
    · intro it hit
      exact hall it (List.mem_append_right _ (List.mem_cons_of_mem _ hit))

theorem NewCompareNode_not_number (op : Token) (x y : Expression) (pos : Int) :
    (NewCompareNode op x y pos).AsNumberLiteral = none := by
  unfold NewCompareNode
  dsimp only
  split_ifs <;> rfl

theorem BuildUnfolded_not_number (op : Token) (x y : Expression) (pos : Int) :
    (BuildUnfolded op x y pos).AsNumberLiteral = none := by
  unfold BuildUnfolded
  dsimp only
  split_ifs
  · rfl
  · exact NewCompareNode_not_number _ _ _ _
  · rfl

theorem BuildBinary_unfolded (op : Token) (x y : Expression) (pos : Int)
    (hx : x.AsNumberLiteral = none) :
    BuildBinary op x y pos = BuildUnfolded op x y pos := by
  unfold BuildBinary FoldBinary
  rw [hx]
  rfl

/-- Over operands that are not number literals nothing is folded. -/
theorem OpTree.toExpression_unfolded :
    ∀ t : OpTree, t.NonLiteral →
      t.toExpression = t.unfolded ∧ t.toExpression.AsNumberLiteral = none := by
  intro t
  induction t with
  | leaf x =>
    intro h
    exact ⟨rfl, h⟩
  | node op pos l r ihl ihr =>
    intro h
    obtain ⟨hl1, hl2⟩ := ihl h.1
    obtain ⟨hr1, _⟩ := ihr h.2
    have hb : (OpTree.node op pos l r).toExpression
        = BuildUnfolded op l.unfolded r.unfolded pos := by
      show BuildBinary op l.toExpression r.toExpression pos = _
      rw [BuildBinary_unfolded op _ _ pos hl2, hl1, hr1]
    refine ⟨hb, ?_⟩
    rw [hb]
    exact BuildUnfolded_not_number _ _ _ _

/-- The precedence table leaves one tree over an operator sequence. -/
theorem OpTree.Climbs_unique (accept_IN : Bool) :
    ∀ t1 t2 : OpTree, t1.Climbs accept_IN → t2.Climbs accept_IN →
      t1.first = t2.first → t1.items = t2.items → t1 = t2 := by
  intro t1
  induction t1 with
  | leaf x =>
    intro t2 _ _ hf hi
    cases t2 with
    | leaf y =>
      show OpTree.leaf x = OpTree.leaf y
      rw [show x = y from hf]
    | node op2 pos2 l2 r2 =>
      exact absurd hi.symm (by
        show l2.items ++ _ :: r2.items ≠ []
        simp)
  | node op pos l r ihl ihr =>
    intro t2 h1 h2 hf hi
    cases t2 with
    | leaf y =>
      exact absurd hi (by
        show l.items ++ _ :: r.items ≠ []
        simp)
    | node op2 pos2 l2 r2 =>
      obtain ⟨hl, hr, hcl, hcr⟩ := h1
      obtain ⟨hl2, hr2, hcl2, hcr2⟩ := h2
      have hi2 : l.items ++ (⟨op, pos, r.first⟩ : BinaryItem) :: r.items
          = l2.items ++ (⟨op2, pos2, r2.first⟩ : BinaryItem) :: r2.items := hi
      have key : l.items = l2.items
          ∧ (⟨op, pos, r.first⟩ : BinaryItem) :: r.items
            = (⟨op2, pos2, r2.first⟩ : BinaryItem) :: r2.items := by
        rcases List.append_eq_append_iff.mp hi2 with ⟨c, hc1, hc2⟩ | ⟨c, hc1, hc2⟩
        · cases c with
          | nil =>
            rw [List.append_nil] at hc1
            exact ⟨hc1.symm, hc2⟩
          | cons y c =>
            simp only [List.cons_append, List.cons.injEq] at hc2
            obtain ⟨hy, hc3⟩ := hc2
            have ha := hl2 ⟨op, pos, r.first⟩ (by rw [hc1, hy]; simp)
            have hb := hr ⟨op2, pos2, r2.first⟩ (by rw [hc3]; simp)
            simp only at ha hb
            omega
        · cases c with
          | nil =>
            rw [List.append_nil] at hc1
            exact ⟨hc1, hc2.symm⟩
          | cons y c =>
            simp only [List.cons_append, List.cons.injEq] at hc2
            obtain ⟨hy, hc3⟩ := hc2
            have ha := hl ⟨op2, pos2, r2.first⟩ (by rw [hc1, hy]; simp)
            have hb := hr2 ⟨op, pos, r.first⟩ (by rw [hc3]; simp)
            simp only at ha hb
            omega
      obtain ⟨hk1, hk2⟩ := key
      simp only [List.cons.injEq, BinaryItem.mk.injEq] at hk2
      obtain ⟨⟨rfl, rfl, hrf⟩, hri⟩ := hk2
      rw [ihl l2 hcl hcl2 hf hk1, ihr r2 hcr hcr2 hrf hri]

/-- C13: on an operand `x0` followed by the operators and operands `items`,
all of at least the requested precedence `q`, and then by a token of lower
precedence, `ParseBinaryExpression` returns, with enough recursion budget, the
expression of the one tree over them that follows the precedence table: under
every node the operators to the left have at least the precedence of the node
and those to the right a higher one.  It stops in the state `m` before the
token of lower precedence.  Over operands that are not number literals no node
is folded, and a node of an operator that is not a comparison is a
`BinaryOperation`.  So `a - b - c` is `(a - b) - c`, `a + b * c` is
`a + (b * c)`, and at the minimum 13 only `a * b` is read of `a * b + c`. -/
theorem ParseBinaryExpression_precedence_tree (F0 : Nat) (accept_IN : Bool) (q : Int)
    (s t0 m : Parser) (x0 : Expression) (items : List BinaryItem)
    (hq : 4 ≤ q) (hoperand : OperandAt F0 s x0 t0) (hchain : OperatorChain F0 t0 items m)
    (hall : AllAtLeast accept_IN q items) (hstop : Precedence m.peek accept_IN < q) :
    (∃ tree : OpTree, tree.first = x0 ∧ tree.items = items ∧ tree.Climbs accept_IN
      ∧ (∀ f, F0 + 11 * items.length + 10 ≤ f →
          ParseBinaryExpression (productions f) q accept_IN s = (some tree.toExpression, m))
      ∧ (x0.AsNumberLiteral = none → (∀ it ∈ items, it.x.AsNumberLiteral = none) →
          tree.toExpression = tree.unfolded)
      ∧ (∀ other : OpTree, other.first = x0 → other.items = items →
          other.Climbs accept_IN → other = tree))
    ∧ (∀ (op : Token) (x y : Expression) (pos : Int), op.IsCompareOp = false →
        BuildUnfolded op x y pos = Expression.BinaryOperation op x y pos)
    ∧ (ParseBinaryExpression (productions 40) 4 true (sloppyParser source_a_sub_b_sub_c)).1
        = some (Expression.BinaryOperation Token.SUB
            (Expression.BinaryOperation Token.SUB (identifierProxy 3 "a")
              (identifierProxy 4 "b") 2)
            (identifierProxy 5 "c") 6)
    ∧ (ParseBinaryExpression (productions 40) 4 true (sloppyParser source_a_add_b_mul_c)).1
        = some (Expression.BinaryOperation Token.ADD (identifierProxy 3 "a")
            (Expression.BinaryOperation Token.MUL (identifierProxy 4 "b")
              (identifierProxy 5 "c") 6) 2)
    ∧ (ParseBinaryExpression (productions 40) 13 true (sloppyParser source_a_mul_b_add_c)).1
        = some (Expression.BinaryOperation Token.MUL (identifierProxy 3 "a")
            (identifierProxy 4 "b") 2)
    ∧ (ParseBinaryExpression (productions 40) 13 true
        (sloppyParser source_a_mul_b_add_c)).2.peek = Token.ADD := by
  refine ⟨?_, ?_, rfl, rfl, rfl, rfl⟩
  · obtain ⟨tree, h1, h2, h3, h4⟩ :=
      (BinarySpec_all F0 accept_IN items.length).2 items rfl q s x0 t0 m hq hoperand hchain
        hall hstop
    refine ⟨tree, h1, h2, h3, h4, ?_, ?_⟩
    · intro hx hitems
      refine (OpTree.toExpression_unfolded tree (OpTree.NonLiteral_of_operands tree ?_ ?_)).1
      · rw [h1]
        exact hx
      · rw [h2]
        exact hitems
    · intro other ho1 ho2 ho3
      exact OpTree.Climbs_unique accept_IN other tree ho3 h3 (ho1.trans h1.symm)
        (ho2.trans h2.symm)
  · intro op x y pos h
    unfold BuildUnfolded
    rw [if_neg (by rw [h]; decide)]

theorem ParseBinaryExpression_precedence_tree_witness :
    ∃ tree : OpTree, tree.first = identifierProxy 3 "a"
      ∧ tree.items = [⟨Token.ADD, 2, identifierProxy 4 "b"⟩,
          ⟨Token.MUL, 6, identifierProxy 5 "c"⟩]
      ∧ tree.Climbs true
      ∧ ParseBinaryExpression (productions 32) 4 true (sloppyParser source_a_add_b_mul_c)
          = (some tree.toExpression,
             (sloppyParser source_a_add_b_mul_c).afterIdentifier.Next.2.afterIdentifier.Next.2.afterIdentifier) :=
  have h := (ParseBinaryExpression_precedence_tree 0 true 4
    (sloppyParser source_a_add_b_mul_c)
    (sloppyParser source_a_add_b_mul_c).afterIdentifier
    (sloppyParser source_a_add_b_mul_c).afterIdentifier.Next.2.afterIdentifier.Next.2.afterIdentifier
    (identifierProxy 3 "a")
    [⟨Token.ADD, 2, identifierProxy 4 "b"⟩, ⟨Token.MUL, 6, identifierProxy 5 "c"⟩]
    (by decide)
    (fun f _ => ParseUnaryExpression_identifier (productions f)
      (sloppyParser source_a_add_b_mul_c) (tkIdentifier "a" 0 1)
      [tk Token.ADD 2 3, tkIdentifier "b" 4 5, tk Token.MUL 6 7, tkIdentifier "c" 8 9]
      rfl rfl rfl rfl ⟨by decide, by decide, by decide, Or.inr rfl⟩)
    ⟨rfl, rfl, _, fun f _ => ParseUnaryExpression_identifier (productions f)
        (sloppyParser source_a_add_b_mul_c).afterIdentifier.Next.2 (tkIdentifier "b" 4 5)
        [tk Token.MUL 6 7, tkIdentifier "c" 8 9]
        rfl rfl rfl rfl ⟨by decide, by decide, by decide, Or.inr rfl⟩,
      rfl, rfl, _, fun f _ => ParseUnaryExpression_identifier (productions f)
        (sloppyParser source_a_add_b_mul_c).afterIdentifier.Next.2.afterIdentifier.Next.2
        (tkIdentifier "c" 8 9) []
        rfl rfl rfl rfl ⟨by decide, by decide, by decide, Or.inr rfl⟩,
      rfl⟩
    (by
      intro it hit
      simp only [List.mem_cons, List.mem_singleton, List.not_mem_nil, or_false] at hit
      rcases hit with rfl | rfl <;> decide)
    (by decide)).1
  match h with
  | ⟨tree, h1, h2, h3, h4, _⟩ => ⟨tree, h1, h2, h3, h4 32 (by decide)⟩

/-! ## Theorems: what a call of `CheckProperty` does to the parser -/

/-- A call of `CheckProperty` either accepts the property and leaves the parser
as it is, or rejects it with one message at `loc`; it has no result only when
the key is neither a symbol nor a number. -/
theorem ObjectLiteralPropertyChecker.CheckProperty_outcome (conv : KeyConversions)
    (checker : ObjectLiteralPropertyChecker) (property : ObjectLiteral.Property)
    (loc : Location) (parser : Parser) :
    (mapKey conv property = none ∧ CheckProperty conv checker property loc parser = none)
    ∨ (∃ checker1, CheckProperty conv checker property loc parser
        = some (true, checker1, parser))
    ∨ (∃ checker1 type, CheckProperty conv checker property loc parser
        = some (false, checker1, parser.ReportMessageAt loc type [])) := by
  unfold CheckProperty
  cases hk : mapKey conv property with
  | none => exact Or.inl ⟨rfl, rfl⟩
  | some key =>
    simp only []
    split_ifs
    · exact Or.inr (Or.inr ⟨_, _, rfl⟩)
    · exact Or.inr (Or.inr ⟨_, _, rfl⟩)
    · exact Or.inr (Or.inr ⟨_, _, rfl⟩)
    · exact Or.inr (Or.inl ⟨_, rfl⟩)

theorem ObjectLiteralPropertyChecker.mapKey_isSome (conv : KeyConversions)
    (property : ObjectLiteral.Property) (h : property.key.IsPropertyKey) :
    mapKey conv property ≠ none := by
  unfold mapKey
  rcases h with ⟨name, h⟩ | ⟨number, h⟩
  · rw [h]
    simp only []
    split <;> simp
  · rw [h]
    simp only []
    split <;> simp

/-- The production `CheckProperty` accepts the property and leaves the parser
as it is, or fails with one message at `loc`; for a key that is neither a
symbol nor a number it fails and leaves the parser as it is. -/
theorem CheckProperty_run (checker : ObjectLiteralPropertyChecker)
    (property : ObjectProperty) (loc : Location) (number_text : String) (p : Parser) :
    (¬ property.key.IsPropertyKey
      ∧ CheckProperty checker property loc number_text p = (none, p))
    ∨ (∃ checker1, CheckProperty checker property loc number_text p = (some checker1, p))
    ∨ (∃ type, CheckProperty checker property loc number_text p
        = (none, p.ReportMessageAt loc type [])) := by
  unfold CheckProperty
  rcases ObjectLiteralPropertyChecker.CheckProperty_outcome
      { AsArrayIndex := AsArrayIndex, ToArrayIndex := ToArrayIndex,
        DoubleToCString := fun _ => number_text } checker property.checked loc p
    with ⟨hk, h⟩ | ⟨c, h⟩ | ⟨c, type, h⟩
  · refine Or.inl ⟨fun hkey => ?_, ?_⟩
    · exact ObjectLiteralPropertyChecker.mapKey_isSome _ property.checked hkey hk
    · simp only [h]
  · exact Or.inr (Or.inl ⟨c, by simp only [h]⟩)
  · exact Or.inr (Or.inr ⟨type, by simp only [h]⟩)

theorem Production.Returns.of_bind {α β : Type} {m : Production α} {k : α → Production β}
    {P : β → Prop} (hk : ∀ a, (k a).Returns P) : (m >>= k).Returns P := by
  intro p q b h
  obtain ⟨a, p1, -, h2⟩ := Production.seq_eq_some h
  exact hk a p1 q b h2

theorem Production.Returns.of_pure {α : Type} {P : α → Prop} (a : α) (h : P a) :
    (Pure.pure a : Production α).Returns P := by
  intro p q b hb
  cases hb
  exact h

theorem Production.Returns.of_ite {α : Type} {P : α → Prop} (c : Prop) [Decidable c]
    {a b : Production α} (ha : a.Returns P) (hb : b.Returns P) :
    (if c then a else b).Returns P := by
  split_ifs
  · exact ha
  · exact hb

/-! ## Theorems: the strict flag is changed by `ParseSourceElements` only -/

set_option linter.unusedTactic false
set_option linter.unreachableTactic false

namespace Production.KeepsStrictMode

theorem pure {α : Type} (a : α) : (Pure.pure a : Production α).KeepsStrictMode :=
  ⟨fun _ => rfl⟩

theorem ret {α : Type} (a : α) : (Production.ret a).KeepsStrictMode := ⟨fun _ => rfl⟩

theorem fail {α : Type} : (Production.fail : Production α).KeepsStrictMode := ⟨fun _ => rfl⟩

theorem read {α : Type} (g : Parser → α) : (Production.read g).KeepsStrictMode :=
  ⟨fun _ => rfl⟩

theorem bind {α β : Type} {m : Production α} {k : α → Production β}
    (hm : m.KeepsStrictMode) (hk : ∀ a, (k a).KeepsStrictMode) :
    (m >>= k).KeepsStrictMode := by
  constructor
  intro p
  show (Production.seq m k p).2.StrictMode = p.StrictMode
  rw [Production.seq_apply]
  have h1 := hm.keeps p
  cases h : m p with
  | mk o q =>
    rw [h] at h1
    cases o with
    | none => exact h1
    | some a => exact ((hk a).keeps q).trans h1

theorem step {α : Type} {g : Parser → α × Parser}
    (h : ∀ p, (g p).2.StrictMode = p.StrictMode) : (Production.step g).KeepsStrictMode :=
  ⟨fun p => h p⟩

theorem modify {g : Parser → Parser}
    (h : ∀ p, (g p).StrictMode = p.StrictMode) : (Production.modify g).KeepsStrictMode :=
  ⟨fun p => h p⟩

theorem ite {α : Type} (c : Prop) [Decidable c] {a b : Production α}
    (ha : a.KeepsStrictMode) (hb : b.KeepsStrictMode) :
    (if c then a else b).KeepsStrictMode := by
  split_ifs
  · exact ha
  · exact hb

end Production.KeepsStrictMode

theorem peek_keepsStrictMode : peek.KeepsStrictMode := ⟨fun _ => rfl⟩

theorem Next_keepsStrictMode : Next.KeepsStrictMode :=
  ⟨fun p => Parser.Next_snd_StrictMode p⟩

theorem location_beg_pos_keepsStrictMode : location_beg_pos.KeepsStrictMode := ⟨fun _ => rfl⟩

theorem peek_location_beg_pos_keepsStrictMode : peek_location_beg_pos.KeepsStrictMode :=
  ⟨fun _ => rfl⟩

theorem ReportMessageAndFail_keepsStrictMode {α : Type} (type : String) (args : List String) :
    (ReportMessageAndFail type args : Production α).KeepsStrictMode := ⟨fun _ => rfl⟩

theorem Parser.ReportUnexpectedToken_StrictMode (p : Parser) (token : Token) :
    (p.ReportUnexpectedToken token).StrictMode = p.StrictMode := by
  unfold Parser.ReportUnexpectedToken
  split_ifs
  all_goals first | rfl | (cases token <;> rfl)

theorem ReportUnexpectedTokenAndFail_keepsStrictMode {α : Type} (token : Token) :
    (ReportUnexpectedTokenAndFail token : Production α).KeepsStrictMode :=
  ⟨fun p => Parser.ReportUnexpectedToken_StrictMode p token⟩

theorem CheckOctalLiteral_keepsStrictMode (beg_pos end_pos : Int) :
    (CheckOctalLiteral beg_pos end_pos).KeepsStrictMode := by
  constructor
  intro p
  unfold CheckOctalLiteral
  simp only []
  split_ifs <;> rfl

theorem withTarget_keepsStrictMode {α : Type} (t : Target) {body : Production α}
    (h : body.KeepsStrictMode) : (withTarget t body).KeepsStrictMode :=
  ⟨fun p => h.keeps { p with target_stack_ := t :: p.target_stack_ }⟩

theorem withCollector_keepsStrictMode {α : Type} (id : Nat) (targets : List BreakTarget)
    {body : Production α} (h : body.KeepsStrictMode) :
    (withCollector id targets body).KeepsStrictMode :=
  ⟨fun p => h.keeps { p with target_stack_ := Target.collector id targets :: p.target_stack_ }⟩

theorem withTargetScope_keepsStrictMode {α : Type} {body : Production α}
    (h : body.KeepsStrictMode) : (withTargetScope body).KeepsStrictMode :=
  ⟨fun p => h.keeps { p with target_stack_ := [] }⟩

theorem withLexicalScope_keepsStrictMode {α : Type} (scope : Scope) {body : Production α}
    (h : body.KeepsStrictMode) : (withLexicalScope scope body).KeepsStrictMode :=
  ⟨fun p => h.keeps { p with
      top_scope_ := some scope,
      outer_scopes_ :=
        match p.top_scope_ with
        | some s => s :: p.outer_scopes_
        | none => p.outer_scopes_,
      with_nesting_level_ := 0 }⟩

/-- The destructor of `TemporaryScope` puts the strict flag of the enclosing
function back, whatever the body did. -/
theorem withTemporaryScope_keepsStrictMode {α : Type} (body : Production α) :
    (withTemporaryScope body).KeepsStrictMode := ⟨fun _ => rfl⟩

theorem Declare_keepsStrictMode (name : String) (mode : Variable.Mode)
    (fun_ : Option Expression) (resolve : Bool) :
    (Declare name mode fun_ resolve).KeepsStrictMode := by
  constructor
  intro p
  unfold Declare
  by_cases hf : p.top_scope.is_function_scope = true
  · simp only [hf, if_true]
    cases hl : p.top_scope.LocalLookup name with
    | none => rfl
    | some var =>
      simp only
      by_cases hc : mode = Variable.Mode.CONST ∨ var.mode = Variable.Mode.CONST
      · simp only [if_pos hc]
        rfl
      · simp only [if_neg hc]
        rfl
  · simp only [hf]
    rfl

theorem Parser.LookupCachedSymbol_StrictMode (p : Parser) (symbol_id : Nat) :
    (p.LookupCachedSymbol symbol_id).2.StrictMode = p.StrictMode := by
  unfold Parser.LookupCachedSymbol
  simp only []
  split <;> rfl

theorem Parser.LookupSymbol_StrictMode (p : Parser) (symbol_id : Int) :
    (p.LookupSymbol symbol_id).2.StrictMode = p.StrictMode := by
  unfold Parser.LookupSymbol
  split_ifs
  · rfl
  · exact Parser.LookupCachedSymbol_StrictMode p _

theorem Parser.GetSymbol_StrictMode (p : Parser) : p.GetSymbol.2.StrictMode = p.StrictMode := by
  unfold Parser.GetSymbol
  split
  · exact Parser.LookupSymbol_StrictMode p _
  · exact (Parser.LookupSymbol_StrictMode _ _).trans rfl

theorem Parser.LookupBreakTarget_StrictMode (p : Parser) (label : Option String) :
    (p.LookupBreakTarget label).2.StrictMode = p.StrictMode := by
  unfold Parser.LookupBreakTarget
  split <;> rfl

theorem Parser.LookupContinueTarget_StrictMode (p : Parser) (label : Option String) :
    (p.LookupContinueTarget label).2.StrictMode = p.StrictMode := by
  unfold Parser.LookupContinueTarget
  split <;> rfl

theorem AddLabel_StrictMode (p : Parser) (labels : Option Nat) (label : String) :
    (AddLabel p labels label).2.StrictMode = p.StrictMode := by
  unfold AddLabel
  split <;> rfl

theorem ReportIllegalJump_keepsStrictMode {α : Type} (message : String)
    (label : Option String) : (ReportIllegalJump message label : Production α).KeepsStrictMode := by
  constructor
  intro p
  unfold ReportIllegalJump
  split <;> rfl

theorem ValidateStrictFunction_keepsStrictMode (name : String) (name_is_reserved : Bool)
    (function_token_position start_pos end_pos : Int)
    (name_loc dupe_loc reserved_loc : Location) :
    (ValidateStrictFunction name name_is_reserved function_token_position start_pos end_pos
      name_loc dupe_loc reserved_loc).KeepsStrictMode := by
  constructor
  intro p
  unfold ValidateStrictFunction
  simp only []
  split_ifs
  all_goals first | rfl | exact (CheckOctalLiteral_keepsStrictMode _ _).keeps p

theorem ReportInvalidPreparseData_keepsStrictMode {α : Type} (name : String) :
    (ReportInvalidPreparseData name : Production α).KeepsStrictMode := ⟨fun _ => rfl⟩

theorem peek_any_identifier_keepsStrictMode : peek_any_identifier.KeepsStrictMode := by
  unfold peek_any_identifier
  repeat' first
    | with_reducible first
      | apply Production.KeepsStrictMode.bind | apply Production.KeepsStrictMode.pure
      | apply peek_keepsStrictMode
    | intro _
    | rfl
    | split

theorem Consume_keepsStrictMode (_token : Token) :
    (Consume _token).KeepsStrictMode := by
  unfold Consume
  repeat' first
    | with_reducible first
      | apply Production.KeepsStrictMode.bind | apply Production.KeepsStrictMode.pure
      | apply Next_keepsStrictMode
    | intro _
    | rfl
    | split

theorem Expect_keepsStrictMode (token : Token) :
    (Expect token).KeepsStrictMode := by
  unfold Expect
  repeat' first
    | with_reducible first
      | apply Production.KeepsStrictMode.bind | apply Production.KeepsStrictMode.pure
      | apply Production.KeepsStrictMode.ite | apply Next_keepsStrictMode
      | apply ReportUnexpectedTokenAndFail_keepsStrictMode
    | intro _
    | rfl
    | split

theorem Check_keepsStrictMode (token : Token) :
    (Check token).KeepsStrictMode := by
  unfold Check
  repeat' first
    | with_reducible first
      | apply Production.KeepsStrictMode.bind | apply Production.KeepsStrictMode.pure
      | apply Production.KeepsStrictMode.ite | apply peek_keepsStrictMode
      | apply Consume_keepsStrictMode
    | intro _
    | rfl
    | split

theorem ExpectSemicolon_keepsStrictMode : ExpectSemicolon.KeepsStrictMode := by
  unfold ExpectSemicolon
  repeat' first
    | with_reducible first
      | apply Production.KeepsStrictMode.bind | apply Production.KeepsStrictMode.pure
      | apply Production.KeepsStrictMode.ite | apply Production.KeepsStrictMode.read
      | apply peek_keepsStrictMode | apply Next_keepsStrictMode | apply Expect_keepsStrictMode
    | intro _
    | rfl
    | split

theorem ParseIdentifierOrReservedWord_keepsStrictMode : ParseIdentifierOrReservedWord.KeepsStrictMode := by
  unfold ParseIdentifierOrReservedWord
  repeat' first
    | with_reducible first
      | apply Production.KeepsStrictMode.bind | apply Production.KeepsStrictMode.pure
      | apply Production.KeepsStrictMode.ite | apply Production.KeepsStrictMode.read
      | apply Production.KeepsStrictMode.step | apply Expect_keepsStrictMode
      | apply Check_keepsStrictMode | apply Parser.GetSymbol_StrictMode
    | intro _
    | rfl
    | split

theorem ParseIdentifier_keepsStrictMode : ParseIdentifier.KeepsStrictMode := by
  unfold ParseIdentifier
  repeat' first
    | with_reducible first
      | apply Production.KeepsStrictMode.bind | apply Production.KeepsStrictMode.pure
      | apply ParseIdentifierOrReservedWord_keepsStrictMode
    | intro _
    | rfl
    | split

theorem ParseIdentifierName_keepsStrictMode : ParseIdentifierName.KeepsStrictMode := by
  unfold ParseIdentifierName
  repeat' first
    | with_reducible first
      | apply Production.KeepsStrictMode.bind | apply Production.KeepsStrictMode.ite
      | apply Production.KeepsStrictMode.step | apply Next_keepsStrictMode
      | apply ReportUnexpectedTokenAndFail_keepsStrictMode | apply Parser.GetSymbol_StrictMode
    | intro _
    | rfl
    | split

theorem CheckStrictModeLValue_keepsStrictMode (expression : Expression) (error : String) :
    (CheckStrictModeLValue expression error).KeepsStrictMode := by
  unfold CheckStrictModeLValue
  repeat' first
    | with_reducible first
      | apply Production.KeepsStrictMode.bind | apply Production.KeepsStrictMode.pure
      | apply Production.KeepsStrictMode.ite | apply ReportMessageAndFail_keepsStrictMode
    | intro _
    | rfl
    | split

theorem ParseArguments_loop_keepsStrictMode (self : Productions)
    (h : self.KeepStrictMode) (result : ExpressionList) (done : Bool) :
    (ParseArguments_loop self result done).KeepsStrictMode := by
  unfold ParseArguments_loop
  repeat' first
    | with_reducible first
      | apply Production.KeepsStrictMode.bind | apply Production.KeepsStrictMode.pure
      | apply Production.KeepsStrictMode.ite | apply peek_keepsStrictMode
      | apply Expect_keepsStrictMode | apply h.ParseAssignmentExpression
      | apply h.ParseArguments_loop
    | intro _
    | rfl
    | split

theorem ParseArguments_keepsStrictMode (self : Productions) (h : self.KeepStrictMode) :
    (ParseArguments self).KeepsStrictMode := by
  unfold ParseArguments
  repeat' first
    | with_reducible first
      | apply Production.KeepsStrictMode.bind | apply Production.KeepsStrictMode.pure
      | apply peek_keepsStrictMode | apply Expect_keepsStrictMode
      | apply ParseArguments_loop_keepsStrictMode self h
    | intro _
    | rfl
    | split

theorem ParseArrayLiteral_loop_keepsStrictMode (self : Productions)
    (h : self.KeepStrictMode) (values : ExpressionList) :
    (ParseArrayLiteral_loop self values).KeepsStrictMode := by
  unfold ParseArrayLiteral_loop
  repeat' first
    | with_reducible first
      | apply Production.KeepsStrictMode.bind | apply Production.KeepsStrictMode.pure
      | apply Production.KeepsStrictMode.ite | apply peek_keepsStrictMode
      | apply Expect_keepsStrictMode | apply h.ParseAssignmentExpression
      | apply h.ParseArrayLiteral_loop
    | intro _
    | rfl
    | split

theorem ParseArrayLiteral_keepsStrictMode (self : Productions) (h : self.KeepStrictMode) :
    (ParseArrayLiteral self).KeepsStrictMode := by
  unfold ParseArrayLiteral
  repeat' first
    | with_reducible first
      | apply Production.KeepsStrictMode.bind | apply Production.KeepsStrictMode.pure
      | apply Production.KeepsStrictMode.step | apply Expect_keepsStrictMode
      | apply ParseArrayLiteral_loop_keepsStrictMode self h
    | intro _
    | rfl
    | split

theorem CheckProperty_keepsStrictMode (checker : ObjectLiteralPropertyChecker)
    (property : ObjectProperty) (loc : Location) (number_text : String) :
    (CheckProperty checker property loc number_text).KeepsStrictMode :=
  ⟨fun p => by
    rcases CheckProperty_run checker property loc number_text p with ⟨-, h⟩ | ⟨c, h⟩ | ⟨t, h⟩
    all_goals rw [h]
    all_goals rfl⟩

theorem ParseIdentifierOrGetOrSet_keepsStrictMode : ParseIdentifierOrGetOrSet.KeepsStrictMode := by
  unfold ParseIdentifierOrGetOrSet
  repeat' first
    | with_reducible first
      | apply Production.KeepsStrictMode.bind | apply Production.KeepsStrictMode.pure
      | apply Production.KeepsStrictMode.read | apply ParseIdentifier_keepsStrictMode
    | intro _
    | rfl
    | split

theorem ParseObjectLiteralGetSet_keepsStrictMode (self : Productions) (h : self.KeepStrictMode)
    (is_getter : Bool) : (ParseObjectLiteralGetSet self is_getter).KeepsStrictMode := by
  unfold ParseObjectLiteralGetSet
  repeat' first
    | with_reducible first
      | apply Production.KeepsStrictMode.bind | apply Production.KeepsStrictMode.pure
      | apply Production.KeepsStrictMode.ite | apply Production.KeepsStrictMode.step
      | apply Next_keepsStrictMode | apply ReportUnexpectedTokenAndFail_keepsStrictMode
      | apply Parser.GetSymbol_StrictMode | apply h.ParseFunctionLiteral
    | intro _
    | rfl
    | split

theorem ParseObjectLiteral_add_keepsStrictMode (self : Productions) (h : self.KeepStrictMode)
    (checker : ObjectLiteralPropertyChecker) (properties : ObjectPropertyList)
    (property : ObjectProperty) (loc : Location) (number_text : String) :
    (ParseObjectLiteral_add self checker properties property loc number_text).KeepsStrictMode := by
  unfold ParseObjectLiteral_add
  repeat' first
    | with_reducible first
      | apply Production.KeepsStrictMode.bind | apply Production.KeepsStrictMode.pure
      | apply Production.KeepsStrictMode.ite | apply peek_keepsStrictMode
      | apply Expect_keepsStrictMode
      | apply CheckProperty_keepsStrictMode | apply h.ParseObjectLiteral_loop
    | intro _
    | rfl
    | split

theorem ParseObjectLiteral_accessor_keepsStrictMode (self : Productions) (h : self.KeepStrictMode)
    (checker : ObjectLiteralPropertyChecker) (properties : ObjectPropertyList)
    (is_getter : Bool) :
    (ParseObjectLiteral_accessor self checker properties is_getter).KeepsStrictMode := by
  unfold ParseObjectLiteral_accessor
  repeat' first
    | with_reducible first
      | apply Production.KeepsStrictMode.bind | apply Production.KeepsStrictMode.read
      | apply ParseObjectLiteralGetSet_keepsStrictMode self h
      | apply ParseObjectLiteral_add_keepsStrictMode self h
    | intro _
    | rfl
    | split

theorem ParseObjectLiteral_value_keepsStrictMode (self : Productions) (h : self.KeepStrictMode)
    (checker : ObjectLiteralPropertyChecker) (properties : ObjectPropertyList)
    (loc : Location) (key : Value) (number_text : String) :
    (ParseObjectLiteral_value self checker properties loc key number_text).KeepsStrictMode := by
  unfold ParseObjectLiteral_value
  repeat' first
    | with_reducible first
      | apply Production.KeepsStrictMode.bind | apply Production.KeepsStrictMode.pure
      | apply Expect_keepsStrictMode | apply h.ParseAssignmentExpression
      | apply ParseObjectLiteral_add_keepsStrictMode self h
    | intro _
    | rfl
    | split

theorem ParseObjectLiteral_loop_keepsStrictMode (self : Productions) (h : self.KeepStrictMode)
    (checker : ObjectLiteralPropertyChecker) (properties : ObjectPropertyList) :
    (ParseObjectLiteral_loop self checker properties).KeepsStrictMode := by
  unfold ParseObjectLiteral_loop
  repeat' first
    | with_reducible first
      | apply Production.KeepsStrictMode.bind | apply Production.KeepsStrictMode.pure
      | apply Production.KeepsStrictMode.ite | apply Production.KeepsStrictMode.read
      | apply Production.KeepsStrictMode.step | apply peek_keepsStrictMode
      | apply Next_keepsStrictMode | apply ReportUnexpectedTokenAndFail_keepsStrictMode
      | apply Consume_keepsStrictMode | apply Expect_keepsStrictMode
      | apply Parser.GetSymbol_StrictMode | apply ParseIdentifierOrGetOrSet_keepsStrictMode
      | apply ParseObjectLiteral_accessor_keepsStrictMode self h
      | apply ParseObjectLiteral_value_keepsStrictMode self h
      | apply h.ParseObjectLiteral_loop
    | intro _
    | rfl
    | split

theorem ParseObjectLiteral_keepsStrictMode (self : Productions) (h : self.KeepStrictMode) :
    (ParseObjectLiteral self).KeepsStrictMode := by
  unfold ParseObjectLiteral
  repeat' first
    | with_reducible first
      | apply Production.KeepsStrictMode.bind | apply Production.KeepsStrictMode.pure
      | apply Production.KeepsStrictMode.read | apply Production.KeepsStrictMode.step | apply Expect_keepsStrictMode
      | apply ParseObjectLiteral_loop_keepsStrictMode self h
    | intro _
    | rfl
    | split

theorem ParseRegExpLiteral_keepsStrictMode (seen_equal : Bool) :
    (ParseRegExpLiteral seen_equal).KeepsStrictMode := by
  unfold ParseRegExpLiteral
  repeat' first
    | with_reducible first
      | apply Production.KeepsStrictMode.bind | apply Production.KeepsStrictMode.pure
      | apply Production.KeepsStrictMode.ite | apply Production.KeepsStrictMode.read
      | apply Production.KeepsStrictMode.step | apply Next_keepsStrictMode
      | apply ReportMessageAndFail_keepsStrictMode
    | intro _
    | rfl
    | split

theorem ParseV8Intrinsic_keepsStrictMode (self : Productions) (h : self.KeepStrictMode) :
    (ParseV8Intrinsic self).KeepsStrictMode := by
  unfold ParseV8Intrinsic
  repeat' first
    | with_reducible first
      | apply Production.KeepsStrictMode.bind | apply Production.KeepsStrictMode.pure
      | apply Production.KeepsStrictMode.ite | apply Production.KeepsStrictMode.read
      | apply Expect_keepsStrictMode | apply ParseIdentifier_keepsStrictMode
      | apply ParseArguments_keepsStrictMode self h | apply ReportMessageAndFail_keepsStrictMode
    | intro _
    | rfl
    | split

theorem ParsePrimaryExpression_keepsStrictMode (self : Productions) (h : self.KeepStrictMode) :
    (ParsePrimaryExpression self).KeepsStrictMode := by
  unfold ParsePrimaryExpression
  repeat' first
    | with_reducible first
      | apply Production.KeepsStrictMode.bind | apply Production.KeepsStrictMode.pure
      | apply Production.KeepsStrictMode.ite | apply Production.KeepsStrictMode.read
      | apply Production.KeepsStrictMode.step | apply Production.KeepsStrictMode.modify
      | apply peek_keepsStrictMode | apply Next_keepsStrictMode
      | apply ReportUnexpectedTokenAndFail_keepsStrictMode | apply ParseObjectLiteral_keepsStrictMode self h
      | apply ParseRegExpLiteral_keepsStrictMode | apply ParseV8Intrinsic_keepsStrictMode self h
      | apply Consume_keepsStrictMode | apply Expect_keepsStrictMode
      | apply ParseIdentifier_keepsStrictMode | apply ParseArrayLiteral_keepsStrictMode self h
      | apply Parser.GetSymbol_StrictMode | apply h.ParseExpression
    | intro _
    | rfl
    | split

theorem ParseMemberWithNewPrefixesExpression_loop_keepsStrictMode (self : Productions)
    (h : self.KeepStrictMode) (stack : PositionStack) (result : Expression) :
    (ParseMemberWithNewPrefixesExpression_loop self stack result).KeepsStrictMode := by
  unfold ParseMemberWithNewPrefixesExpression_loop
  repeat' first
    | with_reducible first
      | apply Production.KeepsStrictMode.bind | apply Production.KeepsStrictMode.pure
      | apply peek_keepsStrictMode | apply location_beg_pos_keepsStrictMode
      | apply Consume_keepsStrictMode | apply Expect_keepsStrictMode
      | apply ParseIdentifierName_keepsStrictMode | apply ParseArguments_keepsStrictMode self h
      | apply h.ParseExpression | apply h.ParseMemberWithNewPrefixesExpression_loop
    | intro _
    | rfl
    | split

theorem ParseMemberWithNewPrefixesExpression_keepsStrictMode (self : Productions) (h : self.KeepStrictMode) (stack : PositionStack) :
    (ParseMemberWithNewPrefixesExpression self stack).KeepsStrictMode := by
  unfold ParseMemberWithNewPrefixesExpression
  repeat' first
    | with_reducible first
      | apply Production.KeepsStrictMode.bind | apply Production.KeepsStrictMode.ite
      | apply peek_keepsStrictMode | apply location_beg_pos_keepsStrictMode
      | apply peek_any_identifier_keepsStrictMode | apply Expect_keepsStrictMode
      | apply ParseIdentifierOrReservedWord_keepsStrictMode
      | apply ParsePrimaryExpression_keepsStrictMode self h
      | apply ParseMemberWithNewPrefixesExpression_loop_keepsStrictMode self h
      | apply h.ParseFunctionLiteral
    | intro _
    | rfl
    | split

theorem ParseNewPrefix_keepsStrictMode (self : Productions) (h : self.KeepStrictMode) (stack : List Int) :
    (ParseNewPrefix self stack).KeepsStrictMode := by
  unfold ParseNewPrefix
  repeat' first
    | with_reducible first
      | apply Production.KeepsStrictMode.bind | apply Production.KeepsStrictMode.pure
      | apply Production.KeepsStrictMode.ite | apply peek_keepsStrictMode
      | apply location_beg_pos_keepsStrictMode | apply Expect_keepsStrictMode
      | apply ParseMemberWithNewPrefixesExpression_keepsStrictMode self h | apply h.ParseNewPrefix
    | intro _
    | rfl
    | split
    | (beta_reduce; split)

theorem ParseNewExpression_keepsStrictMode (self : Productions) (h : self.KeepStrictMode) :
    (ParseNewExpression self).KeepsStrictMode := by
  unfold ParseNewExpression
  repeat' first
    | with_reducible first
      | apply Production.KeepsStrictMode.bind | apply Production.KeepsStrictMode.pure
      | apply ParseNewPrefix_keepsStrictMode self h
    | intro _
    | rfl
    | split

theorem ParseMemberExpression_keepsStrictMode (self : Productions) (h : self.KeepStrictMode) :
    (ParseMemberExpression self).KeepsStrictMode := by
  unfold ParseMemberExpression
  repeat' first
    | with_reducible first
      | apply Production.KeepsStrictMode.bind | apply Production.KeepsStrictMode.pure
      | apply ParseMemberWithNewPrefixesExpression_keepsStrictMode self h
    | intro _
    | rfl
    | split

theorem ParseLeftHandSideExpression_loop_keepsStrictMode (self : Productions) (h : self.KeepStrictMode) (result : Expression) :
    (ParseLeftHandSideExpression_loop self result).KeepsStrictMode := by
  unfold ParseLeftHandSideExpression_loop
  repeat' first
    | with_reducible first
      | apply Production.KeepsStrictMode.bind | apply Production.KeepsStrictMode.pure
      | apply Production.KeepsStrictMode.ite | apply Production.KeepsStrictMode.modify
      | apply peek_keepsStrictMode | apply location_beg_pos_keepsStrictMode
      | apply Consume_keepsStrictMode | apply Expect_keepsStrictMode
      | apply ParseIdentifierName_keepsStrictMode | apply ParseArguments_keepsStrictMode self h
      | apply h.ParseExpression | apply h.ParseLeftHandSideExpression_loop
    | intro _
    | rfl
    | split

theorem ParseLeftHandSideExpression_keepsStrictMode (self : Productions) (h : self.KeepStrictMode) :
    (ParseLeftHandSideExpression self).KeepsStrictMode := by
  unfold ParseLeftHandSideExpression
  repeat' first
    | with_reducible first
      | apply Production.KeepsStrictMode.bind | apply Production.KeepsStrictMode.ite
      | apply peek_keepsStrictMode | apply ParseNewExpression_keepsStrictMode self h
      | apply ParseMemberExpression_keepsStrictMode self h
      | apply ParseLeftHandSideExpression_loop_keepsStrictMode self h
    | intro _
    | rfl
    | split

theorem ParsePostfixExpression_keepsStrictMode (self : Productions) (h : self.KeepStrictMode) :
    (ParsePostfixExpression self).KeepsStrictMode := by
  unfold ParsePostfixExpression
  repeat' first
    | with_reducible first
      | apply Production.KeepsStrictMode.bind | apply Production.KeepsStrictMode.pure
      | apply Production.KeepsStrictMode.ite | apply Production.KeepsStrictMode.read
      | apply peek_keepsStrictMode | apply Next_keepsStrictMode
      | apply location_beg_pos_keepsStrictMode | apply CheckStrictModeLValue_keepsStrictMode
      | apply ParseLeftHandSideExpression_keepsStrictMode self h
    | intro _
    | rfl
    | split

theorem ParseUnaryExpression_keepsStrictMode (self : Productions) (h : self.KeepStrictMode) :
    (ParseUnaryExpression self).KeepsStrictMode := by
  unfold ParseUnaryExpression
  repeat' first
    | with_reducible first
      | apply Production.KeepsStrictMode.bind | apply Production.KeepsStrictMode.pure
      | apply Production.KeepsStrictMode.ite | apply Production.KeepsStrictMode.read
      | apply peek_keepsStrictMode | apply Next_keepsStrictMode
      | apply location_beg_pos_keepsStrictMode | apply ReportMessageAndFail_keepsStrictMode
      | apply CheckStrictModeLValue_keepsStrictMode
      | apply ParsePostfixExpression_keepsStrictMode self h | apply h.ParseUnaryExpression
    | intro _
    | rfl
    | split

theorem ParseBinaryExpression_while_keepsStrictMode (self : Productions)
    (h : self.KeepStrictMode) (prec1 : Int) (accept_IN : Bool) (x : Expression) :
    (ParseBinaryExpression_while self prec1 accept_IN x).KeepsStrictMode := by
  unfold ParseBinaryExpression_while
  repeat' first
    | with_reducible first
      | apply Production.KeepsStrictMode.bind | apply Production.KeepsStrictMode.pure
      | apply Production.KeepsStrictMode.ite | apply peek_keepsStrictMode
      | apply Next_keepsStrictMode | apply location_beg_pos_keepsStrictMode
      | apply h.ParseBinaryExpression | apply h.ParseBinaryExpression_while
    | intro _
    | rfl
    | split

theorem ParseBinaryExpression_for_keepsStrictMode (self : Productions)
    (h : self.KeepStrictMode) (prec prec1 : Int) (accept_IN : Bool) (x : Expression) :
    (ParseBinaryExpression_for self prec prec1 accept_IN x).KeepsStrictMode := by
  unfold ParseBinaryExpression_for
  repeat' first
    | with_reducible first
      | apply Production.KeepsStrictMode.bind | apply Production.KeepsStrictMode.pure
      | apply Production.KeepsStrictMode.ite
      | apply ParseBinaryExpression_while_keepsStrictMode self h
      | apply h.ParseBinaryExpression_for
    | intro _
    | rfl
    | split

theorem ParseBinaryExpression_keepsStrictMode (self : Productions)
    (h : self.KeepStrictMode) (prec : Int) (accept_IN : Bool) :
    (ParseBinaryExpression self prec accept_IN).KeepsStrictMode := by
  unfold ParseBinaryExpression
  repeat' first
    | with_reducible first
      | apply Production.KeepsStrictMode.bind | apply peek_keepsStrictMode
      | apply ParseUnaryExpression_keepsStrictMode self h
      | apply ParseBinaryExpression_for_keepsStrictMode self h
    | intro _
    | rfl
    | split

theorem ParseConditionalExpression_keepsStrictMode (self : Productions) (h : self.KeepStrictMode) (accept_IN : Bool) :
    (ParseConditionalExpression self accept_IN).KeepsStrictMode := by
  unfold ParseConditionalExpression
  repeat' first
    | with_reducible first
      | apply Production.KeepsStrictMode.bind | apply Production.KeepsStrictMode.pure
      | apply Production.KeepsStrictMode.ite | apply peek_keepsStrictMode
      | apply peek_location_beg_pos_keepsStrictMode | apply Consume_keepsStrictMode
      | apply Expect_keepsStrictMode | apply ParseBinaryExpression_keepsStrictMode self h
      | apply h.ParseAssignmentExpression
    | intro _
    | rfl
    | split

theorem ParseAssignmentExpression_keepsStrictMode (self : Productions) (h : self.KeepStrictMode) (accept_IN : Bool) :
    (ParseAssignmentExpression self accept_IN).KeepsStrictMode := by
  unfold ParseAssignmentExpression
  repeat' first
    | with_reducible first
      | apply Production.KeepsStrictMode.bind | apply Production.KeepsStrictMode.pure
      | apply Production.KeepsStrictMode.ite | apply Production.KeepsStrictMode.read
      | apply Production.KeepsStrictMode.modify | apply peek_keepsStrictMode
      | apply Next_keepsStrictMode | apply location_beg_pos_keepsStrictMode
      | apply CheckStrictModeLValue_keepsStrictMode
      | apply ParseConditionalExpression_keepsStrictMode self h | apply h.ParseAssignmentExpression
    | intro _
    | rfl
    | split

theorem ParseExpression_loop_keepsStrictMode (self : Productions)
    (h : self.KeepStrictMode) (accept_IN : Bool) (result : Expression) :
    (ParseExpression_loop self accept_IN result).KeepsStrictMode := by
  unfold ParseExpression_loop
  repeat' first
    | with_reducible first
      | apply Production.KeepsStrictMode.bind | apply Production.KeepsStrictMode.pure
      | apply Production.KeepsStrictMode.ite | apply peek_keepsStrictMode
      | apply location_beg_pos_keepsStrictMode | apply Expect_keepsStrictMode
      | apply ParseAssignmentExpression_keepsStrictMode self h | apply h.ParseExpression_loop
    | intro _
    | rfl
    | split

theorem ParseExpression_keepsStrictMode (self : Productions) (h : self.KeepStrictMode) (accept_IN : Bool) :
    (ParseExpression self accept_IN).KeepsStrictMode := by
  unfold ParseExpression
  repeat' first
    | with_reducible first
      | apply Production.KeepsStrictMode.bind
      | apply ParseAssignmentExpression_keepsStrictMode self h
      | apply ParseExpression_loop_keepsStrictMode self h
    | intro _
    | rfl
    | split

theorem ParseVariableDeclarations_loop_keepsStrictMode (self : Productions)
    (h : self.KeepStrictMode) (accept_IN : Bool) (mode : Variable.Mode) (is_const : Bool)
    (block : StatementList) (nvars : Int) :
    (ParseVariableDeclarations_loop self accept_IN mode is_const block nvars).KeepsStrictMode := by
  unfold ParseVariableDeclarations_loop
  repeat' first
    | with_reducible first
      | apply Production.KeepsStrictMode.bind | apply Production.KeepsStrictMode.pure
      | apply Production.KeepsStrictMode.ite | apply Production.KeepsStrictMode.read
      | apply peek_keepsStrictMode | apply location_beg_pos_keepsStrictMode
      | apply ReportMessageAndFail_keepsStrictMode | apply Declare_keepsStrictMode
      | apply Consume_keepsStrictMode | apply Expect_keepsStrictMode
      | apply ParseIdentifier_keepsStrictMode | apply h.ParseVariableDeclarations_loop
      | apply h.ParseAssignmentExpression
    | intro _
    | rfl
    | split

theorem ParseVariableDeclarations_keepsStrictMode (self : Productions) (h : self.KeepStrictMode) (accept_IN : Bool) :
    (ParseVariableDeclarations self accept_IN).KeepsStrictMode := by
  unfold ParseVariableDeclarations
  repeat' first
    | with_reducible first
      | apply Production.KeepsStrictMode.bind | apply Production.KeepsStrictMode.pure
      | apply Production.KeepsStrictMode.ite | apply Production.KeepsStrictMode.step
      | apply peek_keepsStrictMode | apply Consume_keepsStrictMode
      | apply ParseVariableDeclarations_loop_keepsStrictMode self h
    | intro _
    | rfl
    | split

theorem ParseVariableStatement_keepsStrictMode (self : Productions) (h : self.KeepStrictMode) :
    (ParseVariableStatement self).KeepsStrictMode := by
  unfold ParseVariableStatement
  repeat' first
    | with_reducible first
      | apply Production.KeepsStrictMode.bind | apply Production.KeepsStrictMode.pure
      | apply ExpectSemicolon_keepsStrictMode
      | apply ParseVariableDeclarations_keepsStrictMode self h
    | intro _
    | rfl
    | split

theorem ParseBlock_loop_keepsStrictMode (self : Productions)
    (h : self.KeepStrictMode) (statements : StatementList) :
    (ParseBlock_loop self statements).KeepsStrictMode := by
  unfold ParseBlock_loop
  repeat' first
    | with_reducible first
      | apply Production.KeepsStrictMode.bind | apply Production.KeepsStrictMode.pure
      | apply Production.KeepsStrictMode.ite | apply peek_keepsStrictMode | apply h.ParseStatement
      | apply h.ParseBlock_loop
    | intro _
    | rfl
    | split

theorem ParseBlock_keepsStrictMode (self : Productions) (h : self.KeepStrictMode) (labels : Option Nat) :
    (ParseBlock self labels).KeepsStrictMode := by
  unfold ParseBlock
  repeat' first
    | with_reducible first
      | apply Production.KeepsStrictMode.bind | apply Production.KeepsStrictMode.pure
      | apply Production.KeepsStrictMode.step | apply withTarget_keepsStrictMode
      | apply Expect_keepsStrictMode | apply ParseBlock_loop_keepsStrictMode self h
    | intro _
    | rfl
    | split

theorem ParseExpressionOrLabelledStatement_keepsStrictMode (self : Productions) (h : self.KeepStrictMode) (labels : Option Nat) :
    (ParseExpressionOrLabelledStatement self labels).KeepsStrictMode := by
  unfold ParseExpressionOrLabelledStatement
  repeat' first
    | with_reducible first
      | apply Production.KeepsStrictMode.bind | apply Production.KeepsStrictMode.pure
      | apply Production.KeepsStrictMode.ite | apply Production.KeepsStrictMode.read
      | apply Production.KeepsStrictMode.step | apply Production.KeepsStrictMode.modify
      | apply peek_keepsStrictMode | apply ReportMessageAndFail_keepsStrictMode
      | apply peek_any_identifier_keepsStrictMode | apply Expect_keepsStrictMode
      | apply ExpectSemicolon_keepsStrictMode | apply ParseExpression_keepsStrictMode self h
      | apply AddLabel_StrictMode | apply h.ParseStatement
    | intro _
    | rfl
    | split

theorem ParseIfStatement_keepsStrictMode (self : Productions) (h : self.KeepStrictMode) (labels : Option Nat) :
    (ParseIfStatement self labels).KeepsStrictMode := by
  unfold ParseIfStatement
  repeat' first
    | with_reducible first
      | apply Production.KeepsStrictMode.bind | apply Production.KeepsStrictMode.pure
      | apply Production.KeepsStrictMode.ite | apply peek_keepsStrictMode
      | apply Next_keepsStrictMode | apply Expect_keepsStrictMode
      | apply ParseExpression_keepsStrictMode self h | apply h.ParseStatement
    | intro _
    | rfl
    | split

theorem ParseJumpLabel_keepsStrictMode : ParseJumpLabel.KeepsStrictMode := by
  unfold ParseJumpLabel
  repeat' first
    | with_reducible first
      | apply Production.KeepsStrictMode.bind | apply Production.KeepsStrictMode.pure
      | apply Production.KeepsStrictMode.ite | apply Production.KeepsStrictMode.read
      | apply peek_keepsStrictMode | apply ParseIdentifier_keepsStrictMode
    | intro _
    | rfl
    | split

theorem ParseContinueStatement_keepsStrictMode : ParseContinueStatement.KeepsStrictMode := by
  unfold ParseContinueStatement
  repeat' first
    | with_reducible first
      | apply Production.KeepsStrictMode.bind | apply Production.KeepsStrictMode.pure
      | apply Production.KeepsStrictMode.step | apply ReportIllegalJump_keepsStrictMode
      | apply Expect_keepsStrictMode | apply ExpectSemicolon_keepsStrictMode
      | apply ParseJumpLabel_keepsStrictMode | apply Parser.LookupContinueTarget_StrictMode
    | intro _
    | rfl
    | split

theorem ParseBreakStatement_keepsStrictMode (labels : Option Nat) :
    (ParseBreakStatement labels).KeepsStrictMode := by
  unfold ParseBreakStatement
  repeat' first
    | with_reducible first
      | apply Production.KeepsStrictMode.bind | apply Production.KeepsStrictMode.pure
      | apply Production.KeepsStrictMode.ite | apply Production.KeepsStrictMode.read
      | apply Production.KeepsStrictMode.step | apply ReportIllegalJump_keepsStrictMode
      | apply Expect_keepsStrictMode | apply ExpectSemicolon_keepsStrictMode
      | apply ParseJumpLabel_keepsStrictMode | apply Parser.LookupBreakTarget_StrictMode
    | intro _
    | rfl
    | split

theorem ParseReturnStatement_keepsStrictMode (self : Productions) (h : self.KeepStrictMode) :
    (ParseReturnStatement self).KeepsStrictMode := by
  unfold ParseReturnStatement
  repeat' first
    | with_reducible first
      | apply Production.KeepsStrictMode.bind | apply Production.KeepsStrictMode.pure
      | apply Production.KeepsStrictMode.ite | apply Production.KeepsStrictMode.read
      | apply peek_keepsStrictMode | apply Expect_keepsStrictMode
      | apply ExpectSemicolon_keepsStrictMode | apply ParseExpression_keepsStrictMode self h
    | intro _
    | rfl
    | split

theorem WithHelper_keepsStrictMode (self : Productions)
    (h : self.KeepStrictMode) (obj : Expression) (labels : Option Nat) (is_catch_block : Bool) :
    (WithHelper self obj labels is_catch_block).KeepsStrictMode := by
  unfold WithHelper
  repeat' first
    | with_reducible first
      | apply Production.KeepsStrictMode.bind | apply Production.KeepsStrictMode.pure
      | apply Production.KeepsStrictMode.step | apply Production.KeepsStrictMode.modify
      | apply withCollector_keepsStrictMode | apply h.ParseStatement
    | intro _
    | rfl
    | split

theorem ParseWithStatement_keepsStrictMode (self : Productions) (h : self.KeepStrictMode) (labels : Option Nat) :
    (ParseWithStatement self labels).KeepsStrictMode := by
  unfold ParseWithStatement
  repeat' first
    | with_reducible first
      | apply Production.KeepsStrictMode.bind | apply Production.KeepsStrictMode.ite
      | apply Production.KeepsStrictMode.read | apply ReportMessageAndFail_keepsStrictMode
      | apply Expect_keepsStrictMode | apply ParseExpression_keepsStrictMode self h
      | apply WithHelper_keepsStrictMode self h
    | intro _
    | rfl
    | split

theorem ParseCaseClause_loop_keepsStrictMode (self : Productions)
    (h : self.KeepStrictMode) (statements : StatementList) :
    (ParseCaseClause_loop self statements).KeepsStrictMode := by
  unfold ParseCaseClause_loop
  repeat' first
    | with_reducible first
      | apply Production.KeepsStrictMode.bind | apply Production.KeepsStrictMode.pure
      | apply Production.KeepsStrictMode.ite | apply peek_keepsStrictMode | apply h.ParseStatement
      | apply h.ParseCaseClause_loop
    | intro _
    | rfl
    | split

theorem ParseCaseClause_keepsStrictMode (self : Productions) (h : self.KeepStrictMode) (default_seen : Bool) :
    (ParseCaseClause self default_seen).KeepsStrictMode := by
  unfold ParseCaseClause
  repeat' first
    | with_reducible first
      | apply Production.KeepsStrictMode.bind | apply Production.KeepsStrictMode.pure
      | apply Production.KeepsStrictMode.ite | apply peek_keepsStrictMode
      | apply location_beg_pos_keepsStrictMode | apply ReportMessageAndFail_keepsStrictMode
      | apply Expect_keepsStrictMode | apply ParseExpression_keepsStrictMode self h
      | apply ParseCaseClause_loop_keepsStrictMode self h
    | intro _
    | rfl
    | split

theorem ParseSwitchStatement_loop_keepsStrictMode (self : Productions)
    (h : self.KeepStrictMode) (default_seen : Bool) (cases : CaseClauseList) :
    (ParseSwitchStatement_loop self default_seen cases).KeepsStrictMode := by
  unfold ParseSwitchStatement_loop
  repeat' first
    | with_reducible first
      | apply Production.KeepsStrictMode.bind | apply Production.KeepsStrictMode.pure
      | apply Production.KeepsStrictMode.ite | apply peek_keepsStrictMode
      | apply ParseCaseClause_keepsStrictMode self h | apply h.ParseSwitchStatement_loop
    | intro _
    | rfl
    | split

theorem ParseSwitchStatement_keepsStrictMode (self : Productions) (h : self.KeepStrictMode) (labels : Option Nat) :
    (ParseSwitchStatement self labels).KeepsStrictMode := by
  unfold ParseSwitchStatement
  repeat' first
    | with_reducible first
      | apply Production.KeepsStrictMode.bind | apply Production.KeepsStrictMode.pure
      | apply Production.KeepsStrictMode.step | apply withTarget_keepsStrictMode
      | apply Expect_keepsStrictMode | apply ParseExpression_keepsStrictMode self h
      | apply ParseSwitchStatement_loop_keepsStrictMode self h
    | intro _
    | rfl
    | split

theorem ParseThrowStatement_keepsStrictMode (self : Productions) (h : self.KeepStrictMode) :
    (ParseThrowStatement self).KeepsStrictMode := by
  unfold ParseThrowStatement
  repeat' first
    | with_reducible first
      | apply Production.KeepsStrictMode.bind | apply Production.KeepsStrictMode.pure
      | apply Production.KeepsStrictMode.ite | apply Production.KeepsStrictMode.read
      | apply location_beg_pos_keepsStrictMode | apply ReportMessageAndFail_keepsStrictMode
      | apply Expect_keepsStrictMode | apply ExpectSemicolon_keepsStrictMode
      | apply ParseExpression_keepsStrictMode self h
    | intro _
    | rfl
    | split

theorem ParseTryStatement_keepsStrictMode (self : Productions) (h : self.KeepStrictMode) :
    (ParseTryStatement self).KeepsStrictMode := by
  unfold ParseTryStatement
  repeat' first
    | with_reducible first
      | apply Production.KeepsStrictMode.bind | apply Production.KeepsStrictMode.pure
      | apply Production.KeepsStrictMode.ite | apply Production.KeepsStrictMode.read
      | apply Production.KeepsStrictMode.step | apply Production.KeepsStrictMode.fail
      | apply withCollector_keepsStrictMode | apply peek_keepsStrictMode
      | apply ReportMessageAndFail_keepsStrictMode | apply Consume_keepsStrictMode
      | apply Expect_keepsStrictMode | apply ParseIdentifier_keepsStrictMode
      | apply ParseBlock_keepsStrictMode self h | apply WithHelper_keepsStrictMode self h
    | intro _
    | rfl
    | split
    | (beta_reduce; split)

theorem ParseDoWhileStatement_keepsStrictMode (self : Productions) (h : self.KeepStrictMode) (labels : Option Nat) :
    (ParseDoWhileStatement self labels).KeepsStrictMode := by
  unfold ParseDoWhileStatement
  repeat' first
    | with_reducible first
      | apply Production.KeepsStrictMode.bind | apply Production.KeepsStrictMode.pure
      | apply Production.KeepsStrictMode.ite | apply Production.KeepsStrictMode.step
      | apply Production.KeepsStrictMode.modify | apply withTarget_keepsStrictMode
      | apply peek_keepsStrictMode | apply location_beg_pos_keepsStrictMode
      | apply Consume_keepsStrictMode | apply Expect_keepsStrictMode
      | apply ParseExpression_keepsStrictMode self h | apply h.ParseStatement
    | intro _
    | rfl
    | split

theorem ParseWhileStatement_keepsStrictMode (self : Productions) (h : self.KeepStrictMode) (labels : Option Nat) :
    (ParseWhileStatement self labels).KeepsStrictMode := by
  unfold ParseWhileStatement
  repeat' first
    | with_reducible first
      | apply Production.KeepsStrictMode.bind | apply Production.KeepsStrictMode.pure
      | apply Production.KeepsStrictMode.step | apply Production.KeepsStrictMode.modify
      | apply withTarget_keepsStrictMode | apply Expect_keepsStrictMode
      | apply ParseExpression_keepsStrictMode self h | apply h.ParseStatement
    | intro _
    | rfl
    | split

theorem ParseForStatement_standard_keepsStrictMode (self : Productions)
    (h : self.KeepStrictMode) (labels : Option Nat) (init : StatementList) :
    (ParseForStatement_standard self labels init).KeepsStrictMode := by
  unfold ParseForStatement_standard
  repeat' first
    | with_reducible first
      | apply Production.KeepsStrictMode.bind | apply Production.KeepsStrictMode.pure
      | apply Production.KeepsStrictMode.ite | apply Production.KeepsStrictMode.step
      | apply withTarget_keepsStrictMode | apply peek_keepsStrictMode
      | apply Expect_keepsStrictMode | apply ParseExpression_keepsStrictMode self h
      | apply h.ParseStatement
    | intro _
    | rfl
    | split

theorem ParseForStatement_in_keepsStrictMode (self : Productions)
    (h : self.KeepStrictMode) (labels : Option Nat) (each : Expression) :
    (ParseForStatement_in self labels each).KeepsStrictMode := by
  unfold ParseForStatement_in
  repeat' first
    | with_reducible first
      | apply Production.KeepsStrictMode.bind | apply Production.KeepsStrictMode.pure
      | apply Production.KeepsStrictMode.step | apply withTarget_keepsStrictMode
      | apply Expect_keepsStrictMode | apply ParseExpression_keepsStrictMode self h
      | apply h.ParseStatement
    | intro _
    | rfl
    | split

theorem ParseForStatement_keepsStrictMode (self : Productions) (h : self.KeepStrictMode) (labels : Option Nat) :
    (ParseForStatement self labels).KeepsStrictMode := by
  unfold ParseForStatement
  repeat' first
    | with_reducible first
      | apply Production.KeepsStrictMode.bind | apply Production.KeepsStrictMode.pure
      | apply Production.KeepsStrictMode.ite | apply Production.KeepsStrictMode.read
      | apply Production.KeepsStrictMode.step | apply Production.KeepsStrictMode.modify
      | apply peek_keepsStrictMode | apply Expect_keepsStrictMode
      | apply ParseExpression_keepsStrictMode self h
      | apply ParseVariableDeclarations_keepsStrictMode self h
      | apply ParseForStatement_standard_keepsStrictMode self h
      | apply ParseForStatement_in_keepsStrictMode self h
    | intro _
    | rfl
    | split

theorem ParseDebuggerStatement_keepsStrictMode : ParseDebuggerStatement.KeepsStrictMode := by
  unfold ParseDebuggerStatement
  repeat' first
    | with_reducible first
      | apply Production.KeepsStrictMode.bind | apply Production.KeepsStrictMode.pure
      | apply Expect_keepsStrictMode | apply ExpectSemicolon_keepsStrictMode
    | intro _
    | rfl
    | split

theorem ParseFunctionDeclaration_keepsStrictMode (self : Productions) (h : self.KeepStrictMode) :
    (ParseFunctionDeclaration self).KeepsStrictMode := by
  unfold ParseFunctionDeclaration
  repeat' first
    | with_reducible first
      | apply Production.KeepsStrictMode.bind | apply Production.KeepsStrictMode.pure
      | apply location_beg_pos_keepsStrictMode | apply Declare_keepsStrictMode
      | apply Expect_keepsStrictMode | apply ParseIdentifierOrReservedWord_keepsStrictMode
      | apply h.ParseFunctionLiteral
    | intro _
    | rfl
    | split

theorem ParseNativeDeclaration_keepsStrictMode : ParseNativeDeclaration.KeepsStrictMode := by
  unfold ParseNativeDeclaration
  repeat' first
    | with_reducible first
      | apply Production.KeepsStrictMode.bind | apply ReportUnexpectedTokenAndFail_keepsStrictMode
    | intro _
    | rfl
    | split

theorem ParseStatement_keepsStrictMode (self : Productions) (h : self.KeepStrictMode) (labels : Option Nat) :
    (ParseStatement self labels).KeepsStrictMode := by
  unfold ParseStatement
  repeat' first
    | with_reducible first
      | apply Production.KeepsStrictMode.bind | apply Production.KeepsStrictMode.pure
      | apply Production.KeepsStrictMode.step | apply withTarget_keepsStrictMode
      | apply peek_keepsStrictMode | apply Next_keepsStrictMode
      | apply ParseVariableStatement_keepsStrictMode self h
      | apply ParseBlock_keepsStrictMode self h
      | apply ParseExpressionOrLabelledStatement_keepsStrictMode self h
      | apply ParseIfStatement_keepsStrictMode self h
      | apply ParseContinueStatement_keepsStrictMode | apply ParseBreakStatement_keepsStrictMode
      | apply ParseReturnStatement_keepsStrictMode self h
      | apply ParseWithStatement_keepsStrictMode self h
      | apply ParseSwitchStatement_keepsStrictMode self h
      | apply ParseThrowStatement_keepsStrictMode self h
      | apply ParseTryStatement_keepsStrictMode self h
      | apply ParseDoWhileStatement_keepsStrictMode self h
      | apply ParseWhileStatement_keepsStrictMode self h
      | apply ParseForStatement_keepsStrictMode self h
      | apply ParseDebuggerStatement_keepsStrictMode
      | apply ParseFunctionDeclaration_keepsStrictMode self h
      | apply ParseNativeDeclaration_keepsStrictMode
    | intro _
    | rfl
    | split

theorem ParseFunctionLiteral_params_keepsStrictMode (self : Productions)
    (h : self.KeepStrictMode) (num_parameters : Int)
    (name_loc dupe_loc reserved_loc : Location) :
    (ParseFunctionLiteral_params self num_parameters name_loc dupe_loc reserved_loc).KeepsStrictMode := by
  unfold ParseFunctionLiteral_params
  repeat' first
    | with_reducible first
      | apply Production.KeepsStrictMode.bind | apply Production.KeepsStrictMode.pure
      | apply Production.KeepsStrictMode.ite | apply Production.KeepsStrictMode.read
      | apply Production.KeepsStrictMode.modify | apply peek_keepsStrictMode
      | apply Expect_keepsStrictMode | apply ParseIdentifierOrReservedWord_keepsStrictMode
      | apply h.ParseFunctionLiteral_params
    | intro _
    | rfl
    | split
    | exact ⟨fun _ => rfl⟩

theorem ParseFunctionLiteral_lazy_keepsStrictMode (name : String) (function_block_pos : Int) (data : ScriptDataImpl) :
    (ParseFunctionLiteral_lazy name function_block_pos data).KeepsStrictMode := by
  unfold ParseFunctionLiteral_lazy
  repeat' first
    | with_reducible first
      | apply Production.KeepsStrictMode.bind | apply Production.KeepsStrictMode.pure
      | apply Production.KeepsStrictMode.ite | apply Production.KeepsStrictMode.modify
      | apply ReportInvalidPreparseData_keepsStrictMode | apply Expect_keepsStrictMode
    | intro _
    | rfl
    | split

theorem ParseFunctionLiteral_keepsStrictMode (self : Productions) (var_name : Option String)
    (name_is_reserved : Bool) (function_token_position : Int) (type : FunctionLiteralType) :
    (ParseFunctionLiteral self var_name name_is_reserved function_token_position
      type).KeepsStrictMode := by
  unfold ParseFunctionLiteral
  repeat' first
    | with_reducible first
      | apply Production.KeepsStrictMode.bind | apply Production.KeepsStrictMode.step
      | apply withLexicalScope_keepsStrictMode | apply withTemporaryScope_keepsStrictMode
    | intro _
    | rfl

/-- Every production of the table at every recursion budget leaves the strict
flag of the current function as it is. -/
theorem productions_keepStrictMode : ∀ fuel : Nat, (productions fuel).KeepStrictMode := by
  intro fuel
  induction fuel with
  | zero =>
    constructor <;> intros <;> exact Production.KeepsStrictMode.fail
  | succ n ih =>
    constructor
    · exact ParseStatement_keepsStrictMode _ ih
    · exact ParseBlock_loop_keepsStrictMode _ ih
    · exact ParseCaseClause_loop_keepsStrictMode _ ih
    · exact ParseSwitchStatement_loop_keepsStrictMode _ ih
    · exact ParseVariableDeclarations_loop_keepsStrictMode _ ih
    · exact ParseFunctionLiteral_params_keepsStrictMode _ ih
    · exact ParseFunctionLiteral_keepsStrictMode _
    · exact ParseExpression_keepsStrictMode _ ih
    · exact ParseExpression_loop_keepsStrictMode _ ih
    · exact ParseAssignmentExpression_keepsStrictMode _ ih
    · exact ParseBinaryExpression_keepsStrictMode _ ih
    · exact ParseBinaryExpression_for_keepsStrictMode _ ih
    · exact ParseBinaryExpression_while_keepsStrictMode _ ih
    · exact ParseUnaryExpression_keepsStrictMode _ ih
    · exact ParseNewPrefix_keepsStrictMode _ ih
    · exact ParseLeftHandSideExpression_loop_keepsStrictMode _ ih
    · exact ParseMemberWithNewPrefixesExpression_loop_keepsStrictMode _ ih
    · exact fun a => ParseArguments_loop_keepsStrictMode _ ih a false
    · exact ParseArrayLiteral_loop_keepsStrictMode _ ih
    · exact ParseObjectLiteral_loop_keepsStrictMode _ ih

theorem ParseSourceElements_loop_keepsStrictMode_of_table (self : Productions)
    (end_token : Token) (h : self.KeepStrictMode)
    (hloop : ∀ processor2,
      (self.ParseSourceElements_loop end_token false processor2).KeepsStrictMode)
    (processor : StatementList) :
    (ParseSourceElements_loop self end_token false processor).KeepsStrictMode := by
  unfold ParseSourceElements_loop
  simp only [Bool.false_and, Bool.false_eq_true, if_false]
  repeat' first
    | with_reducible first
      | apply Production.KeepsStrictMode.bind | apply Production.KeepsStrictMode.pure
      | apply Production.KeepsStrictMode.ite | apply Production.KeepsStrictMode.read
      | apply peek_keepsStrictMode | apply h.ParseStatement | apply hloop
    | intro _

/-- Once the directive prologue has ended, the loop of `ParseSourceElements`
leaves the strict flag as it is. -/
theorem ParseSourceElements_loop_keepsStrictMode (end_token : Token) :
    ∀ (fuel : Nat) (processor : StatementList),
      (ParseSourceElements_loop (productions fuel) end_token false processor).KeepsStrictMode := by
  intro fuel
  induction fuel with
  | zero =>
    exact ParseSourceElements_loop_keepsStrictMode_of_table _ end_token
      (productions_keepStrictMode 0) (fun _ => Production.KeepsStrictMode.fail)
  | succ n ih =>
    exact ParseSourceElements_loop_keepsStrictMode_of_table _ end_token
      (productions_keepStrictMode (n + 1)) ih

/-- A first statement that does not start with a string token ends the
directive prologue at once. -/
theorem ParseSourceElements_loop_of_not_string (self : Productions) (end_token : Token)
    (processor : StatementList) (p : Parser) (hpk : p.peek ≠ Token.STRING) :
    ParseSourceElements_loop self end_token true processor p
      = ParseSourceElements_loop self end_token false processor p := by
  unfold ParseSourceElements_loop
  simp [peek, hpk]

/-- C4 (amended): `ParseSourceElements` switches strict mode on inside the
directive prologue only.  For every statement list whose first statement does
not start with a string token the scope is still non-strict after the whole
list has been parsed, whether the parse succeeds or fails, and at every
recursion budget; and once the prologue has ended the rest of the loop leaves
the mode as it is. -/
theorem ParseSourceElements_strict_mode_prologue_only (fuel : Nat) (processor : StatementList)
    (end_token : Token) (p : Parser) (hs : p.StrictMode = false) :
    (p.peek ≠ Token.STRING →
      (ParseSourceElements (productions fuel) processor end_token p).2.StrictMode = false)
    ∧ (ParseSourceElements_loop (productions fuel) end_token false processor p).2.StrictMode
        = false := by
  have hloop := fun q =>
    (ParseSourceElements_loop_keepsStrictMode end_token fuel processor).keeps q
  refine ⟨fun hpk => ?_, (hloop p).trans hs⟩
  have hpk2 : Parser.peek { p with target_stack_ := [] } ≠ Token.STRING := hpk
  show (ParseSourceElements_loop (productions fuel) end_token true processor
    { p with target_stack_ := [] }).2.StrictMode = false
  rw [ParseSourceElements_loop_of_not_string _ _ _ _ hpk2]
  exact (hloop _).trans hs

theorem ParseSourceElements_strict_mode_prologue_only_witness :
    (ParseSourceElements (productions 40) StatementList.nil Token.EOS
      (sloppyParser source_var_x_use_strict)).2.StrictMode = false :=
  (ParseSourceElements_strict_mode_prologue_only 40 StatementList.nil Token.EOS
    (sloppyParser source_var_x_use_strict) rfl).1 (by decide)

/-- C4 (counterexample): in the statement list `"a"; "use strict";` the first
statement is not the directive, and still the scope, non-strict before, is
strict after the list has been parsed. -/
theorem ParseSourceElements_directive_second :
    (sloppyParser source_a_use_strict).StrictMode = false
    ∧ (ParseSourceElements (productions 40) StatementList.nil Token.EOS
        (sloppyParser source_a_use_strict)).1
      = some (StatementList.cons
          (Statement.ExpressionStatement (Expression.Literal (Value.string "a")))
          (StatementList.cons
            (Statement.ExpressionStatement (Expression.Literal (Value.string "use strict")))
            StatementList.nil))
    ∧ (ParseSourceElements (productions 40) StatementList.nil Token.EOS
        (sloppyParser source_a_use_strict)).2.StrictMode = true :=
  ⟨rfl, rfl, rfl⟩

/-! ## Theorems: the target of a `break` -/

theorem Parser.LookupBreakTarget_loop_eq (p : Parser) (label : Option String) :
    ∀ (stack : List Target) (n : Nat),
      (Parser.LookupBreakTarget_loop p label stack n).map Prod.fst
        = (stack.find? (Target.MatchesBreak p label)).map Target.node := by
  intro stack
  induction stack with
  | nil => intro n; rfl
  | cons t previous ih =>
    intro n
    cases t with
    | collector id targets =>
      simp [Parser.LookupBreakTarget_loop, Target.MatchesBreak, ih (n + 1)]
    | breakable id labels kind =>
      cases label with
      | none =>
        cases hk : kind.is_target_for_anonymous <;>
          simp [Parser.LookupBreakTarget_loop, Target.MatchesBreak, Target.node, hk, ih (n + 1)]
      | some l =>
        cases hc : p.ContainsLabel labels l <;>
          simp [Parser.LookupBreakTarget_loop, Target.MatchesBreak, Target.node, hc, ih (n + 1)]

theorem Parser.LookupBreakTarget_fst (p : Parser) (label : Option String) :
    (p.LookupBreakTarget label).1 = p.nearestBreakTarget label := by
  have h := Parser.LookupBreakTarget_loop_eq p label p.target_stack_ 0
  unfold Parser.LookupBreakTarget Parser.nearestBreakTarget
  rw [← h]
  cases Parser.LookupBreakTarget_loop p label p.target_stack_ 0 with
  | none => rfl
  | some r => rfl

theorem Parser.LookupBreakTarget_of_none (p : Parser) (label : Option String)
    (h : p.nearestBreakTarget label = none) : p.LookupBreakTarget label = (none, p) := by
  have h1 := Parser.LookupBreakTarget_loop_eq p label p.target_stack_ 0
  unfold Parser.nearestBreakTarget at h
  rw [h] at h1
  unfold Parser.LookupBreakTarget
  cases hl : Parser.LookupBreakTarget_loop p label p.target_stack_ 0 with
  | none => rfl
  | some r => rw [hl] at h1; cases h1

theorem Parser.nearestBreakTarget_congr (p q : Parser) (label : Option String)
    (ht : q.target_stack_ = p.target_stack_) (hz : q.zone_labels = p.zone_labels) :
    q.nearestBreakTarget label = p.nearestBreakTarget label := by
  have hm : Target.MatchesBreak q label = Target.MatchesBreak p label := by
    funext t
    cases t with
    | collector id targets => rfl
    | breakable id labels kind =>
      cases label with
      | none => rfl
      | some l => simp [Target.MatchesBreak, Parser.ContainsLabel, hz]
  unfold Parser.nearestBreakTarget
  rw [ht, hm]

theorem Parser.Next_snd_target_stack (p : Parser) :
    p.Next.2.target_stack_ = p.target_stack_ := by
  unfold Parser.Next
  split_ifs <;> rfl

theorem Parser.Next_snd_zone_labels (p : Parser) : p.Next.2.zone_labels = p.zone_labels := by
  unfold Parser.Next
  split_ifs <;> rfl

theorem Parser.Next_snd_has_line_terminator (p : Parser) (d : TokenDesc)
    (rest : List TokenDesc) (hso : p.stack_overflow_ = false)
    (hsrc : p.scanner_.source = d :: rest) :
    p.Next.2.scanner_.has_line_terminator_before_next = headNewline rest := by
  have hsrc2 : p.Next.2.scanner_.source = rest := by
    rw [Parser.Next_snd_source p hso, hsrc]; rfl
  unfold Scanner.has_line_terminator_before_next Scanner.next_
  rw [hsrc2]
  cases rest <;> rfl

/-- An unlabeled `break` with no anonymous break target on the target stack
fails with `illegal_break`. -/
theorem ParseBreakStatement_illegal_break (labels : Option Nat) (p : Parser) (b : TokenDesc)
    (rest : List TokenDesc) (hso : p.stack_overflow_ = false)
    (hsrc : p.scanner_.source = b :: rest) (hb : b.token = Token.BREAK)
    (hend : headNewline rest = true ∨ headToken rest = Token.SEMICOLON
      ∨ headToken rest = Token.RBRACE ∨ headToken rest = Token.EOS)
    (hnone : p.nearestBreakTarget none = none) :
    ParseBreakStatement labels p
      = (none, p.Next.2.ReportMessageAt b.location "illegal_break" []) := by
  have hnx : p.Next.1 = Token.BREAK := by rw [Parser.Next_fst p hso, hsrc]; exact hb
  have hso2 : p.Next.2.stack_overflow_ = false := by
    rw [Parser.Next_snd_stack_overflow, hso]
  have hsrc2 : p.Next.2.scanner_.source = rest := by
    rw [Parser.Next_snd_source p hso, hsrc]; rfl
  have hpk : p.Next.2.peek = headToken rest := by rw [Parser.peek_eq _ hso2, hsrc2]
  have hnl := Parser.Next_snd_has_line_terminator p b rest hso hsrc
  have hcur := Parser.Next_snd_current p b rest hso hsrc
  have hlook := Parser.LookupBreakTarget_of_none p.Next.2 none
    ((Parser.nearestBreakTarget_congr p p.Next.2 none (Parser.Next_snd_target_stack p)
      (Parser.Next_snd_zone_labels p)).trans hnone)
  have hlabel : ParseJumpLabel p.Next.2 = (some none, p.Next.2) := by
    simp only [ParseJumpLabel, peek, Production.bind_eq, Production.seq_apply,
      Production.read_apply, Production.pure_eq, hpk, hnl]
    rcases hend with h | h | h | h <;> simp [h]
  simp [ParseBreakStatement, Expect, Next, hnx, hlabel, hlook, ReportIllegalJump,
    Scanner.location, hcur]

/-- A labeled `break` whose label is neither one of the statement's own labels
nor in the label set of a frame of the target stack fails with
`unknown_label`. -/
theorem ParseBreakStatement_unknown_label (labels : Option Nat) (p : Parser) (b d : TokenDesc)
    (rest : List TokenDesc) (hso : p.stack_overflow_ = false) (hpre : p.pre_data_ = none)
    (hsrc : p.scanner_.source = b :: d :: rest) (hb : b.token = Token.BREAK)
    (hd : d.token = Token.IDENTIFIER) (hnl : d.newline_before = false)
    (hown : p.ContainsLabel labels d.literal = false)
    (hnone : p.nearestBreakTarget (some d.literal) = none) :
    ParseBreakStatement labels p
      = (none, p.Next.2.Next.2.ReportMessageAt d.location "unknown_label" [d.literal]) := by
  have hnx : p.Next.1 = Token.BREAK := by rw [Parser.Next_fst p hso, hsrc]; exact hb
  have hso2 : p.Next.2.stack_overflow_ = false := by
    rw [Parser.Next_snd_stack_overflow, hso]
  have hsrc2 : p.Next.2.scanner_.source = d :: rest := by
    rw [Parser.Next_snd_source p hso, hsrc]; rfl
  have hpk : p.Next.2.peek = Token.IDENTIFIER := by
    rw [Parser.peek_eq _ hso2, hsrc2]; exact hd
  have hnl2 : p.Next.2.scanner_.has_line_terminator_before_next = false := by
    rw [Parser.Next_snd_has_line_terminator p b (d :: rest) hso hsrc]; exact hnl
  have hid := ParseIdentifier_identifier p.Next.2 d rest hso2
    (by rw [Parser.Next_snd_pre_data, hpre]) hsrc2 hd
  have hcur := Parser.Next_snd_current p.Next.2 d rest hso2 hsrc2
  have hz : p.Next.2.Next.2.zone_labels = p.zone_labels := by
    rw [Parser.Next_snd_zone_labels, Parser.Next_snd_zone_labels]
  have ht : p.Next.2.Next.2.target_stack_ = p.target_stack_ := by
    rw [Parser.Next_snd_target_stack, Parser.Next_snd_target_stack]
  have hlook := Parser.LookupBreakTarget_of_none p.Next.2.Next.2 (some d.literal)
    ((Parser.nearestBreakTarget_congr p p.Next.2.Next.2 _ ht hz).trans hnone)
  have hown2 : p.Next.2.Next.2.ContainsLabel labels d.literal = false := by
    rw [← hown]
    unfold Parser.ContainsLabel
    rw [hz]
  have hlabel : ParseJumpLabel p.Next.2 = (some (some d.literal), p.Next.2.Next.2) := by
    simp [ParseJumpLabel, peek, hpk, hnl2, hid]
  simp [ParseBreakStatement, Expect, Next, hnx, hlabel, hlook, hown2, ReportIllegalJump,
    Scanner.location, hcur]

theorem Parser.nearestBreakTarget_of_split (p : Parser) (label : Option String)
    (above below : List Target) (t : Target)
    (hstack : p.target_stack_ = above ++ t :: below)
    (habove : ∀ u ∈ above, Target.MatchesBreak p label u = false)
    (ht : Target.MatchesBreak p label t = true) :
    p.nearestBreakTarget label = some t.node := by
  unfold Parser.nearestBreakTarget
  rw [hstack, List.find?_append]
  have h1 : above.find? (Target.MatchesBreak p label) = none := by
    rw [List.find?_eq_none]
    intro u hu
    rw [habove u hu]
    simp
  rw [h1, List.find?_cons_of_pos _ ht]
  rfl

/-- C5: `LookupBreakTarget` returns the first frame from the top of the target
stack that matches the `break` (for an unlabeled `break` a statement flagged
as an anonymous break target, for a labeled one a statement whose label set
contains the label): every frame above the returned one does not match.  When
no frame matches and the label is not one of the statement's own labels,
`ParseBreakStatement` fails, with `illegal_break` for an unlabeled `break` and
`unknown_label` for a labeled one.  In `for(;;){ break; }` the target is the
loop, in `outer: for(;;){ for(;;){ break outer; } }` it is the outer loop, and
`break nosuch;` fails with `unknown_label`. -/
theorem LookupBreakTarget_first_matching_frame (p : Parser) (labels : Option Nat)
    (b d : TokenDesc) (rest : List TokenDesc)
    (hso : p.stack_overflow_ = false) (hb : b.token = Token.BREAK) :
    (∀ label, (p.LookupBreakTarget label).1 = p.nearestBreakTarget label)
    ∧ (∀ label above below t, p.target_stack_ = above ++ t :: below →
        (∀ u ∈ above, Target.MatchesBreak p label u = false) →
        Target.MatchesBreak p label t = true →
        (p.LookupBreakTarget label).1 = some t.node)
    ∧ (p.scanner_.source = b :: rest →
        (headNewline rest = true ∨ headToken rest = Token.SEMICOLON
          ∨ headToken rest = Token.RBRACE ∨ headToken rest = Token.EOS) →
        p.nearestBreakTarget none = none →
        ParseBreakStatement labels p
          = (none, p.Next.2.ReportMessageAt b.location "illegal_break" []))
    ∧ (p.pre_data_ = none → p.scanner_.source = b :: d :: rest →
        d.token = Token.IDENTIFIER → d.newline_before = false →
        p.ContainsLabel labels d.literal = false →
        p.nearestBreakTarget (some d.literal) = none →
        ParseBreakStatement labels p
          = (none, p.Next.2.Next.2.ReportMessageAt d.location "unknown_label" [d.literal]))
    ∧ (ParseProgram 40 source_for_break 17 true false).1
        = some (Expression.FunctionLiteral "" 0
            (StatementList.cons
              (Statement.ForStatement 3 none StatementList.nil ExpressionList.nil
                StatementList.nil
                (Statement.Block 4 none false
                  (StatementList.cons (Statement.BreakStatement 3) StatementList.nil)))
              StatementList.nil)
            0 0 0 0 17 false true false (-1))
    ∧ (ParseProgram 40 source_break_outer 41 true false).1
        = some (Expression.FunctionLiteral "" 0
            (StatementList.cons
              (Statement.ForStatement 4 (some 0) StatementList.nil ExpressionList.nil
                StatementList.nil
                (Statement.Block 5 none false
                  (StatementList.cons
                    (Statement.ForStatement 6 none StatementList.nil ExpressionList.nil
                      StatementList.nil
                      (Statement.Block 7 none false
                        (StatementList.cons (Statement.BreakStatement 4) StatementList.nil)))
                    StatementList.nil)))
              StatementList.nil)
            0 0 0 0 41 false true false (-1))
    ∧ (ParseProgram 40 source_break_nosuch 13 true false).1 = none
    ∧ (ParseProgram 40 source_break_nosuch 13 true false).2.messages
        = [⟨"unknown_label", ["nosuch"], ⟨6, 12⟩⟩] :=
  ⟨fun label => Parser.LookupBreakTarget_fst p label,
   fun label above below t hstack habove ht =>
    (Parser.LookupBreakTarget_fst p label).trans
      (Parser.nearestBreakTarget_of_split p label above below t hstack habove ht),
   fun hsrc hend hnone => ParseBreakStatement_illegal_break labels p b rest hso hsrc hb hend hnone,
   fun hpre hsrc hd hnl hown hnone =>
    ParseBreakStatement_unknown_label labels p b d rest hso hpre hsrc hb hd hnl hown hnone,
   rfl, rfl, rfl, rfl⟩

theorem LookupBreakTarget_first_matching_frame_witness :
    ParseBreakStatement none (sloppyParser source_break_nosuch)
      = (none, Parser.ReportMessageAt (sloppyParser source_break_nosuch).Next.2.Next.2
          ⟨6, 12⟩ "unknown_label" ["nosuch"]) :=
  (LookupBreakTarget_first_matching_frame (sloppyParser source_break_nosuch) none
    (tk Token.BREAK 0 5) (tkIdentifier "nosuch" 6 12) [tk Token.SEMICOLON 12 13]
    rfl rfl).2.2.2.1 rfl rfl rfl rfl rfl rfl

/-! ## Theorems: the lazy path of `ParseFunctionLiteral` -/

/-- The lazy path returns the three numbers of the cache entry. -/
theorem ParseFunctionLiteral_lazy_result (name : String) (function_block_pos : Int)
    (data : ScriptDataImpl) (p q : Parser) (r : Int × Int × Int)
    (h : ParseFunctionLiteral_lazy name function_block_pos data p = (some r, q)) :
    r = ((data.GetFunctionEntry function_block_pos).1.literal_count,
         (data.GetFunctionEntry function_block_pos).1.property_count,
         (data.GetFunctionEntry function_block_pos).1.end_pos) := by
  unfold ParseFunctionLiteral_lazy at h
  simp only [Production.bind_eq, Production.seq_apply, Production.modify_apply,
    Production.pure_eq] at h
  split_ifs at h with h1 h2
  · cases h
  · cases h
  · simp only [Production.seq_apply, Production.modify_apply] at h
    split at h
    · simp only [Production.ret_apply, Prod.mk.injEq, Option.some.injEq] at h
      exact h.1.symm
    · cases h

/-- On the first function of `function f(){ } function g(){ }` the whole of
`ParseFunctionLiteral` returns the same literal with a matching cache entry as
without preparse data. -/
theorem ParseFunctionLiteral_lazy_example :
    (ParseFunctionLiteral (productions 40) (some "f") false 0 FunctionLiteralType.DECLARATION
        (functionLiteralParser (some (preparseData 15)))).1
      = (ParseFunctionLiteral (productions 40) (some "f") false 0
          FunctionLiteralType.DECLARATION (functionLiteralParser none)).1 := by
  rfl

/-- C8 (counterexample): the cache entry holds the literal count 0 and the
property count 0 that the eager parse of the body of `f` computes, but the end
offset of the body of `g`; the lazy path returns a `FunctionLiteral` that ends
at 31 where the eager parse returns one that ends at 15. -/
theorem ParseFunctionLiteral_lazy_end_position :
    (ParseFunctionLiteral (productions 40) (some "f") false 0 FunctionLiteralType.DECLARATION
        (functionLiteralParser none)).1
      = some (Expression.FunctionLiteral "f" 3 StatementList.nil 0 0 0 10 15
          false false false 0)
    ∧ ((preparseData 31).Initialize.GetFunctionEntry 12).1.literal_count = 0
    ∧ ((preparseData 31).Initialize.GetFunctionEntry 12).1.property_count = 0
    ∧ (ParseFunctionLiteral (productions 40) (some "f") false 0
        FunctionLiteralType.DECLARATION (functionLiteralParser (some (preparseData 31)))).1
      = some (Expression.FunctionLiteral "f" 3 StatementList.nil 0 0 0 10 31
          false false false 0) :=
  ⟨rfl, by decide, by decide, rfl⟩

/-! ## Theorems: capture indices of regular expressions -/

set_option linter.unusedTactic false
set_option linter.unreachableTactic false

namespace RegExpM.KeepsCaptures

end RegExpM.KeepsCaptures

namespace RegExpParser

end RegExpParser

@[simp] theorem RegExpM.bind_eq_seq {α β : Type} (m : RegExpM α) (f : α → RegExpM β) :
    (m >>= f) = RegExpM.seq m f := rfl

@[simp] theorem RegExpM.pure_eq_ret {α : Type} (a : α) : (pure a : RegExpM α) = RegExpM.ret a := rfl

@[simp] theorem RegExpM.seq_run {α β : Type} (m : RegExpM α) (f : α → RegExpM β)
    (p : RegExpParser) :
    RegExpM.seq m f p =
      match m p with
      | some (a, p1) => f a p1
      | none => none := rfl

@[simp] theorem RegExpM.read_run {α : Type} (g : RegExpParser → α) (p : RegExpParser) :
    RegExpM.read g p = some (g p, p) := rfl

@[simp] theorem RegExpM.modify_run (g : RegExpParser → RegExpParser) (p : RegExpParser) :
    RegExpM.modify g p = some ((), g p) := rfl

@[simp] theorem RegExpM.ret_run {α : Type} (a : α) (p : RegExpParser) :
    RegExpM.ret a p = some (a, p) := rfl

namespace RegExpParser

namespace StepOk

end StepOk

end RegExpParser

namespace RegExpParser

end RegExpParser

namespace RegExpParser

end RegExpParser

namespace RegExpParser

end RegExpParser

namespace RegExpM.FailsWhen

end RegExpM.FailsWhen

namespace RegExpParser

end RegExpParser
theorem Parser.LookupContinueTarget_loop_eq (p : Parser) (label : Option String) :
    ∀ (stack : List Target) (n : Nat),
      (Parser.LookupContinueTarget_loop p label stack n).map Prod.fst
        = (stack.find? (Target.MatchesContinue p label)).map Target.node := by
  intro stack
  induction stack with
  | nil => intro n; rfl
  | cons t previous ih =>
    intro n
    cases t with
    | collector id targets =>
      simp [Parser.LookupContinueTarget_loop, Target.MatchesContinue, ih (n + 1)]
    | breakable id labels kind =>
      cases hk : kind.is_iteration
      · simp [Parser.LookupContinueTarget_loop, Target.MatchesContinue, hk, ih (n + 1)]
      · cases label with
        | none =>
          simp [Parser.LookupContinueTarget_loop, Target.MatchesContinue, Target.node, hk]
        | some l =>
          cases hc : p.ContainsLabel labels l <;>
            simp [Parser.LookupContinueTarget_loop, Target.MatchesContinue, Target.node, hk, hc,
              ih (n + 1)]

theorem Parser.LookupContinueTarget_fst (p : Parser) (label : Option String) :
    (p.LookupContinueTarget label).1 = p.nearestContinueTarget label := by
  have h := Parser.LookupContinueTarget_loop_eq p label p.target_stack_ 0
  unfold Parser.LookupContinueTarget Parser.nearestContinueTarget
  rw [← h]
  cases Parser.LookupContinueTarget_loop p label p.target_stack_ 0 with
  | none => rfl
  | some r => rfl

theorem Parser.LookupContinueTarget_of_none (p : Parser) (label : Option String)
    (h : p.nearestContinueTarget label = none) : p.LookupContinueTarget label = (none, p) := by
  have h1 := Parser.LookupContinueTarget_loop_eq p label p.target_stack_ 0
  unfold Parser.nearestContinueTarget at h
  rw [h] at h1
  unfold Parser.LookupContinueTarget
  cases hl : Parser.LookupContinueTarget_loop p label p.target_stack_ 0 with
  | none => rfl
  | some r => rw [hl] at h1; cases h1

theorem Parser.nearestContinueTarget_congr (p q : Parser) (label : Option String)
    (ht : q.target_stack_ = p.target_stack_) (hz : q.zone_labels = p.zone_labels) :
    q.nearestContinueTarget label = p.nearestContinueTarget label := by
  have hm : Target.MatchesContinue q label = Target.MatchesContinue p label := by
    funext t
    cases t with
    | collector id targets => rfl
    | breakable id labels kind =>
      cases label with
      | none => rfl
      | some l => simp [Target.MatchesContinue, Parser.ContainsLabel, hz]
  unfold Parser.nearestContinueTarget
  rw [ht, hm]

/-- The frame that `LookupContinueTarget` returns is an iteration statement of
the target stack, and one that carries the label of a labeled `continue`. -/
theorem Parser.nearestContinueTarget_iteration (p : Parser) (label : Option String)
    (id : Nat) (h : p.nearestContinueTarget label = some id) :
    ∃ t ∈ p.target_stack_, t.node = id ∧ t.IsIteration = true
      ∧ Target.MatchesContinue p label t = true := by
  unfold Parser.nearestContinueTarget at h
  cases hf : p.target_stack_.find? (Target.MatchesContinue p label) with
  | none => rw [hf] at h; cases h
  | some t =>
    rw [hf] at h
    simp only [Option.map_some', Option.some.injEq] at h
    have hm := List.find?_some hf
    refine ⟨t, List.mem_of_find?_eq_some hf, h, ?_, hm⟩
    cases t with
    | collector id2 targets => cases hm
    | breakable id2 labels kind =>
      simp only [Target.MatchesContinue, Bool.and_eq_true] at hm
      exact hm.1

theorem Parser.nearestContinueTarget_of_split (p : Parser) (label : Option String)
    (above below : List Target) (t : Target)
    (hstack : p.target_stack_ = above ++ t :: below)
    (habove : ∀ u ∈ above, Target.MatchesContinue p label u = false)
    (ht : Target.MatchesContinue p label t = true) :
    p.nearestContinueTarget label = some t.node := by
  unfold Parser.nearestContinueTarget
  rw [hstack, List.find?_append]
  have h1 : above.find? (Target.MatchesContinue p label) = none := by
    rw [List.find?_eq_none]
    intro u hu
    rw [habove u hu]
    simp
  rw [h1, List.find?_cons_of_pos _ ht]
  rfl

theorem Target.MatchesContinue_of_not_iteration (p : Parser) (label : Option String)
    (u : Target) (h : u.IsIteration = false) : Target.MatchesContinue p label u = false := by
  cases u with
  | collector id targets => rfl
  | breakable id labels kind =>
    have hk : kind.is_iteration = false := h
    simp [Target.MatchesContinue, hk]

theorem Target.MatchesContinue_anonymous (p : Parser) (t : Target)
    (h : t.IsIteration = true) : Target.MatchesContinue p none t = true := by
  cases t with
  | collector id targets => cases h
  | breakable id labels kind =>
    have hk : kind.is_iteration = true := h
    simp [Target.MatchesContinue, hk]

/-- An unlabeled `continue` with no iteration statement on the target stack
fails with `illegal_continue`. -/
theorem ParseContinueStatement_illegal_continue (p : Parser) (c : TokenDesc)
    (rest : List TokenDesc) (hso : p.stack_overflow_ = false)
    (hsrc : p.scanner_.source = c :: rest) (hc : c.token = Token.CONTINUE)
    (hend : headNewline rest = true ∨ headToken rest = Token.SEMICOLON
      ∨ headToken rest = Token.RBRACE ∨ headToken rest = Token.EOS)
    (hnone : p.nearestContinueTarget none = none) :
    ParseContinueStatement p
      = (none, p.Next.2.ReportMessageAt c.location "illegal_continue" []) := by
  have hnx : p.Next.1 = Token.CONTINUE := by rw [Parser.Next_fst p hso, hsrc]; exact hc
  have hso2 : p.Next.2.stack_overflow_ = false := by
    rw [Parser.Next_snd_stack_overflow, hso]
  have hsrc2 : p.Next.2.scanner_.source = rest := by
    rw [Parser.Next_snd_source p hso, hsrc]; rfl
  have hpk : p.Next.2.peek = headToken rest := by rw [Parser.peek_eq _ hso2, hsrc2]
  have hnl := Parser.Next_snd_has_line_terminator p c rest hso hsrc
  have hcur := Parser.Next_snd_current p c rest hso hsrc
  have hlook := Parser.LookupContinueTarget_of_none p.Next.2 none
    ((Parser.nearestContinueTarget_congr p p.Next.2 none (Parser.Next_snd_target_stack p)
      (Parser.Next_snd_zone_labels p)).trans hnone)
  have hlabel : ParseJumpLabel p.Next.2 = (some none, p.Next.2) := by
    simp only [ParseJumpLabel, peek, Production.bind_eq, Production.seq_apply,
      Production.read_apply, Production.pure_eq, hpk, hnl]
    rcases hend with h | h | h | h <;> simp [h]
  simp [ParseContinueStatement, Expect, Next, hnx, hlabel, hlook, ReportIllegalJump,
    Scanner.location, hcur]

/-- A labeled `continue` whose label is in the label set of no iteration
statement of the target stack fails with `unknown_label`. -/
theorem ParseContinueStatement_unknown_label (p : Parser) (c d : TokenDesc)
    (rest : List TokenDesc) (hso : p.stack_overflow_ = false) (hpre : p.pre_data_ = none)
    (hsrc : p.scanner_.source = c :: d :: rest) (hc : c.token = Token.CONTINUE)
    (hd : d.token = Token.IDENTIFIER) (hnl : d.newline_before = false)
    (hnone : p.nearestContinueTarget (some d.literal) = none) :
    ParseContinueStatement p
      = (none, p.Next.2.Next.2.ReportMessageAt d.location "unknown_label" [d.literal]) := by
  have hnx : p.Next.1 = Token.CONTINUE := by rw [Parser.Next_fst p hso, hsrc]; exact hc
  have hso2 : p.Next.2.stack_overflow_ = false := by
    rw [Parser.Next_snd_stack_overflow, hso]
  have hsrc2 : p.Next.2.scanner_.source = d :: rest := by
    rw [Parser.Next_snd_source p hso, hsrc]; rfl
  have hpk : p.Next.2.peek = Token.IDENTIFIER := by
    rw [Parser.peek_eq _ hso2, hsrc2]; exact hd
  have hnl2 : p.Next.2.scanner_.has_line_terminator_before_next = false := by
    rw [Parser.Next_snd_has_line_terminator p c (d :: rest) hso hsrc]; exact hnl
  have hid := ParseIdentifier_identifier p.Next.2 d rest hso2
    (by rw [Parser.Next_snd_pre_data, hpre]) hsrc2 hd
  have hcur := Parser.Next_snd_current p.Next.2 d rest hso2 hsrc2
  have hz : p.Next.2.Next.2.zone_labels = p.zone_labels := by
    rw [Parser.Next_snd_zone_labels, Parser.Next_snd_zone_labels]
  have ht : p.Next.2.Next.2.target_stack_ = p.target_stack_ := by
    rw [Parser.Next_snd_target_stack, Parser.Next_snd_target_stack]
  have hlook := Parser.LookupContinueTarget_of_none p.Next.2.Next.2 (some d.literal)
    ((Parser.nearestContinueTarget_congr p p.Next.2.Next.2 _ ht hz).trans hnone)
  have hlabel : ParseJumpLabel p.Next.2 = (some (some d.literal), p.Next.2.Next.2) := by
    simp [ParseJumpLabel, peek, hpk, hnl2, hid]
  simp [ParseContinueStatement, Expect, Next, hnx, hlabel, hlook, ReportIllegalJump,
    Scanner.location, hcur]

/-- C24: `LookupContinueTarget` returns the first frame from the top of the
target stack that is an iteration statement and, for a labeled `continue`,
carries the label; whatever it returns is an iteration statement of the
stack.  An unlabeled `continue` resolves to the first iteration statement, so
blocks, switch statements and collectors above it are skipped.  With no
iteration statement on the stack an unlabeled `continue` fails with
`illegal_continue`, and a labeled one whose label no iteration statement
carries fails with `unknown_label`.  In `for(;;){ switch(x){ case 1: continue; } }`
the target is the loop, `L: { continue L; }` fails with `unknown_label` and
`continue;` with `illegal_continue`. -/
theorem LookupContinueTarget_iteration_only (p : Parser) (c d : TokenDesc)
    (rest : List TokenDesc) (hso : p.stack_overflow_ = false)
    (hc : c.token = Token.CONTINUE) :
    (∀ label, (p.LookupContinueTarget label).1 = p.nearestContinueTarget label)
    ∧ (∀ label id, (p.LookupContinueTarget label).1 = some id →
        ∃ t ∈ p.target_stack_, t.node = id ∧ t.IsIteration = true
          ∧ Target.MatchesContinue p label t = true)
    ∧ (∀ label above below t, p.target_stack_ = above ++ t :: below →
        (∀ u ∈ above, Target.MatchesContinue p label u = false) →
        Target.MatchesContinue p label t = true →
        (p.LookupContinueTarget label).1 = some t.node)
    ∧ (∀ above below t, p.target_stack_ = above ++ t :: below →
        (∀ u ∈ above, u.IsIteration = false) → t.IsIteration = true →
        (p.LookupContinueTarget none).1 = some t.node)
    ∧ (p.scanner_.source = c :: rest →
        (headNewline rest = true ∨ headToken rest = Token.SEMICOLON
          ∨ headToken rest = Token.RBRACE ∨ headToken rest = Token.EOS) →
        (∀ u ∈ p.target_stack_, u.IsIteration = false) →
        ParseContinueStatement p
          = (none, p.Next.2.ReportMessageAt c.location "illegal_continue" []))
    ∧ (p.pre_data_ = none → p.scanner_.source = c :: d :: rest →
        d.token = Token.IDENTIFIER → d.newline_before = false →
        (∀ u ∈ p.target_stack_, Target.MatchesContinue p (some d.literal) u = false) →
        ParseContinueStatement p
          = (none, p.Next.2.Next.2.ReportMessageAt d.location "unknown_label" [d.literal]))
    ∧ (ParseProgram 40 source_switch_continue 41 true false).1
        = some (Expression.FunctionLiteral "" 0
            (StatementList.cons
              (Statement.ForStatement 3 none StatementList.nil ExpressionList.nil
                StatementList.nil
                (Statement.Block 4 none false
                  (StatementList.cons
                    (Statement.SwitchStatement 5 none (identifierProxy 6 "x")
                      (CaseClauseList.cons
                        (CaseClause.mk
                          (ExpressionList.cons (integerLiteral 1) ExpressionList.nil)
                          (StatementList.cons (Statement.ContinueStatement 3)
                            StatementList.nil)
                          26)
                        CaseClauseList.nil))
                    StatementList.nil)))
              StatementList.nil)
            0 0 0 0 41 false true false (-1))
    ∧ (ParseProgram 40 source_continue_label_block 18 true false).1 = none
    ∧ (ParseProgram 40 source_continue_label_block 18 true false).2.messages
        = [⟨"unknown_label", ["L"], ⟨14, 15⟩⟩]
    ∧ (ParseProgram 40 source_continue 9 true false).1 = none
    ∧ (ParseProgram 40 source_continue 9 true false).2.messages
        = [⟨"illegal_continue", [], ⟨0, 8⟩⟩] := by
  refine ⟨fun label => Parser.LookupContinueTarget_fst p label, ?_, ?_, ?_, ?_, ?_,
    rfl, rfl, rfl, rfl, rfl⟩
  · intro label id h
    rw [Parser.LookupContinueTarget_fst] at h
    exact Parser.nearestContinueTarget_iteration p label id h
  · intro label above below t hstack habove ht
    exact (Parser.LookupContinueTarget_fst p label).trans
      (Parser.nearestContinueTarget_of_split p label above below t hstack habove ht)
  · intro above below t hstack habove ht
    exact (Parser.LookupContinueTarget_fst p none).trans
      (Parser.nearestContinueTarget_of_split p none above below t hstack
        (fun u hu => Target.MatchesContinue_of_not_iteration p none u (habove u hu))
        (Target.MatchesContinue_anonymous p t ht))
  · intro hsrc hend hnone
    refine ParseContinueStatement_illegal_continue p c rest hso hsrc hc hend ?_
    unfold Parser.nearestContinueTarget
    rw [List.find?_eq_none.mpr]
    · rfl
    · intro u hu
      rw [Target.MatchesContinue_of_not_iteration p none u (hnone u hu)]
      simp
  · intro hpre hsrc hd hnl hnone
    refine ParseContinueStatement_unknown_label p c d rest hso hpre hsrc hc hd hnl ?_
    unfold Parser.nearestContinueTarget
    rw [List.find?_eq_none.mpr]
    · rfl
    · intro u hu
      rw [hnone u hu]
      simp

theorem LookupContinueTarget_iteration_only_witness :
    ParseContinueStatement
        { sloppyParser [tk Token.CONTINUE 5 13, tkIdentifier "L" 14 15,
            tk Token.SEMICOLON 15 16, tk Token.RBRACE 17 18] with
          target_stack_ := [Target.breakable 3 (some 0) BreakableKind.Block],
          zone_labels := [["L"]] }
      = (none, Parser.ReportMessageAt
          (Parser.Next (Parser.Next
            { sloppyParser [tk Token.CONTINUE 5 13, tkIdentifier "L" 14 15,
                tk Token.SEMICOLON 15 16, tk Token.RBRACE 17 18] with
              target_stack_ := [Target.breakable 3 (some 0) BreakableKind.Block],
              zone_labels := [["L"]] }).2).2
          ⟨14, 15⟩ "unknown_label" ["L"]) :=
  (LookupContinueTarget_iteration_only
    { sloppyParser [tk Token.CONTINUE 5 13, tkIdentifier "L" 14 15,
        tk Token.SEMICOLON 15 16, tk Token.RBRACE 17 18] with
      target_stack_ := [Target.breakable 3 (some 0) BreakableKind.Block],
      zone_labels := [["L"]] }
    (tk Token.CONTINUE 5 13) (tkIdentifier "L" 14 15)
    [tk Token.SEMICOLON 15 16, tk Token.RBRACE 17 18]
    rfl rfl).2.2.2.2.2.1 rfl rfl rfl rfl (by decide)

/-! ## Theorems: the collectors that a jump passes -/

theorem Parser.LookupBreakTarget_loop_split (p : Parser) (label : Option String) :
    ∀ (stack : List Target) (k id n : Nat),
      Parser.LookupBreakTarget_loop p label stack k = some (id, n) →
      ∃ above t below, stack = above ++ t :: below ∧ t.node = id
        ∧ Target.MatchesBreak p label t = true
        ∧ (∀ u ∈ above, Target.MatchesBreak p label u = false)
        ∧ n = k + above.length + 1 := by
  intro stack
  induction stack with
  | nil =>
    intro k id n h
    cases h
  | cons t previous ih =>
    intro k id n h
    have hstep : ∀ (hm : Target.MatchesBreak p label t = false),
        Parser.LookupBreakTarget_loop p label previous (k + 1) = some (id, n) →
        ∃ above u below, t :: previous = above ++ u :: below ∧ u.node = id
          ∧ Target.MatchesBreak p label u = true
          ∧ (∀ v ∈ above, Target.MatchesBreak p label v = false)
          ∧ n = k + above.length + 1 := by
      intro hm h2
      obtain ⟨above, u, below, h3, h4, h5, h6, h7⟩ := ih (k + 1) id n h2
      refine ⟨t :: above, u, below, ?_, h4, h5, ?_, ?_⟩
      · rw [h3]
        rfl
      · intro v hv
        rcases List.mem_cons.mp hv with rfl | hv
        · exact hm
        · exact h6 v hv
      · rw [h7, List.length_cons]
        omega
    cases t with
    | collector id2 targets =>
      exact hstep rfl h
    | breakable id2 labels kind =>
      cases hm : Target.MatchesBreak p label (Target.breakable id2 labels kind)
      · have h2 : Parser.LookupBreakTarget_loop p label previous (k + 1) = some (id, n) := by
          cases label <;> simp_all [Parser.LookupBreakTarget_loop, Target.MatchesBreak]
        exact hstep hm h2
      · have h2 : id2 = id ∧ k + 1 = n := by
          cases label <;> simp_all [Parser.LookupBreakTarget_loop, Target.MatchesBreak]
        obtain ⟨rfl, rfl⟩ := h2
        exact ⟨[], _, previous, rfl, rfl, hm, fun u hu => absurd hu (List.not_mem_nil u), rfl⟩

theorem Parser.LookupContinueTarget_loop_split (p : Parser) (label : Option String) :
    ∀ (stack : List Target) (k id n : Nat),
      Parser.LookupContinueTarget_loop p label stack k = some (id, n) →
      ∃ above t below, stack = above ++ t :: below ∧ t.node = id
        ∧ Target.MatchesContinue p label t = true
        ∧ (∀ u ∈ above, Target.MatchesContinue p label u = false)
        ∧ n = k + above.length + 1 := by
  intro stack
  induction stack with
  | nil =>
    intro k id n h
    cases h
  | cons t previous ih =>
    intro k id n h
    have hstep : ∀ (hm : Target.MatchesContinue p label t = false),
        Parser.LookupContinueTarget_loop p label previous (k + 1) = some (id, n) →
        ∃ above u below, t :: previous = above ++ u :: below ∧ u.node = id
          ∧ Target.MatchesContinue p label u = true
          ∧ (∀ v ∈ above, Target.MatchesContinue p label v = false)
          ∧ n = k + above.length + 1 := by
      intro hm h2
      obtain ⟨above, u, below, h3, h4, h5, h6, h7⟩ := ih (k + 1) id n h2
      refine ⟨t :: above, u, below, ?_, h4, h5, ?_, ?_⟩
      · rw [h3]
        rfl
      · intro v hv
        rcases List.mem_cons.mp hv with rfl | hv
        · exact hm
        · exact h6 v hv
      · rw [h7, List.length_cons]
        omega
    cases t with
    | collector id2 targets =>
      exact hstep rfl h
    | breakable id2 labels kind =>
      cases hm : Target.MatchesContinue p label (Target.breakable id2 labels kind)
      · have h2 : Parser.LookupContinueTarget_loop p label previous (k + 1) = some (id, n) := by
          cases hk : kind.is_iteration <;> cases label <;>
            simp_all [Parser.LookupContinueTarget_loop, Target.MatchesContinue]
        exact hstep hm h2
      · have h2 : id2 = id ∧ k + 1 = n := by
          cases hk : kind.is_iteration <;> cases label <;>
            simp_all [Parser.LookupContinueTarget_loop, Target.MatchesContinue]
        obtain ⟨rfl, rfl⟩ := h2
        exact ⟨[], _, previous, rfl, rfl, hm, fun u hu => absurd hu (List.not_mem_nil u), rfl⟩

/-- The stack after `RegisterTargetUse` has gone from the top down to the
matched frame: the frames above it have been passed, the matched frame, which
is no collector, and the frames below it are as before. -/
theorem Parser.RegisterTargetUse_split (above below : List Target) (t : Target)
    (target : BreakTarget) (ht : t.IsCollector = false) :
    Parser.RegisterTargetUse (above ++ t :: below) target (above.length + 1)
      = above.map (Target.withTarget target) ++ t :: below := by
  have htake : (above ++ t :: below).take (above.length + 1) = above ++ [t] := by
    rw [show above ++ t :: below = (above ++ [t]) ++ below by simp]
    rw [List.take_left' (by simp)]
  have hdrop : (above ++ t :: below).drop (above.length + 1) = below := by
    rw [show above ++ t :: below = (above ++ [t]) ++ below by simp]
    rw [List.drop_left' (by simp)]
  unfold Parser.RegisterTargetUse
  rw [htake, hdrop]
  refine Eq.trans (congrArg (fun l => l ++ below)
    (@List.map_congr_left Target (above ++ [t]) Target _ (Target.withTarget target) ?_)) ?_
  · intro u _
    cases u <;> rfl
  · cases t with
    | collector id targets => cases ht
    | breakable id labels kind => simp [Target.withTarget]

theorem Target.MatchesBreak_not_collector (p : Parser) (label : Option String) (t : Target)
    (h : Target.MatchesBreak p label t = true) : t.IsCollector = false := by
  cases t with
  | collector id targets => cases h
  | breakable id labels kind => rfl

theorem Target.MatchesContinue_not_collector (p : Parser) (label : Option String) (t : Target)
    (h : Target.MatchesContinue p label t = true) : t.IsCollector = false := by
  cases t with
  | collector id targets => cases h
  | breakable id labels kind => rfl

theorem TargetCollector_AddTarget_mem (targets : List BreakTarget) (target : BreakTarget) :
    target ∈ TargetCollector_AddTarget targets target := by
  unfold TargetCollector_AddTarget
  split_ifs with h
  · exact h
  · simp

/-- C25: after a successful `LookupBreakTarget` or `LookupContinueTarget` the
target stack is the old one with the resolved target added to every collector
above the matched frame: the matched frame, which is the first that matches,
and all frames below it are as before, and every collector above it holds the
target.  So the `break` of `for(;;){ try { break; } finally { } }` is among
the escaping targets of the `try` and the one of
`try { for(;;){ break; } } finally { }` is not; on a stack with a collector
above a block, a collector above a loop and a collector below the loop, an
unlabeled `break` adds the loop to the first two collectors only. -/
theorem RegisterTargetUse_collectors_above (p : Parser) (label : Option String) (id : Nat) :
    ((p.LookupBreakTarget label).1 = some id →
      ∃ above t below, p.target_stack_ = above ++ t :: below ∧ t.node = id
        ∧ t.IsCollector = false ∧ Target.MatchesBreak p label t = true
        ∧ (∀ u ∈ above, Target.MatchesBreak p label u = false)
        ∧ (p.LookupBreakTarget label).2.target_stack_
            = above.map (Target.withTarget ⟨id, false⟩) ++ t :: below)
    ∧ ((p.LookupContinueTarget label).1 = some id →
      ∃ above t below, p.target_stack_ = above ++ t :: below ∧ t.node = id
        ∧ t.IsCollector = false ∧ Target.MatchesContinue p label t = true
        ∧ (∀ u ∈ above, Target.MatchesContinue p label u = false)
        ∧ (p.LookupContinueTarget label).2.target_stack_
            = above.map (Target.withTarget ⟨id, true⟩) ++ t :: below)
    ∧ (∀ (target : BreakTarget) (u : Target), u.IsCollector = true →
        (u.withTarget target).IsCollector = true ∧ (u.withTarget target).node = u.node
        ∧ target ∈ (u.withTarget target).targets
        ∧ ∀ x ∈ u.targets, x ∈ (u.withTarget target).targets)
    ∧ (∀ (target : BreakTarget) (u : Target), u.IsCollector = false →
        u.withTarget target = u)
    ∧ (ParseProgram 40 source_for_try_break 37 true false).1
        = some (Expression.FunctionLiteral "" 0
            (StatementList.cons
              (Statement.ForStatement 3 none StatementList.nil ExpressionList.nil
                StatementList.nil
                (Statement.Block 4 none false
                  (StatementList.cons
                    (Statement.Block 5 none false
                      (StatementList.cons
                        (Statement.TryFinallyStatement
                          (Statement.Block 7 none false
                            (StatementList.cons (Statement.BreakStatement 3)
                              StatementList.nil))
                          (Statement.Block 9 none false StatementList.nil)
                          [⟨3, false⟩])
                        StatementList.nil))
                    StatementList.nil)))
              StatementList.nil)
            0 0 0 0 37 false true false (-1))
    ∧ (ParseProgram 40 source_try_for_break 37 true false).1
        = some (Expression.FunctionLiteral "" 0
            (StatementList.cons
              (Statement.Block 3 none false
                (StatementList.cons
                  (Statement.TryFinallyStatement
                    (Statement.Block 5 none false
                      (StatementList.cons
                        (Statement.ForStatement 6 none StatementList.nil ExpressionList.nil
                          StatementList.nil
                          (Statement.Block 7 none false
                            (StatementList.cons (Statement.BreakStatement 6)
                              StatementList.nil)))
                        StatementList.nil))
                    (Statement.Block 9 none false StatementList.nil)
                    [])
                  StatementList.nil))
              StatementList.nil)
            0 0 0 0 37 false true false (-1))
    ∧ (Parser.LookupBreakTarget
          { sloppyParser [] with
            target_stack_ := [Target.collector 7 [], Target.breakable 4 none BreakableKind.Block,
              Target.collector 5 [], Target.breakable 3 none BreakableKind.For,
              Target.collector 2 []] } none).2.target_stack_
        = [Target.collector 7 [⟨3, false⟩], Target.breakable 4 none BreakableKind.Block,
            Target.collector 5 [⟨3, false⟩], Target.breakable 3 none BreakableKind.For,
            Target.collector 2 []] := by
  refine ⟨?_, ?_, ?_, ?_, rfl, rfl, rfl⟩
  · intro h
    unfold Parser.LookupBreakTarget at h ⊢
    cases hl : Parser.LookupBreakTarget_loop p label p.target_stack_ 0 with
    | none => rw [hl] at h; cases h
    | some r =>
      obtain ⟨id2, n⟩ := r
      rw [hl] at h
      simp only [Option.some.injEq] at h
      subst h
      obtain ⟨above, t, below, h1, h2, h3, h4, h5⟩ :=
        Parser.LookupBreakTarget_loop_split p label p.target_stack_ 0 id2 n hl
      have hc := Target.MatchesBreak_not_collector p label t h3
      refine ⟨above, t, below, h1, h2, hc, h3, h4, ?_⟩
      show Parser.RegisterTargetUse p.target_stack_ ⟨id2, false⟩ n = _
      rw [h5, h1, Nat.zero_add]
      exact Parser.RegisterTargetUse_split above below t _ hc
  · intro h
    unfold Parser.LookupContinueTarget at h ⊢
    cases hl : Parser.LookupContinueTarget_loop p label p.target_stack_ 0 with
    | none => rw [hl] at h; cases h
    | some r =>
      obtain ⟨id2, n⟩ := r
      rw [hl] at h
      simp only [Option.some.injEq] at h
      subst h
      obtain ⟨above, t, below, h1, h2, h3, h4, h5⟩ :=
        Parser.LookupContinueTarget_loop_split p label p.target_stack_ 0 id2 n hl
      have hc := Target.MatchesContinue_not_collector p label t h3
      refine ⟨above, t, below, h1, h2, hc, h3, h4, ?_⟩
      show Parser.RegisterTargetUse p.target_stack_ ⟨id2, true⟩ n = _
      rw [h5, h1, Nat.zero_add]
      exact Parser.RegisterTargetUse_split above below t _ hc
  · intro target u hu
    cases u with
    | breakable id2 labels kind => cases hu
    | collector id2 targets =>
      refine ⟨rfl, rfl, TargetCollector_AddTarget_mem targets target, ?_⟩
      intro x hx
      show x ∈ TargetCollector_AddTarget targets target
      unfold TargetCollector_AddTarget
      split_ifs
      · exact hx
      · exact List.mem_append_left _ hx
  · intro target u hu
    cases u with
    | breakable id2 labels kind => rfl
    | collector id2 targets => cases hu

/-! ## Theorems: quantifiers in the regular expression builder -/

theorem RegExpBuilder.FlushText_of_no_characters (b : RegExpBuilder)
    (h : b.characters_ = none) :
    b.FlushText
      = { pending_empty_ := false, characters_ := none,
          terms_ := b.terms_ ++ RegExpBuilder.flushed b.text_,
          text_ := [], alternatives_ := b.alternatives_ } := by
  obtain ⟨pe, ch, terms, text, alts⟩ := b
  simp only at h
  subst h
  unfold RegExpBuilder.FlushText RegExpBuilder.FlushCharacters RegExpBuilder.flushed
  simp only
  split <;> simp_all

/-- C29: `AddQuantifierToAtom` on every builder.  After an empty atom (pending
empty) it adds no term and only clears the mark.  When the last thing added is
a term with `max_match` 0, the term is removed for a minimum of 0 and kept
once, without a quantifier node, for any other minimum.  In every other case
after an atom or a character the terms end with exactly one new
`RegExpQuantifier`: over the last character of a pending character run, whose
other characters are flushed as text before it, over the last pending text
element, or over the last term.  A builder to which nothing has been added is
left as it is.  `(?:)*b` and `(?=a)*b` give the atom `b`
alone, `(?=a)+b` keeps the lookahead once, and in `abc*` the quantifier is
over `c`. -/
theorem AddQuantifierToAtom_empty_match (b : RegExpBuilder) (min max : Int)
    (type : RegExpQuantifierType) :
    (b.pending_empty_ = true →
      b.AddQuantifierToAtom min max type = { b with pending_empty_ := false })
    ∧ (∀ (terms : List RegExpTree) (atom : RegExpTree),
        b.pending_empty_ = false → b.characters_ = none → b.text_ = [] →
        b.terms_ = terms ++ [atom] → atom.max_match = 0 →
        (min = 0 → b.AddQuantifierToAtom min max type = { b with terms_ := terms })
        ∧ (min ≠ 0 → b.AddQuantifierToAtom min max type = b))
    ∧ (∀ (terms : List RegExpTree) (atom : RegExpTree),
        b.pending_empty_ = false → b.characters_ = none → b.text_ = [] →
        b.terms_ = terms ++ [atom] → atom.max_match ≠ 0 →
        b.AddQuantifierToAtom min max type
          = { b with terms_ := terms ++ [RegExpTree.Quantifier min max type atom] })
    ∧ (∀ (text : List RegExpTree) (atom : RegExpTree),
        b.pending_empty_ = false → b.characters_ = none → b.text_ = text ++ [atom] →
        b.AddQuantifierToAtom min max type
          = { pending_empty_ := false, characters_ := none,
              terms_ := b.terms_ ++ RegExpBuilder.flushed text
                ++ [RegExpTree.Quantifier min max type atom],
              text_ := [], alternatives_ := b.alternatives_ })
    ∧ (∀ (c : Nat),
        b.pending_empty_ = false → b.characters_ = some [c] →
        b.AddQuantifierToAtom min max type
          = { pending_empty_ := false, characters_ := none,
              terms_ := b.terms_ ++ RegExpBuilder.flushed b.text_
                ++ [RegExpTree.Quantifier min max type (RegExpTree.Atom [c])],
              text_ := [], alternatives_ := b.alternatives_ })
    ∧ (∀ (c d : Nat) (characters : List Nat),
        b.pending_empty_ = false → b.characters_ = some (d :: characters ++ [c]) →
        b.AddQuantifierToAtom min max type
          = { pending_empty_ := false, characters_ := none,
              terms_ := b.terms_
                ++ RegExpBuilder.flushed (b.text_ ++ [RegExpTree.Atom (d :: characters)])
                ++ [RegExpTree.Quantifier min max type (RegExpTree.Atom [c])],
              text_ := [], alternatives_ := b.alternatives_ })
    ∧ (b.pending_empty_ = false → b.characters_ = none → b.text_ = [] → b.terms_ = [] →
        b.AddQuantifierToAtom min max type = b)
    ∧ (ParseRegExp 50 pattern_empty_group_star false).map (fun r => r.2.1.tree)
        = some (some (RegExpTree.Atom ['b'.toNat]))
    ∧ (ParseRegExp 50 pattern_lookahead_star false).map (fun r => r.2.1.tree)
        = some (some (RegExpTree.Atom ['b'.toNat]))
    ∧ (ParseRegExp 50 pattern_lookahead_plus false).map (fun r => r.2.1.tree)
        = some (some (RegExpTree.Alternative
            (RegExpTreeList.cons
              (RegExpTree.Lookahead (RegExpTree.Atom ['a'.toNat]) true 0 0)
              (RegExpTreeList.cons (RegExpTree.Atom ['b'.toNat]) RegExpTreeList.nil))))
    ∧ (ParseRegExp 50 pattern_abc_star false).map (fun r => r.2.1.tree)
        = some (some (RegExpTree.Alternative
            (RegExpTreeList.cons (RegExpTree.Atom ['a'.toNat, 'b'.toNat])
              (RegExpTreeList.cons
                (RegExpTree.Quantifier 0 RegExpTree.kInfinity RegExpQuantifierType.GREEDY
                  (RegExpTree.Atom ['c'.toNat]))
                RegExpTreeList.nil)))) := by
  obtain ⟨pe, ch, terms0, text0, alts⟩ := b
  refine ⟨?_, ?_, ?_, ?_, ?_, ?_, ?_, rfl, rfl, rfl, rfl⟩
  · intro h
    simp only at h
    subst h
    rfl
  · intro terms atom h1 h2 h3 h4 h5
    simp only at h1 h2 h3 h4
    subst h1 h2 h3 h4
    constructor
    · intro hmin
      simp [RegExpBuilder.AddQuantifierToAtom, h5, hmin]
    · intro hmin
      simp [RegExpBuilder.AddQuantifierToAtom, h5, hmin]
  · intro terms atom h1 h2 h3 h4 h5
    simp only at h1 h2 h3 h4
    subst h1 h2 h3 h4
    simp [RegExpBuilder.AddQuantifierToAtom, h5]
  · intro text atom h1 h2 h3
    simp only at h1 h2 h3
    subst h1 h2 h3
    simp [RegExpBuilder.AddQuantifierToAtom, RegExpBuilder.FlushText_of_no_characters]
  · intro c h1 h2
    simp only at h1 h2
    subst h1 h2
    simp [RegExpBuilder.AddQuantifierToAtom, RegExpBuilder.FlushText_of_no_characters]
  · intro c d characters h1 h2
    simp only at h1 h2
    subst h1 h2
    simp [RegExpBuilder.AddQuantifierToAtom, RegExpBuilder.FlushText_of_no_characters,
      List.take_append_eq_append_take, List.drop_append_eq_append_drop]
  · intro h1 h2 h3 h4
    simp only at h1 h2 h3 h4
    subst h1 h2 h3 h4
    rfl

/-! ## Theorems: character classes -/

theorem ParseCharacterClass_eq (fuel : Nat) (p : RegExpParser) :
    RegExpParser.ParseCharacterClass fuel p
      = match RegExpParser.ParseCharacterClass_loop fuel [] p.afterClassOpen with
        | none => none
        | some (none, q) => some (none, q)
        | some (some ranges, q) =>
          if q.has_more_ = true then
            some (some (if ranges = [] then
                RegExpTree.CharacterClass [CharacterRange.Everything] (!p.classIsNegated)
              else RegExpTree.CharacterClass ranges p.classIsNegated), q.Advance)
          else some (none, q.ReportError "Unterminated character class") := by
  unfold RegExpParser.ParseCharacterClass RegExpParser.afterClassOpen
    RegExpParser.classIsNegated
  simp only [RegExpM.bind_eq_seq, RegExpM.pure_eq_ret, RegExpM.seq_run, RegExpM.modify_run,
    RegExpParser.current, RegExpM.read_run]
  have key : ∀ (written : Bool) (p1 : RegExpParser),
      ((RegExpParser.ParseCharacterClass_loop fuel []).seq fun r =>
          match r with
          | none => RegExpM.ret none
          | some ranges =>
            (RegExpM.read fun p => p.has_more_).seq fun has_more =>
              if (!has_more) = true then
                (RegExpParser.Fail "Unterminated character class").seq fun _ => RegExpM.ret none
              else
                (RegExpM.modify RegExpParser.Advance).seq fun _ =>
                  if ranges.length = 0 then
                    RegExpM.ret
                      (some (RegExpTree.CharacterClass [CharacterRange.Everything] !written))
                  else RegExpM.ret (some (RegExpTree.CharacterClass ranges written))) p1
        = match RegExpParser.ParseCharacterClass_loop fuel [] p1 with
          | none => none
          | some (none, q) => some (none, q)
          | some (some ranges, q) =>
            if q.has_more_ = true then
              some (some (if ranges = [] then
                  RegExpTree.CharacterClass [CharacterRange.Everything] (!written)
                else RegExpTree.CharacterClass ranges written), q.Advance)
            else some (none, q.ReportError "Unterminated character class") := by
    intro written p1
    rw [RegExpM.seq_run]
    cases RegExpParser.ParseCharacterClass_loop fuel [] p1 with
    | none => rfl
    | some r =>
      obtain ⟨o, q⟩ := r
      cases o with
      | none => rfl
      | some ranges =>
        simp only [RegExpM.seq_run, RegExpM.read_run, RegExpParser.Fail, RegExpM.modify_run,
          RegExpM.ret_run]
        cases hm : q.has_more_
        · simp
        · cases ranges <;> simp
  by_cases hc : p.Advance.current_ = Ch.caret
  · simp only [hc, decide_True, if_true]
    rw [RegExpM.seq_run, RegExpM.modify_run]
    exact key true p.Advance.Advance
  · simp only [hc, decide_False, if_false, Bool.false_eq_true]
    rw [RegExpM.seq_run, RegExpM.ret_run]
    exact key false p.Advance

/-- C30: `ParseCharacterClass` never returns a class with an empty range list.
With `collected` the ranges that the loop over the class atoms has collected
when it stops at the closing bracket, the function returns the class with
these ranges and the negation flag as written when there is at least one, and
the class of the single range `Everything` with the inverted flag when there
is none; whatever class it returns is of one of these two forms.  So `[]`
gives `Everything` with `negated = true`, `[^]` gives `Everything` with
`negated = false`, and `[^a-c]` keeps its range and its flag. -/
theorem ParseCharacterClass_never_empty (fuel : Nat) (p : RegExpParser) :
    (∀ (collected : List CharacterRange) (q : RegExpParser),
        RegExpParser.ParseCharacterClass_loop fuel [] p.afterClassOpen
          = some (some collected, q) →
        q.has_more_ = true →
        (collected = [] →
          RegExpParser.ParseCharacterClass fuel p
            = some (some (RegExpTree.CharacterClass [CharacterRange.Everything]
                (!p.classIsNegated)), q.Advance))
        ∧ (collected ≠ [] →
          RegExpParser.ParseCharacterClass fuel p
            = some (some (RegExpTree.CharacterClass collected p.classIsNegated), q.Advance)))
    ∧ (∀ (tree : RegExpTree) (q : RegExpParser),
        RegExpParser.ParseCharacterClass fuel p = some (some tree, q) →
        ∃ ranges negated, tree = RegExpTree.CharacterClass ranges negated ∧ ranges ≠ []
          ∧ ∃ collected q1,
              RegExpParser.ParseCharacterClass_loop fuel [] p.afterClassOpen
                = some (some collected, q1)
              ∧ ((collected = [] ∧ ranges = [CharacterRange.Everything]
                    ∧ negated = !p.classIsNegated)
                 ∨ (collected ≠ [] ∧ ranges = collected ∧ negated = p.classIsNegated)))
    ∧ (ParseRegExp 50 pattern_class_empty false).map (fun r => r.2.1.tree)
        = some (some (RegExpTree.CharacterClass [CharacterRange.Everything] true))
    ∧ (ParseRegExp 50 pattern_class_negated_empty false).map (fun r => r.2.1.tree)
        = some (some (RegExpTree.CharacterClass [CharacterRange.Everything] false))
    ∧ (ParseRegExp 50 pattern_class_negated_range false).map (fun r => r.2.1.tree)
        = some (some (RegExpTree.CharacterClass
            [CharacterRange.Range 'a'.toNat 'c'.toNat] true)) := by
  refine ⟨?_, ?_, rfl, rfl, rfl⟩
  · intro collected q hloop hmore
    constructor
    · intro hc
      rw [ParseCharacterClass_eq, hloop]
      simp [hmore, hc]
    · intro hc
      rw [ParseCharacterClass_eq, hloop]
      simp [hmore, hc]
  · intro tree q h
    rw [ParseCharacterClass_eq] at h
    cases hl : RegExpParser.ParseCharacterClass_loop fuel [] p.afterClassOpen with
    | none => rw [hl] at h; cases h
    | some r =>
      obtain ⟨o, q1⟩ := r
      rw [hl] at h
      cases o with
      | none => simp at h
      | some collected =>
        simp only at h
        split_ifs at h with hm hc
        · simp only [Option.some.injEq, Prod.mk.injEq] at h
          exact ⟨_, _, h.1.symm, by simp, collected, q1, rfl, Or.inl ⟨hc, rfl, rfl⟩⟩
        · simp only [Option.some.injEq, Prod.mk.injEq] at h
          exact ⟨_, _, h.1.symm, hc, collected, q1, rfl, Or.inr ⟨hc, rfl, rfl⟩⟩
        · simp at h

/-! ## Theorems: back references and the scan for captures -/

theorem List.getD_append_cons (pre post : List Nat) (c : Nat) :
    (pre ++ c :: post).getD pre.length 0 = c := by
  rw [List.getD_eq_getElem?_getD, List.getElem?_append_right (le_refl _)]
  simp

namespace RegExpParser

theorem SameCounts_refl (p : RegExpParser) : p.SameCounts p := ⟨rfl, rfl, rfl, rfl⟩

theorem SameCounts_trans {p q r : RegExpParser} (h1 : p.SameCounts q) (h2 : q.SameCounts r) :
    p.SameCounts r :=
  ⟨h2.1.trans h1.1, h2.2.1.trans h1.2.1, h2.2.2.1.trans h1.2.2.1, h2.2.2.2.trans h1.2.2.2⟩

theorem SameCounts_advance (p : RegExpParser) : p.SameCounts p.Advance := by
  unfold Advance
  split_ifs <;> exact ⟨rfl, rfl, rfl, rfl⟩

theorem SameCounts_captures_started {p q : RegExpParser} (h : p.SameCounts q) :
    q.captures_started = p.captures_started := by
  unfold RegExpParser.captures_started
  rw [h.2.1]

theorem Reads_advance {p : RegExpParser} {pre post : List Nat} {c : Nat}
    (h : p.Reads pre (c :: post)) : p.Advance.Reads (pre ++ [c]) post := by
  obtain ⟨h1, h2, h3⟩ := h
  have hlen : (p.in_.length : Int) = pre.length + 1 + post.length := by
    rw [h1]
    simp only [List.length_append, List.length_cons]
    push_cast
    ring
  have hnp : p.next_pos_ = pre.length + 1 := by
    rw [h3, hlen]
    omega
  unfold Advance
  cases post with
  | nil =>
    have hlt : ¬ p.next_pos_ < p.in_.length := by
      rw [hnp, hlen]
      simp
    rw [if_neg hlt]
    refine ⟨by simp [h1], rfl, ?_⟩
    show p.next_pos_ = _
    rw [hnp, hlen]
    simp
  | cons d post =>
    have hlt : p.next_pos_ < p.in_.length := by
      rw [hnp, hlen]
      simp only [List.length_cons]
      push_cast
      omega
    rw [if_pos hlt]
    refine ⟨by simp [h1], ?_, ?_⟩
    · show p.Get p.next_pos_ = _
      unfold Get
      rw [hnp, h1]
      have h4 : ((pre.length : Int) + 1).toNat = (pre ++ [c]).length := by
        simp only [List.length_append, List.length_cons, List.length_nil]
        omega
      have h5 : pre ++ c :: d :: post = (pre ++ [c]) ++ d :: post := by simp
      rw [h4, h5, List.getD_append_cons]
      rfl
    · show p.next_pos_ + 1 = _
      rw [hnp, hlen]
      simp only [List.length_append, List.length_cons, List.length_nil]
      push_cast
      omega

theorem Reads_advance_end {p : RegExpParser} {pre : List Nat} (h : p.Reads pre []) :
    p.Advance.Reads pre [] ∧ p.Advance.has_more_ = false := by
  obtain ⟨h1, h2, h3⟩ := h
  have hlen : (p.in_.length : Int) = pre.length := by
    rw [h1]
    simp
  have hnp : p.next_pos_ = pre.length := by
    rw [h3, hlen]
    omega
  have hlt : ¬ p.next_pos_ < p.in_.length := by
    rw [hnp, hlen]
    simp
  unfold Advance
  rw [if_neg hlt]
  exact ⟨⟨h1, rfl, h3⟩, rfl⟩

theorem Reads_advance_last {p : RegExpParser} {pre : List Nat} {c : Nat}
    (h : p.Reads pre [c]) : p.Advance.has_more_ = false := by
  obtain ⟨h1, h2, h3⟩ := h
  have hlen : (p.in_.length : Int) = pre.length + 1 := by
    rw [h1]
    simp
  have hnp : p.next_pos_ = pre.length + 1 := by
    rw [h3, hlen]
    omega
  have hlt : ¬ p.next_pos_ < p.in_.length := by
    rw [hnp, hlen]
    simp
  unfold Advance
  rw [if_neg hlt]

theorem Reads_next_pos {p : RegExpParser} {pre post : List Nat} {c : Nat}
    (h : p.Reads pre (c :: post)) : p.next_pos_ = pre.length + 1 := by
  obtain ⟨h1, h2, h3⟩ := h
  rw [h3, h1]
  simp only [List.length_append, List.length_cons]
  push_cast
  omega

theorem Reads_position {p : RegExpParser} {pre post : List Nat} {c : Nat}
    (h : p.Reads pre (c :: post)) : p.position = pre.length := by
  unfold RegExpParser.position
  rw [Reads_next_pos h]
  omega

theorem Reads_current {p : RegExpParser} {pre post : List Nat} {c : Nat}
    (h : p.Reads pre (c :: post)) : p.current_ = c := h.2.1

theorem Reads_next {p : RegExpParser} {pre post : List Nat} {c : Nat}
    (h : p.Reads pre (c :: post)) : p.Next = post.headD kEndMarker := by
  have hnp := Reads_next_pos h
  obtain ⟨h1, h2, h3⟩ := h
  unfold RegExpParser.Next has_next Get
  cases post with
  | nil =>
    have : ¬ p.next_pos_ < p.in_.length := by
      rw [hnp, h1]
      simp
    simp [this]
  | cons d post =>
    have : p.next_pos_ < p.in_.length := by
      rw [hnp, h1]
      simp only [List.length_append, List.length_cons]
      push_cast
      omega
    simp only [this, decide_True, if_true]
    rw [hnp, h1]
    have h4 : ((pre.length : Int) + 1).toNat = (pre ++ [c]).length := by
      simp only [List.length_append, List.length_cons, List.length_nil]
      omega
    have h5 : pre ++ c :: d :: post = (pre ++ [c]) ++ d :: post := by simp
    rw [h4, h5, List.getD_append_cons]
    rfl

theorem Reads_reset (q : RegExpParser) (pre post : List Nat) (c : Nat)
    (h : q.in_ = pre ++ c :: post) : (q.Reset pre.length).Reads pre (c :: post) := by
  have hlen : (q.in_.length : Int) = pre.length + 1 + post.length := by
    rw [h]
    simp only [List.length_append, List.length_cons]
    push_cast
    ring
  unfold Reset Advance
  have hlt : ({ q with next_pos_ := (pre.length : Int) } : RegExpParser).next_pos_
      < ({ q with next_pos_ := (pre.length : Int) } : RegExpParser).in_.length := by
    show (pre.length : Int) < q.in_.length
    omega
  rw [if_pos hlt]
  refine ⟨h, ?_, ?_⟩
  · show q.Get (pre.length : Int) = _
    unfold Get
    rw [h, Int.toNat_ofNat, List.getD_append_cons]
    rfl
  · show (pre.length : Int) + 1 = min ((pre.length : Int) + 1) (q.in_.length)
    omega

theorem SameCounts_reset (p : RegExpParser) (pos : Int) : p.SameCounts (p.Reset pos) := by
  unfold Reset Advance
  split_ifs <;> exact ⟨rfl, rfl, rfl, rfl⟩

theorem Reset_has_more (p : RegExpParser) (pos : Int) (h : p.has_more_ = false) :
    (p.Reset pos).has_more_ = false := by
  unfold Reset Advance
  split_ifs
  · exact h
  · rfl

theorem Advance_congr (p q : RegExpParser)
    (h : q = { p with current_ := q.current_ }) : q.Advance = p.Advance := by
  rw [h]
  unfold Advance
  rfl

theorem Reads_advanceBy_two {p : RegExpParser} {pre post : List Nat} {c d : Nat}
    (h : p.Reads pre (c :: d :: post)) : (p.AdvanceBy 2).Reads (pre ++ [c, d]) post := by
  have hnp := Reads_next_pos h
  have hadv := Reads_advance h
  have heq : p.AdvanceBy 2 = p.Advance.Advance := by
    have h1 : p.Advance = { p with current_ := p.Advance.current_, next_pos_ := p.next_pos_ + 1 } := by
      have hlt : p.next_pos_ < p.in_.length := by
        rw [hnp, h.1]
        simp only [List.length_append, List.length_cons]
        push_cast
        omega
      unfold Advance
      rw [if_pos hlt]
    unfold AdvanceBy
    symm
    apply Advance_congr
    rw [h1]
    show _ = ({ p with current_ := _, next_pos_ := p.next_pos_ + 2 - 1 } : RegExpParser)
    congr 1
    omega
  rw [heq]
  have := Reads_advance hadv
  rw [List.append_assoc] at this
  exact this

theorem SameCounts_advanceBy (p : RegExpParser) (dist : Int) :
    p.SameCounts (p.AdvanceBy dist) := by
  unfold AdvanceBy Advance
  split_ifs <;> exact ⟨rfl, rfl, rfl, rfl⟩

/-- One `Advance` of the reader: it stands behind one more character, if there
is one, and has lost `has_more_` when it stands at the end. -/
theorem Reads_skip {p : RegExpParser} {pre post : List Nat} (h : p.Reads pre post) :
    p.Advance.Reads (pre ++ post.take 1) (post.drop 1) ∧ p.SameCounts p.Advance
      ∧ (post.drop 1 = [] → p.Advance.has_more_ = false)
      ∧ (p.has_more_ = false → p.Advance.has_more_ = false) := by
  have hkeep : p.has_more_ = false → p.Advance.has_more_ = false := by
    intro hm
    unfold Advance
    split_ifs
    · exact hm
    · rfl
  cases post with
  | nil =>
    obtain ⟨h1, h2⟩ := Reads_advance_end h
    refine ⟨by simpa using h1, SameCounts_advance p, fun _ => h2, hkeep⟩
  | cons c rest =>
    refine ⟨by simpa using Reads_advance h, SameCounts_advance p, ?_, hkeep⟩
    intro hr
    simp only [List.drop_succ_cons, List.drop_zero] at hr
    subst hr
    exact Reads_advance_last h

theorem capturesAhead_escaped (post : List Nat) :
    capturesAhead ScanMode.escaped post = capturesAhead ScanMode.normal (post.drop 1) := by
  cases post <;> rfl

theorem capturesAhead_in_class_escaped (post : List Nat) :
    capturesAhead ScanMode.in_class_escaped post
      = capturesAhead ScanMode.in_class (post.drop 1) := by
  cases post <;> rfl

theorem capturesAhead_normal_cons (c : Nat) (rest : List Nat) :
    capturesAhead ScanMode.normal (c :: rest)
      = if c = Ch.backslash then capturesAhead ScanMode.escaped rest
        else if c = Ch.lbrack then capturesAhead ScanMode.in_class rest
        else if c = Ch.lparen then
          (if rest.head? = some Ch.question then 0 else 1)
            + capturesAhead ScanMode.normal rest
        else capturesAhead ScanMode.normal rest := rfl

theorem capturesAhead_le : ∀ (post : List Nat) (mode : ScanMode),
    capturesAhead mode post ≤ post.length := by
  intro post
  induction post with
  | nil => intro mode; cases mode <;> simp [capturesAhead]
  | cons c rest ih =>
    intro mode
    have h1 := ih ScanMode.normal
    have h2 := ih ScanMode.escaped
    have h3 := ih ScanMode.in_class
    have h4 := ih ScanMode.in_class_escaped
    cases mode
    · simp only [capturesAhead, List.length_cons]
      split_ifs <;> omega
    · simp only [capturesAhead, List.length_cons]
      omega
    · simp only [capturesAhead, List.length_cons]
      split_ifs <;> omega
    · simp only [capturesAhead, List.length_cons]
      omega

theorem ScanForCaptures_class_succ (n : Nat) (p : RegExpParser) :
    ScanForCaptures_class (n + 1) p
      = if p.current_ ≠ kEndMarker then
          if p.current_ = Ch.backslash then ScanForCaptures_class n p.Advance.Advance
          else if p.current_ = Ch.rbrack then some ((), p.Advance)
          else ScanForCaptures_class n p.Advance
        else some ((), p) := by
  simp only [ScanForCaptures_class, current, RegExpM.bind_eq_seq, RegExpM.pure_eq_ret,
    RegExpM.seq_run, RegExpM.read_run]
  split_ifs <;> rfl

theorem ScanForCaptures_loop_succ (n : Nat) (count : Int) (p : RegExpParser) :
    ScanForCaptures_loop (n + 1) count p
      = if p.current_ ≠ kEndMarker then
          if p.current_ = Ch.backslash then ScanForCaptures_loop n count p.Advance.Advance
          else if p.current_ = Ch.lbrack then
            RegExpM.seq (ScanForCaptures_class n) (fun _ => ScanForCaptures_loop n count)
              p.Advance
          else if p.current_ = Ch.lparen then
            ScanForCaptures_loop n
              (if p.Advance.current_ ≠ Ch.question then wrapInt32 (count + 1) else count)
              p.Advance
          else ScanForCaptures_loop n count p.Advance
        else some (count, p) := by
  simp only [ScanForCaptures_loop, current, RegExpM.bind_eq_seq, RegExpM.pure_eq_ret]
  rw [RegExpM.seq_run, RegExpM.read_run]
  simp only
  by_cases h1 : p.current_ ≠ kEndMarker
  · rw [if_pos h1, if_pos h1, RegExpM.seq_run, RegExpM.modify_run]
    simp only
    by_cases h2 : p.current_ = Ch.backslash
    · rw [if_pos h2, if_pos h2]
      rfl
    · rw [if_neg h2, if_neg h2]
      by_cases h3 : p.current_ = Ch.lbrack
      · rw [if_pos h3, if_pos h3]
      · rw [if_neg h3, if_neg h3]
        by_cases h4 : p.current_ = Ch.lparen
        · rw [if_pos h4, if_pos h4]
          rfl
        · rw [if_neg h4, if_neg h4]
  · rw [if_neg h1, if_neg h1]
    rfl

/-- The inner loop of `ScanForCaptures` reads a character class to its end. -/
theorem ScanForCaptures_class_spec :
    ∀ (fuel : Nat) (post pre : List Nat) (p : RegExpParser), p.Reads pre post →
      (∀ c ∈ post, c ≠ kEndMarker) → post.length < fuel →
      ∃ (q : RegExpParser) (consumed post2 : List Nat),
        ScanForCaptures_class fuel p = some ((), q) ∧ post = consumed ++ post2
          ∧ q.Reads (pre ++ consumed) post2 ∧ p.SameCounts q
          ∧ capturesAhead ScanMode.in_class post = capturesAhead ScanMode.normal post2
          ∧ (post2 = [] → (post ≠ [] ∨ p.has_more_ = false) → q.has_more_ = false) := by
  intro fuel
  induction fuel with
  | zero =>
    intro post pre p _ _ hf
    omega
  | succ n ih =>
    intro post pre p hr hne hf
    cases post with
    | nil =>
      refine ⟨p, [], [], ?_, rfl, by simpa using hr, SameCounts_refl p, rfl, ?_⟩
      · have hc : p.current_ = kEndMarker := hr.2.1
        rw [ScanForCaptures_class_succ, if_neg (by rw [hc]; simp)]
      · intro _ h
        rcases h with h | h
        · exact absurd rfl h
        · exact h
    | cons c rest =>
      have hc : p.current_ = c := hr.2.1
      have hcne : c ≠ kEndMarker := hne c (List.mem_cons_self _ _)
      obtain ⟨h1r, h1s, h1e, _⟩ := Reads_skip hr
      simp only [List.take_succ_cons, List.take_zero, List.drop_succ_cons, List.drop_zero]
        at h1r h1e
      have hne2 : ∀ x ∈ rest, x ≠ kEndMarker := fun x hx => hne x (List.mem_cons_of_mem _ hx)
      have hlen : rest.length < n := by
        simp only [List.length_cons] at hf
        omega
      by_cases hb : c = Ch.backslash
      · obtain ⟨h2r, h2s, h2e, _⟩ := Reads_skip h1r
        obtain ⟨q, consumed, post2, e1, e2, e3, e4, e5, e6⟩ :=
          ih (rest.drop 1) (pre ++ [c] ++ rest.take 1) p.Advance.Advance h2r
            (fun x hx => hne2 x (List.mem_of_mem_drop hx))
            (lt_of_le_of_lt (by simp) hlen)
        refine ⟨q, c :: rest.take 1 ++ consumed, post2, ?_, ?_, ?_, ?_, ?_, ?_⟩
        · rw [ScanForCaptures_class_succ, hc, if_pos hcne, if_pos hb]
          exact e1
        · rw [List.append_assoc, ← e2, List.cons_append, List.take_append_drop]
        · simpa [List.append_assoc] using e3
        · exact SameCounts_trans (SameCounts_trans h1s h2s) e4
        · rw [← e5, ← capturesAhead_in_class_escaped]
          show (if c = Ch.backslash then _ else if c = Ch.rbrack then _ else _) = _
          rw [if_pos hb]
        · intro hp2 _
          apply e6 hp2
          by_cases hd : rest.drop 1 = []
          · exact Or.inr (h2e hd)
          · exact Or.inl hd
      · by_cases hrb : c = Ch.rbrack
        · refine ⟨p.Advance, [c], rest, ?_, rfl, h1r, h1s, ?_, ?_⟩
          · rw [ScanForCaptures_class_succ, hc, if_pos hcne, if_neg hb, if_pos hrb]
          · show (if c = Ch.backslash then _ else if c = Ch.rbrack then _ else _) = _
            rw [if_neg hb, if_pos hrb]
          · intro hp2 _
            exact h1e hp2
        · obtain ⟨q, consumed, post2, e1, e2, e3, e4, e5, e6⟩ :=
            ih rest (pre ++ [c]) p.Advance h1r hne2 hlen
          refine ⟨q, c :: consumed, post2, ?_, ?_, ?_, ?_, ?_, ?_⟩
          · rw [ScanForCaptures_class_succ, hc, if_pos hcne, if_neg hb, if_neg hrb]
            exact e1
          · rw [List.cons_append, ← e2]
          · simpa [List.append_assoc] using e3
          · exact SameCounts_trans h1s e4
          · rw [← e5]
            show (if c = Ch.backslash then _ else if c = Ch.rbrack then _ else _) = _
            rw [if_neg hb, if_neg hrb]
          · intro hp2 _
            apply e6 hp2
            by_cases hd : rest = []
            · exact Or.inr (h1e hd)
            · exact Or.inl hd

/-- The outer loop of `ScanForCaptures` reads the rest of the pattern and adds
to the count the capturing groups that open in it. -/
theorem ScanForCaptures_loop_spec :
    ∀ (fuel : Nat) (post pre : List Nat) (p : RegExpParser) (count : Int),
      p.Reads pre post → (∀ c ∈ post, c ≠ kEndMarker) → post.length < fuel →
      -(2 ^ 31) ≤ count → count + post.length < 2 ^ 31 →
      ∃ q : RegExpParser,
        ScanForCaptures_loop fuel count p
            = some (count + capturesAhead ScanMode.normal post, q)
          ∧ q.Reads (pre ++ post) [] ∧ p.SameCounts q
          ∧ ((post ≠ [] ∨ p.has_more_ = false) → q.has_more_ = false) := by
  intro fuel
  induction fuel with
  | zero =>
    intro post pre p count _ _ hf
    omega
  | succ n ih =>
    intro post pre p count hr hne hf hlo hhi
    cases post with
    | nil =>
      refine ⟨p, ?_, by simpa using hr, SameCounts_refl p, ?_⟩
      · have hc : p.current_ = kEndMarker := hr.2.1
        rw [ScanForCaptures_loop_succ, if_neg (by rw [hc]; simp)]
        simp [capturesAhead]
      · intro h
        rcases h with h | h
        · exact absurd rfl h
        · exact h
    | cons c rest =>
      have hc : p.current_ = c := hr.2.1
      have hcne : c ≠ kEndMarker := hne c (List.mem_cons_self _ _)
      obtain ⟨h1r, h1s, h1e, _⟩ := Reads_skip hr
      simp only [List.take_succ_cons, List.take_zero, List.drop_succ_cons, List.drop_zero]
        at h1r h1e
      have hne2 : ∀ x ∈ rest, x ≠ kEndMarker := fun x hx => hne x (List.mem_cons_of_mem _ hx)
      have hlen : rest.length < n := by
        simp only [List.length_cons] at hf
        omega
      have hhi2 : count + rest.length < 2 ^ 31 - 1 := by
        simp only [List.length_cons] at hhi
        push_cast at hhi
        omega
      have hmore : ∀ (l : List Nat) (q : RegExpParser), (l = [] → q.has_more_ = false) →
          (l ≠ [] ∨ q.has_more_ = false) := by
        intro l q h
        by_cases hl : l = []
        · exact Or.inr (h hl)
        · exact Or.inl hl
      by_cases hb : c = Ch.backslash
      · obtain ⟨h2r, h2s, h2e, _⟩ := Reads_skip h1r
        obtain ⟨q, e1, e2, e3, e4⟩ :=
          ih (rest.drop 1) (pre ++ [c] ++ rest.take 1) p.Advance.Advance count h2r
            (fun x hx => hne2 x (List.mem_of_mem_drop hx))
            (lt_of_le_of_lt (by simp) hlen) hlo
            (by
              have : ((rest.drop 1).length : Int) ≤ rest.length := by
                simp
              omega)
        refine ⟨q, ?_, ?_, SameCounts_trans (SameCounts_trans h1s h2s) e3, fun _ =>
          e4 (hmore _ _ h2e)⟩
        · rw [ScanForCaptures_loop_succ, hc, if_pos hcne, if_pos hb, e1,
            capturesAhead_normal_cons, if_pos hb, capturesAhead_escaped]
        · have : pre ++ [c] ++ rest.take 1 ++ rest.drop 1 = pre ++ c :: rest := by
            rw [List.append_assoc, List.take_append_drop]
            simp
          rw [← this]
          exact e2
      · by_cases hlb : c = Ch.lbrack
        · obtain ⟨q1, consumed, post2, c1, c2, c3, c4, c5, c6⟩ :=
            ScanForCaptures_class_spec n rest (pre ++ [c]) p.Advance h1r hne2 hlen
          have hle : (post2.length : Int) ≤ rest.length := by
            rw [c2]
            simp
          obtain ⟨q, e1, e2, e3, e4⟩ :=
            ih post2 (pre ++ [c] ++ consumed) q1 count c3
              (fun x hx => hne2 x (by rw [c2]; exact List.mem_append_right _ hx))
              (by
                have : post2.length ≤ rest.length := by
                  rw [c2]
                  simp
                omega) hlo (by omega)
          refine ⟨q, ?_, ?_, SameCounts_trans (SameCounts_trans h1s c4) e3, fun _ =>
            e4 (hmore _ _ (fun h => c6 h (hmore _ _ h1e)))⟩
          · rw [ScanForCaptures_loop_succ, hc, if_pos hcne, if_neg hb, if_pos hlb,
              RegExpM.seq_run, c1]
            simp only
            rw [e1, capturesAhead_normal_cons, if_neg hb, if_pos hlb, c5]
          · have : pre ++ [c] ++ consumed ++ post2 = pre ++ c :: rest := by
              rw [c2]
              simp
            rw [← this]
            exact e2
        · by_cases hlp : c = Ch.lparen
          · have hq : (p.Advance.current_ ≠ Ch.question) ↔ rest.head? ≠ some Ch.question := by
              rw [h1r.2.1]
              cases rest with
              | nil => simp [kEndMarker, Ch.question]
              | cons d rest2 => simp
            have hle := capturesAhead_le rest ScanMode.normal
            by_cases hqq : rest.head? = some Ch.question
            · obtain ⟨q, e1, e2, e3, e4⟩ :=
                ih rest (pre ++ [c]) p.Advance count h1r hne2 hlen hlo (by omega)
              refine ⟨q, ?_, by simpa using e2, SameCounts_trans h1s e3, fun _ =>
                e4 (hmore _ _ h1e)⟩
              rw [ScanForCaptures_loop_succ, hc, if_pos hcne, if_neg hb, if_neg hlb,
                if_pos hlp, if_neg (by rw [hq]; simpa using hqq), e1,
                capturesAhead_normal_cons, if_neg hb, if_neg hlb, if_pos hlp, if_pos hqq,
                Nat.zero_add]
            · obtain ⟨q, e1, e2, e3, e4⟩ :=
                ih rest (pre ++ [c]) p.Advance (count + 1) h1r hne2 hlen (by omega) (by omega)
              refine ⟨q, ?_, by simpa using e2, SameCounts_trans h1s e3, fun _ =>
                e4 (hmore _ _ h1e)⟩
              rw [ScanForCaptures_loop_succ, hc, if_pos hcne, if_neg hb, if_neg hlb,
                if_pos hlp, if_pos (by rw [hq]; exact hqq),
                wrapInt32_of_range _ (by omega) (by omega), e1,
                capturesAhead_normal_cons, if_neg hb, if_neg hlb, if_pos hlp, if_neg hqq]
              push_cast
              rw [Int.add_assoc]
          · obtain ⟨q, e1, e2, e3, e4⟩ :=
              ih rest (pre ++ [c]) p.Advance count h1r hne2 hlen hlo (by omega)
            refine ⟨q, ?_, by simpa using e2, SameCounts_trans h1s e3, fun _ =>
              e4 (hmore _ _ h1e)⟩
            rw [ScanForCaptures_loop_succ, hc, if_pos hcne, if_neg hb, if_neg hlb,
              if_neg hlp, e1, capturesAhead_normal_cons, if_neg hb, if_neg hlb, if_neg hlp]

theorem Reads_advance_has_more {p : RegExpParser} {pre post : List Nat} {c d : Nat}
    (h : p.Reads pre (c :: d :: post)) : p.Advance.has_more_ = p.has_more_ := by
  have hlt : p.next_pos_ < p.in_.length := by
    rw [Reads_next_pos h, h.1]
    simp only [List.length_append, List.length_cons]
    push_cast
    omega
  unfold Advance
  rw [if_pos hlt]

theorem ParseBackReferenceIndex_loop_succ (start : Int) (n : Nat) (value : Int)
    (p : RegExpParser) :
    ParseBackReferenceIndex_loop start (n + 1) value p
      = if IsDecimalDigit p.current_ = true then
          if 10 * value + ((p.current_ : Int) - '0'.toNat) > kMaxCaptures then
            some (none, p.Reset start)
          else
            ParseBackReferenceIndex_loop start n (10 * value + ((p.current_ : Int) - '0'.toNat))
              p.Advance
        else some (some value, p) := by
  simp only [ParseBackReferenceIndex_loop, current, RegExpM.bind_eq_seq, RegExpM.pure_eq_ret]
  rw [RegExpM.seq_run, RegExpM.read_run]
  simp only
  split_ifs <;> rfl

theorem foldl_decimal_le (digits : List Nat) :
    ∀ v : Nat, v ≤ digits.foldl (fun value c => 10 * value + (c - '0'.toNat)) v := by
  induction digits with
  | nil => intro v; exact le_refl _
  | cons c rest ih =>
    intro v
    exact le_trans (by omega) (ih (10 * v + (c - '0'.toNat)))

/-- The loop of `ParseBackReferenceIndex` reads the digits `digits` after the
value `v`: it returns their value when this is at most `kMaxCaptures`, with the
reader behind the digits, and otherwise resets the reader to `start`. -/
theorem ParseBackReferenceIndex_loop_spec (start : Int) :
    ∀ (fuel : Nat) (digits pre rest : List Nat) (p : RegExpParser) (v : Nat),
      p.Reads pre (digits ++ rest) → (∀ c ∈ digits, IsDecimalDigit c = true) →
      (∀ c ∈ rest.head?, IsDecimalDigit c = false) → digits.length < fuel →
      (v : Int) ≤ kMaxCaptures →
      ∃ q : RegExpParser,
        ParseBackReferenceIndex_loop start fuel v p
            = some (if ((digits.foldl (fun value c => 10 * value + (c - '0'.toNat)) v : Nat) : Int)
                    ≤ kMaxCaptures
                then some ((digits.foldl (fun value c => 10 * value + (c - '0'.toNat)) v : Nat)
                  : Int)
                else none, q)
          ∧ (((digits.foldl (fun value c => 10 * value + (c - '0'.toNat)) v : Nat) : Int)
                ≤ kMaxCaptures →
              q.Reads (pre ++ digits) rest ∧ p.SameCounts q
              ∧ (rest ≠ [] → q.has_more_ = p.has_more_)
              ∧ (rest = [] → (digits ≠ [] ∨ p.has_more_ = false) → q.has_more_ = false))
          ∧ (¬ ((digits.foldl (fun value c => 10 * value + (c - '0'.toNat)) v : Nat) : Int)
                ≤ kMaxCaptures →
              ∃ p2 : RegExpParser, p.SameCounts p2 ∧ q = p2.Reset start
                ∧ (rest ≠ [] → p2.has_more_ = p.has_more_)) := by
  intro fuel
  induction fuel with
  | zero =>
    intro digits pre rest p v _ _ _ hf
    omega
  | succ n ih =>
    intro digits pre rest p v hr hd hrest hf hv
    cases digits with
    | nil =>
      have hnd : IsDecimalDigit p.current_ = false := by
        rw [hr.2.1]
        cases rest with
        | nil => decide
        | cons c rest2 => exact hrest c rfl
      refine ⟨p, ?_, ?_, fun h => absurd hv h⟩
      · rw [ParseBackReferenceIndex_loop_succ, hnd]
        simp [hv]
      · intro _
        refine ⟨by simpa using hr, SameCounts_refl p, fun _ => rfl, ?_⟩
        intro _ h
        rcases h with h | h
        · exact absurd rfl h
        · exact h
    | cons c digits2 =>
      have hr2 : p.Reads pre (c :: (digits2 ++ rest)) := hr
      have hc : p.current_ = c := hr2.2.1
      have hcd : IsDecimalDigit c = true := hd c (List.mem_cons_self _ _)
      have hc48 : '0'.toNat ≤ c := by
        unfold IsDecimalDigit at hcd
        simp only [decide_eq_true_eq] at hcd
        exact hcd.1
      have h48 : '0'.toNat = 48 := rfl
      have hcast : 10 * (v : Int) + ((c : Int) - '0'.toNat)
          = ((10 * v + (c - '0'.toNat) : Nat) : Int) := by
        rw [h48] at hc48 ⊢
        push_cast
        omega
      have hfold : (c :: digits2).foldl (fun value c => 10 * value + (c - '0'.toNat)) v
          = digits2.foldl (fun value c => 10 * value + (c - '0'.toNat))
              (10 * v + (c - '0'.toNat)) := rfl
      rw [hfold]
      by_cases hbig : 10 * (v : Int) + ((c : Int) - '0'.toNat) > kMaxCaptures
      · have hge := foldl_decimal_le digits2 (10 * v + (c - '0'.toNat))
        have hnot : ¬ ((digits2.foldl (fun value c => 10 * value + (c - '0'.toNat))
            (10 * v + (c - '0'.toNat)) : Nat) : Int) ≤ kMaxCaptures := by
          rw [hcast] at hbig
          have : ((10 * v + (c - '0'.toNat) : Nat) : Int)
              ≤ ((digits2.foldl (fun value c => 10 * value + (c - '0'.toNat))
                (10 * v + (c - '0'.toNat)) : Nat) : Int) := by
            exact_mod_cast hge
          omega
        refine ⟨p.Reset start, ?_, fun h => absurd h hnot,
          fun _ => ⟨p, SameCounts_refl p, rfl, fun _ => rfl⟩⟩
        rw [ParseBackReferenceIndex_loop_succ, hc, hcd]
        simp only [if_true]
        rw [if_pos hbig, if_neg hnot]
      · obtain ⟨h1r, h1s, h1e, h1k⟩ := Reads_skip hr2
        simp only [List.take_succ_cons, List.take_zero, List.drop_succ_cons, List.drop_zero]
          at h1r h1e
        obtain ⟨q, e1, e2, e3⟩ :=
          ih digits2 (pre ++ [c]) rest p.Advance (10 * v + (c - '0'.toNat)) h1r
            (fun x hx => hd x (List.mem_cons_of_mem _ hx)) hrest
            (by simp only [List.length_cons] at hf; omega)
            (by rw [← hcast]; omega)
        refine ⟨q, ?_, ?_, ?_⟩
        · rw [ParseBackReferenceIndex_loop_succ, hc, hcd]
          simp only [if_true]
          rw [if_neg hbig, hcast]
          exact e1
        · intro hle
          obtain ⟨f1, f2, f3, f4⟩ := e2 hle
          refine ⟨by simpa using f1, SameCounts_trans h1s f2, ?_, ?_⟩
          · intro hrest2
            rw [f3 hrest2]
            cases hdr : digits2 ++ rest with
            | nil =>
              exact absurd (List.append_eq_nil.mp hdr).2 hrest2
            | cons d post =>
              rw [hdr] at hr2
              exact Reads_advance_has_more hr2
          · intro hrest2 _
            apply f4 hrest2
            by_cases hd2 : digits2 = []
            · right
              apply h1e
              rw [hd2, hrest2]
              rfl
            · exact Or.inl hd2
        · intro hnle
          obtain ⟨p2, g1, g2, g3⟩ := e3 hnle
          refine ⟨p2, SameCounts_trans h1s g1, g2, ?_⟩
          intro hrest2
          rw [g3 hrest2]
          cases hdr : digits2 ++ rest with
          | nil =>
            exact absurd (List.append_eq_nil.mp hdr).2 hrest2
          | cons d post =>
            rw [hdr] at hr2
            exact Reads_advance_has_more hr2

theorem AdvanceBy_two_eq {p : RegExpParser} {pre post : List Nat} {c d : Nat}
    (h : p.Reads pre (c :: d :: post)) : p.AdvanceBy 2 = p.Advance.Advance := by
  have hnp := Reads_next_pos h
  have h1 : p.Advance
      = { p with current_ := p.Advance.current_, next_pos_ := p.next_pos_ + 1 } := by
    have hlt : p.next_pos_ < p.in_.length := by
      rw [hnp, h.1]
      simp only [List.length_append, List.length_cons]
      push_cast
      omega
    unfold Advance
    rw [if_pos hlt]
  unfold AdvanceBy
  symm
  apply Advance_congr
  rw [h1]
  show _ = ({ p with current_ := _, next_pos_ := p.next_pos_ + 2 - 1 } : RegExpParser)
  congr 1
  omega

theorem AdvanceBy_two_has_more {p : RegExpParser} {pre post : List Nat} {c d : Nat}
    (h : p.Reads pre (c :: d :: post)) :
    (post ≠ [] → (p.AdvanceBy 2).has_more_ = p.has_more_)
      ∧ (post = [] → (p.AdvanceBy 2).has_more_ = false) := by
  rw [AdvanceBy_two_eq h]
  have h1 := Reads_advance h
  have h2 := Reads_advance_has_more h
  constructor
  · intro hp
    cases post with
    | nil => exact absurd rfl hp
    | cons e post2 => rw [Reads_advance_has_more h1, h2]
  · intro hp
    subst hp
    exact Reads_advance_last h1

theorem Reset_has_more_of_lt (p : RegExpParser) (pos : Int) (h : pos < p.in_.length) :
    (p.Reset pos).has_more_ = p.has_more_ := by
  unfold Reset Advance
  rw [if_pos h]

/-- The function `ScanForCaptures` on a reader with `post` still to read: the
count it stores is the number of groups opened so far plus the number of
capturing groups that open in `post`, and the reader is left at the end of the
pattern, without `has_more_`. -/
theorem ScanForCaptures_spec (fuel : Nat) (p : RegExpParser) (pre post : List Nat)
    (hr : p.Reads pre post) (hne : ∀ c ∈ post, c ≠ kEndMarker) (hf : post.length < fuel)
    (hsmall : p.captures_started + post.length < 2 ^ 31)
    (hmore : post ≠ [] ∨ p.has_more_ = false) :
    ∃ q : RegExpParser,
      ScanForCaptures fuel p = some ((), q) ∧ q.in_ = p.in_ ∧ q.captures_ = p.captures_
        ∧ q.capture_count_ = p.captures_started + capturesAhead ScanMode.normal post
        ∧ q.is_scanned_for_captures_ = true ∧ q.has_more_ = false := by
  have hnn : (0 : Int) ≤ p.captures_started := by
    unfold captures_started
    split
    · exact le_refl _
    · exact Int.natCast_nonneg _
  obtain ⟨q, e1, e2, e3, e4⟩ :=
    ScanForCaptures_loop_spec fuel post pre p p.captures_started hr hne hf (by omega) hsmall
  refine ⟨({ q with
      capture_count_ := p.captures_started + (capturesAhead ScanMode.normal post : Nat),
      is_scanned_for_captures_ := true } : RegExpParser), ?_, e3.1, e3.2.1, rfl, rfl,
    e4 hmore⟩
  unfold ScanForCaptures
  simp only [RegExpM.bind_eq_seq]
  rw [RegExpM.seq_run, RegExpM.read_run]
  simp only
  rw [RegExpM.seq_run, e1]
  rfl

theorem ParseBackReferenceIndex_eq (fuel : Nat) (p : RegExpParser) :
    ParseBackReferenceIndex fuel p
      = match ParseBackReferenceIndex_loop p.position fuel ((p.Next : Int) - '0'.toNat)
            (p.AdvanceBy 2) with
        | none => none
        | some (none, q) => some (none, q)
        | some (some value, q) =>
          if value > q.captures_started then
            if q.is_scanned_for_captures_ = false then
              match ScanForCaptures fuel q with
              | none => none
              | some (_, q3) =>
                if value > (q3.Reset q.position).capture_count_ then
                  some (none, (q3.Reset q.position).Reset p.position)
                else some (some value, q3.Reset q.position)
            else if value > q.capture_count_ then some (none, q.Reset p.position)
            else some (some value, q)
          else some (some value, q) := by
  unfold ParseBackReferenceIndex
  simp only [RegExpM.bind_eq_seq, RegExpM.pure_eq_ret]
  rw [RegExpM.seq_run, RegExpM.read_run]
  simp only
  rw [RegExpM.seq_run, RegExpM.read_run]
  simp only
  rw [RegExpM.seq_run, RegExpM.modify_run]
  simp only
  rw [RegExpM.seq_run]
  cases ParseBackReferenceIndex_loop p.position fuel ((p.Next : Int) - '0'.toNat)
      (p.AdvanceBy 2) with
  | none => rfl
  | some r =>
    obtain ⟨o, q⟩ := r
    cases o with
    | none => rfl
    | some value =>
      simp only
      rw [RegExpM.seq_run, RegExpM.read_run]
      simp only
      by_cases h1 : value > q.captures_started
      · rw [if_pos h1, if_pos h1, RegExpM.seq_run, RegExpM.read_run]
        simp only
        cases hs : q.is_scanned_for_captures_
        · simp only [Bool.not_false, if_true]
          rw [RegExpM.seq_run, RegExpM.read_run]
          simp only
          rw [RegExpM.seq_run]
          cases ScanForCaptures fuel q with
          | none => rfl
          | some r3 =>
            obtain ⟨_, q3⟩ := r3
            simp only
            rw [RegExpM.seq_run, RegExpM.modify_run]
            simp only
            rw [RegExpM.seq_run, RegExpM.read_run]
            simp only
            split_ifs <;> rfl
        · simp only [Bool.not_true, Bool.false_eq_true, if_false]
          rw [RegExpM.seq_run, RegExpM.ret_run]
          simp only
          rw [RegExpM.seq_run, RegExpM.read_run]
          simp only
          split_ifs <;> first | rfl | contradiction
      · rw [if_neg h1, if_neg h1]
        rfl

theorem totalCaptures_ge (p : RegExpParser) (rest : List Nat) :
    p.captures_started ≤ p.totalCaptures rest := by
  unfold totalCaptures
  split_ifs
  · exact le_max_left _ _
  · have : (0 : Int) ≤ (capturesAhead ScanMode.normal rest : Nat) := Int.natCast_nonneg _
    omega

/-- What `ParseBackReferenceIndex` does at a backslash that is followed by the
digit `d`, the further digits `digits` and then `rest`. -/
theorem ParseBackReferenceIndex_spec (fuel : Nat) (p : RegExpParser)
    (pre digits rest : List Nat) (d : Nat)
    (hreads : p.Reads pre (Ch.backslash :: d :: (digits ++ rest)))
    (hfirst : '1'.toNat ≤ d ∧ d ≤ '9'.toNat)
    (hdigits : ∀ c ∈ digits, IsDecimalDigit c = true)
    (hrest : ∀ c ∈ rest.head?, IsDecimalDigit c = false)
    (hunits : ∀ c ∈ p.in_, c ≠ kEndMarker)
    (hsmall : p.captures_started + p.in_.length < 2 ^ 31)
    (hfuel : p.in_.length ≤ fuel) :
    ∃ q : RegExpParser,
      ParseBackReferenceIndex fuel p
          = some (if (decimalValue (d :: digits) : Int) ≤ kMaxCaptures
                    ∧ (decimalValue (d :: digits) : Int) ≤ p.totalCaptures rest
                  then some (decimalValue (d :: digits) : Int) else none, q)
        ∧ (((decimalValue (d :: digits) : Int) ≤ kMaxCaptures
              ∧ (decimalValue (d :: digits) : Int) ≤ p.totalCaptures rest) →
            q.Reads (pre ++ Ch.backslash :: d :: digits) rest)
        ∧ (¬ ((decimalValue (d :: digits) : Int) ≤ kMaxCaptures
              ∧ (decimalValue (d :: digits) : Int) ≤ p.totalCaptures rest) →
            q.Reads pre (Ch.backslash :: d :: (digits ++ rest)))
        ∧ q.in_ = p.in_ ∧ q.captures_ = p.captures_
        ∧ ((decimalValue (d :: digits) : Int) ≤ kMaxCaptures →
            p.captures_started < (decimalValue (d :: digits) : Int) →
            p.is_scanned_for_captures_ = false →
            q.has_more_ = false ∧ q.is_scanned_for_captures_ = true
              ∧ q.capture_count_ = p.totalCaptures rest)
        ∧ (p.is_scanned_for_captures_ = true → rest ≠ [] →
            q.has_more_ = p.has_more_ ∧ q.is_scanned_for_captures_ = true
              ∧ q.capture_count_ = p.capture_count_) := by
  have h48 : '0'.toNat = 48 := rfl
  have h49 : '1'.toNat = 49 := rfl
  have h57 : '9'.toNat = 57 := rfl
  have hin := hreads.1
  have hinlen : p.in_.length = pre.length + (2 + (digits.length + rest.length)) := by
    rw [hin]
    simp only [List.length_append, List.length_cons]
    omega
  have hpos : p.position = pre.length := Reads_position hreads
  have hnext : p.Next = d := by
    rw [Reads_next hreads]
    rfl
  have h1r : (p.AdvanceBy 2).Reads (pre ++ [Ch.backslash, d]) (digits ++ rest) :=
    Reads_advanceBy_two hreads
  have h1s := SameCounts_advanceBy p 2
  obtain ⟨h1m, h1e⟩ := AdvanceBy_two_has_more hreads
  have hv0 : ((p.Next : Int) - '0'.toNat) = ((d - '0'.toNat : Nat) : Int) := by
    rw [hnext, h48]
    rw [h49] at hfirst
    omega
  have hV : decimalValue (d :: digits)
      = digits.foldl (fun value c => 10 * value + (c - '0'.toNat)) (d - '0'.toNat) := by
    unfold decimalValue
    simp
  obtain ⟨q2, e1, e2, e3⟩ :=
    ParseBackReferenceIndex_loop_spec (pre.length : Int) fuel digits
      (pre ++ [Ch.backslash, d]) rest (p.AdvanceBy 2) (d - '0'.toNat) h1r hdigits hrest
      (by omega)
      (by
        rw [h48]
        rw [h57] at hfirst
        show (((d - 48 : Nat) : Int)) ≤ 2 ^ 16
        omega)
  rw [← hV] at e1 e2 e3
  have hstart : ∀ x : RegExpParser, x.in_ = p.in_ →
      (x.Reset (pre.length : Int)).Reads pre (Ch.backslash :: d :: (digits ++ rest))
        ∧ (x.Reset (pre.length : Int)).in_ = p.in_
        ∧ (x.Reset (pre.length : Int)).captures_ = x.captures_
        ∧ (x.Reset (pre.length : Int)).has_more_ = x.has_more_
        ∧ (x.Reset (pre.length : Int)).is_scanned_for_captures_ = x.is_scanned_for_captures_
        ∧ (x.Reset (pre.length : Int)).capture_count_ = x.capture_count_ := by
    intro x hx
    have hs := SameCounts_reset x (pre.length : Int)
    refine ⟨Reads_reset x pre _ _ (hx.trans hin), hs.1.trans hx, hs.2.1, ?_, hs.2.2.2, hs.2.2.1⟩
    apply Reset_has_more_of_lt
    rw [hx, hinlen]
    push_cast
    omega
  have hdr : digits ++ rest ≠ [] → (p.AdvanceBy 2).has_more_ = p.has_more_ := h1m
  rw [ParseBackReferenceIndex_eq, hpos, hv0, e1]
  by_cases hV1 : (decimalValue (d :: digits) : Int) ≤ kMaxCaptures
  · obtain ⟨f1, f2, f3, f4⟩ := e2 hV1
    have f12 := SameCounts_trans h1s f2
    have hst : q2.captures_started = p.captures_started := SameCounts_captures_started f12
    rw [if_pos hV1]
    simp only [hst, f12.2.2.2, f12.2.2.1]
    by_cases hs : (decimalValue (d :: digits) : Int) > p.captures_started
    · rw [if_pos hs]
      cases hsc : p.is_scanned_for_captures_
      · -- the pattern is scanned now
        simp only [if_true]
        have hne2 : ∀ c ∈ rest, c ≠ kEndMarker := by
          intro c hc
          apply hunits c
          rw [hin]
          simp [hc]
        have hmore2 : rest ≠ [] ∨ q2.has_more_ = false := by
          by_cases hr0 : rest = []
          · right
            apply f4 hr0
            by_cases hd0 : digits = []
            · right
              apply h1e
              rw [hd0, hr0]
              rfl
            · exact Or.inl hd0
          · exact Or.inl hr0
        obtain ⟨q3, s1, s2, s3, s4, s5, s6⟩ :=
          ScanForCaptures_spec fuel q2 (pre ++ [Ch.backslash, d] ++ digits) rest f1 hne2
            (by omega) (by rw [hst]; push_cast at hsmall ⊢; omega) hmore2
        rw [hst] at s4
        have htot : p.totalCaptures rest
            = p.captures_started + capturesAhead ScanMode.normal rest := by
          unfold totalCaptures
          rw [hsc]
          rfl
        have hq3in : q3.in_ = p.in_ := s2.trans f12.1
        have hr4 := SameCounts_reset q3 q2.position
        have hcc : (q3.Reset q2.position).capture_count_ = p.totalCaptures rest := by
          rw [hr4.2.2.1, s4, htot]
        have hm4 : (q3.Reset q2.position).has_more_ = false := Reset_has_more q3 _ s6
        rw [s1]
        simp only [hcc]
        by_cases hacc : (decimalValue (d :: digits) : Int) ≤ p.totalCaptures rest
        · have hrest0 : rest ≠ [] := by
            intro h0
            rw [htot, h0] at hacc
            simp only [capturesAhead, Nat.cast_zero, add_zero] at hacc
            omega
          obtain ⟨c0, rest0, hc0⟩ := List.exists_cons_of_ne_nil hrest0
          have hp2 : q2.position = ((pre ++ [Ch.backslash, d] ++ digits).length : Nat) := by
            rw [hc0] at f1
            exact Reads_position f1
          have hrd : (q3.Reset q2.position).Reads (pre ++ [Ch.backslash, d] ++ digits) rest := by
            rw [hp2, hc0]
            apply Reads_reset
            rw [hq3in, hin, ← hc0]
            simp
          refine ⟨q3.Reset q2.position, ?_, ?_, ?_, hr4.1.trans hq3in,
            hr4.2.1.trans (s3.trans f12.2.1), ?_, ?_⟩
          · rw [if_neg (by omega), if_pos ⟨hV1, hacc⟩]
          · intro _
            simpa using hrd
          · intro h
            exact absurd ⟨hV1, hacc⟩ h
          · intro _ _ _
            exact ⟨hm4, hr4.2.2.2.trans s5, hcc⟩
          · intro h
            cases h
        · obtain ⟨g1, g2, g3, g4, g5, g6⟩ := hstart (q3.Reset q2.position) (hr4.1.trans hq3in)
          refine ⟨(q3.Reset q2.position).Reset (pre.length : Int), ?_, ?_, ?_, g2,
            g3.trans (hr4.2.1.trans (s3.trans f12.2.1)), ?_, ?_⟩
          · rw [if_pos (by omega), if_neg (fun h => hacc h.2)]
          · intro h
            exact absurd h.2 hacc
          · intro _
            exact g1
          · intro _ _ _
            exact ⟨g4.trans hm4, g5.trans (hr4.2.2.2.trans s5), g6.trans hcc⟩
          · intro h
            cases h
      · -- the pattern has been scanned before
        simp only [Bool.true_eq_false, if_false]
        have htot : p.totalCaptures rest = max p.captures_started p.capture_count_ := by
          unfold totalCaptures
          rw [hsc]
          rfl
        by_cases hacc : (decimalValue (d :: digits) : Int) > p.capture_count_
        · obtain ⟨g1, g2, g3, g4, g5, g6⟩ := hstart q2 f12.1
          have hna : ¬ (decimalValue (d :: digits) : Int) ≤ p.totalCaptures rest := by
            rw [htot]
            intro h
            rcases le_max_iff.mp h with h | h <;> omega
          refine ⟨q2.Reset (pre.length : Int), ?_, ?_, ?_, g2, g3.trans f12.2.1, ?_, ?_⟩
          · rw [if_pos hacc, if_neg (fun h => hna h.2)]
          · intro h
            exact absurd h.2 hna
          · intro _
            exact g1
          · intro _ _ h
            cases h
          · intro _ hr0
            refine ⟨?_, g5.trans (f12.2.2.2.trans hsc), g6.trans f12.2.2.1⟩
            rw [g4, f3 hr0]
            exact hdr (by simp [hr0])
        · have hya : (decimalValue (d :: digits) : Int) ≤ p.totalCaptures rest := by
            rw [htot]
            exact le_max_of_le_right (by omega)
          refine ⟨q2, ?_, ?_, ?_, f12.1, f12.2.1, ?_, ?_⟩
          · rw [if_neg hacc, if_pos ⟨hV1, hya⟩]
          · intro _
            simpa using f1
          · intro h
            exact absurd ⟨hV1, hya⟩ h
          · intro _ _ h
            cases h
          · intro _ hr0
            refine ⟨?_, f12.2.2.2.trans hsc, f12.2.2.1⟩
            rw [f3 hr0]
            exact hdr (by simp [hr0])
    · have hya : (decimalValue (d :: digits) : Int) ≤ p.totalCaptures rest :=
        le_trans (by omega) (totalCaptures_ge p rest)
      refine ⟨q2, ?_, ?_, ?_, f12.1, f12.2.1, ?_, ?_⟩
      · rw [if_neg hs, if_pos ⟨hV1, hya⟩]
      · intro _
        simpa using f1
      · intro h
        exact absurd ⟨hV1, hya⟩ h
      · intro _ h
        omega
      · intro hsc hr0
        refine ⟨?_, f12.2.2.2.trans hsc, f12.2.2.1⟩
        rw [f3 hr0]
        exact hdr (by simp [hr0])
  · obtain ⟨p2, g0, gq, gm⟩ := e3 hV1
    have g02 := SameCounts_trans h1s g0
    obtain ⟨g1, g2, g3, g4, g5, g6⟩ := hstart p2 g02.1
    rw [if_neg hV1]
    simp only
    refine ⟨q2, ?_, ?_, ?_, ?_, ?_, ?_, ?_⟩
    · rw [if_neg (fun h => hV1 h.1)]
    · intro h
      exact absurd h.1 hV1
    · intro _
      rw [gq]
      exact g1
    · rw [gq]
      exact g2
    · rw [gq]
      exact g3.trans g02.2.1
    · intro h
      exact absurd h hV1
    · intro hsc hr0
      rw [gq]
      refine ⟨?_, g5.trans (g02.2.2.2.trans hsc), g6.trans g02.2.2.1⟩
      rw [g4, gm hr0]
      exact hdr (by simp [hr0])

theorem ParseDisjunction_escape_decimal (fuel : Nat) (builder : RegExpBuilder)
    (p : RegExpParser) (h : '1'.toNat ≤ p.Next ∧ p.Next ≤ '9'.toNat) :
    ParseDisjunction_escape fuel builder p
      = RegExpM.seq (ParseBackReferenceIndex fuel) (fun index =>
          match index with
          | some index => do
            let captures ← RegExpM.read (fun p => p.captures_)
            let capture : Option RegExpTree :=
              match captures with
              | some list =>
                if index ≤ list.length then (list.getD (index - 1).toNat none) else none
              | none => none
            match capture with
            | none => pure (some (builder.AddEmpty, true))
            | some c => pure (some (builder.AddAtom (RegExpTree.BackReference c), true))
          | none => do
            let first_digit ← RegExpM.read Next
            if first_digit = '8'.toNat ∨ first_digit = '9'.toNat then do
              RegExpM.modify (fun p => p.AdvanceBy 2)
              pure (some (builder.AddCharacter first_digit, true))
            else do
              RegExpM.modify Advance
              let octal ← ParseOctalLiteral
              pure (some (builder.AddCharacter (ToUC16 octal), true))) p := by
  have h49 : '1'.toNat = 49 := rfl
  have h57 : '9'.toNat = 57 := rfl
  rw [h49, h57] at h
  have h1 : ¬ p.Next = kEndMarker := by
    intro h0
    rw [h0] at h
    revert h
    decide
  have h2 : ¬ p.Next = 'b'.toNat := by
    intro h0
    rw [h0] at h
    revert h
    decide
  have h3 : ¬ p.Next = 'B'.toNat := by
    intro h0
    rw [h0] at h
    revert h
    decide
  have h4 : ¬ (IsClassEscapeLetter p.Next = true) := by
    obtain ⟨ha, hb⟩ := h
    generalize p.Next = d at ha hb
    interval_cases d <;> decide
  unfold ParseDisjunction_escape
  simp only [RegExpM.bind_eq_seq]
  rw [RegExpM.seq_run, RegExpM.read_run]
  simp only []
  rw [if_neg h1, if_neg h2, if_neg h3, if_neg h4, if_pos (by rw [h49, h57]; exact h)]
  all_goals rfl

theorem ParseDisjunction_escape_accepted (fuel : Nat) (builder : RegExpBuilder)
    (p q : RegExpParser) (index : Int) (h : '1'.toNat ≤ p.Next ∧ p.Next ≤ '9'.toNat)
    (hidx : ParseBackReferenceIndex fuel p = some (some index, q)) :
    ParseDisjunction_escape fuel builder p
      = some (some ((q.capturedGroup index).elim builder.AddEmpty
                      (fun c => builder.AddAtom (RegExpTree.BackReference c)), true), q) := by
  rw [ParseDisjunction_escape_decimal fuel builder p h, RegExpM.seq_run, hidx]
  simp only [RegExpM.bind_eq_seq, RegExpM.pure_eq_ret, RegExpM.seq_run, RegExpM.read_run]
  unfold capturedGroup
  cases hc : q.captures_ with
  | none => rfl
  | some list =>
    simp only
    by_cases hi : index ≤ (list.length : Int)
    · simp only [if_pos hi]
      cases list.getD (index - 1).toNat none <;> rfl
    · simp only [if_neg hi]
      rfl

theorem ParseDisjunction_escape_rejected (fuel : Nat) (builder : RegExpBuilder)
    (p q : RegExpParser) (h : '1'.toNat ≤ p.Next ∧ p.Next ≤ '9'.toNat)
    (hidx : ParseBackReferenceIndex fuel p = some (none, q)) :
    ParseDisjunction_escape fuel builder p
      = if q.Next = '8'.toNat ∨ q.Next = '9'.toNat then
          some (some (builder.AddCharacter q.Next, true), q.AdvanceBy 2)
        else
          (ParseOctalLiteral q.Advance).map
            (fun r => (some (builder.AddCharacter (ToUC16 r.1), true), r.2)) := by
  rw [ParseDisjunction_escape_decimal fuel builder p h, RegExpM.seq_run, hidx]
  simp only [RegExpM.bind_eq_seq, RegExpM.pure_eq_ret, RegExpM.seq_run, RegExpM.read_run]
  by_cases h89 : q.Next = '8'.toNat ∨ q.Next = '9'.toNat
  · rw [if_pos h89, if_pos h89]
    rfl
  · rw [if_neg h89, if_neg h89]
    simp only [RegExpM.seq_run, RegExpM.modify_run]
    cases ParseOctalLiteral q.Advance with
    | none => rfl
    | some r => rfl

theorem Reads_unique {p q : RegExpParser} {pre post : List Nat} (hp : p.Reads pre post)
    (hq : q.Reads pre post) :
    q.in_ = p.in_ ∧ q.current_ = p.current_ ∧ q.next_pos_ = p.next_pos_ := by
  obtain ⟨h1, h2, h3⟩ := hp
  obtain ⟨k1, k2, k3⟩ := hq
  refine ⟨k1.trans h1.symm, k2.trans h2.symm, ?_⟩
  rw [k3, h3, k1, h1]

theorem Advance_has_more_of_false (p : RegExpParser) (h : p.has_more_ = false) :
    p.Advance.has_more_ = false := by
  unfold Advance
  split_ifs
  · exact h
  · rfl

theorem ParseCharacterClass_of_no_more (fuel : Nat) (p : RegExpParser)
    (h : p.has_more_ = false) :
    ParseCharacterClass (fuel + 1) p
      = some (none, p.afterClassOpen.ReportError "Unterminated character class") := by
  have hm : p.afterClassOpen.has_more_ = false := by
    unfold afterClassOpen
    split_ifs
    · exact Advance_has_more_of_false _ (Advance_has_more_of_false _ h)
    · exact Advance_has_more_of_false _ h
  have hloop : ParseCharacterClass_loop (fuel + 1) [] p.afterClassOpen
      = some (some [], p.afterClassOpen) := by
    simp only [ParseCharacterClass_loop, RegExpM.bind_eq_seq, RegExpM.pure_eq_ret]
    rw [RegExpM.seq_run, RegExpM.read_run]
    simp only
    rw [RegExpM.seq_run]
    simp only [current, RegExpM.read_run]
    rw [if_neg (by rw [hm]; simp)]
    rfl
  rw [ParseCharacterClass_eq, hloop]
  simp only
  rw [if_neg (by rw [hm]; simp)]

end RegExpParser

namespace RegExpParser

/-- C27: `ParseBackReferenceIndex`, called at a backslash that is followed by a
digit `d` from 1 to 9, by the further decimal digits `digits` and then by
`rest`, which does not start with a decimal digit, returns the value of the
whole run `d :: digits` exactly when that value is at most `kMaxCaptures` and
at most the number of capturing groups of the pattern (`totalCaptures`: the
groups started before the escape plus the groups that `rest` opens, which is
also the count that a scan stores); the reader is then behind the digits and
the caller adds the back reference (or the empty atom for a group that is not
closed yet).  In every other case it returns no index with the reader on the
backslash again, and the caller `ParseDisjunction_escape` adds the digit
itself when the first digit is 8 or 9 and the octal literal that it reads from
the digits otherwise.  The examples are the patterns `\2a` (octal escape),
`\8` (the digit), `\1(a)` (reference to a group that follows), `(a)\1` and
`(a)\12` (the value 12 exceeds the one group: octal 12). -/
theorem ParseBackReferenceIndex_accepts_iff (fuel : Nat) (p : RegExpParser)
    (pre digits rest : List Nat) (d : Nat)
    (hreads : p.Reads pre (Ch.backslash :: d :: (digits ++ rest)))
    (hfirst : '1'.toNat ≤ d ∧ d ≤ '9'.toNat)
    (hdigits : ∀ c ∈ digits, IsDecimalDigit c = true)
    (hrest : ∀ c ∈ rest.head?, IsDecimalDigit c = false)
    (hunits : ∀ c ∈ p.in_, c ≠ kEndMarker)
    (hsmall : p.captures_started + p.in_.length < 2 ^ 31)
    (hfuel : p.in_.length ≤ fuel) :
    (∃ q : RegExpParser,
      ParseBackReferenceIndex fuel p
          = some (if (decimalValue (d :: digits) : Int) ≤ kMaxCaptures
                    ∧ (decimalValue (d :: digits) : Int) ≤ p.totalCaptures rest
                  then some (decimalValue (d :: digits) : Int) else none, q)
        ∧ (((decimalValue (d :: digits) : Int) ≤ kMaxCaptures
              ∧ (decimalValue (d :: digits) : Int) ≤ p.totalCaptures rest) →
            q.Reads (pre ++ Ch.backslash :: d :: digits) rest
              ∧ ∀ builder : RegExpBuilder,
                  ParseDisjunction_escape fuel builder p
                    = some (some ((q.capturedGroup (decimalValue (d :: digits) : Int)).elim
                        builder.AddEmpty
                        (fun c => builder.AddAtom (RegExpTree.BackReference c)), true), q))
        ∧ (¬ ((decimalValue (d :: digits) : Int) ≤ kMaxCaptures
              ∧ (decimalValue (d :: digits) : Int) ≤ p.totalCaptures rest) →
            q.Reads pre (Ch.backslash :: d :: (digits ++ rest))
              ∧ ∀ builder : RegExpBuilder,
                  ParseDisjunction_escape fuel builder p
                    = if d = '8'.toNat ∨ d = '9'.toNat then
                        some (some (builder.AddCharacter d, true), q.AdvanceBy 2)
                      else
                        (ParseOctalLiteral q.Advance).map
                          (fun r => (some (builder.AddCharacter (ToUC16 r.1), true), r.2)))
        ∧ q.in_ = p.in_ ∧ q.captures_ = p.captures_
        ∧ ((decimalValue (d :: digits) : Int) ≤ kMaxCaptures →
            p.captures_started < (decimalValue (d :: digits) : Int) →
            p.is_scanned_for_captures_ = false →
            q.is_scanned_for_captures_ = true
              ∧ q.capture_count_
                  = p.captures_started + capturesAhead ScanMode.normal rest))
      ∧ (ParseRegExp 50 pattern_octal_a false).map (fun r => (r.1, r.2.1.tree, r.2.1.error))
          = some (true, some (RegExpTree.Atom [2, 'a'.toNat]), none)
      ∧ (ParseRegExp 50 pattern_escaped_8 false).map (fun r => (r.1, r.2.1.tree, r.2.1.error))
          = some (true, some (RegExpTree.Atom ['8'.toNat]), none)
      ∧ (ParseRegExp 50 pattern_forward_reference false).map
            (fun r => (r.1, r.2.1.tree, r.2.1.error))
          = some (true, some (RegExpTree.Capture (RegExpTree.Atom ['a'.toNat]) 1), none)
      ∧ (ParseRegExp 50 pattern_back_reference false).map
            (fun r => (r.1, r.2.1.tree, r.2.1.error))
          = some (true, some (RegExpTree.Alternative
              (RegExpTreeList.cons (RegExpTree.Capture (RegExpTree.Atom ['a'.toNat]) 1)
                (RegExpTreeList.cons
                  (RegExpTree.BackReference (RegExpTree.Capture (RegExpTree.Atom ['a'.toNat]) 1))
                  RegExpTreeList.nil))), none)
      ∧ (ParseRegExp 50 pattern_octal_12 false).map (fun r => (r.1, r.2.1.tree, r.2.1.error))
          = some (true, some (RegExpTree.Alternative
              (RegExpTreeList.cons (RegExpTree.Capture (RegExpTree.Atom ['a'.toNat]) 1)
                (RegExpTreeList.cons (RegExpTree.Atom [10]) RegExpTreeList.nil))), none) := by
  refine ⟨?_, rfl, rfl, rfl, rfl, rfl⟩
  obtain ⟨q, h1, h2, h3, h4, h5, h6, -⟩ :=
    ParseBackReferenceIndex_spec fuel p pre digits rest d hreads hfirst hdigits hrest hunits
      hsmall hfuel
  have hnext : '1'.toNat ≤ p.Next ∧ p.Next ≤ '9'.toNat := by
    rw [Reads_next hreads]
    exact hfirst
  refine ⟨q, h1, ?_, ?_, h4, h5, ?_⟩
  · intro hA
    refine ⟨h2 hA, fun builder => ?_⟩
    rw [if_pos hA] at h1
    exact ParseDisjunction_escape_accepted fuel builder p q _ hnext h1
  · intro hA
    refine ⟨h3 hA, fun builder => ?_⟩
    rw [if_neg hA] at h1
    have hq : q.Next = d := Reads_next (h3 hA)
    rw [ParseDisjunction_escape_rejected fuel builder p q hnext h1, hq]
  · intro hv hs hsc
    obtain ⟨-, k2, k3⟩ := h6 hv hs hsc
    refine ⟨k2, ?_⟩
    rw [k3]
    unfold totalCaptures
    rw [hsc]
    rfl

/-- C27, at the start of the pattern `\2a`: no group precedes or follows the
escape, so no index is returned and the reader is on the backslash again. -/
theorem ParseBackReferenceIndex_accepts_iff_witness :
    ∃ q : RegExpParser,
      ParseBackReferenceIndex 50 (New pattern_octal_a false) = some (none, q)
        ∧ q.Reads [] [Ch.backslash, '2'.toNat, 'a'.toNat] := by
  obtain ⟨q, h1, -, h3, -⟩ :=
    (ParseBackReferenceIndex_accepts_iff 50 (New pattern_octal_a false) [] [] ['a'.toNat]
      '2'.toNat ⟨rfl, rfl, rfl⟩ (by decide) (by decide) (by decide) (by decide) (by decide)
      (by decide)).1
  have hA : ¬ ((decimalValue ['2'.toNat] : Int) ≤ kMaxCaptures
      ∧ (decimalValue ['2'.toNat] : Int) ≤ (New pattern_octal_a false).totalCaptures ['a'.toNat]) := by
    decide
  rw [if_neg hA] at h1
  exact ⟨q, h1, (h3 hA).1⟩

end RegExpParser

namespace RegExpParser

/-- C28 (defect of the code): when a decimal escape triggers `ScanForCaptures`
and input remains behind its digits, `ParseBackReferenceIndex` returns the same
result, position, current character and counts as it returns from the state
that holds the count already (`q0`, no scan), but with `has_more_` false where
`q0` has it true: `Reset` does not set the flag again after the scan has read
to the end.  A character class read from the state after the scan therefore
fails with `Unterminated character class`; the pattern `\2[a]` fails that way,
and parses to the character 2 followed by the class from the state that needs
no scan. -/
theorem ParseBackReferenceIndex_scan_clears_has_more (fuel : Nat) (p : RegExpParser)
    (pre digits rest : List Nat) (d : Nat)
    (hreads : p.Reads pre (Ch.backslash :: d :: (digits ++ rest)))
    (hfirst : '1'.toNat ≤ d ∧ d ≤ '9'.toNat)
    (hdigits : ∀ c ∈ digits, IsDecimalDigit c = true)
    (hrest : ∀ c ∈ rest.head?, IsDecimalDigit c = false)
    (hunits : ∀ c ∈ p.in_, c ≠ kEndMarker)
    (hsmall : p.captures_started + p.in_.length < 2 ^ 31)
    (hfuel : p.in_.length ≤ fuel)
    (hvalue : (decimalValue (d :: digits) : Int) ≤ kMaxCaptures)
    (hahead : p.captures_started < (decimalValue (d :: digits) : Int))
    (hscan : p.is_scanned_for_captures_ = false)
    (hmore : p.has_more_ = true) (hremains : rest ≠ []) :
    (∃ (r : Option Int) (q q0 : RegExpParser),
      ParseBackReferenceIndex fuel p = some (r, q)
        ∧ ParseBackReferenceIndex fuel
              { p with is_scanned_for_captures_ := true,
                       capture_count_ := p.totalCaptures rest } = some (r, q0)
        ∧ q0.in_ = q.in_ ∧ q0.current_ = q.current_ ∧ q0.next_pos_ = q.next_pos_
        ∧ q0.captures_ = q.captures_ ∧ q0.capture_count_ = q.capture_count_
        ∧ q0.is_scanned_for_captures_ = q.is_scanned_for_captures_
        ∧ q0.has_more_ = true ∧ q.has_more_ = false
        ∧ ∀ n : Nat, ParseCharacterClass (n + 1) q
            = some (none, q.afterClassOpen.ReportError "Unterminated character class"))
      ∧ (ParseRegExp 50 pattern_octal_class false).map
            (fun r => (r.1, r.2.1.tree, r.2.1.error))
          = some (false, none, some "Unterminated character class")
      ∧ (ParsePattern 50
            { New pattern_octal_class false with is_scanned_for_captures_ := true }).map
            (fun r => (r.1, r.2.failed_))
          = some (some (RegExpTree.Text
              (RegExpTreeList.cons (RegExpTree.Atom [2])
                (RegExpTreeList.cons
                  (RegExpTree.CharacterClass [CharacterRange.Range 'a'.toNat 'a'.toNat] false)
                  RegExpTreeList.nil))), false) := by
  refine ⟨?_, rfl, rfl⟩
  obtain ⟨q, h1, h2, h3, h4, h5, h6, -⟩ :=
    ParseBackReferenceIndex_spec fuel p pre digits rest d hreads hfirst hdigits hrest hunits
      hsmall hfuel
  obtain ⟨k1, k2, k3⟩ := h6 hvalue hahead hscan
  have htot : ({ p with is_scanned_for_captures_ := true,
                        capture_count_ := p.totalCaptures rest } : RegExpParser).totalCaptures rest
      = p.totalCaptures rest := by
    show (if true = true then max p.captures_started (p.totalCaptures rest) else _) = _
    rw [if_pos rfl]
    exact max_eq_right (totalCaptures_ge p rest)
  obtain ⟨q0, g1, g2, g3, g4, g5, -, g7⟩ :=
    ParseBackReferenceIndex_spec fuel
      { p with is_scanned_for_captures_ := true, capture_count_ := p.totalCaptures rest }
      pre digits rest d hreads hfirst hdigits hrest hunits hsmall hfuel
  obtain ⟨m1, m2, m3⟩ := g7 rfl hremains
  rw [htot] at g1 g2 g3
  have hsame : q0.current_ = q.current_ ∧ q0.next_pos_ = q.next_pos_ := by
    by_cases hA : (decimalValue (d :: digits) : Int) ≤ kMaxCaptures
        ∧ (decimalValue (d :: digits) : Int) ≤ p.totalCaptures rest
    · exact (Reads_unique (h2 hA) (g2 hA)).2
    · exact (Reads_unique (h3 hA) (g3 hA)).2
  refine ⟨_, q, q0, h1, g1, g4.trans h4.symm, hsame.1, hsame.2, g5.trans h5.symm, ?_, ?_, ?_,
    k1, fun n => ParseCharacterClass_of_no_more n q k1⟩
  · rw [m3, k3]
  · rw [m2, k2]
  · rw [m1]
    exact hmore

/-- C28, at the start of the pattern `\2[a]`: the state after the call has
`has_more_` false although the class `[a]` follows. -/
theorem ParseBackReferenceIndex_scan_clears_has_more_witness :
    ∃ (r : Option Int) (q : RegExpParser),
      ParseBackReferenceIndex 50 (New pattern_octal_class false) = some (r, q)
        ∧ q.has_more_ = false := by
  obtain ⟨r, q, q0, h1, -, -, -, -, -, -, -, -, h2, -⟩ :=
    (ParseBackReferenceIndex_scan_clears_has_more 50 (New pattern_octal_class false) [] []
      ['['.toNat, 'a'.toNat, ']'.toNat] '2'.toNat ⟨rfl, rfl, rfl⟩ (by decide) (by decide)
      (by decide) (by decide) (by decide) (by decide) (by decide) (by decide) rfl rfl
      (by decide)).1
  exact ⟨r, q, h1, h2⟩

end RegExpParser

/-! ## Theorems: the try statement -/

theorem Production.ret_seq {α β : Type} (a : α) (f : α → Production β) :
    (Production.ret a).seq f = f a := rfl

theorem ReportMessageAndFail_seq {α β : Type} (type : String) (args : List String)
    (f : α → Production β) :
    (ReportMessageAndFail type args : Production α).seq f = ReportMessageAndFail type args := rfl

theorem ParseTryStatement_eq (self : Productions) :
    ParseTryStatement self
      = (do
          let try_r ← ParseTryStatement_try self
          let tok ← peek
          if tok ≠ Token.CATCH ∧ tok ≠ Token.FINALLY then
            ReportMessageAndFail "no_catch_or_finally" []
          else do
            let catch_r ← ParseTryStatement_catch self (decide (tok = Token.CATCH))
            let finally_block ← ParseTryStatement_finally self (decide (tok = Token.CATCH))
            ParseTryStatement_result try_r catch_r finally_block) := by
  unfold ParseTryStatement ParseTryStatement_try ParseTryStatement_catch
    ParseTryStatement_finally ParseTryStatement_result
  simp only [Production.bind_eq, Production.pure_eq, Production.seq_assoc, Production.ite_seq,
    Production.ret_seq, ReportMessageAndFail_seq]
  all_goals rfl

theorem ParseTryStatement_catch_absent (self : Productions) (p : Parser) :
    ParseTryStatement_catch self false p = (some (none, []), p.alloc.2) := rfl

theorem Expect_of_peek_ne (token : Token) (p : Parser) (h : p.peek ≠ token) :
    (Expect token p).1 = none := by
  unfold Expect Next
  simp only [Production.bind_eq, Production.pure_eq, Production.seq_apply,
    Production.step_apply]
  rw [Parser.Next_fst_peek, if_neg h]
  rfl

/-- A catch clause that is parsed has a catch block. -/
theorem ParseTryStatement_catch_present (self : Productions) (p q : Parser)
    (r : Option (Statement × Variable) × List BreakTarget)
    (h : ParseTryStatement_catch self true p = (some r, q)) :
    ∃ catch_block catch_var, r.1 = some (catch_block, catch_var) := by
  unfold ParseTryStatement_catch at h
  simp only [Production.bind_eq, Production.pure_eq, if_true] at h
  obtain ⟨_, p1, -, h⟩ := Production.seq_eq_some h
  obtain ⟨_, p2, -, h⟩ := Production.seq_eq_some h
  obtain ⟨_, p3, -, h⟩ := Production.seq_eq_some h
  obtain ⟨name, p4, -, h⟩ := Production.seq_eq_some h
  obtain ⟨strict, p5, -, h⟩ := Production.seq_eq_some h
  by_cases hs : (strict && IsEvalOrArguments name) = true
  · rw [if_pos hs] at h
    cases h
  · rw [if_neg hs] at h
    obtain ⟨_, p6, -, h⟩ := Production.seq_eq_some h
    obtain ⟨tok2, p7, htok, h⟩ := Production.seq_eq_some h
    by_cases hb : tok2 = Token.LBRACE
    · rw [if_pos hb] at h
      obtain ⟨catch_var, p8, -, h⟩ := Production.seq_eq_some h
      obtain ⟨use_id, p9, -, h⟩ := Production.seq_eq_some h
      obtain ⟨r2, p10, -, h⟩ := Production.seq_eq_some h
      simp only [Production.ret_apply, Prod.mk.injEq, Option.some.injEq] at h
      exact ⟨r2.1, catch_var, by rw [← h.1]⟩
    · rw [if_neg hb] at h
      obtain ⟨_, p8, hex, -⟩ := Production.seq_eq_some h
      have hpk : p7.peek ≠ Token.LBRACE := by
        simp only [peek, Production.read_apply, Prod.mk.injEq, Option.some.injEq] at htok
        rw [← htok.2, htok.1]
        exact hb
      have := Expect_of_peek_ne Token.LBRACE p7 hpk
      rw [hex] at this
      cases this

theorem ParseTryStatement_finally_present (self : Productions) (has_catch : Bool)
    (p p5 : Parser) (finally_b : Statement) (h : p.peek = Token.FINALLY ∨ has_catch = false)
    (hblock : ParseBlock self none p.Next.2 = (some finally_b, p5)) :
    ParseTryStatement_finally self has_catch p = (some (some finally_b), p5) := by
  unfold ParseTryStatement_finally
  simp only [Production.bind_eq, Production.pure_eq, Production.seq_apply, peek,
    Production.read_apply]
  rw [if_pos (by rcases h with h | h <;> simp [h])]
  simp only [Consume, Next, Production.bind_eq, Production.pure_eq, Production.seq_apply,
    Production.step_apply, Production.ret_apply, hblock]

theorem ParseTryStatement_finally_absent (self : Productions) (p : Parser)
    (h : p.peek ≠ Token.FINALLY) :
    ParseTryStatement_finally self true p = (some none, p) := by
  unfold ParseTryStatement_finally
  simp only [Production.bind_eq, Production.pure_eq, Production.seq_apply, peek,
    Production.read_apply]
  rw [if_neg (by simp [h])]
  rfl
theorem ParseTryStatement_of_parts (self : Productions) (p p3 p4 p5 : Parser)
    (try_r : Statement × List BreakTarget)
    (catch_r : Option (Statement × Variable) × List BreakTarget)
    (finally_block : Option Statement)
    (htry : ParseTryStatement_try self p = (some try_r, p3))
    (htok : p3.peek = Token.CATCH ∨ p3.peek = Token.FINALLY)
    (hcatch : ParseTryStatement_catch self (decide (p3.peek = Token.CATCH)) p3
      = (some catch_r, p4))
    (hfinally : ParseTryStatement_finally self (decide (p3.peek = Token.CATCH)) p4
      = (some finally_block, p5)) :
    ParseTryStatement self p = ParseTryStatement_result try_r catch_r finally_block p5 := by
  rw [ParseTryStatement_eq]
  simp only [Production.bind_eq, Production.pure_eq, Production.seq_apply, htry, peek,
    Production.read_apply]
  rw [if_neg (by rcases htok with h | h <;> simp [h])]
  simp only [Production.seq_apply, hcatch, hfinally]

/-- C26: after the try block (`ParseTryStatement_try`, which gives `try_block`
and the targets of its collector), `ParseTryStatement` fails with
`no_catch_or_finally` when neither `catch` nor `finally` follows; a catch
clause that parses always yields a catch block; with a catch clause and no
`finally` behind it the result is the `TryCatchStatement` of the try block and
the catch block; with a catch clause and a finally block the result is a
`TryFinallyStatement` whose try block is a new block that holds exactly one
statement, the `TryCatchStatement` of the original try block and the catch
block, and whose finally block is the parsed one; with `finally` directly
behind the try block the result is the `TryFinallyStatement` of the original
try block and the finally block.  The four programs `try {} catch (e) {}
finally {}`, `try {} catch (e) {}`, `try {} finally {}` and `try {} b;` parse
accordingly. -/
theorem ParseTryStatement_shapes (self : Productions) (p p3 : Parser)
    (try_block : Statement) (targets : List BreakTarget)
    (htry : ParseTryStatement_try self p = (some (try_block, targets), p3)) :
    (p3.peek ≠ Token.CATCH → p3.peek ≠ Token.FINALLY →
        ParseTryStatement self p = (none, p3.ReportMessage "no_catch_or_finally" []))
    ∧ (∀ r q, ParseTryStatement_catch self true p3 = (some r, q) →
        ∃ catch_block catch_var, r.1 = some (catch_block, catch_var))
    ∧ (∀ (catch_block : Statement) (catch_var : Variable) (catch_targets : List BreakTarget)
        (p4 : Parser), p3.peek = Token.CATCH →
        ParseTryStatement_catch self true p3
          = (some (some (catch_block, catch_var), catch_targets), p4) →
        (p4.peek ≠ Token.FINALLY →
          ParseTryStatement self p
            = (some (Statement.TryCatchStatement try_block
                (Expression.VariableProxy p4.next_id catch_var.name false false (some catch_var))
                catch_block targets), p4.alloc.2))
        ∧ (∀ (finally_b : Statement) (p5 : Parser), p4.peek = Token.FINALLY →
            ParseBlock self none p4.Next.2 = (some finally_b, p5) →
            ParseTryStatement self p
              = (some (Statement.TryFinallyStatement
                  (Statement.Block (p5.next_id + 1) none false
                    (StatementList.cons
                      (Statement.TryCatchStatement try_block
                        (Expression.VariableProxy p5.next_id catch_var.name false false
                          (some catch_var))
                        catch_block targets)
                      StatementList.nil))
                  finally_b (targets.foldl TargetCollector_AddTarget catch_targets)),
                p5.alloc.2.alloc.2)))
    ∧ (∀ (finally_b : Statement) (p5 : Parser), p3.peek = Token.FINALLY →
        ParseBlock self none p3.alloc.2.Next.2 = (some finally_b, p5) →
        ParseTryStatement self p
          = (some (Statement.TryFinallyStatement try_block finally_b
              (targets.foldl TargetCollector_AddTarget [])), p5))
    ∧ (ParseProgram 40 source_try_catch_finally 30 true false).1
        = some (Expression.FunctionLiteral "" 0 (StatementList.cons (Statement.Block 3 none false
            (StatementList.cons (Statement.TryFinallyStatement (Statement.Block 16 none false
            (StatementList.cons (Statement.TryCatchStatement (Statement.Block 5 none false
            (StatementList.nil)) (Expression.VariableProxy 15 ".catch-var" false false (some
            { id := 7, scope := 0, name := ".catch-var", mode := Variable.Mode.TEMPORARY, is_valid_lhs := true, kind := Variable.Kind.NORMAL }))
            (Statement.Block 11 none false (StatementList.cons (Statement.WithEnterStatement
            (Expression.CatchExtensionObject (Expression.Literal (Value.string "e"))
            (Expression.VariableProxy 8 ".catch-var" false false (some
            { id := 7, scope := 0, name := ".catch-var", mode := Variable.Mode.TEMPORARY, is_valid_lhs := true, kind := Variable.Kind.NORMAL })))
            true) (StatementList.cons (Statement.TryFinallyStatement (Statement.Block 12 none
            false (StatementList.cons (Statement.Block 10 none false (StatementList.nil))
            (StatementList.nil))) (Statement.Block 13 none false (StatementList.cons
            (Statement.WithExitStatement) (StatementList.nil))) []) (StatementList.nil)))) [])
            (StatementList.nil))) (Statement.Block 14 none false (StatementList.nil)) [])
            (StatementList.nil))) (StatementList.nil)) 0 0 0 0 30 false false false (-1))
    ∧ (ParseProgram 40 source_try_catch 19 true false).1
        = some (Expression.FunctionLiteral "" 0 (StatementList.cons (Statement.Block 3 none false
            (StatementList.cons (Statement.TryCatchStatement (Statement.Block 5 none false
            (StatementList.nil)) (Expression.VariableProxy 14 ".catch-var" false false (some
            { id := 7, scope := 0, name := ".catch-var", mode := Variable.Mode.TEMPORARY, is_valid_lhs := true, kind := Variable.Kind.NORMAL }))
            (Statement.Block 11 none false (StatementList.cons (Statement.WithEnterStatement
            (Expression.CatchExtensionObject (Expression.Literal (Value.string "e"))
            (Expression.VariableProxy 8 ".catch-var" false false (some
            { id := 7, scope := 0, name := ".catch-var", mode := Variable.Mode.TEMPORARY, is_valid_lhs := true, kind := Variable.Kind.NORMAL })))
            true) (StatementList.cons (Statement.TryFinallyStatement (Statement.Block 12 none
            false (StatementList.cons (Statement.Block 10 none false (StatementList.nil))
            (StatementList.nil))) (Statement.Block 13 none false (StatementList.cons
            (Statement.WithExitStatement) (StatementList.nil))) []) (StatementList.nil)))) [])
            (StatementList.nil))) (StatementList.nil)) 0 0 0 0 19 false false false (-1))
    ∧ (ParseProgram 40 source_try_finally 17 true false).1
        = some (Expression.FunctionLiteral "" 0 (StatementList.cons (Statement.Block 3 none false
            (StatementList.cons (Statement.TryFinallyStatement (Statement.Block 5 none false
            (StatementList.nil)) (Statement.Block 7 none false (StatementList.nil)) [])
            (StatementList.nil))) (StatementList.nil)) 0 0 0 0 17 false false false (-1))
    ∧ (ParseProgram 40 source_try_alone 9 true false).1 = none
    ∧ (ParseProgram 40 source_try_alone 9 true false).2.messages
        = [⟨"no_catch_or_finally", [], ⟨5, 6⟩⟩] := by
  refine ⟨?_, fun r q h => ParseTryStatement_catch_present self p3 q r h, ?_, ?_,
    rfl, rfl, rfl, rfl, rfl⟩
  · intro h1 h2
    rw [ParseTryStatement_eq]
    simp only [Production.bind_eq, Production.pure_eq, Production.seq_apply, htry, peek,
      Production.read_apply]
    rw [if_pos ⟨h1, h2⟩]
    rfl
  · intro catch_block catch_var catch_targets p4 hc hcatch
    have hd : decide (p3.peek = Token.CATCH) = true := by simp [hc]
    constructor
    · intro hf
      rw [ParseTryStatement_of_parts self p p3 p4 p4 _ _ none htry (Or.inl hc)
        (by rw [hd]; exact hcatch)
        (by rw [hd]; exact ParseTryStatement_finally_absent self p4 hf)]
      rfl
    · intro finally_b p5 hf hblock
      rw [ParseTryStatement_of_parts self p p3 p4 p5 _ _ (some finally_b) htry (Or.inl hc)
        (by rw [hd]; exact hcatch)
        (by rw [hd]
            exact ParseTryStatement_finally_present self true p4 p5 finally_b (Or.inl hf)
              hblock)]
      rfl
  · intro finally_b p5 hf hblock
    have hd : decide (p3.peek = Token.CATCH) = false := by simp [hf]
    rw [ParseTryStatement_of_parts self p p3 p3.alloc.2 p5 _ _ (some finally_b) htry
      (Or.inr hf)
      (by rw [hd]; exact ParseTryStatement_catch_absent self p3)
      (by rw [hd]
          exact ParseTryStatement_finally_present self false p3.alloc.2 p5 finally_b
            (Or.inr rfl) hblock)]
    rfl

/-- C26, on `try {} catch (e) {} finally {}` with the identifiers counted
from 3: the try block of the result is the block 15, which holds the one
`TryCatchStatement` of the try block 4 and the catch block 10, and the finally
block is the block 13. -/
theorem ParseTryStatement_shapes_witness :
    (ParseTryStatement (productions 10) (sloppyParser source_try_catch_finally)).1
      = some (Statement.TryFinallyStatement
          (Statement.Block 15 none false
            (StatementList.cons
              (Statement.TryCatchStatement (Statement.Block 4 none false StatementList.nil)
                (Expression.VariableProxy 14 ".catch-var" false false
                  (some
                      { id := 6, scope := 0, name := ".catch-var", mode := Variable.Mode.TEMPORARY, is_valid_lhs := true, kind := Variable.Kind.NORMAL }))
                (Statement.Block 10 none false (StatementList.cons (Statement.WithEnterStatement
                    (Expression.CatchExtensionObject (Expression.Literal (Value.string "e"))
                    (Expression.VariableProxy 7 ".catch-var" false false (some
                    { id := 6, scope := 0, name := ".catch-var", mode := Variable.Mode.TEMPORARY, is_valid_lhs := true, kind := Variable.Kind.NORMAL })))
                    true) (StatementList.cons (Statement.TryFinallyStatement (Statement.Block 11
                    none false (StatementList.cons (Statement.Block 9 none false
                    StatementList.nil) StatementList.nil)) (Statement.Block 12 none false
                    (StatementList.cons Statement.WithExitStatement StatementList.nil)) [])
                    StatementList.nil)))
                [])
              StatementList.nil))
          (Statement.Block 13 none false StatementList.nil) []) :=
  congrArg Prod.fst
    (((ParseTryStatement_shapes (productions 10) (sloppyParser source_try_catch_finally)
      (ParseTryStatement_try (productions 10) (sloppyParser source_try_catch_finally)).2
      (Statement.Block 4 none false StatementList.nil) [] rfl).2.2.1
      (Statement.Block 10 none false (StatementList.cons (Statement.WithEnterStatement
          (Expression.CatchExtensionObject (Expression.Literal (Value.string "e"))
          (Expression.VariableProxy 7 ".catch-var" false false (some
          { id := 6, scope := 0, name := ".catch-var", mode := Variable.Mode.TEMPORARY, is_valid_lhs := true, kind := Variable.Kind.NORMAL })))
          true) (StatementList.cons (Statement.TryFinallyStatement (Statement.Block 11 none false
          (StatementList.cons (Statement.Block 9 none false StatementList.nil) StatementList.nil))
          (Statement.Block 12 none false (StatementList.cons Statement.WithExitStatement
          StatementList.nil)) []) StatementList.nil)))
      { id := 6, scope := 0, name := ".catch-var", mode := Variable.Mode.TEMPORARY, is_valid_lhs := true, kind := Variable.Kind.NORMAL }
      []
      (ParseTryStatement_catch (productions 10) true (ParseTryStatement_try (productions 10)
          (sloppyParser source_try_catch_finally)).2).2
      rfl rfl).2
      (Statement.Block 13 none false StatementList.nil)
      (ParseBlock (productions 10) none (Parser.Next (ParseTryStatement_catch (productions 10)
          true (ParseTryStatement_try (productions 10) (sloppyParser
          source_try_catch_finally)).2).2).2).2
      rfl rfl)

/-! ## Theorems: no production changes the flag `FLAG_strict_mode` -/

set_option linter.unusedTactic false
set_option linter.unreachableTactic false

namespace Production.KeepsFlag

theorem flag_pure {α : Type} (a : α) : (Pure.pure a : Production α).KeepsFlag :=
  ⟨fun _ => rfl⟩

theorem flag_ret {α : Type} (a : α) : (Production.ret a).KeepsFlag := ⟨fun _ => rfl⟩

theorem flag_fail {α : Type} : (Production.fail : Production α).KeepsFlag := ⟨fun _ => rfl⟩

theorem flag_read {α : Type} (g : Parser → α) : (Production.read g).KeepsFlag :=
  ⟨fun _ => rfl⟩

theorem flag_bind {α β : Type} {m : Production α} {k : α → Production β}
    (hm : m.KeepsFlag) (hk : ∀ a, (k a).KeepsFlag) :
    (m >>= k).KeepsFlag := by
  constructor
  intro p
  show (Production.seq m k p).2.FLAG_strict_mode = p.FLAG_strict_mode
  rw [Production.seq_apply]
  have h1 := hm.keeps p
  cases h : m p with
  | mk o q =>
    rw [h] at h1
    cases o with
    | none => exact h1
    | some a => exact ((hk a).keeps q).trans h1

theorem flag_step {α : Type} {g : Parser → α × Parser}
    (h : ∀ p, (g p).2.FLAG_strict_mode = p.FLAG_strict_mode) : (Production.step g).KeepsFlag :=
  ⟨fun p => h p⟩

theorem flag_modify {g : Parser → Parser}
    (h : ∀ p, (g p).FLAG_strict_mode = p.FLAG_strict_mode) : (Production.modify g).KeepsFlag :=
  ⟨fun p => h p⟩

theorem flag_ite {α : Type} (c : Prop) [Decidable c] {a b : Production α}
    (ha : a.KeepsFlag) (hb : b.KeepsFlag) :
    (if c then a else b).KeepsFlag := by
  split_ifs
  · exact ha
  · exact hb

end Production.KeepsFlag

theorem Parser.Next_snd_FLAG (p : Parser) :
    p.Next.2.FLAG_strict_mode = p.FLAG_strict_mode := by
  unfold Parser.Next
  split_ifs <;> rfl

theorem peek_keepsFlag : peek.KeepsFlag := ⟨fun _ => rfl⟩

theorem Next_keepsFlag : Next.KeepsFlag :=
  ⟨fun p => Parser.Next_snd_FLAG p⟩

theorem location_beg_pos_keepsFlag : location_beg_pos.KeepsFlag := ⟨fun _ => rfl⟩

theorem peek_location_beg_pos_keepsFlag : peek_location_beg_pos.KeepsFlag :=
  ⟨fun _ => rfl⟩

theorem ReportMessageAndFail_keepsFlag {α : Type} (type : String) (args : List String) :
    (ReportMessageAndFail type args : Production α).KeepsFlag := ⟨fun _ => rfl⟩

theorem Parser.ReportUnexpectedToken_FLAG (p : Parser) (token : Token) :
    (p.ReportUnexpectedToken token).FLAG_strict_mode = p.FLAG_strict_mode := by
  unfold Parser.ReportUnexpectedToken
  split_ifs
  all_goals first | rfl | (cases token <;> rfl)

theorem ReportUnexpectedTokenAndFail_keepsFlag {α : Type} (token : Token) :
    (ReportUnexpectedTokenAndFail token : Production α).KeepsFlag :=
  ⟨fun p => Parser.ReportUnexpectedToken_FLAG p token⟩

theorem CheckOctalLiteral_keepsFlag (beg_pos end_pos : Int) :
    (CheckOctalLiteral beg_pos end_pos).KeepsFlag := by
  constructor
  intro p
  unfold CheckOctalLiteral
  simp only []
  split_ifs <;> rfl

theorem withTarget_keepsFlag {α : Type} (t : Target) {body : Production α}
    (h : body.KeepsFlag) : (withTarget t body).KeepsFlag :=
  ⟨fun p => h.keeps { p with target_stack_ := t :: p.target_stack_ }⟩

theorem withCollector_keepsFlag {α : Type} (id : Nat) (targets : List BreakTarget)
    {body : Production α} (h : body.KeepsFlag) :
    (withCollector id targets body).KeepsFlag :=
  ⟨fun p => h.keeps { p with target_stack_ := Target.collector id targets :: p.target_stack_ }⟩

theorem withTargetScope_keepsFlag {α : Type} {body : Production α}
    (h : body.KeepsFlag) : (withTargetScope body).KeepsFlag :=
  ⟨fun p => h.keeps { p with target_stack_ := [] }⟩

theorem withLexicalScope_keepsFlag {α : Type} (scope : Scope) {body : Production α}
    (h : body.KeepsFlag) : (withLexicalScope scope body).KeepsFlag :=
  ⟨fun p => h.keeps { p with
      top_scope_ := some scope,
      outer_scopes_ :=
        match p.top_scope_ with
        | some s => s :: p.outer_scopes_
        | none => p.outer_scopes_,
      with_nesting_level_ := 0 }⟩

theorem withTemporaryScope_keepsFlag {α : Type} {body : Production α}
    (h : body.KeepsFlag) : (withTemporaryScope body).KeepsFlag :=
  ⟨fun p => h.keeps { p with
      temp_scope_ := some
        { strict_mode_ :=
            match p.temp_scope_ with
            | some parent => parent.strict_mode_
            | none => false } }⟩

theorem Declare_keepsFlag (name : String) (mode : Variable.Mode)
    (fun_ : Option Expression) (resolve : Bool) :
    (Declare name mode fun_ resolve).KeepsFlag := by
  constructor
  intro p
  unfold Declare
  by_cases hf : p.top_scope.is_function_scope = true
  · simp only [hf, if_true]
    cases hl : p.top_scope.LocalLookup name with
    | none => rfl
    | some var =>
      simp only
      by_cases hc : mode = Variable.Mode.CONST ∨ var.mode = Variable.Mode.CONST
      · simp only [if_pos hc]
        rfl
      · simp only [if_neg hc]
        rfl
  · simp only [hf]
    rfl

theorem Parser.LookupCachedSymbol_FLAG (p : Parser) (symbol_id : Nat) :
    (p.LookupCachedSymbol symbol_id).2.FLAG_strict_mode = p.FLAG_strict_mode := by
  unfold Parser.LookupCachedSymbol
  simp only []
  split <;> rfl

theorem Parser.LookupSymbol_FLAG (p : Parser) (symbol_id : Int) :
    (p.LookupSymbol symbol_id).2.FLAG_strict_mode = p.FLAG_strict_mode := by
  unfold Parser.LookupSymbol
  split_ifs
  · rfl
  · exact Parser.LookupCachedSymbol_FLAG p _

theorem Parser.GetSymbol_FLAG (p : Parser) : p.GetSymbol.2.FLAG_strict_mode = p.FLAG_strict_mode := by
  unfold Parser.GetSymbol
  split
  · exact Parser.LookupSymbol_FLAG p _
  · exact (Parser.LookupSymbol_FLAG _ _).trans rfl

theorem Parser.LookupBreakTarget_FLAG (p : Parser) (label : Option String) :
    (p.LookupBreakTarget label).2.FLAG_strict_mode = p.FLAG_strict_mode := by
  unfold Parser.LookupBreakTarget
  split <;> rfl

theorem Parser.LookupContinueTarget_FLAG (p : Parser) (label : Option String) :
    (p.LookupContinueTarget label).2.FLAG_strict_mode = p.FLAG_strict_mode := by
  unfold Parser.LookupContinueTarget
  split <;> rfl

theorem AddLabel_FLAG (p : Parser) (labels : Option Nat) (label : String) :
    (AddLabel p labels label).2.FLAG_strict_mode = p.FLAG_strict_mode := by
  unfold AddLabel
  split <;> rfl

theorem ReportIllegalJump_keepsFlag {α : Type} (message : String)
    (label : Option String) : (ReportIllegalJump message label : Production α).KeepsFlag := by
  constructor
  intro p
  unfold ReportIllegalJump
  split <;> rfl

theorem ValidateStrictFunction_keepsFlag (name : String) (name_is_reserved : Bool)
    (function_token_position start_pos end_pos : Int)
    (name_loc dupe_loc reserved_loc : Location) :
    (ValidateStrictFunction name name_is_reserved function_token_position start_pos end_pos
      name_loc dupe_loc reserved_loc).KeepsFlag := by
  constructor
  intro p
  unfold ValidateStrictFunction
  simp only []
  split_ifs
  all_goals first | rfl | exact (CheckOctalLiteral_keepsFlag _ _).keeps p

theorem ReportInvalidPreparseData_keepsFlag {α : Type} (name : String) :
    (ReportInvalidPreparseData name : Production α).KeepsFlag := ⟨fun _ => rfl⟩

theorem peek_any_identifier_keepsFlag : peek_any_identifier.KeepsFlag := by
  unfold peek_any_identifier
  repeat' first
    | with_reducible first
      | apply Production.KeepsFlag.flag_bind | apply Production.KeepsFlag.flag_pure
      | apply peek_keepsFlag
    | intro _
    | rfl
    | split

theorem Consume_keepsFlag (_token : Token) :
    (Consume _token).KeepsFlag := by
  unfold Consume
  repeat' first
    | with_reducible first
      | apply Production.KeepsFlag.flag_bind | apply Production.KeepsFlag.flag_pure
      | apply Next_keepsFlag
    | intro _
    | rfl
    | split

theorem Expect_keepsFlag (token : Token) :
    (Expect token).KeepsFlag := by
  unfold Expect
  repeat' first
    | with_reducible first
      | apply Production.KeepsFlag.flag_bind | apply Production.KeepsFlag.flag_pure
      | apply Production.KeepsFlag.flag_ite | apply Next_keepsFlag
      | apply ReportUnexpectedTokenAndFail_keepsFlag
    | intro _
    | rfl
    | split

theorem Check_keepsFlag (token : Token) :
    (Check token).KeepsFlag := by
  unfold Check
  repeat' first
    | with_reducible first
      | apply Production.KeepsFlag.flag_bind | apply Production.KeepsFlag.flag_pure
      | apply Production.KeepsFlag.flag_ite | apply peek_keepsFlag
      | apply Consume_keepsFlag
    | intro _
    | rfl
    | split

theorem ExpectSemicolon_keepsFlag : ExpectSemicolon.KeepsFlag := by
  unfold ExpectSemicolon
  repeat' first
    | with_reducible first
      | apply Production.KeepsFlag.flag_bind | apply Production.KeepsFlag.flag_pure
      | apply Production.KeepsFlag.flag_ite | apply Production.KeepsFlag.flag_read
      | apply peek_keepsFlag | apply Next_keepsFlag | apply Expect_keepsFlag
    | intro _
    | rfl
    | split

theorem ParseIdentifierOrReservedWord_keepsFlag : ParseIdentifierOrReservedWord.KeepsFlag := by
  unfold ParseIdentifierOrReservedWord
  repeat' first
    | with_reducible first
      | apply Production.KeepsFlag.flag_bind | apply Production.KeepsFlag.flag_pure
      | apply Production.KeepsFlag.flag_ite | apply Production.KeepsFlag.flag_read
      | apply Production.KeepsFlag.flag_step | apply Expect_keepsFlag
      | apply Check_keepsFlag | apply Parser.GetSymbol_FLAG
    | intro _
    | rfl
    | split

theorem ParseIdentifier_keepsFlag : ParseIdentifier.KeepsFlag := by
  unfold ParseIdentifier
  repeat' first
    | with_reducible first
      | apply Production.KeepsFlag.flag_bind | apply Production.KeepsFlag.flag_pure
      | apply ParseIdentifierOrReservedWord_keepsFlag
    | intro _
    | rfl
    | split

theorem ParseIdentifierName_keepsFlag : ParseIdentifierName.KeepsFlag := by
  unfold ParseIdentifierName
  repeat' first
    | with_reducible first
      | apply Production.KeepsFlag.flag_bind | apply Production.KeepsFlag.flag_ite
      | apply Production.KeepsFlag.flag_step | apply Next_keepsFlag
      | apply ReportUnexpectedTokenAndFail_keepsFlag | apply Parser.GetSymbol_FLAG
    | intro _
    | rfl
    | split

theorem CheckStrictModeLValue_keepsFlag (expression : Expression) (error : String) :
    (CheckStrictModeLValue expression error).KeepsFlag := by
  unfold CheckStrictModeLValue
  repeat' first
    | with_reducible first
      | apply Production.KeepsFlag.flag_bind | apply Production.KeepsFlag.flag_pure
      | apply Production.KeepsFlag.flag_ite | apply ReportMessageAndFail_keepsFlag
    | intro _
    | rfl
    | split

theorem ParseArguments_loop_keepsFlag (self : Productions)
    (h : self.KeepFlag) (result : ExpressionList) (done : Bool) :
    (ParseArguments_loop self result done).KeepsFlag := by
  unfold ParseArguments_loop
  repeat' first
    | with_reducible first
      | apply Production.KeepsFlag.flag_bind | apply Production.KeepsFlag.flag_pure
      | apply Production.KeepsFlag.flag_ite | apply peek_keepsFlag
      | apply Expect_keepsFlag | apply h.ParseAssignmentExpression
      | apply h.ParseArguments_loop
    | intro _
    | rfl
    | split

theorem ParseArguments_keepsFlag (self : Productions) (h : self.KeepFlag) :
    (ParseArguments self).KeepsFlag := by
  unfold ParseArguments
  repeat' first
    | with_reducible first
      | apply Production.KeepsFlag.flag_bind | apply Production.KeepsFlag.flag_pure
      | apply peek_keepsFlag | apply Expect_keepsFlag
      | apply ParseArguments_loop_keepsFlag self h
    | intro _
    | rfl
    | split

theorem ParseArrayLiteral_loop_keepsFlag (self : Productions)
    (h : self.KeepFlag) (values : ExpressionList) :
    (ParseArrayLiteral_loop self values).KeepsFlag := by
  unfold ParseArrayLiteral_loop
  repeat' first
    | with_reducible first
      | apply Production.KeepsFlag.flag_bind | apply Production.KeepsFlag.flag_pure
      | apply Production.KeepsFlag.flag_ite | apply peek_keepsFlag
      | apply Expect_keepsFlag | apply h.ParseAssignmentExpression
      | apply h.ParseArrayLiteral_loop
    | intro _
    | rfl
    | split

theorem ParseArrayLiteral_keepsFlag (self : Productions) (h : self.KeepFlag) :
    (ParseArrayLiteral self).KeepsFlag := by
  unfold ParseArrayLiteral
  repeat' first
    | with_reducible first
      | apply Production.KeepsFlag.flag_bind | apply Production.KeepsFlag.flag_pure
      | apply Production.KeepsFlag.flag_step | apply Expect_keepsFlag
      | apply ParseArrayLiteral_loop_keepsFlag self h
    | intro _
    | rfl
    | split

theorem CheckProperty_keepsFlag (checker : ObjectLiteralPropertyChecker)
    (property : ObjectProperty) (loc : Location) (number_text : String) :
    (CheckProperty checker property loc number_text).KeepsFlag :=
  ⟨fun p => by
    rcases CheckProperty_run checker property loc number_text p with ⟨-, h⟩ | ⟨c, h⟩ | ⟨t, h⟩
    all_goals rw [h]
    all_goals rfl⟩

theorem ParseIdentifierOrGetOrSet_keepsFlag : ParseIdentifierOrGetOrSet.KeepsFlag := by
  unfold ParseIdentifierOrGetOrSet
  repeat' first
    | with_reducible first
      | apply Production.KeepsFlag.flag_bind | apply Production.KeepsFlag.flag_pure
      | apply Production.KeepsFlag.flag_read | apply ParseIdentifier_keepsFlag
    | intro _
    | rfl
    | split

theorem ParseObjectLiteralGetSet_keepsFlag (self : Productions) (h : self.KeepFlag)
    (is_getter : Bool) : (ParseObjectLiteralGetSet self is_getter).KeepsFlag := by
  unfold ParseObjectLiteralGetSet
  repeat' first
    | with_reducible first
      | apply Production.KeepsFlag.flag_bind | apply Production.KeepsFlag.flag_pure
      | apply Production.KeepsFlag.flag_ite | apply Production.KeepsFlag.flag_step
      | apply Next_keepsFlag | apply ReportUnexpectedTokenAndFail_keepsFlag
      | apply Parser.GetSymbol_FLAG | apply h.ParseFunctionLiteral
    | intro _
    | rfl
    | split

theorem ParseObjectLiteral_add_keepsFlag (self : Productions) (h : self.KeepFlag)
    (checker : ObjectLiteralPropertyChecker) (properties : ObjectPropertyList)
    (property : ObjectProperty) (loc : Location) (number_text : String) :
    (ParseObjectLiteral_add self checker properties property loc number_text).KeepsFlag := by
  unfold ParseObjectLiteral_add
  repeat' first
    | with_reducible first
      | apply Production.KeepsFlag.flag_bind | apply Production.KeepsFlag.flag_pure
      | apply Production.KeepsFlag.flag_ite | apply peek_keepsFlag
      | apply Expect_keepsFlag
      | apply CheckProperty_keepsFlag | apply h.ParseObjectLiteral_loop
    | intro _
    | rfl
    | split

theorem ParseObjectLiteral_accessor_keepsFlag (self : Productions) (h : self.KeepFlag)
    (checker : ObjectLiteralPropertyChecker) (properties : ObjectPropertyList)
    (is_getter : Bool) :
    (ParseObjectLiteral_accessor self checker properties is_getter).KeepsFlag := by
  unfold ParseObjectLiteral_accessor
  repeat' first
    | with_reducible first
      | apply Production.KeepsFlag.flag_bind | apply Production.KeepsFlag.flag_read
      | apply ParseObjectLiteralGetSet_keepsFlag self h
      | apply ParseObjectLiteral_add_keepsFlag self h
    | intro _
    | rfl
    | split

theorem ParseObjectLiteral_value_keepsFlag (self : Productions) (h : self.KeepFlag)
    (checker : ObjectLiteralPropertyChecker) (properties : ObjectPropertyList)
    (loc : Location) (key : Value) (number_text : String) :
    (ParseObjectLiteral_value self checker properties loc key number_text).KeepsFlag := by
  unfold ParseObjectLiteral_value
  repeat' first
    | with_reducible first
      | apply Production.KeepsFlag.flag_bind | apply Production.KeepsFlag.flag_pure
      | apply Expect_keepsFlag | apply h.ParseAssignmentExpression
      | apply ParseObjectLiteral_add_keepsFlag self h
    | intro _
    | rfl
    | split

theorem ParseObjectLiteral_loop_keepsFlag (self : Productions) (h : self.KeepFlag)
    (checker : ObjectLiteralPropertyChecker) (properties : ObjectPropertyList) :
    (ParseObjectLiteral_loop self checker properties).KeepsFlag := by
  unfold ParseObjectLiteral_loop
  repeat' first
    | with_reducible first
      | apply Production.KeepsFlag.flag_bind | apply Production.KeepsFlag.flag_pure
      | apply Production.KeepsFlag.flag_ite | apply Production.KeepsFlag.flag_read
      | apply Production.KeepsFlag.flag_step | apply peek_keepsFlag
      | apply Next_keepsFlag | apply ReportUnexpectedTokenAndFail_keepsFlag
      | apply Consume_keepsFlag | apply Expect_keepsFlag
      | apply Parser.GetSymbol_FLAG | apply ParseIdentifierOrGetOrSet_keepsFlag
      | apply ParseObjectLiteral_accessor_keepsFlag self h
      | apply ParseObjectLiteral_value_keepsFlag self h
      | apply h.ParseObjectLiteral_loop
    | intro _
    | rfl
    | split

theorem ParseObjectLiteral_keepsFlag (self : Productions) (h : self.KeepFlag) :
    (ParseObjectLiteral self).KeepsFlag := by
  unfold ParseObjectLiteral
  repeat' first
    | with_reducible first
      | apply Production.KeepsFlag.flag_bind | apply Production.KeepsFlag.flag_pure
      | apply Production.KeepsFlag.flag_read | apply Production.KeepsFlag.flag_step | apply Expect_keepsFlag
      | apply ParseObjectLiteral_loop_keepsFlag self h
    | intro _
    | rfl
    | split

theorem ParseRegExpLiteral_keepsFlag (seen_equal : Bool) :
    (ParseRegExpLiteral seen_equal).KeepsFlag := by
  unfold ParseRegExpLiteral
  repeat' first
    | with_reducible first
      | apply Production.KeepsFlag.flag_bind | apply Production.KeepsFlag.flag_pure
      | apply Production.KeepsFlag.flag_ite | apply Production.KeepsFlag.flag_read
      | apply Production.KeepsFlag.flag_step | apply Next_keepsFlag
      | apply ReportMessageAndFail_keepsFlag
    | intro _
    | rfl
    | split

theorem ParseV8Intrinsic_keepsFlag (self : Productions) (h : self.KeepFlag) :
    (ParseV8Intrinsic self).KeepsFlag := by
  unfold ParseV8Intrinsic
  repeat' first
    | with_reducible first
      | apply Production.KeepsFlag.flag_bind | apply Production.KeepsFlag.flag_pure
      | apply Production.KeepsFlag.flag_ite | apply Production.KeepsFlag.flag_read
      | apply Expect_keepsFlag | apply ParseIdentifier_keepsFlag
      | apply ParseArguments_keepsFlag self h | apply ReportMessageAndFail_keepsFlag
    | intro _
    | rfl
    | split

theorem ParsePrimaryExpression_keepsFlag (self : Productions) (h : self.KeepFlag) :
    (ParsePrimaryExpression self).KeepsFlag := by
  unfold ParsePrimaryExpression
  repeat' first
    | with_reducible first
      | apply Production.KeepsFlag.flag_bind | apply Production.KeepsFlag.flag_pure
      | apply Production.KeepsFlag.flag_ite | apply Production.KeepsFlag.flag_read
      | apply Production.KeepsFlag.flag_step | apply Production.KeepsFlag.flag_modify
      | apply peek_keepsFlag | apply Next_keepsFlag
      | apply ReportUnexpectedTokenAndFail_keepsFlag | apply ParseObjectLiteral_keepsFlag self h
      | apply ParseRegExpLiteral_keepsFlag | apply ParseV8Intrinsic_keepsFlag self h
      | apply Consume_keepsFlag | apply Expect_keepsFlag
      | apply ParseIdentifier_keepsFlag | apply ParseArrayLiteral_keepsFlag self h
      | apply Parser.GetSymbol_FLAG | apply h.ParseExpression
    | intro _
    | rfl
    | split

theorem ParseMemberWithNewPrefixesExpression_loop_keepsFlag (self : Productions)
    (h : self.KeepFlag) (stack : PositionStack) (result : Expression) :
    (ParseMemberWithNewPrefixesExpression_loop self stack result).KeepsFlag := by
  unfold ParseMemberWithNewPrefixesExpression_loop
  repeat' first
    | with_reducible first
      | apply Production.KeepsFlag.flag_bind | apply Production.KeepsFlag.flag_pure
      | apply peek_keepsFlag | apply location_beg_pos_keepsFlag
      | apply Consume_keepsFlag | apply Expect_keepsFlag
      | apply ParseIdentifierName_keepsFlag | apply ParseArguments_keepsFlag self h
      | apply h.ParseExpression | apply h.ParseMemberWithNewPrefixesExpression_loop
    | intro _
    | rfl
    | split

theorem ParseMemberWithNewPrefixesExpression_keepsFlag (self : Productions) (h : self.KeepFlag) (stack : PositionStack) :
    (ParseMemberWithNewPrefixesExpression self stack).KeepsFlag := by
  unfold ParseMemberWithNewPrefixesExpression
  repeat' first
    | with_reducible first
      | apply Production.KeepsFlag.flag_bind | apply Production.KeepsFlag.flag_ite
      | apply peek_keepsFlag | apply location_beg_pos_keepsFlag
      | apply peek_any_identifier_keepsFlag | apply Expect_keepsFlag
      | apply ParseIdentifierOrReservedWord_keepsFlag
      | apply ParsePrimaryExpression_keepsFlag self h
      | apply ParseMemberWithNewPrefixesExpression_loop_keepsFlag self h
      | apply h.ParseFunctionLiteral
    | intro _
    | rfl
    | split

theorem ParseNewPrefix_keepsFlag (self : Productions) (h : self.KeepFlag) (stack : List Int) :
    (ParseNewPrefix self stack).KeepsFlag := by
  unfold ParseNewPrefix
  repeat' first
    | with_reducible first
      | apply Production.KeepsFlag.flag_bind | apply Production.KeepsFlag.flag_pure
      | apply Production.KeepsFlag.flag_ite | apply peek_keepsFlag
      | apply location_beg_pos_keepsFlag | apply Expect_keepsFlag
      | apply ParseMemberWithNewPrefixesExpression_keepsFlag self h | apply h.ParseNewPrefix
    | intro _
    | rfl
    | split
    | (beta_reduce; split)

theorem ParseNewExpression_keepsFlag (self : Productions) (h : self.KeepFlag) :
    (ParseNewExpression self).KeepsFlag := by
  unfold ParseNewExpression
  repeat' first
    | with_reducible first
      | apply Production.KeepsFlag.flag_bind | apply Production.KeepsFlag.flag_pure
      | apply ParseNewPrefix_keepsFlag self h
    | intro _
    | rfl
    | split

theorem ParseMemberExpression_keepsFlag (self : Productions) (h : self.KeepFlag) :
    (ParseMemberExpression self).KeepsFlag := by
  unfold ParseMemberExpression
  repeat' first
    | with_reducible first
      | apply Production.KeepsFlag.flag_bind | apply Production.KeepsFlag.flag_pure
      | apply ParseMemberWithNewPrefixesExpression_keepsFlag self h
    | intro _
    | rfl
    | split

theorem ParseLeftHandSideExpression_loop_keepsFlag (self : Productions) (h : self.KeepFlag) (result : Expression) :
    (ParseLeftHandSideExpression_loop self result).KeepsFlag := by
  unfold ParseLeftHandSideExpression_loop
  repeat' first
    | with_reducible first
      | apply Production.KeepsFlag.flag_bind | apply Production.KeepsFlag.flag_pure
      | apply Production.KeepsFlag.flag_ite | apply Production.KeepsFlag.flag_modify
      | apply peek_keepsFlag | apply location_beg_pos_keepsFlag
      | apply Consume_keepsFlag | apply Expect_keepsFlag
      | apply ParseIdentifierName_keepsFlag | apply ParseArguments_keepsFlag self h
      | apply h.ParseExpression | apply h.ParseLeftHandSideExpression_loop
    | intro _
    | rfl
    | split

theorem ParseLeftHandSideExpression_keepsFlag (self : Productions) (h : self.KeepFlag) :
    (ParseLeftHandSideExpression self).KeepsFlag := by
  unfold ParseLeftHandSideExpression
  repeat' first
    | with_reducible first
      | apply Production.KeepsFlag.flag_bind | apply Production.KeepsFlag.flag_ite
      | apply peek_keepsFlag | apply ParseNewExpression_keepsFlag self h
      | apply ParseMemberExpression_keepsFlag self h
      | apply ParseLeftHandSideExpression_loop_keepsFlag self h
    | intro _
    | rfl
    | split

theorem ParsePostfixExpression_keepsFlag (self : Productions) (h : self.KeepFlag) :
    (ParsePostfixExpression self).KeepsFlag := by
  unfold ParsePostfixExpression
  repeat' first
    | with_reducible first
      | apply Production.KeepsFlag.flag_bind | apply Production.KeepsFlag.flag_pure
      | apply Production.KeepsFlag.flag_ite | apply Production.KeepsFlag.flag_read
      | apply peek_keepsFlag | apply Next_keepsFlag
      | apply location_beg_pos_keepsFlag | apply CheckStrictModeLValue_keepsFlag
      | apply ParseLeftHandSideExpression_keepsFlag self h
    | intro _
    | rfl
    | split

theorem ParseUnaryExpression_keepsFlag (self : Productions) (h : self.KeepFlag) :
    (ParseUnaryExpression self).KeepsFlag := by
  unfold ParseUnaryExpression
  repeat' first
    | with_reducible first
      | apply Production.KeepsFlag.flag_bind | apply Production.KeepsFlag.flag_pure
      | apply Production.KeepsFlag.flag_ite | apply Production.KeepsFlag.flag_read
      | apply peek_keepsFlag | apply Next_keepsFlag
      | apply location_beg_pos_keepsFlag | apply ReportMessageAndFail_keepsFlag
      | apply CheckStrictModeLValue_keepsFlag
      | apply ParsePostfixExpression_keepsFlag self h | apply h.ParseUnaryExpression
    | intro _
    | rfl
    | split

theorem ParseBinaryExpression_while_keepsFlag (self : Productions)
    (h : self.KeepFlag) (prec1 : Int) (accept_IN : Bool) (x : Expression) :
    (ParseBinaryExpression_while self prec1 accept_IN x).KeepsFlag := by
  unfold ParseBinaryExpression_while
  repeat' first
    | with_reducible first
      | apply Production.KeepsFlag.flag_bind | apply Production.KeepsFlag.flag_pure
      | apply Production.KeepsFlag.flag_ite | apply peek_keepsFlag
      | apply Next_keepsFlag | apply location_beg_pos_keepsFlag
      | apply h.ParseBinaryExpression | apply h.ParseBinaryExpression_while
    | intro _
    | rfl
    | split

theorem ParseBinaryExpression_for_keepsFlag (self : Productions)
    (h : self.KeepFlag) (prec prec1 : Int) (accept_IN : Bool) (x : Expression) :
    (ParseBinaryExpression_for self prec prec1 accept_IN x).KeepsFlag := by
  unfold ParseBinaryExpression_for
  repeat' first
    | with_reducible first
      | apply Production.KeepsFlag.flag_bind | apply Production.KeepsFlag.flag_pure
      | apply Production.KeepsFlag.flag_ite
      | apply ParseBinaryExpression_while_keepsFlag self h
      | apply h.ParseBinaryExpression_for
    | intro _
    | rfl
    | split

theorem ParseBinaryExpression_keepsFlag (self : Productions)
    (h : self.KeepFlag) (prec : Int) (accept_IN : Bool) :
    (ParseBinaryExpression self prec accept_IN).KeepsFlag := by
  unfold ParseBinaryExpression
  repeat' first
    | with_reducible first
      | apply Production.KeepsFlag.flag_bind | apply peek_keepsFlag
      | apply ParseUnaryExpression_keepsFlag self h
      | apply ParseBinaryExpression_for_keepsFlag self h
    | intro _
    | rfl
    | split

theorem ParseConditionalExpression_keepsFlag (self : Productions) (h : self.KeepFlag) (accept_IN : Bool) :
    (ParseConditionalExpression self accept_IN).KeepsFlag := by
  unfold ParseConditionalExpression
  repeat' first
    | with_reducible first
      | apply Production.KeepsFlag.flag_bind | apply Production.KeepsFlag.flag_pure
      | apply Production.KeepsFlag.flag_ite | apply peek_keepsFlag
      | apply peek_location_beg_pos_keepsFlag | apply Consume_keepsFlag
      | apply Expect_keepsFlag | apply ParseBinaryExpression_keepsFlag self h
      | apply h.ParseAssignmentExpression
    | intro _
    | rfl
    | split

theorem ParseAssignmentExpression_keepsFlag (self : Productions) (h : self.KeepFlag) (accept_IN : Bool) :
    (ParseAssignmentExpression self accept_IN).KeepsFlag := by
  unfold ParseAssignmentExpression
  repeat' first
    | with_reducible first
      | apply Production.KeepsFlag.flag_bind | apply Production.KeepsFlag.flag_pure
      | apply Production.KeepsFlag.flag_ite | apply Production.KeepsFlag.flag_read
      | apply Production.KeepsFlag.flag_modify | apply peek_keepsFlag
      | apply Next_keepsFlag | apply location_beg_pos_keepsFlag
      | apply CheckStrictModeLValue_keepsFlag
      | apply ParseConditionalExpression_keepsFlag self h | apply h.ParseAssignmentExpression
    | intro _
    | rfl
    | split

theorem ParseExpression_loop_keepsFlag (self : Productions)
    (h : self.KeepFlag) (accept_IN : Bool) (result : Expression) :
    (ParseExpression_loop self accept_IN result).KeepsFlag := by
  unfold ParseExpression_loop
  repeat' first
    | with_reducible first
      | apply Production.KeepsFlag.flag_bind | apply Production.KeepsFlag.flag_pure
      | apply Production.KeepsFlag.flag_ite | apply peek_keepsFlag
      | apply location_beg_pos_keepsFlag | apply Expect_keepsFlag
      | apply ParseAssignmentExpression_keepsFlag self h | apply h.ParseExpression_loop
    | intro _
    | rfl
    | split

theorem ParseExpression_keepsFlag (self : Productions) (h : self.KeepFlag) (accept_IN : Bool) :
    (ParseExpression self accept_IN).KeepsFlag := by
  unfold ParseExpression
  repeat' first
    | with_reducible first
      | apply Production.KeepsFlag.flag_bind
      | apply ParseAssignmentExpression_keepsFlag self h
      | apply ParseExpression_loop_keepsFlag self h
    | intro _
    | rfl
    | split

theorem ParseVariableDeclarations_loop_keepsFlag (self : Productions)
    (h : self.KeepFlag) (accept_IN : Bool) (mode : Variable.Mode) (is_const : Bool)
    (block : StatementList) (nvars : Int) :
    (ParseVariableDeclarations_loop self accept_IN mode is_const block nvars).KeepsFlag := by
  unfold ParseVariableDeclarations_loop
  repeat' first
    | with_reducible first
      | apply Production.KeepsFlag.flag_bind | apply Production.KeepsFlag.flag_pure
      | apply Production.KeepsFlag.flag_ite | apply Production.KeepsFlag.flag_read
      | apply peek_keepsFlag | apply location_beg_pos_keepsFlag
      | apply ReportMessageAndFail_keepsFlag | apply Declare_keepsFlag
      | apply Consume_keepsFlag | apply Expect_keepsFlag
      | apply ParseIdentifier_keepsFlag | apply h.ParseVariableDeclarations_loop
      | apply h.ParseAssignmentExpression
    | intro _
    | rfl
    | split

theorem ParseVariableDeclarations_keepsFlag (self : Productions) (h : self.KeepFlag) (accept_IN : Bool) :
    (ParseVariableDeclarations self accept_IN).KeepsFlag := by
  unfold ParseVariableDeclarations
  repeat' first
    | with_reducible first
      | apply Production.KeepsFlag.flag_bind | apply Production.KeepsFlag.flag_pure
      | apply Production.KeepsFlag.flag_ite | apply Production.KeepsFlag.flag_step
      | apply peek_keepsFlag | apply Consume_keepsFlag
      | apply ParseVariableDeclarations_loop_keepsFlag self h
    | intro _
    | rfl
    | split

theorem ParseVariableStatement_keepsFlag (self : Productions) (h : self.KeepFlag) :
    (ParseVariableStatement self).KeepsFlag := by
  unfold ParseVariableStatement
  repeat' first
    | with_reducible first
      | apply Production.KeepsFlag.flag_bind | apply Production.KeepsFlag.flag_pure
      | apply ExpectSemicolon_keepsFlag
      | apply ParseVariableDeclarations_keepsFlag self h
    | intro _
    | rfl
    | split

theorem ParseBlock_loop_keepsFlag (self : Productions)
    (h : self.KeepFlag) (statements : StatementList) :
    (ParseBlock_loop self statements).KeepsFlag := by
  unfold ParseBlock_loop
  repeat' first
    | with_reducible first
      | apply Production.KeepsFlag.flag_bind | apply Production.KeepsFlag.flag_pure
      | apply Production.KeepsFlag.flag_ite | apply peek_keepsFlag | apply h.ParseStatement
      | apply h.ParseBlock_loop
    | intro _
    | rfl
    | split

theorem ParseBlock_keepsFlag (self : Productions) (h : self.KeepFlag) (labels : Option Nat) :
    (ParseBlock self labels).KeepsFlag := by
  unfold ParseBlock
  repeat' first
    | with_reducible first
      | apply Production.KeepsFlag.flag_bind | apply Production.KeepsFlag.flag_pure
      | apply Production.KeepsFlag.flag_step | apply withTarget_keepsFlag
      | apply Expect_keepsFlag | apply ParseBlock_loop_keepsFlag self h
    | intro _
    | rfl
    | split

theorem ParseExpressionOrLabelledStatement_keepsFlag (self : Productions) (h : self.KeepFlag) (labels : Option Nat) :
    (ParseExpressionOrLabelledStatement self labels).KeepsFlag := by
  unfold ParseExpressionOrLabelledStatement
  repeat' first
    | with_reducible first
      | apply Production.KeepsFlag.flag_bind | apply Production.KeepsFlag.flag_pure
      | apply Production.KeepsFlag.flag_ite | apply Production.KeepsFlag.flag_read
      | apply Production.KeepsFlag.flag_step | apply Production.KeepsFlag.flag_modify
      | apply peek_keepsFlag | apply ReportMessageAndFail_keepsFlag
      | apply peek_any_identifier_keepsFlag | apply Expect_keepsFlag
      | apply ExpectSemicolon_keepsFlag | apply ParseExpression_keepsFlag self h
      | apply AddLabel_FLAG | apply h.ParseStatement
    | intro _
    | rfl
    | split

theorem ParseIfStatement_keepsFlag (self : Productions) (h : self.KeepFlag) (labels : Option Nat) :
    (ParseIfStatement self labels).KeepsFlag := by
  unfold ParseIfStatement
  repeat' first
    | with_reducible first
      | apply Production.KeepsFlag.flag_bind | apply Production.KeepsFlag.flag_pure
      | apply Production.KeepsFlag.flag_ite | apply peek_keepsFlag
      | apply Next_keepsFlag | apply Expect_keepsFlag
      | apply ParseExpression_keepsFlag self h | apply h.ParseStatement
    | intro _
    | rfl
    | split

theorem ParseJumpLabel_keepsFlag : ParseJumpLabel.KeepsFlag := by
  unfold ParseJumpLabel
  repeat' first
    | with_reducible first
      | apply Production.KeepsFlag.flag_bind | apply Production.KeepsFlag.flag_pure
      | apply Production.KeepsFlag.flag_ite | apply Production.KeepsFlag.flag_read
      | apply peek_keepsFlag | apply ParseIdentifier_keepsFlag
    | intro _
    | rfl
    | split

theorem ParseContinueStatement_keepsFlag : ParseContinueStatement.KeepsFlag := by
  unfold ParseContinueStatement
  repeat' first
    | with_reducible first
      | apply Production.KeepsFlag.flag_bind | apply Production.KeepsFlag.flag_pure
      | apply Production.KeepsFlag.flag_step | apply ReportIllegalJump_keepsFlag
      | apply Expect_keepsFlag | apply ExpectSemicolon_keepsFlag
      | apply ParseJumpLabel_keepsFlag | apply Parser.LookupContinueTarget_FLAG
    | intro _
    | rfl
    | split

theorem ParseBreakStatement_keepsFlag (labels : Option Nat) :
    (ParseBreakStatement labels).KeepsFlag := by
  unfold ParseBreakStatement
  repeat' first
    | with_reducible first
      | apply Production.KeepsFlag.flag_bind | apply Production.KeepsFlag.flag_pure
      | apply Production.KeepsFlag.flag_ite | apply Production.KeepsFlag.flag_read
      | apply Production.KeepsFlag.flag_step | apply ReportIllegalJump_keepsFlag
      | apply Expect_keepsFlag | apply ExpectSemicolon_keepsFlag
      | apply ParseJumpLabel_keepsFlag | apply Parser.LookupBreakTarget_FLAG
    | intro _
    | rfl
    | split

theorem ParseReturnStatement_keepsFlag (self : Productions) (h : self.KeepFlag) :
    (ParseReturnStatement self).KeepsFlag := by
  unfold ParseReturnStatement
  repeat' first
    | with_reducible first
      | apply Production.KeepsFlag.flag_bind | apply Production.KeepsFlag.flag_pure
      | apply Production.KeepsFlag.flag_ite | apply Production.KeepsFlag.flag_read
      | apply peek_keepsFlag | apply Expect_keepsFlag
      | apply ExpectSemicolon_keepsFlag | apply ParseExpression_keepsFlag self h
    | intro _
    | rfl
    | split

theorem WithHelper_keepsFlag (self : Productions)
    (h : self.KeepFlag) (obj : Expression) (labels : Option Nat) (is_catch_block : Bool) :
    (WithHelper self obj labels is_catch_block).KeepsFlag := by
  unfold WithHelper
  repeat' first
    | with_reducible first
      | apply Production.KeepsFlag.flag_bind | apply Production.KeepsFlag.flag_pure
      | apply Production.KeepsFlag.flag_step | apply Production.KeepsFlag.flag_modify
      | apply withCollector_keepsFlag | apply h.ParseStatement
    | intro _
    | rfl
    | split

theorem ParseWithStatement_keepsFlag (self : Productions) (h : self.KeepFlag) (labels : Option Nat) :
    (ParseWithStatement self labels).KeepsFlag := by
  unfold ParseWithStatement
  repeat' first
    | with_reducible first
      | apply Production.KeepsFlag.flag_bind | apply Production.KeepsFlag.flag_ite
      | apply Production.KeepsFlag.flag_read | apply ReportMessageAndFail_keepsFlag
      | apply Expect_keepsFlag | apply ParseExpression_keepsFlag self h
      | apply WithHelper_keepsFlag self h
    | intro _
    | rfl
    | split

theorem ParseCaseClause_loop_keepsFlag (self : Productions)
    (h : self.KeepFlag) (statements : StatementList) :
    (ParseCaseClause_loop self statements).KeepsFlag := by
  unfold ParseCaseClause_loop
  repeat' first
    | with_reducible first
      | apply Production.KeepsFlag.flag_bind | apply Production.KeepsFlag.flag_pure
      | apply Production.KeepsFlag.flag_ite | apply peek_keepsFlag | apply h.ParseStatement
      | apply h.ParseCaseClause_loop
    | intro _
    | rfl
    | split

theorem ParseCaseClause_keepsFlag (self : Productions) (h : self.KeepFlag) (default_seen : Bool) :
    (ParseCaseClause self default_seen).KeepsFlag := by
  unfold ParseCaseClause
  repeat' first
    | with_reducible first
      | apply Production.KeepsFlag.flag_bind | apply Production.KeepsFlag.flag_pure
      | apply Production.KeepsFlag.flag_ite | apply peek_keepsFlag
      | apply location_beg_pos_keepsFlag | apply ReportMessageAndFail_keepsFlag
      | apply Expect_keepsFlag | apply ParseExpression_keepsFlag self h
      | apply ParseCaseClause_loop_keepsFlag self h
    | intro _
    | rfl
    | split

theorem ParseSwitchStatement_loop_keepsFlag (self : Productions)
    (h : self.KeepFlag) (default_seen : Bool) (cases : CaseClauseList) :
    (ParseSwitchStatement_loop self default_seen cases).KeepsFlag := by
  unfold ParseSwitchStatement_loop
  repeat' first
    | with_reducible first
      | apply Production.KeepsFlag.flag_bind | apply Production.KeepsFlag.flag_pure
      | apply Production.KeepsFlag.flag_ite | apply peek_keepsFlag
      | apply ParseCaseClause_keepsFlag self h | apply h.ParseSwitchStatement_loop
    | intro _
    | rfl
    | split

theorem ParseSwitchStatement_keepsFlag (self : Productions) (h : self.KeepFlag) (labels : Option Nat) :
    (ParseSwitchStatement self labels).KeepsFlag := by
  unfold ParseSwitchStatement
  repeat' first
    | with_reducible first
      | apply Production.KeepsFlag.flag_bind | apply Production.KeepsFlag.flag_pure
      | apply Production.KeepsFlag.flag_step | apply withTarget_keepsFlag
      | apply Expect_keepsFlag | apply ParseExpression_keepsFlag self h
      | apply ParseSwitchStatement_loop_keepsFlag self h
    | intro _
    | rfl
    | split

theorem ParseThrowStatement_keepsFlag (self : Productions) (h : self.KeepFlag) :
    (ParseThrowStatement self).KeepsFlag := by
  unfold ParseThrowStatement
  repeat' first
    | with_reducible first
      | apply Production.KeepsFlag.flag_bind | apply Production.KeepsFlag.flag_pure
      | apply Production.KeepsFlag.flag_ite | apply Production.KeepsFlag.flag_read
      | apply location_beg_pos_keepsFlag | apply ReportMessageAndFail_keepsFlag
      | apply Expect_keepsFlag | apply ExpectSemicolon_keepsFlag
      | apply ParseExpression_keepsFlag self h
    | intro _
    | rfl
    | split

theorem ParseTryStatement_keepsFlag (self : Productions) (h : self.KeepFlag) :
    (ParseTryStatement self).KeepsFlag := by
  unfold ParseTryStatement
  repeat' first
    | with_reducible first
      | apply Production.KeepsFlag.flag_bind | apply Production.KeepsFlag.flag_pure
      | apply Production.KeepsFlag.flag_ite | apply Production.KeepsFlag.flag_read
      | apply Production.KeepsFlag.flag_step | apply Production.KeepsFlag.flag_fail
      | apply withCollector_keepsFlag | apply peek_keepsFlag
      | apply ReportMessageAndFail_keepsFlag | apply Consume_keepsFlag
      | apply Expect_keepsFlag | apply ParseIdentifier_keepsFlag
      | apply ParseBlock_keepsFlag self h | apply WithHelper_keepsFlag self h
    | intro _
    | rfl
    | split
    | (beta_reduce; split)

theorem ParseDoWhileStatement_keepsFlag (self : Productions) (h : self.KeepFlag) (labels : Option Nat) :
    (ParseDoWhileStatement self labels).KeepsFlag := by
  unfold ParseDoWhileStatement
  repeat' first
    | with_reducible first
      | apply Production.KeepsFlag.flag_bind | apply Production.KeepsFlag.flag_pure
      | apply Production.KeepsFlag.flag_ite | apply Production.KeepsFlag.flag_step
      | apply Production.KeepsFlag.flag_modify | apply withTarget_keepsFlag
      | apply peek_keepsFlag | apply location_beg_pos_keepsFlag
      | apply Consume_keepsFlag | apply Expect_keepsFlag
      | apply ParseExpression_keepsFlag self h | apply h.ParseStatement
    | intro _
    | rfl
    | split

theorem ParseWhileStatement_keepsFlag (self : Productions) (h : self.KeepFlag) (labels : Option Nat) :
    (ParseWhileStatement self labels).KeepsFlag := by
  unfold ParseWhileStatement
  repeat' first
    | with_reducible first
      | apply Production.KeepsFlag.flag_bind | apply Production.KeepsFlag.flag_pure
      | apply Production.KeepsFlag.flag_step | apply Production.KeepsFlag.flag_modify
      | apply withTarget_keepsFlag | apply Expect_keepsFlag
      | apply ParseExpression_keepsFlag self h | apply h.ParseStatement
    | intro _
    | rfl
    | split

theorem ParseForStatement_standard_keepsFlag (self : Productions)
    (h : self.KeepFlag) (labels : Option Nat) (init : StatementList) :
    (ParseForStatement_standard self labels init).KeepsFlag := by
  unfold ParseForStatement_standard
  repeat' first
    | with_reducible first
      | apply Production.KeepsFlag.flag_bind | apply Production.KeepsFlag.flag_pure
      | apply Production.KeepsFlag.flag_ite | apply Production.KeepsFlag.flag_step
      | apply withTarget_keepsFlag | apply peek_keepsFlag
      | apply Expect_keepsFlag | apply ParseExpression_keepsFlag self h
      | apply h.ParseStatement
    | intro _
    | rfl
    | split

theorem ParseForStatement_in_keepsFlag (self : Productions)
    (h : self.KeepFlag) (labels : Option Nat) (each : Expression) :
    (ParseForStatement_in self labels each).KeepsFlag := by
  unfold ParseForStatement_in
  repeat' first
    | with_reducible first
      | apply Production.KeepsFlag.flag_bind | apply Production.KeepsFlag.flag_pure
      | apply Production.KeepsFlag.flag_step | apply withTarget_keepsFlag
      | apply Expect_keepsFlag | apply ParseExpression_keepsFlag self h
      | apply h.ParseStatement
    | intro _
    | rfl
    | split

theorem ParseForStatement_keepsFlag (self : Productions) (h : self.KeepFlag) (labels : Option Nat) :
    (ParseForStatement self labels).KeepsFlag := by
  unfold ParseForStatement
  repeat' first
    | with_reducible first
      | apply Production.KeepsFlag.flag_bind | apply Production.KeepsFlag.flag_pure
      | apply Production.KeepsFlag.flag_ite | apply Production.KeepsFlag.flag_read
      | apply Production.KeepsFlag.flag_step | apply Production.KeepsFlag.flag_modify
      | apply peek_keepsFlag | apply Expect_keepsFlag
      | apply ParseExpression_keepsFlag self h
      | apply ParseVariableDeclarations_keepsFlag self h
      | apply ParseForStatement_standard_keepsFlag self h
      | apply ParseForStatement_in_keepsFlag self h
    | intro _
    | rfl
    | split

theorem ParseDebuggerStatement_keepsFlag : ParseDebuggerStatement.KeepsFlag := by
  unfold ParseDebuggerStatement
  repeat' first
    | with_reducible first
      | apply Production.KeepsFlag.flag_bind | apply Production.KeepsFlag.flag_pure
      | apply Expect_keepsFlag | apply ExpectSemicolon_keepsFlag
    | intro _
    | rfl
    | split

theorem ParseFunctionDeclaration_keepsFlag (self : Productions) (h : self.KeepFlag) :
    (ParseFunctionDeclaration self).KeepsFlag := by
  unfold ParseFunctionDeclaration
  repeat' first
    | with_reducible first
      | apply Production.KeepsFlag.flag_bind | apply Production.KeepsFlag.flag_pure
      | apply location_beg_pos_keepsFlag | apply Declare_keepsFlag
      | apply Expect_keepsFlag | apply ParseIdentifierOrReservedWord_keepsFlag
      | apply h.ParseFunctionLiteral
    | intro _
    | rfl
    | split

theorem ParseNativeDeclaration_keepsFlag : ParseNativeDeclaration.KeepsFlag := by
  unfold ParseNativeDeclaration
  repeat' first
    | with_reducible first
      | apply Production.KeepsFlag.flag_bind | apply ReportUnexpectedTokenAndFail_keepsFlag
    | intro _
    | rfl
    | split

theorem ParseStatement_keepsFlag (self : Productions) (h : self.KeepFlag) (labels : Option Nat) :
    (ParseStatement self labels).KeepsFlag := by
  unfold ParseStatement
  repeat' first
    | with_reducible first
      | apply Production.KeepsFlag.flag_bind | apply Production.KeepsFlag.flag_pure
      | apply Production.KeepsFlag.flag_step | apply withTarget_keepsFlag
      | apply peek_keepsFlag | apply Next_keepsFlag
      | apply ParseVariableStatement_keepsFlag self h
      | apply ParseBlock_keepsFlag self h
      | apply ParseExpressionOrLabelledStatement_keepsFlag self h
      | apply ParseIfStatement_keepsFlag self h
      | apply ParseContinueStatement_keepsFlag | apply ParseBreakStatement_keepsFlag
      | apply ParseReturnStatement_keepsFlag self h
      | apply ParseWithStatement_keepsFlag self h
      | apply ParseSwitchStatement_keepsFlag self h
      | apply ParseThrowStatement_keepsFlag self h
      | apply ParseTryStatement_keepsFlag self h
      | apply ParseDoWhileStatement_keepsFlag self h
      | apply ParseWhileStatement_keepsFlag self h
      | apply ParseForStatement_keepsFlag self h
      | apply ParseDebuggerStatement_keepsFlag
      | apply ParseFunctionDeclaration_keepsFlag self h
      | apply ParseNativeDeclaration_keepsFlag
    | intro _
    | rfl
    | split

theorem ParseFunctionLiteral_params_keepsFlag (self : Productions)
    (h : self.KeepFlag) (num_parameters : Int)
    (name_loc dupe_loc reserved_loc : Location) :
    (ParseFunctionLiteral_params self num_parameters name_loc dupe_loc reserved_loc).KeepsFlag := by
  unfold ParseFunctionLiteral_params
  repeat' first
    | with_reducible first
      | apply Production.KeepsFlag.flag_bind | apply Production.KeepsFlag.flag_pure
      | apply Production.KeepsFlag.flag_ite | apply Production.KeepsFlag.flag_read
      | apply Production.KeepsFlag.flag_modify | apply peek_keepsFlag
      | apply Expect_keepsFlag | apply ParseIdentifierOrReservedWord_keepsFlag
      | apply h.ParseFunctionLiteral_params
    | intro _
    | rfl
    | split
    | exact ⟨fun _ => rfl⟩

theorem ParseFunctionLiteral_lazy_keepsFlag (name : String) (function_block_pos : Int) (data : ScriptDataImpl) :
    (ParseFunctionLiteral_lazy name function_block_pos data).KeepsFlag := by
  unfold ParseFunctionLiteral_lazy
  repeat' first
    | with_reducible first
      | apply Production.KeepsFlag.flag_bind | apply Production.KeepsFlag.flag_pure
      | apply Production.KeepsFlag.flag_ite | apply Production.KeepsFlag.flag_modify
      | apply ReportInvalidPreparseData_keepsFlag | apply Expect_keepsFlag
    | intro _
    | rfl
    | split

theorem ParseSourceElements_loop_keepsFlag (self : Productions) (h : self.KeepFlag)
    (end_token : Token) (directive_prologue : Bool) (processor : StatementList) :
    (ParseSourceElements_loop self end_token directive_prologue processor).KeepsFlag := by
  unfold ParseSourceElements_loop
  repeat' first
    | with_reducible first
      | apply Production.KeepsFlag.flag_bind | apply Production.KeepsFlag.flag_pure
      | apply Production.KeepsFlag.flag_ite | apply Production.KeepsFlag.flag_read
      | apply Production.KeepsFlag.flag_modify
      | apply peek_keepsFlag | apply h.ParseStatement | apply h.ParseSourceElements_loop
    | intro _
    | rfl

theorem ParseSourceElements_keepsFlag (self : Productions) (h : self.KeepFlag)
    (processor : StatementList) (end_token : Token) :
    (ParseSourceElements self processor end_token).KeepsFlag :=
  withTargetScope_keepsFlag (ParseSourceElements_loop_keepsFlag self h end_token true processor)

theorem ParseFunctionLiteral_eager_keepsFlag (self : Productions) (h : self.KeepFlag)
    (body : StatementList) : (ParseFunctionLiteral_eager self body).KeepsFlag := by
  unfold ParseFunctionLiteral_eager
  repeat' first
    | with_reducible first
      | apply Production.KeepsFlag.flag_bind | apply Production.KeepsFlag.flag_pure
      | apply Production.KeepsFlag.flag_read | apply Expect_keepsFlag
      | apply ParseSourceElements_keepsFlag _ h
    | intro _

theorem ParseFunctionLiteral_keepsFlag (self : Productions) (h : self.KeepFlag)
    (var_name : Option String)
    (name_is_reserved : Bool) (function_token_position : Int) (type : FunctionLiteralType) :
    (ParseFunctionLiteral self var_name name_is_reserved function_token_position
      type).KeepsFlag := by
  unfold ParseFunctionLiteral
  repeat' first
    | with_reducible first
      | apply Production.KeepsFlag.flag_bind | apply Production.KeepsFlag.flag_pure
      | apply Production.KeepsFlag.flag_ite | apply Production.KeepsFlag.flag_read
      | apply Production.KeepsFlag.flag_step | apply Production.KeepsFlag.flag_modify
      | apply withLexicalScope_keepsFlag | apply withTemporaryScope_keepsFlag
      | apply peek_keepsFlag | apply Expect_keepsFlag | apply location_beg_pos_keepsFlag
      | apply ParseFunctionLiteral_params_keepsFlag _ h
      | apply ParseFunctionLiteral_lazy_keepsFlag
      | apply ParseFunctionLiteral_eager_keepsFlag _ h
      | apply ValidateStrictFunction_keepsFlag
    | intro _
    | rfl
    | split

/-- Every production of the table at every recursion budget leaves the flag
`FLAG_strict_mode` as it is. -/
theorem productions_keepFlag : ∀ fuel : Nat, (productions fuel).KeepFlag := by
  intro fuel
  induction fuel with
  | zero =>
    constructor <;> intros <;> exact Production.KeepsFlag.flag_fail
  | succ n ih =>
    constructor
    · exact ParseStatement_keepsFlag _ ih
    · exact ParseSourceElements_loop_keepsFlag _ ih
    · exact ParseBlock_loop_keepsFlag _ ih
    · exact ParseCaseClause_loop_keepsFlag _ ih
    · exact ParseSwitchStatement_loop_keepsFlag _ ih
    · exact ParseVariableDeclarations_loop_keepsFlag _ ih
    · exact ParseFunctionLiteral_params_keepsFlag _ ih
    · exact ParseFunctionLiteral_keepsFlag _ ih
    · exact ParseExpression_keepsFlag _ ih
    · exact ParseExpression_loop_keepsFlag _ ih
    · exact ParseAssignmentExpression_keepsFlag _ ih
    · exact ParseBinaryExpression_keepsFlag _ ih
    · exact ParseBinaryExpression_for_keepsFlag _ ih
    · exact ParseBinaryExpression_while_keepsFlag _ ih
    · exact ParseUnaryExpression_keepsFlag _ ih
    · exact ParseNewPrefix_keepsFlag _ ih
    · exact ParseLeftHandSideExpression_loop_keepsFlag _ ih
    · exact ParseMemberWithNewPrefixesExpression_loop_keepsFlag _ ih
    · exact fun a => ParseArguments_loop_keepsFlag _ ih a false
    · exact ParseArrayLiteral_loop_keepsFlag _ ih
    · exact ParseObjectLiteral_loop_keepsFlag _ ih

/-! ## Theorems: the directive prologue -/

theorem IsStringLiteralStatement_not_empty (stat : Statement)
    (h : IsStringLiteralStatement stat = true) : stat.IsEmpty = false := by
  cases stat <;> first | rfl | (simp [IsStringLiteralStatement] at h)

theorem Parser.EnableStrictMode_StrictMode (p : Parser) :
    p.EnableStrictMode.StrictMode = p.FLAG_strict_mode := rfl

/-- One pass of the loop of `ParseSourceElements` inside the directive
prologue, from a non-strict state with the flag set: the state at the end is
strict exactly when the first statement starts with a string token, is a
string literal statement, and either is the directive or the rest of the loop,
still inside the prologue, ends strict. -/
theorem ParseSourceElements_loop_step (self : Productions) (end_token : Token)
    (hk : self.KeepStrictMode) (hf : self.KeepFlag)
    (hloop : ∀ processor2,
      (self.ParseSourceElements_loop end_token false processor2).KeepsStrictMode)
    (processor : StatementList) (p : Parser)
    (hflag : p.FLAG_strict_mode = true) (hs : p.StrictMode = false) :
    (ParseSourceElements_loop self end_token true processor p).2.StrictMode = true
      ↔ p.peek ≠ end_token ∧ p.peek = Token.STRING
          ∧ ∃ stat q, self.ParseStatement none p = (some stat, q)
              ∧ IsStringLiteralStatement stat = true
              ∧ (IsUseStrictDirective stat p.scanner_.peek_location = true
                  ∨ (self.ParseSourceElements_loop end_token true (processor.Add stat)
                      q).2.StrictMode = true) := by
  have hq := (hk.ParseStatement none).keeps p
  have hqf := (hf.ParseStatement none).keeps p
  unfold ParseSourceElements_loop
  simp only [Production.bind_eq, Production.pure_eq, Production.seq_apply, peek,
    Production.read_apply]
  by_cases hend : p.peek = end_token
  · simp only [hend, ne_eq, not_true_eq_false, if_false, Production.ret_apply, false_and,
      iff_false]
    rw [hs]
    simp
  · rw [if_pos hend]
    simp only [Production.seq_apply, Production.read_apply]
    cases hps : self.ParseStatement none p with
    | mk r q =>
      rw [hps] at hq hqf
      simp only at hq hqf
      cases r with
      | none =>
        rw [hq, hs]
        simp
      | some stat =>
        simp only []
        by_cases hempty : stat.IsEmpty = true
        · rw [if_pos hempty, (hloop processor).keeps q, hq, hs]
          have : IsStringLiteralStatement stat = false := by
            cases h : IsStringLiteralStatement stat
            · rfl
            · rw [IsStringLiteralStatement_not_empty stat h] at hempty
              cases hempty
          simp [this]
        · rw [if_neg hempty]
          by_cases hstr : p.peek = Token.STRING
          · have hend2 : Token.STRING ≠ end_token := hstr ▸ hend
            simp only [hstr, decide_True, Bool.true_and, Bool.and_self, if_true]
            by_cases hlit : IsStringLiteralStatement stat = true
            · rw [if_pos hlit]
              simp only [Production.seq_apply, Production.read_apply, Production.modify_apply]
              rw [hq, hs]
              simp only [Bool.not_false, Bool.true_and]
              by_cases hdir : IsUseStrictDirective stat p.scanner_.peek_location = true
              · rw [if_pos hdir]
                simp only [Production.seq_apply, Production.modify_apply]
                rw [(hloop _).keeps, Parser.EnableStrictMode_StrictMode, hqf, hflag]
                simp only [true_iff]
                exact ⟨hend2, trivial, stat, q, rfl, hlit, Or.inl hdir⟩
              · rw [if_neg hdir]
                constructor
                · intro h
                  exact ⟨hend2, trivial, stat, q, rfl, hlit, Or.inr h⟩
                · rintro ⟨-, -, stat2, q2, heq, -, h⟩
                  simp only [Prod.mk.injEq, Option.some.injEq] at heq
                  obtain ⟨rfl, rfl⟩ := heq
                  rcases h with h | h
                  · exact absurd h hdir
                  · exact h
            · rw [if_neg hlit, (hloop _).keeps, hq, hs]
              simp only [Bool.false_eq_true, false_iff, not_and, not_exists]
              rintro - - stat2 q2 heq hlit2
              simp only [Prod.mk.injEq, Option.some.injEq] at heq
              obtain ⟨rfl, rfl⟩ := heq
              exact absurd hlit2 hlit
          · simp only [hstr, decide_False, Bool.and_false, Bool.false_eq_true, if_false]
            rw [(hloop _).keeps, hq, hs]
            simp
theorem InDirectivePrologue_zero (end_token : Token) (p : Parser) (stat : Statement)
    (loc : Location) : ¬ InDirectivePrologue end_token 0 p stat loc := by
  intro h
  cases h with
  | first _ _ q _ _ _ hps _ => cases hps

/-- The loop of `ParseSourceElements`, started inside the directive prologue
in a non-strict state with the flag set, ends strict exactly when a statement
of the leading run of string literal statements is the directive. -/
theorem ParseSourceElements_loop_use_strict (end_token : Token) :
    ∀ (n : Nat) (processor : StatementList) (p : Parser),
      p.FLAG_strict_mode = true → p.StrictMode = false →
      ((ParseSourceElements_loop (productions n) end_token true processor p).2.StrictMode = true
        ↔ ∃ stat loc, InDirectivePrologue end_token n p stat loc
            ∧ IsUseStrictDirective stat loc = true) := by
  intro n
  induction n with
  | zero =>
    intro processor p hflag hs
    rw [ParseSourceElements_loop_step (productions 0) end_token (productions_keepStrictMode 0)
      (productions_keepFlag 0) (fun _ => Production.KeepsStrictMode.fail) processor p hflag hs]
    constructor
    · rintro ⟨-, -, stat, q, hps, -⟩
      cases hps
    · rintro ⟨stat, loc, h, -⟩
      exact absurd h (InDirectivePrologue_zero end_token p stat loc)
  | succ m ih =>
    intro processor p hflag hs
    rw [ParseSourceElements_loop_step (productions (m + 1)) end_token
      (productions_keepStrictMode (m + 1)) (productions_keepFlag (m + 1))
      (fun proc => ParseSourceElements_loop_keepsStrictMode end_token m proc) processor p
      hflag hs]
    constructor
    · rintro ⟨hend, hstr, stat, q, hps, hlit, h⟩
      rcases h with h | h
      · exact ⟨stat, _, InDirectivePrologue.first (m + 1) p q stat hend hstr hps hlit, h⟩
      · have hq : q.StrictMode = false := by
          have := ((productions_keepStrictMode (m + 1)).ParseStatement none).keeps p
          rw [hps] at this
          exact this.trans hs
        have hqf : q.FLAG_strict_mode = true := by
          have := ((productions_keepFlag (m + 1)).ParseStatement none).keeps p
          rw [hps] at this
          exact this.trans hflag
        obtain ⟨stat2, loc2, h2, hd2⟩ := (ih (processor.Add stat) q hqf hq).mp h
        exact ⟨stat2, loc2, InDirectivePrologue.later m p q stat stat2 loc2 hend hstr hps hlit h2,
          hd2⟩
    · rintro ⟨stat, loc, h, hd⟩
      cases h with
      | first _ _ q _ hend hstr hps hlit =>
        exact ⟨hend, hstr, stat, q, hps, hlit, Or.inl hd⟩
      | later _ _ q s _ _ hend hstr hps hlit hrest =>
        have hq : q.StrictMode = false := by
          have := ((productions_keepStrictMode (m + 1)).ParseStatement none).keeps p
          rw [hps] at this
          exact this.trans hs
        have hqf : q.FLAG_strict_mode = true := by
          have := ((productions_keepFlag (m + 1)).ParseStatement none).keeps p
          rw [hps] at this
          exact this.trans hflag
        exact ⟨hend, hstr, s, q, hps, hlit,
          Or.inr ((ih (processor.Add s) q hqf hq).mpr ⟨stat, loc, hrest, hd⟩)⟩

theorem IsUseStrictDirective_iff (stat : Statement) (loc : Location)
    (h0 : 0 ≤ loc.beg_pos) (h1 : loc.beg_pos ≤ loc.end_pos) (h2 : loc.end_pos < 2 ^ 31) :
    IsUseStrictDirective stat loc = true
      ↔ stat = Statement.ExpressionStatement (Expression.Literal (Value.string "use strict"))
          ∧ loc.end_pos - loc.beg_pos = 12 := by
  have hw : wrapInt32 (loc.end_pos - loc.beg_pos) = loc.end_pos - loc.beg_pos :=
    wrapInt32_of_range _ (by omega) (by omega)
  have hlen : wrapInt32 ((use_strict.length : Int) + 2) = 12 := by decide
  constructor
  · intro h
    unfold IsUseStrictDirective at h
    split at h
    · rename_i directive
      rw [hw, hlen] at h
      simp only [Bool.and_eq_true, beq_iff_eq, decide_eq_true_eq] at h
      rw [h.1]
      exact ⟨rfl, h.2⟩
    · cases h
  · rintro ⟨rfl, h⟩
    unfold IsUseStrictDirective
    simp only [hw, hlen, h]
    rfl

/-- C21: with the flag `FLAG_strict_mode` set, `ParseSourceElements` leaves a
scope that was not strict in strict mode if and only if one statement of the
leading run of string literal statements (`InDirectivePrologue`: statements
that start with a string token and are expression statements made of a string
literal, before any other statement) is the directive; for a token range
inside the `int` range the directive is the literal with the value `use strict`
whose token is exactly 12 characters long.  This holds at every recursion
budget and whether the parse succeeds or fails.  Examples: `"use strict"` as
the first or as the second directive switches strict mode on; the same value
written with an escape (a token of 15 characters) or with a line continuation
(14 characters) does not, nor does the directive after `var x;`, after an empty
statement or after `("a");`, which is a string literal statement that starts
with a parenthesis. -/
theorem ParseSourceElements_use_strict_directive (fuel : Nat) (processor : StatementList)
    (end_token : Token) (p : Parser) (hflag : p.FLAG_strict_mode = true)
    (hs : p.StrictMode = false) :
    ((ParseSourceElements (productions fuel) processor end_token p).2.StrictMode = true
      ↔ ∃ stat loc,
          InDirectivePrologue end_token fuel { p with target_stack_ := [] } stat loc
            ∧ IsUseStrictDirective stat loc = true)
    ∧ (∀ (stat : Statement) (loc : Location), 0 ≤ loc.beg_pos → loc.beg_pos ≤ loc.end_pos →
        loc.end_pos < 2 ^ 31 →
        (IsUseStrictDirective stat loc = true
          ↔ stat = Statement.ExpressionStatement
                (Expression.Literal (Value.string "use strict"))
              ∧ loc.end_pos - loc.beg_pos = 12))
    ∧ (ParseSourceElements (productions 40) StatementList.nil Token.EOS
        (sloppyParser source_use_strict_var_eval)).2.StrictMode = true
    ∧ (ParseSourceElements (productions 40) StatementList.nil Token.EOS
        (sloppyParser source_a_use_strict)).2.StrictMode = true
    ∧ (ParseSourceElements (productions 40) StatementList.nil Token.EOS
        (sloppyParser source_use_strict_escaped)).2.StrictMode = false
    ∧ (ParseSourceElements (productions 40) StatementList.nil Token.EOS
        (sloppyParser source_use_strict_continued)).2.StrictMode = false
    ∧ (ParseSourceElements (productions 40) StatementList.nil Token.EOS
        (sloppyParser source_var_x_use_strict)).2.StrictMode = false
    ∧ (ParseSourceElements (productions 40) StatementList.nil Token.EOS
        (sloppyParser source_empty_use_strict)).2.StrictMode = false
    ∧ (ParseSourceElements (productions 40) StatementList.nil Token.EOS
        (sloppyParser source_parenthesized_use_strict)).2.StrictMode = false
    ∧ (ParseProgram 40 source_use_strict_var_eval 23 true false).1 = none
    ∧ (ParseProgram 40 source_use_strict_var_eval 23 true false).2.messages
        = [⟨"strict_var_name", [], ⟨18, 22⟩⟩]
    ∧ (ParseProgram 40 source_use_strict_escaped 26 true false).1
        = some (Expression.FunctionLiteral "" 0
            (StatementList.cons
              (Statement.ExpressionStatement (Expression.Literal (Value.string "use strict")))
              (StatementList.cons
                (Statement.Block 3 none true
                  (StatementList.cons
                    (Statement.ExpressionStatement
                      (Expression.CallRuntime "InitializeVarGlobal"
                        (ExpressionList.cons (Expression.Literal (Value.string "eval"))
                          ExpressionList.nil)))
                    StatementList.nil))
                StatementList.nil))
            0 0 0 0 26 false false false (-1)) := by
  refine ⟨?_, fun stat loc h0 h1 h2 => IsUseStrictDirective_iff stat loc h0 h1 h2,
    rfl, rfl, rfl, rfl, rfl, rfl, rfl, rfl, rfl, rfl⟩
  exact ParseSourceElements_loop_use_strict end_token fuel processor
    { p with target_stack_ := [] } hflag hs

/-- C21, on `"a"; "use strict";`: the scope ends strict, so the leading run
holds the directive. -/
theorem ParseSourceElements_use_strict_directive_witness :
    ∃ stat loc,
      InDirectivePrologue Token.EOS 40
          { sloppyParser source_a_use_strict with target_stack_ := [] } stat loc
        ∧ IsUseStrictDirective stat loc = true :=
  (ParseSourceElements_use_strict_directive 40 StatementList.nil Token.EOS
    (sloppyParser source_a_use_strict) rfl rfl).1.mp rfl

/-! ## Theorems: strict mode and function literals -/

namespace Production.StaysStrict

theorem strict_of_keeps {α : Type} {m : Production α} (h : m.KeepsStrictMode) :
    m.StaysStrict (fun _ => True) :=
  ⟨fun p hp => (h.keeps p).trans hp, fun _ _ _ _ => trivial⟩

theorem strict_bind {α β : Type} {m : Production α} {k : α → Production β} {good : β → Prop}
    (hm : m.StaysStrict (fun _ => True)) (hk : ∀ a, (k a).StaysStrict good) :
    (m >>= k).StaysStrict good := by
  constructor
  · intro p hp
    show (Production.seq m k p).2.StrictMode = true
    rw [Production.seq_apply]
    have h1 := hm.keeps p hp
    cases h : m p with
    | mk o q =>
      rw [h] at h1
      cases o with
      | none => exact h1
      | some a => exact (hk a).keeps q h1
  · intro p b hp hb
    change (Production.seq m k p).1 = some b at hb
    rw [Production.seq_apply] at hb
    have h1 := hm.keeps p hp
    cases h : m p with
    | mk o q =>
      rw [h] at h1 hb
      cases o with
      | none => cases hb
      | some a => exact (hk a).result q b h1 hb

theorem strict_ite {α : Type} (c : Prop) [Decidable c] {a b : Production α} {good : α → Prop}
    (ha : a.StaysStrict good) (hb : b.StaysStrict good) :
    (if c then a else b).StaysStrict good := by
  split_ifs
  · exact ha
  · exact hb

theorem strict_weaken {α : Type} {m : Production α} {good : α → Prop}
    (h : m.StaysStrict good) : m.StaysStrict (fun _ => True) :=
  ⟨h.keeps, fun _ _ _ _ => trivial⟩

end Production.StaysStrict

/-- One pass of the loop of `ParseSourceElements` from a strict state: the
directive is not looked at and the state stays strict. -/
theorem ParseSourceElements_loop_strict_step (self : Productions) (end_token : Token)
    (hk : self.KeepStrictMode)
    (hloop : ∀ directive_prologue2 processor2 q, q.StrictMode = true →
      (self.ParseSourceElements_loop end_token directive_prologue2 processor2 q).2.StrictMode
        = true)
    (directive_prologue : Bool) (processor : StatementList) (p : Parser)
    (hs : p.StrictMode = true) :
    (ParseSourceElements_loop self end_token directive_prologue processor p).2.StrictMode
      = true := by
  have hq := (hk.ParseStatement none).keeps p
  unfold ParseSourceElements_loop
  simp only [Production.bind_eq, Production.pure_eq, Production.seq_apply, peek,
    Production.read_apply]
  by_cases hend : p.peek = end_token
  · simp only [hend, ne_eq, not_true_eq_false, if_false, Production.ret_apply]
    exact hs
  · rw [if_pos hend]
    simp only [Production.seq_apply, Production.read_apply]
    cases hps : self.ParseStatement none p with
    | mk r q =>
      rw [hps] at hq
      simp only at hq
      have hqs : q.StrictMode = true := hq.trans hs
      cases r with
      | none => exact hqs
      | some stat =>
        simp only []
        split_ifs
        · exact hloop _ _ q hqs
        · simp only [Production.seq_apply, Production.read_apply, hqs, Bool.not_true,
            Bool.false_and, Bool.false_eq_true, if_false]
          exact hloop _ _ q hqs
        · exact hloop _ _ q hqs
        · exact hloop _ _ q hqs

theorem ParseSourceElements_loop_strict (end_token : Token) :
    ∀ (n : Nat) (directive_prologue : Bool) (processor : StatementList) (p : Parser),
      p.StrictMode = true →
      (ParseSourceElements_loop (productions n) end_token directive_prologue processor
        p).2.StrictMode = true := by
  intro n
  induction n with
  | zero =>
    intro dp processor p hs
    exact ParseSourceElements_loop_strict_step (productions 0) end_token
      (productions_keepStrictMode 0) (fun _ _ q hq => hq) dp processor p hs
  | succ m ih =>
    intro dp processor p hs
    exact ParseSourceElements_loop_strict_step (productions (m + 1)) end_token
      (productions_keepStrictMode (m + 1)) (fun dp2 proc2 q hq => ih dp2 proc2 q hq) dp
      processor p hs

theorem ParseSourceElements_staysStrict (fuel : Nat) (processor : StatementList)
    (end_token : Token) :
    (ParseSourceElements (productions fuel) processor end_token).StaysStrict (fun _ => True) :=
  ⟨fun p hp => ParseSourceElements_loop_strict end_token fuel true processor
      { p with target_stack_ := [] } hp,
   fun _ _ _ _ => trivial⟩
theorem withLexicalScope_staysStrict {α : Type} (scope : Scope) {body : Production α}
    {good : α → Prop} (h : body.StaysStrict good) :
    (withLexicalScope scope body).StaysStrict good :=
  ⟨fun p hp => h.keeps { p with
      top_scope_ := some scope,
      outer_scopes_ :=
        match p.top_scope_ with
        | some s => s :: p.outer_scopes_
        | none => p.outer_scopes_,
      with_nesting_level_ := 0 } hp,
   fun p a hp ha => h.result { p with
      top_scope_ := some scope,
      outer_scopes_ :=
        match p.top_scope_ with
        | some s => s :: p.outer_scopes_
        | none => p.outer_scopes_,
      with_nesting_level_ := 0 } a hp ha⟩

/-- The accumulator of a function starts with the strict flag of the
accumulator that is current where the function begins. -/
theorem withTemporaryScope_inherits {α : Type} (body : Production α) (p : Parser) :
    ∃ p0 : Parser, p0.StrictMode = p.StrictMode
      ∧ p0.temp_scope_ = some { strict_mode_ := p.StrictMode }
      ∧ p0.scanner_ = p.scanner_
      ∧ withTemporaryScope body p = ((body p0).1, { (body p0).2 with temp_scope_ := p.temp_scope_ }) := by
  refine ⟨{ p with temp_scope_ := some { strict_mode_ := p.StrictMode } }, rfl, rfl, rfl, ?_⟩
  unfold withTemporaryScope Parser.StrictMode Parser.temp_scope
  cases p.temp_scope_ <;> rfl

theorem withTemporaryScope_staysStrict {α : Type} {body : Production α}
    {good : α → Prop} (h : body.StaysStrict good) :
    (withTemporaryScope body).StaysStrict good := by
  constructor
  · intro p hp
    exact hp
  · intro p a hp ha
    obtain ⟨p0, h0, -, -, heq⟩ := withTemporaryScope_inherits body p
    rw [heq] at ha
    exact h.result p0 a (h0.trans hp) ha

theorem read_temp_scope_staysStrict {α : Type} (f : TemporaryScope → α) (good : α → Prop)
    (h : ∀ ts : TemporaryScope, ts.strict_mode_ = true → good (f ts)) :
    (Production.read Parser.temp_scope >>= fun ts => pure (f ts)).StaysStrict good :=
  ⟨fun _ hp => hp, fun p a hp ha => by
    cases ha
    exact h p.temp_scope hp⟩

theorem ParseFunctionLiteral_eager_staysStrict (fuel : Nat) (body : StatementList) :
    (ParseFunctionLiteral_eager (productions fuel) body).StaysStrict (fun _ => True) := by
  unfold ParseFunctionLiteral_eager
  repeat' first
    | with_reducible first
      | apply Production.StaysStrict.strict_bind
      | apply ParseSourceElements_staysStrict
      | apply Production.StaysStrict.strict_of_keeps
      | apply Production.KeepsStrictMode.pure
      | apply Production.KeepsStrictMode.read | apply Expect_keepsStrictMode
    | intro _

/-- A function literal that is parsed in strict code is strict to its end: the
state stays strict and the literal that is returned carries the strict
flag. -/
theorem ParseFunctionLiteral_staysStrict (fuel : Nat) (var_name : Option String)
    (name_is_reserved : Bool) (function_token_position : Int) (type : FunctionLiteralType) :
    (ParseFunctionLiteral (productions fuel) var_name name_is_reserved function_token_position
      type).StaysStrict (fun e => e.IsStrictFunction = true) := by
  unfold ParseFunctionLiteral
  repeat' first
    | with_reducible first
      | apply read_temp_scope_staysStrict
      | apply Production.StaysStrict.strict_bind
      | apply Production.StaysStrict.strict_ite
      | apply withLexicalScope_staysStrict | apply withTemporaryScope_staysStrict
      | apply ParseFunctionLiteral_eager_staysStrict
      | apply Production.StaysStrict.strict_of_keeps
      | apply Production.KeepsStrictMode.bind | apply Production.KeepsStrictMode.pure
      | apply Production.KeepsStrictMode.ite | apply Production.KeepsStrictMode.read
      | apply Production.KeepsStrictMode.step | apply Production.KeepsStrictMode.modify
      | apply peek_keepsStrictMode | apply Expect_keepsStrictMode
      | apply location_beg_pos_keepsStrictMode
      | apply ParseFunctionLiteral_params_keepsStrictMode _ (productions_keepStrictMode fuel)
      | apply ParseFunctionLiteral_lazy_keepsStrictMode
      | apply ValidateStrictFunction_keepsStrictMode
    | intro _
    | rfl
    | assumption
    | split
theorem ParseFunctionLiteral_temp_scope (self : Productions) (var_name : Option String)
    (name_is_reserved : Bool) (function_token_position : Int) (type : FunctionLiteralType)
    (p : Parser) :
    (ParseFunctionLiteral self var_name name_is_reserved function_token_position type
      p).2.temp_scope_ = p.temp_scope_ := rfl

/-- C22: strict mode is confined to the scope that declares it and the
functions nested in it.  After `ParseFunctionLiteral` returns, with a literal
or with a failure, the accumulator `temp_scope_` and with it the strict flag
are those of the enclosing scope again; the accumulator of the function
starts with the strict flag of the enclosing scope before the first token of
the function is read (`withTemporaryScope`), and a function literal that is
parsed in strict code is strict to its end: the literal returned carries the
strict flag.  Examples: `function f(){"use strict";} var eval;` parses, and in
`(function(){"use strict";}); var eval;` the function literal is strict while
the program is not; `"use strict"; function f(){ var eval; }` fails with
`strict_var_name`, `"use strict"; function f(eval){}` fails with
`strict_param_name`, and in `"use strict"; (function(){});` the function
literal is strict. -/
theorem ParseFunctionLiteral_strict_mode_confined (fuel : Nat) (var_name : Option String)
    (name_is_reserved : Bool) (function_token_position : Int) (type : FunctionLiteralType)
    (p : Parser) :
    (ParseFunctionLiteral (productions fuel) var_name name_is_reserved function_token_position
        type p).2.temp_scope_ = p.temp_scope_
    ∧ (ParseFunctionLiteral (productions fuel) var_name name_is_reserved
        function_token_position type p).2.StrictMode = p.StrictMode
    ∧ (p.StrictMode = true → ∀ e : Expression,
        (ParseFunctionLiteral (productions fuel) var_name name_is_reserved
          function_token_position type p).1 = some e → e.IsStrictFunction = true)
    ∧ (∀ (body : Production Expression) (q : Parser),
        ∃ q0 : Parser, q0.StrictMode = q.StrictMode
          ∧ q0.temp_scope_ = some { strict_mode_ := q.StrictMode }
          ∧ q0.scanner_ = q.scanner_
          ∧ withTemporaryScope body q
              = ((body q0).1, { (body q0).2 with temp_scope_ := q.temp_scope_ }))
    ∧ (ParseProgram 40 source_function_use_strict_var_eval 37 true false).1
        = some (Expression.FunctionLiteral "" 0
            (StatementList.cons
              (Statement.Block 7 none true
                (StatementList.cons
                  (Statement.ExpressionStatement
                    (Expression.CallRuntime "InitializeVarGlobal"
                      (ExpressionList.cons (Expression.Literal (Value.string "eval"))
                        ExpressionList.nil)))
                  StatementList.nil))
              StatementList.nil)
            0 0 0 0 37 false false false (-1))
    ∧ (ParseProgram 40 source_function_expression_use_strict 38 true false).1
        = some (Expression.FunctionLiteral "" 0
            (StatementList.cons
              (Statement.ExpressionStatement
                (Expression.FunctionLiteral "" 3
                  (StatementList.cons
                    (Statement.ExpressionStatement
                      (Expression.Literal (Value.string "use strict")))
                    StatementList.nil)
                  0 0 0 9 26 false false true 1))
              (StatementList.cons
                (Statement.Block 6 none true
                  (StatementList.cons
                    (Statement.ExpressionStatement
                      (Expression.CallRuntime "InitializeVarGlobal"
                        (ExpressionList.cons (Expression.Literal (Value.string "eval"))
                          ExpressionList.nil)))
                    StatementList.nil))
                StatementList.nil))
            0 0 0 0 38 false false false (-1))
    ∧ (ParseProgram 40 source_use_strict_function_var_eval 39 true false).1 = none
    ∧ (ParseProgram 40 source_use_strict_function_var_eval 39 true false).2.messages
        = [⟨"strict_var_name", [], ⟨32, 36⟩⟩]
    ∧ (ParseProgram 40 source_use_strict_function_param_eval 32 true false).1 = none
    ∧ (ParseProgram 40 source_use_strict_function_param_eval 32 true false).2.messages
        = [⟨"strict_param_name", [], ⟨25, 29⟩⟩]
    ∧ (ParseProgram 40 source_use_strict_function_expression 29 true false).1
        = some (Expression.FunctionLiteral "" 0
            (StatementList.cons
              (Statement.ExpressionStatement (Expression.Literal (Value.string "use strict")))
              (StatementList.cons
                (Statement.ExpressionStatement
                  (Expression.FunctionLiteral "" 3 StatementList.nil 0 0 0 23 27 false false
                    true 15))
                StatementList.nil))
            0 0 0 0 29 false false true (-1)) :=
  ⟨rfl,
   (ParseFunctionLiteral_keepsStrictMode (productions fuel) var_name name_is_reserved
      function_token_position type).keeps p,
   fun hp e he =>
     (ParseFunctionLiteral_staysStrict fuel var_name name_is_reserved function_token_position
       type).result p e hp he,
   fun body q => withTemporaryScope_inherits body q,
   rfl, rfl, rfl, rfl, rfl, rfl, rfl⟩
theorem Production.seq_congr {α β : Type} (m : Production α) {f g : α → Production β}
    (h : ∀ a, f a = g a) : m.seq f = m.seq g := by
  rw [funext h]

theorem Production.ite_congr_branches {α : Type} (c : Prop) [Decidable c]
    {a b a2 b2 : Production α} (ha : a = a2) (hb : b = b2) :
    (if c then a else b) = (if c then a2 else b2) := by
  rw [ha, hb]

theorem ParseFunctionLiteral_eq (self : Productions) (var_name : Option String)
    (name_is_reserved : Bool) (function_token_position : Int) (type : FunctionLiteralType) :
    ParseFunctionLiteral self var_name name_is_reserved function_token_position type
      = (do
          let scope ← Production.step (fun p =>
            (Scope.New p.top_scope_ ScopeType.FUNCTION_SCOPE p.inside_with p.next_id,
             { p with next_id := p.next_id + 3 }))
          withLexicalScope scope (withTemporaryScope (do
            let x ← ParseFunctionLiteral_header_and_body self (var_name.getD "")
              (if var_name.isSome = true
                  ∧ (type = FunctionLiteralType.EXPRESSION ∨ type = FunctionLiteralType.NESTED)
                then var_name.getD "" else "")
            ParseFunctionLiteral_validate (var_name.getD "")
              (if var_name.isSome = true
                  ∧ (type = FunctionLiteralType.EXPRESSION ∨ type = FunctionLiteralType.NESTED)
                then var_name.getD "" else "")
              name_is_reserved function_token_position scope x))) := by
  unfold ParseFunctionLiteral
  simp only [Production.bind_eq, Production.pure_eq]
  apply Production.seq_congr
  intro scope
  apply congrArg
  apply congrArg
  generalize (if var_name.isSome = true
      ∧ (type = FunctionLiteralType.EXPRESSION ∨ type = FunctionLiteralType.NESTED)
    then var_name.getD "" else "") = function_name
  generalize var_name.getD "" = name
  unfold ParseFunctionLiteral_header_and_body ParseFunctionLiteral_validate
  simp only [Production.bind_eq, Production.pure_eq, Production.seq_assoc, Production.ite_seq,
    Production.ret_seq]
  repeat' first
    | (apply Production.seq_congr; intro _)
    | apply Production.ite_congr_branches
  all_goals
    rename_i a _ _ b
    cases a <;> cases b <;> simp only [Production.seq_assoc, Production.ret_seq] <;>
      first | rfl | skip

/-! ## Theorems: the strict-mode validation of a function -/

theorem ParseFunctionLiteral_validate_eq (name function_name : String)
    (name_is_reserved : Bool) (function_token_position : Int) (scope : Scope)
    (start_pos num_parameters : Int) (name_loc dupe_loc reserved_loc : Location)
    (r : StatementList × Int × Int × Int) (q : Parser) :
    ParseFunctionLiteral_validate name function_name name_is_reserved function_token_position
        scope (start_pos, (num_parameters, name_loc, dupe_loc, reserved_loc), r) q
      = match ValidateStrictFunction name name_is_reserved function_token_position start_pos
            r.2.2.2 name_loc dupe_loc reserved_loc q with
        | (none, q1) => (none, q1)
        | (some _, q1) =>
          (some (Expression.FunctionLiteral name scope.id r.1 r.2.1 r.2.2.1 num_parameters
            start_pos r.2.2.2 (decide (function_name.length > 0))
            (decide (q1.temp_scope.loop_count_ > 0)) q1.StrictMode function_token_position),
           q1) := by
  unfold ParseFunctionLiteral_validate
  simp only [Production.bind_eq, Production.pure_eq, Production.seq_apply]
  cases ValidateStrictFunction name name_is_reserved function_token_position start_pos
      r.2.2.2 name_loc dupe_loc reserved_loc q with
  | mk o q1 =>
    cases o with
    | none => rfl
    | some u => rfl

/-- C23: the rules of strict mode about the header of a function are applied
after the body, on the state `q` that the header and the body leave
(`ParseFunctionLiteral_header_and_body`), with the strictness of that state.
When `q` is not strict the literal is returned; when it is strict the call
fails with `strict_function_name` for a name `eval` or `arguments`, else with
`strict_param_name` at the first parameter with such a name, else with
`strict_param_dupe` at the first repeated parameter, else with
`strict_reserved_word` for a reserved name, else with `strict_reserved_word`
at the first reserved parameter; `ParseFunctionLiteral` is this sequence run
inside the scopes of the function.  Examples: functions whose body starts with
the directive fail with the five reports, in that order of precedence, and the
same functions without the directive parse. -/
theorem ParseFunctionLiteral_validates_after_body (self : Productions)
    (name function_name : String) (name_is_reserved : Bool) (function_token_position : Int)
    (scope : Scope) (p0 q : Parser) (start_pos num_parameters : Int)
    (name_loc dupe_loc reserved_loc : Location) (r : StatementList × Int × Int × Int)
    (hbody : ParseFunctionLiteral_header_and_body self name function_name p0
      = (some (start_pos, (num_parameters, name_loc, dupe_loc, reserved_loc), r), q)) :
    ((ParseFunctionLiteral_header_and_body self name function_name >>= fun x =>
        ParseFunctionLiteral_validate name function_name name_is_reserved
          function_token_position scope x) p0
      = ParseFunctionLiteral_validate name function_name name_is_reserved
          function_token_position scope
          (start_pos, (num_parameters, name_loc, dupe_loc, reserved_loc), r) q)
    ∧ (q.StrictMode = false →
        ParseFunctionLiteral_validate name function_name name_is_reserved
            function_token_position scope
            (start_pos, (num_parameters, name_loc, dupe_loc, reserved_loc), r) q
          = (some (Expression.FunctionLiteral name scope.id r.1 r.2.1 r.2.2.1 num_parameters
              start_pos r.2.2.2 (decide (function_name.length > 0))
              (decide (q.temp_scope.loop_count_ > 0)) false function_token_position), q))
    ∧ (q.StrictMode = true →
        (IsEvalOrArguments name = true →
          ParseFunctionLiteral_validate name function_name name_is_reserved
              function_token_position scope
              (start_pos, (num_parameters, name_loc, dupe_loc, reserved_loc), r) q
            = (none, q.ReportMessageAt (strictNameLocation function_token_position start_pos)
                "strict_function_name" []))
        ∧ (IsEvalOrArguments name = false → name_loc.IsValid = true →
          ParseFunctionLiteral_validate name function_name name_is_reserved
              function_token_position scope
              (start_pos, (num_parameters, name_loc, dupe_loc, reserved_loc), r) q
            = (none, q.ReportMessageAt name_loc "strict_param_name" []))
        ∧ (IsEvalOrArguments name = false → name_loc.IsValid = false →
          dupe_loc.IsValid = true →
          ParseFunctionLiteral_validate name function_name name_is_reserved
              function_token_position scope
              (start_pos, (num_parameters, name_loc, dupe_loc, reserved_loc), r) q
            = (none, q.ReportMessageAt dupe_loc "strict_param_dupe" []))
        ∧ (IsEvalOrArguments name = false → name_loc.IsValid = false →
          dupe_loc.IsValid = false → name_is_reserved = true →
          ParseFunctionLiteral_validate name function_name name_is_reserved
              function_token_position scope
              (start_pos, (num_parameters, name_loc, dupe_loc, reserved_loc), r) q
            = (none, q.ReportMessageAt (strictNameLocation function_token_position start_pos)
                "strict_reserved_word" []))
        ∧ (IsEvalOrArguments name = false → name_loc.IsValid = false →
          dupe_loc.IsValid = false → name_is_reserved = false →
          reserved_loc.IsValid = true →
          ParseFunctionLiteral_validate name function_name name_is_reserved
              function_token_position scope
              (start_pos, (num_parameters, name_loc, dupe_loc, reserved_loc), r) q
            = (none, q.ReportMessageAt reserved_loc "strict_reserved_word" []))
        ∧ (IsEvalOrArguments name = false → name_loc.IsValid = false →
          dupe_loc.IsValid = false → name_is_reserved = false →
          reserved_loc.IsValid = false → (CheckOctalLiteral start_pos r.2.2.2 q).1 = some () →
          ParseFunctionLiteral_validate name function_name name_is_reserved
              function_token_position scope
              (start_pos, (num_parameters, name_loc, dupe_loc, reserved_loc), r) q
            = (some (Expression.FunctionLiteral name scope.id r.1 r.2.1 r.2.2.1 num_parameters
                start_pos r.2.2.2 (decide (function_name.length > 0))
                (decide (q.temp_scope.loop_count_ > 0)) true function_token_position), q)))
    ∧ (∀ (var_name : Option String) (type : FunctionLiteralType),
        ParseFunctionLiteral self var_name name_is_reserved function_token_position type
          = (do
              let scope ← Production.step (fun p =>
                (Scope.New p.top_scope_ ScopeType.FUNCTION_SCOPE p.inside_with p.next_id,
                 { p with next_id := p.next_id + 3 }))
              withLexicalScope scope (withTemporaryScope (do
                let x ← ParseFunctionLiteral_header_and_body self (var_name.getD "")
                  (if var_name.isSome = true
                      ∧ (type = FunctionLiteralType.EXPRESSION
                          ∨ type = FunctionLiteralType.NESTED)
                    then var_name.getD "" else "")
                ParseFunctionLiteral_validate (var_name.getD "")
                  (if var_name.isSome = true
                      ∧ (type = FunctionLiteralType.EXPRESSION
                          ∨ type = FunctionLiteralType.NESTED)
                    then var_name.getD "" else "")
                  name_is_reserved function_token_position scope x))))
    ∧ (ParseProgram 40 source_strict_function_eval 30 true false).2.messages
        = [⟨"strict_function_name", [], ⟨0, 13⟩⟩]
    ∧ (ParseProgram 40 source_strict_param_eval 31 true false).2.messages
        = [⟨"strict_param_name", [], ⟨11, 15⟩⟩]
    ∧ (ParseProgram 40 source_strict_param_dupe 30 true false).2.messages
        = [⟨"strict_param_dupe", [], ⟨13, 14⟩⟩]
    ∧ (ParseProgram 40 source_strict_function_reserved 32 true false).2.messages
        = [⟨"strict_reserved_word", [], ⟨0, 15⟩⟩]
    ∧ (ParseProgram 40 source_strict_param_reserved 33 true false).2.messages
        = [⟨"strict_reserved_word", [], ⟨11, 17⟩⟩]
    ∧ (ParseProgram 40 source_strict_all_violations 46 true false).2.messages
        = [⟨"strict_function_name", [], ⟨0, 13⟩⟩]
    ∧ (ParseProgram 40 source_strict_reserved_eval_dupe 48 true false).2.messages
        = [⟨"strict_param_name", [], ⟨16, 20⟩⟩]
    ∧ (ParseProgram 40 source_strict_reserved_dupe 42 true false).2.messages
        = [⟨"strict_param_dupe", [], ⟨18, 19⟩⟩]
    ∧ (ParseProgram 40 source_strict_reserved_both 38 true false).2.messages
        = [⟨"strict_reserved_word", [], ⟨0, 15⟩⟩]
    ∧ ((ParseProgram 40 source_strict_function_eval 30 true false).1 = none
        ∧ (ParseProgram 40 source_strict_param_eval 31 true false).1 = none
        ∧ (ParseProgram 40 source_strict_param_dupe 30 true false).1 = none
        ∧ (ParseProgram 40 source_strict_function_reserved 32 true false).1 = none
        ∧ (ParseProgram 40 source_strict_param_reserved 33 true false).1 = none
        ∧ (ParseProgram 40 source_strict_all_violations 46 true false).1 = none)
    ∧ (ParseProgram 40 source_sloppy_function_eval 17 true false).1
        = some (Expression.FunctionLiteral "" 0 StatementList.nil 0 0 0 0 17 false false false
            (-1))
    ∧ (ParseProgram 40 source_function_param_eval 18 true false).1
        = some (Expression.FunctionLiteral "" 0 StatementList.nil 0 0 0 0 18 false false false
            (-1))
    ∧ (ParseProgram 40 source_sloppy_param_dupe 17 true false).1
        = some (Expression.FunctionLiteral "" 0 StatementList.nil 0 0 0 0 17 false false false
            (-1))
    ∧ (ParseProgram 40 source_sloppy_function_reserved 19 true false).1
        = some (Expression.FunctionLiteral "" 0 StatementList.nil 0 0 0 0 19 false false false
            (-1))
    ∧ (ParseProgram 40 source_sloppy_param_reserved 20 true false).1
        = some (Expression.FunctionLiteral "" 0 StatementList.nil 0 0 0 0 20 false false false
            (-1))
    ∧ (ParseProgram 40 source_sloppy_all_violations 33 true false).1
        = some (Expression.FunctionLiteral "" 0 StatementList.nil 0 0 0 0 33 false false false
            (-1)) := by
  have hv := ParseFunctionLiteral_validate_eq name function_name name_is_reserved
    function_token_position scope start_pos num_parameters name_loc dupe_loc reserved_loc r q
  refine ⟨?_, ?_, ?_, fun var_name type => ParseFunctionLiteral_eq self var_name
      name_is_reserved function_token_position type,
    rfl, rfl, rfl, rfl, rfl, rfl, rfl, rfl, rfl, ⟨rfl, rfl, rfl, rfl, rfl, rfl⟩,
    rfl, rfl, rfl, rfl, rfl, rfl⟩
  · show Production.seq _ _ p0 = _
    rw [Production.seq_apply, hbody]
  · intro hs
    rw [hv]
    unfold ValidateStrictFunction
    simp only [hs, Bool.false_eq_true, if_false]
  · intro hs
    refine ⟨?_, ?_, ?_, ?_, ?_, ?_⟩
    · intro h1
      rw [hv]
      unfold ValidateStrictFunction strictNameLocation
      simp only [hs, h1, if_true]
    · intro h1 h2
      rw [hv]
      unfold ValidateStrictFunction
      simp only [hs, h1, h2, if_true, Bool.false_eq_true, if_false]
    · intro h1 h2 h3
      rw [hv]
      unfold ValidateStrictFunction
      simp only [hs, h1, h2, h3, if_true, Bool.false_eq_true, if_false]
    · intro h1 h2 h3 h4
      rw [hv]
      unfold ValidateStrictFunction strictNameLocation
      simp only [hs, h1, h2, h3, h4, if_true, Bool.false_eq_true, if_false]
    · intro h1 h2 h3 h4 h5
      rw [hv]
      unfold ValidateStrictFunction
      simp only [hs, h1, h2, h3, h4, h5, if_true, Bool.false_eq_true, if_false]
    · intro h1 h2 h3 h4 h5 h6
      rw [hv]
      unfold ValidateStrictFunction
      simp only [hs, h1, h2, h3, h4, h5, if_true, Bool.false_eq_true, if_false]
      have hq : (CheckOctalLiteral start_pos r.2.2.2 q).2 = q := by
        unfold CheckOctalLiteral at h6 ⊢
        simp only at h6 ⊢
        split_ifs at h6 ⊢
        all_goals first | rfl | cases h6
      cases hc : CheckOctalLiteral start_pos r.2.2.2 q with
      | mk o q1 =>
        rw [hc] at h6 hq
        simp only at h6 hq
        subst h6 hq
        simp only [hs]

/-- C23, behind the name in `function f(eval){"use strict";}`: the header and
the body are parsed without a report, the state they leave is strict, and the
validation fails with `strict_param_name` at the parameter. -/
theorem ParseFunctionLiteral_validates_after_body_witness :
    (ParseFunctionLiteral_header_and_body (productions 20) "f" ""
        (sloppyParser source_header_param_eval)).2.messages = []
    ∧ ((ParseFunctionLiteral_header_and_body (productions 20) "f" "" >>= fun x =>
        ParseFunctionLiteral_validate "f" "" false 0
          (Scope.New none ScopeType.FUNCTION_SCOPE false 0) x)
        (sloppyParser source_header_param_eval)).2.messages
      = [⟨"strict_param_name", [], ⟨11, 15⟩⟩] := by
  have h := ParseFunctionLiteral_validates_after_body (productions 20) "f" "" false 0
    (Scope.New none ScopeType.FUNCTION_SCOPE false 0)
    (sloppyParser source_header_param_eval)
    (ParseFunctionLiteral_header_and_body (productions 20) "f" ""
      (sloppyParser source_header_param_eval)).2
    10 1 ⟨11, 15⟩ Location.NoLocation Location.NoLocation
    (StatementList.cons
      (Statement.ExpressionStatement (Expression.Literal (Value.string "use strict")))
      StatementList.nil, 0, 0, 31) rfl
  refine ⟨rfl, ?_⟩
  rw [h.1, (h.2.2.1 rfl).2.1 rfl rfl]
  rfl

/-! ## Theorems: function entries and the end of the function table -/

/-- A valid entry that `GetFunctionEntry` returns lies inside the store: this
is the only bound that the function tests. -/
theorem GetFunctionEntry_inside_store (d : ScriptDataImpl) (start : Int)
    (hsmall : (d.function_index_ : Int) + FunctionEntry.kSize < 2 ^ 31)
    (hvalid : (d.GetFunctionEntry start).1.is_valid = true) :
    d.function_index_ + FunctionEntry.kSize ≤ d.store_.length
      ∧ (d.GetFunctionEntry start).1.backing_
          = (d.store_.drop d.function_index_).take FunctionEntry.kSize
      ∧ (d.GetFunctionEntry start).2.function_index_
          = d.function_index_ + FunctionEntry.kSize := by
  unfold ScriptDataImpl.GetFunctionEntry at hvalid ⊢
  split_ifs at hvalid ⊢ with h
  · refine ⟨?_, rfl, rfl⟩
    have h1 := h.1
    rw [wrapInt32_of_range _ (by
      have : (0 : Int) ≤ (d.function_index_ : Int) := Int.natCast_nonneg _
      have : (0 : Int) ≤ (FunctionEntry.kSize : Int) := Int.natCast_nonneg _
      omega) hsmall] at h1
    unfold ScriptDataImpl.length at h1
    exact_mod_cast h1
  · simp [FunctionEntry.invalid, FunctionEntry.is_valid] at hvalid

/-- C39 (defect of the code): `GetFunctionEntry` tests the read index against
the length of the store only, not against the end of the function table.  The
store `symbolWordsStore` passes `SanityCheck`; after `Initialize` the first
call returns the one entry of the table and leaves the read index at the end
of the table (header size plus declared table size, 10); the second call, for
the start 20, returns a valid entry made of the words 10 to 13 of the store,
which belong to the symbol table. -/
theorem GetFunctionEntry_returns_symbol_words :
    symbolWordsStore.SanityCheck = some true
    ∧ (PreparseDataConstants.kHeaderSize : Int) + symbolWordsStore.functions_size = 10
    ∧ (symbolWordsStore.Initialize.GetFunctionEntry 10).1 = ⟨[10, 20, 0, 0]⟩
    ∧ (symbolWordsStore.Initialize.GetFunctionEntry 10).2.function_index_ = 10
    ∧ ((symbolWordsStore.Initialize.GetFunctionEntry 10).2.GetFunctionEntry 20).1.is_valid
        = true
    ∧ ((symbolWordsStore.Initialize.GetFunctionEntry 10).2.GetFunctionEntry 20).1
        = ⟨(symbolWordsStore.store_.drop 10).take 4⟩
    ∧ ((symbolWordsStore.Initialize.GetFunctionEntry 10).2.GetFunctionEntry 20).1
        = ⟨[20, 30, 2, 3]⟩
    ∧ ((symbolWordsStore.Initialize.GetFunctionEntry 10).2.GetFunctionEntry 20).2.function_index_
        = 14
    ∧ ∀ (d : ScriptDataImpl) (start : Int),
        (d.function_index_ : Int) + FunctionEntry.kSize < 2 ^ 31 →
        (d.GetFunctionEntry start).1.is_valid = true →
        d.function_index_ + FunctionEntry.kSize ≤ d.store_.length :=
  ⟨by decide, by decide, by decide, by decide, by decide, by decide, by decide, by decide,
   fun d start h1 h2 => (GetFunctionEntry_inside_store d start h1 h2).1⟩

/-! ## Theorems: the target stack of a function body -/

/-- C37: `ParseSourceElements` runs its loop on an empty target stack and puts
the stack of its caller back when it returns, with a result or with a failure:
the target stack after the call is the one before it, and the result, the
messages and the rest of the state do not depend on the frames of the caller.
On an empty stack a `break` or `continue` without label fails with
`illegal_break` or `illegal_continue`, and one with a label fails with
`unknown_label`.  Examples: `for(;;){ function f(){ break; } }` fails with
`illegal_break`, `L: for(;;){ function f(){ break L; } }` with
`unknown_label`, `for(;;){ function f(){ continue; } }` with
`illegal_continue`, and a loop inside the nested function is a target again
(`for(;;){ function f(){ for(;;){ break; } } }` parses). -/
theorem ParseSourceElements_own_target_stack (self : Productions)
    (processor : StatementList) (end_token : Token) (p : Parser) (stack : List Target) :
    (ParseSourceElements self processor end_token p).2.target_stack_ = p.target_stack_
    ∧ ParseSourceElements self processor end_token p
        = ((ParseSourceElements_loop self end_token true processor
              { p with target_stack_ := [] }).1,
           { (ParseSourceElements_loop self end_token true processor
              { p with target_stack_ := [] }).2 with target_stack_ := p.target_stack_ })
    ∧ (ParseSourceElements self processor end_token { p with target_stack_ := stack }).1
        = (ParseSourceElements self processor end_token p).1
    ∧ (ParseSourceElements self processor end_token { p with target_stack_ := stack }).2
        = { (ParseSourceElements self processor end_token p).2 with target_stack_ := stack }
    ∧ (∀ (labels : Option Nat) (q : Parser) (b : TokenDesc) (rest : List TokenDesc),
        q.target_stack_ = [] → q.stack_overflow_ = false → q.scanner_.source = b :: rest →
        b.token = Token.BREAK →
        (headNewline rest = true ∨ headToken rest = Token.SEMICOLON
          ∨ headToken rest = Token.RBRACE ∨ headToken rest = Token.EOS) →
        ParseBreakStatement labels q
          = (none, q.Next.2.ReportMessageAt b.location "illegal_break" []))
    ∧ (∀ (labels : Option Nat) (q : Parser) (b d : TokenDesc) (rest : List TokenDesc),
        q.target_stack_ = [] → q.stack_overflow_ = false → q.pre_data_ = none →
        q.scanner_.source = b :: d :: rest → b.token = Token.BREAK →
        d.token = Token.IDENTIFIER → d.newline_before = false →
        q.ContainsLabel labels d.literal = false →
        ParseBreakStatement labels q
          = (none, q.Next.2.Next.2.ReportMessageAt d.location "unknown_label" [d.literal]))
    ∧ (∀ (q : Parser) (c : TokenDesc) (rest : List TokenDesc),
        q.target_stack_ = [] → q.stack_overflow_ = false → q.scanner_.source = c :: rest →
        c.token = Token.CONTINUE →
        (headNewline rest = true ∨ headToken rest = Token.SEMICOLON
          ∨ headToken rest = Token.RBRACE ∨ headToken rest = Token.EOS) →
        ParseContinueStatement q
          = (none, q.Next.2.ReportMessageAt c.location "illegal_continue" []))
    ∧ (ParseProgram 40 source_for_function_break 33 true false).1 = none
    ∧ (ParseProgram 40 source_for_function_break 33 true false).2.messages
        = [⟨"illegal_break", [], ⟨23, 28⟩⟩]
    ∧ (ParseProgram 40 source_label_for_function_break 38 true false).1 = none
    ∧ (ParseProgram 40 source_label_for_function_break 38 true false).2.messages
        = [⟨"unknown_label", ["L"], ⟨32, 33⟩⟩]
    ∧ (ParseProgram 40 source_for_function_continue 36 true false).1 = none
    ∧ (ParseProgram 40 source_for_function_continue 36 true false).2.messages
        = [⟨"illegal_continue", [], ⟨23, 31⟩⟩]
    ∧ (ParseProgram 40 source_for_function_for_break 44 true false).1
        = some (Expression.FunctionLiteral "" 0
            (StatementList.cons
              (Statement.ForStatement 3 none StatementList.nil ExpressionList.nil
                StatementList.nil (Statement.Block 4 none false StatementList.nil))
              StatementList.nil)
            0 0 0 0 44 false true false (-1)) := by
  refine ⟨rfl, rfl, rfl, rfl, ?_, ?_, ?_, rfl, rfl, rfl, rfl, rfl, rfl, rfl⟩
  · intro labels q b rest hst hso hsrc hb hend
    refine ParseBreakStatement_illegal_break labels q b rest hso hsrc hb hend ?_
    unfold Parser.nearestBreakTarget
    rw [hst]
    rfl
  · intro labels q b d rest hst hso hpre hsrc hb hd hnl hown
    refine ParseBreakStatement_unknown_label labels q b d rest hso hpre hsrc hb hd hnl hown ?_
    unfold Parser.nearestBreakTarget
    rw [hst]
    rfl
  · intro q c rest hst hso hsrc hc hend
    refine ParseContinueStatement_illegal_continue q c rest hso hsrc hc hend ?_
    unfold Parser.nearestContinueTarget
    rw [hst]
    rfl

/-! ## Theorems: the interval quantifier -/

namespace RegExpParser

theorem Reads_head_not_digit {p : RegExpParser} {pre rest : List Nat} (h : p.Reads pre rest)
    (hrest : ∀ c ∈ rest.head?, IsDecimalDigit c = false) :
    IsDecimalDigit p.current_ = false := by
  rw [h.2.1]
  cases rest with
  | nil => decide
  | cons c rest2 => exact hrest c rfl

theorem SkipDecimalDigits_succ (n : Nat) (p : RegExpParser) :
    SkipDecimalDigits (n + 1) p
      = if IsDecimalDigit p.Advance.current_ = true then SkipDecimalDigits n p.Advance
        else some ((), p.Advance) := by
  simp only [SkipDecimalDigits, current, RegExpM.bind_eq_seq, RegExpM.pure_eq_ret]
  rw [RegExpM.seq_run, RegExpM.modify_run]
  simp only
  rw [RegExpM.seq_run, RegExpM.read_run]
  simp only
  split_ifs <;> rfl

/-- The loop `do Advance(); while (IsDecimalDigit(current()))` leaves the
reader behind the run of digits. -/
theorem SkipDecimalDigits_spec :
    ∀ (fuel : Nat) (digits pre rest : List Nat) (c : Nat) (p : RegExpParser),
      p.Reads pre (c :: (digits ++ rest)) → (∀ d ∈ digits, IsDecimalDigit d = true) →
      (∀ d ∈ rest.head?, IsDecimalDigit d = false) → digits.length < fuel →
      ∃ q : RegExpParser, SkipDecimalDigits fuel p = some ((), q)
        ∧ q.Reads (pre ++ c :: digits) rest := by
  intro fuel
  induction fuel with
  | zero => intro digits pre rest c p _ _ _ hf; omega
  | succ n ih =>
    intro digits pre rest c p hr hd hrest hf
    have ha := Reads_advance hr
    rw [SkipDecimalDigits_succ]
    cases digits with
    | nil =>
      rw [if_neg (by rw [Reads_head_not_digit ha hrest]; simp)]
      exact ⟨p.Advance, rfl, by simpa using ha⟩
    | cons d ds =>
      have hd1 : IsDecimalDigit p.Advance.current_ = true := by
        rw [ha.2.1]
        exact hd d (List.mem_cons_self _ _)
      rw [if_pos hd1]
      obtain ⟨q, hq, hqr⟩ := ih ds (pre ++ [c]) rest d p.Advance ha
        (fun x hx => hd x (List.mem_cons_of_mem _ hx)) hrest
        (by simp only [List.length_cons] at hf; omega)
      exact ⟨q, hq, by simpa using hqr⟩

theorem ParseDecimalDigits_succ (n : Nat) (value : Int) (p : RegExpParser) :
    ParseDecimalDigits (n + 1) value p
      = if IsDecimalDigit p.current_ = true then
          if value > (RegExpTree.kInfinity - ((p.current_ : Int) - '0'.toNat)) / 10 then
            (SkipDecimalDigits n p).map (fun r => (RegExpTree.kInfinity, r.2))
          else ParseDecimalDigits n (10 * value + ((p.current_ : Int) - '0'.toNat)) p.Advance
        else some (value, p) := by
  simp only [ParseDecimalDigits, current, RegExpM.bind_eq_seq, RegExpM.pure_eq_ret]
  rw [RegExpM.seq_run, RegExpM.read_run]
  simp only
  by_cases hd : IsDecimalDigit p.current_ = true
  · rw [if_pos hd, if_pos hd]
    by_cases ho : value > (RegExpTree.kInfinity - ((p.current_ : Int) - '0'.toNat)) / 10
    · rw [if_pos ho, if_pos ho, RegExpM.seq_run]
      cases SkipDecimalDigits n p with
      | none => rfl
      | some r => rfl
    · rw [if_neg ho, if_neg ho, RegExpM.seq_run, RegExpM.modify_run]
  · rw [if_neg hd, if_neg hd]
    rfl

theorem foldl_decimal_cons (v c : Nat) (digits : List Nat) :
    (c :: digits).foldl (fun value d => 10 * value + (d - '0'.toNat)) v
      = digits.foldl (fun value d => 10 * value + (d - '0'.toNat)) (10 * v + (c - '0'.toNat)) :=
  rfl

/-- A loop over decimal digits of `ParseIntervalQuantifier` reads the whole run
and returns its value after `v`, truncated to `kInfinity`. -/
theorem ParseDecimalDigits_spec :
    ∀ (fuel : Nat) (digits pre rest : List Nat) (p : RegExpParser) (v : Nat),
      p.Reads pre (digits ++ rest) → (∀ d ∈ digits, IsDecimalDigit d = true) →
      (∀ d ∈ rest.head?, IsDecimalDigit d = false) → digits.length < fuel →
      (v : Int) ≤ RegExpTree.kInfinity →
      ∃ q : RegExpParser,
        ParseDecimalDigits fuel v p
            = some (min ((digits.foldl (fun value d => 10 * value + (d - '0'.toNat)) v : Nat)
                      : Int) RegExpTree.kInfinity, q)
          ∧ q.Reads (pre ++ digits) rest := by
  have h48 : '0'.toNat = 48 := rfl
  have h57 : '9'.toNat = 57 := rfl
  have hK : RegExpTree.kInfinity = 2147483647 := rfl
  intro fuel
  induction fuel with
  | zero => intro digits pre rest p v _ _ _ hf; omega
  | succ n ih =>
    intro digits pre rest p v hr hd hrest hf hv
    rw [ParseDecimalDigits_succ]
    cases digits with
    | nil =>
      rw [if_neg (by rw [Reads_head_not_digit (by simpa using hr) hrest]; simp)]
      refine ⟨p, ?_, by simpa using hr⟩
      simp only [List.foldl_nil]
      rw [min_eq_left hv]
    | cons c ds =>
      have hc : IsDecimalDigit c = true := hd c (List.mem_cons_self _ _)
      have hcur : p.current_ = c := hr.2.1
      have hc2 : 48 ≤ c ∧ c ≤ 57 := by
        unfold IsDecimalDigit at hc
        rw [h48, h57] at hc
        exact of_decide_eq_true hc
      have hnext : ((c : Int) - ('0'.toNat : Nat)) = (((c - '0'.toNat : Nat) : Nat) : Int) := by
        rw [h48]
        omega
      have hge := foldl_decimal_le ds (10 * v + (c - '0'.toNat))
      rw [hcur, if_pos hc, foldl_decimal_cons]
      by_cases ho : (v : Int) > (RegExpTree.kInfinity - ((c : Int) - ('0'.toNat : Nat))) / 10
      · rw [if_pos ho]
        obtain ⟨q, hq, hqr⟩ := SkipDecimalDigits_spec n ds pre rest c p hr
          (fun x hx => hd x (List.mem_cons_of_mem _ hx)) hrest
          (by simp only [List.length_cons] at hf; omega)
        refine ⟨q, ?_, hqr⟩
        rw [hq]
        simp only [Option.map_some']
        rw [min_eq_right]
        have h1 : (2147483647 : Int) < ((10 * v + (c - '0'.toNat) : Nat) : Int) := by
          rw [hK, h48] at ho
          rw [h48]
          push_cast
          omega
        have h2 : ((10 * v + (c - '0'.toNat) : Nat) : Int)
            ≤ ((ds.foldl (fun value d => 10 * value + (d - '0'.toNat))
                (10 * v + (c - '0'.toNat)) : Nat) : Int) := by
          exact_mod_cast hge
        rw [hK]
        exact le_of_lt (lt_of_lt_of_le h1 h2)
      · rw [if_neg ho]
        have hv2 : ((10 * v + (c - '0'.toNat) : Nat) : Int) ≤ RegExpTree.kInfinity := by
          rw [hK, h48] at ho ⊢
          push_cast
          omega
        obtain ⟨q, hq, hqr⟩ := ih ds (pre ++ [c]) rest p.Advance (10 * v + (c - '0'.toNat))
          (Reads_advance hr) (fun x hx => hd x (List.mem_cons_of_mem _ hx)) hrest
          (by simp only [List.length_cons] at hf; omega) hv2
        refine ⟨q, ?_, by simpa using hqr⟩
        rw [← hq]
        congr 1
        rw [hnext]
        push_cast
        rfl

theorem ParseIntervalQuantifier_no_digit (fuel : Nat) (p : RegExpParser)
    (hd : IsDecimalDigit p.Advance.current_ = false) :
    ParseIntervalQuantifier fuel p = some (none, p.Advance.Reset p.position) := by
  simp only [ParseIntervalQuantifier, current, RegExpM.bind_eq_seq, RegExpM.pure_eq_ret]
  rw [RegExpM.seq_run, RegExpM.read_run]
  simp only
  rw [RegExpM.seq_run, RegExpM.modify_run]
  simp only
  rw [RegExpM.seq_run, RegExpM.read_run]
  simp only
  rw [if_pos (by rw [hd]; rfl)]
  rfl

theorem ParseIntervalQuantifier_of_min (fuel : Nat) (p q : RegExpParser) (mn : Int)
    (hd : IsDecimalDigit p.Advance.current_ = true)
    (hmin : ParseDecimalDigits fuel 0 p.Advance = some (mn, q)) :
    ParseIntervalQuantifier fuel p
      = if q.current_ = Ch.rbrace then some (some (mn, mn), q.Advance)
        else if q.current_ = Ch.comma then
          if q.Advance.current_ = Ch.rbrace then
            some (some (mn, RegExpTree.kInfinity), q.Advance.Advance)
          else
            (ParseDecimalDigits fuel 0 q.Advance).bind (fun r =>
              if r.2.current_ ≠ Ch.rbrace then some (none, r.2.Reset p.position)
              else some (some (mn, r.1), r.2.Advance))
        else some (none, q.Reset p.position) := by
  simp only [ParseIntervalQuantifier, current, RegExpM.bind_eq_seq, RegExpM.pure_eq_ret]
  rw [RegExpM.seq_run, RegExpM.read_run]
  simp only
  rw [RegExpM.seq_run, RegExpM.modify_run]
  simp only
  rw [RegExpM.seq_run, RegExpM.read_run]
  simp only
  rw [if_neg (by rw [hd]; simp)]
  rw [RegExpM.seq_run, hmin]
  simp only
  rw [RegExpM.seq_run, RegExpM.read_run]
  simp only
  by_cases h1 : q.current_ = Ch.rbrace
  · rw [if_pos h1, if_pos h1]
    rfl
  · rw [if_neg h1, if_neg h1]
    by_cases h2 : q.current_ = Ch.comma
    · rw [if_pos h2, if_pos h2, RegExpM.seq_run, RegExpM.modify_run]
      simp only
      rw [RegExpM.seq_run, RegExpM.read_run]
      simp only
      by_cases h3 : q.Advance.current_ = Ch.rbrace
      · rw [if_pos h3, if_pos h3]
        rfl
      · rw [if_neg h3, if_neg h3, RegExpM.seq_run]
        cases ParseDecimalDigits fuel 0 q.Advance with
        | none => rfl
        | some r =>
          obtain ⟨mx, q2⟩ := r
          show _ = (if q2.current_ ≠ Ch.rbrace then some (none, q2.Reset p.position)
            else some (some (mn, mx), q2.Advance))
          show ((RegExpM.read fun p => p.current_).seq _ q2) = _
          rw [RegExpM.seq_run, RegExpM.read_run]
          simp only
          by_cases h4 : q2.current_ = Ch.rbrace
          · rw [if_neg (by simp [h4]), if_neg (by simp [h4])]
            rfl
          · rw [if_pos h4, if_pos h4]
            rfl
    · rw [if_neg h2, if_neg h2]
      rfl

theorem Reads_head_digit {p : RegExpParser} {pre n rest : List Nat} (h : p.Reads pre (n ++ rest))
    (hne : n ≠ []) (hdig : ∀ c ∈ n, IsDecimalDigit c = true) :
    IsDecimalDigit p.current_ = true := by
  rw [h.2.1]
  cases n with
  | nil => exact absurd rfl hne
  | cons c n2 => exact hdig c (List.mem_cons_self _ _)

theorem clampedValue_eq (n : List Nat) :
    min ((n.foldl (fun value d => 10 * value + (d - '0'.toNat)) 0 : Nat) : Int)
      RegExpTree.kInfinity = clampedValue n := rfl

/-- On each of the three forms `ParseIntervalQuantifier` returns the bounds and
stands behind the `}`. -/
theorem ParseIntervalQuantifier_of_form (fuel : Nat) (p : RegExpParser) (pre : List Nat) :
    ∀ (text : List Nat) (mn mx : Int) (consumed rest : List Nat),
      IntervalForm text mn mx consumed rest → p.Reads pre (Ch.lbrace :: text) →
      text.length < fuel →
      ∃ q : RegExpParser,
        ParseIntervalQuantifier fuel p = some (some (mn, mx), q)
          ∧ q.Reads (pre ++ Ch.lbrace :: consumed) rest := by
  intro text mn mx consumed rest hform
  cases hform with
  | exactly n rest hne hdig =>
    intro hr hf
    have hadv := Reads_advance hr
    have hlen : n.length < fuel := by
      simp only [List.length_append, List.length_cons] at hf
      omega
    obtain ⟨q, hq, hqr⟩ := ParseDecimalDigits_spec fuel n (pre ++ [Ch.lbrace])
      (Ch.rbrace :: rest) p.Advance 0 hadv hdig
      (by intro d hd; cases hd; decide) hlen (by decide)
    rw [clampedValue_eq] at hq
    rw [ParseIntervalQuantifier_of_min fuel p q _ (Reads_head_digit hadv hne hdig) hq]
    rw [if_pos (Reads_current hqr)]
    refine ⟨_, rfl, ?_⟩
    have h := Reads_advance hqr
    simpa [List.append_assoc] using h
  | at_least n rest hne hdig =>
    intro hr hf
    have hadv := Reads_advance hr
    have hlen : n.length < fuel := by
      simp only [List.length_append, List.length_cons] at hf
      omega
    obtain ⟨q, hq, hqr⟩ := ParseDecimalDigits_spec fuel n (pre ++ [Ch.lbrace])
      (Ch.comma :: Ch.rbrace :: rest) p.Advance 0 hadv hdig
      (by intro d hd; cases hd; decide) hlen (by decide)
    rw [clampedValue_eq] at hq
    rw [ParseIntervalQuantifier_of_min fuel p q _ (Reads_head_digit hadv hne hdig) hq]
    have hc : q.current_ = Ch.comma := Reads_current hqr
    have hq2 := Reads_advance hqr
    rw [if_neg (by rw [hc]; decide), if_pos hc, if_pos (Reads_current hq2)]
    refine ⟨_, rfl, ?_⟩
    have h := Reads_advance hq2
    simpa [List.append_assoc] using h
  | between n m rest hne hdig hme hmdig =>
    intro hr hf
    have hadv := Reads_advance hr
    have hlen : n.length < fuel ∧ m.length < fuel := by
      simp only [List.length_append, List.length_cons] at hf
      omega
    obtain ⟨q, hq, hqr⟩ := ParseDecimalDigits_spec fuel n (pre ++ [Ch.lbrace])
      (Ch.comma :: (m ++ Ch.rbrace :: rest)) p.Advance 0 hadv hdig
      (by intro d hd; cases hd; decide) hlen.1 (by decide)
    rw [clampedValue_eq] at hq
    rw [ParseIntervalQuantifier_of_min fuel p q _ (Reads_head_digit hadv hne hdig) hq]
    have hc : q.current_ = Ch.comma := Reads_current hqr
    have hq2 := Reads_advance hqr
    have hm1 : IsDecimalDigit q.Advance.current_ = true := Reads_head_digit hq2 hme hmdig
    have hnb : q.Advance.current_ ≠ Ch.rbrace := by
      intro h
      rw [h] at hm1
      exact absurd hm1 (by decide)
    obtain ⟨q3, hq3, hq3r⟩ := ParseDecimalDigits_spec fuel m ((pre ++ [Ch.lbrace] ++ n) ++ [Ch.comma])
      (Ch.rbrace :: rest) q.Advance 0 hq2 hmdig
      (by intro d hd; cases hd; decide) hlen.2 (by decide)
    rw [clampedValue_eq] at hq3
    have hq3 : ParseDecimalDigits fuel 0 q.Advance = some (clampedValue m, q3) := hq3
    rw [if_neg (by rw [hc]; decide), if_pos hc, if_neg hnb, hq3]
    refine ⟨q3.Advance, ?_, ?_⟩
    · show (if q3.current_ ≠ Ch.rbrace then _ else _) = _
      rw [if_neg (not_not.mpr (Reads_current hq3r))]
    · have h := Reads_advance hq3r
      simpa [List.append_assoc] using h

theorem decimal_run_split (text : List Nat) :
    ∃ n r : List Nat, text = n ++ r ∧ (∀ c ∈ n, IsDecimalDigit c = true)
      ∧ (∀ d ∈ r.head?, IsDecimalDigit d = false) := by
  induction text with
  | nil => exact ⟨[], [], rfl, (by intro c hc; cases hc), (by intro d hd; cases hd)⟩
  | cons c text ih =>
    by_cases hc : IsDecimalDigit c = true
    · obtain ⟨n, r, h1, h2, h3⟩ := ih
      refine ⟨c :: n, r, by rw [h1]; rfl, ?_, h3⟩
      intro d hd
      rcases List.mem_cons.mp hd with h | h
      · rw [h]; exact hc
      · exact h2 d h
    · refine ⟨[], c :: text, rfl, (by intro d hd; cases hd), ?_⟩
      intro d hd
      cases hd
      simpa using hc

theorem Reads_reset_to {p q : RegExpParser} {pre text : List Nat} (done rest : List Nat)
    (hr : p.Reads pre (Ch.lbrace :: text)) (hq : q.Reads (pre ++ Ch.lbrace :: done) rest)
    (htext : text = done ++ rest) :
    (q.Reset p.position).Reads pre (Ch.lbrace :: text) := by
  rw [Reads_position hr]
  apply Reads_reset
  rw [hq.1, htext]
  simp [List.append_assoc]

/-- A call of `ParseIntervalQuantifier` at a `{` that is not answered with a
pair of bounds is answered with `none`, the reader standing at the `{` again;
the first case arises only on one of the three forms. -/
theorem ParseIntervalQuantifier_none_or_form (fuel : Nat) (p : RegExpParser)
    (pre text : List Nat) (hr : p.Reads pre (Ch.lbrace :: text)) (hf : text.length < fuel) :
    (∃ (mn mx : Int) (consumed rest : List Nat), IntervalForm text mn mx consumed rest)
      ∨ ∃ q : RegExpParser,
          ParseIntervalQuantifier fuel p = some (none, q) ∧ q.Reads pre (Ch.lbrace :: text) := by
  obtain ⟨n, r1, htext, hn, hr1⟩ := decimal_run_split text
  have hadv := Reads_advance hr
  by_cases hne : n = []
  · right
    subst hne
    have hd := Reads_head_not_digit hadv (by rw [htext]; exact hr1)
    rw [ParseIntervalQuantifier_no_digit fuel p hd]
    refine ⟨_, rfl, ?_⟩
    exact Reads_reset_to [] text hr (by simpa using hadv) rfl
  · rw [htext] at hadv
    have hlen : n.length < fuel := by
      rw [htext, List.length_append] at hf
      omega
    obtain ⟨q, hq, hqr⟩ := ParseDecimalDigits_spec fuel n (pre ++ [Ch.lbrace]) r1 p.Advance 0
      hadv hn hr1 hlen (by decide)
    rw [clampedValue_eq] at hq
    have hmin := ParseIntervalQuantifier_of_min fuel p q _ (Reads_head_digit hadv hne hn) hq
    have hqr2 : q.Reads (pre ++ Ch.lbrace :: n) r1 := by simpa [List.append_assoc] using hqr
    by_cases h1 : q.current_ = Ch.rbrace
    · left
      cases r1 with
      | nil => rw [hqr.2.1] at h1; exact absurd h1 (by decide)
      | cons c r2 =>
        have hc : c = Ch.rbrace := by rw [← h1]; exact (Reads_current hqr).symm
        subst hc
        rw [htext]
        exact ⟨_, _, _, _, IntervalForm.exactly n r2 hne hn⟩
    · rw [if_neg h1] at hmin
      by_cases h2 : q.current_ = Ch.comma
      · rw [if_pos h2] at hmin
        cases r1 with
        | nil => rw [hqr.2.1] at h2; exact absurd h2 (by decide)
        | cons c r2 =>
          have hc : c = Ch.comma := by rw [← h2]; exact (Reads_current hqr).symm
          subst hc
          have hq2 := Reads_advance hqr2
          by_cases h3 : q.Advance.current_ = Ch.rbrace
          · left
            cases r2 with
            | nil => rw [hq2.2.1] at h3; exact absurd h3 (by decide)
            | cons d r3 =>
              have hd : d = Ch.rbrace := by rw [← h3]; exact (Reads_current hq2).symm
              subst hd
              rw [htext]
              exact ⟨_, _, _, _, IntervalForm.at_least n r3 hne hn⟩
          · rw [if_neg h3] at hmin
            obtain ⟨m, r4, hr2, hm, hr4⟩ := decimal_run_split r2
            have hmlen : m.length < fuel := by
              rw [htext, hr2] at hf
              simp only [List.length_append, List.length_cons] at hf
              omega
            rw [hr2] at hq2
            obtain ⟨q3, hq3, hq3r⟩ := ParseDecimalDigits_spec fuel m _ r4 q.Advance 0
              hq2 hm hr4 hmlen (by decide)
            rw [clampedValue_eq] at hq3
            have hq3 : ParseDecimalDigits fuel 0 q.Advance = some (clampedValue m, q3) := hq3
            rw [hq3] at hmin
            have hmin2 : ParseIntervalQuantifier fuel p
                = if q3.current_ ≠ Ch.rbrace then some (none, q3.Reset p.position)
                  else some (some (clampedValue n, clampedValue m), q3.Advance) := hmin
            by_cases h4 : q3.current_ = Ch.rbrace
            · left
              cases r4 with
              | nil => rw [hq3r.2.1] at h4; exact absurd h4 (by decide)
              | cons e r5 =>
                have he : e = Ch.rbrace := by rw [← h4]; exact (Reads_current hq3r).symm
                subst he
                have hme : m ≠ [] := by
                  intro hm0
                  subst hm0
                  apply h3
                  rw [hq2.2.1]
                  rfl
                rw [htext, hr2]
                exact ⟨_, _, _, _, IntervalForm.between n m r5 hne hn hme hm⟩
            · right
              rw [if_pos h4] at hmin2
              refine ⟨_, hmin2, ?_⟩
              refine Reads_reset_to (n ++ Ch.comma :: m) r4 hr ?_ (by rw [htext, hr2]; simp)
              simpa [List.append_assoc] using hq3r
      · right
        rw [if_neg h2] at hmin
        exact ⟨_, hmin, Reads_reset_to n r1 hr hqr2 htext⟩

end RegExpParser

/-- C38: called at a `{` (the reader stands on it, with `text` behind it),
`ParseIntervalQuantifier` returns bounds exactly when `text` starts with one of
the forms `n}`, `n,}` and `n,m}`, `n` and `m` non-empty runs of decimal digits:
on a form it returns the smaller of `n` and `kInfinity` as `min` and, as `max`,
`min` again, `kInfinity`, or the smaller of `m` and `kInfinity`, and it stands
just behind the `}`; on every other text it returns no bounds and stands on the
`{` again. The bounds are never negative and never above `kInfinity`, however
long the runs are: `a{2147483648}` and `a{4294967297,}` get the bound
`kInfinity`, and `a{,3}`, `a{2,x}` and `a{}` are read as plain characters. -/
theorem ParseIntervalQuantifier_accepts_forms (fuel : Nat) (p : RegExpParser)
    (pre text : List Nat) (hreads : p.Reads pre (Ch.lbrace :: text))
    (hfuel : text.length < fuel) :
    (∀ (mn mx : Int) (consumed rest : List Nat), IntervalForm text mn mx consumed rest →
        ∃ q : RegExpParser,
          RegExpParser.ParseIntervalQuantifier fuel p = some (some (mn, mx), q)
            ∧ q.Reads (pre ++ Ch.lbrace :: consumed) rest)
      ∧ ((¬ ∃ (mn mx : Int) (consumed rest : List Nat), IntervalForm text mn mx consumed rest) →
        ∃ q : RegExpParser,
          RegExpParser.ParseIntervalQuantifier fuel p = some (none, q)
            ∧ q.Reads pre (Ch.lbrace :: text))
      ∧ (∀ (r : Option (Int × Int)) (q : RegExpParser),
          RegExpParser.ParseIntervalQuantifier fuel p = some (r, q) →
            (r = none ∧ q.Reads pre (Ch.lbrace :: text))
              ∨ ∃ (mn mx : Int) (consumed rest : List Nat),
                  IntervalForm text mn mx consumed rest ∧ r = some (mn, mx)
                    ∧ q.Reads (pre ++ Ch.lbrace :: consumed) rest)
      ∧ (∀ n : List Nat, 0 ≤ clampedValue n ∧ clampedValue n ≤ RegExpTree.kInfinity
          ∧ (clampedValue n = decimalValue n ∨ clampedValue n = RegExpTree.kInfinity))
      ∧ (ParseRegExp 50 pattern_interval_between false).map (fun r => r.2.1.tree)
          = some (some (.Quantifier 2 3 .GREEDY (.Atom [97])))
      ∧ (ParseRegExp 50 pattern_interval_overflow false).map (fun r => r.2.1.tree)
          = some (some (.Quantifier 2147483647 2147483647 .GREEDY (.Atom [97])))
      ∧ (ParseRegExp 50 pattern_interval_wrap false).map (fun r => r.2.1.tree)
          = some (some (.Quantifier 2147483647 2147483647 .GREEDY (.Atom [97])))
      ∧ (ParseRegExp 50 pattern_interval_no_min false).map (fun r => r.2.1.tree)
          = some (some (.Atom [97, 123, 44, 51, 125]))
      ∧ (ParseRegExp 50 pattern_interval_no_max false).map (fun r => r.2.1.tree)
          = some (some (.Atom [97, 123, 50, 44, 120, 125]))
      ∧ (ParseRegExp 50 pattern_interval_empty false).map (fun r => r.2.1.tree)
          = some (some (.Atom [97, 123, 125])) := by
  refine ⟨?_, ?_, ?_, ?_, rfl, rfl, rfl, rfl, rfl, rfl⟩
  · intro mn mx consumed rest hform
    exact RegExpParser.ParseIntervalQuantifier_of_form fuel p pre text mn mx consumed rest hform
      hreads hfuel
  · intro hno
    rcases RegExpParser.ParseIntervalQuantifier_none_or_form fuel p pre text hreads hfuel
      with h | h
    · exact absurd h hno
    · exact h
  · intro r q hrun
    rcases RegExpParser.ParseIntervalQuantifier_none_or_form fuel p pre text hreads hfuel
      with h | h
    · right
      obtain ⟨mn, mx, consumed, rest, hform⟩ := h
      obtain ⟨q2, h1, h2⟩ := RegExpParser.ParseIntervalQuantifier_of_form fuel p pre text mn mx
        consumed rest hform hreads hfuel
      rw [h1] at hrun
      cases hrun
      exact ⟨mn, mx, consumed, rest, hform, rfl, h2⟩
    · left
      obtain ⟨q2, h1, h2⟩ := h
      rw [h1] at hrun
      cases hrun
      exact ⟨rfl, h2⟩
  · intro n
    have hK : RegExpTree.kInfinity = 2147483647 := rfl
    unfold clampedValue
    rw [hK]
    have h0 : (0 : Int) ≤ (decimalValue n : Int) := Int.natCast_nonneg _
    refine ⟨le_min h0 (by decide), min_le_right _ _, ?_⟩
    rcases le_total ((decimalValue n : Nat) : Int) 2147483647 with h | h
    · left; exact min_eq_left h
    · right; exact min_eq_right h

/-- C38, on the pattern `a{2,3}` with the reader on the `{`: the bounds 2 and 3
are returned and the reader stands at the end of the pattern. -/
theorem ParseIntervalQuantifier_accepts_forms_witness :
    ∃ q : RegExpParser,
      RegExpParser.ParseIntervalQuantifier 5 (RegExpParser.New pattern_interval_between false).Advance
          = some (some (2, 3), q)
        ∧ q.Reads (pattern "a\x7b2,3\x7d") [] :=
  (ParseIntervalQuantifier_accepts_forms 5 (RegExpParser.New pattern_interval_between false).Advance
    ['a'.toNat] (pattern "2,3\x7d") ⟨rfl, rfl, rfl⟩ (by decide)).1 2 3 (pattern "2,3\x7d") []
    (IntervalForm.between ['2'.toNat] ['3'.toNat] [] (by decide) (by decide) (by decide)
      (by decide))

/-! ## Theorems: the error message of `ParseRegExp` -/

/-- C31: `ParseRegExp` returns false exactly when the failure flag is set, then
without a tree and with the error of the parser, and it returns true without
an error; but the message recorded is that of the last call of `ReportError`,
not of the first. `Advance` reports a limit that is reached and returns to its
caller, which goes on: for `(ab)`, when the zone limit is reached at the third
call of `Advance` (the one behind `a`), "Regular expression too large" is
reported, the loop of `ParseDisjunction` then finds the end marker inside the
group and reports "Unterminated group", and that is the error returned. For
`a{1}b`, when the limit is reached at the third call only, `Reset` reads the
`{` again after the report and the error returned is "Nothing to repeat".
When no limit is reached `(ab)` is parsed. -/
theorem ParseRegExp_records_last_report :
    (∀ (fuel : Nat) (input : List Nat) (multiline : Bool) (checks : List LimitCheck)
        (ok : Bool) (data : RegExpCompileData) (parser : Limited.RegExpParser),
        Limited.ParseRegExp fuel input multiline checks = some (ok, data, parser) →
          (ok = false ↔ parser.failed_ = true)
            ∧ (ok = false → data.tree = none ∧ data.error = parser.error_)
            ∧ (ok = true → data.error = none))
      ∧ (∀ (p : Limited.RegExpParser) (message : String),
          (p.ReportError message).failed_ = true
            ∧ (p.ReportError message).error_ = some message
            ∧ (p.ReportError message).current_ = Limited.RegExpParser.kEndMarker
            ∧ (p.ReportError message).has_next = false
            ∧ (p.ReportError message).reports_ = p.reports_ ++ [message])
      ∧ (Limited.ParseRegExp 50 pattern_group_ab false
            [LimitCheck.ok, LimitCheck.ok, LimitCheck.excess_allocation]).map
          (fun r => (r.1, r.2.1.tree, r.2.1.error, r.2.2.reports_))
          = some (false, none, some "Unterminated group",
              ["Regular expression too large", "Unterminated group"])
      ∧ (Limited.ParseRegExp 50 pattern_group_ab false
            [LimitCheck.ok, LimitCheck.ok, LimitCheck.stack_overflow]).map
          (fun r => (r.1, r.2.1.tree, r.2.1.error, r.2.2.reports_))
          = some (false, none, some "Unterminated group",
              [Top.kStackOverflowMessage, "Unterminated group"])
      ∧ (Limited.ParseRegExp 50 pattern_interval_then_b false
            [LimitCheck.ok, LimitCheck.ok, LimitCheck.excess_allocation]).map
          (fun r => (r.1, r.2.1.tree, r.2.1.error, r.2.2.reports_))
          = some (false, none, some "Nothing to repeat",
              ["Regular expression too large", "Nothing to repeat"])
      ∧ (Limited.ParseRegExp 50 pattern_group_ab false []).map
          (fun r => (r.1, r.2.1.tree, r.2.1.error, r.2.2.reports_))
          = some (true, some (RegExpTree.Capture (RegExpTree.Atom ['a'.toNat, 'b'.toNat]) 1),
              none, [])
      ∧ (ParseRegExp 50 pattern_group_ab false).map (fun r => (r.1, r.2.1.tree, r.2.1.error))
          = some (true, some (RegExpTree.Capture (RegExpTree.Atom ['a'.toNat, 'b'.toNat]) 1),
              none) := by
  refine ⟨?_, ?_, rfl, rfl, rfl, rfl, rfl⟩
  · intro fuel input multiline checks ok data parser h
    unfold Limited.ParseRegExp at h
    cases hp : Limited.RegExpParser.ParsePattern fuel
        (Limited.RegExpParser.New input multiline checks) with
    | none => rw [hp] at h; cases h
    | some r =>
      obtain ⟨tree, q⟩ := r
      rw [hp] at h
      simp only at h
      cases hf : q.failed_ with
      | true =>
        rw [hf] at h
        simp only [if_true, Option.some.injEq, Prod.mk.injEq] at h
        obtain ⟨rfl, rfl, rfl⟩ := h
        exact ⟨⟨fun _ => hf, fun _ => rfl⟩, fun _ => ⟨rfl, rfl⟩, (fun h => by cases h)⟩
      | false =>
        rw [hf] at h
        simp only [Bool.false_eq_true, if_false, Option.some.injEq, Prod.mk.injEq] at h
        obtain ⟨rfl, rfl, rfl⟩ := h
        exact ⟨⟨(fun h => by cases h), (fun h => by rw [hf] at h; cases h)⟩,
          (fun h => by cases h), fun _ => rfl⟩
  · intro p message
    refine ⟨rfl, rfl, rfl, ?_, rfl⟩
    unfold Limited.RegExpParser.has_next Limited.RegExpParser.ReportError
    simp

/-! ## Theorems: the checker of object-literal properties -/

namespace HashMap

theorem value_eq_zero_of_not_any {κ : Type} [DecidableEq κ] (map : HashMap κ) (key : κ)
    (h : map.any (fun e => decide (e.1 = key)) = false) : value map key = 0 := by
  induction map with
  | nil => rfl
  | cons e rest ih =>
    obtain ⟨k, v⟩ := e
    simp only [List.any_cons, Bool.or_eq_false_iff, decide_eq_false_iff_not] at h
    unfold value
    rw [if_neg h.1]
    exact ih h.2

theorem Lookup_fst {κ : Type} [DecidableEq κ] (map : HashMap κ) (key : κ) :
    (map.Lookup key).1 = value map key := by
  unfold Lookup
  split_ifs with h
  · rfl
  · exact (value_eq_zero_of_not_any map key (Bool.eq_false_iff.mpr h)).symm

theorem value_append_zero {κ : Type} [DecidableEq κ] (map : HashMap κ) (key key2 : κ) :
    value (map ++ [(key, 0)]) key2 = value map key2 := by
  induction map with
  | nil =>
    show (if key = key2 then 0 else 0) = 0
    split_ifs <;> rfl
  | cons e rest ih =>
    obtain ⟨k, v⟩ := e
    show (if k = key2 then v else value (rest ++ [(key, 0)]) key2)
      = if k = key2 then v else value rest key2
    rw [ih]

theorem Lookup_snd_value {κ : Type} [DecidableEq κ] (map : HashMap κ) (key key2 : κ) :
    value (map.Lookup key).2 key2 = value map key2 := by
  unfold Lookup
  split_ifs with h
  · rfl
  · exact value_append_zero map key key2

theorem Lookup_snd_any {κ : Type} [DecidableEq κ] (map : HashMap κ) (key : κ) :
    (map.Lookup key).2.any (fun e => decide (e.1 = key)) = true := by
  unfold Lookup
  split_ifs with h
  · exact h
  · simp

theorem value_setValue {κ : Type} [DecidableEq κ] (map : HashMap κ) (key key2 : κ) (w : Nat)
    (h : map.any (fun e => decide (e.1 = key)) = true) :
    value (map.setValue key w) key2 = if key2 = key then w else value map key2 := by
  induction map with
  | nil => simp at h
  | cons e rest ih =>
    obtain ⟨k, v⟩ := e
    unfold setValue
    by_cases hk : k = key
    · rw [if_pos hk]
      unfold value
      subst hk
      by_cases hk2 : k = key2
      · rw [if_pos hk2, if_pos hk2.symm]
      · rw [if_neg hk2, if_neg (fun h => hk2 h.symm), if_neg hk2]
    · rw [if_neg hk]
      have hrest : rest.any (fun e => decide (e.1 = key)) = true := by
        simpa [hk] using h
      unfold value
      by_cases hk2 : k = key2
      · rw [if_pos hk2, if_pos hk2, if_neg (by rw [← hk2]; exact hk)]
      · rw [if_neg hk2, if_neg hk2]
        exact ih hrest

end HashMap

namespace ObjectLiteralPropertyChecker

theorem Lookup_valueOf (checker : ObjectLiteralPropertyChecker) (key : MapKey) :
    (checker.Lookup key).1 = checker.valueOf key := by
  cases key <;> exact HashMap.Lookup_fst _ _

theorem Lookup_strict (checker : ObjectLiteralPropertyChecker) (key : MapKey) :
    (checker.Lookup key).2.strict_ = checker.strict_ := by
  cases key <;> rfl

theorem setValue_strict (checker : ObjectLiteralPropertyChecker) (key : MapKey) (w : Nat) :
    (checker.setValue key w).strict_ = checker.strict_ := by
  cases key <;> rfl

theorem valueOf_Lookup_setValue (checker : ObjectLiteralPropertyChecker) (key key2 : MapKey)
    (w : Nat) :
    ((checker.Lookup key).2.setValue key w).valueOf key2
      = if key2 = key then w else checker.valueOf key2 := by
  cases key with
  | in_elems i =>
    cases key2 with
    | in_elems j =>
      show HashMap.value ((checker.elems.Lookup i).2.setValue i w) j = _
      rw [HashMap.value_setValue _ _ _ _ (HashMap.Lookup_snd_any _ _), HashMap.Lookup_snd_value]
      by_cases h : j = i
      · rw [if_pos h, if_pos (by rw [h])]
      · rw [if_neg h, if_neg (by intro h2; cases h2; exact h rfl)]
        rfl
    | in_props n =>
      rw [if_neg (by intro h; cases h)]
      rfl
  | in_props m =>
    cases key2 with
    | in_elems j =>
      rw [if_neg (by intro h; cases h)]
      rfl
    | in_props n =>
      show HashMap.value ((checker.props.Lookup m).2.setValue m w) n = _
      rw [HashMap.value_setValue _ _ _ _ (HashMap.Lookup_snd_any _ _), HashMap.Lookup_snd_value]
      by_cases h : n = m
      · rw [if_pos h, if_pos (by rw [h])]
      · rw [if_neg h, if_neg (by intro h2; cases h2; exact h rfl)]
        rfl

theorem kindsSeen_append (conv : KeyConversions) (seen : List ObjectLiteral.Property)
    (property : ObjectLiteral.Property) (key : MapKey) :
    kindsSeen conv (seen ++ [property]) key
      = if mapKey conv property = some key then kindsSeen conv seen key ++ [propertyClass property]
        else kindsSeen conv seen key := by
  unfold kindsSeen
  rw [List.filter_append]
  by_cases h : mapKey conv property = some key
  · rw [if_pos h]
    simp [List.filter_cons, h]
  · rw [if_neg h]
    simp [List.filter_cons, h]

theorem Tracks_empty (conv : KeyConversions) (strict : Bool) :
    Tracks conv { strict_ := strict } [] := by
  refine ⟨?_, ?_, ?_, ?_, ?_⟩ <;> intro key <;> cases key <;> simp [valueOf, HashMap.value, kindsSeen]

theorem GetPropertyKind_cases (property : ObjectLiteral.Property) :
    (GetPropertyKind property = 1 ∧ propertyClass property = PropertyClass.getter)
      ∨ (GetPropertyKind property = 2 ∧ propertyClass property = PropertyClass.setter)
      ∨ (GetPropertyKind property = 4 ∧ propertyClass property = PropertyClass.data) := by
  unfold GetPropertyKind propertyClass
  cases property.kind <;> simp [kGetAccessor, kSetAccessor, kData]

theorem Tracks_accept (conv : KeyConversions) (checker : ObjectLiteralPropertyChecker)
    (seen : List ObjectLiteral.Property) (property : ObjectLiteral.Property) (key : MapKey)
    (hkey : mapKey conv property = some key) (htracks : Tracks conv checker seen) (w : Nat)
    (hsmall : w < 8)
    (hg : (w &&& 1 ≠ 0) ↔ PropertyClass.getter ∈ kindsSeen conv seen key ++ [propertyClass property])
    (hs : (w &&& 2 ≠ 0) ↔ PropertyClass.setter ∈ kindsSeen conv seen key ++ [propertyClass property])
    (hd : (w &&& 4 ≠ 0) ↔ PropertyClass.data ∈ kindsSeen conv seen key ++ [propertyClass property])
    (hapart : PropertyClass.data ∈ kindsSeen conv seen key ++ [propertyClass property] →
      PropertyClass.getter ∉ kindsSeen conv seen key ++ [propertyClass property]
        ∧ PropertyClass.setter ∉ kindsSeen conv seen key ++ [propertyClass property]) :
    Tracks conv ((checker.Lookup key).2.setValue key w) (seen ++ [property]) := by
  have hval : ∀ key2, ((checker.Lookup key).2.setValue key w).valueOf key2
      = if key2 = key then w else checker.valueOf key2 :=
    fun key2 => valueOf_Lookup_setValue checker key key2 w
  have hkinds : ∀ key2, kindsSeen conv (seen ++ [property]) key2
      = if key2 = key then kindsSeen conv seen key ++ [propertyClass property]
        else kindsSeen conv seen key2 := by
    intro key2
    rw [kindsSeen_append, hkey]
    by_cases h : key2 = key
    · rw [if_pos h, if_pos (by rw [h]), h]
    · rw [if_neg h, if_neg (by intro h2; cases h2; exact h rfl)]
  refine ⟨?_, ?_, ?_, ?_, ?_⟩ <;> intro key2 <;>
    (first
      | rw [hkinds key2]
      | skip) <;>
    first
    | rw [hval key2]
    | skip
  all_goals by_cases h : key2 = key
  all_goals first
    | rw [if_pos h, if_pos h]
    | rw [if_neg h, if_neg h]
    | rw [if_pos h]
    | rw [if_neg h]
  · exact hsmall
  · exact htracks.small key2
  · exact hg
  · exact htracks.getter key2
  · exact hs
  · exact htracks.setter key2
  · exact hd
  · exact htracks.data key2
  · exact hapart
  · exact htracks.apart key2

/-- One call of `CheckProperty` follows the rule: the message of the rule is
reported at the location of the property, or the property is accepted and the
maps hold the kinds of the properties seen, the new one included. -/
theorem CheckProperty_step (conv : KeyConversions) (checker : ObjectLiteralPropertyChecker)
    (seen : List ObjectLiteral.Property) (property : ObjectLiteral.Property) (loc : Location)
    (parser : Parser) (key : MapKey) (hkey : mapKey conv property = some key)
    (htracks : Tracks conv checker seen) :
    (∀ message,
        ruleMessage checker.strict_ (kindsSeen conv seen key) (propertyClass property)
          = some message →
        CheckProperty conv checker property loc parser
          = some (false, (checker.Lookup key).2, parser.ReportMessageAt loc message []))
      ∧ (ruleMessage checker.strict_ (kindsSeen conv seen key) (propertyClass property) = none →
        ∃ checker1, CheckProperty conv checker property loc parser = some (true, checker1, parser)
          ∧ checker1.strict_ = checker.strict_
          ∧ Tracks conv checker1 (seen ++ [property])) := by
  have hsmall := htracks.small key
  have hg := htracks.getter key
  have hs := htracks.setter key
  have hd := htracks.data key
  have hapart := htracks.apart key
  have hrun : CheckProperty conv checker property loc parser
      = if checker.strict_ = true
            ∧ (GetPropertyKind property &&& checker.valueOf key &&& kData) ≠ 0 then
          some (false, (checker.Lookup key).2,
            parser.ReportMessageAt loc "strict_duplicate_property" [])
        else if ((GetPropertyKind property &&& kData) ≠ 0
              ∧ (checker.valueOf key &&& kAccessor) ≠ 0)
            ∨ ((checker.valueOf key &&& kData) ≠ 0
              ∧ (GetPropertyKind property &&& kAccessor) ≠ 0) then
          some (false, (checker.Lookup key).2,
            parser.ReportMessageAt loc "accessor_data_property" [])
        else if (GetPropertyKind property &&& checker.valueOf key &&& kAccessor) ≠ 0 then
          some (false, (checker.Lookup key).2,
            parser.ReportMessageAt loc "accessor_get_set" [])
        else
          some (true, (checker.Lookup key).2.setValue key
            (checker.valueOf key ||| GetPropertyKind property), parser) := by
    unfold CheckProperty
    rw [hkey]
    simp only [Lookup_valueOf]
  have hk3 : kAccessor = 3 := rfl
  have hk4 : kData = 4 := rfl
  have hacc : ∀ w, w < 8 →
      ((w &&& 1 ≠ 0) ↔ PropertyClass.getter ∈ kindsSeen conv seen key ++ [propertyClass property]) →
      ((w &&& 2 ≠ 0) ↔ PropertyClass.setter ∈ kindsSeen conv seen key ++ [propertyClass property]) →
      ((w &&& 4 ≠ 0) ↔ PropertyClass.data ∈ kindsSeen conv seen key ++ [propertyClass property]) →
      (PropertyClass.data ∈ kindsSeen conv seen key ++ [propertyClass property] →
        PropertyClass.getter ∉ kindsSeen conv seen key ++ [propertyClass property]
          ∧ PropertyClass.setter ∉ kindsSeen conv seen key ++ [propertyClass property]) →
      ((checker.Lookup key).2.setValue key w).strict_ = checker.strict_
        ∧ Tracks conv ((checker.Lookup key).2.setValue key w) (seen ++ [property]) := by
    intro w h1 h2 h3 h4 h5
    exact ⟨by rw [setValue_strict, Lookup_strict],
      Tracks_accept conv checker seen property key hkey htracks w h1 h2 h3 h4 h5⟩
  have hcases := GetPropertyKind_cases property
  rw [hrun, hk3, hk4]
  generalize checker.valueOf key = prev at hsmall hg hs hd hacc ⊢
  generalize (checker.Lookup key).2 = checker2 at hacc ⊢
  generalize kindsSeen conv seen key = before at hg hs hd hapart hacc ⊢
  generalize checker.strict_ = strict at hacc ⊢
  generalize propertyClass property = cls at hacc hcases ⊢
  generalize GetPropertyKind property = curr at hcases ⊢
  clear hrun htracks hkey
  rcases hcases with ⟨rfl, rfl⟩ | ⟨rfl, rfl⟩ | ⟨rfl, rfl⟩ <;> interval_cases prev <;>
    simp only [ruleMessage] <;> cases strict <;>
    simp +decide at hg hs hd <;> simp +decide [hg, hs, hd] at hapart ⊢ <;>
    first
    | done
    | (apply hacc <;> simp +decide [hg, hs, hd])

/-- The run of `CheckProperty` over a sequence of properties ends at the first
property that the rule rejects, with the message of the rule at its location,
and accepts the sequence when there is none. -/
theorem CheckProperty_each_rule (conv : KeyConversions) :
    ∀ (properties : List (ObjectLiteral.Property × Location))
      (checker : ObjectLiteralPropertyChecker) (seen : List ObjectLiteral.Property)
      (parser : Parser),
      Tracks conv checker seen →
      (∀ x ∈ properties, ∃ key, mapKey conv x.1 = some key) →
      ∃ checker1,
        CheckProperty_each conv checker properties parser
          = some (match firstRejected conv checker.strict_ seen properties with
                  | none => (true, checker1, parser)
                  | some r => (false, checker1, parser.ReportMessageAt r.2.1 r.2.2 [])) := by
  intro properties
  induction properties with
  | nil =>
    intro checker seen parser _ _
    exact ⟨checker, rfl⟩
  | cons x rest ih =>
    intro checker seen parser htracks hkeys
    obtain ⟨property, loc⟩ := x
    obtain ⟨key, hkey⟩ := hkeys (property, loc) (List.mem_cons_self _ _)
    have hstep := CheckProperty_step conv checker seen property loc parser key hkey htracks
    unfold CheckProperty_each firstRejected
    rw [hkey]
    simp only [Option.bind_eq_bind, Option.some_bind]
    cases hrule : ruleMessage checker.strict_ (kindsSeen conv seen key) (propertyClass property) with
    | some message =>
      rw [hstep.1 message hrule]
      exact ⟨_, rfl⟩
    | none =>
      obtain ⟨checker1, hrun, hstrict, htracks1⟩ := hstep.2 hrule
      rw [hrun]
      simp only
      obtain ⟨checker2, h2⟩ := ih checker1 (seen ++ [property]) parser htracks1
        (fun y hy => hkeys y (List.mem_cons_of_mem _ hy))
      rw [hstrict] at h2
      exact ⟨checker2, h2⟩

end ObjectLiteralPropertyChecker

/-- C36: for every sequence of properties whose keys are symbols or numbers,
the calls of `CheckProperty` reject the first property that the rule rejects,
with the message of the rule at the location of that property and no other
message, and accept the sequence when the rule rejects none. The rule looks at
the kinds seen before for the key of the property: a data property after a
getter or setter, and a getter or setter after a data property, is an
`accessor_data_property`; a second getter or a second setter is an
`accessor_get_set`; a second data property is a `strict_duplicate_property`
in strict mode only. A getter and a setter for one name are accepted, and so
are two data properties for one name outside strict mode. -/
theorem CheckProperty_follows_rule (conv : KeyConversions) (strict : Bool)
    (properties : List (ObjectLiteral.Property × Location)) (parser : Parser)
    (hkeys : ∀ x ∈ properties, ∃ key, ObjectLiteralPropertyChecker.mapKey conv x.1 = some key) :
    (ObjectLiteralPropertyChecker.firstRejected conv strict [] properties = none →
        ∃ checker1,
          ObjectLiteralPropertyChecker.CheckProperty_each conv { strict_ := strict } properties
            parser = some (true, checker1, parser))
      ∧ (∀ property loc message,
          ObjectLiteralPropertyChecker.firstRejected conv strict [] properties
            = some (property, loc, message) →
          ∃ checker1,
            ObjectLiteralPropertyChecker.CheckProperty_each conv { strict_ := strict } properties
              parser = some (false, checker1, parser.ReportMessageAt loc message []))
      ∧ (∀ (loc1 loc2 : Location),
          (ObjectLiteralPropertyChecker.CheckProperty_each
              ObjectLiteralPropertyChecker.plainNames { strict_ := strict }
              [(ObjectLiteralPropertyChecker.getterProperty "a", loc1),
               (ObjectLiteralPropertyChecker.setterProperty "a", loc2)] parser).map
            (fun r => (r.1, r.2.2)) = some (true, parser)
          ∧ (ObjectLiteralPropertyChecker.CheckProperty_each
              ObjectLiteralPropertyChecker.plainNames { strict_ := false }
              [(ObjectLiteralPropertyChecker.dataProperty "a", loc1),
               (ObjectLiteralPropertyChecker.dataProperty "a", loc2)] parser).map
            (fun r => (r.1, r.2.2)) = some (true, parser)
          ∧ (ObjectLiteralPropertyChecker.CheckProperty_each
              ObjectLiteralPropertyChecker.plainNames { strict_ := true }
              [(ObjectLiteralPropertyChecker.dataProperty "a", loc1),
               (ObjectLiteralPropertyChecker.dataProperty "a", loc2)] parser).map
            (fun r => (r.1, r.2.2))
              = some (false, parser.ReportMessageAt loc2 "strict_duplicate_property" [])
          ∧ (ObjectLiteralPropertyChecker.CheckProperty_each
              ObjectLiteralPropertyChecker.plainNames { strict_ := strict }
              [(ObjectLiteralPropertyChecker.getterProperty "a", loc1),
               (ObjectLiteralPropertyChecker.dataProperty "a", loc2)] parser).map
            (fun r => (r.1, r.2.2))
              = some (false, parser.ReportMessageAt loc2 "accessor_data_property" [])
          ∧ (ObjectLiteralPropertyChecker.CheckProperty_each
              ObjectLiteralPropertyChecker.plainNames { strict_ := strict }
              [(ObjectLiteralPropertyChecker.dataProperty "a", loc1),
               (ObjectLiteralPropertyChecker.setterProperty "a", loc2)] parser).map
            (fun r => (r.1, r.2.2))
              = some (false, parser.ReportMessageAt loc2 "accessor_data_property" [])
          ∧ (ObjectLiteralPropertyChecker.CheckProperty_each
              ObjectLiteralPropertyChecker.plainNames { strict_ := strict }
              [(ObjectLiteralPropertyChecker.setterProperty "a", loc1),
               (ObjectLiteralPropertyChecker.getterProperty "b", loc1),
               (ObjectLiteralPropertyChecker.setterProperty "a", loc2)] parser).map
            (fun r => (r.1, r.2.2))
              = some (false, parser.ReportMessageAt loc2 "accessor_get_set" [])) := by
  have hmain := ObjectLiteralPropertyChecker.CheckProperty_each_rule conv properties
    { strict_ := strict } [] parser (ObjectLiteralPropertyChecker.Tracks_empty conv strict) hkeys
  obtain ⟨checker1, hrun⟩ := hmain
  refine ⟨?_, ?_, ?_⟩
  · intro hnone
    rw [hnone] at hrun
    exact ⟨checker1, hrun⟩
  · intro property loc message hsome
    rw [hsome] at hrun
    exact ⟨checker1, hrun⟩
  · intro loc1 loc2
    cases strict <;> exact ⟨rfl, rfl, rfl, rfl, rfl, rfl⟩

/-- C36, for the properties `get a`, `set a`, `a:` in strict mode: the third is
rejected as an `accessor_data_property`. -/
theorem CheckProperty_follows_rule_witness :
    ∃ checker1,
      ObjectLiteralPropertyChecker.CheckProperty_each ObjectLiteralPropertyChecker.plainNames
          { strict_ := true }
          [(ObjectLiteralPropertyChecker.getterProperty "a", ⟨2, 7⟩),
           (ObjectLiteralPropertyChecker.setterProperty "a", ⟨15, 20⟩),
           (ObjectLiteralPropertyChecker.dataProperty "a", ⟨30, 31⟩)]
          { scanner_ := Scanner.Initialize [] }
        = some (false, checker1,
            Parser.ReportMessageAt { scanner_ := Scanner.Initialize [] } ⟨30, 31⟩
              "accessor_data_property" []) :=
  (CheckProperty_follows_rule ObjectLiteralPropertyChecker.plainNames true
    [(ObjectLiteralPropertyChecker.getterProperty "a", ⟨2, 7⟩),
     (ObjectLiteralPropertyChecker.setterProperty "a", ⟨15, 20⟩),
     (ObjectLiteralPropertyChecker.dataProperty "a", ⟨30, 31⟩)]
    { scanner_ := Scanner.Initialize [] }
    (by
      intro x hx
      simp only [List.mem_cons, List.mem_singleton, List.not_mem_nil, or_false] at hx
      rcases hx with rfl | rfl | rfl <;> exact ⟨_, rfl⟩)).2.1
    (ObjectLiteralPropertyChecker.dataProperty "a") ⟨30, 31⟩ "accessor_data_property" (by decide)

/-! ## Theorems: initialization blocks -/

namespace InitializationBlockFinder

theorem runs_nil (node : Nat) : runs node [] = [] := by
  rw [runs]

theorem runs_cons (node : Nat) (stat : Option Statement) (rest : List (Option Statement)) :
    runs node (stat :: rest)
      = if isPlainAssignment stat then
          (node, node + (rest.takeWhile (continuesRun stat)).length)
            :: runs (node + (rest.takeWhile (continuesRun stat)).length + 1)
                (rest.drop (rest.takeWhile (continuesRun stat)).length)
        else runs (node + 1) rest := by
  rw [runs]

theorem continuesRun_right_false (first stat : Option Statement)
    (h : ∀ node, ParserFinder.AsAssignment node stat = none) : continuesRun first stat = false := by
  unfold continuesRun
  split
  · rename_i op1 t1 v1 p1 op2 t2 v2 p2
    have := h 0
    simp [ParserFinder.AsAssignment] at this
  · rfl

theorem continuesRun_left_false (first stat : Option Statement)
    (h : ∀ node, ParserFinder.AsAssignment node first = none) : continuesRun first stat = false := by
  unfold continuesRun
  split
  · rename_i op1 t1 v1 p1 op2 t2 v2 p2
    have := h 0
    simp [ParserFinder.AsAssignment] at this
  · rfl

theorem isPlainAssignment_false (stat : Option Statement)
    (h : ∀ node, ParserFinder.AsAssignment node stat = none) : isPlainAssignment stat = false := by
  unfold isPlainAssignment
  split
  · have := h 0
    simp [ParserFinder.AsAssignment] at this
  · rfl

theorem AsAssignment_cases (stat : Option Statement) :
    (∃ op target value pos,
        stat = some (Statement.ExpressionStatement (Expression.Assignment op target value pos)))
      ∨ ∀ node, ParserFinder.AsAssignment node stat = none := by
  by_cases h : ∃ op target value pos,
        stat = some (Statement.ExpressionStatement (Expression.Assignment op target value pos))
  · exact Or.inl h
  · right
    intro node
    unfold ParserFinder.AsAssignment
    split
    · rename_i op target value pos
      exact absurd ⟨op, target, value, pos, rfl⟩ h
    · rfl

theorem AsAssignment_node_eq (node : Nat) (stat : Option Statement) (a : AssignmentRef)
    (h : ParserFinder.AsAssignment node stat = some a) : a.node = node := by
  rcases AsAssignment_cases stat with ⟨op, target, value, pos, rfl⟩ | hnone
  · cases h
    rfl
  · rw [hnone] at h
    cases h

theorem BlockContinues_eq (f : InitializationBlockFinder) (first : Option Statement)
    (b : AssignmentRef) (i j node : Nat) (h : f.InBlockOf first i j) (stat : Option Statement)
    (hb : ParserFinder.AsAssignment node stat = some b) :
    f.BlockContinues (some b) = continuesRun first stat := by
  obtain ⟨a, ha, hfirst⟩ := h.first_eq
  have hplain := h.plain
  rcases AsAssignment_cases first with ⟨op1, target1, value1, pos1, rfl⟩ | hnone
  · rcases AsAssignment_cases stat with ⟨op2, target2, value2, pos2, rfl⟩ | hnone2
    · cases ha
      cases hb
      have hop1 : op1 = Token.ASSIGN := by
        have : decide (op1 = Token.ASSIGN) = true := hplain
        simpa using this
      unfold BlockContinues continuesRun
      rw [hfirst]
      by_cases hop : op2 = Token.ASSIGN
      · simp [hop, hop1]
      · simp [hop, hop1]
    · rw [hnone2] at hb
      cases hb
  · rw [hnone] at ha
    cases ha

theorem appendMarks_assoc (m1 m2 m3 : List Nat × List Nat) :
    appendMarks (appendMarks m1 m2) m3 = appendMarks m1 (appendMarks m2 m3) := by
  simp [appendMarks, List.append_assoc]

theorem appendMarks_nil (m : List Nat × List Nat) : appendMarks m ([], []) = m := by
  simp [appendMarks]

theorem marksOf_cons (r : Nat × Nat) (rs : List (Nat × Nat)) :
    marksOf (r :: rs) = appendMarks (marksOf [r]) (marksOf rs) := by
  unfold marksOf appendMarks
  by_cases h : 3 ≤ r.2 + 1 - r.1
  · simp [List.filter_cons, h]
  · simp [List.filter_cons, h]

theorem marksOf_nil : marksOf [] = ([], []) := rfl

theorem EndBlock_marks (f : InitializationBlockFinder) (first : Option Statement) (i j : Nat)
    (h : f.InBlockOf first i j) :
    f.EndBlock.first_in_block_ = none
      ∧ marksSet f.EndBlock = appendMarks (marksSet f) (marksOf [(i, j)]) := by
  obtain ⟨a, ha, hfirst⟩ := h.first_eq
  obtain ⟨b, hlast, hb⟩ := h.last_eq
  have hnode := AsAssignment_node_eq i first a ha
  have hsize := h.size_eq
  have hle := h.le
  refine ⟨rfl, ?_⟩
  unfold EndBlock marksSet marksOf appendMarks kMinInitializationBlock
  rw [hsize, hfirst, hlast]
  by_cases h3 : 3 ≤ j + 1 - i
  · have h3i : (j : Int) + 1 - i ≥ 3 := by omega
    rw [if_pos h3i]
    simp [List.filter_cons, h3, hnode, hb]
  · have h3i : ¬ ((j : Int) + 1 - i ≥ 3) := by omega
    rw [if_neg h3i]
    simp [List.filter_cons, h3]

theorem Update_in_block (f : InitializationBlockFinder) (first stat : Option Statement)
    (i j : Nat) (h : f.InBlockOf first i j) :
    (continuesRun first stat = true →
        (f.Update (j + 1) stat).InBlockOf first i (j + 1)
          ∧ marksSet (f.Update (j + 1) stat) = marksSet f)
      ∧ (continuesRun first stat = false → isPlainAssignment stat = true →
        (f.Update (j + 1) stat).InBlockOf stat (j + 1) (j + 1)
          ∧ marksSet (f.Update (j + 1) stat) = appendMarks (marksSet f) (marksOf [(i, j)]))
      ∧ (continuesRun first stat = false → isPlainAssignment stat = false →
        (f.Update (j + 1) stat).first_in_block_ = none
          ∧ marksSet (f.Update (j + 1) stat) = appendMarks (marksSet f) (marksOf [(i, j)])) := by
  obtain ⟨a, ha, hfirst⟩ := h.first_eq
  have hin : f.InBlock = true := by
    unfold InBlock
    rw [hfirst]
    rfl
  have hend := EndBlock_marks f first i j h
  have hendin : f.EndBlock.InBlock = false := by
    unfold InBlock
    rw [hend.1]
    rfl
  rcases AsAssignment_cases stat with ⟨op, target, value, pos, rfl⟩ | hnone
  · have has : ParserFinder.AsAssignment (j + 1)
        (some (Statement.ExpressionStatement (Expression.Assignment op target value pos)))
        = some { node := j + 1, op := op, target := target, value := value } := rfl
    have hcont := BlockContinues_eq f first _ i j (j + 1) h
      (some (Statement.ExpressionStatement (Expression.Assignment op target value pos))) has
    have hplain : isPlainAssignment
        (some (Statement.ExpressionStatement (Expression.Assignment op target value pos)))
        = decide (op = Token.ASSIGN) := rfl
    refine ⟨?_, ?_, ?_⟩
    · intro hc
      have hupd : f.Update (j + 1)
          (some (Statement.ExpressionStatement (Expression.Assignment op target value pos)))
          = f.UpdateBlock { node := j + 1, op := op, target := target, value := value } := by
        unfold Update
        rw [has]
        simp only [hin, if_true]
        rw [hcont, hc]
        simp only [if_true]
        have : (f.UpdateBlock { node := j + 1, op := op, target := target, value := value }).InBlock
            = true := hin
        rw [this]
        rfl
      rw [hupd]
      refine ⟨⟨h.plain, ⟨a, ha, hfirst⟩, ⟨_, rfl, rfl⟩, ?_, by have := h.le; omega⟩, rfl⟩
      show f.block_size_ + 1 = _
      rw [h.size_eq]
      push_cast
      ring
    · intro hc hp
      rw [hplain] at hp
      have hop : op = Token.ASSIGN := by simpa using hp
      have hupd : f.Update (j + 1)
          (some (Statement.ExpressionStatement (Expression.Assignment op target value pos)))
          = f.EndBlock.StartBlock { node := j + 1, op := op, target := target, value := value } := by
        unfold Update
        rw [has]
        simp only [hin, if_true]
        rw [hcont, hc]
        simp only [Bool.false_eq_true, if_false]
        rw [hendin]
        simp [hop]
      rw [hupd]
      refine ⟨⟨by rw [hplain]; simpa using hop, ⟨_, has, rfl⟩, ⟨_, rfl, rfl⟩, ?_, le_refl _⟩, ?_⟩
      · show (1 : Int) = _
        push_cast
        ring
      · exact hend.2
    · intro hc hp
      rw [hplain] at hp
      have hop : op ≠ Token.ASSIGN := by simpa using hp
      have hupd : f.Update (j + 1)
          (some (Statement.ExpressionStatement (Expression.Assignment op target value pos)))
          = f.EndBlock := by
        unfold Update
        rw [has]
        simp only [hin, if_true]
        rw [hcont, hc]
        simp only [Bool.false_eq_true, if_false]
        rw [hendin]
        simp [hop]
      rw [hupd]
      exact hend
  · have hupd : f.Update (j + 1) stat = f.EndBlock := by
      unfold Update
      rw [hnone]
      simp only [hin, if_true]
    rw [hupd]
    refine ⟨?_, ?_, ?_⟩
    · intro hc
      rw [continuesRun_right_false first stat hnone] at hc
      cases hc
    · intro _ hp
      rw [isPlainAssignment_false stat hnone] at hp
      cases hp
    · intro _ _
      exact hend

theorem Update_out_of_block (f : InitializationBlockFinder) (stat : Option Statement) (k : Nat)
    (h : f.first_in_block_ = none) :
    (isPlainAssignment stat = true →
        (f.Update k stat).InBlockOf stat k k ∧ marksSet (f.Update k stat) = marksSet f)
      ∧ (isPlainAssignment stat = false →
        (f.Update k stat).first_in_block_ = none ∧ marksSet (f.Update k stat) = marksSet f) := by
  have hin : f.InBlock = false := by
    unfold InBlock
    rw [h]
    rfl
  rcases AsAssignment_cases stat with ⟨op, target, value, pos, rfl⟩ | hnone
  · have has : ParserFinder.AsAssignment k
        (some (Statement.ExpressionStatement (Expression.Assignment op target value pos)))
        = some { node := k, op := op, target := target, value := value } := rfl
    have hplain : isPlainAssignment
        (some (Statement.ExpressionStatement (Expression.Assignment op target value pos)))
        = decide (op = Token.ASSIGN) := rfl
    refine ⟨?_, ?_⟩
    · intro hp
      rw [hplain] at hp
      have hop : op = Token.ASSIGN := by simpa using hp
      have hupd : f.Update k
          (some (Statement.ExpressionStatement (Expression.Assignment op target value pos)))
          = f.StartBlock { node := k, op := op, target := target, value := value } := by
        unfold Update
        rw [has]
        simp [hin, hop]
      rw [hupd]
      refine ⟨⟨by rw [hplain]; simpa using hop, ⟨_, has, rfl⟩, ⟨_, rfl, rfl⟩, ?_, le_refl _⟩, rfl⟩
      show (1 : Int) = _
      ring
    · intro hp
      rw [hplain] at hp
      have hop : op ≠ Token.ASSIGN := by simpa using hp
      have hupd : f.Update k
          (some (Statement.ExpressionStatement (Expression.Assignment op target value pos)))
          = f := by
        unfold Update
        rw [has]
        simp [hin, hop]
      rw [hupd]
      exact ⟨h, rfl⟩
  · have hupd : f.Update k stat = f := by
      unfold Update
      rw [hnone]
      simp only [hin, Bool.false_eq_true, if_false]
    rw [hupd]
    refine ⟨?_, fun _ => ⟨h, rfl⟩⟩
    intro hp
    rw [isPlainAssignment_false stat hnone] at hp
    cases hp

theorem destroy_in_block (f : InitializationBlockFinder) (first : Option Statement) (i j : Nat)
    (h : f.InBlockOf first i j) :
    marksSet f.destroy = appendMarks (marksSet f) (marksOf [(i, j)]) := by
  obtain ⟨a, ha, hfirst⟩ := h.first_eq
  unfold destroy InBlock
  rw [hfirst]
  exact (EndBlock_marks f first i j h).2

theorem destroy_out_of_block (f : InitializationBlockFinder) (h : f.first_in_block_ = none) :
    f.destroy = f := by
  unfold destroy InBlock
  rw [h]
  rfl

/-- The marks that the finder sets on a list of statements, from inside a
block and from outside of a block, are those of the runs of the list. -/
theorem feed_marks :
    ∀ rest : List (Option Statement),
      (∀ (f : InitializationBlockFinder) (first : Option Statement) (i j : Nat),
          f.InBlockOf first i j →
          marksSet (feed f (j + 1) rest).destroy
            = appendMarks (marksSet f)
                (marksOf ((i, j + (rest.takeWhile (continuesRun first)).length)
                  :: runs (j + (rest.takeWhile (continuesRun first)).length + 1)
                      (rest.drop (rest.takeWhile (continuesRun first)).length))))
        ∧ (∀ (f : InitializationBlockFinder) (k : Nat), f.first_in_block_ = none →
          marksSet (feed f k rest).destroy = appendMarks (marksSet f) (marksOf (runs k rest))) := by
  intro rest
  induction rest with
  | nil =>
    refine ⟨?_, ?_⟩
    · intro f first i j h
      show marksSet f.destroy = _
      rw [destroy_in_block f first i j h]
      simp only [List.takeWhile_nil, List.length_nil, Nat.add_zero, List.drop_nil, runs_nil]
    · intro f k h
      show marksSet f.destroy = _
      rw [destroy_out_of_block f h, runs_nil, marksOf_nil, appendMarks_nil]
  | cons stat rest ih =>
    obtain ⟨ihA, ihB⟩ := ih
    refine ⟨?_, ?_⟩
    · intro f first i j h
      show marksSet (feed (f.Update (j + 1) stat) (j + 1 + 1) rest).destroy = _
      obtain ⟨h1, h2, h3⟩ := Update_in_block f first stat i j h
      cases hc : continuesRun first stat with
      | true =>
        obtain ⟨hin, hm⟩ := h1 hc
        rw [ihA _ first i (j + 1) hin, hm, List.takeWhile_cons, hc]
        simp only [if_true, List.length_cons, List.drop_succ_cons]
        have e1 : j + 1 + (List.takeWhile (continuesRun first) rest).length
            = j + ((List.takeWhile (continuesRun first) rest).length + 1) := by omega
        rw [e1]
      | false =>
        rw [List.takeWhile_cons, hc]
        simp only [Bool.false_eq_true, if_false, List.length_nil, Nat.add_zero, List.drop_zero]
        rw [marksOf_cons, runs_cons]
        cases hp : isPlainAssignment stat with
        | true =>
          obtain ⟨hin, hm⟩ := h2 hc hp
          rw [ihA _ stat (j + 1) (j + 1) hin, hm, appendMarks_assoc]
          simp only [if_true]
        | false =>
          obtain ⟨hout, hm⟩ := h3 hc hp
          rw [ihB _ (j + 1 + 1) hout, hm, appendMarks_assoc]
          simp only [Bool.false_eq_true, if_false]
    · intro f k h
      show marksSet (feed (f.Update k stat) (k + 1) rest).destroy = _
      obtain ⟨h1, h2⟩ := Update_out_of_block f stat k h
      rw [runs_cons]
      cases hp : isPlainAssignment stat with
      | true =>
        obtain ⟨hin, hm⟩ := h1 hp
        rw [ihA _ stat k k hin, hm]
        simp only [if_true]
      | false =>
        obtain ⟨hout, hm⟩ := h2 hp
        rw [ihB _ (k + 1) hout, hm]
        simp only [Bool.false_eq_true, if_false]

end InitializationBlockFinder

/-- C34: for every sequence of statements fed to `Update`, with the destructor
at the end, the assignments marked as block start and as block end are the
first and the last statement of every run of at least three statements, in
the order of the runs. A run starts at a plain `=` assignment expression
statement and goes on with the plain `=` assignments whose target is a
property of the same object as the target of the first; the statement that
breaks a run is looked at again and can start the next run. Three assignments
to properties of `a` are one block, two are none, and the assignment to `b.y`
that ends a run on `a` starts the block of `b.y`, `b.z` and `b.w`; an
assignment to a variable and one with `+=` are in no block. -/
theorem InitializationBlockFinder_marks_runs (statements : List (Option Statement)) :
    InitializationBlockFinder.marks statements
        = ((InitializationBlockFinder.blocks statements).map (fun r => r.1),
           (InitializationBlockFinder.blocks statements).map (fun r => r.2))
      ∧ (∀ r ∈ InitializationBlockFinder.blocks statements, r.1 + 2 ≤ r.2)
      ∧ InitializationBlockFinder.marks
          [assignProperty "a" "x", assignProperty "a" "y", assignProperty "a" "z"] = ([0], [2])
      ∧ InitializationBlockFinder.marks [assignProperty "a" "x", assignProperty "a" "y"]
          = ([], [])
      ∧ InitializationBlockFinder.marks
          [assignProperty "a" "x", assignProperty "b" "y", assignProperty "b" "z",
           assignProperty "b" "w", some Statement.EmptyStatement, assignProperty "b" "v"]
          = ([1], [3])
      ∧ InitializationBlockFinder.marks
          [assignVariable "a", assignVariable "a", assignVariable "a", assignProperty "b" "w",
           addToProperty "b" "x", assignProperty "b" "y", assignProperty "b" "z"]
          = ([], [])
      ∧ InitializationBlockFinder.marks
          [assignProperty "a" "x", assignProperty "a" "y", assignProperty "a" "z",
           assignProperty "a" "w", assignProperty "b" "x", assignProperty "b" "y",
           assignProperty "b" "z"]
          = ([0, 4], [3, 6]) := by
  refine ⟨?_, ?_, rfl, rfl, rfl, rfl, rfl⟩
  · have h := (InitializationBlockFinder.feed_marks statements).2 {} 0 rfl
    unfold InitializationBlockFinder.marks InitializationBlockFinder.blocks
    unfold InitializationBlockFinder.marksSet InitializationBlockFinder.marksOf
      InitializationBlockFinder.appendMarks at h
    simp only [List.nil_append, Prod.mk.injEq] at h
    exact Prod.ext h.1 h.2
  · intro r hr
    unfold InitializationBlockFinder.blocks at hr
    have h3 := (List.mem_filter.mp hr).2
    simp only [decide_eq_true_eq] at h3
    omega

/-! ## Theorems: simple assignments to `this` -/

namespace ThisNamedPropertyAssigmentFinder

end ThisNamedPropertyAssigmentFinder

section Diagnostics

set_option linter.unusedTactic false
set_option linter.unreachableTactic false

theorem Parser.Diagnosed.of_eq (p q : Parser) (h : q.reported = p.reported)
    (hp : p.stack_overflow_ = false) : Parser.Diagnosed p true q := by
  show q.reported = (p.messages, false, p.stack_overflow_thrown)
  rw [h, ← hp]
  rfl

theorem Parser.Diagnosed.one (p q : Parser) (x : ParserMessage)
    (h : q.messages = p.messages ++ [x]) (hq : q.stack_overflow_ = p.stack_overflow_)
    (ht : q.stack_overflow_thrown = p.stack_overflow_thrown)
    (hp : p.stack_overflow_ = false) : Parser.Diagnosed p false q :=
  Or.inl ⟨x, Prod.ext h (Prod.ext (hq.trans hp) ht)⟩

theorem Parser.Diagnosed.congr {p p2 q q2 : Parser} {ok : Bool}
    (h : Parser.Diagnosed p2 ok q)
    (hp : p2.messages = p.messages)
    (ht : p2.stack_overflow_thrown = p.stack_overflow_thrown)
    (hq : q2.reported = q.reported) :
    Parser.Diagnosed p ok q2 := by
  cases ok with
  | true =>
    show q2.reported = (p.messages, false, p.stack_overflow_thrown)
    rw [hq, ← hp, ← ht]
    exact h
  | false =>
    show (∃ x, q2.reported = (p.messages ++ [x], false, p.stack_overflow_thrown))
      ∨ q2.reported = (p.messages, true, p.stack_overflow_thrown)
    rw [hq, ← hp, ← ht]
    exact h

theorem Parser.Diagnosed.flag {p q : Parser} (h : Parser.Diagnosed p true q) :
    q.stack_overflow_ = false :=
  congrArg (fun r => r.2.1) h

theorem Parser.Diagnosed.seq {p q1 q : Parser} {ok : Bool}
    (h1 : Parser.Diagnosed p true q1) (h2 : Parser.Diagnosed q1 ok q) :
    Parser.Diagnosed p ok q :=
  Parser.Diagnosed.congr h2 (congrArg Prod.fst h1) (congrArg (fun r => r.2.2) h1) rfl

namespace Production.Reports

theorem rep_pure {α : Type} (a : α) : (Pure.pure a : Production α).Reports :=
  ⟨fun p hp => Parser.Diagnosed.of_eq p p rfl hp⟩

theorem rep_ret {α : Type} (a : α) : (Production.ret a).Reports :=
  ⟨fun p hp => Parser.Diagnosed.of_eq p p rfl hp⟩

theorem rep_read {α : Type} (g : Parser → α) : (Production.read g).Reports :=
  ⟨fun p hp => Parser.Diagnosed.of_eq p p rfl hp⟩

theorem rep_bind_of {α β : Type} {m : Production α} {k : α → Production β}
    (hm : m.Reports)
    (hk : ∀ (p q : Parser) (a : α), m p = (some a, q) → q.stack_overflow_ = false →
      Parser.Diagnosed q (k a q).1.isSome (k a q).2) :
    (m >>= k).Reports := by
  constructor
  intro p hp
  show Parser.Diagnosed p (Production.seq m k p).1.isSome (Production.seq m k p).2
  rw [Production.seq_apply]
  have h1 := hm.reports p hp
  cases h : m p with
  | mk o q =>
    rw [h] at h1
    cases o with
    | none => exact h1
    | some a => exact Parser.Diagnosed.seq h1 (hk p q a h h1.flag)

theorem rep_bind {α β : Type} {m : Production α} {k : α → Production β}
    (hm : m.Reports) (hk : ∀ a, (k a).Reports) :
    (m >>= k).Reports :=
  rep_bind_of hm (fun _ q a _ hq => (hk a).reports q hq)

theorem rep_step {α : Type} {g : Parser → α × Parser}
    (h : ∀ p, (g p).2.reported = p.reported) : (Production.step g).Reports :=
  ⟨fun p hp => Parser.Diagnosed.of_eq p _ (h p) hp⟩

theorem rep_modify {g : Parser → Parser}
    (h : ∀ p, (g p).reported = p.reported) : (Production.modify g).Reports :=
  ⟨fun p hp => Parser.Diagnosed.of_eq p _ (h p) hp⟩

theorem rep_ite {α : Type} (c : Prop) [Decidable c] {a b : Production α}
    (ha : a.Reports) (hb : b.Reports) :
    (if c then a else b).Reports := by
  split_ifs
  · exact ha
  · exact hb

end Production.Reports

theorem Parser.Next_snd_msgs (p : Parser) :
    p.Next.2.reported = p.reported := by
  unfold Parser.Next
  split_ifs <;> rfl

theorem peek_reports : peek.Reports := Production.Reports.rep_read _

theorem Next_reports : Next.Reports :=
  Production.Reports.rep_step Parser.Next_snd_msgs

theorem location_beg_pos_reports : location_beg_pos.Reports := Production.Reports.rep_read _

theorem peek_location_beg_pos_reports : peek_location_beg_pos.Reports :=
  Production.Reports.rep_read _

theorem ReportMessageAndFail_reports {α : Type} (type : String) (args : List String) :
    (ReportMessageAndFail type args : Production α).Reports :=
  ⟨fun p hp => Parser.Diagnosed.one p _ _ rfl rfl rfl hp⟩

theorem ReportUnexpectedTokenAndFail_reports {α : Type} (token : Token) :
    (ReportUnexpectedTokenAndFail token : Production α).Reports := by
  constructor
  intro p hp
  show Parser.Diagnosed p false (p.ReportUnexpectedToken token)
  unfold Parser.ReportUnexpectedToken
  have h : ¬ (token = Token.ILLEGAL ∧ p.stack_overflow_ = true) := by
    rw [hp]
    exact fun h => Bool.noConfusion h.2
  rw [if_neg h]
  cases token <;> exact Parser.Diagnosed.one p _ _ rfl rfl rfl hp

theorem CheckOctalLiteral_reports (beg_pos end_pos : Int) :
    (CheckOctalLiteral beg_pos end_pos).Reports := by
  constructor
  intro p hp
  unfold CheckOctalLiteral
  simp only []
  split_ifs
  · exact Parser.Diagnosed.one p _ _ rfl rfl rfl hp
  · exact Parser.Diagnosed.of_eq p p rfl hp

theorem withTarget_reports {α : Type} (t : Target) {body : Production α}
    (h : body.Reports) : (withTarget t body).Reports :=
  ⟨fun p hp => Parser.Diagnosed.congr
    (h.reports { p with target_stack_ := t :: p.target_stack_ } hp) rfl rfl rfl⟩

theorem withCollector_reports {α : Type} (id : Nat) (targets : List BreakTarget)
    {body : Production α} (h : body.Reports) :
    (withCollector id targets body).Reports := by
  constructor
  intro p hp
  have h1 := h.reports
    { p with target_stack_ := Target.collector id targets :: p.target_stack_ } hp
  unfold withCollector
  simp only [Option.isSome_map']
  exact Parser.Diagnosed.congr h1 rfl rfl rfl

theorem withTargetScope_reports {α : Type} {body : Production α}
    (h : body.Reports) : (withTargetScope body).Reports :=
  ⟨fun p hp => Parser.Diagnosed.congr
    (h.reports { p with target_stack_ := [] } hp) rfl rfl rfl⟩

theorem withLexicalScope_reports {α : Type} (scope : Scope) {body : Production α}
    (h : body.Reports) : (withLexicalScope scope body).Reports :=
  ⟨fun p hp => Parser.Diagnosed.congr (h.reports { p with
      top_scope_ := some scope,
      outer_scopes_ :=
        match p.top_scope_ with
        | some s => s :: p.outer_scopes_
        | none => p.outer_scopes_,
      with_nesting_level_ := 0 } hp) rfl rfl rfl⟩

theorem withTemporaryScope_reports {α : Type} {body : Production α}
    (h : body.Reports) : (withTemporaryScope body).Reports :=
  ⟨fun p hp => Parser.Diagnosed.congr (h.reports { p with
      temp_scope_ := some
        { strict_mode_ :=
            match p.temp_scope_ with
            | some parent => parent.strict_mode_
            | none => false } } hp) rfl rfl rfl⟩

theorem Declare_msgs (name : String) (mode : Variable.Mode)
    (fun_ : Option Expression) (resolve : Bool) (p : Parser) :
    (Declare name mode fun_ resolve p).2.reported = p.reported := by
  unfold Declare
  by_cases hf : p.top_scope.is_function_scope = true
  · simp only [hf, if_true]
    cases hl : p.top_scope.LocalLookup name with
    | none => rfl
    | some var =>
      simp only
      by_cases hc : mode = Variable.Mode.CONST ∨ var.mode = Variable.Mode.CONST
      · simp only [if_pos hc]
        rfl
      · simp only [if_neg hc]
        rfl
  · simp only [hf]
    rfl

theorem Declare_reports (name : String) (mode : Variable.Mode)
    (fun_ : Option Expression) (resolve : Bool) :
    (Declare name mode fun_ resolve).Reports :=
  ⟨fun p hp => Parser.Diagnosed.of_eq p _ (Declare_msgs name mode fun_ resolve p) hp⟩

theorem ReportIllegalJump_reports {α : Type} (message : String)
    (label : Option String) : (ReportIllegalJump message label : Production α).Reports := by
  constructor
  intro p hp
  unfold ReportIllegalJump
  split <;> exact Parser.Diagnosed.one p _ _ rfl rfl rfl hp

theorem ValidateStrictFunction_reports (name : String) (name_is_reserved : Bool)
    (function_token_position start_pos end_pos : Int)
    (name_loc dupe_loc reserved_loc : Location) :
    (ValidateStrictFunction name name_is_reserved function_token_position start_pos end_pos
      name_loc dupe_loc reserved_loc).Reports := by
  constructor
  intro p hp
  unfold ValidateStrictFunction
  simp only []
  split_ifs
  all_goals first
    | exact Parser.Diagnosed.one p _ _ rfl rfl rfl hp
    | exact (CheckOctalLiteral_reports _ _).reports p hp
    | exact Parser.Diagnosed.of_eq p p rfl hp

theorem ReportInvalidPreparseData_reports {α : Type} (name : String) :
    (ReportInvalidPreparseData name : Production α).Reports :=
  ⟨fun p hp => Parser.Diagnosed.one p _ _ rfl rfl rfl hp⟩

theorem Parser.LookupCachedSymbol_msgs (p : Parser) (symbol_id : Nat) :
    (p.LookupCachedSymbol symbol_id).2.reported = p.reported := by
  unfold Parser.LookupCachedSymbol
  simp only []
  split <;> rfl

theorem Parser.LookupSymbol_msgs (p : Parser) (symbol_id : Int) :
    (p.LookupSymbol symbol_id).2.reported = p.reported := by
  unfold Parser.LookupSymbol
  split_ifs
  · rfl
  · exact Parser.LookupCachedSymbol_msgs p _

theorem Parser.GetSymbol_msgs (p : Parser) : p.GetSymbol.2.reported = p.reported := by
  unfold Parser.GetSymbol
  split
  · exact Parser.LookupSymbol_msgs p _
  · exact (Parser.LookupSymbol_msgs _ _).trans rfl

theorem Parser.LookupBreakTarget_msgs (p : Parser) (label : Option String) :
    (p.LookupBreakTarget label).2.reported = p.reported := by
  unfold Parser.LookupBreakTarget
  split <;> rfl

theorem Parser.LookupContinueTarget_msgs (p : Parser) (label : Option String) :
    (p.LookupContinueTarget label).2.reported = p.reported := by
  unfold Parser.LookupContinueTarget
  split <;> rfl

theorem AddLabel_msgs (p : Parser) (labels : Option Nat) (label : String) :
    (AddLabel p labels label).2.reported = p.reported := by
  unfold AddLabel
  split <;> rfl

theorem peek_any_identifier_reports : peek_any_identifier.Reports := by
  unfold peek_any_identifier
  repeat' first
    | with_reducible first
      | apply Production.Reports.rep_bind | apply Production.Reports.rep_pure
      | apply peek_reports
    | intro _
    | rfl
    | split

theorem Consume_reports (_token : Token) :
    (Consume _token).Reports := by
  unfold Consume
  repeat' first
    | with_reducible first
      | apply Production.Reports.rep_bind | apply Production.Reports.rep_pure
      | apply Next_reports
    | intro _
    | rfl
    | split

theorem Expect_reports (token : Token) :
    (Expect token).Reports := by
  unfold Expect
  repeat' first
    | with_reducible first
      | apply Production.Reports.rep_bind | apply Production.Reports.rep_pure
      | apply Production.Reports.rep_ite | apply Next_reports
      | apply ReportUnexpectedTokenAndFail_reports
    | intro _
    | rfl
    | split

theorem Check_reports (token : Token) :
    (Check token).Reports := by
  unfold Check
  repeat' first
    | with_reducible first
      | apply Production.Reports.rep_bind | apply Production.Reports.rep_pure
      | apply Production.Reports.rep_ite | apply peek_reports
      | apply Consume_reports
    | intro _
    | rfl
    | split

theorem ExpectSemicolon_reports : ExpectSemicolon.Reports := by
  unfold ExpectSemicolon
  repeat' first
    | with_reducible first
      | apply Production.Reports.rep_bind | apply Production.Reports.rep_pure
      | apply Production.Reports.rep_ite | apply Production.Reports.rep_read
      | apply peek_reports | apply Next_reports | apply Expect_reports
    | intro _
    | rfl
    | split

theorem ParseIdentifierOrReservedWord_reports : ParseIdentifierOrReservedWord.Reports := by
  unfold ParseIdentifierOrReservedWord
  repeat' first
    | with_reducible first
      | apply Production.Reports.rep_bind | apply Production.Reports.rep_pure
      | apply Production.Reports.rep_ite | apply Production.Reports.rep_read
      | apply Production.Reports.rep_step | apply Expect_reports
      | apply Check_reports | apply Parser.GetSymbol_msgs
    | intro _
    | rfl
    | split

theorem ParseIdentifier_reports : ParseIdentifier.Reports := by
  unfold ParseIdentifier
  repeat' first
    | with_reducible first
      | apply Production.Reports.rep_bind | apply Production.Reports.rep_pure
      | apply ParseIdentifierOrReservedWord_reports
    | intro _
    | rfl
    | split

theorem ParseIdentifierName_reports : ParseIdentifierName.Reports := by
  unfold ParseIdentifierName
  repeat' first
    | with_reducible first
      | apply Production.Reports.rep_bind | apply Production.Reports.rep_ite
      | apply Production.Reports.rep_step | apply Next_reports
      | apply ReportUnexpectedTokenAndFail_reports | apply Parser.GetSymbol_msgs
    | intro _
    | rfl
    | split

theorem CheckStrictModeLValue_reports (expression : Expression) (error : String) :
    (CheckStrictModeLValue expression error).Reports := by
  unfold CheckStrictModeLValue
  repeat' first
    | with_reducible first
      | apply Production.Reports.rep_bind | apply Production.Reports.rep_pure
      | apply Production.Reports.rep_ite | apply ReportMessageAndFail_reports
    | intro _
    | rfl
    | split

theorem ParseArguments_loop_reports (self : Productions)
    (h : self.Report) (result : ExpressionList) (done : Bool) :
    (ParseArguments_loop self result done).Reports := by
  unfold ParseArguments_loop
  repeat' first
    | with_reducible first
      | apply Production.Reports.rep_bind | apply Production.Reports.rep_pure
      | apply Production.Reports.rep_ite | apply peek_reports
      | apply Expect_reports | apply h.ParseAssignmentExpression
      | apply h.ParseArguments_loop
    | intro _
    | rfl
    | split

theorem ParseArguments_reports (self : Productions) (h : self.Report) :
    (ParseArguments self).Reports := by
  unfold ParseArguments
  repeat' first
    | with_reducible first
      | apply Production.Reports.rep_bind | apply Production.Reports.rep_pure
      | apply peek_reports | apply Expect_reports
      | apply ParseArguments_loop_reports self h
    | intro _
    | rfl
    | split

theorem ParseArrayLiteral_loop_reports (self : Productions)
    (h : self.Report) (values : ExpressionList) :
    (ParseArrayLiteral_loop self values).Reports := by
  unfold ParseArrayLiteral_loop
  repeat' first
    | with_reducible first
      | apply Production.Reports.rep_bind | apply Production.Reports.rep_pure
      | apply Production.Reports.rep_ite | apply peek_reports
      | apply Expect_reports | apply h.ParseAssignmentExpression
      | apply h.ParseArrayLiteral_loop
    | intro _
    | rfl
    | split

theorem ParseArrayLiteral_reports (self : Productions) (h : self.Report) :
    (ParseArrayLiteral self).Reports := by
  unfold ParseArrayLiteral
  repeat' first
    | with_reducible first
      | apply Production.Reports.rep_bind | apply Production.Reports.rep_pure
      | apply Production.Reports.rep_step | apply Expect_reports
      | apply ParseArrayLiteral_loop_reports self h
    | intro _
    | rfl
    | split

theorem CheckProperty_reports (checker : ObjectLiteralPropertyChecker)
    (property : ObjectProperty) (loc : Location) (number_text : String)
    (hkey : property.key.IsPropertyKey) :
    (CheckProperty checker property loc number_text).Reports :=
  ⟨fun p hp => by
    rcases CheckProperty_run checker property loc number_text p with ⟨hn, -⟩ | ⟨c, h⟩ | ⟨t, h⟩
    · exact absurd hkey hn
    · rw [h]
      exact Parser.Diagnosed.of_eq p p rfl hp
    · rw [h]
      exact Parser.Diagnosed.one p _ _ rfl rfl rfl hp⟩

theorem ParseIdentifierOrGetOrSet_reports : ParseIdentifierOrGetOrSet.Reports := by
  unfold ParseIdentifierOrGetOrSet
  repeat' first
    | with_reducible first
      | apply Production.Reports.rep_bind | apply Production.Reports.rep_pure
      | apply Production.Reports.rep_read | apply ParseIdentifier_reports
    | intro _
    | rfl
    | split

theorem ParseObjectLiteralGetSet_reports (self : Productions) (h : self.Report)
    (is_getter : Bool) : (ParseObjectLiteralGetSet self is_getter).Reports := by
  unfold ParseObjectLiteralGetSet
  repeat' first
    | with_reducible first
      | apply Production.Reports.rep_bind | apply Production.Reports.rep_pure
      | apply Production.Reports.rep_ite | apply Production.Reports.rep_step
      | apply Next_reports | apply ReportUnexpectedTokenAndFail_reports
      | apply Parser.GetSymbol_msgs | apply h.ParseFunctionLiteral
    | intro _
    | rfl
    | split

theorem Value.isPropertyKey_string (name : String) : (Value.string name).IsPropertyKey :=
  Or.inl ⟨name, rfl⟩

theorem Value.isPropertyKey_number (number : JSNumber) :
    (Value.number number).IsPropertyKey :=
  Or.inr ⟨number, rfl⟩

theorem ReportUnexpectedTokenAndFail_returns {α : Type} (token : Token) (P : α → Prop) :
    (ReportUnexpectedTokenAndFail token : Production α).Returns P :=
  fun _ _ _ h => Option.noConfusion (congrArg Prod.fst h)

theorem ObjectProperty.data_isPropertyKey (key : Value) (value : Expression)
    (h : key.IsPropertyKey) : (ObjectProperty.data key value).key.IsPropertyKey := h

theorem ParseObjectLiteralGetSet_returns (self : Productions) (is_getter : Bool) :
    (ParseObjectLiteralGetSet self is_getter).Returns
      (fun property => property.key.IsPropertyKey) := by
  unfold ParseObjectLiteralGetSet
  repeat' first
    | with_reducible first
      | apply Production.Returns.of_bind | apply Production.Returns.of_ite
      | apply Production.Returns.of_pure
      | apply ReportUnexpectedTokenAndFail_returns
    | intro _
    | exact Or.inl ⟨_, rfl⟩

theorem ParseObjectLiteral_add_reports (self : Productions) (h : self.Report)
    (checker : ObjectLiteralPropertyChecker) (properties : ObjectPropertyList)
    (property : ObjectProperty) (loc : Location) (number_text : String)
    (hkey : property.key.IsPropertyKey) :
    (ParseObjectLiteral_add self checker properties property loc number_text).Reports := by
  unfold ParseObjectLiteral_add
  repeat' first
    | with_reducible first
      | apply Production.Reports.rep_bind | apply Production.Reports.rep_pure
      | apply Production.Reports.rep_ite | apply peek_reports
      | apply Expect_reports
      | apply CheckProperty_reports _ _ _ _ hkey | apply h.ParseObjectLiteral_loop
    | intro _
    | rfl
    | split

theorem ParseObjectLiteral_accessor_reports (self : Productions) (h : self.Report)
    (checker : ObjectLiteralPropertyChecker) (properties : ObjectPropertyList)
    (is_getter : Bool) :
    (ParseObjectLiteral_accessor self checker properties is_getter).Reports := by
  unfold ParseObjectLiteral_accessor
  apply Production.Reports.rep_bind (Production.Reports.rep_read _)
  intro loc
  apply Production.Reports.rep_bind_of (ParseObjectLiteralGetSet_reports self h is_getter)
  intro p q property hrun hq
  exact (ParseObjectLiteral_add_reports self h checker properties property loc ""
    (ParseObjectLiteralGetSet_returns self is_getter p q property hrun)).reports q hq

theorem ParseObjectLiteral_value_reports (self : Productions) (h : self.Report)
    (checker : ObjectLiteralPropertyChecker) (properties : ObjectPropertyList)
    (loc : Location) (key : Value) (number_text : String)
    (hkey : key.IsPropertyKey) :
    (ParseObjectLiteral_value self checker properties loc key number_text).Reports := by
  unfold ParseObjectLiteral_value
  repeat' first
    | with_reducible first
      | apply Production.Reports.rep_bind | apply Production.Reports.rep_pure
      | apply Expect_reports | apply h.ParseAssignmentExpression
      | apply ParseObjectLiteral_add_reports self h _ _ _ _ _ (ObjectProperty.data_isPropertyKey _ _ hkey)
    | intro _
    | rfl
    | split

theorem ParseObjectLiteral_loop_reports (self : Productions) (h : self.Report)
    (checker : ObjectLiteralPropertyChecker) (properties : ObjectPropertyList) :
    (ParseObjectLiteral_loop self checker properties).Reports := by
  unfold ParseObjectLiteral_loop
  repeat' first
    | with_reducible first
      | apply Production.Reports.rep_bind | apply Production.Reports.rep_pure
      | apply Production.Reports.rep_ite | apply Production.Reports.rep_read
      | apply Production.Reports.rep_step | apply peek_reports
      | apply Next_reports | apply ReportUnexpectedTokenAndFail_reports
      | apply Consume_reports | apply Expect_reports
      | apply Parser.GetSymbol_msgs | apply ParseIdentifierOrGetOrSet_reports
      | apply ParseObjectLiteral_accessor_reports self h
      | apply ParseObjectLiteral_value_reports self h _ _ _ _ _ (Value.isPropertyKey_string _)
      | apply ParseObjectLiteral_value_reports self h _ _ _ _ _ (Value.isPropertyKey_number _)
      | apply h.ParseObjectLiteral_loop
    | intro _
    | rfl
    | split

theorem ParseObjectLiteral_reports (self : Productions) (h : self.Report) :
    (ParseObjectLiteral self).Reports := by
  unfold ParseObjectLiteral
  repeat' first
    | with_reducible first
      | apply Production.Reports.rep_bind | apply Production.Reports.rep_pure
      | apply Production.Reports.rep_read | apply Production.Reports.rep_step | apply Expect_reports
      | apply ParseObjectLiteral_loop_reports self h
    | intro _
    | rfl
    | split

theorem ParseRegExpLiteral_reports (seen_equal : Bool) :
    (ParseRegExpLiteral seen_equal).Reports := by
  unfold ParseRegExpLiteral
  repeat' first
    | with_reducible first
      | apply Production.Reports.rep_bind | apply Production.Reports.rep_pure
      | apply Production.Reports.rep_ite | apply Production.Reports.rep_read
      | apply Production.Reports.rep_step | apply Next_reports
      | apply ReportMessageAndFail_reports
    | intro _
    | rfl
    | split

theorem ParseV8Intrinsic_reports (self : Productions) (h : self.Report) :
    (ParseV8Intrinsic self).Reports := by
  unfold ParseV8Intrinsic
  repeat' first
    | with_reducible first
      | apply Production.Reports.rep_bind | apply Production.Reports.rep_pure
      | apply Production.Reports.rep_ite | apply Production.Reports.rep_read
      | apply Expect_reports | apply ParseIdentifier_reports
      | apply ParseArguments_reports self h | apply ReportMessageAndFail_reports
    | intro _
    | rfl
    | split

theorem ParsePrimaryExpression_reports (self : Productions) (h : self.Report) :
    (ParsePrimaryExpression self).Reports := by
  unfold ParsePrimaryExpression
  repeat' first
    | with_reducible first
      | apply Production.Reports.rep_bind | apply Production.Reports.rep_pure
      | apply Production.Reports.rep_ite | apply Production.Reports.rep_read
      | apply Production.Reports.rep_step | apply Production.Reports.rep_modify
      | apply peek_reports | apply Next_reports
      | apply ReportUnexpectedTokenAndFail_reports | apply ParseObjectLiteral_reports self h
      | apply ParseRegExpLiteral_reports | apply ParseV8Intrinsic_reports self h
      | apply Consume_reports | apply Expect_reports
      | apply ParseIdentifier_reports | apply ParseArrayLiteral_reports self h
      | apply Parser.GetSymbol_msgs | apply h.ParseExpression
    | intro _
    | rfl
    | split

theorem ParseMemberWithNewPrefixesExpression_loop_reports (self : Productions)
    (h : self.Report) (stack : PositionStack) (result : Expression) :
    (ParseMemberWithNewPrefixesExpression_loop self stack result).Reports := by
  unfold ParseMemberWithNewPrefixesExpression_loop
  repeat' first
    | with_reducible first
      | apply Production.Reports.rep_bind | apply Production.Reports.rep_pure
      | apply peek_reports | apply location_beg_pos_reports
      | apply Consume_reports | apply Expect_reports
      | apply ParseIdentifierName_reports | apply ParseArguments_reports self h
      | apply h.ParseExpression | apply h.ParseMemberWithNewPrefixesExpression_loop
    | intro _
    | rfl
    | split

theorem ParseMemberWithNewPrefixesExpression_reports (self : Productions) (h : self.Report) (stack : PositionStack) :
    (ParseMemberWithNewPrefixesExpression self stack).Reports := by
  unfold ParseMemberWithNewPrefixesExpression
  repeat' first
    | with_reducible first
      | apply Production.Reports.rep_bind | apply Production.Reports.rep_ite
      | apply peek_reports | apply location_beg_pos_reports
      | apply peek_any_identifier_reports | apply Expect_reports
      | apply ParseIdentifierOrReservedWord_reports
      | apply ParsePrimaryExpression_reports self h
      | apply ParseMemberWithNewPrefixesExpression_loop_reports self h
      | apply h.ParseFunctionLiteral
    | intro _
    | rfl
    | split

theorem ParseNewPrefix_reports (self : Productions) (h : self.Report) (stack : List Int) :
    (ParseNewPrefix self stack).Reports := by
  unfold ParseNewPrefix
  repeat' first
    | with_reducible first
      | apply Production.Reports.rep_bind | apply Production.Reports.rep_pure
      | apply Production.Reports.rep_ite | apply peek_reports
      | apply location_beg_pos_reports | apply Expect_reports
      | apply ParseMemberWithNewPrefixesExpression_reports self h | apply h.ParseNewPrefix
    | intro _
    | rfl
    | split
    | (beta_reduce; split)

theorem ParseNewExpression_reports (self : Productions) (h : self.Report) :
    (ParseNewExpression self).Reports := by
  unfold ParseNewExpression
  repeat' first
    | with_reducible first
      | apply Production.Reports.rep_bind | apply Production.Reports.rep_pure
      | apply ParseNewPrefix_reports self h
    | intro _
    | rfl
    | split

theorem ParseMemberExpression_reports (self : Productions) (h : self.Report) :
    (ParseMemberExpression self).Reports := by
  unfold ParseMemberExpression
  repeat' first
    | with_reducible first
      | apply Production.Reports.rep_bind | apply Production.Reports.rep_pure
      | apply ParseMemberWithNewPrefixesExpression_reports self h
    | intro _
    | rfl
    | split

theorem ParseLeftHandSideExpression_loop_reports (self : Productions) (h : self.Report) (result : Expression) :
    (ParseLeftHandSideExpression_loop self result).Reports := by
  unfold ParseLeftHandSideExpression_loop
  repeat' first
    | with_reducible first
      | apply Production.Reports.rep_bind | apply Production.Reports.rep_pure
      | apply Production.Reports.rep_ite | apply Production.Reports.rep_modify
      | apply peek_reports | apply location_beg_pos_reports
      | apply Consume_reports | apply Expect_reports
      | apply ParseIdentifierName_reports | apply ParseArguments_reports self h
      | apply h.ParseExpression | apply h.ParseLeftHandSideExpression_loop
    | intro _
    | rfl
    | split

theorem ParseLeftHandSideExpression_reports (self : Productions) (h : self.Report) :
    (ParseLeftHandSideExpression self).Reports := by
  unfold ParseLeftHandSideExpression
  repeat' first
    | with_reducible first
      | apply Production.Reports.rep_bind | apply Production.Reports.rep_ite
      | apply peek_reports | apply ParseNewExpression_reports self h
      | apply ParseMemberExpression_reports self h
      | apply ParseLeftHandSideExpression_loop_reports self h
    | intro _
    | rfl
    | split

theorem ParsePostfixExpression_reports (self : Productions) (h : self.Report) :
    (ParsePostfixExpression self).Reports := by
  unfold ParsePostfixExpression
  repeat' first
    | with_reducible first
      | apply Production.Reports.rep_bind | apply Production.Reports.rep_pure
      | apply Production.Reports.rep_ite | apply Production.Reports.rep_read
      | apply peek_reports | apply Next_reports
      | apply location_beg_pos_reports | apply CheckStrictModeLValue_reports
      | apply ParseLeftHandSideExpression_reports self h
    | intro _
    | rfl
    | split

theorem ParseUnaryExpression_reports (self : Productions) (h : self.Report) :
    (ParseUnaryExpression self).Reports := by
  unfold ParseUnaryExpression
  repeat' first
    | with_reducible first
      | apply Production.Reports.rep_bind | apply Production.Reports.rep_pure
      | apply Production.Reports.rep_ite | apply Production.Reports.rep_read
      | apply peek_reports | apply Next_reports
      | apply location_beg_pos_reports | apply ReportMessageAndFail_reports
      | apply CheckStrictModeLValue_reports
      | apply ParsePostfixExpression_reports self h | apply h.ParseUnaryExpression
    | intro _
    | rfl
    | split

theorem ParseBinaryExpression_while_reports (self : Productions)
    (h : self.Report) (prec1 : Int) (accept_IN : Bool) (x : Expression) :
    (ParseBinaryExpression_while self prec1 accept_IN x).Reports := by
  unfold ParseBinaryExpression_while
  repeat' first
    | with_reducible first
      | apply Production.Reports.rep_bind | apply Production.Reports.rep_pure
      | apply Production.Reports.rep_ite | apply peek_reports
      | apply Next_reports | apply location_beg_pos_reports
      | apply h.ParseBinaryExpression | apply h.ParseBinaryExpression_while
    | intro _
    | rfl
    | split

theorem ParseBinaryExpression_for_reports (self : Productions)
    (h : self.Report) (prec prec1 : Int) (accept_IN : Bool) (x : Expression) :
    (ParseBinaryExpression_for self prec prec1 accept_IN x).Reports := by
  unfold ParseBinaryExpression_for
  repeat' first
    | with_reducible first
      | apply Production.Reports.rep_bind | apply Production.Reports.rep_pure
      | apply Production.Reports.rep_ite
      | apply ParseBinaryExpression_while_reports self h
      | apply h.ParseBinaryExpression_for
    | intro _
    | rfl
    | split

theorem ParseBinaryExpression_reports (self : Productions)
    (h : self.Report) (prec : Int) (accept_IN : Bool) :
    (ParseBinaryExpression self prec accept_IN).Reports := by
  unfold ParseBinaryExpression
  repeat' first
    | with_reducible first
      | apply Production.Reports.rep_bind | apply peek_reports
      | apply ParseUnaryExpression_reports self h
      | apply ParseBinaryExpression_for_reports self h
    | intro _
    | rfl
    | split

theorem ParseConditionalExpression_reports (self : Productions) (h : self.Report) (accept_IN : Bool) :
    (ParseConditionalExpression self accept_IN).Reports := by
  unfold ParseConditionalExpression
  repeat' first
    | with_reducible first
      | apply Production.Reports.rep_bind | apply Production.Reports.rep_pure
      | apply Production.Reports.rep_ite | apply peek_reports
      | apply peek_location_beg_pos_reports | apply Consume_reports
      | apply Expect_reports | apply ParseBinaryExpression_reports self h
      | apply h.ParseAssignmentExpression
    | intro _
    | rfl
    | split

theorem ParseAssignmentExpression_reports (self : Productions) (h : self.Report) (accept_IN : Bool) :
    (ParseAssignmentExpression self accept_IN).Reports := by
  unfold ParseAssignmentExpression
  repeat' first
    | with_reducible first
      | apply Production.Reports.rep_bind | apply Production.Reports.rep_pure
      | apply Production.Reports.rep_ite | apply Production.Reports.rep_read
      | apply Production.Reports.rep_modify | apply peek_reports
      | apply Next_reports | apply location_beg_pos_reports
      | apply CheckStrictModeLValue_reports
      | apply ParseConditionalExpression_reports self h | apply h.ParseAssignmentExpression
    | intro _
    | rfl
    | split

theorem ParseExpression_loop_reports (self : Productions)
    (h : self.Report) (accept_IN : Bool) (result : Expression) :
    (ParseExpression_loop self accept_IN result).Reports := by
  unfold ParseExpression_loop
  repeat' first
    | with_reducible first
      | apply Production.Reports.rep_bind | apply Production.Reports.rep_pure
      | apply Production.Reports.rep_ite | apply peek_reports
      | apply location_beg_pos_reports | apply Expect_reports
      | apply ParseAssignmentExpression_reports self h | apply h.ParseExpression_loop
    | intro _
    | rfl
    | split

theorem ParseExpression_reports (self : Productions) (h : self.Report) (accept_IN : Bool) :
    (ParseExpression self accept_IN).Reports := by
  unfold ParseExpression
  repeat' first
    | with_reducible first
      | apply Production.Reports.rep_bind
      | apply ParseAssignmentExpression_reports self h
      | apply ParseExpression_loop_reports self h
    | intro _
    | rfl
    | split

theorem ParseVariableDeclarations_loop_reports (self : Productions)
    (h : self.Report) (accept_IN : Bool) (mode : Variable.Mode) (is_const : Bool)
    (block : StatementList) (nvars : Int) :
    (ParseVariableDeclarations_loop self accept_IN mode is_const block nvars).Reports := by
  unfold ParseVariableDeclarations_loop
  repeat' first
    | with_reducible first
      | apply Production.Reports.rep_bind | apply Production.Reports.rep_pure
      | apply Production.Reports.rep_ite | apply Production.Reports.rep_read
      | apply peek_reports | apply location_beg_pos_reports
      | apply ReportMessageAndFail_reports | apply Declare_reports
      | apply Consume_reports | apply Expect_reports
      | apply ParseIdentifier_reports | apply h.ParseVariableDeclarations_loop
      | apply h.ParseAssignmentExpression
    | intro _
    | rfl
    | split

theorem ParseVariableDeclarations_reports (self : Productions) (h : self.Report) (accept_IN : Bool) :
    (ParseVariableDeclarations self accept_IN).Reports := by
  unfold ParseVariableDeclarations
  repeat' first
    | with_reducible first
      | apply Production.Reports.rep_bind | apply Production.Reports.rep_pure
      | apply Production.Reports.rep_ite | apply Production.Reports.rep_step
      | apply peek_reports | apply Consume_reports
      | apply ParseVariableDeclarations_loop_reports self h
    | intro _
    | rfl
    | split

theorem ParseVariableStatement_reports (self : Productions) (h : self.Report) :
    (ParseVariableStatement self).Reports := by
  unfold ParseVariableStatement
  repeat' first
    | with_reducible first
      | apply Production.Reports.rep_bind | apply Production.Reports.rep_pure
      | apply ExpectSemicolon_reports
      | apply ParseVariableDeclarations_reports self h
    | intro _
    | rfl
    | split

theorem ParseBlock_loop_reports (self : Productions)
    (h : self.Report) (statements : StatementList) :
    (ParseBlock_loop self statements).Reports := by
  unfold ParseBlock_loop
  repeat' first
    | with_reducible first
      | apply Production.Reports.rep_bind | apply Production.Reports.rep_pure
      | apply Production.Reports.rep_ite | apply peek_reports | apply h.ParseStatement
      | apply h.ParseBlock_loop
    | intro _
    | rfl
    | split

theorem ParseBlock_reports (self : Productions) (h : self.Report) (labels : Option Nat) :
    (ParseBlock self labels).Reports := by
  unfold ParseBlock
  repeat' first
    | with_reducible first
      | apply Production.Reports.rep_bind | apply Production.Reports.rep_pure
      | apply Production.Reports.rep_step | apply withTarget_reports
      | apply Expect_reports | apply ParseBlock_loop_reports self h
    | intro _
    | rfl
    | split

theorem ParseExpressionOrLabelledStatement_reports (self : Productions) (h : self.Report) (labels : Option Nat) :
    (ParseExpressionOrLabelledStatement self labels).Reports := by
  unfold ParseExpressionOrLabelledStatement
  repeat' first
    | with_reducible first
      | apply Production.Reports.rep_bind | apply Production.Reports.rep_pure
      | apply Production.Reports.rep_ite | apply Production.Reports.rep_read
      | apply Production.Reports.rep_step | apply Production.Reports.rep_modify
      | apply peek_reports | apply ReportMessageAndFail_reports
      | apply peek_any_identifier_reports | apply Expect_reports
      | apply ExpectSemicolon_reports | apply ParseExpression_reports self h
      | apply AddLabel_msgs | apply h.ParseStatement
    | intro _
    | rfl
    | split

theorem ParseIfStatement_reports (self : Productions) (h : self.Report) (labels : Option Nat) :
    (ParseIfStatement self labels).Reports := by
  unfold ParseIfStatement
  repeat' first
    | with_reducible first
      | apply Production.Reports.rep_bind | apply Production.Reports.rep_pure
      | apply Production.Reports.rep_ite | apply peek_reports
      | apply Next_reports | apply Expect_reports
      | apply ParseExpression_reports self h | apply h.ParseStatement
    | intro _
    | rfl
    | split

theorem ParseJumpLabel_reports : ParseJumpLabel.Reports := by
  unfold ParseJumpLabel
  repeat' first
    | with_reducible first
      | apply Production.Reports.rep_bind | apply Production.Reports.rep_pure
      | apply Production.Reports.rep_ite | apply Production.Reports.rep_read
      | apply peek_reports | apply ParseIdentifier_reports
    | intro _
    | rfl
    | split

theorem ParseContinueStatement_reports : ParseContinueStatement.Reports := by
  unfold ParseContinueStatement
  repeat' first
    | with_reducible first
      | apply Production.Reports.rep_bind | apply Production.Reports.rep_pure
      | apply Production.Reports.rep_step | apply ReportIllegalJump_reports
      | apply Expect_reports | apply ExpectSemicolon_reports
      | apply ParseJumpLabel_reports | apply Parser.LookupContinueTarget_msgs
    | intro _
    | rfl
    | split

theorem ParseBreakStatement_reports (labels : Option Nat) :
    (ParseBreakStatement labels).Reports := by
  unfold ParseBreakStatement
  repeat' first
    | with_reducible first
      | apply Production.Reports.rep_bind | apply Production.Reports.rep_pure
      | apply Production.Reports.rep_ite | apply Production.Reports.rep_read
      | apply Production.Reports.rep_step | apply ReportIllegalJump_reports
      | apply Expect_reports | apply ExpectSemicolon_reports
      | apply ParseJumpLabel_reports | apply Parser.LookupBreakTarget_msgs
    | intro _
    | rfl
    | split

theorem ParseReturnStatement_reports (self : Productions) (h : self.Report) :
    (ParseReturnStatement self).Reports := by
  unfold ParseReturnStatement
  repeat' first
    | with_reducible first
      | apply Production.Reports.rep_bind | apply Production.Reports.rep_pure
      | apply Production.Reports.rep_ite | apply Production.Reports.rep_read
      | apply peek_reports | apply Expect_reports
      | apply ExpectSemicolon_reports | apply ParseExpression_reports self h
    | intro _
    | rfl
    | split

theorem WithHelper_reports (self : Productions)
    (h : self.Report) (obj : Expression) (labels : Option Nat) (is_catch_block : Bool) :
    (WithHelper self obj labels is_catch_block).Reports := by
  unfold WithHelper
  repeat' first
    | with_reducible first
      | apply Production.Reports.rep_bind | apply Production.Reports.rep_pure
      | apply Production.Reports.rep_step | apply Production.Reports.rep_modify
      | apply withCollector_reports | apply h.ParseStatement
    | intro _
    | rfl
    | split

theorem ParseWithStatement_reports (self : Productions) (h : self.Report) (labels : Option Nat) :
    (ParseWithStatement self labels).Reports := by
  unfold ParseWithStatement
  repeat' first
    | with_reducible first
      | apply Production.Reports.rep_bind | apply Production.Reports.rep_ite
      | apply Production.Reports.rep_read | apply ReportMessageAndFail_reports
      | apply Expect_reports | apply ParseExpression_reports self h
      | apply WithHelper_reports self h
    | intro _
    | rfl
    | split

theorem ParseCaseClause_loop_reports (self : Productions)
    (h : self.Report) (statements : StatementList) :
    (ParseCaseClause_loop self statements).Reports := by
  unfold ParseCaseClause_loop
  repeat' first
    | with_reducible first
      | apply Production.Reports.rep_bind | apply Production.Reports.rep_pure
      | apply Production.Reports.rep_ite | apply peek_reports | apply h.ParseStatement
      | apply h.ParseCaseClause_loop
    | intro _
    | rfl
    | split

theorem ParseCaseClause_reports (self : Productions) (h : self.Report) (default_seen : Bool) :
    (ParseCaseClause self default_seen).Reports := by
  unfold ParseCaseClause
  repeat' first
    | with_reducible first
      | apply Production.Reports.rep_bind | apply Production.Reports.rep_pure
      | apply Production.Reports.rep_ite | apply peek_reports
      | apply location_beg_pos_reports | apply ReportMessageAndFail_reports
      | apply Expect_reports | apply ParseExpression_reports self h
      | apply ParseCaseClause_loop_reports self h
    | intro _
    | rfl
    | split

theorem ParseSwitchStatement_loop_reports (self : Productions)
    (h : self.Report) (default_seen : Bool) (cases : CaseClauseList) :
    (ParseSwitchStatement_loop self default_seen cases).Reports := by
  unfold ParseSwitchStatement_loop
  repeat' first
    | with_reducible first
      | apply Production.Reports.rep_bind | apply Production.Reports.rep_pure
      | apply Production.Reports.rep_ite | apply peek_reports
      | apply ParseCaseClause_reports self h | apply h.ParseSwitchStatement_loop
    | intro _
    | rfl
    | split

theorem ParseSwitchStatement_reports (self : Productions) (h : self.Report) (labels : Option Nat) :
    (ParseSwitchStatement self labels).Reports := by
  unfold ParseSwitchStatement
  repeat' first
    | with_reducible first
      | apply Production.Reports.rep_bind | apply Production.Reports.rep_pure
      | apply Production.Reports.rep_step | apply withTarget_reports
      | apply Expect_reports | apply ParseExpression_reports self h
      | apply ParseSwitchStatement_loop_reports self h
    | intro _
    | rfl
    | split

theorem ParseThrowStatement_reports (self : Productions) (h : self.Report) :
    (ParseThrowStatement self).Reports := by
  unfold ParseThrowStatement
  repeat' first
    | with_reducible first
      | apply Production.Reports.rep_bind | apply Production.Reports.rep_pure
      | apply Production.Reports.rep_ite | apply Production.Reports.rep_read
      | apply location_beg_pos_reports | apply ReportMessageAndFail_reports
      | apply Expect_reports | apply ExpectSemicolon_reports
      | apply ParseExpression_reports self h
    | intro _
    | rfl
    | split

theorem ParseTryStatement_try_reports (self : Productions) (h : self.Report) :
    (ParseTryStatement_try self).Reports := by
  unfold ParseTryStatement_try
  repeat' first
    | with_reducible first
      | apply Production.Reports.rep_bind | apply Production.Reports.rep_pure
      | apply Production.Reports.rep_step | apply withCollector_reports
      | apply Expect_reports | apply ParseBlock_reports self h
    | intro _
    | rfl

theorem ParseTryStatement_catch_reports (self : Productions) (h : self.Report)
    (has_catch : Bool) : (ParseTryStatement_catch self has_catch).Reports := by
  unfold ParseTryStatement_catch
  repeat' first
    | with_reducible first
      | apply Production.Reports.rep_bind | apply Production.Reports.rep_pure
      | apply Production.Reports.rep_ite | apply Production.Reports.rep_read
      | apply Production.Reports.rep_step | apply withCollector_reports
      | apply peek_reports | apply Consume_reports | apply Expect_reports
      | apply ParseIdentifier_reports | apply ReportMessageAndFail_reports
      | apply WithHelper_reports self h
    | intro _
    | rfl
    | split

theorem ParseTryStatement_finally_reports (self : Productions) (h : self.Report)
    (has_catch : Bool) : (ParseTryStatement_finally self has_catch).Reports := by
  unfold ParseTryStatement_finally
  repeat' first
    | with_reducible first
      | apply Production.Reports.rep_bind | apply Production.Reports.rep_pure
      | apply Production.Reports.rep_ite
      | apply peek_reports | apply Consume_reports | apply ParseBlock_reports self h
    | intro _
    | rfl
    | split

/-- Without a catch clause the finally clause is parsed. -/
theorem ParseTryStatement_finally_some (self : Productions) (p q : Parser)
    (finally_block : Option Statement)
    (h : ParseTryStatement_finally self false p = (some finally_block, q)) :
    ∃ b, finally_block = some b := by
  unfold ParseTryStatement_finally at h
  simp only [Production.bind_eq, Production.pure_eq] at h
  obtain ⟨tok3, p1, -, h⟩ := Production.seq_eq_some h
  simp only [Bool.not_false, Bool.or_true, if_true] at h
  obtain ⟨_, p2, -, h⟩ := Production.seq_eq_some h
  obtain ⟨b, p3, -, h⟩ := Production.seq_eq_some h
  simp only [Production.ret_apply, Prod.mk.injEq, Option.some.injEq] at h
  exact ⟨b, h.1.symm⟩

theorem ParseTryStatement_result_reports (try_r : Statement × List BreakTarget)
    (catch_r : Option (Statement × Variable) × List BreakTarget)
    (finally_block : Option Statement)
    (hsome : catch_r.1.isSome = true ∨ finally_block.isSome = true) :
    (ParseTryStatement_result try_r catch_r finally_block).Reports := by
  unfold ParseTryStatement_result
  split
  · repeat' first
      | with_reducible first
        | apply Production.Reports.rep_bind | apply Production.Reports.rep_pure
        | apply Production.Reports.rep_step
      | intro _
      | rfl
  · repeat' first
      | with_reducible first
        | apply Production.Reports.rep_bind | apply Production.Reports.rep_pure
        | apply Production.Reports.rep_step
      | intro _
      | rfl
  · exact Production.Reports.rep_pure _
  · rename_i h2
    rw [h2] at hsome
    rcases hsome with h | h <;> cases h

theorem ParseTryStatement_reports (self : Productions) (h : self.Report) :
    (ParseTryStatement self).Reports := by
  rw [ParseTryStatement_eq]
  apply Production.Reports.rep_bind (ParseTryStatement_try_reports self h)
  intro try_r
  apply Production.Reports.rep_bind peek_reports
  intro tok
  apply Production.Reports.rep_ite
  · exact ReportMessageAndFail_reports _ _
  · apply Production.Reports.rep_bind_of (ParseTryStatement_catch_reports self h _)
    intro p q catch_r hcatch hq
    refine (Production.Reports.rep_bind_of (ParseTryStatement_finally_reports self h _)
      ?_).reports q hq
    intro p2 q2 finally_block hfinally hq2
    refine (ParseTryStatement_result_reports try_r catch_r finally_block ?_).reports q2 hq2
    by_cases hc : tok = Token.CATCH
    · left
      rw [decide_eq_true hc] at hcatch
      obtain ⟨cb, cv, hr⟩ := ParseTryStatement_catch_present self p q catch_r hcatch
      rw [hr]
      rfl
    · right
      rw [decide_eq_false hc] at hfinally
      obtain ⟨b, hb⟩ := ParseTryStatement_finally_some self p2 q2 finally_block hfinally
      rw [hb]
      rfl

theorem ParseDoWhileStatement_reports (self : Productions) (h : self.Report) (labels : Option Nat) :
    (ParseDoWhileStatement self labels).Reports := by
  unfold ParseDoWhileStatement
  repeat' first
    | with_reducible first
      | apply Production.Reports.rep_bind | apply Production.Reports.rep_pure
      | apply Production.Reports.rep_ite | apply Production.Reports.rep_step
      | apply Production.Reports.rep_modify | apply withTarget_reports
      | apply peek_reports | apply location_beg_pos_reports
      | apply Consume_reports | apply Expect_reports
      | apply ParseExpression_reports self h | apply h.ParseStatement
    | intro _
    | rfl
    | split

theorem ParseWhileStatement_reports (self : Productions) (h : self.Report) (labels : Option Nat) :
    (ParseWhileStatement self labels).Reports := by
  unfold ParseWhileStatement
  repeat' first
    | with_reducible first
      | apply Production.Reports.rep_bind | apply Production.Reports.rep_pure
      | apply Production.Reports.rep_step | apply Production.Reports.rep_modify
      | apply withTarget_reports | apply Expect_reports
      | apply ParseExpression_reports self h | apply h.ParseStatement
    | intro _
    | rfl
    | split

theorem ParseForStatement_standard_reports (self : Productions)
    (h : self.Report) (labels : Option Nat) (init : StatementList) :
    (ParseForStatement_standard self labels init).Reports := by
  unfold ParseForStatement_standard
  repeat' first
    | with_reducible first
      | apply Production.Reports.rep_bind | apply Production.Reports.rep_pure
      | apply Production.Reports.rep_ite | apply Production.Reports.rep_step
      | apply withTarget_reports | apply peek_reports
      | apply Expect_reports | apply ParseExpression_reports self h
      | apply h.ParseStatement
    | intro _
    | rfl
    | split

theorem ParseForStatement_in_reports (self : Productions)
    (h : self.Report) (labels : Option Nat) (each : Expression) :
    (ParseForStatement_in self labels each).Reports := by
  unfold ParseForStatement_in
  repeat' first
    | with_reducible first
      | apply Production.Reports.rep_bind | apply Production.Reports.rep_pure
      | apply Production.Reports.rep_step | apply withTarget_reports
      | apply Expect_reports | apply ParseExpression_reports self h
      | apply h.ParseStatement
    | intro _
    | rfl
    | split

theorem ParseForStatement_reports (self : Productions) (h : self.Report) (labels : Option Nat) :
    (ParseForStatement self labels).Reports := by
  unfold ParseForStatement
  repeat' first
    | with_reducible first
      | apply Production.Reports.rep_bind | apply Production.Reports.rep_pure
      | apply Production.Reports.rep_ite | apply Production.Reports.rep_read
      | apply Production.Reports.rep_step | apply Production.Reports.rep_modify
      | apply peek_reports | apply Expect_reports
      | apply ParseExpression_reports self h
      | apply ParseVariableDeclarations_reports self h
      | apply ParseForStatement_standard_reports self h
      | apply ParseForStatement_in_reports self h
    | intro _
    | rfl
    | split

theorem ParseDebuggerStatement_reports : ParseDebuggerStatement.Reports := by
  unfold ParseDebuggerStatement
  repeat' first
    | with_reducible first
      | apply Production.Reports.rep_bind | apply Production.Reports.rep_pure
      | apply Expect_reports | apply ExpectSemicolon_reports
    | intro _
    | rfl
    | split

theorem ParseFunctionDeclaration_reports (self : Productions) (h : self.Report) :
    (ParseFunctionDeclaration self).Reports := by
  unfold ParseFunctionDeclaration
  repeat' first
    | with_reducible first
      | apply Production.Reports.rep_bind | apply Production.Reports.rep_pure
      | apply location_beg_pos_reports | apply Declare_reports
      | apply Expect_reports | apply ParseIdentifierOrReservedWord_reports
      | apply h.ParseFunctionLiteral
    | intro _
    | rfl
    | split

theorem ParseNativeDeclaration_reports : ParseNativeDeclaration.Reports := by
  unfold ParseNativeDeclaration
  repeat' first
    | with_reducible first
      | apply Production.Reports.rep_bind | apply ReportUnexpectedTokenAndFail_reports
    | intro _
    | rfl
    | split

theorem ParseStatement_reports (self : Productions) (h : self.Report) (labels : Option Nat) :
    (ParseStatement self labels).Reports := by
  unfold ParseStatement
  repeat' first
    | with_reducible first
      | apply Production.Reports.rep_bind | apply Production.Reports.rep_pure
      | apply Production.Reports.rep_step | apply withTarget_reports
      | apply peek_reports | apply Next_reports
      | apply ParseVariableStatement_reports self h
      | apply ParseBlock_reports self h
      | apply ParseExpressionOrLabelledStatement_reports self h
      | apply ParseIfStatement_reports self h
      | apply ParseContinueStatement_reports | apply ParseBreakStatement_reports
      | apply ParseReturnStatement_reports self h
      | apply ParseWithStatement_reports self h
      | apply ParseSwitchStatement_reports self h
      | apply ParseThrowStatement_reports self h
      | apply ParseTryStatement_reports self h
      | apply ParseDoWhileStatement_reports self h
      | apply ParseWhileStatement_reports self h
      | apply ParseForStatement_reports self h
      | apply ParseDebuggerStatement_reports
      | apply ParseFunctionDeclaration_reports self h
      | apply ParseNativeDeclaration_reports
    | intro _
    | rfl
    | split

theorem ParseFunctionLiteral_params_reports (self : Productions)
    (h : self.Report) (num_parameters : Int)
    (name_loc dupe_loc reserved_loc : Location) :
    (ParseFunctionLiteral_params self num_parameters name_loc dupe_loc reserved_loc).Reports := by
  unfold ParseFunctionLiteral_params
  repeat' first
    | with_reducible first
      | apply Production.Reports.rep_bind | apply Production.Reports.rep_pure
      | apply Production.Reports.rep_ite | apply Production.Reports.rep_read
      | apply Production.Reports.rep_modify | apply peek_reports
      | apply Expect_reports | apply ParseIdentifierOrReservedWord_reports
      | apply h.ParseFunctionLiteral_params
    | intro _
    | rfl
    | split
    | exact ⟨fun p hp => Parser.Diagnosed.one p _ _ rfl rfl rfl hp⟩

theorem ParseFunctionLiteral_lazy_reports (name : String) (function_block_pos : Int) (data : ScriptDataImpl) :
    (ParseFunctionLiteral_lazy name function_block_pos data).Reports := by
  unfold ParseFunctionLiteral_lazy
  repeat' first
    | with_reducible first
      | apply Production.Reports.rep_bind | apply Production.Reports.rep_pure
      | apply Production.Reports.rep_ite | apply Production.Reports.rep_modify
      | apply ReportInvalidPreparseData_reports | apply Expect_reports
    | intro _
    | rfl
    | split

theorem ParseSourceElements_loop_reports (self : Productions) (h : self.Report)
    (end_token : Token) (directive_prologue : Bool) (processor : StatementList) :
    (ParseSourceElements_loop self end_token directive_prologue processor).Reports := by
  unfold ParseSourceElements_loop
  repeat' first
    | with_reducible first
      | apply Production.Reports.rep_bind | apply Production.Reports.rep_pure
      | apply Production.Reports.rep_ite | apply Production.Reports.rep_read
      | apply Production.Reports.rep_modify
      | apply peek_reports | apply h.ParseStatement | apply h.ParseSourceElements_loop
    | intro _
    | rfl

theorem ParseSourceElements_reports (self : Productions) (h : self.Report)
    (processor : StatementList) (end_token : Token) :
    (ParseSourceElements self processor end_token).Reports :=
  withTargetScope_reports (ParseSourceElements_loop_reports self h end_token true processor)

theorem ParseFunctionLiteral_eager_reports (self : Productions) (h : self.Report)
    (body : StatementList) : (ParseFunctionLiteral_eager self body).Reports := by
  unfold ParseFunctionLiteral_eager
  repeat' first
    | with_reducible first
      | apply Production.Reports.rep_bind | apply Production.Reports.rep_pure
      | apply Production.Reports.rep_read | apply Expect_reports
      | apply ParseSourceElements_reports _ h
    | intro _

theorem ParseFunctionLiteral_reports (self : Productions) (h : self.Report)
    (var_name : Option String)
    (name_is_reserved : Bool) (function_token_position : Int) (type : FunctionLiteralType) :
    (ParseFunctionLiteral self var_name name_is_reserved function_token_position
      type).Reports := by
  unfold ParseFunctionLiteral
  repeat' first
    | with_reducible first
      | apply Production.Reports.rep_bind | apply Production.Reports.rep_pure
      | apply Production.Reports.rep_ite | apply Production.Reports.rep_read
      | apply Production.Reports.rep_step | apply Production.Reports.rep_modify
      | apply withLexicalScope_reports | apply withTemporaryScope_reports
      | apply peek_reports | apply Expect_reports | apply location_beg_pos_reports
      | apply ParseFunctionLiteral_params_reports _ h
      | apply ParseFunctionLiteral_lazy_reports
      | apply ParseFunctionLiteral_eager_reports _ h
      | apply ValidateStrictFunction_reports
    | intro _
    | rfl
    | split

theorem Limited.StackOverflow_reports {α : Type} :
    (Limited.StackOverflow : Production α).Reports :=
  ⟨fun _ _ => Or.inr rfl⟩

/-- Every production of the table reports nothing when it succeeds, and when
it fails it has reported one diagnostic or the stack has overflowed, at every
depth of the stack. -/
theorem Limited.productions_report : ∀ depth : Nat, (Limited.productions depth).Report := by
  intro depth
  induction depth with
  | zero =>
    constructor <;> intros <;> exact Limited.StackOverflow_reports
  | succ n ih =>
    constructor
    · exact ParseStatement_reports _ ih
    · exact ParseSourceElements_loop_reports _ ih
    · exact ParseBlock_loop_reports _ ih
    · exact ParseCaseClause_loop_reports _ ih
    · exact ParseSwitchStatement_loop_reports _ ih
    · exact ParseVariableDeclarations_loop_reports _ ih
    · exact ParseFunctionLiteral_params_reports _ ih
    · exact ParseFunctionLiteral_reports _ ih
    · exact ParseExpression_reports _ ih
    · exact ParseExpression_loop_reports _ ih
    · exact ParseAssignmentExpression_reports _ ih
    · exact ParseBinaryExpression_reports _ ih
    · exact ParseBinaryExpression_for_reports _ ih
    · exact ParseBinaryExpression_while_reports _ ih
    · exact ParseUnaryExpression_reports _ ih
    · exact ParseNewPrefix_reports _ ih
    · exact ParseLeftHandSideExpression_loop_reports _ ih
    · exact ParseMemberWithNewPrefixesExpression_loop_reports _ ih
    · exact fun a => ParseArguments_loop_reports _ ih a false
    · exact ParseArrayLiteral_loop_reports _ ih
    · exact ParseObjectLiteral_loop_reports _ ih

/-- The body of `DoParseProgram` (lines 666-689) as a production. -/
theorem DoParseProgram_body_reports (self : Productions) (h : self.Report)
    (strict_mode : Bool) (source_length : Int) (scope_id : Nat) :
    (do
      if strict_mode then Production.modify Parser.EnableStrictMode else pure ()
      let beg_loc ← location_beg_pos
      let body ← ParseSourceElements self StatementList.nil Token.EOS
      let strict ← Production.read Parser.StrictMode
      let end_pos ← Production.read (fun q => q.scanner_.location.end_pos)
      if strict then CheckOctalLiteral beg_loc end_pos else pure ()
      let temp_scope ← Production.read Parser.temp_scope
      pure (Expression.FunctionLiteral "" scope_id body
        temp_scope.materialized_literal_count_ temp_scope.expected_property_count_
        0 0 source_length false (decide (temp_scope.loop_count_ > 0))
        temp_scope.strict_mode_ kNoPosition) : Production Expression).Reports := by
  repeat' first
    | with_reducible first
      | apply Production.Reports.rep_bind | apply Production.Reports.rep_pure
      | apply Production.Reports.rep_ite | apply Production.Reports.rep_read
      | apply Production.Reports.rep_modify | apply location_beg_pos_reports
      | apply CheckOctalLiteral_reports
      | apply ParseSourceElements_reports self h
    | intro _
    | rfl

/-- Behind the body, `Top::StackOverflow` is called exactly when the body has
failed without a diagnostic. -/
theorem Limited.orStackOverflow_thrown {α : Type} (body : Production α) (p : Parser)
    (h : Parser.Diagnosed p (body p).1.isSome (body p).2) :
    (Limited.orStackOverflow body p).1 = (body p).1
    ∧ (((Limited.orStackOverflow body p).1.isSome = true
        ∧ (Limited.orStackOverflow body p).2.messages = p.messages
        ∧ (Limited.orStackOverflow body p).2.stack_overflow_thrown = p.stack_overflow_thrown)
      ∨ ((Limited.orStackOverflow body p).1 = none
        ∧ (∃ x, (Limited.orStackOverflow body p).2.messages = p.messages ++ [x])
        ∧ (Limited.orStackOverflow body p).2.stack_overflow_thrown = p.stack_overflow_thrown)
      ∨ ((Limited.orStackOverflow body p).1 = none
        ∧ (Limited.orStackOverflow body p).2.messages = p.messages
        ∧ (Limited.orStackOverflow body p).2.stack_overflow_thrown = true)) := by
  unfold Limited.orStackOverflow
  cases hb : body p with
  | mk o q =>
    rw [hb] at h
    cases o with
    | some a =>
      exact ⟨rfl, Or.inl ⟨rfl, congrArg Prod.fst h, congrArg (fun r => r.2.2) h⟩⟩
    | none =>
      refine ⟨rfl, Or.inr ?_⟩
      rcases h with ⟨x, hx⟩ | hx
      · have h1 : q.stack_overflow_ = false := congrArg (fun r => r.2.1) hx
        have h2 : q.messages = p.messages ++ [x] := congrArg Prod.fst hx
        have h3 : q.stack_overflow_thrown = p.stack_overflow_thrown :=
          congrArg (fun r => r.2.2) hx
        refine Or.inl ⟨rfl, ⟨x, ?_⟩, ?_⟩
        · show (if q.stack_overflow_ = true then _ else q).messages = _
          rw [h1]
          exact h2
        · show (if q.stack_overflow_ = true then _ else q).stack_overflow_thrown = _
          rw [h1]
          exact h3
      · have h1 : q.stack_overflow_ = true := congrArg (fun r => r.2.1) hx
        have h2 : q.messages = p.messages := congrArg Prod.fst hx
        refine Or.inr ⟨rfl, ?_, ?_⟩
        · show (if q.stack_overflow_ = true then _ else q).messages = _
          rw [h1]
          exact h2
        · show (if q.stack_overflow_ = true then _ else q).stack_overflow_thrown = _
          rw [h1]
          rfl

end Diagnostics

/-! ## Theorems: a tree or one diagnostic -/

/-- The tree that the body of `DoParseProgram` returns is a function literal
without a name and without parameters, from position 0 to the end of the
source. -/
theorem DoParseProgram_body_returns (self : Productions) (strict_mode : Bool)
    (source_length : Int) (scope_id : Nat) :
    (do
      if strict_mode then Production.modify Parser.EnableStrictMode else pure ()
      let beg_loc ← location_beg_pos
      let body ← ParseSourceElements self StatementList.nil Token.EOS
      let strict ← Production.read Parser.StrictMode
      let end_pos ← Production.read (fun q => q.scanner_.location.end_pos)
      if strict then CheckOctalLiteral beg_loc end_pos else pure ()
      let temp_scope ← Production.read Parser.temp_scope
      pure (Expression.FunctionLiteral "" scope_id body
        temp_scope.materialized_literal_count_ temp_scope.expected_property_count_
        0 0 source_length false (decide (temp_scope.loop_count_ > 0))
        temp_scope.strict_mode_ kNoPosition) : Production Expression).Returns
      (fun tree =>
        ∃ (body : StatementList) (literals properties : Int) (loops strict : Bool),
          tree = Expression.FunctionLiteral "" scope_id body literals properties 0 0
            source_length false loops strict kNoPosition) := by
  repeat' first
    | with_reducible first
      | apply Production.Returns.of_bind | apply Production.Returns.of_ite
      | apply Production.Returns.of_pure
    | intro _
    | exact ⟨_, _, _, _, _, rfl⟩

theorem Limited.orStackOverflow_fst {α : Type} (body : Production α) (p : Parser) :
    (Limited.orStackOverflow body p).1 = (body p).1 := by
  unfold Limited.orStackOverflow
  cases hb : body p with
  | mk o q =>
    cases o <;> rfl

theorem Limited.DoParseProgram_result (depth : Nat) (p q : Parser) (source_length : Int)
    (in_global_context strict_mode : Bool) (tree : Expression)
    (h : Limited.DoParseProgram depth p source_length in_global_context strict_mode
      = (some tree, q)) :
    ∃ (scope : Nat) (body : StatementList) (literals properties : Int) (loops strict : Bool),
      tree = Expression.FunctionLiteral "" scope body literals properties 0 0 source_length
        false loops strict kNoPosition := by
  have h1 := congrArg Prod.fst h
  unfold Limited.DoParseProgram withLexicalScope withTemporaryScope at h1
  simp only [Limited.orStackOverflow_fst] at h1
  exact ⟨_, DoParseProgram_body_returns (Limited.productions depth) strict_mode source_length
    _ _ _ tree (Prod.ext h1 rfl)⟩

/-- The three outcomes of `DoParseProgram` on a parser whose stack has not
overflowed: a tree and no diagnostic; no tree and one message; no tree, no
message and the call of `Top::StackOverflow`. -/
theorem Limited.DoParseProgram_outcome (depth : Nat) (p : Parser) (source_length : Int)
    (in_global_context strict_mode : Bool) (hp : p.stack_overflow_ = false) :
    ((Limited.DoParseProgram depth p source_length in_global_context strict_mode).1.isSome = true
      ∧ (Limited.DoParseProgram depth p source_length in_global_context strict_mode).2.messages
        = p.messages
      ∧ (Limited.DoParseProgram depth p source_length in_global_context
          strict_mode).2.stack_overflow_thrown = p.stack_overflow_thrown)
    ∨ ((Limited.DoParseProgram depth p source_length in_global_context strict_mode).1 = none
      ∧ (∃ x, (Limited.DoParseProgram depth p source_length in_global_context
          strict_mode).2.messages = p.messages ++ [x])
      ∧ (Limited.DoParseProgram depth p source_length in_global_context
          strict_mode).2.stack_overflow_thrown = p.stack_overflow_thrown)
    ∨ ((Limited.DoParseProgram depth p source_length in_global_context strict_mode).1 = none
      ∧ (Limited.DoParseProgram depth p source_length in_global_context strict_mode).2.messages
        = p.messages
      ∧ (Limited.DoParseProgram depth p source_length in_global_context
          strict_mode).2.stack_overflow_thrown = true) := by
  unfold Limited.DoParseProgram withLexicalScope withTemporaryScope
  refine (Limited.orStackOverflow_thrown ?body ?start ?h).2
  exact (DoParseProgram_body_reports (Limited.productions depth)
    (Limited.productions_report depth) strict_mode source_length _).reports _ hp

theorem Production.seq_fails {α β : Type} (m : Production α) (k : α → Production β)
    (p q : Parser) (h : m p = (none, q)) : (m >>= k) p = (none, q) := by
  show Production.seq m k p = (none, q)
  rw [Production.seq_apply, h]

/-- C33: `ParseProgram` returns a function literal and has reported no
diagnostic, or it returns no tree and has reported exactly one diagnostic: one
message, or the stack overflow (no message, and `Top::StackOverflow` is
called), never both.  The recursive descent steps check the stack guard, whose
depth is the first argument; this holds at every depth.  Every production
reports nothing when it succeeds; when it fails it has reported exactly one
message, or none and the stack has overflowed.  When a call has failed, the
caller returns at once with the parser object of the failed call, so that no
token is consumed and no diagnostic is added behind the failure; the
destructors that run on the way put the target stack, the scope and the
accumulator back and touch neither the scanner nor the diagnostics.
`for(;;){ function f(){ break; } }` gives no tree and the one diagnostic
`illegal_break`, `"use strict"; var eval;` the one diagnostic
`strict_var_name`, and `for(;;){ break; }` a tree and no diagnostic; `(((1)));`
gives a tree at depth 4, and at depth 3 no tree, no message and the stack
overflow. -/
theorem ParseProgram_tree_or_one_diagnostic (depth : Nat) (source : List TokenDesc)
    (source_length : Int) (in_global_context strict_mode : Bool) :
    (∀ (tree : Expression) (q : Parser),
        Limited.ParseProgram depth source source_length in_global_context strict_mode
          = (some tree, q) →
        q.messages = [] ∧ q.stack_overflow_thrown = false
          ∧ ∃ (scope : Nat) (body : StatementList) (literals properties : Int)
              (loops strict : Bool),
              tree = Expression.FunctionLiteral "" scope body literals properties 0 0
                source_length false loops strict kNoPosition)
      ∧ (∀ q : Parser,
          Limited.ParseProgram depth source source_length in_global_context strict_mode
            = (none, q) →
          ((∃ x, q.messages = [x]) ∧ q.stack_overflow_thrown = false)
            ∨ (q.messages = [] ∧ q.stack_overflow_thrown = true))
      ∧ ((Limited.productions depth).Report
        ∧ ∀ self : Productions, self.Report →
          (∀ labels, (ParseStatement self labels).Reports)
            ∧ (∀ processor end_token, (ParseSourceElements self processor end_token).Reports)
            ∧ (∀ accept_IN, (ParseExpression self accept_IN).Reports)
            ∧ (∀ var_name name_is_reserved function_token_position type,
                (ParseFunctionLiteral self var_name name_is_reserved function_token_position
                  type).Reports))
      ∧ (∀ (α β : Type) (m : Production α) (k : α → Production β) (p q : Parser),
          m p = (none, q) → (m >>= k) p = (none, q))
      ∧ (∀ (α : Type) (body : Production α) (p : Parser),
          (∀ t, ∃ start : Parser, start.reported = p.reported ∧ start.scanner_ = p.scanner_
            ∧ (withTarget t body p).1 = (body start).1
            ∧ (withTarget t body p).2.reported = (body start).2.reported
            ∧ (withTarget t body p).2.scanner_ = (body start).2.scanner_)
          ∧ (∃ start : Parser, start.reported = p.reported ∧ start.scanner_ = p.scanner_
            ∧ (withTargetScope body p).1 = (body start).1
            ∧ (withTargetScope body p).2.reported = (body start).2.reported
            ∧ (withTargetScope body p).2.scanner_ = (body start).2.scanner_)
          ∧ (∀ scope, ∃ start : Parser, start.reported = p.reported
            ∧ start.scanner_ = p.scanner_
            ∧ (withLexicalScope scope body p).1 = (body start).1
            ∧ (withLexicalScope scope body p).2.reported = (body start).2.reported
            ∧ (withLexicalScope scope body p).2.scanner_ = (body start).2.scanner_)
          ∧ (∃ start : Parser, start.reported = p.reported ∧ start.scanner_ = p.scanner_
            ∧ (withTemporaryScope body p).1 = (body start).1
            ∧ (withTemporaryScope body p).2.reported = (body start).2.reported
            ∧ (withTemporaryScope body p).2.scanner_ = (body start).2.scanner_))
      ∧ ((Limited.ParseProgram 40 source_for_function_break 33 true false).1 = none
          ∧ (Limited.ParseProgram 40 source_for_function_break 33 true false).2.reported
              = ([⟨"illegal_break", [], ⟨23, 28⟩⟩], false, false))
      ∧ ((Limited.ParseProgram 40 source_use_strict_var_eval 23 true false).1 = none
          ∧ (Limited.ParseProgram 40 source_use_strict_var_eval 23 true false).2.reported
              = ([⟨"strict_var_name", [], ⟨18, 22⟩⟩], false, false))
      ∧ ((Limited.ParseProgram 40 source_for_break 17 true false).1.isSome = true
          ∧ (Limited.ParseProgram 40 source_for_break 17 true false).2.reported
              = ([], false, false))
      ∧ ((Limited.ParseProgram 4 source_nested_parentheses 8 true false).1.isSome = true
          ∧ (Limited.ParseProgram 4 source_nested_parentheses 8 true false).2.reported
              = ([], false, false)
          ∧ (Limited.ParseProgram 3 source_nested_parentheses 8 true false).1 = none
          ∧ (Limited.ParseProgram 3 source_nested_parentheses 8 true false).2.reported
              = ([], true, true)) := by
  have hd := Limited.DoParseProgram_outcome depth { scanner_ := Scanner.Initialize source }
    source_length in_global_context strict_mode rfl
  refine ⟨?_, ?_, ⟨Limited.productions_report depth, ?_⟩, ?_, ?_, ⟨rfl, rfl⟩, ⟨rfl, rfl⟩,
    ⟨rfl, rfl⟩, ⟨rfl, rfl, rfl, rfl⟩⟩
  · intro tree q h
    unfold Limited.ParseProgram at h
    rw [h] at hd
    rcases hd with ⟨-, hm, ht⟩ | ⟨hn, -⟩ | ⟨hn, -⟩
    · exact ⟨hm, ht, Limited.DoParseProgram_result depth _ q source_length in_global_context
        strict_mode tree h⟩
    · cases hn
    · cases hn
  · intro q h
    unfold Limited.ParseProgram at h
    rw [h] at hd
    rcases hd with ⟨hs, -⟩ | ⟨-, hm, ht⟩ | ⟨-, hm, ht⟩
    · cases hs
    · exact Or.inl ⟨hm, ht⟩
    · exact Or.inr ⟨hm, ht⟩
  · intro self h
    exact ⟨fun labels => ParseStatement_reports self h labels,
      fun processor end_token => ParseSourceElements_reports self h processor end_token,
      fun accept_IN => ParseExpression_reports self h accept_IN,
      fun a b c d => ParseFunctionLiteral_reports self h a b c d⟩
  · intro α β m k p q h
    exact Production.seq_fails m k p q h
  · intro α body p
    exact ⟨fun t => ⟨{ p with target_stack_ := t :: p.target_stack_ }, rfl, rfl, rfl, rfl, rfl⟩,
      ⟨{ p with target_stack_ := [] }, rfl, rfl, rfl, rfl, rfl⟩,
      fun scope => ⟨{ p with
        top_scope_ := some scope,
        outer_scopes_ :=
          match p.top_scope_ with
          | some s => s :: p.outer_scopes_
          | none => p.outer_scopes_,
        with_nesting_level_ := 0 }, rfl, rfl, rfl, rfl, rfl⟩,
      ⟨{ p with
        temp_scope_ := some
          { strict_mode_ :=
              match p.temp_scope_ with
              | some parent => parent.strict_mode_
              | none => false } }, rfl, rfl, rfl, rfl, rfl⟩⟩

/-! ## The JSON parser accepts the grammar of JSON texts -/

namespace JsonParser

theorem Next_token (p : JsonParser) : (Next p).1 = p.rest.headD Token.EOS := by
  unfold Next Scanner.Next Scanner.next_ rest
  cases p.scanner_.source <;> rfl

theorem Next_current (p : JsonParser) :
    (Next p).2.scanner_.current_.token = p.rest.headD Token.EOS := by
  unfold Next Scanner.Next Scanner.next_ rest
  cases p.scanner_.source <;> rfl

theorem Next_rest (p : JsonParser) : (Next p).2.rest = p.rest.tail := by
  unfold Next Scanner.Next rest
  cases p.scanner_.source <;> rfl

theorem peek_token (p : JsonParser) : p.scanner_.peek = p.rest.headD Token.EOS := by
  unfold Scanner.peek Scanner.next_ rest
  cases p.scanner_.source <;> rfl

theorem rest_of_head (ts : List Token) (t : Token) (h : ts.headD Token.EOS = t)
    (hne : t ≠ Token.EOS) : ts = t :: ts.tail := by
  cases ts with
  | nil => exact absurd h.symm hne
  | cons a r => simp at h; simp [h]

theorem Next_rest_of_token (p : JsonParser) (t : Token) (h : (Next p).1 = t)
    (hne : t ≠ Token.EOS) : p.rest = t :: (Next p).2.rest := by
  rw [Next_rest]
  exact rest_of_head _ _ (by rw [← Next_token]; exact h) hne

end JsonParser

theorem JsonGrammar.head_value (ts : List Token) (h : JsonGrammar ts) :
    ∃ t r, ts = t :: r ∧ t ≠ Token.RBRACK ∧ t ≠ Token.RBRACE ∧ t ≠ Token.EOS
      ∧ t ≠ Token.COMMA := by
  cases h <;> exact ⟨_, _, rfl, by decide, by decide, by decide, by decide⟩

theorem commaSeparated_cons_cons (item next : List Token) (rest : List (List Token)) :
    commaSeparated (item :: next :: rest)
      = item ++ Token.COMMA :: commaSeparated (next :: rest) := rfl

theorem commaSeparated_single (item : List Token) : commaSeparated [item] = item := rfl

theorem commaSeparated_no_EOS (values : List (List Token))
    (h : ∀ value ∈ values, Token.EOS ∉ value) : Token.EOS ∉ commaSeparated values := by
  induction values with
  | nil => simp [commaSeparated]
  | cons item rest ih =>
    cases rest with
    | nil => simpa [commaSeparated] using h
    | cons next rest =>
      rw [commaSeparated_cons_cons]
      intro hmem
      rcases List.mem_append.1 hmem with h1 | h1
      · exact h item (by simp) h1
      · rcases List.mem_cons.1 h1 with h2 | h2
        · cases h2
        · exact ih (fun v hv => h v (List.mem_cons_of_mem _ hv)) h2

theorem JsonGrammar.no_EOS (ts : List Token) (h : JsonGrammar ts) : Token.EOS ∉ ts := by
  induction h with
  | string => decide
  | number => decide
  | true_literal => decide
  | false_literal => decide
  | null_literal => decide
  | object values _ ih =>
    have h1 : Token.EOS ∉ commaSeparated (values.map jsonMember) := by
      apply commaSeparated_no_EOS
      intro value hv
      rcases List.mem_map.1 hv with ⟨x, hx, rfl⟩
      have := ih x hx
      simp [jsonMember, this]
    simp [h1]
  | array values _ ih =>
    have h1 : Token.EOS ∉ commaSeparated values := commaSeparated_no_EOS _ ih
    simp [h1]

theorem takeWhile_to_EOS (ts rest : List Token) (hts : Token.EOS ∉ ts)
    (hrest : rest.headD Token.EOS = Token.EOS) :
    (ts ++ rest).takeWhile (fun t => decide (t ≠ Token.EOS)) = ts := by
  induction ts with
  | nil =>
    cases rest with
    | nil => rfl
    | cons a r => simp at hrest; simp [hrest]
  | cons a r ih =>
    simp at hts
    have ha : a ≠ Token.EOS := fun h => hts.1 h.symm
    simp [List.takeWhile_cons, ha]
    simpa using ih hts.2

theorem tokensToEnd_of_rest (source : List TokenDesc) (ts rest : List Token)
    (h : source.map (fun t => t.token) = ts ++ rest) (hts : Token.EOS ∉ ts)
    (hrest : rest.headD Token.EOS = Token.EOS) : tokensToEnd source = ts := by
  unfold tokensToEnd
  rw [h]
  exact takeWhile_to_EOS ts rest hts hrest
namespace JsonParser

theorem Next_rest_of_current (p : JsonParser) (t : Token)
    (h : (Next p).2.scanner_.current_.token = t) (hne : t ≠ Token.EOS) :
    p.rest = t :: (Next p).2.rest := by
  rw [Next_rest]
  exact rest_of_head _ _ (by rw [← Next_current]; exact h) hne

theorem Next_rest_of_peek (p : JsonParser) (t : Token) (h : p.scanner_.peek = t)
    (hne : t ≠ Token.EOS) : p.rest = t :: (Next p).2.rest := by
  rw [Next_rest]
  exact rest_of_head _ _ (by rw [← peek_token]; exact h) hne

theorem ParseJsonObject_loop_sound (self : JsonProductions) (h : self.Sound)
    (json_object : JsonObject) (p : JsonParser) (v : JsonValue) (q : JsonParser)
    (hres : ParseJsonObject_loop self json_object p = (some v, q)) :
    ∃ value values, (∀ x ∈ value :: values, JsonGrammar x) ∧
      p.rest = commaSeparated ((value :: values).map jsonMember) ++ Token.RBRACE :: q.rest := by
  unfold ParseJsonObject_loop at hres
  simp only at hres
  split at hres
  · cases hres
  rename_i h1
  have h1 : (Next p).1 = Token.STRING := not_not.1 h1
  split at hres
  · cases hres
  rename_i h2
  have h2 : (Next (Next p).2).1 = Token.COLON := not_not.1 h2
  have e1 := Next_rest_of_token p _ h1 (by decide)
  have e2 := Next_rest_of_token _ _ h2 (by decide)
  split at hres
  · cases hres
  rename_i value p3 hv
  obtain ⟨ts, hts, e3⟩ := h.value _ _ _ hv
  split at hres
  · rename_i h3
    obtain ⟨value2, values2, hall, e5⟩ := h.object_loop _ _ _ _ hres
    have e4 := Next_rest_of_token p3 _ h3 (by decide)
    refine ⟨ts, value2 :: values2, ?_, ?_⟩
    · intro x hx
      rcases List.mem_cons.1 hx with rfl | hx
      · exact hts
      · exact hall x hx
    · rw [e1, e2, e3, e4, e5]
      simp [commaSeparated, jsonMember]
  · split at hres
    · cases hres
    rename_i h4
    have h4 : (Next p3).2.scanner_.current_.token = Token.RBRACE := not_not.1 h4
    have e4 := Next_rest_of_current p3 _ h4 (by decide)
    cases hres
    refine ⟨ts, [], ?_, ?_⟩
    · intro x hx
      rcases List.mem_cons.1 hx with rfl | hx
      · exact hts
      · cases hx
    · rw [e1, e2, e3, e4]
      simp [commaSeparated, jsonMember]

theorem ParseJsonObject_sound (self : JsonProductions) (h : self.Sound)
    (p : JsonParser) (v : JsonValue) (q : JsonParser)
    (hres : ParseJsonObject self p = (some v, q)) :
    ∃ values : List (List Token), (∀ x ∈ values, JsonGrammar x) ∧
      p.rest = commaSeparated (values.map jsonMember) ++ Token.RBRACE :: q.rest := by
  unfold ParseJsonObject at hres
  split at hres
  · rename_i h1
    cases hres
    exact ⟨[], by simp, by simpa [commaSeparated] using Next_rest_of_peek p _ h1 (by decide)⟩
  split at hres
  · cases hres
  obtain ⟨value, values, hall, e⟩ := ParseJsonObject_loop_sound self h _ _ _ _ hres
  exact ⟨value :: values, hall, e⟩

theorem ParseJsonArray_loop_sound (self : JsonProductions) (h : self.Sound)
    (elements : JsonList) (p : JsonParser) (v : JsonList) (q : JsonParser)
    (hres : ParseJsonArray_loop self elements p = (some v, q)) :
    ∃ value values, (∀ x ∈ value :: values, JsonGrammar x) ∧
      p.rest = commaSeparated (value :: values) ++ Token.RBRACK :: q.rest := by
  unfold ParseJsonArray_loop at hres
  split at hres
  · cases hres
  rename_i value p3 hv
  obtain ⟨ts, hts, e3⟩ := h.value _ _ _ hv
  simp only at hres
  split at hres
  · rename_i h3
    obtain ⟨value2, values2, hall, e5⟩ := h.array_loop _ _ _ _ hres
    have e4 := Next_rest_of_token p3 _ h3 (by decide)
    refine ⟨ts, value2 :: values2, ?_, ?_⟩
    · intro x hx
      rcases List.mem_cons.1 hx with rfl | hx
      · exact hts
      · exact hall x hx
    · rw [e3, e4, e5]
      simp [commaSeparated]
  · split at hres
    · cases hres
    rename_i h4
    have h4 : (Next p3).1 = Token.RBRACK := not_not.1 h4
    have e4 := Next_rest_of_token p3 _ h4 (by decide)
    cases hres
    refine ⟨ts, [], ?_, ?_⟩
    · intro x hx
      rcases List.mem_cons.1 hx with rfl | hx
      · exact hts
      · cases hx
    · rw [e3, e4]
      simp [commaSeparated]

theorem ParseJsonArray_sound (self : JsonProductions) (h : self.Sound)
    (p : JsonParser) (v : JsonValue) (q : JsonParser)
    (hres : ParseJsonArray self p = (some v, q)) :
    ∃ values, (∀ x ∈ values, JsonGrammar x) ∧
      p.rest = commaSeparated values ++ Token.RBRACK :: q.rest := by
  unfold ParseJsonArray at hres
  split at hres
  · rename_i h1
    cases hres
    exact ⟨[], by simp, by simpa [commaSeparated] using Next_rest_of_peek p _ h1 (by decide)⟩
  split at hres
  · cases hres
  split at hres
  · cases hres
  rename_i elements p1 hl
  cases hres
  obtain ⟨value, values, hall, e⟩ := ParseJsonArray_loop_sound self h _ _ _ _ hl
  exact ⟨value :: values, hall, e⟩

theorem ParseJsonValue_sound (self : JsonProductions) (h : self.Sound)
    (p : JsonParser) (v : JsonValue) (q : JsonParser)
    (hres : ParseJsonValue self p = (some v, q)) :
    ∃ ts, JsonGrammar ts ∧ p.rest = ts ++ q.rest := by
  unfold ParseJsonValue at hres
  simp only at hres
  split at hres
  · rename_i h1
    cases hres
    exact ⟨_, JsonGrammar.string, Next_rest_of_token p _ h1 (by decide)⟩
  · rename_i h1
    cases hres
    exact ⟨_, JsonGrammar.number, Next_rest_of_token p _ h1 (by decide)⟩
  · rename_i h1
    cases hres
    exact ⟨_, JsonGrammar.false_literal, Next_rest_of_token p _ h1 (by decide)⟩
  · rename_i h1
    cases hres
    exact ⟨_, JsonGrammar.true_literal, Next_rest_of_token p _ h1 (by decide)⟩
  · rename_i h1
    cases hres
    exact ⟨_, JsonGrammar.null_literal, Next_rest_of_token p _ h1 (by decide)⟩
  · rename_i h1
    obtain ⟨values, hall, e⟩ := ParseJsonObject_sound self h _ _ _ hres
    refine ⟨_, JsonGrammar.object values hall, ?_⟩
    rw [Next_rest_of_token p _ h1 (by decide), e]
    simp
  · rename_i h1
    obtain ⟨values, hall, e⟩ := ParseJsonArray_sound self h _ _ _ hres
    refine ⟨_, JsonGrammar.array values hall, ?_⟩
    rw [Next_rest_of_token p _ h1 (by decide), e]
    simp
  · cases hres

theorem productions_sound (fuel : Nat) : (productions fuel).Sound := by
  induction fuel with
  | zero =>
    exact ⟨fun p v q h => (by cases h), fun o p v q h => (by cases h),
      fun o p v q h => (by cases h)⟩
  | succ fuel ih =>
    exact ⟨ParseJsonValue_sound _ ih, ParseJsonObject_loop_sound _ ih,
      ParseJsonArray_loop_sound _ ih⟩

end JsonParser
namespace JsonParser

theorem Untouched.same (p : JsonParser) : p.Untouched p := ⟨rfl, rfl, rfl, rfl⟩

theorem Untouched.after_next (p : JsonParser) : p.Untouched (Next p).2 := ⟨rfl, rfl, rfl, rfl⟩

theorem Untouched.chain {p q r : JsonParser} (h1 : p.Untouched q) (h2 : q.Untouched r) :
    p.Untouched r :=
  ⟨h2.1.trans h1.1, h2.2.1.trans h1.2.1, h2.2.2.1.trans h1.2.2.1, h2.2.2.2.trans h1.2.2.2⟩

theorem Untouched.no_limit {p q : JsonParser} (h : p.Untouched q)
    (hp : p.stack_limit_hit = false) : q.stack_limit_hit = false := h.1.trans hp

theorem ParseJsonObject_loop_quiet (self : JsonProductions) (h : self.Quiet)
    (json_object : JsonObject) (p : JsonParser) (hp : p.stack_limit_hit = false) :
    p.Untouched (ParseJsonObject_loop self json_object p).2 := by
  have n1 := Untouched.after_next p
  have n2 := n1.chain (Untouched.after_next (Next p).2)
  have hv := h.value (Next (Next p).2).2 (n2.no_limit hp)
  unfold ParseJsonObject_loop
  simp only
  split
  · exact n1
  split
  · exact n2
  split
  · rename_i p3 heq
    rw [heq] at hv
    exact n2.chain hv
  rename_i value p3 heq
  rw [heq] at hv
  have n3 := n2.chain hv
  have n4 := n3.chain (Untouched.after_next p3)
  split
  · exact n4.chain (h.object_loop _ _ (n4.no_limit hp))
  split
  · exact n4
  · exact n4

theorem ParseJsonObject_quiet (self : JsonProductions) (h : self.Quiet)
    (p : JsonParser) (hp : p.stack_limit_hit = false) :
    p.Untouched (ParseJsonObject self p).2 := by
  unfold ParseJsonObject
  split
  · exact Untouched.after_next p
  split
  · rename_i h1
    rw [hp] at h1
    cases h1
  · exact ParseJsonObject_loop_quiet self h _ p hp

theorem ParseJsonArray_loop_quiet (self : JsonProductions) (h : self.Quiet)
    (elements : JsonList) (p : JsonParser) (hp : p.stack_limit_hit = false) :
    p.Untouched (ParseJsonArray_loop self elements p).2 := by
  have hv := h.value p hp
  unfold ParseJsonArray_loop
  split
  · rename_i p3 heq
    rw [heq] at hv
    exact hv
  rename_i value p3 heq
  rw [heq] at hv
  have n4 := hv.chain (Untouched.after_next p3)
  simp only
  split
  · exact n4.chain (h.array_loop _ _ (n4.no_limit hp))
  split
  · exact n4
  · exact n4

theorem ParseJsonArray_quiet (self : JsonProductions) (h : self.Quiet)
    (p : JsonParser) (hp : p.stack_limit_hit = false) :
    p.Untouched (ParseJsonArray self p).2 := by
  have hl := ParseJsonArray_loop_quiet self h JsonList.nil p hp
  unfold ParseJsonArray
  split
  · exact Untouched.after_next p
  split
  · rename_i h1
    rw [hp] at h1
    cases h1
  split
  · rename_i p1 heq
    rw [heq] at hl
    exact hl
  · rename_i v p1 heq
    rw [heq] at hl
    exact hl

theorem ParseJsonValue_quiet (self : JsonProductions) (h : self.Quiet)
    (p : JsonParser) (hp : p.stack_limit_hit = false) :
    p.Untouched (ParseJsonValue self p).2 := by
  have n1 := Untouched.after_next p
  unfold ParseJsonValue
  simp only
  split
  · exact n1
  · exact n1
  · exact n1
  · exact n1
  · exact n1
  · exact n1.chain (ParseJsonObject_quiet self h _ (n1.no_limit hp))
  · exact n1.chain (ParseJsonArray_quiet self h _ (n1.no_limit hp))
  · exact n1

theorem productions_quiet (fuel : Nat) : (productions fuel).Quiet := by
  induction fuel with
  | zero =>
    exact ⟨fun p _ => Untouched.same p, fun _ p _ => Untouched.same p,
      fun _ p _ => Untouched.same p⟩
  | succ fuel ih =>
    exact ⟨ParseJsonValue_quiet _ ih, ParseJsonObject_loop_quiet _ ih,
      ParseJsonArray_loop_quiet _ ih⟩

end JsonParser
namespace JsonParser

theorem Next_of_rest (p : JsonParser) (t : Token) (r : List Token) (h : p.rest = t :: r) :
    (Next p).1 = t ∧ (Next p).2.rest = r ∧ (Next p).2.scanner_.current_.token = t
      ∧ p.scanner_.peek = t := by
  rw [Next_token, Next_rest, Next_current, peek_token, h]
  exact ⟨rfl, rfl, rfl, rfl⟩

theorem ParseJsonObject_loop_accepts (values : List (List Token)) :
    ∀ (value : List Token), (∀ x ∈ value :: values, Accepts x) →
    ∀ (fuel : Nat) (json_object : JsonObject) (p : JsonParser) (rest : List Token),
      (commaSeparated ((value :: values).map jsonMember)).length ≤ fuel →
      p.rest = commaSeparated ((value :: values).map jsonMember) ++ Token.RBRACE :: rest →
      p.stack_limit_hit = false →
      ∃ v q, ParseJsonObject_loop (productions fuel) json_object p = (some v, q)
        ∧ q.rest = rest := by
  induction values with
  | nil =>
    intro value hall fuel json_object p rest hfuel hrest hp
    simp only [List.map_cons, List.map_nil, commaSeparated_single, jsonMember,
      List.cons_append, List.length_cons] at hfuel hrest
    obtain ⟨t1, r1, -, -⟩ := Next_of_rest p _ _ hrest
    obtain ⟨t2, r2, -, -⟩ := Next_of_rest _ _ _ r1
    obtain ⟨v, p3, hv, r3⟩ := hall value (by simp) fuel _ _ (by omega) r2 hp
    obtain ⟨t4, r4, c4, -⟩ := Next_of_rest _ _ _ r3
    unfold ParseJsonObject_loop
    simp only
    rw [if_neg (by rw [t1]; decide), if_neg (by rw [t2]; decide), hv]
    simp only
    rw [if_neg (by rw [t4]; decide), if_neg (by rw [c4]; decide)]
    exact ⟨_, _, rfl, r4⟩
  | cons next more ih =>
    intro value hall fuel json_object p rest hfuel hrest hp
    simp only [List.map_cons, commaSeparated_cons_cons, jsonMember,
      List.cons_append, List.length_cons, List.append_assoc, List.length_append] at hfuel hrest
    obtain ⟨t1, r1, -, -⟩ := Next_of_rest p _ _ hrest
    obtain ⟨t2, r2, -, -⟩ := Next_of_rest _ _ _ r1
    obtain ⟨v, p3, hv, r3⟩ := hall value (by simp) fuel _ _ (by omega) r2 hp
    obtain ⟨t4, r4, -, -⟩ := Next_of_rest _ _ _ r3
    have hq := (productions_quiet fuel).value (Next (Next p).2).2 hp
    rw [hv] at hq
    obtain ⟨f, rfl⟩ : ∃ f, fuel = f + 1 := ⟨fuel - 1, by omega⟩
    obtain ⟨w, q, hw, hq2⟩ := ih next (fun x hx => hall x (List.mem_cons_of_mem _ hx)) f
      (StoreMember json_object (GetString (Next p).2) v) (Next p3).2 rest
      (by simp only [List.map_cons, jsonMember, List.length_cons]; omega)
      (by simpa [jsonMember] using r4) ((hq.chain (Untouched.after_next p3)).no_limit hp)
    unfold ParseJsonObject_loop
    simp only
    rw [if_neg (by rw [t1]; decide), if_neg (by rw [t2]; decide), hv]
    simp only
    rw [if_pos t4]
    exact ⟨w, q, hw, hq2⟩

theorem ParseJsonArray_loop_accepts (values : List (List Token)) :
    ∀ (value : List Token), (∀ x ∈ value :: values, Accepts x) →
    ∀ (fuel : Nat) (elements : JsonList) (p : JsonParser) (rest : List Token),
      (commaSeparated (value :: values)).length ≤ fuel →
      p.rest = commaSeparated (value :: values) ++ Token.RBRACK :: rest →
      p.stack_limit_hit = false →
      ∃ v q, ParseJsonArray_loop (productions fuel) elements p = (some v, q)
        ∧ q.rest = rest := by
  induction values with
  | nil =>
    intro value hall fuel elements p rest hfuel hrest hp
    simp only [commaSeparated_single] at hfuel hrest
    obtain ⟨v, p3, hv, r3⟩ := hall value (by simp) fuel _ _ hfuel hrest hp
    obtain ⟨t4, r4, -, -⟩ := Next_of_rest _ _ _ r3
    unfold ParseJsonArray_loop
    rw [hv]
    simp only
    rw [if_neg (by rw [t4]; decide), if_neg (by rw [t4]; decide)]
    exact ⟨_, _, rfl, r4⟩
  | cons next more ih =>
    intro value hall fuel elements p rest hfuel hrest hp
    simp only [commaSeparated_cons_cons, List.length_cons, List.append_assoc,
      List.length_append, List.cons_append] at hfuel hrest
    obtain ⟨v, p3, hv, r3⟩ := hall value (by simp) fuel _ _ (by omega) hrest hp
    obtain ⟨t4, r4, -, -⟩ := Next_of_rest _ _ _ r3
    have hq := (productions_quiet fuel).value _ hp
    rw [hv] at hq
    obtain ⟨f, rfl⟩ : ∃ f, fuel = f + 1 := ⟨fuel - 1, by omega⟩
    obtain ⟨w, q, hw, hq2⟩ := ih next (fun x hx => hall x (List.mem_cons_of_mem _ hx)) f
      (elements.Add v) (Next p3).2 rest (by omega) r4 ((hq.chain (Untouched.after_next p3)).no_limit hp)
    unfold ParseJsonArray_loop
    rw [hv]
    simp only
    rw [if_pos t4]
    exact ⟨w, q, hw, hq2⟩

end JsonParser
namespace JsonParser

theorem commaSeparated_head (t : Token) (r : List Token) (values : List (List Token)) :
    ∃ r2, commaSeparated ((t :: r) :: values) = t :: r2 := by
  cases values <;> exact ⟨_, rfl⟩

theorem ParseJsonObject_accepts (values : List (List Token))
    (hall : ∀ x ∈ values, Accepts x) (fuel : Nat) (p : JsonParser) (rest : List Token)
    (hfuel : (commaSeparated (values.map jsonMember)).length ≤ fuel)
    (hrest : p.rest = commaSeparated (values.map jsonMember) ++ Token.RBRACE :: rest)
    (hp : p.stack_limit_hit = false) :
    ∃ v q, ParseJsonObject (productions fuel) p = (some v, q) ∧ q.rest = rest := by
  cases values with
  | nil =>
    obtain ⟨-, r1, -, k1⟩ := Next_of_rest p _ _ hrest
    unfold ParseJsonObject
    rw [if_pos k1]
    exact ⟨_, _, rfl, r1⟩
  | cons value values =>
    obtain ⟨r2, h2⟩ := commaSeparated_head Token.STRING (Token.COLON :: value)
      (values.map jsonMember)
    have h3 : p.rest = Token.STRING :: (r2 ++ Token.RBRACE :: rest) := by
      rw [hrest, List.map_cons]
      unfold jsonMember at h2 ⊢
      rw [h2]
      rfl
    obtain ⟨-, -, -, k1⟩ := Next_of_rest p _ _ h3
    unfold ParseJsonObject
    rw [if_neg (by rw [k1]; decide), if_neg (by rw [hp]; decide)]
    exact ParseJsonObject_loop_accepts values value hall fuel _ p rest hfuel hrest hp

theorem ParseJsonArray_accepts (values : List (List Token))
    (hall : ∀ x ∈ values, Accepts x) (hgrammar : ∀ x ∈ values, JsonGrammar x)
    (fuel : Nat) (p : JsonParser) (rest : List Token)
    (hfuel : (commaSeparated values).length ≤ fuel)
    (hrest : p.rest = commaSeparated values ++ Token.RBRACK :: rest)
    (hp : p.stack_limit_hit = false) :
    ∃ v q, ParseJsonArray (productions fuel) p = (some v, q) ∧ q.rest = rest := by
  cases values with
  | nil =>
    obtain ⟨-, r1, -, k1⟩ := Next_of_rest p _ _ hrest
    unfold ParseJsonArray
    rw [if_pos k1]
    exact ⟨_, _, rfl, r1⟩
  | cons value values =>
    obtain ⟨t, r, rfl, hne, -, -, -⟩ := JsonGrammar.head_value value (hgrammar value (by simp))
    obtain ⟨r2, h2⟩ := commaSeparated_head t r values
    have h3 : p.rest = t :: (r2 ++ Token.RBRACK :: rest) := by
      rw [hrest, h2]
      rfl
    obtain ⟨-, -, -, k1⟩ := Next_of_rest p _ _ h3
    obtain ⟨w, q, hw, hq⟩ :=
      ParseJsonArray_loop_accepts values (t :: r) hall fuel JsonList.nil p rest hfuel hrest hp
    unfold ParseJsonArray
    rw [if_neg (by rw [k1]; exact hne), if_neg (by rw [hp]; decide), hw]
    exact ⟨_, _, rfl, hq⟩

end JsonParser

theorem JsonGrammar.accepts (ts : List Token) (h : JsonGrammar ts) : JsonParser.Accepts ts := by
  induction h with
  | string =>
    intro fuel p rest hfuel hrest hp
    obtain ⟨f, rfl⟩ : ∃ f, fuel = f + 1 := ⟨fuel - 1, by simp at hfuel; omega⟩
    obtain ⟨t1, r1, -, -⟩ := JsonParser.Next_of_rest p _ _ hrest
    show ∃ v q, JsonParser.ParseJsonValue (JsonParser.productions f) p = (some v, q) ∧ _
    unfold JsonParser.ParseJsonValue
    simp only [t1]
    exact ⟨_, _, rfl, r1⟩
  | number =>
    intro fuel p rest hfuel hrest hp
    obtain ⟨f, rfl⟩ : ∃ f, fuel = f + 1 := ⟨fuel - 1, by simp at hfuel; omega⟩
    obtain ⟨t1, r1, -, -⟩ := JsonParser.Next_of_rest p _ _ hrest
    show ∃ v q, JsonParser.ParseJsonValue (JsonParser.productions f) p = (some v, q) ∧ _
    unfold JsonParser.ParseJsonValue
    simp only [t1]
    exact ⟨_, _, rfl, r1⟩
  | true_literal =>
    intro fuel p rest hfuel hrest hp
    obtain ⟨f, rfl⟩ : ∃ f, fuel = f + 1 := ⟨fuel - 1, by simp at hfuel; omega⟩
    obtain ⟨t1, r1, -, -⟩ := JsonParser.Next_of_rest p _ _ hrest
    show ∃ v q, JsonParser.ParseJsonValue (JsonParser.productions f) p = (some v, q) ∧ _
    unfold JsonParser.ParseJsonValue
    simp only [t1]
    exact ⟨_, _, rfl, r1⟩
  | false_literal =>
    intro fuel p rest hfuel hrest hp
    obtain ⟨f, rfl⟩ : ∃ f, fuel = f + 1 := ⟨fuel - 1, by simp at hfuel; omega⟩
    obtain ⟨t1, r1, -, -⟩ := JsonParser.Next_of_rest p _ _ hrest
    show ∃ v q, JsonParser.ParseJsonValue (JsonParser.productions f) p = (some v, q) ∧ _
    unfold JsonParser.ParseJsonValue
    simp only [t1]
    exact ⟨_, _, rfl, r1⟩
  | null_literal =>
    intro fuel p rest hfuel hrest hp
    obtain ⟨f, rfl⟩ : ∃ f, fuel = f + 1 := ⟨fuel - 1, by simp at hfuel; omega⟩
    obtain ⟨t1, r1, -, -⟩ := JsonParser.Next_of_rest p _ _ hrest
    show ∃ v q, JsonParser.ParseJsonValue (JsonParser.productions f) p = (some v, q) ∧ _
    unfold JsonParser.ParseJsonValue
    simp only [t1]
    exact ⟨_, _, rfl, r1⟩
  | object values _ ih =>
    intro fuel p rest hfuel hrest hp
    obtain ⟨f, rfl⟩ : ∃ f, fuel = f + 1 := ⟨fuel - 1, by simp at hfuel; omega⟩
    simp only [List.cons_append, List.append_assoc, List.singleton_append] at hrest
    obtain ⟨t1, r1, -, -⟩ := JsonParser.Next_of_rest p _ _ hrest
    obtain ⟨v, q, hv, hq⟩ := JsonParser.ParseJsonObject_accepts values ih f (JsonParser.Next p).2
      rest (by simp at hfuel; omega) r1 hp
    show ∃ v q, JsonParser.ParseJsonValue (JsonParser.productions f) p = (some v, q) ∧ _
    unfold JsonParser.ParseJsonValue
    simp only [t1]
    exact ⟨_, _, hv, hq⟩
  | array values h ih =>
    intro fuel p rest hfuel hrest hp
    obtain ⟨f, rfl⟩ : ∃ f, fuel = f + 1 := ⟨fuel - 1, by simp at hfuel; omega⟩
    simp only [List.cons_append, List.append_assoc, List.singleton_append] at hrest
    obtain ⟨t1, r1, -, -⟩ := JsonParser.Next_of_rest p _ _ hrest
    obtain ⟨v, q, hv, hq⟩ := JsonParser.ParseJsonArray_accepts values ih h f
      (JsonParser.Next p).2 rest (by simp at hfuel; omega) r1 hp
    show ∃ v q, JsonParser.ParseJsonValue (JsonParser.productions f) p = (some v, q) ∧ _
    unfold JsonParser.ParseJsonValue
    simp only [t1]
    exact ⟨_, _, hv, hq⟩
theorem dropWhile_to_EOS (ts : List Token) :
    (ts.dropWhile (fun t => decide (t ≠ Token.EOS))).headD Token.EOS = Token.EOS := by
  induction ts with
  | nil => rfl
  | cons a r ih =>
    by_cases ha : a = Token.EOS
    · simp [List.dropWhile_cons, ha]
    · simpa [List.dropWhile_cons, ha] using ih

theorem takeWhile_no_EOS (ts : List Token) :
    Token.EOS ∉ ts.takeWhile (fun t => decide (t ≠ Token.EOS)) := by
  intro h
  have := List.mem_takeWhile_imp h
  simp at this

namespace JsonParser

theorem ParseJson_cases (fuel : Nat) (source : List TokenDesc) :
    (∃ v q, ParseJsonValue (productions fuel) { scanner_ := Scanner.Initialize source } = (some v, q)
        ∧ (Next q).1 = Token.EOS ∧ ParseJson fuel false source = (some v, (Next q).2)
        ∧ (Next q).2.thrown = [] ∧ (Next q).2.stack_overflow_thrown = false)
      ∨ (¬ (∃ v q, ParseJsonValue (productions fuel) { scanner_ := Scanner.Initialize source }
            = (some v, q) ∧ (Next q).1 = Token.EOS)
        ∧ ∃ q : JsonParser, ParseJson fuel false source
          = (none, { q with thrown := [⟨(unexpected_message q.scanner_.current_.token).1,
              (unexpected_message q.scanner_.current_.token).2, q.scanner_.location⟩] })
          ∧ q.stack_overflow_thrown = false) := by
  have hq := ParseJsonValue_quiet (productions fuel) (productions_quiet fuel)
    { scanner_ := Scanner.Initialize source } rfl
  unfold ParseJson
  simp only
  generalize ParseJsonValue (productions fuel) { scanner_ := Scanner.Initialize source } = r at hq
  obtain ⟨r1, q⟩ := r
  obtain ⟨-, h2, h3, h4⟩ := hq
  cases r1 with
  | none =>
    have h2 : q.stack_overflow_ = false := h2
    have h3 : q.thrown = [] := h3
    have h4 : q.stack_overflow_thrown = false := h4
    right
    refine ⟨(by rintro ⟨v, q2, h, -⟩; cases h), q, ?_, h4⟩
    simp only [if_true, h2, h3, List.nil_append]
    rfl
  | some v =>
    have h2 : (Next q).2.stack_overflow_ = false := h2
    have h3 : (Next q).2.thrown = [] := h3
    have h4 : (Next q).2.stack_overflow_thrown = false := h4
    by_cases hn : (Next q).1 = Token.EOS
    · left
      refine ⟨v, q, rfl, hn, ?_, h3, h4⟩
      simp [hn]
    · right
      refine ⟨(by rintro ⟨v, q2, h, h5⟩; cases h; exact hn h5), (Next q).2, ?_, h4⟩
      simp only [hn, h2, h3]
      simpa using hn

end JsonParser
theorem JsonParser.ParseJson_value_grammar (fuel : Nat) (source : List TokenDesc) (v : JsonValue)
    (q : JsonParser)
    (h : ParseJsonValue (productions fuel) { scanner_ := Scanner.Initialize source } = (some v, q))
    (hn : (Next q).1 = Token.EOS) : JsonGrammar (tokensToEnd source) := by
  obtain ⟨ts, hts, hrest⟩ := ParseJsonValue_sound _ (productions_sound fuel) _ _ _ h
  have hs : source.map (fun t => t.token) = ts ++ q.rest := hrest
  rw [tokensToEnd_of_rest source ts q.rest hs (JsonGrammar.no_EOS ts hts)
    (by rw [← Next_token]; exact hn)]
  exact hts

theorem JsonParser.ParseJson_grammar_value (fuel : Nat) (source : List TokenDesc)
    (h : JsonGrammar (tokensToEnd source)) (hfuel : (tokensToEnd source).length ≤ fuel) :
    ∃ v q, ParseJsonValue (productions fuel) { scanner_ := Scanner.Initialize source } = (some v, q)
      ∧ (Next q).1 = Token.EOS := by
  have hsplit : (source.map (fun t => t.token))
      = tokensToEnd source
        ++ (source.map (fun t => t.token)).dropWhile (fun t => decide (t ≠ Token.EOS)) :=
    (List.takeWhile_append_dropWhile (fun t => decide (t ≠ Token.EOS))
      (source.map (fun t => t.token))).symm
  obtain ⟨v, q, hv, hq⟩ := JsonGrammar.accepts _ h (fuel + 1)
    { scanner_ := Scanner.Initialize source } _ (by omega) hsplit rfl
  refine ⟨v, q, hv, ?_⟩
  rw [Next_token, hq]
  exact dropWhile_to_EOS _

/-- C32: when no stack limit is hit, `JsonParser::ParseJson` returns a value
exactly for the sources whose tokens up to the end of input are a sentence of
the grammar `value ::= string | number | true | false | null |
{ (string : value (, string : value)*)? } | [ (value (, value)*)? ]`: a
returned value means that the tokens are a sentence; for a sentence a
recursion budget of the number of its tokens is enough for a value to be
returned with nothing thrown; for tokens that are no sentence no value is
returned; and whenever no value is returned, exactly one syntax error is
thrown, the message for the unexpected token, and no stack overflow.  A comma
before `]` or `}`, a key that is no string, an identifier (as `IDENTIFIER` or
as `ILLEGAL`) and a token after the value each end with one syntax error. -/
theorem ParseJson_accepts_grammar (fuel : Nat) (source : List TokenDesc) :
    ((JsonParser.ParseJson fuel false source).1.isSome = true → JsonGrammar (tokensToEnd source))
    ∧ (JsonGrammar (tokensToEnd source) → (tokensToEnd source).length ≤ fuel →
        (JsonParser.ParseJson fuel false source).1.isSome = true
        ∧ (JsonParser.ParseJson fuel false source).2.thrown = []
        ∧ (JsonParser.ParseJson fuel false source).2.stack_overflow_thrown = false)
    ∧ (¬ JsonGrammar (tokensToEnd source) → (JsonParser.ParseJson fuel false source).1 = none)
    ∧ ((JsonParser.ParseJson fuel false source).1 = none →
        (∃ q : JsonParser, (JsonParser.ParseJson fuel false source).2.thrown
            = [⟨(JsonParser.unexpected_message q.scanner_.current_.token).1,
                (JsonParser.unexpected_message q.scanner_.current_.token).2,
                q.scanner_.location⟩])
        ∧ (JsonParser.ParseJson fuel false source).2.stack_overflow_thrown = false)
    ∧ ((JsonParser.ParseJson 16 false json_comma_before_rbrack).1 = none
        ∧ (JsonParser.ParseJson 16 false json_comma_before_rbrack).2.thrown
          = [⟨"unexpected_token", ["]"], ⟨0, 0⟩⟩])
    ∧ ((JsonParser.ParseJson 16 false json_comma_before_rbrace).1 = none
        ∧ (JsonParser.ParseJson 16 false json_comma_before_rbrace).2.thrown
          = [⟨"unexpected_token", ["\x7d"], ⟨0, 0⟩⟩])
    ∧ ((JsonParser.ParseJson 16 false json_number_key).1 = none
        ∧ (JsonParser.ParseJson 16 false json_number_key).2.thrown
          = [⟨"unexpected_token_number", [], ⟨0, 0⟩⟩])
    ∧ ((JsonParser.ParseJson 16 false json_identifier).1 = none
        ∧ (JsonParser.ParseJson 16 false json_identifier).2.thrown
          = [⟨"unexpected_token_identifier", [], ⟨0, 0⟩⟩])
    ∧ ((JsonParser.ParseJson 16 false json_illegal).1 = none
        ∧ (JsonParser.ParseJson 16 false json_illegal).2.thrown
          = [⟨"unexpected_token", ["ILLEGAL"], ⟨0, 0⟩⟩])
    ∧ ((JsonParser.ParseJson 16 false json_token_after_value).1 = none
        ∧ (JsonParser.ParseJson 16 false json_token_after_value).2.thrown
          = [⟨"unexpected_token_number", [], ⟨0, 0⟩⟩])
    ∧ ((JsonParser.ParseJson 16 false json_nested).1.isSome = true
        ∧ (JsonParser.ParseJson 16 false json_nested).2.thrown = []
        ∧ JsonGrammar (tokensToEnd json_nested)) := by
  have hcases := JsonParser.ParseJson_cases fuel source
  have hnested := JsonParser.ParseJson_cases 16 json_nested
  refine ⟨?_, ?_, ?_, ?_, ⟨rfl, by decide⟩, ⟨rfl, by decide⟩, ⟨rfl, by decide⟩,
    ⟨rfl, by decide⟩, ⟨rfl, by decide⟩, ⟨rfl, by decide⟩, rfl, by decide, ?_⟩
  · intro h
    rcases hcases with ⟨v, q, hv, hn, -, -, -⟩ | ⟨-, q, hq, -⟩
    · exact JsonParser.ParseJson_value_grammar fuel source v q hv hn
    · rw [hq] at h
      cases h
  · intro h hfuel
    rcases hcases with ⟨v, q, -, -, hq, h3, h4⟩ | ⟨hno, -⟩
    · rw [hq]
      exact ⟨rfl, h3, h4⟩
    · exact absurd (JsonParser.ParseJson_grammar_value fuel source h hfuel) hno
  · intro h
    rcases hcases with ⟨v, q, hv, hn, -, -, -⟩ | ⟨-, q, hq, -⟩
    · exact absurd (JsonParser.ParseJson_value_grammar fuel source v q hv hn) h
    · rw [hq]
  · intro h
    rcases hcases with ⟨v, q, -, -, hq, -, -⟩ | ⟨-, q, hq, h4⟩
    · rw [hq] at h
      cases h
    · rw [hq]
      exact ⟨⟨q, rfl⟩, h4⟩
  · rcases hnested with ⟨v, q, hv, hn, -, -, -⟩ | ⟨-, q, hq, -⟩
    · exact JsonParser.ParseJson_value_grammar 16 json_nested v q hv hn
    · have h : (JsonParser.ParseJson 16 false json_nested).1.isSome = true := rfl
      rw [hq] at h
      cases h

/-! ## Theorems: the indices of the materialized literals -/

set_option linter.unusedTactic false
set_option linter.unreachableTactic false

theorem wrapInt32_add_left (a b : Int) : wrapInt32 (wrapInt32 a + b) = wrapInt32 (a + b) := by
  apply wrapInt32_congr
  rw [Int.add_emod, wrapInt32_emod, ← Int.add_emod]

theorem Numbered.append_index (l : List Int × Int) (h : Numbered l) :
    Numbered (l.1 ++ [wrapInt32 (l.2 + kLiteralsPrefixSize)], wrapInt32 (l.2 + 1)) := by
  obtain ⟨h1, h2⟩ := h
  constructor
  · show l.1 ++ [wrapInt32 (l.2 + kLiteralsPrefixSize)] = _
    rw [List.length_append, List.length_singleton, List.range_succ, List.map_append, ← h1, h2,
      wrapInt32_add_left]
    rfl
  · show wrapInt32 (l.2 + 1) = _
    rw [h2, wrapInt32_add_left, List.length_append, List.length_singleton]
    rfl

theorem Parser.Numbers.of_same {p q : Parser} (h : q.literals = p.literals) :
    Parser.Numbers p q := by
  unfold Parser.Numbers
  rw [h]
  exact ⟨List.prefix_refl _, id⟩

theorem Parser.Numbers.then {p q r : Parser} (h1 : Parser.Numbers p q)
    (h2 : Parser.Numbers q r) : Parser.Numbers p r :=
  ⟨h1.1.trans h2.1, fun h => h2.2 (h1.2 h)⟩

namespace Production.Numbers

theorem lit_pure {α : Type} (a : α) : (Pure.pure a : Production α).Numbers :=
  ⟨fun _ => Parser.Numbers.of_same rfl⟩

theorem lit_ret {α : Type} (a : α) : (Production.ret a).Numbers :=
  ⟨fun _ => Parser.Numbers.of_same rfl⟩

theorem lit_fail {α : Type} : (Production.fail : Production α).Numbers :=
  ⟨fun _ => Parser.Numbers.of_same rfl⟩

theorem lit_read {α : Type} (g : Parser → α) : (Production.read g).Numbers :=
  ⟨fun _ => Parser.Numbers.of_same rfl⟩

theorem lit_bind {α β : Type} {m : Production α} {k : α → Production β}
    (hm : m.Numbers) (hk : ∀ a, (k a).Numbers) :
    (m >>= k).Numbers := by
  constructor
  intro p
  show Parser.Numbers p (Production.seq m k p).2
  rw [Production.seq_apply]
  have h1 := hm.numbers p
  cases h : m p with
  | mk o q =>
    rw [h] at h1
    cases o with
    | none => exact h1
    | some a => exact h1.then ((hk a).numbers q)

theorem lit_step {α : Type} {g : Parser → α × Parser}
    (h : ∀ p, (g p).2.literals = p.literals) : (Production.step g).Numbers :=
  ⟨fun p => Parser.Numbers.of_same (h p)⟩

theorem lit_modify {g : Parser → Parser}
    (h : ∀ p, (g p).literals = p.literals) : (Production.modify g).Numbers :=
  ⟨fun p => Parser.Numbers.of_same (h p)⟩

theorem lit_ite {α : Type} (c : Prop) [Decidable c] {a b : Production α}
    (ha : a.Numbers) (hb : b.Numbers) :
    (if c then a else b).Numbers := by
  split_ifs
  · exact ha
  · exact hb

end Production.Numbers

theorem NextMaterializedLiteralIndex_numbers :
    (Production.step Parser.NextMaterializedLiteralIndex).Numbers := by
  constructor
  intro p
  exact ⟨List.prefix_append _ _, fun h => Numbered.append_index p.literals h⟩

theorem Parser.Next_snd_lits (p : Parser) :
    p.Next.2.literals = p.literals := by
  unfold Parser.Next
  split_ifs <;> (first | rfl | exact Parser.Numbers.of_same rfl)

theorem peek_numbers : peek.Numbers := ⟨fun _ => Parser.Numbers.of_same rfl⟩

theorem Next_numbers : Next.Numbers :=
  ⟨fun p => Parser.Numbers.of_same (Parser.Next_snd_lits p)⟩

theorem location_beg_pos_numbers : location_beg_pos.Numbers := ⟨fun _ => Parser.Numbers.of_same rfl⟩

theorem peek_location_beg_pos_numbers : peek_location_beg_pos.Numbers :=
  ⟨fun _ => Parser.Numbers.of_same rfl⟩

theorem ReportMessageAndFail_numbers {α : Type} (type : String) (args : List String) :
    (ReportMessageAndFail type args : Production α).Numbers := ⟨fun _ => Parser.Numbers.of_same rfl⟩

theorem Parser.ReportUnexpectedToken_lits (p : Parser) (token : Token) :
    (p.ReportUnexpectedToken token).literals = p.literals := by
  unfold Parser.ReportUnexpectedToken
  split_ifs
  all_goals first | (first | rfl | exact Parser.Numbers.of_same rfl) | (cases token <;> (first | rfl | exact Parser.Numbers.of_same rfl))

theorem ReportUnexpectedTokenAndFail_numbers {α : Type} (token : Token) :
    (ReportUnexpectedTokenAndFail token : Production α).Numbers :=
  ⟨fun p => Parser.Numbers.of_same (Parser.ReportUnexpectedToken_lits p token)⟩

theorem CheckOctalLiteral_numbers (beg_pos end_pos : Int) :
    (CheckOctalLiteral beg_pos end_pos).Numbers := by
  constructor
  intro p
  unfold CheckOctalLiteral
  simp only []
  split_ifs <;> (first | rfl | exact Parser.Numbers.of_same rfl)

theorem withTarget_numbers {α : Type} (t : Target) {body : Production α}
    (h : body.Numbers) : (withTarget t body).Numbers :=
  ⟨fun p => h.numbers { p with target_stack_ := t :: p.target_stack_ }⟩

theorem withCollector_numbers {α : Type} (id : Nat) (targets : List BreakTarget)
    {body : Production α} (h : body.Numbers) :
    (withCollector id targets body).Numbers :=
  ⟨fun p => h.numbers { p with target_stack_ := Target.collector id targets :: p.target_stack_ }⟩

theorem withTargetScope_numbers {α : Type} {body : Production α}
    (h : body.Numbers) : (withTargetScope body).Numbers :=
  ⟨fun p => h.numbers { p with target_stack_ := [] }⟩

theorem withLexicalScope_numbers {α : Type} (scope : Scope) {body : Production α}
    (h : body.Numbers) : (withLexicalScope scope body).Numbers :=
  ⟨fun p => h.numbers { p with
      top_scope_ := some scope,
      outer_scopes_ :=
        match p.top_scope_ with
        | some s => s :: p.outer_scopes_
        | none => p.outer_scopes_,
      with_nesting_level_ := 0 }⟩

theorem withTemporaryScope_numbers {α : Type} {body : Production α}
    (_h : body.Numbers) : (withTemporaryScope body).Numbers :=
  ⟨fun _ => Parser.Numbers.of_same rfl⟩

theorem Declare_numbers (name : String) (mode : Variable.Mode)
    (fun_ : Option Expression) (resolve : Bool) :
    (Declare name mode fun_ resolve).Numbers := by
  constructor
  intro p
  unfold Declare
  by_cases hf : p.top_scope.is_function_scope = true
  · simp only [hf, if_true]
    cases hl : p.top_scope.LocalLookup name with
    | none => exact Parser.Numbers.of_same rfl
    | some var =>
      simp only
      by_cases hc : mode = Variable.Mode.CONST ∨ var.mode = Variable.Mode.CONST
      · simp only [if_pos hc]
        (first | rfl | exact Parser.Numbers.of_same rfl)
      · simp only [if_neg hc]
        (first | rfl | exact Parser.Numbers.of_same rfl)
  · simp only [hf]
    (first | rfl | exact Parser.Numbers.of_same rfl)

theorem Parser.LookupCachedSymbol_lits (p : Parser) (symbol_id : Nat) :
    (p.LookupCachedSymbol symbol_id).2.literals = p.literals := by
  unfold Parser.LookupCachedSymbol
  simp only []
  split <;> (first | rfl | exact Parser.Numbers.of_same rfl)

theorem Parser.LookupSymbol_lits (p : Parser) (symbol_id : Int) :
    (p.LookupSymbol symbol_id).2.literals = p.literals := by
  unfold Parser.LookupSymbol
  split_ifs
  · (first | rfl | exact Parser.Numbers.of_same rfl)
  · exact Parser.LookupCachedSymbol_lits p _

theorem Parser.GetSymbol_lits (p : Parser) : p.GetSymbol.2.literals = p.literals := by
  unfold Parser.GetSymbol
  split
  · exact Parser.LookupSymbol_lits p _
  · exact (Parser.LookupSymbol_lits _ _).trans rfl

theorem Parser.LookupBreakTarget_lits (p : Parser) (label : Option String) :
    (p.LookupBreakTarget label).2.literals = p.literals := by
  unfold Parser.LookupBreakTarget
  split <;> (first | rfl | exact Parser.Numbers.of_same rfl)

theorem Parser.LookupContinueTarget_lits (p : Parser) (label : Option String) :
    (p.LookupContinueTarget label).2.literals = p.literals := by
  unfold Parser.LookupContinueTarget
  split <;> (first | rfl | exact Parser.Numbers.of_same rfl)

theorem AddLabel_lits (p : Parser) (labels : Option Nat) (label : String) :
    (AddLabel p labels label).2.literals = p.literals := by
  unfold AddLabel
  split <;> (first | rfl | exact Parser.Numbers.of_same rfl)

theorem ReportIllegalJump_numbers {α : Type} (message : String)
    (label : Option String) : (ReportIllegalJump message label : Production α).Numbers := by
  constructor
  intro p
  unfold ReportIllegalJump
  split <;> (first | rfl | exact Parser.Numbers.of_same rfl)

theorem ValidateStrictFunction_numbers (name : String) (name_is_reserved : Bool)
    (function_token_position start_pos end_pos : Int)
    (name_loc dupe_loc reserved_loc : Location) :
    (ValidateStrictFunction name name_is_reserved function_token_position start_pos end_pos
      name_loc dupe_loc reserved_loc).Numbers := by
  constructor
  intro p
  unfold ValidateStrictFunction
  simp only []
  split_ifs
  all_goals first | (first | rfl | exact Parser.Numbers.of_same rfl) | exact (CheckOctalLiteral_numbers _ _).numbers p

theorem ReportInvalidPreparseData_numbers {α : Type} (name : String) :
    (ReportInvalidPreparseData name : Production α).Numbers := ⟨fun _ => Parser.Numbers.of_same rfl⟩

theorem peek_any_identifier_numbers : peek_any_identifier.Numbers := by
  unfold peek_any_identifier
  repeat' first
    | with_reducible first
      | apply Production.Numbers.lit_bind | apply Production.Numbers.lit_pure
      | apply peek_numbers
    | intro _
    | (first | rfl | exact Parser.Numbers.of_same rfl)
    | split

theorem Consume_numbers (_token : Token) :
    (Consume _token).Numbers := by
  unfold Consume
  repeat' first
    | with_reducible first
      | apply Production.Numbers.lit_bind | apply Production.Numbers.lit_pure
      | apply Next_numbers
    | intro _
    | (first | rfl | exact Parser.Numbers.of_same rfl)
    | split

theorem Expect_numbers (token : Token) :
    (Expect token).Numbers := by
  unfold Expect
  repeat' first
    | with_reducible first
      | apply Production.Numbers.lit_bind | apply Production.Numbers.lit_pure
      | apply Production.Numbers.lit_ite | apply Next_numbers
      | apply ReportUnexpectedTokenAndFail_numbers
    | intro _
    | (first | rfl | exact Parser.Numbers.of_same rfl)
    | split

theorem Check_numbers (token : Token) :
    (Check token).Numbers := by
  unfold Check
  repeat' first
    | with_reducible first
      | apply Production.Numbers.lit_bind | apply Production.Numbers.lit_pure
      | apply Production.Numbers.lit_ite | apply peek_numbers
      | apply Consume_numbers
    | intro _
    | (first | rfl | exact Parser.Numbers.of_same rfl)
    | split

theorem ExpectSemicolon_numbers : ExpectSemicolon.Numbers := by
  unfold ExpectSemicolon
  repeat' first
    | with_reducible first
      | apply Production.Numbers.lit_bind | apply Production.Numbers.lit_pure
      | apply Production.Numbers.lit_ite | apply Production.Numbers.lit_read
      | apply peek_numbers | apply Next_numbers | apply Expect_numbers
    | intro _
    | (first | rfl | exact Parser.Numbers.of_same rfl)
    | split

theorem ParseIdentifierOrReservedWord_numbers : ParseIdentifierOrReservedWord.Numbers := by
  unfold ParseIdentifierOrReservedWord
  repeat' first
    | with_reducible first
      | apply Production.Numbers.lit_bind | apply Production.Numbers.lit_pure
      | apply Production.Numbers.lit_ite | apply Production.Numbers.lit_read
      | apply Production.Numbers.lit_step | apply Expect_numbers
      | apply Check_numbers | apply Parser.GetSymbol_lits
    | intro _
    | (first | rfl | exact Parser.Numbers.of_same rfl)
    | split

theorem ParseIdentifier_numbers : ParseIdentifier.Numbers := by
  unfold ParseIdentifier
  repeat' first
    | with_reducible first
      | apply Production.Numbers.lit_bind | apply Production.Numbers.lit_pure
      | apply ParseIdentifierOrReservedWord_numbers
    | intro _
    | (first | rfl | exact Parser.Numbers.of_same rfl)
    | split

theorem ParseIdentifierName_numbers : ParseIdentifierName.Numbers := by
  unfold ParseIdentifierName
  repeat' first
    | with_reducible first
      | apply Production.Numbers.lit_bind | apply Production.Numbers.lit_ite
      | apply Production.Numbers.lit_step | apply Next_numbers
      | apply ReportUnexpectedTokenAndFail_numbers | apply Parser.GetSymbol_lits
    | intro _
    | (first | rfl | exact Parser.Numbers.of_same rfl)
    | split

theorem CheckStrictModeLValue_numbers (expression : Expression) (error : String) :
    (CheckStrictModeLValue expression error).Numbers := by
  unfold CheckStrictModeLValue
  repeat' first
    | with_reducible first
      | apply Production.Numbers.lit_bind | apply Production.Numbers.lit_pure
      | apply Production.Numbers.lit_ite | apply ReportMessageAndFail_numbers
    | intro _
    | (first | rfl | exact Parser.Numbers.of_same rfl)
    | split

theorem ParseArguments_loop_numbers (self : Productions)
    (h : self.Number) (result : ExpressionList) (done : Bool) :
    (ParseArguments_loop self result done).Numbers := by
  unfold ParseArguments_loop
  repeat' first
    | with_reducible first
      | apply Production.Numbers.lit_bind | apply Production.Numbers.lit_pure
      | apply Production.Numbers.lit_ite | apply peek_numbers
      | apply Expect_numbers | apply h.ParseAssignmentExpression
      | apply h.ParseArguments_loop
    | intro _
    | (first | rfl | exact Parser.Numbers.of_same rfl)
    | split

theorem ParseArguments_numbers (self : Productions) (h : self.Number) :
    (ParseArguments self).Numbers := by
  unfold ParseArguments
  repeat' first
    | with_reducible first
      | apply Production.Numbers.lit_bind | apply Production.Numbers.lit_pure
      | apply peek_numbers | apply Expect_numbers
      | apply ParseArguments_loop_numbers self h
    | intro _
    | (first | rfl | exact Parser.Numbers.of_same rfl)
    | split

theorem ParseArrayLiteral_loop_numbers (self : Productions)
    (h : self.Number) (values : ExpressionList) :
    (ParseArrayLiteral_loop self values).Numbers := by
  unfold ParseArrayLiteral_loop
  repeat' first
    | with_reducible first
      | apply Production.Numbers.lit_bind | apply Production.Numbers.lit_pure
      | apply Production.Numbers.lit_ite | apply peek_numbers
      | apply Expect_numbers | apply h.ParseAssignmentExpression
      | apply h.ParseArrayLiteral_loop
    | intro _
    | (first | rfl | exact Parser.Numbers.of_same rfl)
    | split

theorem ParseArrayLiteral_numbers (self : Productions) (h : self.Number) :
    (ParseArrayLiteral self).Numbers := by
  unfold ParseArrayLiteral
  repeat' first
    | with_reducible first
      | apply Production.Numbers.lit_bind | apply Production.Numbers.lit_pure
      | apply NextMaterializedLiteralIndex_numbers | apply Expect_numbers
      | apply ParseArrayLiteral_loop_numbers self h
    | intro _
    | (first | rfl | exact Parser.Numbers.of_same rfl)
    | split

theorem CheckProperty_numbers (checker : ObjectLiteralPropertyChecker)
    (property : ObjectProperty) (loc : Location) (number_text : String) :
    (CheckProperty checker property loc number_text).Numbers :=
  ⟨fun p => by
    rcases CheckProperty_run checker property loc number_text p with ⟨-, h⟩ | ⟨c, h⟩ | ⟨t, h⟩
    all_goals rw [h]
    all_goals exact Parser.Numbers.of_same rfl⟩

theorem ParseIdentifierOrGetOrSet_numbers : ParseIdentifierOrGetOrSet.Numbers := by
  unfold ParseIdentifierOrGetOrSet
  repeat' first
    | with_reducible first
      | apply Production.Numbers.lit_bind | apply Production.Numbers.lit_pure
      | apply Production.Numbers.lit_read | apply ParseIdentifier_numbers
    | intro _
    | (first | rfl | exact Parser.Numbers.of_same rfl)
    | split

theorem ParseObjectLiteralGetSet_numbers (self : Productions) (h : self.Number)
    (is_getter : Bool) : (ParseObjectLiteralGetSet self is_getter).Numbers := by
  unfold ParseObjectLiteralGetSet
  repeat' first
    | with_reducible first
      | apply Production.Numbers.lit_bind | apply Production.Numbers.lit_pure
      | apply Production.Numbers.lit_ite | apply Production.Numbers.lit_step
      | apply Next_numbers | apply ReportUnexpectedTokenAndFail_numbers
      | apply Parser.GetSymbol_lits | apply h.ParseFunctionLiteral
    | intro _
    | (first | rfl | exact Parser.Numbers.of_same rfl)
    | split

theorem ParseObjectLiteral_add_numbers (self : Productions) (h : self.Number)
    (checker : ObjectLiteralPropertyChecker) (properties : ObjectPropertyList)
    (property : ObjectProperty) (loc : Location) (number_text : String) :
    (ParseObjectLiteral_add self checker properties property loc number_text).Numbers := by
  unfold ParseObjectLiteral_add
  repeat' first
    | with_reducible first
      | apply Production.Numbers.lit_bind | apply Production.Numbers.lit_pure
      | apply Production.Numbers.lit_ite | apply peek_numbers
      | apply Expect_numbers
      | apply CheckProperty_numbers | apply h.ParseObjectLiteral_loop
    | intro _
    | (first | rfl | exact Parser.Numbers.of_same rfl)
    | split

theorem ParseObjectLiteral_accessor_numbers (self : Productions) (h : self.Number)
    (checker : ObjectLiteralPropertyChecker) (properties : ObjectPropertyList)
    (is_getter : Bool) :
    (ParseObjectLiteral_accessor self checker properties is_getter).Numbers := by
  unfold ParseObjectLiteral_accessor
  repeat' first
    | with_reducible first
      | apply Production.Numbers.lit_bind | apply Production.Numbers.lit_read
      | apply ParseObjectLiteralGetSet_numbers self h
      | apply ParseObjectLiteral_add_numbers self h
    | intro _
    | (first | rfl | exact Parser.Numbers.of_same rfl)
    | split

theorem ParseObjectLiteral_value_numbers (self : Productions) (h : self.Number)
    (checker : ObjectLiteralPropertyChecker) (properties : ObjectPropertyList)
    (loc : Location) (key : Value) (number_text : String) :
    (ParseObjectLiteral_value self checker properties loc key number_text).Numbers := by
  unfold ParseObjectLiteral_value
  repeat' first
    | with_reducible first
      | apply Production.Numbers.lit_bind | apply Production.Numbers.lit_pure
      | apply Expect_numbers | apply h.ParseAssignmentExpression
      | apply ParseObjectLiteral_add_numbers self h
    | intro _
    | (first | rfl | exact Parser.Numbers.of_same rfl)
    | split

theorem ParseObjectLiteral_loop_numbers (self : Productions) (h : self.Number)
    (checker : ObjectLiteralPropertyChecker) (properties : ObjectPropertyList) :
    (ParseObjectLiteral_loop self checker properties).Numbers := by
  unfold ParseObjectLiteral_loop
  repeat' first
    | with_reducible first
      | apply Production.Numbers.lit_bind | apply Production.Numbers.lit_pure
      | apply Production.Numbers.lit_ite | apply Production.Numbers.lit_read
      | apply Production.Numbers.lit_step | apply peek_numbers
      | apply Next_numbers | apply ReportUnexpectedTokenAndFail_numbers
      | apply Consume_numbers | apply Expect_numbers
      | apply Parser.GetSymbol_lits | apply ParseIdentifierOrGetOrSet_numbers
      | apply ParseObjectLiteral_accessor_numbers self h
      | apply ParseObjectLiteral_value_numbers self h
      | apply h.ParseObjectLiteral_loop
    | intro _
    | (first | rfl | exact Parser.Numbers.of_same rfl)
    | split

theorem ParseObjectLiteral_numbers (self : Productions) (h : self.Number) :
    (ParseObjectLiteral self).Numbers := by
  unfold ParseObjectLiteral
  repeat' first
    | with_reducible first
      | apply Production.Numbers.lit_bind | apply Production.Numbers.lit_pure
      | apply Production.Numbers.lit_read | apply NextMaterializedLiteralIndex_numbers | apply Expect_numbers
      | apply ParseObjectLiteral_loop_numbers self h
    | intro _
    | (first | rfl | exact Parser.Numbers.of_same rfl)
    | split

theorem ParseRegExpLiteral_numbers (seen_equal : Bool) :
    (ParseRegExpLiteral seen_equal).Numbers := by
  unfold ParseRegExpLiteral
  repeat' first
    | with_reducible first
      | apply Production.Numbers.lit_bind | apply Production.Numbers.lit_pure
      | apply Production.Numbers.lit_ite | apply Production.Numbers.lit_read
      | apply NextMaterializedLiteralIndex_numbers | apply Next_numbers
      | apply ReportMessageAndFail_numbers
    | intro _
    | (first | rfl | exact Parser.Numbers.of_same rfl)
    | split

theorem ParseV8Intrinsic_numbers (self : Productions) (h : self.Number) :
    (ParseV8Intrinsic self).Numbers := by
  unfold ParseV8Intrinsic
  repeat' first
    | with_reducible first
      | apply Production.Numbers.lit_bind | apply Production.Numbers.lit_pure
      | apply Production.Numbers.lit_ite | apply Production.Numbers.lit_read
      | apply Expect_numbers | apply ParseIdentifier_numbers
      | apply ParseArguments_numbers self h | apply ReportMessageAndFail_numbers
    | intro _
    | (first | rfl | exact Parser.Numbers.of_same rfl)
    | split

theorem ParsePrimaryExpression_numbers (self : Productions) (h : self.Number) :
    (ParsePrimaryExpression self).Numbers := by
  unfold ParsePrimaryExpression
  repeat' first
    | with_reducible first
      | apply Production.Numbers.lit_bind | apply Production.Numbers.lit_pure
      | apply Production.Numbers.lit_ite | apply Production.Numbers.lit_read
      | apply Production.Numbers.lit_step | apply Production.Numbers.lit_modify
      | apply peek_numbers | apply Next_numbers
      | apply ReportUnexpectedTokenAndFail_numbers | apply ParseObjectLiteral_numbers self h
      | apply ParseRegExpLiteral_numbers | apply ParseV8Intrinsic_numbers self h
      | apply Consume_numbers | apply Expect_numbers
      | apply ParseIdentifier_numbers | apply ParseArrayLiteral_numbers self h
      | apply Parser.GetSymbol_lits | apply h.ParseExpression
    | intro _
    | (first | rfl | exact Parser.Numbers.of_same rfl)
    | split

theorem ParseMemberWithNewPrefixesExpression_loop_numbers (self : Productions)
    (h : self.Number) (stack : PositionStack) (result : Expression) :
    (ParseMemberWithNewPrefixesExpression_loop self stack result).Numbers := by
  unfold ParseMemberWithNewPrefixesExpression_loop
  repeat' first
    | with_reducible first
      | apply Production.Numbers.lit_bind | apply Production.Numbers.lit_pure
      | apply peek_numbers | apply location_beg_pos_numbers
      | apply Consume_numbers | apply Expect_numbers
      | apply ParseIdentifierName_numbers | apply ParseArguments_numbers self h
      | apply h.ParseExpression | apply h.ParseMemberWithNewPrefixesExpression_loop
    | intro _
    | (first | rfl | exact Parser.Numbers.of_same rfl)
    | split

theorem ParseMemberWithNewPrefixesExpression_numbers (self : Productions) (h : self.Number) (stack : PositionStack) :
    (ParseMemberWithNewPrefixesExpression self stack).Numbers := by
  unfold ParseMemberWithNewPrefixesExpression
  repeat' first
    | with_reducible first
      | apply Production.Numbers.lit_bind | apply Production.Numbers.lit_ite
      | apply peek_numbers | apply location_beg_pos_numbers
      | apply peek_any_identifier_numbers | apply Expect_numbers
      | apply ParseIdentifierOrReservedWord_numbers
      | apply ParsePrimaryExpression_numbers self h
      | apply ParseMemberWithNewPrefixesExpression_loop_numbers self h
      | apply h.ParseFunctionLiteral
    | intro _
    | (first | rfl | exact Parser.Numbers.of_same rfl)
    | split

theorem ParseNewPrefix_numbers (self : Productions) (h : self.Number) (stack : List Int) :
    (ParseNewPrefix self stack).Numbers := by
  unfold ParseNewPrefix
  repeat' first
    | with_reducible first
      | apply Production.Numbers.lit_bind | apply Production.Numbers.lit_pure
      | apply Production.Numbers.lit_ite | apply peek_numbers
      | apply location_beg_pos_numbers | apply Expect_numbers
      | apply ParseMemberWithNewPrefixesExpression_numbers self h | apply h.ParseNewPrefix
    | intro _
    | (first | rfl | exact Parser.Numbers.of_same rfl)
    | split
    | (beta_reduce; split)

theorem ParseNewExpression_numbers (self : Productions) (h : self.Number) :
    (ParseNewExpression self).Numbers := by
  unfold ParseNewExpression
  repeat' first
    | with_reducible first
      | apply Production.Numbers.lit_bind | apply Production.Numbers.lit_pure
      | apply ParseNewPrefix_numbers self h
    | intro _
    | (first | rfl | exact Parser.Numbers.of_same rfl)
    | split

theorem ParseMemberExpression_numbers (self : Productions) (h : self.Number) :
    (ParseMemberExpression self).Numbers := by
  unfold ParseMemberExpression
  repeat' first
    | with_reducible first
      | apply Production.Numbers.lit_bind | apply Production.Numbers.lit_pure
      | apply ParseMemberWithNewPrefixesExpression_numbers self h
    | intro _
    | (first | rfl | exact Parser.Numbers.of_same rfl)
    | split

theorem ParseLeftHandSideExpression_loop_numbers (self : Productions) (h : self.Number) (result : Expression) :
    (ParseLeftHandSideExpression_loop self result).Numbers := by
  unfold ParseLeftHandSideExpression_loop
  repeat' first
    | with_reducible first
      | apply Production.Numbers.lit_bind | apply Production.Numbers.lit_pure
      | apply Production.Numbers.lit_ite | apply Production.Numbers.lit_modify
      | apply peek_numbers | apply location_beg_pos_numbers
      | apply Consume_numbers | apply Expect_numbers
      | apply ParseIdentifierName_numbers | apply ParseArguments_numbers self h
      | apply h.ParseExpression | apply h.ParseLeftHandSideExpression_loop
    | intro _
    | (first | rfl | exact Parser.Numbers.of_same rfl)
    | split

theorem ParseLeftHandSideExpression_numbers (self : Productions) (h : self.Number) :
    (ParseLeftHandSideExpression self).Numbers := by
  unfold ParseLeftHandSideExpression
  repeat' first
    | with_reducible first
      | apply Production.Numbers.lit_bind | apply Production.Numbers.lit_ite
      | apply peek_numbers | apply ParseNewExpression_numbers self h
      | apply ParseMemberExpression_numbers self h
      | apply ParseLeftHandSideExpression_loop_numbers self h
    | intro _
    | (first | rfl | exact Parser.Numbers.of_same rfl)
    | split

theorem ParsePostfixExpression_numbers (self : Productions) (h : self.Number) :
    (ParsePostfixExpression self).Numbers := by
  unfold ParsePostfixExpression
  repeat' first
    | with_reducible first
      | apply Production.Numbers.lit_bind | apply Production.Numbers.lit_pure
      | apply Production.Numbers.lit_ite | apply Production.Numbers.lit_read
      | apply peek_numbers | apply Next_numbers
      | apply location_beg_pos_numbers | apply CheckStrictModeLValue_numbers
      | apply ParseLeftHandSideExpression_numbers self h
    | intro _
    | (first | rfl | exact Parser.Numbers.of_same rfl)
    | split

theorem ParseUnaryExpression_numbers (self : Productions) (h : self.Number) :
    (ParseUnaryExpression self).Numbers := by
  unfold ParseUnaryExpression
  repeat' first
    | with_reducible first
      | apply Production.Numbers.lit_bind | apply Production.Numbers.lit_pure
      | apply Production.Numbers.lit_ite | apply Production.Numbers.lit_read
      | apply peek_numbers | apply Next_numbers
      | apply location_beg_pos_numbers | apply ReportMessageAndFail_numbers
      | apply CheckStrictModeLValue_numbers
      | apply ParsePostfixExpression_numbers self h | apply h.ParseUnaryExpression
    | intro _
    | (first | rfl | exact Parser.Numbers.of_same rfl)
    | split

theorem ParseBinaryExpression_while_numbers (self : Productions)
    (h : self.Number) (prec1 : Int) (accept_IN : Bool) (x : Expression) :
    (ParseBinaryExpression_while self prec1 accept_IN x).Numbers := by
  unfold ParseBinaryExpression_while
  repeat' first
    | with_reducible first
      | apply Production.Numbers.lit_bind | apply Production.Numbers.lit_pure
      | apply Production.Numbers.lit_ite | apply peek_numbers
      | apply Next_numbers | apply location_beg_pos_numbers
      | apply h.ParseBinaryExpression | apply h.ParseBinaryExpression_while
    | intro _
    | (first | rfl | exact Parser.Numbers.of_same rfl)
    | split

theorem ParseBinaryExpression_for_numbers (self : Productions)
    (h : self.Number) (prec prec1 : Int) (accept_IN : Bool) (x : Expression) :
    (ParseBinaryExpression_for self prec prec1 accept_IN x).Numbers := by
  unfold ParseBinaryExpression_for
  repeat' first
    | with_reducible first
      | apply Production.Numbers.lit_bind | apply Production.Numbers.lit_pure
      | apply Production.Numbers.lit_ite
      | apply ParseBinaryExpression_while_numbers self h
      | apply h.ParseBinaryExpression_for
    | intro _
    | (first | rfl | exact Parser.Numbers.of_same rfl)
    | split

theorem ParseBinaryExpression_numbers (self : Productions)
    (h : self.Number) (prec : Int) (accept_IN : Bool) :
    (ParseBinaryExpression self prec accept_IN).Numbers := by
  unfold ParseBinaryExpression
  repeat' first
    | with_reducible first
      | apply Production.Numbers.lit_bind | apply peek_numbers
      | apply ParseUnaryExpression_numbers self h
      | apply ParseBinaryExpression_for_numbers self h
    | intro _
    | (first | rfl | exact Parser.Numbers.of_same rfl)
    | split

theorem ParseConditionalExpression_numbers (self : Productions) (h : self.Number) (accept_IN : Bool) :
    (ParseConditionalExpression self accept_IN).Numbers := by
  unfold ParseConditionalExpression
  repeat' first
    | with_reducible first
      | apply Production.Numbers.lit_bind | apply Production.Numbers.lit_pure
      | apply Production.Numbers.lit_ite | apply peek_numbers
      | apply peek_location_beg_pos_numbers | apply Consume_numbers
      | apply Expect_numbers | apply ParseBinaryExpression_numbers self h
      | apply h.ParseAssignmentExpression
    | intro _
    | (first | rfl | exact Parser.Numbers.of_same rfl)
    | split

theorem ParseAssignmentExpression_numbers (self : Productions) (h : self.Number) (accept_IN : Bool) :
    (ParseAssignmentExpression self accept_IN).Numbers := by
  unfold ParseAssignmentExpression
  repeat' first
    | with_reducible first
      | apply Production.Numbers.lit_bind | apply Production.Numbers.lit_pure
      | apply Production.Numbers.lit_ite | apply Production.Numbers.lit_read
      | apply Production.Numbers.lit_modify | apply peek_numbers
      | apply Next_numbers | apply location_beg_pos_numbers
      | apply CheckStrictModeLValue_numbers
      | apply ParseConditionalExpression_numbers self h | apply h.ParseAssignmentExpression
    | intro _
    | (first | rfl | exact Parser.Numbers.of_same rfl)
    | split

theorem ParseExpression_loop_numbers (self : Productions)
    (h : self.Number) (accept_IN : Bool) (result : Expression) :
    (ParseExpression_loop self accept_IN result).Numbers := by
  unfold ParseExpression_loop
  repeat' first
    | with_reducible first
      | apply Production.Numbers.lit_bind | apply Production.Numbers.lit_pure
      | apply Production.Numbers.lit_ite | apply peek_numbers
      | apply location_beg_pos_numbers | apply Expect_numbers
      | apply ParseAssignmentExpression_numbers self h | apply h.ParseExpression_loop
    | intro _
    | (first | rfl | exact Parser.Numbers.of_same rfl)
    | split

theorem ParseExpression_numbers (self : Productions) (h : self.Number) (accept_IN : Bool) :
    (ParseExpression self accept_IN).Numbers := by
  unfold ParseExpression
  repeat' first
    | with_reducible first
      | apply Production.Numbers.lit_bind
      | apply ParseAssignmentExpression_numbers self h
      | apply ParseExpression_loop_numbers self h
    | intro _
    | (first | rfl | exact Parser.Numbers.of_same rfl)
    | split

theorem ParseVariableDeclarations_loop_numbers (self : Productions)
    (h : self.Number) (accept_IN : Bool) (mode : Variable.Mode) (is_const : Bool)
    (block : StatementList) (nvars : Int) :
    (ParseVariableDeclarations_loop self accept_IN mode is_const block nvars).Numbers := by
  unfold ParseVariableDeclarations_loop
  repeat' first
    | with_reducible first
      | apply Production.Numbers.lit_bind | apply Production.Numbers.lit_pure
      | apply Production.Numbers.lit_ite | apply Production.Numbers.lit_read
      | apply peek_numbers | apply location_beg_pos_numbers
      | apply ReportMessageAndFail_numbers | apply Declare_numbers
      | apply Consume_numbers | apply Expect_numbers
      | apply ParseIdentifier_numbers | apply h.ParseVariableDeclarations_loop
      | apply h.ParseAssignmentExpression
    | intro _
    | (first | rfl | exact Parser.Numbers.of_same rfl)
    | split

theorem ParseVariableDeclarations_numbers (self : Productions) (h : self.Number) (accept_IN : Bool) :
    (ParseVariableDeclarations self accept_IN).Numbers := by
  unfold ParseVariableDeclarations
  repeat' first
    | with_reducible first
      | apply Production.Numbers.lit_bind | apply Production.Numbers.lit_pure
      | apply Production.Numbers.lit_ite | apply Production.Numbers.lit_step
      | apply peek_numbers | apply Consume_numbers
      | apply ParseVariableDeclarations_loop_numbers self h
    | intro _
    | (first | rfl | exact Parser.Numbers.of_same rfl)
    | split

theorem ParseVariableStatement_numbers (self : Productions) (h : self.Number) :
    (ParseVariableStatement self).Numbers := by
  unfold ParseVariableStatement
  repeat' first
    | with_reducible first
      | apply Production.Numbers.lit_bind | apply Production.Numbers.lit_pure
      | apply ExpectSemicolon_numbers
      | apply ParseVariableDeclarations_numbers self h
    | intro _
    | (first | rfl | exact Parser.Numbers.of_same rfl)
    | split

theorem ParseBlock_loop_numbers (self : Productions)
    (h : self.Number) (statements : StatementList) :
    (ParseBlock_loop self statements).Numbers := by
  unfold ParseBlock_loop
  repeat' first
    | with_reducible first
      | apply Production.Numbers.lit_bind | apply Production.Numbers.lit_pure
      | apply Production.Numbers.lit_ite | apply peek_numbers | apply h.ParseStatement
      | apply h.ParseBlock_loop
    | intro _
    | (first | rfl | exact Parser.Numbers.of_same rfl)
    | split

theorem ParseBlock_numbers (self : Productions) (h : self.Number) (labels : Option Nat) :
    (ParseBlock self labels).Numbers := by
  unfold ParseBlock
  repeat' first
    | with_reducible first
      | apply Production.Numbers.lit_bind | apply Production.Numbers.lit_pure
      | apply Production.Numbers.lit_step | apply withTarget_numbers
      | apply Expect_numbers | apply ParseBlock_loop_numbers self h
    | intro _
    | (first | rfl | exact Parser.Numbers.of_same rfl)
    | split

theorem ParseExpressionOrLabelledStatement_numbers (self : Productions) (h : self.Number) (labels : Option Nat) :
    (ParseExpressionOrLabelledStatement self labels).Numbers := by
  unfold ParseExpressionOrLabelledStatement
  repeat' first
    | with_reducible first
      | apply Production.Numbers.lit_bind | apply Production.Numbers.lit_pure
      | apply Production.Numbers.lit_ite | apply Production.Numbers.lit_read
      | apply Production.Numbers.lit_step | apply Production.Numbers.lit_modify
      | apply peek_numbers | apply ReportMessageAndFail_numbers
      | apply peek_any_identifier_numbers | apply Expect_numbers
      | apply ExpectSemicolon_numbers | apply ParseExpression_numbers self h
      | apply AddLabel_lits | apply h.ParseStatement
    | intro _
    | (first | rfl | exact Parser.Numbers.of_same rfl)
    | split

theorem ParseIfStatement_numbers (self : Productions) (h : self.Number) (labels : Option Nat) :
    (ParseIfStatement self labels).Numbers := by
  unfold ParseIfStatement
  repeat' first
    | with_reducible first
      | apply Production.Numbers.lit_bind | apply Production.Numbers.lit_pure
      | apply Production.Numbers.lit_ite | apply peek_numbers
      | apply Next_numbers | apply Expect_numbers
      | apply ParseExpression_numbers self h | apply h.ParseStatement
    | intro _
    | (first | rfl | exact Parser.Numbers.of_same rfl)
    | split

theorem ParseJumpLabel_numbers : ParseJumpLabel.Numbers := by
  unfold ParseJumpLabel
  repeat' first
    | with_reducible first
      | apply Production.Numbers.lit_bind | apply Production.Numbers.lit_pure
      | apply Production.Numbers.lit_ite | apply Production.Numbers.lit_read
      | apply peek_numbers | apply ParseIdentifier_numbers
    | intro _
    | (first | rfl | exact Parser.Numbers.of_same rfl)
    | split

theorem ParseContinueStatement_numbers : ParseContinueStatement.Numbers := by
  unfold ParseContinueStatement
  repeat' first
    | with_reducible first
      | apply Production.Numbers.lit_bind | apply Production.Numbers.lit_pure
      | apply Production.Numbers.lit_step | apply ReportIllegalJump_numbers
      | apply Expect_numbers | apply ExpectSemicolon_numbers
      | apply ParseJumpLabel_numbers | apply Parser.LookupContinueTarget_lits
    | intro _
    | (first | rfl | exact Parser.Numbers.of_same rfl)
    | split

theorem ParseBreakStatement_numbers (labels : Option Nat) :
    (ParseBreakStatement labels).Numbers := by
  unfold ParseBreakStatement
  repeat' first
    | with_reducible first
      | apply Production.Numbers.lit_bind | apply Production.Numbers.lit_pure
      | apply Production.Numbers.lit_ite | apply Production.Numbers.lit_read
      | apply Production.Numbers.lit_step | apply ReportIllegalJump_numbers
      | apply Expect_numbers | apply ExpectSemicolon_numbers
      | apply ParseJumpLabel_numbers | apply Parser.LookupBreakTarget_lits
    | intro _
    | (first | rfl | exact Parser.Numbers.of_same rfl)
    | split

theorem ParseReturnStatement_numbers (self : Productions) (h : self.Number) :
    (ParseReturnStatement self).Numbers := by
  unfold ParseReturnStatement
  repeat' first
    | with_reducible first
      | apply Production.Numbers.lit_bind | apply Production.Numbers.lit_pure
      | apply Production.Numbers.lit_ite | apply Production.Numbers.lit_read
      | apply peek_numbers | apply Expect_numbers
      | apply ExpectSemicolon_numbers | apply ParseExpression_numbers self h
    | intro _
    | (first | rfl | exact Parser.Numbers.of_same rfl)
    | split

theorem WithHelper_numbers (self : Productions)
    (h : self.Number) (obj : Expression) (labels : Option Nat) (is_catch_block : Bool) :
    (WithHelper self obj labels is_catch_block).Numbers := by
  unfold WithHelper
  repeat' first
    | with_reducible first
      | apply Production.Numbers.lit_bind | apply Production.Numbers.lit_pure
      | apply Production.Numbers.lit_step | apply Production.Numbers.lit_modify
      | apply withCollector_numbers | apply h.ParseStatement
    | intro _
    | (first | rfl | exact Parser.Numbers.of_same rfl)
    | split

theorem ParseWithStatement_numbers (self : Productions) (h : self.Number) (labels : Option Nat) :
    (ParseWithStatement self labels).Numbers := by
  unfold ParseWithStatement
  repeat' first
    | with_reducible first
      | apply Production.Numbers.lit_bind | apply Production.Numbers.lit_ite
      | apply Production.Numbers.lit_read | apply ReportMessageAndFail_numbers
      | apply Expect_numbers | apply ParseExpression_numbers self h
      | apply WithHelper_numbers self h
    | intro _
    | (first | rfl | exact Parser.Numbers.of_same rfl)
    | split

theorem ParseCaseClause_loop_numbers (self : Productions)
    (h : self.Number) (statements : StatementList) :
    (ParseCaseClause_loop self statements).Numbers := by
  unfold ParseCaseClause_loop
  repeat' first
    | with_reducible first
      | apply Production.Numbers.lit_bind | apply Production.Numbers.lit_pure
      | apply Production.Numbers.lit_ite | apply peek_numbers | apply h.ParseStatement
      | apply h.ParseCaseClause_loop
    | intro _
    | (first | rfl | exact Parser.Numbers.of_same rfl)
    | split

theorem ParseCaseClause_numbers (self : Productions) (h : self.Number) (default_seen : Bool) :
    (ParseCaseClause self default_seen).Numbers := by
  unfold ParseCaseClause
  repeat' first
    | with_reducible first
      | apply Production.Numbers.lit_bind | apply Production.Numbers.lit_pure
      | apply Production.Numbers.lit_ite | apply peek_numbers
      | apply location_beg_pos_numbers | apply ReportMessageAndFail_numbers
      | apply Expect_numbers | apply ParseExpression_numbers self h
      | apply ParseCaseClause_loop_numbers self h
    | intro _
    | (first | rfl | exact Parser.Numbers.of_same rfl)
    | split

theorem ParseSwitchStatement_loop_numbers (self : Productions)
    (h : self.Number) (default_seen : Bool) (cases : CaseClauseList) :
    (ParseSwitchStatement_loop self default_seen cases).Numbers := by
  unfold ParseSwitchStatement_loop
  repeat' first
    | with_reducible first
      | apply Production.Numbers.lit_bind | apply Production.Numbers.lit_pure
      | apply Production.Numbers.lit_ite | apply peek_numbers
      | apply ParseCaseClause_numbers self h | apply h.ParseSwitchStatement_loop
    | intro _
    | (first | rfl | exact Parser.Numbers.of_same rfl)
    | split

theorem ParseSwitchStatement_numbers (self : Productions) (h : self.Number) (labels : Option Nat) :
    (ParseSwitchStatement self labels).Numbers := by
  unfold ParseSwitchStatement
  repeat' first
    | with_reducible first
      | apply Production.Numbers.lit_bind | apply Production.Numbers.lit_pure
      | apply Production.Numbers.lit_step | apply withTarget_numbers
      | apply Expect_numbers | apply ParseExpression_numbers self h
      | apply ParseSwitchStatement_loop_numbers self h
    | intro _
    | (first | rfl | exact Parser.Numbers.of_same rfl)
    | split

theorem ParseThrowStatement_numbers (self : Productions) (h : self.Number) :
    (ParseThrowStatement self).Numbers := by
  unfold ParseThrowStatement
  repeat' first
    | with_reducible first
      | apply Production.Numbers.lit_bind | apply Production.Numbers.lit_pure
      | apply Production.Numbers.lit_ite | apply Production.Numbers.lit_read
      | apply location_beg_pos_numbers | apply ReportMessageAndFail_numbers
      | apply Expect_numbers | apply ExpectSemicolon_numbers
      | apply ParseExpression_numbers self h
    | intro _
    | (first | rfl | exact Parser.Numbers.of_same rfl)
    | split

theorem ParseTryStatement_numbers (self : Productions) (h : self.Number) :
    (ParseTryStatement self).Numbers := by
  unfold ParseTryStatement
  repeat' first
    | with_reducible first
      | apply Production.Numbers.lit_bind | apply Production.Numbers.lit_pure
      | apply Production.Numbers.lit_ite | apply Production.Numbers.lit_read
      | apply Production.Numbers.lit_step | apply Production.Numbers.lit_fail
      | apply withCollector_numbers | apply peek_numbers
      | apply ReportMessageAndFail_numbers | apply Consume_numbers
      | apply Expect_numbers | apply ParseIdentifier_numbers
      | apply ParseBlock_numbers self h | apply WithHelper_numbers self h
    | intro _
    | (first | rfl | exact Parser.Numbers.of_same rfl)
    | split
    | (beta_reduce; split)

theorem ParseDoWhileStatement_numbers (self : Productions) (h : self.Number) (labels : Option Nat) :
    (ParseDoWhileStatement self labels).Numbers := by
  unfold ParseDoWhileStatement
  repeat' first
    | with_reducible first
      | apply Production.Numbers.lit_bind | apply Production.Numbers.lit_pure
      | apply Production.Numbers.lit_ite | apply Production.Numbers.lit_step
      | apply Production.Numbers.lit_modify | apply withTarget_numbers
      | apply peek_numbers | apply location_beg_pos_numbers
      | apply Consume_numbers | apply Expect_numbers
      | apply ParseExpression_numbers self h | apply h.ParseStatement
    | intro _
    | (first | rfl | exact Parser.Numbers.of_same rfl)
    | split

theorem ParseWhileStatement_numbers (self : Productions) (h : self.Number) (labels : Option Nat) :
    (ParseWhileStatement self labels).Numbers := by
  unfold ParseWhileStatement
  repeat' first
    | with_reducible first
      | apply Production.Numbers.lit_bind | apply Production.Numbers.lit_pure
      | apply Production.Numbers.lit_step | apply Production.Numbers.lit_modify
      | apply withTarget_numbers | apply Expect_numbers
      | apply ParseExpression_numbers self h | apply h.ParseStatement
    | intro _
    | (first | rfl | exact Parser.Numbers.of_same rfl)
    | split

theorem ParseForStatement_standard_numbers (self : Productions)
    (h : self.Number) (labels : Option Nat) (init : StatementList) :
    (ParseForStatement_standard self labels init).Numbers := by
  unfold ParseForStatement_standard
  repeat' first
    | with_reducible first
      | apply Production.Numbers.lit_bind | apply Production.Numbers.lit_pure
      | apply Production.Numbers.lit_ite | apply Production.Numbers.lit_step
      | apply withTarget_numbers | apply peek_numbers
      | apply Expect_numbers | apply ParseExpression_numbers self h
      | apply h.ParseStatement
    | intro _
    | (first | rfl | exact Parser.Numbers.of_same rfl)
    | split

theorem ParseForStatement_in_numbers (self : Productions)
    (h : self.Number) (labels : Option Nat) (each : Expression) :
    (ParseForStatement_in self labels each).Numbers := by
  unfold ParseForStatement_in
  repeat' first
    | with_reducible first
      | apply Production.Numbers.lit_bind | apply Production.Numbers.lit_pure
      | apply Production.Numbers.lit_step | apply withTarget_numbers
      | apply Expect_numbers | apply ParseExpression_numbers self h
      | apply h.ParseStatement
    | intro _
    | (first | rfl | exact Parser.Numbers.of_same rfl)
    | split

theorem ParseForStatement_numbers (self : Productions) (h : self.Number) (labels : Option Nat) :
    (ParseForStatement self labels).Numbers := by
  unfold ParseForStatement
  repeat' first
    | with_reducible first
      | apply Production.Numbers.lit_bind | apply Production.Numbers.lit_pure
      | apply Production.Numbers.lit_ite | apply Production.Numbers.lit_read
      | apply Production.Numbers.lit_step | apply Production.Numbers.lit_modify
      | apply peek_numbers | apply Expect_numbers
      | apply ParseExpression_numbers self h
      | apply ParseVariableDeclarations_numbers self h
      | apply ParseForStatement_standard_numbers self h
      | apply ParseForStatement_in_numbers self h
    | intro _
    | (first | rfl | exact Parser.Numbers.of_same rfl)
    | split

theorem ParseDebuggerStatement_numbers : ParseDebuggerStatement.Numbers := by
  unfold ParseDebuggerStatement
  repeat' first
    | with_reducible first
      | apply Production.Numbers.lit_bind | apply Production.Numbers.lit_pure
      | apply Expect_numbers | apply ExpectSemicolon_numbers
    | intro _
    | (first | rfl | exact Parser.Numbers.of_same rfl)
    | split

theorem ParseFunctionDeclaration_numbers (self : Productions) (h : self.Number) :
    (ParseFunctionDeclaration self).Numbers := by
  unfold ParseFunctionDeclaration
  repeat' first
    | with_reducible first
      | apply Production.Numbers.lit_bind | apply Production.Numbers.lit_pure
      | apply location_beg_pos_numbers | apply Declare_numbers
      | apply Expect_numbers | apply ParseIdentifierOrReservedWord_numbers
      | apply h.ParseFunctionLiteral
    | intro _
    | (first | rfl | exact Parser.Numbers.of_same rfl)
    | split

theorem ParseNativeDeclaration_numbers : ParseNativeDeclaration.Numbers := by
  unfold ParseNativeDeclaration
  repeat' first
    | with_reducible first
      | apply Production.Numbers.lit_bind | apply ReportUnexpectedTokenAndFail_numbers
    | intro _
    | (first | rfl | exact Parser.Numbers.of_same rfl)
    | split

theorem ParseStatement_numbers (self : Productions) (h : self.Number) (labels : Option Nat) :
    (ParseStatement self labels).Numbers := by
  unfold ParseStatement
  repeat' first
    | with_reducible first
      | apply Production.Numbers.lit_bind | apply Production.Numbers.lit_pure
      | apply Production.Numbers.lit_step | apply withTarget_numbers
      | apply peek_numbers | apply Next_numbers
      | apply ParseVariableStatement_numbers self h
      | apply ParseBlock_numbers self h
      | apply ParseExpressionOrLabelledStatement_numbers self h
      | apply ParseIfStatement_numbers self h
      | apply ParseContinueStatement_numbers | apply ParseBreakStatement_numbers
      | apply ParseReturnStatement_numbers self h
      | apply ParseWithStatement_numbers self h
      | apply ParseSwitchStatement_numbers self h
      | apply ParseThrowStatement_numbers self h
      | apply ParseTryStatement_numbers self h
      | apply ParseDoWhileStatement_numbers self h
      | apply ParseWhileStatement_numbers self h
      | apply ParseForStatement_numbers self h
      | apply ParseDebuggerStatement_numbers
      | apply ParseFunctionDeclaration_numbers self h
      | apply ParseNativeDeclaration_numbers
    | intro _
    | (first | rfl | exact Parser.Numbers.of_same rfl)
    | split

theorem ParseFunctionLiteral_params_numbers (self : Productions)
    (h : self.Number) (num_parameters : Int)
    (name_loc dupe_loc reserved_loc : Location) :
    (ParseFunctionLiteral_params self num_parameters name_loc dupe_loc reserved_loc).Numbers := by
  unfold ParseFunctionLiteral_params
  repeat' first
    | with_reducible first
      | apply Production.Numbers.lit_bind | apply Production.Numbers.lit_pure
      | apply Production.Numbers.lit_ite | apply Production.Numbers.lit_read
      | apply Production.Numbers.lit_modify | apply peek_numbers
      | apply Expect_numbers | apply ParseIdentifierOrReservedWord_numbers
      | apply h.ParseFunctionLiteral_params
    | intro _
    | (first | rfl | exact Parser.Numbers.of_same rfl)
    | split
    | exact ⟨fun _ => Parser.Numbers.of_same rfl⟩

theorem ParseFunctionLiteral_lazy_numbers (name : String) (function_block_pos : Int) (data : ScriptDataImpl) :
    (ParseFunctionLiteral_lazy name function_block_pos data).Numbers := by
  unfold ParseFunctionLiteral_lazy
  repeat' first
    | with_reducible first
      | apply Production.Numbers.lit_bind | apply Production.Numbers.lit_pure
      | apply Production.Numbers.lit_ite | apply Production.Numbers.lit_modify
      | apply ReportInvalidPreparseData_numbers | apply Expect_numbers
    | intro _
    | (first | rfl | exact Parser.Numbers.of_same rfl)
    | split

theorem ParseSourceElements_loop_numbers (self : Productions) (h : self.Number)
    (end_token : Token) (directive_prologue : Bool) (processor : StatementList) :
    (ParseSourceElements_loop self end_token directive_prologue processor).Numbers := by
  unfold ParseSourceElements_loop
  repeat' first
    | with_reducible first
      | apply Production.Numbers.lit_bind | apply Production.Numbers.lit_pure
      | apply Production.Numbers.lit_ite | apply Production.Numbers.lit_read
      | apply Production.Numbers.lit_modify
      | apply peek_numbers | apply h.ParseStatement | apply h.ParseSourceElements_loop
    | intro _
    | (first | rfl | exact Parser.Numbers.of_same rfl)

theorem ParseSourceElements_numbers (self : Productions) (h : self.Number)
    (processor : StatementList) (end_token : Token) :
    (ParseSourceElements self processor end_token).Numbers :=
  withTargetScope_numbers (ParseSourceElements_loop_numbers self h end_token true processor)

theorem ParseFunctionLiteral_eager_numbers (self : Productions) (h : self.Number)
    (body : StatementList) : (ParseFunctionLiteral_eager self body).Numbers := by
  unfold ParseFunctionLiteral_eager
  repeat' first
    | with_reducible first
      | apply Production.Numbers.lit_bind | apply Production.Numbers.lit_pure
      | apply Production.Numbers.lit_read | apply Expect_numbers
      | apply ParseSourceElements_numbers _ h
    | intro _

theorem ParseFunctionLiteral_numbers (self : Productions) (h : self.Number)
    (var_name : Option String)
    (name_is_reserved : Bool) (function_token_position : Int) (type : FunctionLiteralType) :
    (ParseFunctionLiteral self var_name name_is_reserved function_token_position
      type).Numbers := by
  unfold ParseFunctionLiteral
  repeat' first
    | with_reducible first
      | apply Production.Numbers.lit_bind | apply Production.Numbers.lit_pure
      | apply Production.Numbers.lit_ite | apply Production.Numbers.lit_read
      | apply Production.Numbers.lit_step | apply Production.Numbers.lit_modify
      | apply withLexicalScope_numbers | apply withTemporaryScope_numbers
      | apply peek_numbers | apply Expect_numbers | apply location_beg_pos_numbers
      | apply ParseFunctionLiteral_params_numbers _ h
      | apply ParseFunctionLiteral_lazy_numbers
      | apply ParseFunctionLiteral_eager_numbers _ h
      | apply ValidateStrictFunction_numbers
    | intro _
    | (first | rfl | exact Parser.Numbers.of_same rfl)
    | split

/-- Every production of the table at every recursion budget only hands out
further indices of the accumulator, which continue the numbering. -/
theorem productions_number : ∀ fuel : Nat, (productions fuel).Number := by
  intro fuel
  induction fuel with
  | zero =>
    constructor <;> intros <;> exact Production.Numbers.lit_fail
  | succ n ih =>
    constructor
    · exact ParseStatement_numbers _ ih
    · exact ParseSourceElements_loop_numbers _ ih
    · exact ParseBlock_loop_numbers _ ih
    · exact ParseCaseClause_loop_numbers _ ih
    · exact ParseSwitchStatement_loop_numbers _ ih
    · exact ParseVariableDeclarations_loop_numbers _ ih
    · exact ParseFunctionLiteral_params_numbers _ ih
    · exact ParseFunctionLiteral_numbers _ ih
    · exact ParseExpression_numbers _ ih
    · exact ParseExpression_loop_numbers _ ih
    · exact ParseAssignmentExpression_numbers _ ih
    · exact ParseBinaryExpression_numbers _ ih
    · exact ParseBinaryExpression_for_numbers _ ih
    · exact ParseBinaryExpression_while_numbers _ ih
    · exact ParseUnaryExpression_numbers _ ih
    · exact ParseNewPrefix_numbers _ ih
    · exact ParseLeftHandSideExpression_loop_numbers _ ih
    · exact ParseMemberWithNewPrefixesExpression_loop_numbers _ ih
    · exact fun a => ParseArguments_loop_numbers _ ih a false
    · exact ParseArrayLiteral_loop_numbers _ ih
    · exact ParseObjectLiteral_loop_numbers _ ih
theorem Numbered.fresh : Numbered ([], 0) := ⟨rfl, rfl⟩

theorem Numbered.exact (l : List Int × Int) (h : Numbered l) (hlen : l.1.length < 2 ^ 31 - 1) :
    l.1 = (List.range l.1.length).map (fun i : Nat => kLiteralsPrefixSize + (i : Int))
      ∧ l.2 = (l.1.length : Int) ∧ l.1.Nodup := by
  obtain ⟨h1, h2⟩ := h
  have hmap : (List.range l.1.length).map (fun i : Nat => wrapInt32 ((i : Int) + kLiteralsPrefixSize))
      = (List.range l.1.length).map (fun i : Nat => kLiteralsPrefixSize + (i : Int)) := by
    apply List.map_congr_left
    intro i hi
    have hi : i < l.1.length := List.mem_range.1 hi
    have hk : kLiteralsPrefixSize = 1 := rfl
    rw [wrapInt32_of_range _ (by rw [hk]; omega) (by rw [hk]; omega), add_comm]
  refine ⟨h1.trans hmap, ?_, ?_⟩
  · rw [h2, wrapInt32_of_range _ (by omega) (by omega)]
  · rw [h1, hmap]
    apply List.Nodup.map _ (List.nodup_range _)
    intro a b hab
    simpa using hab

theorem Expect_literals (token : Token) (p : Parser) :
    (Expect token p).2.literals = p.literals := by
  unfold Expect
  show (Production.seq Next _ p).2.literals = _
  rw [Production.seq_apply]
  show ((if (Parser.Next p).1 = token then pure ()
    else ReportUnexpectedTokenAndFail (Parser.Next p).1 : Production Unit)
      (Parser.Next p).2).2.literals = _
  by_cases h : (Parser.Next p).1 = token
  · rw [if_pos h]
    exact Parser.Next_snd_lits p
  · rw [if_neg h]
    exact (Parser.ReportUnexpectedToken_lits _ _).trans (Parser.Next_snd_lits p)

theorem CheckOctalLiteral_literals (beg_pos end_pos : Int) (p : Parser) :
    (CheckOctalLiteral beg_pos end_pos p).2.literals = p.literals := by
  unfold CheckOctalLiteral
  simp only []
  split_ifs <;> rfl

theorem ParseFunctionLiteral_eager_count (self : Productions) (body : StatementList)
    (p q : Parser) (r : StatementList × Int × Int × Int)
    (h : ParseFunctionLiteral_eager self body p = (some r, q)) :
    r.2.1 = q.literals.2 := by
  unfold ParseFunctionLiteral_eager at h
  obtain ⟨body2, q1, -, h⟩ := Production.seq_eq_some h
  obtain ⟨count, q2, h2, h⟩ := Production.seq_eq_some h
  cases h2
  obtain ⟨props, q3, h3, h⟩ := Production.seq_eq_some h
  cases h3
  obtain ⟨u, q4, h4, h⟩ := Production.seq_eq_some h
  obtain ⟨end_pos, q5, h5, h⟩ := Production.seq_eq_some h
  cases h5
  cases h
  have h6 := Expect_literals Token.RBRACE q1
  rw [h4] at h6
  exact (congrArg Prod.snd h6).symm

theorem ParseArrayLiteral_index (self : Productions) (p q : Parser) (e : Expression)
    (h : ParseArrayLiteral self p = (some e, q)) :
    ∃ (values : ExpressionList) (q1 : Parser) (is_simple : Bool) (depth : Int),
      (do
        Expect Token.LBRACK
        let values ← ParseArrayLiteral_loop self ExpressionList.nil
        Expect Token.RBRACK
        pure values : Production ExpressionList) p = (some values, q1)
      ∧ e = Expression.ArrayLiteral values (Parser.NextMaterializedLiteralIndex q1).1
          is_simple depth
      ∧ q = (Parser.NextMaterializedLiteralIndex q1).2 := by
  unfold ParseArrayLiteral at h
  obtain ⟨u, q1, h1, h⟩ := Production.seq_eq_some h
  obtain ⟨values, q2, h2, h⟩ := Production.seq_eq_some h
  obtain ⟨u2, q3, h3, h⟩ := Production.seq_eq_some h
  obtain ⟨index, q4, h4, h⟩ := Production.seq_eq_some h
  cases h4
  cases h
  refine ⟨values, q3, _, _, ?_, rfl, rfl⟩
  show Production.seq _ _ p = _
  rw [Production.seq_apply, h1]
  show Production.seq _ _ q1 = _
  rw [Production.seq_apply, h2]
  show Production.seq _ _ q2 = _
  rw [Production.seq_apply, h3]
  rfl

theorem withTemporaryScope_fresh {α : Type} (body : Production α) (p : Parser) :
    ∃ fresh : Parser, fresh.literals = ([], 0)
      ∧ withTemporaryScope body p
        = ((body fresh).1, { (body fresh).2 with temp_scope_ := p.temp_scope_ }) :=
  ⟨{ p with
      temp_scope_ := some
        { strict_mode_ :=
            match p.temp_scope_ with
            | some parent => parent.strict_mode_
            | none => false } }, rfl, rfl⟩
theorem DoParseProgram_body_count (self : Productions) (strict_mode : Bool)
    (source_length : Int) (scope_id : Nat) (p q : Parser) (tree : Expression)
    (h : (do
      if strict_mode then Production.modify Parser.EnableStrictMode else pure ()
      let beg_loc ← location_beg_pos
      let body ← ParseSourceElements self StatementList.nil Token.EOS
      let strict ← Production.read Parser.StrictMode
      let end_pos ← Production.read (fun q => q.scanner_.location.end_pos)
      if strict then CheckOctalLiteral beg_loc end_pos else pure ()
      let temp_scope ← Production.read Parser.temp_scope
      pure (Expression.FunctionLiteral "" scope_id body
        temp_scope.materialized_literal_count_ temp_scope.expected_property_count_
        0 0 source_length false (decide (temp_scope.loop_count_ > 0))
        temp_scope.strict_mode_ kNoPosition) : Production Expression) p = (some tree, q)) :
    ∃ (start finish : Parser) (body : StatementList),
      start.literals = p.literals
      ∧ ParseSourceElements self StatementList.nil Token.EOS start = (some body, finish)
      ∧ tree.functionLiterals = some (body.literalIndices, finish.literals.2) := by
  have hstart : ∃ start : Parser, start.literals = p.literals ∧
      (do
        let beg_loc ← location_beg_pos
        let body ← ParseSourceElements self StatementList.nil Token.EOS
        let strict ← Production.read Parser.StrictMode
        let end_pos ← Production.read (fun q => q.scanner_.location.end_pos)
        if strict then CheckOctalLiteral beg_loc end_pos else pure ()
        let temp_scope ← Production.read Parser.temp_scope
        pure (Expression.FunctionLiteral "" scope_id body
          temp_scope.materialized_literal_count_ temp_scope.expected_property_count_
          0 0 source_length false (decide (temp_scope.loop_count_ > 0))
          temp_scope.strict_mode_ kNoPosition) : Production Expression) start
        = (some tree, q) := by
    cases strict_mode
    · exact ⟨p, rfl, h⟩
    · exact ⟨p.EnableStrictMode, rfl, h⟩
  obtain ⟨start, hs, h⟩ := hstart
  obtain ⟨beg_loc, q1, h1, h⟩ := Production.seq_eq_some h
  cases h1
  obtain ⟨body, finish, h2, h⟩ := Production.seq_eq_some h
  obtain ⟨strict, q3, h3, h⟩ := Production.seq_eq_some h
  cases h3
  obtain ⟨end_pos, q4, h4, h⟩ := Production.seq_eq_some h
  cases h4
  have hfinish : ∃ q5 : Parser, q5.literals = finish.literals ∧
      (do
        let temp_scope ← Production.read Parser.temp_scope
        pure (Expression.FunctionLiteral "" scope_id body
          temp_scope.materialized_literal_count_ temp_scope.expected_property_count_
          0 0 source_length false (decide (temp_scope.loop_count_ > 0))
          temp_scope.strict_mode_ kNoPosition) : Production Expression) q5
        = (some tree, q) := by
    by_cases hstrict : finish.StrictMode = true
    · simp only [hstrict, if_true] at h
      obtain ⟨u, q5, h5, h⟩ := Production.seq_eq_some h
      have := CheckOctalLiteral_literals start.scanner_.location.beg_pos
        finish.scanner_.location.end_pos finish
      rw [h5] at this
      exact ⟨q5, this, h⟩
    · simp only [hstrict] at h
      exact ⟨finish, rfl, h⟩
  obtain ⟨q5, hq5, h⟩ := hfinish
  obtain ⟨temp_scope, q6, h6, h⟩ := Production.seq_eq_some h
  cases h6
  cases h
  refine ⟨start, finish, body, hs, h2, ?_⟩
  show some (body.literalIndices, q.literals.2) = _
  rw [hq5]

theorem DoParseProgram_count (fuel : Nat) (p q : Parser) (source_length : Int)
    (in_global_context strict_mode : Bool) (tree : Expression)
    (h : DoParseProgram fuel p source_length in_global_context strict_mode = (some tree, q)) :
    ∃ (start finish : Parser) (body : StatementList),
      start.literals = ([], 0)
      ∧ ParseSourceElements (productions fuel) StatementList.nil Token.EOS start
        = (some body, finish)
      ∧ tree.functionLiterals = some (body.literalIndices, finish.literals.2) := by
  have h1 := congrArg Prod.fst h
  unfold DoParseProgram withLexicalScope withTemporaryScope at h1
  simp only at h1
  obtain ⟨start, finish, body, hs, hb, ht⟩ :=
    DoParseProgram_body_count (productions fuel) strict_mode source_length _ _ _ tree
      (Prod.ext h1 rfl)
  exact ⟨start, finish, body, hs, hb, ht⟩
theorem ParseObjectLiteral_index (self : Productions) (p q : Parser) (e : Expression)
    (h : ParseObjectLiteral self p = (some e, q)) :
    ∃ (properties : ObjectPropertyList) (q1 : Parser) (is_simple fast_elements : Bool)
      (depth : Int),
      (do
        Expect Token.LBRACE
        let properties ← ParseObjectLiteral_loop self { strict_ := p.StrictMode }
          ObjectPropertyList.nil
        Expect Token.RBRACE
        pure properties : Production ObjectPropertyList) p = (some properties, q1)
      ∧ e = Expression.ObjectLiteral properties (Parser.NextMaterializedLiteralIndex q1).1
          is_simple fast_elements depth
      ∧ q = (Parser.NextMaterializedLiteralIndex q1).2 := by
  unfold ParseObjectLiteral at h
  obtain ⟨strict, q0, h0, h⟩ := Production.seq_eq_some h
  cases h0
  obtain ⟨u, q1, h1, h⟩ := Production.seq_eq_some h
  obtain ⟨properties, q2, h2, h⟩ := Production.seq_eq_some h
  obtain ⟨u2, q3, h3, h⟩ := Production.seq_eq_some h
  obtain ⟨index, q4, h4, h⟩ := Production.seq_eq_some h
  cases h4
  cases h
  refine ⟨properties, q3, _, _, _, ?_, rfl, rfl⟩
  show Production.seq _ _ p = _
  rw [Production.seq_apply, h1]
  show Production.seq _ _ q1 = _
  rw [Production.seq_apply, h2]
  show Production.seq _ _ q2 = _
  rw [Production.seq_apply, h3]
  rfl

theorem ParseRegExpLiteral_index (seen_equal : Bool) (p q : Parser) (e : Expression)
    (h : ParseRegExpLiteral seen_equal p = (some e, q)) :
    p.scanner_.ScanRegExpPattern seen_equal = true
      ∧ e = Expression.RegExpLiteral p.scanner_.regexp_pattern p.scanner_.regexp_flags
          (Parser.NextMaterializedLiteralIndex p).1
      ∧ q = (Parser.Next (Parser.NextMaterializedLiteralIndex p).2).2 := by
  unfold ParseRegExpLiteral at h
  obtain ⟨terminated, q0, h0, h⟩ := Production.seq_eq_some h
  cases h0
  dsimp only at h
  cases ht : p.scanner_.ScanRegExpPattern seen_equal with
  | false =>
    rw [ht] at h
    simp only [Bool.not_false, if_true] at h
    obtain ⟨tok, q1, -, h⟩ := Production.seq_eq_some h
    cases h
  | true =>
    rw [ht] at h
    simp only [Bool.not_true, Bool.false_eq_true, if_false] at h
    obtain ⟨index, q1, h1, h⟩ := Production.seq_eq_some h
    cases h1
    obtain ⟨js_pattern, q2, h2, h⟩ := Production.seq_eq_some h
    cases h2
    obtain ⟨js_flags, q3, h3, h⟩ := Production.seq_eq_some h
    cases h3
    obtain ⟨tok, q4, h4, h⟩ := Production.seq_eq_some h
    cases h4
    cases h
    exact ⟨rfl, rfl, rfl⟩

theorem ParsePrimaryExpression_literal (self : Productions) (p : Parser) :
    (p.peek = Token.LBRACK → ParsePrimaryExpression self p = ParseArrayLiteral self p)
    ∧ (p.peek = Token.LBRACE → ParsePrimaryExpression self p = ParseObjectLiteral self p)
    ∧ (p.peek = Token.DIV → ParsePrimaryExpression self p = ParseRegExpLiteral false p)
    ∧ (p.peek = Token.ASSIGN_DIV → ParsePrimaryExpression self p = ParseRegExpLiteral true p) := by
  refine ⟨fun h => ?_, fun h => ?_, fun h => ?_, fun h => ?_⟩
  all_goals
    simp only [ParsePrimaryExpression, peek, Production.bind_eq, Production.seq_apply,
      Production.read_apply, h]

/-- C40: the literals of one function or script receive the indices
`kLiteralsPrefixSize`, `kLiteralsPrefixSize + 1`, ... in the order in which
they are completed.  `NextMaterializedLiteralIndex` returns the count of the
accumulator plus `kLiteralsPrefixSize` and adds one to the count (the result
is recorded in the history of the accumulator); every production only adds to
the history of the accumulator it is called with, and a history that is
numbered stays numbered (`Parser.Numbers`); a numbered history of fewer than
`2 ^ 31 - 1` indices is the list `kLiteralsPrefixSize + 0, kLiteralsPrefixSize
+ 1, ...` without a repetition and the count is its length.
`ParsePrimaryExpression` reads an array literal at `[`, an object literal at
`{` and a regular-expression literal at `/` and `/=`.  `ParseArrayLiteral`
takes the index of a literal after the closing bracket, that is after the
literals among its elements; `ParseObjectLiteral` takes it after the closing
brace, that is after the literals among the values of its properties;
`ParseRegExpLiteral` takes it when the pattern has been scanned.
`ParseFunctionLiteral` gives the accumulator of the caller back as it was, and
the body of a function runs with an accumulator whose history is empty and
whose count is 0; the count that `ParseFunctionLiteral_eager` returns for the
function literal is the count of that accumulator after the body, and so is
the count that `DoParseProgram` stores for a script.  In
`[{a: /x/}]; f = function(){ return {b: [/y/]}; }; /z/;` the literals of the
script have the indices 1 (`/x/`), 2 (the object), 3 (the array) and 4 (`/z/`)
with the count 4, those of the function 1 (`/y/`), 2 (the array) and 3 (the
object) with the count 3.  In `[[1],[2]]; f = function(){ [3,[4]]; }; [5];`
the literals of the script have the indices 1, 2, 3 (`[[1],[2]]`) and 4 with
the count 4, those of the function 1 and 2 with the count 2; in `[1]++; [2];`
the first literal takes the index 1 although the tree holds a throw in its
place. -/
theorem NextMaterializedLiteralIndex_numbers_in_order (fuel : Nat) (p : Parser) :
    ((Parser.NextMaterializedLiteralIndex p).1
        = wrapInt32 (p.literals.2 + kLiteralsPrefixSize)
      ∧ (Parser.NextMaterializedLiteralIndex p).2.literals
        = (p.literals.1 ++ [(Parser.NextMaterializedLiteralIndex p).1],
            wrapInt32 (p.literals.2 + 1)))
    ∧ ((∀ labels, Parser.Numbers p ((productions fuel).ParseStatement labels p).2)
      ∧ (∀ accept_IN, Parser.Numbers p ((productions fuel).ParseExpression accept_IN p).2)
      ∧ (∀ body end_token,
          Parser.Numbers p (ParseSourceElements (productions fuel) body end_token p).2)
      ∧ Parser.Numbers p (ParseArrayLiteral (productions fuel) p).2
      ∧ Parser.Numbers p (ParseObjectLiteral (productions fuel) p).2
      ∧ (∀ seen_equal, Parser.Numbers p (ParseRegExpLiteral seen_equal p).2))
    ∧ (∀ l : List Int × Int, Numbered l → l.1.length < 2 ^ 31 - 1 →
        l.1 = (List.range l.1.length).map (fun i : Nat => kLiteralsPrefixSize + (i : Int))
          ∧ l.2 = (l.1.length : Int) ∧ l.1.Nodup)
    ∧ ((p.peek = Token.LBRACK →
          ParsePrimaryExpression (productions fuel) p = ParseArrayLiteral (productions fuel) p)
      ∧ (p.peek = Token.LBRACE →
          ParsePrimaryExpression (productions fuel) p = ParseObjectLiteral (productions fuel) p)
      ∧ (p.peek = Token.DIV →
          ParsePrimaryExpression (productions fuel) p = ParseRegExpLiteral false p)
      ∧ (p.peek = Token.ASSIGN_DIV →
          ParsePrimaryExpression (productions fuel) p = ParseRegExpLiteral true p))
    ∧ (∀ (e : Expression) (q : Parser), ParseArrayLiteral (productions fuel) p = (some e, q) →
        ∃ (values : ExpressionList) (q1 : Parser) (is_simple : Bool) (depth : Int),
          (do
            Expect Token.LBRACK
            let values ← ParseArrayLiteral_loop (productions fuel) ExpressionList.nil
            Expect Token.RBRACK
            pure values : Production ExpressionList) p = (some values, q1)
          ∧ e = Expression.ArrayLiteral values (Parser.NextMaterializedLiteralIndex q1).1
              is_simple depth
          ∧ q = (Parser.NextMaterializedLiteralIndex q1).2)
    ∧ (∀ (e : Expression) (q : Parser), ParseObjectLiteral (productions fuel) p = (some e, q) →
        ∃ (properties : ObjectPropertyList) (q1 : Parser) (is_simple fast_elements : Bool)
          (depth : Int),
          (do
            Expect Token.LBRACE
            let properties ← ParseObjectLiteral_loop (productions fuel)
              { strict_ := p.StrictMode } ObjectPropertyList.nil
            Expect Token.RBRACE
            pure properties : Production ObjectPropertyList) p = (some properties, q1)
          ∧ e = Expression.ObjectLiteral properties (Parser.NextMaterializedLiteralIndex q1).1
              is_simple fast_elements depth
          ∧ q = (Parser.NextMaterializedLiteralIndex q1).2)
    ∧ (∀ (seen_equal : Bool) (e : Expression) (q : Parser),
        ParseRegExpLiteral seen_equal p = (some e, q) →
          p.scanner_.ScanRegExpPattern seen_equal = true
          ∧ e = Expression.RegExpLiteral p.scanner_.regexp_pattern p.scanner_.regexp_flags
              (Parser.NextMaterializedLiteralIndex p).1
          ∧ q = (Parser.Next (Parser.NextMaterializedLiteralIndex p).2).2)
    ∧ (∀ var_name name_is_reserved function_token_position type,
        (ParseFunctionLiteral (productions fuel) var_name name_is_reserved
          function_token_position type p).2.temp_scope_ = p.temp_scope_)
    ∧ (∀ body : Production Expression, ∃ fresh : Parser, fresh.literals = ([], 0)
        ∧ withTemporaryScope body p
          = ((body fresh).1, { (body fresh).2 with temp_scope_ := p.temp_scope_ }))
    ∧ (∀ (body : StatementList) (r : StatementList × Int × Int × Int) (q : Parser),
        ParseFunctionLiteral_eager (productions fuel) body p = (some r, q) →
          r.2.1 = q.literals.2 ∧ p.literals.1 <+: q.literals.1
            ∧ (p.literals = ([], 0) → Numbered q.literals))
    ∧ (∀ (source_length : Int) (in_global_context strict_mode : Bool) (tree : Expression)
        (q : Parser),
        DoParseProgram fuel p source_length in_global_context strict_mode = (some tree, q) →
          ∃ (start finish : Parser) (body : StatementList),
            start.literals = ([], 0)
            ∧ ParseSourceElements (productions fuel) StatementList.nil Token.EOS start
              = (some body, finish)
            ∧ tree.functionLiterals = some (body.literalIndices, finish.literals.2)
            ∧ Numbered finish.literals)
    ∧ ((ParseProgram 40 source_three_kinds 54 true false).1.bind
          Expression.functionLiterals = some ([1, 2, 3, 4], 4)
      ∧ (ParseProgram 40 source_three_kinds 54 true false).1.map
          Expression.assignedFunctions = some [([1, 2, 3], 3)]
      ∧ (ParseSourceElements (productions 40) StatementList.nil Token.EOS
          { scanner_ := Scanner.Initialize source_three_kinds }).2.literals
          = ([1, 2, 3, 4], 4))
    ∧ ((ParseProgram 40 source_nested_literals 43 true false).1.bind
          Expression.functionLiterals = some ([1, 2, 3, 4], 4)
      ∧ (ParseProgram 40 source_nested_literals 43 true false).1.map
          Expression.assignedFunctions = some [([1, 2], 2)]
      ∧ (ParseSourceElements (productions 40) StatementList.nil Token.EOS
          { scanner_ := Scanner.Initialize source_nested_literals }).2.literals
          = ([1, 2, 3, 4], 4))
    ∧ ((ParseProgram 40 source_dropped_literal 11 true false).1.bind
          Expression.functionLiterals = some ([2], 2)
      ∧ (ParseSourceElements (productions 40) StatementList.nil Token.EOS
          { scanner_ := Scanner.Initialize source_dropped_literal }).2.literals
          = ([1, 2], 2)) := by
  have hn := productions_number fuel
  refine ⟨⟨rfl, rfl⟩, ⟨fun labels => (hn.ParseStatement labels).numbers p,
    fun accept_IN => (hn.ParseExpression accept_IN).numbers p,
    fun body end_token => (ParseSourceElements_numbers _ hn body end_token).numbers p,
    (ParseArrayLiteral_numbers _ hn).numbers p,
    (ParseObjectLiteral_numbers _ hn).numbers p,
    fun seen_equal => (ParseRegExpLiteral_numbers seen_equal).numbers p⟩,
    fun l hl hlen => Numbered.exact l hl hlen,
    ParsePrimaryExpression_literal _ p,
    fun e q h => ParseArrayLiteral_index _ p q e h,
    fun e q h => ParseObjectLiteral_index _ p q e h,
    fun seen_equal e q h => ParseRegExpLiteral_index seen_equal p q e h,
    fun a b c d => ParseFunctionLiteral_temp_scope _ a b c d p,
    fun body => withTemporaryScope_fresh body p, ?_, ?_, ⟨by decide!, by decide!, rfl⟩,
    ⟨rfl, rfl, rfl⟩, ⟨rfl, rfl⟩⟩
  · intro body r q h
    have h1 := (ParseFunctionLiteral_eager_numbers _ hn body).numbers p
    rw [h] at h1
    refine ⟨ParseFunctionLiteral_eager_count _ body p q r h, h1.1, fun hp => h1.2 ?_⟩
    rw [hp]
    exact Numbered.fresh
  · intro source_length in_global_context strict_mode tree q h
    obtain ⟨start, finish, body, hs, hb, ht⟩ :=
      DoParseProgram_count fuel p q source_length in_global_context strict_mode tree h
    have h1 := (ParseSourceElements_numbers _ hn StatementList.nil Token.EOS).numbers start
    rw [hb] at h1
    refine ⟨start, finish, body, hs, hb, ht, h1.2 ?_⟩
    rw [hs]
    exact Numbered.fresh

/-! ## Theorems: the lazy and the eager path of `ParseFunctionLiteral` -/

theorem ParseFunctionLiteral_fst_eq (self : Productions) (var_name : Option String)
    (name_is_reserved : Bool) (function_token_position : Int) (type : FunctionLiteralType)
    (p : Parser) :
    (ParseFunctionLiteral self var_name name_is_reserved function_token_position type p).1
      = ((ParseFunctionLiteral_header self (functionNames var_name type).1
            (functionNames var_name type).2).seq
          (ParseFunctionLiteral_finish self (functionNames var_name type).1
            (functionNames var_name type).2
            (Scope.New p.top_scope_ ScopeType.FUNCTION_SCOPE p.inside_with p.next_id).id
            name_is_reserved function_token_position) p.enterFunction).1 := by
  unfold ParseFunctionLiteral ParseFunctionLiteral_header ParseFunctionLiteral_finish
    functionNames
  simp only [Production.bind_eq, Production.pure_eq, Production.seq_assoc, Production.ret_seq,
    Production.ite_seq]
  rfl

theorem ParseFunctionLiteral_finish_paths (self : Productions) (name function_name : String)
    (scope_id : Nat) (name_is_reserved : Bool) (function_token_position : Int)
    (hd : Int × (Int × Location × Location × Location) × StatementList)
    (s q : Parser) (f : Expression)
    (h : ParseFunctionLiteral_finish self name function_name scope_id name_is_reserved
      function_token_position hd s = (some f, q)) :
    (s.is_lazily_compiled = true
      ∧ ∃ data : ScriptDataImpl, s.pre_data_ = some data
          ∧ f.functionCounts = some
            ((data.GetFunctionEntry s.scanner_.location.beg_pos).1.literal_count,
             (data.GetFunctionEntry s.scanner_.location.beg_pos).1.property_count,
             (data.GetFunctionEntry s.scanner_.location.beg_pos).1.end_pos))
    ∨ ((s.is_lazily_compiled = false ∨ s.pre_data_ = none)
      ∧ ∃ (r : StatementList × Int × Int × Int) (s2 : Parser),
          ParseFunctionLiteral_eager self hd.2.2 { s with parenthesized_function_ := false }
            = (some r, s2)
          ∧ f.functionCounts = some (r.2.1, r.2.2.1, r.2.2.2)) := by
  unfold ParseFunctionLiteral_finish at h
  obtain ⟨b, s1, e1, h⟩ := Production.seq_eq_some h
  cases e1
  obtain ⟨u, s2, e2, h⟩ := Production.seq_eq_some h
  cases e2
  obtain ⟨fbp, s3, e3, h⟩ := Production.seq_eq_some h
  cases e3
  obtain ⟨pd, s4, e4, h⟩ := Production.seq_eq_some h
  cases e4
  cases hb : s.is_lazily_compiled with
  | false =>
    right
    simp only [hb] at h
    obtain ⟨r, s5, e5, h⟩ := Production.seq_eq_some h
    obtain ⟨u2, s6, e6, h⟩ := Production.seq_eq_some h
    obtain ⟨ts, s7, e7, h⟩ := Production.seq_eq_some h
    cases e7
    cases h
    exact ⟨Or.inl rfl, r, s5, e5, rfl⟩
  | true =>
    cases hp : s.pre_data_ with
    | none =>
      right
      simp only [hb, hp] at h
      obtain ⟨r, s5, e5, h⟩ := Production.seq_eq_some h
      obtain ⟨u2, s6, e6, h⟩ := Production.seq_eq_some h
      obtain ⟨ts, s7, e7, h⟩ := Production.seq_eq_some h
      cases e7
      cases h
      exact ⟨Or.inr rfl, r, s5, e5, rfl⟩
    | some data =>
      left
      simp only [hb, hp] at h
      obtain ⟨counts, s5, e5, h⟩ := Production.seq_eq_some h
      obtain ⟨r, s5b, e5b, h⟩ := Production.seq_eq_some h
      cases e5b
      obtain ⟨u2, s6, e6, h⟩ := Production.seq_eq_some h
      obtain ⟨ts, s7, e7, h⟩ := Production.seq_eq_some h
      cases e7
      cases h
      have hc := ParseFunctionLiteral_lazy_result name _ data _ _ counts e5
      refine ⟨rfl, data, rfl, ?_⟩
      rw [hc]
      rfl

theorem ParseFunctionLiteral_paths (self : Productions) (var_name : Option String)
    (name_is_reserved : Bool) (function_token_position : Int) (type : FunctionLiteralType)
    (p q : Parser) (f : Expression)
    (h : ParseFunctionLiteral self var_name name_is_reserved function_token_position type p
      = (some f, q)) :
    ∃ hd : Int × (Int × Location × Location × Location) × StatementList,
      ParseFunctionLiteral_header self (functionNames var_name type).1
          (functionNames var_name type).2 p.enterFunction
        = (some hd, Parser.atFunctionBody self var_name type p)
      ∧ (((Parser.atFunctionBody self var_name type p).is_lazily_compiled = true
          ∧ ∃ data : ScriptDataImpl,
              (Parser.atFunctionBody self var_name type p).pre_data_ = some data
              ∧ f.functionCounts = some
                ((data.GetFunctionEntry
                    (Parser.atFunctionBody self var_name type
                      p).scanner_.location.beg_pos).1.literal_count,
                 (data.GetFunctionEntry
                    (Parser.atFunctionBody self var_name type
                      p).scanner_.location.beg_pos).1.property_count,
                 (data.GetFunctionEntry
                    (Parser.atFunctionBody self var_name type
                      p).scanner_.location.beg_pos).1.end_pos))
        ∨ (((Parser.atFunctionBody self var_name type p).is_lazily_compiled = false
              ∨ (Parser.atFunctionBody self var_name type p).pre_data_ = none)
          ∧ ∃ (r : StatementList × Int × Int × Int) (s : Parser),
              ParseFunctionLiteral_eager self hd.2.2
                  { Parser.atFunctionBody self var_name type p with
                    parenthesized_function_ := false } = (some r, s)
              ∧ f.functionCounts = some (r.2.1, r.2.2.1, r.2.2.2))) := by
  have h1 : (ParseFunctionLiteral self var_name name_is_reserved function_token_position
      type p).1 = some f := congrArg Prod.fst h
  rw [ParseFunctionLiteral_fst_eq, Production.seq_apply] at h1
  unfold Parser.atFunctionBody
  cases hh : ParseFunctionLiteral_header self (functionNames var_name type).1
      (functionNames var_name type).2 p.enterFunction with
  | mk o s =>
    rw [hh] at h1
    cases o with
    | none => cases h1
    | some hd =>
      simp only at h1
      exact ⟨hd, rfl, ParseFunctionLiteral_finish_paths self _ _ _ _ _ hd s _ f
        (Prod.ext h1 rfl)⟩

/-- C8 (amended): `ParseFunctionLiteral` is run twice with the same
arguments, from `p_lazy` and from `p_eager`, and returns the function literals
`f_lazy` and `f_eager`.  Behind the opening brace of the body the first run
takes the lazy path (`is_lazily_compiled` holds and there are preparse data
`data`), the second run has no preparse data.  When the entry that the lazy
path reads from `data` for the position of the brace holds the literal count,
the property count and the end position of `f_eager`, then `f_lazy` has the
same literal count, property count and end position as `f_eager`.  The
numbers of `f_lazy` are those of the entry, and the numbers of `f_eager` are
those that `ParseFunctionLiteral_eager` computes from the body. -/
theorem ParseFunctionLiteral_lazy_matches_eager (self : Productions)
    (var_name : Option String) (name_is_reserved : Bool) (function_token_position : Int)
    (type : FunctionLiteralType) (p_lazy p_eager q_lazy q_eager : Parser)
    (f_lazy f_eager : Expression) (data : ScriptDataImpl)
    (hlazy : ParseFunctionLiteral self var_name name_is_reserved function_token_position type
      p_lazy = (some f_lazy, q_lazy))
    (heager : ParseFunctionLiteral self var_name name_is_reserved function_token_position type
      p_eager = (some f_eager, q_eager))
    (hskip : (Parser.atFunctionBody self var_name type p_lazy).is_lazily_compiled = true)
    (hdata : (Parser.atFunctionBody self var_name type p_lazy).pre_data_ = some data)
    (hnocache : (Parser.atFunctionBody self var_name type p_eager).pre_data_ = none)
    (hentry : ∀ literals properties end_position : Int,
      f_eager.functionCounts = some (literals, properties, end_position) →
        (data.GetFunctionEntry
          (Parser.atFunctionBody self var_name type p_lazy).scanner_.location.beg_pos).1.literal_count
          = literals
        ∧ (data.GetFunctionEntry
          (Parser.atFunctionBody self var_name type p_lazy).scanner_.location.beg_pos).1.property_count
          = properties
        ∧ (data.GetFunctionEntry
          (Parser.atFunctionBody self var_name type p_lazy).scanner_.location.beg_pos).1.end_pos
          = end_position) :
    f_lazy.functionCounts = f_eager.functionCounts
    ∧ f_lazy.functionCounts = some
        ((data.GetFunctionEntry
            (Parser.atFunctionBody self var_name type
              p_lazy).scanner_.location.beg_pos).1.literal_count,
         (data.GetFunctionEntry
            (Parser.atFunctionBody self var_name type
              p_lazy).scanner_.location.beg_pos).1.property_count,
         (data.GetFunctionEntry
            (Parser.atFunctionBody self var_name type
              p_lazy).scanner_.location.beg_pos).1.end_pos)
    ∧ ∃ (hd : Int × (Int × Location × Location × Location) × StatementList)
        (r : StatementList × Int × Int × Int) (s : Parser),
        ParseFunctionLiteral_header self (functionNames var_name type).1
            (functionNames var_name type).2 p_eager.enterFunction
          = (some hd, Parser.atFunctionBody self var_name type p_eager)
        ∧ ParseFunctionLiteral_eager self hd.2.2
            { Parser.atFunctionBody self var_name type p_eager with
              parenthesized_function_ := false } = (some r, s)
        ∧ f_eager.functionCounts = some (r.2.1, r.2.2.1, r.2.2.2) := by
  obtain ⟨hd1, -, hl⟩ := ParseFunctionLiteral_paths self var_name name_is_reserved
    function_token_position type p_lazy q_lazy f_lazy hlazy
  obtain ⟨hd2, hh2, he⟩ := ParseFunctionLiteral_paths self var_name name_is_reserved
    function_token_position type p_eager q_eager f_eager heager
  have hlazy_counts : f_lazy.functionCounts = some
      ((data.GetFunctionEntry
          (Parser.atFunctionBody self var_name type
            p_lazy).scanner_.location.beg_pos).1.literal_count,
       (data.GetFunctionEntry
          (Parser.atFunctionBody self var_name type
            p_lazy).scanner_.location.beg_pos).1.property_count,
       (data.GetFunctionEntry
          (Parser.atFunctionBody self var_name type
            p_lazy).scanner_.location.beg_pos).1.end_pos) := by
    rcases hl with ⟨-, data2, hd2, hc⟩ | ⟨hno, -⟩
    · rw [hdata] at hd2
      cases hd2
      exact hc
    · rcases hno with hno | hno
      · rw [hskip] at hno
        cases hno
      · rw [hdata] at hno
        cases hno
  have heager_counts : ∃ (r : StatementList × Int × Int × Int) (s : Parser),
      ParseFunctionLiteral_eager self hd2.2.2
          { Parser.atFunctionBody self var_name type p_eager with
            parenthesized_function_ := false } = (some r, s)
      ∧ f_eager.functionCounts = some (r.2.1, r.2.2.1, r.2.2.2) := by
    rcases he with ⟨-, data2, hd3, -⟩ | ⟨-, r, s, hr, hc⟩
    · rw [hnocache] at hd3
      cases hd3
    · exact ⟨r, s, hr, hc⟩
  obtain ⟨r, s, hr, hc⟩ := heager_counts
  obtain ⟨h1, h2, h3⟩ := hentry _ _ _ hc
  refine ⟨?_, hlazy_counts, hd2, r, s, hh2, hr, hc⟩
  rw [hlazy_counts, hc, h1, h2, h3]

/-- C8, instance: the first function of `function f()\x7b \x7d function g()\x7b \x7d`
with a cache entry that ends at 15, and without preparse data. -/
theorem ParseFunctionLiteral_lazy_matches_eager_witness :
    ((ParseFunctionLiteral (productions 40) (some "f") false 0 FunctionLiteralType.DECLARATION
        (functionLiteralParser (some (preparseData 15)))).1.bind Expression.functionCounts
      = (ParseFunctionLiteral (productions 40) (some "f") false 0
          FunctionLiteralType.DECLARATION
          (functionLiteralParser none)).1.bind Expression.functionCounts)
    ∧ (ParseFunctionLiteral (productions 40) (some "f") false 0
        FunctionLiteralType.DECLARATION
        (functionLiteralParser (some (preparseData 15)))).1.bind Expression.functionCounts
      = some (0, 0, 15) :=
  ⟨(ParseFunctionLiteral_lazy_matches_eager (productions 40) (some "f") false 0
    FunctionLiteralType.DECLARATION
    (functionLiteralParser (some (preparseData 15))) (functionLiteralParser none)
    (ParseFunctionLiteral (productions 40) (some "f") false 0 FunctionLiteralType.DECLARATION
      (functionLiteralParser (some (preparseData 15)))).2
    (ParseFunctionLiteral (productions 40) (some "f") false 0 FunctionLiteralType.DECLARATION
      (functionLiteralParser none)).2
    (Expression.FunctionLiteral "f" 3 StatementList.nil 0 0 0 10 15 false false false 0)
    (Expression.FunctionLiteral "f" 3 StatementList.nil 0 0 0 10 15 false false false 0)
    (preparseData 15).Initialize rfl rfl rfl rfl rfl
    (by
      intro a b c h
      cases h
      exact ⟨by decide, by decide, by decide⟩)).1, rfl⟩

